import Mathlib

/-!
# rose-lang: lexer / parser / sema / environment

A shallow embedding of the C sources of the interpreter (`src/env.c`,
`src/sema.c`, `src/parser.c` and the headers they use) together with the
properties stated about them.

Conventions of the embedding

* C strings are Lean `String`s (`strcmp(a, b) == 0` is `a = b`).
* Heap allocation is assumed to succeed; `free` has no counterpart, but a
  `node_free` on a node whose members were never written is a fault.
* A nullable `node_t *` is an `Option Node`.
* A function that mutates the object it is handed returns the new object.
-/

namespace Rose

/-! ## Environment (`include/env.h`, `src/env.c`) -/

/-- `ENV_INITIAL_CAPACITY` of `env.h`. -/
def ENV_INITIAL_CAPACITY : Nat := 8

/-- `variable_t`: a name with the value bound to it. -/
structure variable_t (V : Type) where
  name : String
  value : V
deriving Repr, DecidableEq

/-- `env_t`: one scope with the link to its parent scope: `root` is a scope
whose `parent` is `NULL`, `child` one whose `parent` points to a scope. The
field `size` of the C struct is the length of `vars`. -/
inductive env_t (V : Type) where
  | root (vars : List (variable_t V)) (capacity : Nat) : env_t V
  | child (parent : env_t V) (vars : List (variable_t V)) (capacity : Nat) : env_t V
deriving Repr

/-- Field `parent` of `env_t`. -/
def env_t.parent {V : Type} : env_t V → Option (env_t V)
  | .root _ _ => none
  | .child p _ _ => some p

/-- Field `vars` of `env_t`, restricted to the `size` slots in use. -/
def env_t.vars {V : Type} : env_t V → List (variable_t V)
  | .root vs _ => vs
  | .child _ vs _ => vs

/-- Field `capacity` of `env_t`. -/
def env_t.capacity {V : Type} : env_t V → Nat
  | .root _ c => c
  | .child _ _ c => c

/-- The scope with the three fields given. -/
def env_t.mk {V : Type} (parent : Option (env_t V)) (vars : List (variable_t V))
    (capacity : Nat) : env_t V :=
  match parent with
  | none => .root vars capacity
  | some p => .child p vars capacity

/-- Field `size` of `env_t`. -/
def env_t.size {V : Type} (e : env_t V) : Nat := e.vars.length

/-- `env_create`: a scope without bindings, linked to `parent`. -/
def env_create {V : Type} (parent : Option (env_t V)) : env_t V :=
  .mk parent [] ENV_INITIAL_CAPACITY

/-- The inner `for` loop of `env_get` and of `env_set`: the index of the
first slot of `vars` whose name compares equal to `name`. -/
def scope_find {V : Type} : List (variable_t V) → String → Option Nat
  | [], _ => none
  | v :: vs, name =>
    if v.name = name then some 0 else (scope_find vs name).map (· + 1)

/-- What the pointer returned by `env_get` designates: slot `index` of the
scope met after following `depth` parent links. -/
structure var_ref where
  depth : Nat
  index : Nat
deriving Repr, DecidableEq

/-- `env_get`: walks from `env` through the parents and returns the address
of the first slot found whose name is `name`, `none` for `NULL`. -/
def env_get {V : Type} : env_t V → String → Option var_ref
  | .root vars _, name =>
    match scope_find vars name with
    | some i => some ⟨0, i⟩
    | none => none
  | .child parent vars _, name =>
    match scope_find vars name with
    | some i => some ⟨0, i⟩
    | none => (env_get parent name).map fun r => ⟨r.depth + 1, r.index⟩

/-- The scope reached from `env` after `depth` parent links. -/
def env_ancestor {V : Type} : env_t V → Nat → Option (env_t V)
  | e, 0 => some e
  | .root _ _, _ + 1 => none
  | .child p _ _, d + 1 => env_ancestor p d

/-- Reading through a pointer returned by `env_get`. -/
def env_deref {V : Type} (env : env_t V) (r : var_ref) : Option (variable_t V) :=
  (env_ancestor env r.depth).bind fun e => e.vars.get? r.index

/-- The value read through the pointer `env_get` returns, as
`env_get(env, name)->value` in `eval.c`. -/
def env_get_value {V : Type} (env : env_t V) (name : String) : Option V :=
  ((env_get env name).bind (env_deref env)).map (·.value)

/-- The first loop of `env_set`: overwrite slot `i`'s value. -/
def scope_update {V : Type} : List (variable_t V) → Nat → V → List (variable_t V)
  | [], _, _ => []
  | v :: vs, 0, val => { v with value := val } :: vs
  | v :: vs, i + 1, val => v :: scope_update vs i val

/-- `env_set`: updates the slot of `env` itself that carries `name`, or
appends a new slot (doubling `capacity` when the array is full). -/
def env_set {V : Type} (env : env_t V) (name : String) (val : V) : env_t V :=
  match scope_find env.vars name with
  | some i => .mk env.parent (scope_update env.vars i val) env.capacity
  | none =>
    let capacity := if env.size ≥ env.capacity then env.capacity * 2 else env.capacity
    .mk env.parent (env.vars ++ [⟨name, val⟩]) capacity

/-- `env_enter_scope`: a new scope whose parent is `current`. -/
def env_enter_scope {V : Type} (current : env_t V) : env_t V :=
  env_create (some current)

/-- `env_leave_scope`: releases `current` and returns its parent. -/
def env_leave_scope {V : Type} (current : env_t V) : Option (env_t V) :=
  current.parent

/-- A scope chain built by the interface: `env_create` followed by any
number of `env_set`. -/
inductive Built {V : Type} : env_t V → Prop where
  | create (parent : Option (env_t V)) : Built (env_create parent)
  | set {e : env_t V} (name : String) (val : V) : Built e → Built (env_set e name val)

/-- Scope number `d` of the chain binds `name`. -/
def binds_at {V : Type} (env : env_t V) (d : Nat) (name : String) : Prop :=
  ∃ e, env_ancestor env d = some e ∧ ∃ v ∈ e.vars, v.name = name


/-! ## Locations and tokens (`include/location.h`, `include/token.h`) -/

/-- `location_t`: file name, 1-based line and column. -/
structure location_t where
  filename : String
  line : Nat
  column : Nat
deriving Repr, DecidableEq, Inhabited

/-- `token_type_t`, in the order of the C enumeration. -/
inductive token_type_t where
  | TOKEN_IF | TOKEN_ELSE | TOKEN_WHILE | TOKEN_DO | TOKEN_FOR | TOKEN_FUNCTION
  | TOKEN_SWITCH | TOKEN_CASE | TOKEN_DEFAULT | TOKEN_LET | TOKEN_CONST | TOKEN_VAR
  | TOKEN_NULL | TOKEN_UNDEFINED | TOKEN_RETURN | TOKEN_BREAK | TOKEN_CONTINUE
  | TOKEN_IMPORT | TOKEN_EXPORT | TOKEN_TRY | TOKEN_CATCH | TOKEN_FINALLY | TOKEN_THROW
  | TOKEN_TYPEOF | TOKEN_ASYNC | TOKEN_AWAIT | TOKEN_FROM | TOKEN_DELETE | TOKEN_THIS
  | TOKEN_VOID | TOKEN_NEW | TOKEN_DEBUGGER
  | TOKEN_IDENTIFIER | TOKEN_BOOL_LITERAL | TOKEN_STRING_LITERAL | TOKEN_NUMBER_LITERAL
  | TOKEN_PLUS | TOKEN_MINUS | TOKEN_STAR | TOKEN_SLASH | TOKEN_PERCENT | TOKEN_AMPERSAND
  | TOKEN_PIPE | TOKEN_CARET | TOKEN_TILDE | TOKEN_LEFT_SHIFT | TOKEN_RIGHT_SHIFT
  | TOKEN_STAR_STAR | TOKEN_PLUS_PLUS | TOKEN_MINUS_MINUS
  | TOKEN_EQUAL | TOKEN_PLUS_EQUAL | TOKEN_MINUS_EQUAL | TOKEN_STAR_EQUAL
  | TOKEN_SLASH_EQUAL | TOKEN_PERCENT_EQUAL | TOKEN_STAR_STAR_EQUAL
  | TOKEN_AMPERSAND_EQUAL | TOKEN_PIPE_EQUAL | TOKEN_CARET_EQUAL
  | TOKEN_LEFT_SHIFT_EQUAL | TOKEN_RIGHT_SHIFT_EQUAL | TOKEN_LOGICAL_AND_EQUAL
  | TOKEN_LOGICAL_OR_EQUAL
  | TOKEN_EQUAL_EQUAL | TOKEN_BANG_EQUAL | TOKEN_LESS | TOKEN_GREATER | TOKEN_LESS_EQUAL
  | TOKEN_GREATER_EQUAL
  | TOKEN_LOGICAL_AND | TOKEN_LOGICAL_OR | TOKEN_BANG
  | TOKEN_LEFT_PAREN | TOKEN_RIGHT_PAREN | TOKEN_LEFT_BRACKET | TOKEN_RIGHT_BRACKET
  | TOKEN_LEFT_BRACE | TOKEN_RIGHT_BRACE
  | TOKEN_DOT | TOKEN_COMMA | TOKEN_SEMICOLON | TOKEN_COLON | TOKEN_QUESTION | TOKEN_ARROW
  | TOKEN_ELLIPSIS
  | TOKEN_EOF | TOKEN_UNKNOWN
deriving Repr, DecidableEq, Inhabited

export token_type_t (TOKEN_IF TOKEN_ELSE TOKEN_WHILE TOKEN_DO TOKEN_FOR TOKEN_FUNCTION
  TOKEN_SWITCH TOKEN_CASE TOKEN_DEFAULT TOKEN_LET TOKEN_CONST TOKEN_VAR
  TOKEN_NULL TOKEN_UNDEFINED TOKEN_RETURN TOKEN_BREAK TOKEN_CONTINUE
  TOKEN_IMPORT TOKEN_EXPORT TOKEN_TRY TOKEN_CATCH TOKEN_FINALLY TOKEN_THROW
  TOKEN_TYPEOF TOKEN_ASYNC TOKEN_AWAIT TOKEN_FROM TOKEN_DELETE TOKEN_THIS
  TOKEN_VOID TOKEN_NEW TOKEN_DEBUGGER
  TOKEN_IDENTIFIER TOKEN_BOOL_LITERAL TOKEN_STRING_LITERAL TOKEN_NUMBER_LITERAL
  TOKEN_PLUS TOKEN_MINUS TOKEN_STAR TOKEN_SLASH TOKEN_PERCENT TOKEN_AMPERSAND
  TOKEN_PIPE TOKEN_CARET TOKEN_TILDE TOKEN_LEFT_SHIFT TOKEN_RIGHT_SHIFT
  TOKEN_STAR_STAR TOKEN_PLUS_PLUS TOKEN_MINUS_MINUS
  TOKEN_EQUAL TOKEN_PLUS_EQUAL TOKEN_MINUS_EQUAL TOKEN_STAR_EQUAL
  TOKEN_SLASH_EQUAL TOKEN_PERCENT_EQUAL TOKEN_STAR_STAR_EQUAL
  TOKEN_AMPERSAND_EQUAL TOKEN_PIPE_EQUAL TOKEN_CARET_EQUAL
  TOKEN_LEFT_SHIFT_EQUAL TOKEN_RIGHT_SHIFT_EQUAL TOKEN_LOGICAL_AND_EQUAL
  TOKEN_LOGICAL_OR_EQUAL
  TOKEN_EQUAL_EQUAL TOKEN_BANG_EQUAL TOKEN_LESS TOKEN_GREATER TOKEN_LESS_EQUAL
  TOKEN_GREATER_EQUAL
  TOKEN_LOGICAL_AND TOKEN_LOGICAL_OR TOKEN_BANG
  TOKEN_LEFT_PAREN TOKEN_RIGHT_PAREN TOKEN_LEFT_BRACKET TOKEN_RIGHT_BRACKET
  TOKEN_LEFT_BRACE TOKEN_RIGHT_BRACE
  TOKEN_DOT TOKEN_COMMA TOKEN_SEMICOLON TOKEN_COLON TOKEN_QUESTION TOKEN_ARROW
  TOKEN_ELLIPSIS
  TOKEN_EOF TOKEN_UNKNOWN)

/-- `token_t`: the text of the token, its length field, its type and the
location of its first character. -/
structure token_t where
  value : String
  length : Nat
  type : token_type_t
  loc : location_t
deriving Repr, DecidableEq, Inhabited

/-! ## The syntax tree (`include/node.h`) -/

/-- What `node->number` holds. `number_t` is declared in `types.h`; the
parser assigns it `strtold(text, &endptr)`, `INFINITY` or `NAN`, so a number is
kept as the text handed to `strtold` or as one of the two special values. -/
inductive number_t where
  | strtold (text : String)
  | infinity
  | nan
deriving Repr, DecidableEq, Inhabited

mutual

/-- `node_t`: one constructor for each member of the union, named after the
member. A `loc` field is present on the nodes whose `loc` the parser assigns;
on the other nodes `loc` is never written by the parser and is left out. -/
inductive Node where
  /-- `NODE_NUMBER` -/
  | number (number : number_t)
  /-- `NODE_STRING` -/
  | string (string : String)
  /-- `NODE_BOOL` -/
  | boolean (boolean : Bool)
  /-- `NODE_IDENTIFIER` -/
  | identifier (identifier : String)
  /-- `NODE_ARRAY` -/
  | array (elements : List Node)
  /-- `NODE_OBJECT`: `keys[i]` is `NULL` for a spread entry. -/
  | object (keys : List (Option String)) (values : List Node)
  /-- `NODE_SPREAD` -/
  | spread (argument : Node)
  /-- `NODE_UNDEFINED` -/
  | undefined
  /-- `NODE_NULL` -/
  | null
  /-- `NODE_PROGRAM` -/
  | program (statements : List Node)
  /-- `NODE_BLOCK` -/
  | block (statements : List Node)
  /-- `NODE_BINARY` -/
  | binary (op : token_t) (left right : Node)
  /-- `NODE_UNARY` -/
  | unary (loc : location_t) (op : token_t) (right : Node)
  /-- `NODE_ASSIGNMENT` -/
  | assignment (loc : location_t) (op : token_t) (target value : Node)
  /-- `NODE_TERNARY` -/
  | ternary (condition true_expr false_expr : Node)
  /-- `NODE_IF` -/
  | if_stmt (condition then_branch : Node) (else_branch : Option Node)
  /-- `NODE_WHILE` -/
  | while_stmt (condition body : Node)
  /-- `NODE_DO_WHILE` -/
  | do_while_stmt (body condition : Node)
  /-- `NODE_FOR` -/
  | for_stmt (body : Node) (init condition increment : Option Node)
  /-- `NODE_CALL` -/
  | call (callee : Node) (args : List Node)
  /-- `NODE_INDEX` -/
  | index (array index : Node)
  /-- `NODE_MEMBER` -/
  | member (object : Node) (property : Option Node)
  /-- `NODE_POSTFIX` -/
  | postfix_op (op : token_t) (left : Node)
  /-- `NODE_FUNCTION` -/
  | function (is_async : Bool) (name : Option String) (params : List Param) (body : Node)
  /-- `NODE_DECLARATION` -/
  | declaration (kind : token_t) (names : List Node) (values : List (Option Node))
  /-- `NODE_SWITCH` -/
  | switch_stmt (expr : Node) (cases : List SwitchCase)
  /-- `NODE_LABEL` -/
  | label (name : String) (statement : Node)
  /-- `NODE_AWAIT` -/
  | await_expr (loc : location_t) (argument : Node)
  /-- `NODE_NEW` -/
  | new_expr (argument : Node)
  /-- `NODE_THIS` -/
  | this (loc : location_t)
  /-- `NODE_DEBUGGER` -/
  | debugger
  /-- `NODE_BREAK` -/
  | break_stmt (loc : location_t) (label : Option String)
  /-- `NODE_CONTINUE` -/
  | continue_stmt (loc : location_t) (label : Option String)
  /-- `NODE_THROW` -/
  | throw_stmt (value : Node)
  /-- `NODE_TRY` -/
  | try_stmt (try_block : Node) (catch_param : Option String)
      (catch_block finally_block : Option Node)
  /-- `NODE_RETURN` -/
  | return_stmt (value : Option Node)
  /-- `NODE_IMPORT` -/
  | import_stmt (module : String) (default_name : Option String) (imported : List String)
  /-- `NODE_EXPORT` -/
  | export_stmt (is_default : Bool) (declaration : Option Node) (exported : List String)
  /-- `NODE_EMPTY` -/
  | empty (loc : location_t)

/-- One element of `function.params`. -/
inductive Param where
  | mk (name : String) (default_value : Option Node) (is_rest : Bool)

/-- One element of `switch_stmt.cases`. -/
inductive SwitchCase where
  | mk (labels : List Node) (body : Node) (is_default : Bool)

end

instance : Inhabited Node := ⟨Node.undefined⟩

/-! ## Semantic analysis (`include/sema.h`, `src/sema.c`) -/

/-- The three messages `sema.c` writes to `stderr`. -/
inductive sema_message where
  | await_outside_async
  | break_not_in_loop
  | continue_not_in_loop
deriving Repr, DecidableEq

/-- `sema_t`. `loop_depth` is a `size_t`, kept below `2 ^ 64`. The field
`diagnostics` is not part of the C struct: it records what `SEMA_ERROR` wrote
to `stderr`, oldest first. -/
structure sema_t where
  program : Option Node
  loop_depth : Nat
  in_async_function : Bool
  had_error : Bool
  diagnostics : List (sema_message × location_t)

/-- One more than the largest `size_t`. -/
@[irreducible] def SIZE_MODULUS : Nat := 2 ^ 64

/-- `SEMA_ERROR`: print, then set `had_error`. -/
def SEMA_ERROR (sema : sema_t) (msg : sema_message) (loc : location_t) : sema_t :=
  { sema with had_error := true, diagnostics := sema.diagnostics ++ [(msg, loc)] }

/-- `sema_init`. -/
def sema_init (program : Option Node) : sema_t :=
  { program := program, loop_depth := 0, in_async_function := false,
    had_error := false, diagnostics := [] }

/-- `sema->loop_depth++` on a `size_t`. -/
def loop_depth_inc (sema : sema_t) : sema_t :=
  { sema with loop_depth := (sema.loop_depth + 1) % SIZE_MODULUS }

/-- `sema->loop_depth--` on a `size_t`. -/
def loop_depth_dec (sema : sema_t) : sema_t :=
  { sema with loop_depth := (sema.loop_depth + SIZE_MODULUS - 1) % SIZE_MODULUS }

mutual

/-- `sema_visit` on a node that is not `NULL`, with the body of the
`sema_visit_*` function the `switch` selects written in each arm. The kinds
that have no `case` of their own (`NODE_SWITCH`, `NODE_LABEL`, `NODE_NEW`,
`NODE_DEBUGGER`, `NODE_IMPORT`, `NODE_EXPORT`) reach `default: break`. -/
def sema_visit_node (sema : sema_t) : Node → sema_t
  | .number _ | .string _ | .boolean _ | .undefined | .null | .this _ => sema
  -- sema_visit_identifier
  | .identifier _ => sema
  -- sema_visit_array
  | .array elements => sema_visit_list sema elements
  -- sema_visit_object
  | .object _ values => sema_visit_list sema values
  -- sema_visit_spread
  | .spread argument => sema_visit_node sema argument
  -- sema_visit_program
  | .program statements => sema_visit_list sema statements
  -- sema_visit_block
  | .block statements => sema_visit_list sema statements
  -- sema_visit_binary
  | .binary _ left right => sema_visit_node (sema_visit_node sema left) right
  -- sema_visit_unary
  | .unary _ _ right => sema_visit_node sema right
  -- sema_visit_assignment
  | .assignment _ _ target value => sema_visit_node (sema_visit_node sema target) value
  -- sema_visit_ternary
  | .ternary condition true_expr false_expr =>
    sema_visit_node (sema_visit_node (sema_visit_node sema condition) true_expr) false_expr
  -- sema_visit_if
  | .if_stmt condition then_branch else_branch =>
    sema_visit (sema_visit_node (sema_visit_node sema condition) then_branch) else_branch
  -- sema_visit_while
  | .while_stmt condition body =>
    let sema := loop_depth_inc sema
    let sema := sema_visit_node sema condition
    let sema := sema_visit_node sema body
    loop_depth_dec sema
  -- sema_visit_do_while
  | .do_while_stmt body condition =>
    let sema := loop_depth_inc sema
    let sema := sema_visit_node sema body
    let sema := sema_visit_node sema condition
    loop_depth_dec sema
  -- sema_visit_for
  | .for_stmt body init condition increment =>
    let sema := loop_depth_inc sema
    let sema := sema_visit sema init
    let sema := sema_visit sema condition
    let sema := sema_visit sema increment
    let sema := sema_visit_node sema body
    loop_depth_dec sema
  -- sema_visit_call
  | .call callee args => sema_visit_list (sema_visit_node sema callee) args
  -- sema_visit_index
  | .index array index => sema_visit_node (sema_visit_node sema array) index
  -- sema_visit_member
  | .member object _ => sema_visit_node sema object
  -- sema_visit_postfix
  | .postfix_op _ left => sema_visit_node sema left
  -- sema_visit_function
  | .function is_async _ _ body =>
    let prev_async := sema.in_async_function
    let sema := { sema with in_async_function := is_async }
    let sema := sema_visit_node sema body
    { sema with in_async_function := prev_async }
  -- sema_visit_declaration
  | .declaration _ _ values => sema_visit_values sema values
  -- sema_visit_break
  | .break_stmt loc _ =>
    if sema.loop_depth = 0 then SEMA_ERROR sema .break_not_in_loop loc else sema
  -- sema_visit_continue
  | .continue_stmt loc _ =>
    if sema.loop_depth = 0 then SEMA_ERROR sema .continue_not_in_loop loc else sema
  -- sema_visit_throw
  | .throw_stmt value => sema_visit_node sema value
  -- sema_visit_try
  | .try_stmt try_block _ catch_block finally_block =>
    sema_visit (sema_visit (sema_visit_node sema try_block) catch_block) finally_block
  -- sema_visit_return
  | .return_stmt value => sema_visit sema value
  -- sema_visit_await
  | .await_expr loc argument =>
    let sema :=
      if !sema.in_async_function then SEMA_ERROR sema .await_outside_async loc else sema
    sema_visit_node sema argument
  | .empty _ => sema
  -- default: break
  | .switch_stmt _ _ | .label _ _ | .new_expr _ | .debugger
  | .import_stmt _ _ _ | .export_stmt _ _ _ => sema

/-- `sema_visit`: `if (!node) return;`, then the `switch`. -/
def sema_visit (sema : sema_t) : Option Node → sema_t
  | none => sema
  | some node => sema_visit_node sema node

/-- The loop `for (i = 0; i < count; i++) sema_visit(sema, xs[i]);` over an
array of nodes. -/
def sema_visit_list (sema : sema_t) : List Node → sema_t
  | [] => sema
  | node :: rest => sema_visit_list (sema_visit_node sema node) rest

/-- The loop of `sema_visit_declaration` over `declaration.values`, whose
entries may be `NULL`. -/
def sema_visit_values (sema : sema_t) : List (Option Node) → sema_t
  | [] => sema
  | value :: rest => sema_visit_values (sema_visit sema value) rest

end

/-- `sema_analyze`. -/
def sema_analyze (sema : sema_t) : sema_t :=
  sema_visit sema sema.program

/-! ## Deciding the equality of syntax trees -/

/-- The fields of a `number` node. -/
def Node.as_number : (b : Node) → Option { p : number_t // b = .number p }
  | .number x0 => some ⟨x0, rfl⟩
  | _ => none

/-- The fields of a `string` node. -/
def Node.as_string : (b : Node) → Option { p : String // b = .string p }
  | .string x0 => some ⟨x0, rfl⟩
  | _ => none

/-- The fields of a `boolean` node. -/
def Node.as_boolean : (b : Node) → Option { p : Bool // b = .boolean p }
  | .boolean x0 => some ⟨x0, rfl⟩
  | _ => none

/-- The fields of a `identifier` node. -/
def Node.as_identifier : (b : Node) → Option { p : String // b = .identifier p }
  | .identifier x0 => some ⟨x0, rfl⟩
  | _ => none

/-- The fields of a `array` node. -/
def Node.as_array : (b : Node) → Option { p : List Node // b = .array p }
  | .array x0 => some ⟨x0, rfl⟩
  | _ => none

/-- The fields of a `object` node. -/
def Node.as_object : (b : Node) →
    Option { p : (List (Option String)) × (List Node) // b = .object p.1 p.2 }
  | .object x0 x1 => some ⟨(x0, x1), rfl⟩
  | _ => none

/-- The fields of a `spread` node. -/
def Node.as_spread : (b : Node) → Option { p : Node // b = .spread p }
  | .spread x0 => some ⟨x0, rfl⟩
  | _ => none

/-- The node is a `undefined` node. -/
def Node.as_undefined : (b : Node) → Option (PLift (b = .undefined))
  | .undefined => some ⟨rfl⟩
  | _ => none

/-- The node is a `null` node. -/
def Node.as_null : (b : Node) → Option (PLift (b = .null))
  | .null => some ⟨rfl⟩
  | _ => none

/-- The fields of a `program` node. -/
def Node.as_program : (b : Node) → Option { p : List Node // b = .program p }
  | .program x0 => some ⟨x0, rfl⟩
  | _ => none

/-- The fields of a `block` node. -/
def Node.as_block : (b : Node) → Option { p : List Node // b = .block p }
  | .block x0 => some ⟨x0, rfl⟩
  | _ => none

/-- The fields of a `binary` node. -/
def Node.as_binary : (b : Node) →
    Option { p : token_t × Node × Node // b = .binary p.1 p.2.1 p.2.2 }
  | .binary x0 x1 x2 => some ⟨(x0, x1, x2), rfl⟩
  | _ => none

/-- The fields of a `unary` node. -/
def Node.as_unary : (b : Node) →
    Option { p : location_t × token_t × Node // b = .unary p.1 p.2.1 p.2.2 }
  | .unary x0 x1 x2 => some ⟨(x0, x1, x2), rfl⟩
  | _ => none

/-- The fields of a `assignment` node. -/
def Node.as_assignment : (b : Node) →
    Option { p : location_t × token_t × Node × Node // b = .assignment p.1 p.2.1 p.2.2.1 p.2.2.2 }
  | .assignment x0 x1 x2 x3 => some ⟨(x0, x1, x2, x3), rfl⟩
  | _ => none

/-- The fields of a `ternary` node. -/
def Node.as_ternary : (b : Node) → Option { p : Node × Node × Node // b = .ternary p.1 p.2.1 p.2.2 }
  | .ternary x0 x1 x2 => some ⟨(x0, x1, x2), rfl⟩
  | _ => none

/-- The fields of a `if_stmt` node. -/
def Node.as_if_stmt : (b : Node) →
    Option { p : Node × Node × (Option Node) // b = .if_stmt p.1 p.2.1 p.2.2 }
  | .if_stmt x0 x1 x2 => some ⟨(x0, x1, x2), rfl⟩
  | _ => none

/-- The fields of a `while_stmt` node. -/
def Node.as_while_stmt : (b : Node) → Option { p : Node × Node // b = .while_stmt p.1 p.2 }
  | .while_stmt x0 x1 => some ⟨(x0, x1), rfl⟩
  | _ => none

/-- The fields of a `do_while_stmt` node. -/
def Node.as_do_while_stmt : (b : Node) → Option { p : Node × Node // b = .do_while_stmt p.1 p.2 }
  | .do_while_stmt x0 x1 => some ⟨(x0, x1), rfl⟩
  | _ => none

/-- The fields of a `for_stmt` node. -/
def Node.as_for_stmt : (b : Node) →
    Option { p : Node × (Option Node) × (Option Node) × (Option Node) // b = .for_stmt p.1 p.2.1 p.2.2.1 p.2.2.2 }
  | .for_stmt x0 x1 x2 x3 => some ⟨(x0, x1, x2, x3), rfl⟩
  | _ => none

/-- The fields of a `call` node. -/
def Node.as_call : (b : Node) → Option { p : Node × (List Node) // b = .call p.1 p.2 }
  | .call x0 x1 => some ⟨(x0, x1), rfl⟩
  | _ => none

/-- The fields of a `index` node. -/
def Node.as_index : (b : Node) → Option { p : Node × Node // b = .index p.1 p.2 }
  | .index x0 x1 => some ⟨(x0, x1), rfl⟩
  | _ => none

/-- The fields of a `member` node. -/
def Node.as_member : (b : Node) → Option { p : Node × (Option Node) // b = .member p.1 p.2 }
  | .member x0 x1 => some ⟨(x0, x1), rfl⟩
  | _ => none

/-- The fields of a `postfix_op` node. -/
def Node.as_postfix_op : (b : Node) → Option { p : token_t × Node // b = .postfix_op p.1 p.2 }
  | .postfix_op x0 x1 => some ⟨(x0, x1), rfl⟩
  | _ => none

/-- The fields of a `function` node. -/
def Node.as_function : (b : Node) →
    Option { p : Bool × (Option String) × (List Param) × Node // b = .function p.1 p.2.1 p.2.2.1 p.2.2.2 }
  | .function x0 x1 x2 x3 => some ⟨(x0, x1, x2, x3), rfl⟩
  | _ => none

/-- The fields of a `declaration` node. -/
def Node.as_declaration : (b : Node) →
    Option { p : token_t × (List Node) × (List (Option Node)) // b = .declaration p.1 p.2.1 p.2.2 }
  | .declaration x0 x1 x2 => some ⟨(x0, x1, x2), rfl⟩
  | _ => none

/-- The fields of a `switch_stmt` node. -/
def Node.as_switch_stmt : (b : Node) →
    Option { p : Node × (List SwitchCase) // b = .switch_stmt p.1 p.2 }
  | .switch_stmt x0 x1 => some ⟨(x0, x1), rfl⟩
  | _ => none

/-- The fields of a `label` node. -/
def Node.as_label : (b : Node) → Option { p : String × Node // b = .label p.1 p.2 }
  | .label x0 x1 => some ⟨(x0, x1), rfl⟩
  | _ => none

/-- The fields of a `await_expr` node. -/
def Node.as_await_expr : (b : Node) → Option { p : location_t × Node // b = .await_expr p.1 p.2 }
  | .await_expr x0 x1 => some ⟨(x0, x1), rfl⟩
  | _ => none

/-- The fields of a `new_expr` node. -/
def Node.as_new_expr : (b : Node) → Option { p : Node // b = .new_expr p }
  | .new_expr x0 => some ⟨x0, rfl⟩
  | _ => none

/-- The fields of a `this` node. -/
def Node.as_this : (b : Node) → Option { p : location_t // b = .this p }
  | .this x0 => some ⟨x0, rfl⟩
  | _ => none

/-- The node is a `debugger` node. -/
def Node.as_debugger : (b : Node) → Option (PLift (b = .debugger))
  | .debugger => some ⟨rfl⟩
  | _ => none

/-- The fields of a `break_stmt` node. -/
def Node.as_break_stmt : (b : Node) →
    Option { p : location_t × (Option String) // b = .break_stmt p.1 p.2 }
  | .break_stmt x0 x1 => some ⟨(x0, x1), rfl⟩
  | _ => none

/-- The fields of a `continue_stmt` node. -/
def Node.as_continue_stmt : (b : Node) →
    Option { p : location_t × (Option String) // b = .continue_stmt p.1 p.2 }
  | .continue_stmt x0 x1 => some ⟨(x0, x1), rfl⟩
  | _ => none

/-- The fields of a `throw_stmt` node. -/
def Node.as_throw_stmt : (b : Node) → Option { p : Node // b = .throw_stmt p }
  | .throw_stmt x0 => some ⟨x0, rfl⟩
  | _ => none

/-- The fields of a `try_stmt` node. -/
def Node.as_try_stmt : (b : Node) →
    Option { p : Node × (Option String) × (Option Node) × (Option Node) // b = .try_stmt p.1 p.2.1 p.2.2.1 p.2.2.2 }
  | .try_stmt x0 x1 x2 x3 => some ⟨(x0, x1, x2, x3), rfl⟩
  | _ => none

/-- The fields of a `return_stmt` node. -/
def Node.as_return_stmt : (b : Node) → Option { p : Option Node // b = .return_stmt p }
  | .return_stmt x0 => some ⟨x0, rfl⟩
  | _ => none

/-- The fields of a `import_stmt` node. -/
def Node.as_import_stmt : (b : Node) →
    Option { p : String × (Option String) × (List String) // b = .import_stmt p.1 p.2.1 p.2.2 }
  | .import_stmt x0 x1 x2 => some ⟨(x0, x1, x2), rfl⟩
  | _ => none

/-- The fields of a `export_stmt` node. -/
def Node.as_export_stmt : (b : Node) →
    Option { p : Bool × (Option Node) × (List String) // b = .export_stmt p.1 p.2.1 p.2.2 }
  | .export_stmt x0 x1 x2 => some ⟨(x0, x1, x2), rfl⟩
  | _ => none

/-- The fields of a `empty` node. -/
def Node.as_empty : (b : Node) → Option { p : location_t // b = .empty p }
  | .empty x0 => some ⟨x0, rfl⟩
  | _ => none

mutual

/-- Equality of two nodes is decidable: the nodes are compared constructor by
constructor and field by field. -/
def Node.decEq : (a b : Node) → Decidable (a = b)
  | .number x0, b =>
    match hb : b.as_number with
    | some ⟨y0, hy⟩ =>
      decidable_of_iff (x0 = y0)
        ⟨fun h => by rw [hy, h],
          fun h => by rw [hy] at h; injection h⟩
    | none => isFalse (fun h => by rw [← h] at hb; exact Option.noConfusion hb)
  | .string x0, b =>
    match hb : b.as_string with
    | some ⟨y0, hy⟩ =>
      decidable_of_iff (x0 = y0)
        ⟨fun h => by rw [hy, h],
          fun h => by rw [hy] at h; injection h⟩
    | none => isFalse (fun h => by rw [← h] at hb; exact Option.noConfusion hb)
  | .boolean x0, b =>
    match hb : b.as_boolean with
    | some ⟨y0, hy⟩ =>
      decidable_of_iff (x0 = y0)
        ⟨fun h => by rw [hy, h],
          fun h => by rw [hy] at h; injection h⟩
    | none => isFalse (fun h => by rw [← h] at hb; exact Option.noConfusion hb)
  | .identifier x0, b =>
    match hb : b.as_identifier with
    | some ⟨y0, hy⟩ =>
      decidable_of_iff (x0 = y0)
        ⟨fun h => by rw [hy, h],
          fun h => by rw [hy] at h; injection h⟩
    | none => isFalse (fun h => by rw [← h] at hb; exact Option.noConfusion hb)
  | .array x0, b =>
    match hb : b.as_array with
    | some ⟨y0, hy⟩ =>
      have : Decidable (x0 = y0) := Node.decEqList x0 y0
      decidable_of_iff (x0 = y0)
        ⟨fun h => by rw [hy, h],
          fun h => by rw [hy] at h; injection h⟩
    | none => isFalse (fun h => by rw [← h] at hb; exact Option.noConfusion hb)
  | .object x0 x1, b =>
    match hb : b.as_object with
    | some ⟨(y0, y1), hy⟩ =>
      have : Decidable (x1 = y1) := Node.decEqList x1 y1
      decidable_of_iff (x0 = y0 ∧ x1 = y1)
        ⟨fun ⟨h0, h1⟩ => by rw [hy, h0, h1],
          fun h => by rw [hy] at h; injection h with h0 h1; exact ⟨h0, h1⟩⟩
    | none => isFalse (fun h => by rw [← h] at hb; exact Option.noConfusion hb)
  | .spread x0, b =>
    match hb : b.as_spread with
    | some ⟨y0, hy⟩ =>
      have : Decidable (x0 = y0) := Node.decEq x0 y0
      decidable_of_iff (x0 = y0)
        ⟨fun h => by rw [hy, h],
          fun h => by rw [hy] at h; injection h⟩
    | none => isFalse (fun h => by rw [← h] at hb; exact Option.noConfusion hb)
  | .undefined, b =>
    match hb : b.as_undefined with
    | some hy => isTrue hy.down.symm
    | none => isFalse (fun h => by rw [← h] at hb; exact Option.noConfusion hb)
  | .null, b =>
    match hb : b.as_null with
    | some hy => isTrue hy.down.symm
    | none => isFalse (fun h => by rw [← h] at hb; exact Option.noConfusion hb)
  | .program x0, b =>
    match hb : b.as_program with
    | some ⟨y0, hy⟩ =>
      have : Decidable (x0 = y0) := Node.decEqList x0 y0
      decidable_of_iff (x0 = y0)
        ⟨fun h => by rw [hy, h],
          fun h => by rw [hy] at h; injection h⟩
    | none => isFalse (fun h => by rw [← h] at hb; exact Option.noConfusion hb)
  | .block x0, b =>
    match hb : b.as_block with
    | some ⟨y0, hy⟩ =>
      have : Decidable (x0 = y0) := Node.decEqList x0 y0
      decidable_of_iff (x0 = y0)
        ⟨fun h => by rw [hy, h],
          fun h => by rw [hy] at h; injection h⟩
    | none => isFalse (fun h => by rw [← h] at hb; exact Option.noConfusion hb)
  | .binary x0 x1 x2, b =>
    match hb : b.as_binary with
    | some ⟨(y0, y1, y2), hy⟩ =>
      have : Decidable (x1 = y1) := Node.decEq x1 y1
      have : Decidable (x2 = y2) := Node.decEq x2 y2
      decidable_of_iff (x0 = y0 ∧ x1 = y1 ∧ x2 = y2)
        ⟨fun ⟨h0, h1, h2⟩ => by rw [hy, h0, h1, h2],
          fun h => by rw [hy] at h; injection h with h0 h1 h2; exact ⟨h0, h1, h2⟩⟩
    | none => isFalse (fun h => by rw [← h] at hb; exact Option.noConfusion hb)
  | .unary x0 x1 x2, b =>
    match hb : b.as_unary with
    | some ⟨(y0, y1, y2), hy⟩ =>
      have : Decidable (x2 = y2) := Node.decEq x2 y2
      decidable_of_iff (x0 = y0 ∧ x1 = y1 ∧ x2 = y2)
        ⟨fun ⟨h0, h1, h2⟩ => by rw [hy, h0, h1, h2],
          fun h => by rw [hy] at h; injection h with h0 h1 h2; exact ⟨h0, h1, h2⟩⟩
    | none => isFalse (fun h => by rw [← h] at hb; exact Option.noConfusion hb)
  | .assignment x0 x1 x2 x3, b =>
    match hb : b.as_assignment with
    | some ⟨(y0, y1, y2, y3), hy⟩ =>
      have : Decidable (x2 = y2) := Node.decEq x2 y2
      have : Decidable (x3 = y3) := Node.decEq x3 y3
      decidable_of_iff (x0 = y0 ∧ x1 = y1 ∧ x2 = y2 ∧ x3 = y3)
        ⟨fun ⟨h0, h1, h2, h3⟩ => by rw [hy, h0, h1, h2, h3],
          fun h => by rw [hy] at h; injection h with h0 h1 h2 h3; exact ⟨h0, h1, h2, h3⟩⟩
    | none => isFalse (fun h => by rw [← h] at hb; exact Option.noConfusion hb)
  | .ternary x0 x1 x2, b =>
    match hb : b.as_ternary with
    | some ⟨(y0, y1, y2), hy⟩ =>
      have : Decidable (x0 = y0) := Node.decEq x0 y0
      have : Decidable (x1 = y1) := Node.decEq x1 y1
      have : Decidable (x2 = y2) := Node.decEq x2 y2
      decidable_of_iff (x0 = y0 ∧ x1 = y1 ∧ x2 = y2)
        ⟨fun ⟨h0, h1, h2⟩ => by rw [hy, h0, h1, h2],
          fun h => by rw [hy] at h; injection h with h0 h1 h2; exact ⟨h0, h1, h2⟩⟩
    | none => isFalse (fun h => by rw [← h] at hb; exact Option.noConfusion hb)
  | .if_stmt x0 x1 x2, b =>
    match hb : b.as_if_stmt with
    | some ⟨(y0, y1, y2), hy⟩ =>
      have : Decidable (x0 = y0) := Node.decEq x0 y0
      have : Decidable (x1 = y1) := Node.decEq x1 y1
      have : Decidable (x2 = y2) := Node.decEqOption x2 y2
      decidable_of_iff (x0 = y0 ∧ x1 = y1 ∧ x2 = y2)
        ⟨fun ⟨h0, h1, h2⟩ => by rw [hy, h0, h1, h2],
          fun h => by rw [hy] at h; injection h with h0 h1 h2; exact ⟨h0, h1, h2⟩⟩
    | none => isFalse (fun h => by rw [← h] at hb; exact Option.noConfusion hb)
  | .while_stmt x0 x1, b =>
    match hb : b.as_while_stmt with
    | some ⟨(y0, y1), hy⟩ =>
      have : Decidable (x0 = y0) := Node.decEq x0 y0
      have : Decidable (x1 = y1) := Node.decEq x1 y1
      decidable_of_iff (x0 = y0 ∧ x1 = y1)
        ⟨fun ⟨h0, h1⟩ => by rw [hy, h0, h1],
          fun h => by rw [hy] at h; injection h with h0 h1; exact ⟨h0, h1⟩⟩
    | none => isFalse (fun h => by rw [← h] at hb; exact Option.noConfusion hb)
  | .do_while_stmt x0 x1, b =>
    match hb : b.as_do_while_stmt with
    | some ⟨(y0, y1), hy⟩ =>
      have : Decidable (x0 = y0) := Node.decEq x0 y0
      have : Decidable (x1 = y1) := Node.decEq x1 y1
      decidable_of_iff (x0 = y0 ∧ x1 = y1)
        ⟨fun ⟨h0, h1⟩ => by rw [hy, h0, h1],
          fun h => by rw [hy] at h; injection h with h0 h1; exact ⟨h0, h1⟩⟩
    | none => isFalse (fun h => by rw [← h] at hb; exact Option.noConfusion hb)
  | .for_stmt x0 x1 x2 x3, b =>
    match hb : b.as_for_stmt with
    | some ⟨(y0, y1, y2, y3), hy⟩ =>
      have : Decidable (x0 = y0) := Node.decEq x0 y0
      have : Decidable (x1 = y1) := Node.decEqOption x1 y1
      have : Decidable (x2 = y2) := Node.decEqOption x2 y2
      have : Decidable (x3 = y3) := Node.decEqOption x3 y3
      decidable_of_iff (x0 = y0 ∧ x1 = y1 ∧ x2 = y2 ∧ x3 = y3)
        ⟨fun ⟨h0, h1, h2, h3⟩ => by rw [hy, h0, h1, h2, h3],
          fun h => by rw [hy] at h; injection h with h0 h1 h2 h3; exact ⟨h0, h1, h2, h3⟩⟩
    | none => isFalse (fun h => by rw [← h] at hb; exact Option.noConfusion hb)
  | .call x0 x1, b =>
    match hb : b.as_call with
    | some ⟨(y0, y1), hy⟩ =>
      have : Decidable (x0 = y0) := Node.decEq x0 y0
      have : Decidable (x1 = y1) := Node.decEqList x1 y1
      decidable_of_iff (x0 = y0 ∧ x1 = y1)
        ⟨fun ⟨h0, h1⟩ => by rw [hy, h0, h1],
          fun h => by rw [hy] at h; injection h with h0 h1; exact ⟨h0, h1⟩⟩
    | none => isFalse (fun h => by rw [← h] at hb; exact Option.noConfusion hb)
  | .index x0 x1, b =>
    match hb : b.as_index with
    | some ⟨(y0, y1), hy⟩ =>
      have : Decidable (x0 = y0) := Node.decEq x0 y0
      have : Decidable (x1 = y1) := Node.decEq x1 y1
      decidable_of_iff (x0 = y0 ∧ x1 = y1)
        ⟨fun ⟨h0, h1⟩ => by rw [hy, h0, h1],
          fun h => by rw [hy] at h; injection h with h0 h1; exact ⟨h0, h1⟩⟩
    | none => isFalse (fun h => by rw [← h] at hb; exact Option.noConfusion hb)
  | .member x0 x1, b =>
    match hb : b.as_member with
    | some ⟨(y0, y1), hy⟩ =>
      have : Decidable (x0 = y0) := Node.decEq x0 y0
      have : Decidable (x1 = y1) := Node.decEqOption x1 y1
      decidable_of_iff (x0 = y0 ∧ x1 = y1)
        ⟨fun ⟨h0, h1⟩ => by rw [hy, h0, h1],
          fun h => by rw [hy] at h; injection h with h0 h1; exact ⟨h0, h1⟩⟩
    | none => isFalse (fun h => by rw [← h] at hb; exact Option.noConfusion hb)
  | .postfix_op x0 x1, b =>
    match hb : b.as_postfix_op with
    | some ⟨(y0, y1), hy⟩ =>
      have : Decidable (x1 = y1) := Node.decEq x1 y1
      decidable_of_iff (x0 = y0 ∧ x1 = y1)
        ⟨fun ⟨h0, h1⟩ => by rw [hy, h0, h1],
          fun h => by rw [hy] at h; injection h with h0 h1; exact ⟨h0, h1⟩⟩
    | none => isFalse (fun h => by rw [← h] at hb; exact Option.noConfusion hb)
  | .function x0 x1 x2 x3, b =>
    match hb : b.as_function with
    | some ⟨(y0, y1, y2, y3), hy⟩ =>
      have : Decidable (x2 = y2) := Param.decEqList x2 y2
      have : Decidable (x3 = y3) := Node.decEq x3 y3
      decidable_of_iff (x0 = y0 ∧ x1 = y1 ∧ x2 = y2 ∧ x3 = y3)
        ⟨fun ⟨h0, h1, h2, h3⟩ => by rw [hy, h0, h1, h2, h3],
          fun h => by rw [hy] at h; injection h with h0 h1 h2 h3; exact ⟨h0, h1, h2, h3⟩⟩
    | none => isFalse (fun h => by rw [← h] at hb; exact Option.noConfusion hb)
  | .declaration x0 x1 x2, b =>
    match hb : b.as_declaration with
    | some ⟨(y0, y1, y2), hy⟩ =>
      have : Decidable (x1 = y1) := Node.decEqList x1 y1
      have : Decidable (x2 = y2) := Node.decEqValues x2 y2
      decidable_of_iff (x0 = y0 ∧ x1 = y1 ∧ x2 = y2)
        ⟨fun ⟨h0, h1, h2⟩ => by rw [hy, h0, h1, h2],
          fun h => by rw [hy] at h; injection h with h0 h1 h2; exact ⟨h0, h1, h2⟩⟩
    | none => isFalse (fun h => by rw [← h] at hb; exact Option.noConfusion hb)
  | .switch_stmt x0 x1, b =>
    match hb : b.as_switch_stmt with
    | some ⟨(y0, y1), hy⟩ =>
      have : Decidable (x0 = y0) := Node.decEq x0 y0
      have : Decidable (x1 = y1) := SwitchCase.decEqList x1 y1
      decidable_of_iff (x0 = y0 ∧ x1 = y1)
        ⟨fun ⟨h0, h1⟩ => by rw [hy, h0, h1],
          fun h => by rw [hy] at h; injection h with h0 h1; exact ⟨h0, h1⟩⟩
    | none => isFalse (fun h => by rw [← h] at hb; exact Option.noConfusion hb)
  | .label x0 x1, b =>
    match hb : b.as_label with
    | some ⟨(y0, y1), hy⟩ =>
      have : Decidable (x1 = y1) := Node.decEq x1 y1
      decidable_of_iff (x0 = y0 ∧ x1 = y1)
        ⟨fun ⟨h0, h1⟩ => by rw [hy, h0, h1],
          fun h => by rw [hy] at h; injection h with h0 h1; exact ⟨h0, h1⟩⟩
    | none => isFalse (fun h => by rw [← h] at hb; exact Option.noConfusion hb)
  | .await_expr x0 x1, b =>
    match hb : b.as_await_expr with
    | some ⟨(y0, y1), hy⟩ =>
      have : Decidable (x1 = y1) := Node.decEq x1 y1
      decidable_of_iff (x0 = y0 ∧ x1 = y1)
        ⟨fun ⟨h0, h1⟩ => by rw [hy, h0, h1],
          fun h => by rw [hy] at h; injection h with h0 h1; exact ⟨h0, h1⟩⟩
    | none => isFalse (fun h => by rw [← h] at hb; exact Option.noConfusion hb)
  | .new_expr x0, b =>
    match hb : b.as_new_expr with
    | some ⟨y0, hy⟩ =>
      have : Decidable (x0 = y0) := Node.decEq x0 y0
      decidable_of_iff (x0 = y0)
        ⟨fun h => by rw [hy, h],
          fun h => by rw [hy] at h; injection h⟩
    | none => isFalse (fun h => by rw [← h] at hb; exact Option.noConfusion hb)
  | .this x0, b =>
    match hb : b.as_this with
    | some ⟨y0, hy⟩ =>
      decidable_of_iff (x0 = y0)
        ⟨fun h => by rw [hy, h],
          fun h => by rw [hy] at h; injection h⟩
    | none => isFalse (fun h => by rw [← h] at hb; exact Option.noConfusion hb)
  | .debugger, b =>
    match hb : b.as_debugger with
    | some hy => isTrue hy.down.symm
    | none => isFalse (fun h => by rw [← h] at hb; exact Option.noConfusion hb)
  | .break_stmt x0 x1, b =>
    match hb : b.as_break_stmt with
    | some ⟨(y0, y1), hy⟩ =>
      decidable_of_iff (x0 = y0 ∧ x1 = y1)
        ⟨fun ⟨h0, h1⟩ => by rw [hy, h0, h1],
          fun h => by rw [hy] at h; injection h with h0 h1; exact ⟨h0, h1⟩⟩
    | none => isFalse (fun h => by rw [← h] at hb; exact Option.noConfusion hb)
  | .continue_stmt x0 x1, b =>
    match hb : b.as_continue_stmt with
    | some ⟨(y0, y1), hy⟩ =>
      decidable_of_iff (x0 = y0 ∧ x1 = y1)
        ⟨fun ⟨h0, h1⟩ => by rw [hy, h0, h1],
          fun h => by rw [hy] at h; injection h with h0 h1; exact ⟨h0, h1⟩⟩
    | none => isFalse (fun h => by rw [← h] at hb; exact Option.noConfusion hb)
  | .throw_stmt x0, b =>
    match hb : b.as_throw_stmt with
    | some ⟨y0, hy⟩ =>
      have : Decidable (x0 = y0) := Node.decEq x0 y0
      decidable_of_iff (x0 = y0)
        ⟨fun h => by rw [hy, h],
          fun h => by rw [hy] at h; injection h⟩
    | none => isFalse (fun h => by rw [← h] at hb; exact Option.noConfusion hb)
  | .try_stmt x0 x1 x2 x3, b =>
    match hb : b.as_try_stmt with
    | some ⟨(y0, y1, y2, y3), hy⟩ =>
      have : Decidable (x0 = y0) := Node.decEq x0 y0
      have : Decidable (x2 = y2) := Node.decEqOption x2 y2
      have : Decidable (x3 = y3) := Node.decEqOption x3 y3
      decidable_of_iff (x0 = y0 ∧ x1 = y1 ∧ x2 = y2 ∧ x3 = y3)
        ⟨fun ⟨h0, h1, h2, h3⟩ => by rw [hy, h0, h1, h2, h3],
          fun h => by rw [hy] at h; injection h with h0 h1 h2 h3; exact ⟨h0, h1, h2, h3⟩⟩
    | none => isFalse (fun h => by rw [← h] at hb; exact Option.noConfusion hb)
  | .return_stmt x0, b =>
    match hb : b.as_return_stmt with
    | some ⟨y0, hy⟩ =>
      have : Decidable (x0 = y0) := Node.decEqOption x0 y0
      decidable_of_iff (x0 = y0)
        ⟨fun h => by rw [hy, h],
          fun h => by rw [hy] at h; injection h⟩
    | none => isFalse (fun h => by rw [← h] at hb; exact Option.noConfusion hb)
  | .import_stmt x0 x1 x2, b =>
    match hb : b.as_import_stmt with
    | some ⟨(y0, y1, y2), hy⟩ =>
      decidable_of_iff (x0 = y0 ∧ x1 = y1 ∧ x2 = y2)
        ⟨fun ⟨h0, h1, h2⟩ => by rw [hy, h0, h1, h2],
          fun h => by rw [hy] at h; injection h with h0 h1 h2; exact ⟨h0, h1, h2⟩⟩
    | none => isFalse (fun h => by rw [← h] at hb; exact Option.noConfusion hb)
  | .export_stmt x0 x1 x2, b =>
    match hb : b.as_export_stmt with
    | some ⟨(y0, y1, y2), hy⟩ =>
      have : Decidable (x1 = y1) := Node.decEqOption x1 y1
      decidable_of_iff (x0 = y0 ∧ x1 = y1 ∧ x2 = y2)
        ⟨fun ⟨h0, h1, h2⟩ => by rw [hy, h0, h1, h2],
          fun h => by rw [hy] at h; injection h with h0 h1 h2; exact ⟨h0, h1, h2⟩⟩
    | none => isFalse (fun h => by rw [← h] at hb; exact Option.noConfusion hb)
  | .empty x0, b =>
    match hb : b.as_empty with
    | some ⟨y0, hy⟩ =>
      decidable_of_iff (x0 = y0)
        ⟨fun h => by rw [hy, h],
          fun h => by rw [hy] at h; injection h⟩
    | none => isFalse (fun h => by rw [← h] at hb; exact Option.noConfusion hb)
termination_by structural a => a

/-- Equality of two lists of nodes is decidable. -/
def Node.decEqList : (a b : List Node) → Decidable (a = b)
  | [], [] => isTrue rfl
  | x :: xs, y :: ys =>
    have : Decidable (x = y) := Node.decEq x y
    have : Decidable (xs = ys) := Node.decEqList xs ys
    decidable_of_iff (x = y ∧ xs = ys)
      ⟨fun ⟨h0, h1⟩ => by rw [h0, h1], fun h => by injection h with h0 h1; exact ⟨h0, h1⟩⟩
  | [], _ :: _ => isFalse (fun h => List.noConfusion h)
  | _ :: _, [] => isFalse (fun h => List.noConfusion h)
termination_by structural a => a

/-- Equality of two nodes that may be `NULL` is decidable. -/
def Node.decEqOption : (a b : Option Node) → Decidable (a = b)
  | none, none => isTrue rfl
  | some x, some y =>
    have : Decidable (x = y) := Node.decEq x y
    decidable_of_iff (x = y) ⟨fun h => by rw [h], fun h => by injection h⟩
  | none, some _ => isFalse (fun h => Option.noConfusion h)
  | some _, none => isFalse (fun h => Option.noConfusion h)
termination_by structural a => a

/-- Equality of two lists of nodes that may be `NULL` is decidable. -/
def Node.decEqValues : (a b : List (Option Node)) → Decidable (a = b)
  | [], [] => isTrue rfl
  | x :: xs, y :: ys =>
    have : Decidable (x = y) := Node.decEqOption x y
    have : Decidable (xs = ys) := Node.decEqValues xs ys
    decidable_of_iff (x = y ∧ xs = ys)
      ⟨fun ⟨h0, h1⟩ => by rw [h0, h1], fun h => by injection h with h0 h1; exact ⟨h0, h1⟩⟩
  | [], _ :: _ => isFalse (fun h => List.noConfusion h)
  | _ :: _, [] => isFalse (fun h => List.noConfusion h)
termination_by structural a => a

/-- Equality of two parameters is decidable. -/
def Param.decEq : (a b : Param) → Decidable (a = b)
  | .mk x0 x1 x2, .mk y0 y1 y2 =>
    have : Decidable (x1 = y1) := Node.decEqOption x1 y1
    decidable_of_iff (x0 = y0 ∧ x1 = y1 ∧ x2 = y2)
      ⟨fun ⟨h0, h1, h2⟩ => by rw [h0, h1, h2],
        fun h => by injection h with h0 h1 h2; exact ⟨h0, h1, h2⟩⟩
termination_by structural a => a

/-- Equality of two lists of parameters is decidable. -/
def Param.decEqList : (a b : List Param) → Decidable (a = b)
  | [], [] => isTrue rfl
  | x :: xs, y :: ys =>
    have : Decidable (x = y) := Param.decEq x y
    have : Decidable (xs = ys) := Param.decEqList xs ys
    decidable_of_iff (x = y ∧ xs = ys)
      ⟨fun ⟨h0, h1⟩ => by rw [h0, h1], fun h => by injection h with h0 h1; exact ⟨h0, h1⟩⟩
  | [], _ :: _ => isFalse (fun h => List.noConfusion h)
  | _ :: _, [] => isFalse (fun h => List.noConfusion h)
termination_by structural a => a

/-- Equality of two sections of a `switch` is decidable. -/
def SwitchCase.decEq : (a b : SwitchCase) → Decidable (a = b)
  | .mk x0 x1 x2, .mk y0 y1 y2 =>
    have : Decidable (x0 = y0) := Node.decEqList x0 y0
    have : Decidable (x1 = y1) := Node.decEq x1 y1
    decidable_of_iff (x0 = y0 ∧ x1 = y1 ∧ x2 = y2)
      ⟨fun ⟨h0, h1, h2⟩ => by rw [h0, h1, h2],
        fun h => by injection h with h0 h1 h2; exact ⟨h0, h1, h2⟩⟩
termination_by structural a => a

/-- Equality of two lists of sections is decidable. -/
def SwitchCase.decEqList : (a b : List SwitchCase) → Decidable (a = b)
  | [], [] => isTrue rfl
  | x :: xs, y :: ys =>
    have : Decidable (x = y) := SwitchCase.decEq x y
    have : Decidable (xs = ys) := SwitchCase.decEqList xs ys
    decidable_of_iff (x = y ∧ xs = ys)
      ⟨fun ⟨h0, h1⟩ => by rw [h0, h1], fun h => by injection h with h0 h1; exact ⟨h0, h1⟩⟩
  | [], _ :: _ => isFalse (fun h => List.noConfusion h)
  | _ :: _, [] => isFalse (fun h => List.noConfusion h)
termination_by structural a => a

end

instance : DecidableEq Node := Node.decEq

instance : DecidableEq Param := Param.decEq

instance : DecidableEq SwitchCase := SwitchCase.decEq

/-! ## Placement of `break`, `continue` and `await` in a tree -/

mutual

/-- Every `Break` and `Continue` node of the tree has a `While`, `DoWhile` or
`For` ancestor and the nearest `Function` node around every `Await` node is
async. `in_loop` says that the node has such a loop ancestor, `in_async` that
its nearest enclosing `Function` node exists and has `is_async` set. All the
children of a node are looked at. -/
def well_placed (in_loop in_async : Bool) : Node → Bool
  | .number _ | .string _ | .boolean _ | .identifier _ | .undefined | .null
  | .this _ | .debugger | .empty _ | .import_stmt _ _ _ => true
  | .break_stmt _ _ => in_loop
  | .continue_stmt _ _ => in_loop
  | .await_expr _ argument => in_async && well_placed in_loop in_async argument
  | .while_stmt condition body =>
    well_placed true in_async condition && well_placed true in_async body
  | .do_while_stmt body condition =>
    well_placed true in_async body && well_placed true in_async condition
  | .for_stmt body init condition increment =>
    well_placed_opt true in_async init && well_placed_opt true in_async condition &&
    well_placed_opt true in_async increment && well_placed true in_async body
  | .function is_async _ params body =>
    well_placed_params in_loop is_async params && well_placed in_loop is_async body
  | .array elements => well_placed_list in_loop in_async elements
  | .object _ values => well_placed_list in_loop in_async values
  | .spread argument => well_placed in_loop in_async argument
  | .program statements => well_placed_list in_loop in_async statements
  | .block statements => well_placed_list in_loop in_async statements
  | .binary _ left right =>
    well_placed in_loop in_async left && well_placed in_loop in_async right
  | .unary _ _ right => well_placed in_loop in_async right
  | .assignment _ _ target value =>
    well_placed in_loop in_async target && well_placed in_loop in_async value
  | .ternary condition true_expr false_expr =>
    well_placed in_loop in_async condition && well_placed in_loop in_async true_expr &&
    well_placed in_loop in_async false_expr
  | .if_stmt condition then_branch else_branch =>
    well_placed in_loop in_async condition && well_placed in_loop in_async then_branch &&
    well_placed_opt in_loop in_async else_branch
  | .call callee args =>
    well_placed in_loop in_async callee && well_placed_list in_loop in_async args
  | .index array index =>
    well_placed in_loop in_async array && well_placed in_loop in_async index
  | .member object property =>
    well_placed in_loop in_async object && well_placed_opt in_loop in_async property
  | .postfix_op _ left => well_placed in_loop in_async left
  | .declaration _ names values =>
    well_placed_list in_loop in_async names && well_placed_values in_loop in_async values
  | .switch_stmt expr cases =>
    well_placed in_loop in_async expr && well_placed_cases in_loop in_async cases
  | .label _ statement => well_placed in_loop in_async statement
  | .new_expr argument => well_placed in_loop in_async argument
  | .throw_stmt value => well_placed in_loop in_async value
  | .try_stmt try_block _ catch_block finally_block =>
    well_placed in_loop in_async try_block && well_placed_opt in_loop in_async catch_block &&
    well_placed_opt in_loop in_async finally_block
  | .return_stmt value => well_placed_opt in_loop in_async value
  | .export_stmt _ declaration _ => well_placed_opt in_loop in_async declaration

/-- `well_placed` on a child that may be `NULL`. -/
def well_placed_opt (in_loop in_async : Bool) : Option Node → Bool
  | none => true
  | some node => well_placed in_loop in_async node

/-- `well_placed` on every node of an array. -/
def well_placed_list (in_loop in_async : Bool) : List Node → Bool
  | [] => true
  | node :: rest => well_placed in_loop in_async node && well_placed_list in_loop in_async rest

/-- `well_placed` on every entry of `declaration.values`. -/
def well_placed_values (in_loop in_async : Bool) : List (Option Node) → Bool
  | [] => true
  | value :: rest =>
    well_placed_opt in_loop in_async value && well_placed_values in_loop in_async rest

/-- `well_placed` on the default values of a parameter list. -/
def well_placed_params (in_loop in_async : Bool) : List Param → Bool
  | [] => true
  | .mk _ default_value _ :: rest =>
    well_placed_opt in_loop in_async default_value && well_placed_params in_loop in_async rest

/-- `well_placed` on the labels and the bodies of the sections of a switch. -/
def well_placed_cases (in_loop in_async : Bool) : List SwitchCase → Bool
  | [] => true
  | .mk labels body _ :: rest =>
    well_placed_list in_loop in_async labels && well_placed in_loop in_async body &&
    well_placed_cases in_loop in_async rest

end

mutual

/-- The largest number of `While`, `DoWhile` and `For` nodes nested in one
another along a path of children that `sema_visit` follows. -/
def loop_nesting : Node → Nat
  | .number _ | .string _ | .boolean _ | .identifier _ | .undefined | .null
  | .this _ | .debugger | .empty _ | .import_stmt _ _ _
  | .break_stmt _ _ | .continue_stmt _ _
  | .switch_stmt _ _ | .label _ _ | .new_expr _ | .export_stmt _ _ _ => 0
  | .await_expr _ argument => loop_nesting argument
  | .while_stmt condition body => max (loop_nesting condition) (loop_nesting body) + 1
  | .do_while_stmt body condition => max (loop_nesting body) (loop_nesting condition) + 1
  | .for_stmt body init condition increment =>
    max (max (loop_nesting_opt init) (loop_nesting_opt condition))
      (max (loop_nesting_opt increment) (loop_nesting body)) + 1
  | .function _ _ _ body => loop_nesting body
  | .array elements => loop_nesting_list elements
  | .object _ values => loop_nesting_list values
  | .spread argument => loop_nesting argument
  | .program statements => loop_nesting_list statements
  | .block statements => loop_nesting_list statements
  | .binary _ left right => max (loop_nesting left) (loop_nesting right)
  | .unary _ _ right => loop_nesting right
  | .assignment _ _ target value => max (loop_nesting target) (loop_nesting value)
  | .ternary condition true_expr false_expr =>
    max (loop_nesting condition) (max (loop_nesting true_expr) (loop_nesting false_expr))
  | .if_stmt condition then_branch else_branch =>
    max (loop_nesting condition) (max (loop_nesting then_branch) (loop_nesting_opt else_branch))
  | .call callee args => max (loop_nesting callee) (loop_nesting_list args)
  | .index array index => max (loop_nesting array) (loop_nesting index)
  | .member object _ => loop_nesting object
  | .postfix_op _ left => loop_nesting left
  | .declaration _ _ values => loop_nesting_values values
  | .throw_stmt value => loop_nesting value
  | .try_stmt try_block _ catch_block finally_block =>
    max (loop_nesting try_block)
      (max (loop_nesting_opt catch_block) (loop_nesting_opt finally_block))
  | .return_stmt value => loop_nesting_opt value

/-- `loop_nesting` of a child that may be `NULL`. -/
def loop_nesting_opt : Option Node → Nat
  | none => 0
  | some node => loop_nesting node

/-- The largest `loop_nesting` in an array of nodes. -/
def loop_nesting_list : List Node → Nat
  | [] => 0
  | node :: rest => max (loop_nesting node) (loop_nesting_list rest)

/-- The largest `loop_nesting` among the entries of `declaration.values`. -/
def loop_nesting_values : List (Option Node) → Nat
  | [] => 0
  | value :: rest => max (loop_nesting_opt value) (loop_nesting_values rest)

end

/-- The node is a `Break` node, a `Continue` node or an `Await` node: what a
`break;` statement, a `continue;` statement and an expression statement that
starts with `await` parse to. -/
def is_break_continue_await : Node → Bool
  | .break_stmt _ _ | .continue_stmt _ _ | .await_expr _ _ => true
  | _ => false

/-- What a visit leaves alone: `program`, `loop_depth` and `in_async_function`
are as before, and `had_error` is still set if it was. -/
def sema_frame (s s' : sema_t) : Prop :=
  s'.program = s.program ∧ s'.loop_depth = s.loop_depth ∧
  s'.in_async_function = s.in_async_function ∧ (s.had_error = true → s'.had_error = true)

/-! ## The calls of `sema_visit` -/

deriving instance DecidableEq for sema_t

mutual

/-- The calls `sema_visit(sema, node)` on a node that is not `NULL` that are
made while `sema_visit` runs on `node` from the state `sema`, in the order in
which they are entered: each node with the state its call is entered with. The
first is the call on `node` itself, the others are the calls the function the
`switch` selects makes on the children, and the calls these make. -/
def sema_calls (sema : sema_t) : Node → List (sema_t × Node)
  | .number number => [(sema, .number number)]
  | .string string => [(sema, .string string)]
  | .boolean boolean => [(sema, .boolean boolean)]
  | .undefined => [(sema, .undefined)]
  | .null => [(sema, .null)]
  | .this loc => [(sema, .this loc)]
  -- sema_visit_identifier
  | .identifier identifier => [(sema, .identifier identifier)]
  -- sema_visit_array
  | .array elements => (sema, .array elements) :: sema_calls_list sema elements
  -- sema_visit_object
  | .object keys values => (sema, .object keys values) :: sema_calls_list sema values
  -- sema_visit_spread
  | .spread argument => (sema, .spread argument) :: sema_calls sema argument
  -- sema_visit_program
  | .program statements => (sema, .program statements) :: sema_calls_list sema statements
  -- sema_visit_block
  | .block statements => (sema, .block statements) :: sema_calls_list sema statements
  -- sema_visit_binary
  | .binary op left right =>
    (sema, .binary op left right) ::
      (sema_calls sema left ++ sema_calls (sema_visit_node sema left) right)
  -- sema_visit_unary
  | .unary loc op right => (sema, .unary loc op right) :: sema_calls sema right
  -- sema_visit_assignment
  | .assignment loc op target value =>
    (sema, .assignment loc op target value) ::
      (sema_calls sema target ++ sema_calls (sema_visit_node sema target) value)
  -- sema_visit_ternary
  | .ternary condition true_expr false_expr =>
    (sema, .ternary condition true_expr false_expr) ::
      (sema_calls sema condition ++
        (sema_calls (sema_visit_node sema condition) true_expr ++
          sema_calls (sema_visit_node (sema_visit_node sema condition) true_expr) false_expr))
  -- sema_visit_if
  | .if_stmt condition then_branch else_branch =>
    (sema, .if_stmt condition then_branch else_branch) ::
      (sema_calls sema condition ++
        (sema_calls (sema_visit_node sema condition) then_branch ++
          sema_calls_opt (sema_visit_node (sema_visit_node sema condition) then_branch)
            else_branch))
  -- sema_visit_while
  | .while_stmt condition body =>
    (sema, .while_stmt condition body) ::
      (sema_calls (loop_depth_inc sema) condition ++
        sema_calls (sema_visit_node (loop_depth_inc sema) condition) body)
  -- sema_visit_do_while
  | .do_while_stmt body condition =>
    (sema, .do_while_stmt body condition) ::
      (sema_calls (loop_depth_inc sema) body ++
        sema_calls (sema_visit_node (loop_depth_inc sema) body) condition)
  -- sema_visit_for
  | .for_stmt body init condition increment =>
    (sema, .for_stmt body init condition increment) ::
      (sema_calls_opt (loop_depth_inc sema) init ++
        (sema_calls_opt (sema_visit (loop_depth_inc sema) init) condition ++
          (sema_calls_opt (sema_visit (sema_visit (loop_depth_inc sema) init) condition)
              increment ++
            sema_calls
              (sema_visit (sema_visit (sema_visit (loop_depth_inc sema) init) condition)
                increment) body)))
  -- sema_visit_call
  | .call callee args =>
    (sema, .call callee args) ::
      (sema_calls sema callee ++ sema_calls_list (sema_visit_node sema callee) args)
  -- sema_visit_index
  | .index array index =>
    (sema, .index array index) ::
      (sema_calls sema array ++ sema_calls (sema_visit_node sema array) index)
  -- sema_visit_member
  | .member object property => (sema, .member object property) :: sema_calls sema object
  -- sema_visit_postfix
  | .postfix_op op left => (sema, .postfix_op op left) :: sema_calls sema left
  -- sema_visit_function
  | .function is_async name params body =>
    (sema, .function is_async name params body) ::
      sema_calls { sema with in_async_function := is_async } body
  -- sema_visit_declaration
  | .declaration kind names values =>
    (sema, .declaration kind names values) :: sema_calls_values sema values
  -- sema_visit_break
  | .break_stmt loc label => [(sema, .break_stmt loc label)]
  -- sema_visit_continue
  | .continue_stmt loc label => [(sema, .continue_stmt loc label)]
  -- sema_visit_throw
  | .throw_stmt value => (sema, .throw_stmt value) :: sema_calls sema value
  -- sema_visit_try
  | .try_stmt try_block catch_param catch_block finally_block =>
    (sema, .try_stmt try_block catch_param catch_block finally_block) ::
      (sema_calls sema try_block ++
        (sema_calls_opt (sema_visit_node sema try_block) catch_block ++
          sema_calls_opt (sema_visit (sema_visit_node sema try_block) catch_block)
            finally_block))
  -- sema_visit_return
  | .return_stmt value => (sema, .return_stmt value) :: sema_calls_opt sema value
  -- sema_visit_await
  | .await_expr loc argument =>
    (sema, .await_expr loc argument) ::
      sema_calls
        (if !sema.in_async_function then SEMA_ERROR sema .await_outside_async loc else sema)
        argument
  | .empty loc => [(sema, .empty loc)]
  -- default: break
  | .switch_stmt expr cases => [(sema, .switch_stmt expr cases)]
  | .label name statement => [(sema, .label name statement)]
  | .new_expr argument => [(sema, .new_expr argument)]
  | .debugger => [(sema, .debugger)]
  | .import_stmt module default_name imported =>
    [(sema, .import_stmt module default_name imported)]
  | .export_stmt is_default declaration exported =>
    [(sema, .export_stmt is_default declaration exported)]
termination_by structural node => node

/-- The calls made by `sema_visit(sema, node)` where `node` may be `NULL`. -/
def sema_calls_opt (sema : sema_t) : Option Node → List (sema_t × Node)
  | none => []
  | some node => sema_calls sema node
termination_by structural node => node

/-- The calls made by the loop `for (i = 0; i < count; i++) sema_visit(sema,
xs[i]);` over an array of nodes. -/
def sema_calls_list (sema : sema_t) : List Node → List (sema_t × Node)
  | [] => []
  | node :: rest => sema_calls sema node ++ sema_calls_list (sema_visit_node sema node) rest
termination_by structural nodes => nodes

/-- The calls made by the loop of `sema_visit_declaration` over
`declaration.values`. -/
def sema_calls_values (sema : sema_t) : List (Option Node) → List (sema_t × Node)
  | [] => []
  | value :: rest => sema_calls_opt sema value ++ sema_calls_values (sema_visit sema value) rest
termination_by structural values => values

end

/-- The node is a `While`, a `DoWhile` or a `For` node. -/
def is_loop : Node → Bool
  | .while_stmt _ _ | .do_while_stmt _ _ | .for_stmt _ _ _ _ => true
  | _ => false

/-- What a visit reports when it reports nothing about `break` and
`continue`: the diagnostics of `s'` are those of `s` followed by diagnostics
about `await`, and `had_error` is set in `s'` only if it was set in `s` or one
of these diagnostics was added. -/
def reports_await_only (s s' : sema_t) : Prop :=
  ∃ added, s'.diagnostics = s.diagnostics ++ added ∧
    (∀ d ∈ added, d.1 = sema_message.await_outside_async) ∧
    (s'.had_error = true → s.had_error = true ∨ added ≠ [])

/-! ## The lexer (`include/lexer.h`, `src/lexer.c`)

A `char` of the C program is a `Char` here, its code being the value of the
byte: a byte above 127 is a `Char` whose code is above 127. -/

/-- `isspace` of `<ctype.h>` in the "C" locale: space, `\t`, `\n`, `\v`, `\f`, `\r`. -/
def isspace (c : Char) : Bool := c.toNat = 32 || (9 ≤ c.toNat && c.toNat ≤ 13)

/-- `isdigit` of `<ctype.h>`: `0` to `9`. -/
def isdigit (c : Char) : Bool := 48 ≤ c.toNat && c.toNat ≤ 57

/-- `isalpha` of `<ctype.h>` in the "C" locale: `A` to `Z` and `a` to `z`. -/
def isalpha (c : Char) : Bool :=
  (65 ≤ c.toNat && c.toNat ≤ 90) || (97 ≤ c.toNat && c.toNat ≤ 122)

/-- `isalnum` of `<ctype.h>`. -/
def isalnum (c : Char) : Bool := isalpha c || isdigit c

/-- `isxdigit` of `<ctype.h>`: `0` to `9`, `A` to `F`, `a` to `f`. -/
def isxdigit (c : Char) : Bool :=
  isdigit c || (65 ≤ c.toNat && c.toNat ≤ 70) || (97 ≤ c.toNat && c.toNat ≤ 102)

/-- `lexer_t`. `source` is the text without its terminating NUL, so `length`
is `source.length`; `count` is `tokens.length`; `index` and `capacity` play no
part in tokenizing and are left out. `line`, `column` and `pos` are counters
that never exceed `length + 1`, so they are plain naturals. -/
structure lexer_t where
  tokens : List token_t
  source : List Char
  loc : location_t
  pos : Nat
  had_error : Bool
deriving Repr, DecidableEq

/-- `lexer->length`. -/
def lexer_t.length (lex : lexer_t) : Nat := lex.source.length

/-- `LEXER_ERROR`: the message goes to `stderr`, the flag is set. -/
def LEXER_ERROR (lex : lexer_t) : lexer_t := { lex with had_error := true }

/-- `lexer_peek`. -/
def lexer_peek (lex : lexer_t) : Char :=
  if lex.pos ≥ lex.length then '\x00' else lex.source.getD lex.pos '\x00'

/-- `lexer_advance`: the character returned and the lexer afterwards. -/
def lexer_advance (lex : lexer_t) : Char × lexer_t :=
  if lex.pos ≥ lex.length then ('\x00', lex)
  else
    let c := lex.source.getD lex.pos '\x00'
    let lex := { lex with pos := lex.pos + 1 }
    if c.toNat > 127 then ('\x00', LEXER_ERROR lex)
    else if c = '\n' then
      (c, { lex with loc := { lex.loc with line := lex.loc.line + 1, column := 1 } })
    else
      (c, { lex with loc := { lex.loc with column := lex.loc.column + 1 } })

/-- `lexer_match`. -/
def lexer_match (lex : lexer_t) (expected : Char) : Bool × lexer_t :=
  if lexer_peek lex = expected then (true, (lexer_advance lex).2) else (false, lex)

/-- `lexer_append`. -/
def lexer_append (lex : lexer_t) (token : token_t) : lexer_t :=
  { lex with tokens := lex.tokens ++ [token] }

/-- The loops `while (p(lexer_peek(lexer))) lexer_advance(lexer);`. Every
round reads one character, so `length - pos` rounds are enough and that is the
`fuel` the callers give. -/
def lexer_advance_while (p : Char → Bool) : Nat → lexer_t → lexer_t
  | 0, lex => lex
  | fuel + 1, lex =>
    if p (lexer_peek lex) then lexer_advance_while p fuel (lexer_advance lex).2 else lex

/-- The condition of the loop over a `//` comment. -/
def in_line_comment (c : Char) : Bool := c ≠ '\n' && c ≠ '\x00'

/-- The loop over the body of a `/* */` comment; `false` is the
`return` after "Unterminated multi-line comment". -/
def lexer_block_comment : Nat → lexer_t → lexer_t × Bool
  | 0, lex => (lex, false)
  | fuel + 1, lex =>
    if lexer_peek lex = '\x00' then (LEXER_ERROR lex, false)
    else if lexer_peek lex = '*' ∧ lex.pos + 1 < lex.length ∧
        lex.source.getD (lex.pos + 1) '\x00' = '/' then
      ((lexer_advance (lexer_advance lex).2).2, true)
    else lexer_block_comment fuel (lexer_advance lex).2

/-- The value of a hexadecimal digit, as the three `if`s of the `\u` case add
it to `codepoint`. -/
def hex_value (hex : Char) : Nat :=
  if 48 ≤ hex.toNat ∧ hex.toNat ≤ 57 then hex.toNat - 48
  else if 97 ≤ hex.toNat ∧ hex.toNat ≤ 102 then hex.toNat - 97 + 10
  else if 65 ≤ hex.toNat ∧ hex.toNat ≤ 70 then hex.toNat - 65 + 10
  else 0

/-- The `for` loop over the four digits of a `\u` escape; `none` is the
`return` after "Invalid Unicode escape sequence". -/
def lexer_unicode_digits : Nat → lexer_t → Nat → lexer_t × Option Nat
  | 0, lex, codepoint => (lex, some codepoint)
  | i + 1, lex, codepoint =>
    let (hex, lex) := lexer_advance lex
    if !isxdigit hex then (LEXER_ERROR lex, none)
    else lexer_unicode_digits i lex ((codepoint <<< 4) ||| hex_value hex)

/-- The bytes the `\u` case appends to the buffer for a code point. -/
def utf8_bytes (codepoint : Nat) : List Nat :=
  if codepoint ≤ 0x7F then [codepoint]
  else if codepoint ≤ 0x7FF then
    [0xC0 ||| ((codepoint >>> 6) &&& 0x1F), 0x80 ||| (codepoint &&& 0x3F)]
  else
    [0xE0 ||| ((codepoint >>> 12) &&& 0x0F), 0x80 ||| ((codepoint >>> 6) &&& 0x3F),
     0x80 ||| (codepoint &&& 0x3F)]

/-- The `switch (next)` of an escape, the `u` case apart: the character the
escape stands for, `none` in the `default` case. -/
def escape_value (next : Char) : Option Char :=
  if next = 'n' then some '\n'
  else if next = 'r' then some '\r'
  else if next = 't' then some '\t'
  else if next = 'b' then some '\x08'
  else if next = 'f' then some '\x0c'
  else if next = 'v' then some '\x0b'
  else if next = '\\' then some '\\'
  else if next = '\'' then some '\''
  else if next = '"' then some '"'
  else if next = '0' then some '\x00'
  else none

/-- The loop over the body of a string literal, from after the opening quote
to before the closing one: the lexer afterwards and the buffer, `none` when
the loop ends in one of the `return`s after an error. Every round reads at
least one character. -/
def lexer_string_body (quote : Char) : Nat → lexer_t → List Char → lexer_t × Option (List Char)
  | 0, lex, buf => (lex, some buf)
  | fuel + 1, lex, buf =>
    if lexer_peek lex ≠ quote ∧ lexer_peek lex ≠ '\x00' then
      let (ch, lex) := lexer_advance lex
      if ch = '\\' then
        let (next, lex) := lexer_advance lex
        if next = 'u' then
          if lex.pos + 4 > lex.length then (LEXER_ERROR lex, none)
          else
            match lexer_unicode_digits 4 lex 0 with
            | (lex, none) => (lex, none)
            | (lex, some codepoint) =>
              lexer_string_body quote fuel lex (buf ++ (utf8_bytes codepoint).map Char.ofNat)
        else
          match escape_value next with
          | some ch => lexer_string_body quote fuel lex (buf ++ [ch])
          | none =>
            (LEXER_ERROR { lex with loc := { lex.loc with column := lex.loc.column - 1 } }, none)
      else lexer_string_body quote fuel lex (buf ++ [ch])
    else (lex, some buf)

/-- `strncmp(value, keyword, n) == 0` for texts without NUL. -/
def strncmp_eq (value keyword : List Char) (n : Nat) : Bool := value.take n = keyword.take n

/-- The chain of `if (length == n && strncmp(value, "...", n) == 0)` that gives
an identifier its token type. -/
def keyword_type (value : List Char) (length : Nat) : token_type_t :=
  if length = 2 ∧ strncmp_eq value "if".data 2 then TOKEN_IF
  else if length = 4 ∧ strncmp_eq value "else".data 4 then TOKEN_ELSE
  else if length = 5 ∧ strncmp_eq value "while".data 5 then TOKEN_WHILE
  else if length = 2 ∧ strncmp_eq value "do".data 2 then TOKEN_DO
  else if length = 3 ∧ strncmp_eq value "for".data 3 then TOKEN_FOR
  else if length = 8 ∧ strncmp_eq value "function".data 8 then TOKEN_FUNCTION
  else if length = 6 ∧ strncmp_eq value "switch".data 6 then TOKEN_SWITCH
  else if length = 4 ∧ strncmp_eq value "case".data 4 then TOKEN_CASE
  else if length = 7 ∧ strncmp_eq value "default".data 7 then TOKEN_DEFAULT
  else if length = 3 ∧ strncmp_eq value "let".data 3 then TOKEN_LET
  else if length = 5 ∧ strncmp_eq value "const".data 5 then TOKEN_CONST
  else if length = 3 ∧ strncmp_eq value "var".data 3 then TOKEN_VAR
  else if length = 4 ∧ strncmp_eq value "null".data 4 then TOKEN_NULL
  else if length = 9 ∧ strncmp_eq value "undefined".data 9 then TOKEN_UNDEFINED
  else if length = 6 ∧ strncmp_eq value "return".data 6 then TOKEN_RETURN
  else if length = 5 ∧ strncmp_eq value "break".data 5 then TOKEN_BREAK
  else if length = 8 ∧ strncmp_eq value "continue".data 8 then TOKEN_CONTINUE
  else if length = 6 ∧ strncmp_eq value "import".data 6 then TOKEN_IMPORT
  else if length = 6 ∧ strncmp_eq value "export".data 6 then TOKEN_EXPORT
  else if length = 3 ∧ strncmp_eq value "try".data 3 then TOKEN_TRY
  else if length = 5 ∧ strncmp_eq value "catch".data 5 then TOKEN_CATCH
  else if length = 7 ∧ strncmp_eq value "finally".data 7 then TOKEN_FINALLY
  else if length = 5 ∧ strncmp_eq value "throw".data 5 then TOKEN_THROW
  else if length = 6 ∧ strncmp_eq value "typeof".data 6 then TOKEN_TYPEOF
  else if length = 4 ∧ strncmp_eq value "true".data 4 then TOKEN_BOOL_LITERAL
  else if length = 5 ∧ strncmp_eq value "false".data 5 then TOKEN_BOOL_LITERAL
  else if length = 5 ∧ strncmp_eq value "async".data 5 then TOKEN_ASYNC
  else if length = 5 ∧ strncmp_eq value "await".data 5 then TOKEN_AWAIT
  else if length = 4 ∧ strncmp_eq value "from".data 4 then TOKEN_FROM
  else if length = 6 ∧ strncmp_eq value "delete".data 6 then TOKEN_DELETE
  else if length = 4 ∧ strncmp_eq value "this".data 4 then TOKEN_THIS
  else if length = 4 ∧ strncmp_eq value "void".data 4 then TOKEN_VOID
  else if length = 3 ∧ strncmp_eq value "new".data 3 then TOKEN_NEW
  else if length = 8 ∧ strncmp_eq value "debugger".data 8 then TOKEN_DEBUGGER
  else TOKEN_IDENTIFIER

/-- `lexer_strndup(&lexer->source[start], length)`. -/
def lexer_strndup (lex : lexer_t) (start length : Nat) : List Char :=
  (lex.source.drop start).take length

/-- The `switch (c)` over operators and punctuation: the lexer afterwards and
the `type`, `value` and `length` given to the token, `none` in the `default`
case. -/
def lexer_operator (lex : lexer_t) (c : Char) : lexer_t × Option (token_type_t × String × Nat) :=
  if c = '+' then
    let (m, lex) := lexer_match lex '+'
    if m then (lex, some (TOKEN_PLUS_PLUS, "++", 2))
    else
      let (m, lex) := lexer_match lex '='
      if m then (lex, some (TOKEN_PLUS_EQUAL, "+=", 2))
      else (lex, some (TOKEN_PLUS, "+", 1))
  else if c = '-' then
    let (m, lex) := lexer_match lex '-'
    if m then (lex, some (TOKEN_MINUS_MINUS, "--", 2))
    else
      let (m, lex) := lexer_match lex '='
      if m then (lex, some (TOKEN_MINUS_EQUAL, "-=", 2))
      else
        let (m, lex) := lexer_match lex '>'
        if m then (lex, some (TOKEN_ARROW, "=>", 2))
        else (lex, some (TOKEN_MINUS, "-", 1))
  else if c = '*' then
    let (m, lex) := lexer_match lex '*'
    if m then
      let (m, lex) := lexer_match lex '='
      if m then (lex, some (TOKEN_STAR_STAR_EQUAL, "**=", 3))
      else (lex, some (TOKEN_STAR_STAR, "**", 2))
    else
      let (m, lex) := lexer_match lex '='
      if m then (lex, some (TOKEN_STAR_EQUAL, "*=", 2))
      else (lex, some (TOKEN_STAR, "*", 1))
  else if c = '/' then
    let (m, lex) := lexer_match lex '='
    if m then (lex, some (TOKEN_SLASH_EQUAL, "/=", 2))
    else (lex, some (TOKEN_SLASH, "/", 1))
  else if c = '%' then
    let (m, lex) := lexer_match lex '='
    if m then (lex, some (TOKEN_PERCENT_EQUAL, "%=", 2))
    else (lex, some (TOKEN_PERCENT, "%", 1))
  else if c = '&' then
    let (m, lex) := lexer_match lex '&'
    if m then
      let (m, lex) := lexer_match lex '='
      if m then (lex, some (TOKEN_LOGICAL_AND_EQUAL, "&&=", 3))
      else (lex, some (TOKEN_LOGICAL_AND, "&&", 2))
    else
      let (m, lex) := lexer_match lex '='
      if m then (lex, some (TOKEN_AMPERSAND_EQUAL, "&=", 2))
      else (lex, some (TOKEN_AMPERSAND, "&", 1))
  else if c = '|' then
    let (m, lex) := lexer_match lex '|'
    if m then
      let (m, lex) := lexer_match lex '='
      if m then (lex, some (TOKEN_LOGICAL_OR_EQUAL, "||=", 3))
      else (lex, some (TOKEN_LOGICAL_OR, "||", 2))
    else
      let (m, lex) := lexer_match lex '='
      if m then (lex, some (TOKEN_PIPE_EQUAL, "|=", 2))
      else (lex, some (TOKEN_PIPE, "|", 1))
  else if c = '^' then
    let (m, lex) := lexer_match lex '='
    if m then (lex, some (TOKEN_CARET_EQUAL, "^=", 2))
    else (lex, some (TOKEN_CARET, "^", 1))
  else if c = '~' then (lex, some (TOKEN_TILDE, "~", 1))
  else if c = '<' then
    let (m, lex) := lexer_match lex '<'
    if m then
      let (m, lex) := lexer_match lex '='
      if m then (lex, some (TOKEN_LEFT_SHIFT_EQUAL, "<<=", 3))
      else (lex, some (TOKEN_LEFT_SHIFT, "<<", 2))
    else
      let (m, lex) := lexer_match lex '='
      if m then (lex, some (TOKEN_LESS_EQUAL, "<=", 2))
      else (lex, some (TOKEN_LESS, "<", 1))
  else if c = '>' then
    let (m, lex) := lexer_match lex '>'
    if m then
      let (m, lex) := lexer_match lex '='
      if m then (lex, some (TOKEN_RIGHT_SHIFT_EQUAL, ">>=", 3))
      else (lex, some (TOKEN_RIGHT_SHIFT, ">>", 2))
    else
      let (m, lex) := lexer_match lex '='
      if m then (lex, some (TOKEN_GREATER_EQUAL, ">=", 2))
      else (lex, some (TOKEN_GREATER, ">", 1))
  else if c = '=' then
    let (m, lex) := lexer_match lex '='
    if m then (lex, some (TOKEN_EQUAL_EQUAL, "==", 2))
    else (lex, some (TOKEN_EQUAL, "=", 1))
  else if c = '!' then
    let (m, lex) := lexer_match lex '='
    if m then (lex, some (TOKEN_BANG_EQUAL, "!=", 2))
    else (lex, some (TOKEN_BANG, "!", 1))
  else if c = '(' then (lex, some (TOKEN_LEFT_PAREN, "(", 1))
  else if c = ')' then (lex, some (TOKEN_RIGHT_PAREN, ")", 1))
  else if c = '{' then (lex, some (TOKEN_LEFT_BRACE, "\x7b", 1))
  else if c = '}' then (lex, some (TOKEN_RIGHT_BRACE, "\x7d", 1))
  else if c = '[' then (lex, some (TOKEN_LEFT_BRACKET, "[", 1))
  else if c = ']' then (lex, some (TOKEN_RIGHT_BRACKET, "]", 1))
  else if c = '.' then
    let (m, lex) := lexer_match lex '.'
    if m then
      let (m, lex) := lexer_match lex '.'
      if m then (lex, some (TOKEN_ELLIPSIS, "...", 3))
      else (lex, some (TOKEN_DOT, ".", 1))
    else (lex, some (TOKEN_DOT, ".", 1))
  else if c = ',' then (lex, some (TOKEN_COMMA, ",", 1))
  else if c = ';' then (lex, some (TOKEN_SEMICOLON, ";", 1))
  else if c = ':' then (lex, some (TOKEN_COLON, ":", 1))
  else if c = '?' then (lex, some (TOKEN_QUESTION, "?", 1))
  else (lex, none)

/-- The condition of the loops over the tail of a number. -/
def in_number (c : Char) : Bool := isdigit c || c = '_'

/-- The condition of the loop over the tail of an identifier. -/
def in_identifier (c : Char) : Bool := isalnum c || c = '_' || c = '$'

/-- One round of the `while (true)` of `lexer_tokenize` from
`size_t start = lexer->pos;` on, where a token starts: the lexer afterwards,
and `false` when the round ends in `break` or `return`. The token of the end of
the text has no `value` (`NULL`), kept as the empty string. -/
def lexer_token (lex : lexer_t) : lexer_t × Bool :=
  let start := lex.pos
  let start_line := lex.loc.line
  let start_column := lex.loc.column
  let (c, lex) := lexer_advance lex
  let loc : location_t := ⟨lex.loc.filename, start_line, start_column⟩
  if c = '\x00' then
    (lexer_append lex ⟨"", 0, TOKEN_EOF, loc⟩, false)
  else if c = '"' ∨ c = '\'' then
    match lexer_string_body c (lex.length - lex.pos) lex [] with
    | (lex, none) => (lex, false)
    | (lex, some buf) =>
      if lexer_peek lex ≠ c then
        (LEXER_ERROR { lex with loc := { lex.loc with line := start_line, column := start_column } },
          false)
      else
        let lex := (lexer_advance lex).2
        (lexer_append lex ⟨String.mk buf, buf.length, TOKEN_STRING_LITERAL, loc⟩, true)
  else if isdigit c then
    let start := lex.pos - 1
    let lex := lexer_advance_while in_number (lex.length - lex.pos) lex
    let lex :=
      if lexer_peek lex = '.' then
        let lex := (lexer_advance lex).2
        lexer_advance_while in_number (lex.length - lex.pos) lex
      else lex
    let length := lex.pos - start
    let value := lexer_strndup lex start length
    (lexer_append lex ⟨String.mk value, length, TOKEN_NUMBER_LITERAL, loc⟩, true)
  else if isalpha c ∨ c = '_' ∨ c = '$' then
    let lex := lexer_advance_while in_identifier (lex.length - lex.pos) lex
    let length := lex.pos - start
    let value := lexer_strndup lex start length
    (lexer_append lex ⟨String.mk value, length, keyword_type value length, loc⟩, true)
  else
    match lexer_operator lex c with
    | (lex, some (type, value, length)) => (lexer_append lex ⟨value, length, type, loc⟩, true)
    | (lex, none) =>
      (LEXER_ERROR { lex with loc := { lex.loc with line := start_line, column := start_column } },
        false)

/-- One round of the `while (true)` of `lexer_tokenize`: white space, a
comment (then `continue`), or a token. -/
def lexer_step (lex : lexer_t) : lexer_t × Bool :=
  let lex := lexer_advance_while isspace (lex.length - lex.pos) lex
  if lexer_peek lex = '/' ∧ lex.pos + 1 < lex.length then
    let next := lex.source.getD (lex.pos + 1) '\x00'
    if next = '/' then
      let lex := (lexer_advance (lexer_advance lex).2).2
      (lexer_advance_while in_line_comment (lex.length - lex.pos) lex, true)
    else if next = '*' then
      let lex := (lexer_advance (lexer_advance lex).2).2
      lexer_block_comment (lex.length - lex.pos + 1) lex
    else lexer_token lex
  else lexer_token lex

/-- The `while (true)` of `lexer_tokenize`; `none` when the rounds allowed by
`fuel` do not reach a `break` or `return`. -/
def lexer_tokenize_loop : Nat → lexer_t → Option lexer_t
  | 0, _ => none
  | fuel + 1, lex =>
    match lexer_step lex with
    | (lex, true) => lexer_tokenize_loop fuel lex
    | (lex, false) => some lex

/-- `lexer_tokenize`: every round but the last reads at least one character,
so `length - pos + 1` rounds are allowed. -/
def lexer_tokenize (lex : lexer_t) : Option lexer_t :=
  lexer_tokenize_loop (lex.length - lex.pos + 1) lex

/-- `strdup` and `strlen` of a buffer: the text before the first NUL. -/
def c_string (buffer : List Char) : List Char := buffer.takeWhile (fun c => c ≠ '\x00')

/-- `lexer_init` for a text in memory (`source` not `NULL`); the text of a
file goes the same way once `lexer_readfile` has read it. A `NULL` file name
is kept as `"(null)"`. -/
def lexer_init (filename : Option String) (source : List Char) : Option lexer_t :=
  lexer_tokenize
    { tokens := [], source := c_string source,
      loc := ⟨filename.getD "(null)", 1, 1⟩, pos := 0, had_error := false }

/-- What the claims compare of a token: its type and its text. -/
def token_t.type_text (t : token_t) : token_type_t × String := (t.type, t.value)

/-! ## What reading a piece of text does to the lexer -/

/-- The text not read yet: `source[pos .. length)`. -/
def lexer_t.rest (lex : lexer_t) : List Char := lex.source.drop lex.pos

/-- What `lexer_advance` does to `loc` when it reads `c`. -/
def loc_step (loc : location_t) (c : Char) : location_t :=
  if c.toNat > 127 then loc
  else if c = '\n' then { loc with line := loc.line + 1, column := 1 }
  else { loc with column := loc.column + 1 }

/-- The location after reading the characters of `cs` one by one. -/
def loc_after (loc : location_t) (cs : List Char) : location_t := cs.foldl loc_step loc

/-- The lexer after `lexer_advance` has read the characters of `cs` one by one. -/
def lexer_read (lex : lexer_t) (cs : List Char) : lexer_t :=
  { lex with
    pos := lex.pos + cs.length
    loc := loc_after lex.loc cs
    had_error := lex.had_error || cs.any (fun c => decide (c.toNat > 127)) }

/-- From `lex` to `lex'` the text `cs` was read and nothing else happened but,
maybe, an error: `loc` is known when no error was flagged. -/
def lexer_reads (lex lex' : lexer_t) (cs : List Char) : Prop :=
  lex.rest = cs ++ lex'.rest ∧ lex'.source = lex.source ∧ lex'.pos = lex.pos + cs.length ∧
  lex'.tokens = lex.tokens ∧ lex'.loc.filename = lex.loc.filename ∧
  (lex.had_error = true → lex'.had_error = true) ∧
  (lex'.had_error = false → lex'.loc = loc_after lex.loc cs ∧ ∀ c ∈ cs, c.toNat ≤ 127)

/-- The text at the start of a round opens a comment: `//` or `/*`. -/
def opens_comment (r : List Char) : Bool :=
  match r with
  | a :: b :: _ => a = '/' && (b = '/' || b = '*')
  | _ => false

/-- The token types and texts that the `switch` over operators and punctuation
gives, `TOKEN_ARROW` with its text `=>` among them. -/
def operator_table : List (token_type_t × String) :=
  [(TOKEN_PLUS_PLUS, "++"), (TOKEN_PLUS_EQUAL, "+="), (TOKEN_PLUS, "+"),
   (TOKEN_MINUS_MINUS, "--"), (TOKEN_MINUS_EQUAL, "-="), (TOKEN_ARROW, "=>"), (TOKEN_MINUS, "-"),
   (TOKEN_STAR_STAR_EQUAL, "**="), (TOKEN_STAR_STAR, "**"), (TOKEN_STAR_EQUAL, "*="),
   (TOKEN_STAR, "*"), (TOKEN_SLASH_EQUAL, "/="), (TOKEN_SLASH, "/"),
   (TOKEN_PERCENT_EQUAL, "%="), (TOKEN_PERCENT, "%"),
   (TOKEN_LOGICAL_AND_EQUAL, "&&="), (TOKEN_LOGICAL_AND, "&&"), (TOKEN_AMPERSAND_EQUAL, "&="),
   (TOKEN_AMPERSAND, "&"),
   (TOKEN_LOGICAL_OR_EQUAL, "||="), (TOKEN_LOGICAL_OR, "||"), (TOKEN_PIPE_EQUAL, "|="),
   (TOKEN_PIPE, "|"), (TOKEN_CARET_EQUAL, "^="), (TOKEN_CARET, "^"), (TOKEN_TILDE, "~"),
   (TOKEN_LEFT_SHIFT_EQUAL, "<<="), (TOKEN_LEFT_SHIFT, "<<"), (TOKEN_LESS_EQUAL, "<="),
   (TOKEN_LESS, "<"),
   (TOKEN_RIGHT_SHIFT_EQUAL, ">>="), (TOKEN_RIGHT_SHIFT, ">>"), (TOKEN_GREATER_EQUAL, ">="),
   (TOKEN_GREATER, ">"),
   (TOKEN_EQUAL_EQUAL, "=="), (TOKEN_EQUAL, "="), (TOKEN_BANG_EQUAL, "!="), (TOKEN_BANG, "!"),
   (TOKEN_LEFT_PAREN, "("), (TOKEN_RIGHT_PAREN, ")"), (TOKEN_LEFT_BRACE, "\x7b"),
   (TOKEN_RIGHT_BRACE, "\x7d"), (TOKEN_LEFT_BRACKET, "["), (TOKEN_RIGHT_BRACKET, "]"),
   (TOKEN_ELLIPSIS, "..."), (TOKEN_DOT, "."), (TOKEN_COMMA, ","), (TOKEN_SEMICOLON, ";"),
   (TOKEN_COLON, ":"), (TOKEN_QUESTION, "?")]

/-- The text of an identifier or keyword: `[A-Za-z_$][A-Za-z0-9_$]*`. -/
def identifier_shape (text : List Char) : Prop :=
  ∃ c cs, text = c :: cs ∧ (isalpha c = true ∨ c = '_' ∨ c = '$') ∧
    ∀ x ∈ cs, in_identifier x = true

/-- The text of a number: a digit, digits and underscores, and maybe a `.`
with digits and underscores after it. -/
def number_shape (text : List Char) : Prop :=
  ∃ d ds, isdigit d = true ∧ (∀ x ∈ ds, in_number x = true) ∧
    (text = d :: ds ∨ ∃ fs, (∀ x ∈ fs, in_number x = true) ∧ text = d :: ds ++ '.' :: fs)

/-- The type and text of a token that is written in the source as its text:
an identifier or keyword, a number, or an operator other than `TOKEN_ARROW`. -/
def relexable (type : token_type_t) (text : String) : Prop :=
  (identifier_shape text.data ∧ type = keyword_type text.data text.data.length) ∨
  (number_shape text.data ∧ type = TOKEN_NUMBER_LITERAL) ∨
  ((type, text) ∈ operator_table ∧ type ≠ TOKEN_ARROW)

/-- The token `t` was made from the text `cs` read at its start: a string
literal, that opens with a quote; `TOKEN_ARROW`, read from `->`; or a token
whose text starts `cs`. -/
def token_at (t : token_t) (cs : List Char) : Prop :=
  (t.type = TOKEN_STRING_LITERAL ∧ ∃ q r, cs = q :: r ∧ (q = '"' ∨ q = '\'')) ∨
  (t.type = TOKEN_ARROW ∧ t.value = "=>" ∧ cs = ['-', '>']) ∨
  (relexable t.type t.value ∧ t.value.data <+: cs ∧ t.length = t.value.length)

/-- What a round does from the start of a token, having read `cs`: it
returns after an error, or it appends the token of the end of the text and
stops, or it appends a token made from `cs` and goes on. -/
def token_round (lex lex' : lexer_t) (cont : Bool) (cs : List Char) : Prop :=
  lexer_reads lex { lex' with tokens := lex.tokens } cs ∧
  ((cont = false ∧ lex'.tokens = lex.tokens ∧ lex'.had_error = true) ∨
   (cont = false ∧ ∃ t, lex'.tokens = lex.tokens ++ [t] ∧ t.type = TOKEN_EOF ∧ t.loc = lex.loc ∧
      (lex'.had_error = false → cs = [] ∨ cs = ['\x00']) ∧ (cs = [] → lex.rest = [])) ∨
   (cont = true ∧ cs ≠ [] ∧ ∃ t, lex'.tokens = lex.tokens ++ [t] ∧ t.loc = lex.loc ∧
      t.type ≠ TOKEN_EOF ∧ token_at t cs))

/-- What one round of the `while (true)` does: it reads white space `ws`, and
then either skips a comment and goes on, or does a `token_round`. -/
def step_round (lex lex' : lexer_t) (cont : Bool) : Prop :=
  ∃ ws r cs, lex.rest = ws ++ r ∧ (∀ c ∈ ws, isspace c = true) ∧
    ((cont = true ∧ cs ≠ [] ∧ lexer_reads (lexer_read lex ws) lex' cs) ∨
     (isspace (r.headD '\x00') = false ∧ token_round (lexer_read lex ws) lex' cont cs))

/-- The rounds of `lexer_tokenize` from `lex` until the `break` or `return`
that leaves `lex'`. -/
inductive lexer_run : lexer_t → lexer_t → Prop where
  | stop (lex lex' : lexer_t) : step_round lex lex' false → lexer_run lex lex'
  | step (lex mid lex' : lexer_t) : step_round lex mid true → lexer_run mid lex' →
    lexer_run lex lex'

/-- The keyword table of the lexer as the specification gives it: each
keyword with its token type, `true` and `false` with `TOKEN_BOOL_LITERAL`. -/
def keyword_table : List (String × token_type_t) :=
  [("if", TOKEN_IF), ("else", TOKEN_ELSE), ("while", TOKEN_WHILE), ("do", TOKEN_DO),
   ("for", TOKEN_FOR), ("function", TOKEN_FUNCTION), ("switch", TOKEN_SWITCH),
   ("case", TOKEN_CASE), ("default", TOKEN_DEFAULT), ("let", TOKEN_LET),
   ("const", TOKEN_CONST), ("var", TOKEN_VAR), ("null", TOKEN_NULL),
   ("undefined", TOKEN_UNDEFINED), ("return", TOKEN_RETURN), ("break", TOKEN_BREAK),
   ("continue", TOKEN_CONTINUE), ("import", TOKEN_IMPORT), ("export", TOKEN_EXPORT),
   ("try", TOKEN_TRY), ("catch", TOKEN_CATCH), ("finally", TOKEN_FINALLY),
   ("throw", TOKEN_THROW), ("typeof", TOKEN_TYPEOF), ("true", TOKEN_BOOL_LITERAL),
   ("false", TOKEN_BOOL_LITERAL), ("async", TOKEN_ASYNC), ("await", TOKEN_AWAIT),
   ("from", TOKEN_FROM), ("delete", TOKEN_DELETE), ("this", TOKEN_THIS), ("void", TOKEN_VOID),
   ("new", TOKEN_NEW), ("debugger", TOKEN_DEBUGGER)]

/-- The token type the specification gives a lexeme `[A-Za-z_$][A-Za-z0-9_$]*`:
that of the keyword table when the lexeme is in it, `TOKEN_IDENTIFIER`
otherwise. -/
def lexeme_type (lexeme : String) : token_type_t :=
  (keyword_table.lookup lexeme).getD TOKEN_IDENTIFIER

/-! ## Statements about the lexer: locations and string literals -/

/-- Modelled from the spec: the line of the character that follows the text
`before`, 1 + the number of newline characters of `before`. -/
def line_of (before : List Char) : Nat := 1 + before.count '\n'

/-- Modelled from the spec: the column of the character that follows the text
`before`, 1 + the number of characters of `before` behind its last newline
(behind its start when it has none). -/
def column_of (before : List Char) : Nat :=
  1 + (before.reverse.takeWhile (fun c => c ≠ '\n')).length

/-- Modelled from the spec: the escapes of a string literal, each with its
value: `\n` LF, `\r` CR, `\t` TAB, `\b` BS, `\f` FF, `\v` VT, `\\`, `\'`, `\"`
and `\0` NUL. -/
def escape_table : List (Char × Char) :=
  [('n', '\n'), ('r', '\r'), ('t', '\t'), ('b', '\x08'), ('f', '\x0c'), ('v', '\x0b'),
   ('\\', '\\'), ('\'', '\''), ('"', '"'), ('0', '\x00')]

/-- Modelled from the spec: the value of a hexadecimal digit. -/
def hex_digit (d : Char) : Nat :=
  if isdigit d then d.toNat - 48
  else if 97 ≤ d.toNat then d.toNat - 87
  else d.toNat - 55

/-- Modelled from the spec: the code point `XXXX` of an escape `\uXXXX`, the
number its four hexadecimal digits stand for. -/
def hex_number (digits : List Char) : Nat :=
  digits.foldl (fun n d => 16 * n + hex_digit d) 0

/-- Modelled from the spec: the UTF-8 encoding of a code point below 0x10000:
one byte up to 0x7F, two bytes up to 0x7FF, three bytes otherwise. -/
def utf8_encode (codepoint : Nat) : List Nat :=
  if codepoint ≤ 0x7F then [codepoint]
  else if codepoint ≤ 0x7FF then [0xC0 + codepoint / 64, 0x80 + codepoint % 64]
  else [0xE0 + codepoint / 4096, 0x80 + codepoint / 64 % 64, 0x80 + codepoint % 64]

/-- Modelled from the spec: standard UTF-8 decoding of the bytes of one code
point below 0x10000. A sequence that is longer than the code point needs
(overlong) and the code points 0xD800 to 0xDFFF (surrogates) are not UTF-8. -/
def utf8_decode (bytes : List Nat) : Option Nat :=
  match bytes with
  | [a] => if a < 0x80 then some a else none
  | [a, b] =>
    if 0xC2 ≤ a ∧ a ≤ 0xDF ∧ 0x80 ≤ b ∧ b ≤ 0xBF then some ((a - 0xC0) * 64 + (b - 0x80))
    else none
  | [a, b, c] =>
    if 0xE0 ≤ a ∧ a ≤ 0xEF ∧ 0x80 ≤ b ∧ b ≤ 0xBF ∧ 0x80 ≤ c ∧ c ≤ 0xBF then
      if (a - 0xE0) * 4096 + (b - 0x80) * 64 + (c - 0x80) < 0x800 ∨
          (0xD800 ≤ (a - 0xE0) * 4096 + (b - 0x80) * 64 + (c - 0x80) ∧
            (a - 0xE0) * 4096 + (b - 0x80) * 64 + (c - 0x80) ≤ 0xDFFF) then none
      else some ((a - 0xE0) * 4096 + (b - 0x80) * 64 + (c - 0x80))
    else none
  | _ => none

/-- Modelled from the spec: the number of characters of the escape at the
start of `text`, 2 for one of the ten escapes and 6 for `\u` with four
hexadecimal digits; `none` when `text` does not start with a valid escape. -/
def escape_length (text : List Char) : Option Nat :=
  match text with
  | c :: e :: rest =>
    if c = '\\' then
      if e = 'u' then
        match rest with
        | a :: b :: c :: d :: _ =>
          if isxdigit a ∧ isxdigit b ∧ isxdigit c ∧ isxdigit d then some 6 else none
        | _ => none
      else if (escape_table.lookup e).isSome then some 2 else none
    else none
  | _ => none

/-- Modelled from the spec: the text of a string literal in the quotes `quote`
with the body `body`: the body with each escape replaced by its value and each
`\uXXXX` by the UTF-8 bytes of the code point; `none` when the body holds an
escape that is not valid, or the quote itself without a backslash. -/
def string_text (quote : Char) : List Char → Option (List Char)
  | [] => some []
  | c :: rest =>
    if c = '\\' then
      match rest with
      | [] => none
      | e :: rest =>
        if e = 'u' then
          match rest with
          | a :: b :: c :: d :: rest =>
            if isxdigit a ∧ isxdigit b ∧ isxdigit c ∧ isxdigit d then
              (string_text quote rest).map
                (fun text => (utf8_encode (hex_number [a, b, c, d])).map Char.ofNat ++ text)
            else none
          | _ => none
        else
          match escape_table.lookup e with
          | some value => (string_text quote rest).map (fun text => value :: text)
          | none => none
    else if c = quote then none
    else (string_text quote rest).map (fun text => c :: text)

/-- Modelled from the spec: the texts of the tokens other than the token of
the end of the text, joined with single spaces. -/
def join_texts (tokens : List token_t) : List Char :=
  List.intercalate [' ']
    ((tokens.filter (fun t => t.type ≠ TOKEN_EOF)).map (fun t => t.value.data))

/-- Modelled from the spec: a complete comment, all of it ASCII: a `//`
comment ended by a newline, or a `/* */` comment whose body contains no `*/`. -/
def complete_comment (comment : List Char) : Prop :=
  (∀ c ∈ comment, c.toNat ≤ 127 ∧ c ≠ '\x00') ∧
  ((∃ body, comment = '/' :: '/' :: body ++ ['\n'] ∧ '\n' ∉ body) ∨
   (∃ body, comment = '/' :: '*' :: body ++ ['*', '/'] ∧ ¬ ['*', '/'] <:+: body))

/-- Modelled from the spec: the lexer at the start of a round of the loop of
`lexer_tokenize`, after `k` rounds that went on; text that stands there is
outside any string literal and comment. -/
def lexer_rounds : Nat → lexer_t → Option lexer_t
  | 0, lex => some lex
  | k + 1, lex =>
    match lexer_step lex with
    | (lex, true) => lexer_rounds k lex
    | (_, false) => none

/-- Two texts at which the reading of a token stops: both are empty, or both
start with the same white-space character. -/
def same_stop (t1 t2 : List Char) : Prop :=
  (t1 = [] ∧ t2 = []) ∨ ∃ w r1 r2, isspace w = true ∧ t1 = w :: r1 ∧ t2 = w :: r2

/-- Two lexers that have the same text `a` to read, before `t1` and before
`t2`, and that agree on the error flag and on the types and texts of their
tokens. -/
def lexer_sim (a t1 t2 : List Char) (lex1 lex2 : lexer_t) : Prop :=
  lex1.rest = a ++ t1 ∧ lex2.rest = a ++ t2 ∧ lex1.had_error = lex2.had_error ∧
  lex1.tokens.map token_t.type_text = lex2.tokens.map token_t.type_text

/-- The lexer has read into the text `t`, or has flagged an error. -/
def lexer_bad (t : List Char) (lex : lexer_t) : Prop :=
  lex.rest.length < t.length ∨ lex.had_error = true

/-- The lexer `later` has no more text to read than `lex`, and has the error
flag when `lex` has it. -/
def lexer_later (lex later : lexer_t) : Prop :=
  later.rest.length ≤ lex.rest.length ∧ (lex.had_error = true → later.had_error = true)

/-! ## Parser (`include/parser.h`, `src/parser.c`)

The parser works on the token array of the lexer through `lexer_next`.
A run of a parse function ends with a node, with `NULL` (`none`), or it does
not end normally: it dereferences a `NULL` token, reads past the token array,
calls `exit`, hands a node that was never filled in to `node_free`, or (in the
embedding only) runs out of fuel. -/

/-- How a run can stop without returning. -/
inductive fault where
  /-- `parser->current` or `parser->previous` is `NULL` where it is read. -/
  | null_token
  /-- `parser_peek` reads `tokens[index]` with `index >= count`. -/
  | out_of_bounds
  /-- `UNREACHABLE`: a message, then `exit(EXIT_FAILURE)`. -/
  | unreachable
  /-- `node_free` is called on a node from `malloc` of which a member that
  `node_free` reads was never written: it frees what `malloc` left there. -/
  | uninitialised_node
  /-- The embedding ran out of fuel; the C code has no counterpart. -/
  | out_of_fuel
deriving Repr, DecidableEq

deriving instance DecidableEq for Except

/-- `parser_t` together with the two fields of the lexer it reads, `tokens`
(`count` is its length) and `index`. The field `diagnostics` is not part of the
C struct: it records the format strings that `PARSER_ERROR` and `ERROR` wrote
to `stderr`, oldest first. -/
structure parser_t where
  tokens : List token_t
  index : Nat
  current : Option token_t
  previous : Option token_t
  diagnostics : List String
deriving Repr, DecidableEq

/-- A function of the parser: from the parser before the call to the result
and the parser after it. -/
def parse_m (α : Type) : Type := parser_t → Except fault (α × parser_t)

instance : Monad parse_m where
  pure a := fun p => .ok (a, p)
  bind m f := fun p =>
    match m p with
    | .ok (a, p) => f a p
    | .error e => .error e

/-- The run stops. -/
def parse_m.stop {α : Type} (e : fault) : parse_m α := fun _ => .error e

/-- `lexer_next`: the token at `index`, and `index++`; `NULL` when `index >=
count` (an empty array is `NULL` in C and gives `NULL` too). -/
def lexer_next (p : parser_t) : Option token_t × parser_t :=
  if p.index ≥ p.tokens.length then (none, p)
  else (p.tokens.get? p.index, { p with index := p.index + 1 })

/-- `parser_init` on the token array of a lexer whose `index` is 0. -/
def parser_init (tokens : List token_t) : parser_t :=
  let p : parser_t := ⟨tokens, 0, none, none, []⟩
  let (t, p) := lexer_next p
  { p with current := t, previous := none }

/-- `parser_advance`. -/
def parser_advance : parse_m Unit := fun p =>
  let (t, p') := lexer_next p
  .ok ((), { p' with previous := p.current, current := t })

/-- Reading `*parser->current`. -/
def parser_current : parse_m token_t := fun p =>
  match p.current with
  | some t => .ok (t, p)
  | none => .error .null_token

/-- Reading `*parser->previous`. -/
def parser_previous : parse_m token_t := fun p =>
  match p.previous with
  | some t => .ok (t, p)
  | none => .error .null_token

/-- `parser->current->type`. -/
def current_type : parse_m token_type_t := do
  let t ← parser_current
  return t.type

/-- `parser_peek`: `&tokens[index]`, read by the callers. -/
def parser_peek : parse_m token_t := fun p =>
  match p.tokens.get? p.index with
  | some t => .ok (t, p)
  | none => .error .out_of_bounds

/-- `parser_check`. -/
def parser_check (type : token_type_t) : parse_m Bool := do
  let t ← parser_current
  return decide (t.type = type)

/-- `parser_match`. -/
def parser_match (type : token_type_t) : parse_m Bool := do
  if (← parser_check type) then
    parser_advance
    return true
  return false

/-- A chain `parser_match(p, a) || parser_match(p, b) || ...`. -/
def parser_match_any : List token_type_t → parse_m Bool
  | [] => pure false
  | type :: rest => do
    if (← parser_match type) then return true
    parser_match_any rest

/-- Writing a message to `stderr`. -/
def report (message : String) : parse_m Unit := fun p =>
  .ok ((), { p with diagnostics := p.diagnostics ++ [message] })

/-- `PARSER_ERROR` with a format whose arguments read `parser->current`. -/
def PARSER_ERROR (message : String) : parse_m Unit := do
  let _ ← parser_current
  report message

/-- `ERROR` of `utils.h`: it prints and goes on. -/
def ERROR (message : String) : parse_m Unit := report message

/-- `strtold` on the text of a number token (a digit, then digits, `_` and at
most one `.`): the part that is converted, digits with maybe a `.` and digits
after it, and the part `endptr` is left pointing to. -/
def strtold (text : List Char) : List Char × List Char :=
  let digits := text.takeWhile isdigit
  match text.dropWhile isdigit with
  | '.' :: rest => (digits ++ '.' :: rest.takeWhile isdigit, rest.dropWhile isdigit)
  | rest => (digits, rest)

/-- The functions of the parser that are called before their definition is
reached in the order the embedding gives them. -/
inductive parse_call where
  | statement | block | if_stmt | comma | expression | assignment | exponent | unary
deriving Repr, DecidableEq

/-- What a call of one of these functions does. -/
abbrev parse_rec := parse_call → parse_m (Option Node)

/-- `parse_number`. -/
def parse_number : parse_m (Option Node) := do
  if !(← parser_match TOKEN_NUMBER_LITERAL) then return none
  let previous ← parser_previous
  let (converted, rest) := strtold previous.value.data
  if converted = [] ∨ rest ≠ [] then
    ERROR "Invalid number literal: %s"
  return some (.number (.strtold previous.value))

/-- `parse_string`. -/
def parse_string : parse_m (Option Node) := do
  if !(← parser_match TOKEN_STRING_LITERAL) then return none
  let previous ← parser_previous
  return some (.string (String.mk (c_string previous.value.data)))

/-- `parse_bool`. -/
def parse_bool : parse_m (Option Node) := do
  if !(← parser_match TOKEN_BOOL_LITERAL) then return none
  let previous ← parser_previous
  return some (.boolean (decide (previous.value = "true")))

/-- `parse_identifier`. -/
def parse_identifier : parse_m (Option Node) := do
  if !(← parser_match TOKEN_IDENTIFIER) then return none
  let previous ← parser_previous
  let name := previous.value
  if strncmp_eq name.data "Infinity".data 8 then
    return some (.number .infinity)
  else if strncmp_eq name.data "NaN".data 3 then
    return some (.number .nan)
  else
    return some (.identifier name)

/-- `parse_undefined`. -/
def parse_undefined : parse_m (Option Node) := do
  if !(← parser_match TOKEN_UNDEFINED) then return none
  return some .undefined

/-- `parse_null`. -/
def parse_null : parse_m (Option Node) := do
  if !(← parser_match TOKEN_NULL) then return none
  return some .null

/-- `parse_spread`. -/
def parse_spread (rec : parse_rec) : parse_m (Option Node) := do
  if !(← parser_match TOKEN_ELLIPSIS) then return none
  let some argument ← rec .expression | return none
  return some (.spread argument)

/-- The `do ... while` of `parse_array` from its second round on; `elements`
are the elements read so far. -/
def parse_array_loop (rec : parse_rec) : Nat → List Node → parse_m (Option Node)
  | 0, _ => parse_m.stop .out_of_fuel
  | fuel + 1, elements => do
    let element ← (do
      if (← parser_match TOKEN_ELLIPSIS) then
        let some argument ← rec .expression | return none
        return some (Node.spread argument)
      else if (← current_type) = TOKEN_COMMA then
        return some Node.undefined
      else
        rec .expression : parse_m (Option Node))
    let some element := element | return none
    let elements := elements ++ [element]
    if (← parser_match TOKEN_COMMA) then
      if (← current_type) ≠ TOKEN_RIGHT_BRACKET then
        return ← parse_array_loop rec fuel elements
    if !(← parser_match TOKEN_RIGHT_BRACKET) then
      PARSER_ERROR "Expected ',' or ']' after array element, got '%s'"
      return none
    return some (.array elements)

/-- `parse_array`. -/
def parse_array (fuel : Nat) (rec : parse_rec) : parse_m (Option Node) := do
  if !(← parser_match TOKEN_LEFT_BRACKET) then return none
  if !(← parser_match TOKEN_RIGHT_BRACKET) then
    return ← parse_array_loop rec fuel []
  return some (.array [])

/-- The `do ... while` of `parse_object`; `keys` and `values` are the entries
read so far. -/
def parse_object_loop (rec : parse_rec) :
    Nat → List (Option String) → List Node → parse_m (Option Node)
  | 0, _, _ => parse_m.stop .out_of_fuel
  | fuel + 1, keys, values => do
    let entry ← (do
      if (← parser_check TOKEN_ELLIPSIS) then
        let some value ← parse_spread rec | return none
        return some (none, value)
      else
        if !(← parser_match_any [TOKEN_IDENTIFIER, TOKEN_STRING_LITERAL]) then
          PARSER_ERROR "Expected identifier or string literal for object key, got: '%s'"
          return none
        let previous ← parser_previous
        let key := String.mk (c_string previous.value.data)
        if (← parser_match TOKEN_COLON) then
          let some value ← rec .expression | return none
          return some (some key, value)
        else if (← current_type) = TOKEN_COMMA ∨ (← current_type) = TOKEN_RIGHT_BRACE then
          return some (some key, Node.identifier key)
        else
          PARSER_ERROR "Expected ':' or ',' after object key, got '%s'"
          return none : parse_m (Option (Option String × Node)))
    let some (key, value) := entry | return none
    let keys := keys ++ [key]
    let values := values ++ [value]
    if (← parser_match TOKEN_COMMA) then
      if (← current_type) ≠ TOKEN_RIGHT_BRACE then
        return ← parse_object_loop rec fuel keys values
    if !(← parser_match TOKEN_RIGHT_BRACE) then
      PARSER_ERROR "Expected ',' or '\x7d' after object entry, got '%s'"
      return none
    return some (.object keys values)

/-- `parse_object`. -/
def parse_object (fuel : Nat) (rec : parse_rec) : parse_m (Option Node) := do
  if !(← parser_match TOKEN_LEFT_BRACE) then return none
  if !(← parser_match TOKEN_RIGHT_BRACE) then
    return ← parse_object_loop rec fuel [] []
  return some (.object [] [])

/-- The `do ... while (parser_match(parser, TOKEN_COMMA))` over the parameters
of `parse_function`; `params` are the parameters read so far. The result is
`none` where the C code returns `NULL` from `parse_function`. -/
def parse_function_params (rec : parse_rec) : Nat → List Param → parse_m (Option (List Param))
  | 0, _ => parse_m.stop .out_of_fuel
  | fuel + 1, params => do
    let is_rest ← parser_match TOKEN_ELLIPSIS
    if (← current_type) ≠ TOKEN_IDENTIFIER then
      PARSER_ERROR "Expected parameter name, got '%s'"
      return none
    let name := (← parser_current).value
    parser_advance
    let mut default_value : Option Node := none
    if !is_rest then
      if (← parser_match TOKEN_EQUAL) then
        let some default_expr ← rec .expression | return none
        default_value := some default_expr
    else
      if (← parser_match TOKEN_EQUAL) then
        PARSER_ERROR "Rest parameter cannot have a default value."
        return none
    let params := params ++ [Param.mk name default_value is_rest]
    if (← parser_match TOKEN_COMMA) then
      parse_function_params rec fuel params
    else
      return some params

/-- `parse_function`. -/
def parse_function (fuel : Nat) (rec : parse_rec) : parse_m (Option Node) := do
  let mut is_async := false
  if (← current_type) = TOKEN_ASYNC then
    is_async := true
    parser_advance
  if !(← parser_match TOKEN_FUNCTION) then
    PARSER_ERROR "Expected 'function', got '%s'"
    return none
  let mut name : Option String := none
  if (← current_type) = TOKEN_IDENTIFIER then
    name := some (← parser_current).value
    parser_advance
  if !(← parser_match TOKEN_LEFT_PAREN) then
    PARSER_ERROR "Expected '(' after function name, got '%s'"
    return none
  let mut params : List Param := []
  if (← current_type) ≠ TOKEN_RIGHT_PAREN then
    let some ps ← parse_function_params rec fuel [] | return none
    params := ps
  if !(← parser_match TOKEN_RIGHT_PAREN) then
    PARSER_ERROR "Expected ')' after parameters name, got '%s'"
    return none
  let some body ← rec .block | return none
  return some (.function is_async name params body)

/-- `parse_primary`. -/
def parse_primary (fuel : Nat) (rec : parse_rec) : parse_m (Option Node) := do
  let type ← current_type
  if type = TOKEN_NUMBER_LITERAL then return ← parse_number
  if type = TOKEN_STRING_LITERAL then return ← parse_string
  if type = TOKEN_BOOL_LITERAL then return ← parse_bool
  if type = TOKEN_IDENTIFIER then return ← parse_identifier
  if type = TOKEN_ASYNC ∨ type = TOKEN_FUNCTION then return ← parse_function fuel rec
  if type = TOKEN_NULL then return ← parse_null
  if type = TOKEN_UNDEFINED then return ← parse_undefined
  if type = TOKEN_ELLIPSIS then return ← parse_spread rec
  if type = TOKEN_LEFT_BRACKET then return ← parse_array fuel rec
  if type = TOKEN_LEFT_BRACE then return ← parse_object fuel rec
  if type = TOKEN_THIS then
    let loc := (← parser_current).loc
    parser_advance
    return some (.this loc)
  if (← parser_match TOKEN_LEFT_PAREN) then
    let some expr ← rec .comma | return none
    if !(← parser_match TOKEN_RIGHT_PAREN) then
      PARSER_ERROR "Expected ')' after expression got: '%s'"
      return none
    return some expr
  PARSER_ERROR "Expected primary expression, got '%s'"
  return none

/-- The `do ... while (parser_match(parser, TOKEN_COMMA))` over the arguments
of a call in `parse_postfix`; `none` where the C code returns `NULL`. -/
def parse_call_args (rec : parse_rec) : Nat → List Node → parse_m (Option (List Node))
  | 0, _ => parse_m.stop .out_of_fuel
  | fuel + 1, args => do
    let some arg ← rec .expression | return none
    let args := args ++ [arg]
    if (← parser_match TOKEN_COMMA) then
      parse_call_args rec fuel args
    else
      return some args

/-- The `while (true)` of `parse_postfix`. The node of a call and the node of
a member access come from `malloc`, and the members of the call, and the
member `property`, are written last: where the C code calls `node_free(call)`
before `callee`, `args` and `arg_count` are written (an argument that is
`NULL`, a missing `)`), and `node_free(node)` before `property` is written (no
identifier behind the `.`), the run stops with `uninitialised_node`. The node
of an index has both members written before it is freed. -/
def parse_postfix_loop (rec : parse_rec) : Nat → Node → parse_m (Option Node)
  | 0, _ => parse_m.stop .out_of_fuel
  | fuel + 1, expr => do
    if (← parser_match TOKEN_LEFT_PAREN) then
      let mut args : List Node := []
      if (← current_type) ≠ TOKEN_RIGHT_PAREN then
        let some parsed ← parse_call_args rec fuel []
          | return ← parse_m.stop .uninitialised_node
        args := parsed
      if !(← parser_match TOKEN_RIGHT_PAREN) then
        PARSER_ERROR "Expected ',' or ')' after function argument got: '%s'"
        return ← parse_m.stop .uninitialised_node
      parse_postfix_loop rec fuel (.call expr args)
    else if (← parser_match TOKEN_LEFT_BRACKET) then
      let some index ← rec .comma | return none
      if !(← parser_match TOKEN_RIGHT_BRACKET) then
        PARSER_ERROR "Expected ']' after array index, got: '%s'"
        return none
      parse_postfix_loop rec fuel (.index expr index)
    else if (← parser_match TOKEN_DOT) then
      if (← current_type) ≠ TOKEN_IDENTIFIER then
        PARSER_ERROR "Expected identifier after '.'"
        return ← parse_m.stop .uninitialised_node
      let property ← parse_identifier
      parse_postfix_loop rec fuel (.member expr property)
    else if (← parser_match_any [TOKEN_PLUS_PLUS, TOKEN_MINUS_MINUS]) then
      let op ← parser_previous
      parse_postfix_loop rec fuel (.postfix_op op expr)
    else
      return some expr

/-- `parse_postfix`. -/
def parse_postfix (fuel : Nat) (rec : parse_rec) : parse_m (Option Node) := do
  let some expr ← parse_primary fuel rec | return none
  parse_postfix_loop rec fuel expr

/-- `parse_unary`. -/
def parse_unary (fuel : Nat) (rec : parse_rec) : parse_m (Option Node) := do
  if (← parser_match TOKEN_AWAIT) then
    let loc := (← parser_previous).loc
    let some argument ← rec .unary | return none
    return some (.await_expr loc argument)
  if (← parser_match_any [TOKEN_BANG, TOKEN_PLUS, TOKEN_MINUS, TOKEN_TILDE, TOKEN_PLUS_PLUS,
      TOKEN_MINUS_MINUS, TOKEN_TYPEOF, TOKEN_DELETE, TOKEN_VOID]) then
    let op ← parser_previous
    let some right ← rec .unary | return none
    return some (.unary op.loc op right)
  parse_postfix fuel rec

/-- `parse_exponent`. -/
def parse_exponent (fuel : Nat) (rec : parse_rec) : parse_m (Option Node) := do
  let some left ← parse_unary fuel rec | return none
  if (← parser_match TOKEN_STAR_STAR) then
    let op ← parser_previous
    let some right ← rec .exponent | return none
    return some (.binary op left right)
  return some left

/-- The loop `while (parser_match(parser, A) || ...) { op = *parser->previous;
right = next(parser); ...; left = node; }` that `parse_comma` and the
functions from `parse_logical_or` to `parse_factor` share, with the operator
types `types` and the function `next` of each. -/
def binary_loop (types : List token_type_t) (next : parse_m (Option Node)) :
    Nat → Node → parse_m (Option Node)
  | 0, _ => parse_m.stop .out_of_fuel
  | fuel + 1, left => do
    if (← parser_match_any types) then
      let op ← parser_previous
      let some right ← next | return none
      binary_loop types next fuel (.binary op left right)
    else
      return some left

/-- The body of these functions: `left = next(parser); if (!left) return
NULL;`, the loop, `return left;`. -/
def binary_level (types : List token_type_t) (next : parse_m (Option Node)) (fuel : Nat) :
    parse_m (Option Node) := do
  let some left ← next | return none
  binary_loop types next fuel left

/-- `parse_factor`. -/
def parse_factor (fuel : Nat) (rec : parse_rec) : parse_m (Option Node) :=
  binary_level [TOKEN_STAR, TOKEN_SLASH, TOKEN_PERCENT] (parse_exponent fuel rec) fuel

/-- `parse_term`. -/
def parse_term (fuel : Nat) (rec : parse_rec) : parse_m (Option Node) :=
  binary_level [TOKEN_PLUS, TOKEN_MINUS] (parse_factor fuel rec) fuel

/-- `parse_shift`. -/
def parse_shift (fuel : Nat) (rec : parse_rec) : parse_m (Option Node) :=
  binary_level [TOKEN_LEFT_SHIFT, TOKEN_RIGHT_SHIFT] (parse_term fuel rec) fuel

/-- `parse_relational`. -/
def parse_relational (fuel : Nat) (rec : parse_rec) : parse_m (Option Node) :=
  binary_level [TOKEN_LESS, TOKEN_LESS_EQUAL, TOKEN_GREATER, TOKEN_GREATER_EQUAL]
    (parse_shift fuel rec) fuel

/-- `parse_equality`. -/
def parse_equality (fuel : Nat) (rec : parse_rec) : parse_m (Option Node) :=
  binary_level [TOKEN_EQUAL_EQUAL, TOKEN_BANG_EQUAL] (parse_relational fuel rec) fuel

/-- `parse_bitwise_and`. -/
def parse_bitwise_and (fuel : Nat) (rec : parse_rec) : parse_m (Option Node) :=
  binary_level [TOKEN_AMPERSAND] (parse_equality fuel rec) fuel

/-- `parse_bitwise_xor`. -/
def parse_bitwise_xor (fuel : Nat) (rec : parse_rec) : parse_m (Option Node) :=
  binary_level [TOKEN_CARET] (parse_bitwise_and fuel rec) fuel

/-- `parse_bitwise_or`. -/
def parse_bitwise_or (fuel : Nat) (rec : parse_rec) : parse_m (Option Node) :=
  binary_level [TOKEN_PIPE] (parse_bitwise_xor fuel rec) fuel

/-- `parse_logical_and`. -/
def parse_logical_and (fuel : Nat) (rec : parse_rec) : parse_m (Option Node) :=
  binary_level [TOKEN_LOGICAL_AND] (parse_bitwise_or fuel rec) fuel

/-- `parse_logical_or`. -/
def parse_logical_or (fuel : Nat) (rec : parse_rec) : parse_m (Option Node) :=
  binary_level [TOKEN_LOGICAL_OR] (parse_logical_and fuel rec) fuel

/-- `parse_ternary`. -/
def parse_ternary (fuel : Nat) (rec : parse_rec) : parse_m (Option Node) := do
  let some condition ← parse_logical_or fuel rec | return none
  if (← parser_match TOKEN_QUESTION) then
    let some true_expr ← rec .expression
      | do
        PARSER_ERROR "Expected expression after '?' in ternary expression, got: '%s'"
        return none
    if !(← parser_match TOKEN_COLON) then
      PARSER_ERROR "Expected ':' in ternary expression, got: '%s'"
      return none
    let some false_expr ← rec .expression
      | do
        PARSER_ERROR "Expected expression after ':' in ternary expression, got: '%s'"
        return none
    return some (.ternary condition true_expr false_expr)
  return some condition

/-- The operators of `parse_assignment`, in the order of its condition. -/
def assignment_operators : List token_type_t :=
  [TOKEN_EQUAL, TOKEN_PLUS_EQUAL, TOKEN_MINUS_EQUAL, TOKEN_STAR_EQUAL, TOKEN_SLASH_EQUAL,
   TOKEN_PERCENT_EQUAL, TOKEN_CARET_EQUAL, TOKEN_PIPE_EQUAL, TOKEN_AMPERSAND_EQUAL,
   TOKEN_LEFT_SHIFT_EQUAL, TOKEN_RIGHT_SHIFT_EQUAL, TOKEN_STAR_STAR_EQUAL,
   TOKEN_LOGICAL_AND_EQUAL, TOKEN_LOGICAL_OR_EQUAL]

/-- `parse_assignment`; `node_create_assignment(left, op, right, op.loc)` of
`node.c` makes the node. -/
def parse_assignment (fuel : Nat) (rec : parse_rec) : parse_m (Option Node) := do
  let some left ← parse_ternary fuel rec | return none
  if (← parser_match_any assignment_operators) then
    let op ← parser_previous
    let some right ← rec .assignment | return none
    return some (.assignment op.loc op left right)
  return some left

/-- `parse_expression`. -/
def parse_expression (fuel : Nat) (rec : parse_rec) : parse_m (Option Node) :=
  parse_assignment fuel rec

/-- `parse_comma`. -/
def parse_comma (fuel : Nat) (rec : parse_rec) : parse_m (Option Node) :=
  binary_level [TOKEN_COMMA] (parse_expression fuel rec) fuel

/-- The loop `while (current is not '}' and not EOF) { stmt =
parse_statement(parser); ... }` of `parse_block`, also that of the body of a
`case` in `parse_switch` with the types `stops` that end it; `none` where the C
code returns `NULL`. -/
def parse_statements (rec : parse_rec) (stops : List token_type_t) :
    Nat → List Node → parse_m (Option (List Node))
  | 0, _ => parse_m.stop .out_of_fuel
  | fuel + 1, statements => do
    if (← current_type) ∈ stops then
      return some statements
    let some stmt ← rec .statement | return none
    parse_statements rec stops fuel (statements ++ [stmt])

/-- `parse_block`. -/
def parse_block (fuel : Nat) (rec : parse_rec) : parse_m (Option Node) := do
  if (← parser_match TOKEN_LEFT_BRACE) then
    let some statements ← parse_statements rec [TOKEN_RIGHT_BRACE, TOKEN_EOF] fuel []
      | return none
    if !(← parser_match TOKEN_RIGHT_BRACE) then
      PARSER_ERROR "Expected '\x7d' to end block, got '%s'"
      return none
    return some (.block statements)
  else
    let some stmt ← rec .statement | return none
    return some (.block [stmt])

/-- `parse_label`. -/
def parse_label (rec : parse_rec) : parse_m (Option Node) := do
  if (← current_type) ≠ TOKEN_IDENTIFIER then
    return ← parse_m.stop .unreachable
  if (← parser_peek).type ≠ TOKEN_COLON then
    return ← parse_m.stop .unreachable
  let label_name := (← parser_current).value
  parser_advance
  parser_advance
  let some statement ← rec .statement | return none
  return some (.label label_name statement)

/-- `parse_if`. -/
def parse_if (fuel : Nat) (rec : parse_rec) : parse_m (Option Node) := do
  if !(← parser_match TOKEN_IF) then
    PARSER_ERROR "Expected 'if', got '%s'"
    return none
  if !(← parser_match TOKEN_LEFT_PAREN) then
    PARSER_ERROR "Expected '(' after 'if', got '%s'"
    return none
  let some condition ← parse_comma fuel rec | return none
  if !(← parser_match TOKEN_RIGHT_PAREN) then
    PARSER_ERROR "Expected ')' after 'if' condition, got '%s'"
    return none
  let some then_branch ← parse_block fuel rec | return none
  let mut else_branch : Option Node := none
  if (← parser_match TOKEN_ELSE) then
    if (← current_type) = TOKEN_IF then
      else_branch ← rec .if_stmt
    else
      else_branch ← parse_block fuel rec
    if else_branch.isNone then return none
  return some (.if_stmt condition then_branch else_branch)

/-- The `do ... while (parser_match(parser, TOKEN_CASE))` over the labels of
one section of `parse_switch`; `none` where the C code returns `NULL`. -/
def parse_switch_labels (fuel : Nat) (rec : parse_rec) :
    Nat → List Node → parse_m (Option (List Node))
  | 0, _ => parse_m.stop .out_of_fuel
  | n + 1, labels => do
    let some label_expr ← parse_comma fuel rec | return none
    let labels := labels ++ [label_expr]
    if !(← parser_match TOKEN_COLON) then
      PARSER_ERROR "Expected ':' after case expression, got '%s'"
      return none
    if (← parser_match TOKEN_CASE) then
      parse_switch_labels fuel rec n labels
    else
      return some labels

/-- The loop `while (current is not '}' and not EOF)` over the sections of
`parse_switch`; `none` where the C code returns `NULL`. -/
def parse_switch_cases (fuel : Nat) (rec : parse_rec) :
    Nat → List SwitchCase → parse_m (Option (List SwitchCase))
  | 0, _ => parse_m.stop .out_of_fuel
  | n + 1, cases => do
    if (← current_type) ∈ [TOKEN_RIGHT_BRACE, TOKEN_EOF] then
      return some cases
    let mut labels : List Node := []
    let mut is_default := false
    if (← parser_match TOKEN_CASE) then
      let some parsed ← parse_switch_labels fuel rec fuel [] | return none
      labels := parsed
    else if (← parser_match TOKEN_DEFAULT) then
      is_default := true
      if !(← parser_match TOKEN_COLON) then
        PARSER_ERROR "Expected ':' after 'default' got '%s'"
        return none
    else
      PARSER_ERROR "Expected 'case' or 'default' got '%s'"
      return none
    let some body ← parse_statements rec
        [TOKEN_CASE, TOKEN_DEFAULT, TOKEN_RIGHT_BRACE, TOKEN_EOF] fuel []
      | return none
    parse_switch_cases fuel rec n (cases ++ [SwitchCase.mk labels (.block body) is_default])

/-- `parse_switch`. The message for a missing `(` reads `parser->lexer->loc`
and `parser->current->value`. -/
def parse_switch (fuel : Nat) (rec : parse_rec) : parse_m (Option Node) := do
  if !(← parser_match TOKEN_SWITCH) then
    PARSER_ERROR "Expected 'switch', got '%s'"
    return none
  if !(← parser_match TOKEN_LEFT_PAREN) then
    PARSER_ERROR "Expected '(' after 'switch', got '%s'"
    return none
  let some expr ← parse_expression fuel rec | return none
  if !(← parser_match TOKEN_RIGHT_PAREN) then
    PARSER_ERROR "Expected ')' after switch expression got '%s'"
    return none
  if !(← parser_match TOKEN_LEFT_BRACE) then
    PARSER_ERROR "Expected '\x7b' after switch expression, got '%s'"
    return none
  let some cases ← parse_switch_cases fuel rec fuel [] | return none
  if !(← parser_match TOKEN_RIGHT_BRACE) then
    PARSER_ERROR "Expected '\x7d' to close switch, got '%s'"
    return none
  return some (.switch_stmt expr cases)

/-- `parse_while`. -/
def parse_while (fuel : Nat) (rec : parse_rec) : parse_m (Option Node) := do
  if !(← parser_match TOKEN_WHILE) then
    PARSER_ERROR "Expected 'while' got '%s'"
    return none
  if !(← parser_match TOKEN_LEFT_PAREN) then
    PARSER_ERROR "Expected '(' after 'while' got '%s'"
    return none
  let some condition ← parse_comma fuel rec | return none
  if !(← parser_match TOKEN_RIGHT_PAREN) then
    PARSER_ERROR "Expected ')' after condition got '%s'"
    return none
  let some body ← parse_block fuel rec | return none
  return some (.while_stmt condition body)

/-- `parse_do_while`. The C code fills the node through the member
`while_stmt` of the union, `while_stmt.body = body` and `while_stmt.condition
= condition`; `while_stmt` is `{condition, body}` and `do_while_stmt` is
`{body, condition}`, so read through `do_while_stmt`, as `sema.c` reads it, the
member `body` holds the condition and the member `condition` the block. -/
def parse_do_while (fuel : Nat) (rec : parse_rec) : parse_m (Option Node) := do
  if !(← parser_match TOKEN_DO) then
    PARSER_ERROR "Expected 'do' got '%s'"
    return none
  let some body ← parse_block fuel rec | return none
  if !(← parser_match TOKEN_WHILE) then
    PARSER_ERROR "Expected 'while' after 'do' block got '%s'"
    return none
  if !(← parser_match TOKEN_LEFT_PAREN) then
    PARSER_ERROR "Expected '(' after 'while' got '%s'"
    return none
  let some condition ← parse_comma fuel rec | return none
  if !(← parser_match TOKEN_RIGHT_PAREN) then
    PARSER_ERROR "Expected ')' after condition got '%s'"
    return none
  if !(← parser_match TOKEN_SEMICOLON) then
    PARSER_ERROR "Expected ';' after 'do-while' got '%s'"
    return none
  return some (.do_while_stmt condition body)

/-- The `while (true)` of `parse_declaration`; `none` where the C code returns
`NULL`. -/
def parse_declarators (fuel : Nat) (rec : parse_rec) :
    Nat → List Node → List (Option Node) → parse_m (Option (List Node × List (Option Node)))
  | 0, _, _ => parse_m.stop .out_of_fuel
  | n + 1, names, values => do
    let some name ← parse_identifier
      | do
        PARSER_ERROR "Expected identifier after '%s', got: '%s'"
        return none
    let mut value : Option Node := none
    if (← parser_match TOKEN_EQUAL) then
      let some value_expr ← parse_expression fuel rec | return none
      value := some value_expr
    let names := names ++ [name]
    let values := values ++ [value]
    if !(← parser_match TOKEN_COMMA) then
      if !(← parser_match TOKEN_SEMICOLON) then
        PARSER_ERROR "Unexpected token after variable declaration: '%s', expected ';' or ','"
        return none
      return some (names, values)
    parse_declarators fuel rec n names values

/-- `parse_declaration`. -/
def parse_declaration (fuel : Nat) (rec : parse_rec) : parse_m (Option Node) := do
  let kind ← parser_current
  if !(← parser_match_any [TOKEN_LET, TOKEN_CONST, TOKEN_VAR]) then
    PARSER_ERROR "Expected 'let', 'const' or 'var', got '%s'"
    return none
  let some (names, values) ← parse_declarators fuel rec fuel [] [] | return none
  return some (.declaration kind names values)

/-- `parse_for`. The result of `parse_comma` for the initializer is stored
without a test. -/
def parse_for (fuel : Nat) (rec : parse_rec) : parse_m (Option Node) := do
  if !(← parser_match TOKEN_FOR) then
    report "Expected 'for'"
    return none
  if !(← parser_match TOKEN_LEFT_PAREN) then
    report "Expected '(' after 'for'"
    return none
  let mut init : Option Node := none
  if (← current_type) ∈ [TOKEN_LET, TOKEN_CONST, TOKEN_VAR] then
    init ← parse_declaration fuel rec
    if init.isNone then return none
  else if (← current_type) ≠ TOKEN_SEMICOLON then
    init ← parse_comma fuel rec
    if !(← parser_match TOKEN_SEMICOLON) then
      PARSER_ERROR "Expected ';' after for-loop initializer, got '%s'"
      return none
  else
    parser_advance
  let mut condition : Option Node := none
  if (← current_type) ≠ TOKEN_SEMICOLON then
    condition ← parse_comma fuel rec
    if condition.isNone then return none
  if !(← parser_match TOKEN_SEMICOLON) then
    PARSER_ERROR "Expected ';' after for-loop condition, got '%s'"
    return none
  let mut increment : Option Node := none
  if (← current_type) ≠ TOKEN_RIGHT_PAREN then
    increment ← parse_comma fuel rec
    if increment.isNone then return none
  if !(← parser_match TOKEN_RIGHT_PAREN) then
    PARSER_ERROR "Expected ')' after for-loop, got '%s'"
    return none
  let some body ← parse_block fuel rec | return none
  return some (.for_stmt body init condition increment)

/-- The loop over the names between the braces of `parse_import` and of
`parse_export`; `none` where the C code returns `NULL`. -/
def parse_names (message : String) : Nat → List String → parse_m (Option (List String))
  | 0, _ => parse_m.stop .out_of_fuel
  | fuel + 1, names => do
    if (← current_type) ∈ [TOKEN_RIGHT_BRACE, TOKEN_EOF] then
      return some names
    if (← current_type) ≠ TOKEN_IDENTIFIER then
      PARSER_ERROR message
      return none
    let name := (← parser_current).value
    parser_advance
    let _ ← parser_match TOKEN_COMMA
    parse_names message fuel (names ++ [name])

/-- `parse_import`. -/
def parse_import (fuel : Nat) : parse_m (Option Node) := do
  if !(← parser_match TOKEN_IMPORT) then
    PARSER_ERROR "Expected 'import', got '%s'"
    return none
  if (← current_type) = TOKEN_STRING_LITERAL then
    let module := String.mk (c_string (← parser_current).value.data)
    parser_advance
    let _ ← parser_match TOKEN_SEMICOLON
    return some (.import_stmt module none [])
  let mut default_name : Option String := none
  if (← current_type) = TOKEN_IDENTIFIER then
    default_name := some (← parser_current).value
    parser_advance
    if (← parser_match TOKEN_COMMA) then
      if (← current_type) ≠ TOKEN_LEFT_BRACE then
        report "Expected '\x7b' after ',' in import statement"
        return none
  let mut imported : List String := []
  if (← parser_match TOKEN_LEFT_BRACE) then
    let some names ← parse_names "Expected identifier in named imports, got: '%s'" fuel []
      | return none
    if !(← parser_match TOKEN_RIGHT_BRACE) then
      report "Expected '\x7d' after named imports"
      return none
    imported := names
  if !(← parser_match TOKEN_FROM) then
    PARSER_ERROR "Expected 'from' keyword in import statement, got '%s'"
    return none
  if (← current_type) ≠ TOKEN_STRING_LITERAL then
    PARSER_ERROR "Expected module after 'from', got '%s'"
    return none
  let module := String.mk (c_string (← parser_current).value.data)
  parser_advance
  let _ ← parser_match TOKEN_SEMICOLON
  return some (.import_stmt module default_name imported)

/-- `parse_export`. The `printf("%d\n", parser->current->type)` after the loop
writes to `stdout` and is kept as the read of `parser->current` only. -/
def parse_export (fuel : Nat) (rec : parse_rec) : parse_m (Option Node) := do
  parser_advance
  if (← parser_match TOKEN_DEFAULT) then
    let some declaration ← rec .statement
      | do
        report "Expected declaration after 'export default'"
        return none
    return some (.export_stmt true (some declaration) [])
  else if (← parser_match TOKEN_LEFT_BRACE) then
    let some names ← parse_names "Expected identifier in export list" fuel [] | return none
    let _ ← parser_current
    if !(← parser_match TOKEN_RIGHT_BRACE) then
      report "Expected '\x7d' after export list"
      return none
    if !(← parser_match TOKEN_SEMICOLON) then
      report "Expected ';' after export list"
      return none
    return some (.export_stmt false none names)
  else
    let some declaration ← rec .statement
      | do
        report "Expected declaration after 'export'"
        return none
    return some (.export_stmt false (some declaration) [])

/-- `parse_return`. -/
def parse_return (fuel : Nat) (rec : parse_rec) : parse_m (Option Node) := do
  parser_advance
  if !(← parser_match TOKEN_SEMICOLON) then
    let some value ← parse_comma fuel rec | return none
    if !(← parser_match TOKEN_SEMICOLON) then
      report "Expected ';' after return value"
      return none
    return some (.return_stmt (some value))
  return some (.return_stmt none)

/-- `parse_break`: `node->loc = parser->current->loc` is read after the
keyword has been consumed. -/
def parse_break : parse_m (Option Node) := do
  parser_advance
  let loc := (← parser_current).loc
  let mut label : Option String := none
  if (← current_type) = TOKEN_IDENTIFIER then
    label := some (← parser_current).value
    parser_advance
  if !(← parser_match TOKEN_SEMICOLON) then
    report "Expected ';' after break"
    return none
  return some (.break_stmt loc label)

/-- `parse_continue`. -/
def parse_continue : parse_m (Option Node) := do
  if !(← parser_match TOKEN_CONTINUE) then
    PARSER_ERROR "Expected 'continue', got '%s'"
    return none
  let loc := (← parser_previous).loc
  let mut label : Option String := none
  if (← current_type) = TOKEN_IDENTIFIER then
    label := some (← parser_current).value
    parser_advance
  if !(← parser_match TOKEN_SEMICOLON) then
    report "Expected ';' after continue"
    return none
  return some (.continue_stmt loc label)

/-- `parse_throw`. -/
def parse_throw (fuel : Nat) (rec : parse_rec) : parse_m (Option Node) := do
  parser_advance
  if (← current_type) = TOKEN_SEMICOLON then
    report "'throw' must have an expression"
    return none
  let some value ← parse_comma fuel rec | return none
  if !(← parser_match TOKEN_SEMICOLON) then
    report "Expected ';' after throw expression"
    return none
  return some (.throw_stmt value)

/-- `parse_try`. -/
def parse_try (fuel : Nat) (rec : parse_rec) : parse_m (Option Node) := do
  parser_advance
  if (← current_type) ≠ TOKEN_LEFT_BRACE then
    report "Expected '\x7b' after 'try'"
    return none
  let some try_block ← parse_block fuel rec | return none
  let mut catch_param : Option String := none
  let mut catch_block : Option Node := none
  if (← current_type) = TOKEN_CATCH then
    parser_advance
    if (← current_type) = TOKEN_LEFT_PAREN then
      parser_advance
      if (← current_type) ≠ TOKEN_IDENTIFIER then
        report "Expected identifier after 'catch('"
        return none
      catch_param := some (← parser_current).value
      parser_advance
      if !(← parser_match TOKEN_RIGHT_PAREN) then
        PARSER_ERROR "Expected ')' after catch parameter, got: '%s'"
        return none
    if (← current_type) ≠ TOKEN_LEFT_BRACE then
      report "Expected '\x7b' after 'catch'"
      return none
    catch_block ← parse_block fuel rec
    if catch_block.isNone then return none
  let mut finally_block : Option Node := none
  if (← current_type) = TOKEN_FINALLY then
    parser_advance
    if (← current_type) ≠ TOKEN_LEFT_BRACE then
      report "Expected '\x7b' after 'finally'"
      return none
    finally_block ← parse_block fuel rec
    if finally_block.isNone then return none
  if catch_block.isNone ∧ finally_block.isNone then
    report "'try' must have at least a 'catch' or 'finally'"
    return none
  return some (.try_stmt try_block catch_param catch_block finally_block)

/-- `parse_statement`. -/
def parse_statement (fuel : Nat) (rec : parse_rec) : parse_m (Option Node) := do
  if (← parser_match TOKEN_SEMICOLON) then
    return some (.empty (← parser_previous).loc)
  let type ← current_type
  if type = TOKEN_IDENTIFIER then
    if (← parser_peek).type = TOKEN_COLON then
      return ← parse_label rec
  if type = TOKEN_LEFT_BRACE then return ← parse_block fuel rec
  if type = TOKEN_WHILE then return ← parse_while fuel rec
  if type = TOKEN_DO then return ← parse_do_while fuel rec
  if type = TOKEN_FOR then return ← parse_for fuel rec
  if type = TOKEN_SWITCH then return ← parse_switch fuel rec
  if type = TOKEN_IF then return ← parse_if fuel rec
  if type = TOKEN_ASYNC ∨ type = TOKEN_FUNCTION then return ← parse_function fuel rec
  if type = TOKEN_LET ∨ type = TOKEN_CONST ∨ type = TOKEN_VAR then
    return ← parse_declaration fuel rec
  if type = TOKEN_IMPORT then return ← parse_import fuel
  if type = TOKEN_EXPORT then return ← parse_export fuel rec
  if type = TOKEN_TRY then return ← parse_try fuel rec
  if type = TOKEN_RETURN then return ← parse_return fuel rec
  if type = TOKEN_BREAK then return ← parse_break
  if type = TOKEN_CONTINUE then return ← parse_continue
  if type = TOKEN_THROW then return ← parse_throw fuel rec
  let some expr ← parse_comma fuel rec | return none
  if !(← parser_match TOKEN_SEMICOLON) then
    PARSER_ERROR "Expected ';' after expression, got '%s'"
    return none
  return some expr

/-- The calls that go back in the order of the definitions, with `fuel`
bounding how deep they nest and how often each loop runs. -/
def parse_fn : Nat → parse_rec
  | 0, _ => parse_m.stop .out_of_fuel
  | fuel + 1, .statement => parse_statement fuel (parse_fn fuel)
  | fuel + 1, .block => parse_block fuel (parse_fn fuel)
  | fuel + 1, .if_stmt => parse_if fuel (parse_fn fuel)
  | fuel + 1, .comma => parse_comma fuel (parse_fn fuel)
  | fuel + 1, .expression => parse_expression fuel (parse_fn fuel)
  | fuel + 1, .assignment => parse_assignment fuel (parse_fn fuel)
  | fuel + 1, .exponent => parse_exponent fuel (parse_fn fuel)
  | fuel + 1, .unary => parse_unary fuel (parse_fn fuel)

/-- The loop of `parse_program`; `none` where the C code returns `NULL`. -/
def parse_program_loop (fuel : Nat) : Nat → List Node → parse_m (Option Node)
  | 0, _ => parse_m.stop .out_of_fuel
  | n + 1, statements => do
    if (← current_type) = TOKEN_EOF then
      return some (.program statements)
    let some stmt ← parse_statement fuel (parse_fn fuel) | return none
    parse_program_loop fuel n (statements ++ [stmt])

/-- `parse_program`. -/
def parse_program (fuel : Nat) : parse_m (Option Node) :=
  parse_program_loop fuel fuel []

/-- The run of `main`: `lexer_init` on a source text, then, when `had_error`
is not set, `parser_init` and `parse_program`. `none` stands for
`Lexering failed...`. -/
def lex_and_parse (fuel : Nat) (source : String) :
    Option (Except fault (Option Node × parser_t)) :=
  match lexer_init (some "a.rose") source.data with
  | none => none
  | some lex =>
    if lex.had_error then none
    else some (parse_program fuel (parser_init lex.tokens))

/-! ## Values and evaluation (`include/value.h`, `src/value.c`, `include/eval.h`,
`src/eval.c`) -/

/-- The native functions `eval_program` puts into `Math`, named after the C
functions the pointers designate. -/
inductive native_function where
  | math_sin | math_cos | math_tan | math_asin | math_acos | math_atan
  | math_exp | math_log | math_sqrt | math_abs | math_floor | math_ceil
  | math_min | math_max | math_sign | math_random
deriving Repr, DecidableEq

/-- `value_t`. A value of type `VALUE_NUMBER` is made by `value_number` and by
nothing else, and `value_number` leaves the member `number` of the union
zero-filled (the statements that copied the number are commented out): the
embedding keeps no payload for it. A `function_t` is made by
`math_add_function` and by nothing else, with `is_native = true`. -/
inductive value_t where
  | number
  | string (string : String)
  | boolean (boolean : Bool)
  | function (native_ptr : native_function)
  | array (elements : List value_t)
  | object (keys : List String) (values : List value_t) (capacity : Nat)
  | null
  | undefined
deriving Repr

/-- `value_type_t`. -/
inductive value_type_t where
  | VALUE_NUMBER | VALUE_STRING | VALUE_BOOL | VALUE_FUNCTION | VALUE_ARRAY | VALUE_OBJECT
  | VALUE_NULL | VALUE_UNDEFINED
deriving Repr, DecidableEq

/-- Field `type` of `value_t`. -/
def value_t.type : value_t → value_type_t
  | .number => .VALUE_NUMBER
  | .string _ => .VALUE_STRING
  | .boolean _ => .VALUE_BOOL
  | .function _ => .VALUE_FUNCTION
  | .array _ => .VALUE_ARRAY
  | .object _ _ _ => .VALUE_OBJECT
  | .null => .VALUE_NULL
  | .undefined => .VALUE_UNDEFINED

/-- `value_undefined`. -/
def value_undefined : value_t := .undefined

/-- `value_null`. -/
def value_null : value_t := .null

/-- `value_number`: `value_t value = { 0 }; value.type = VALUE_NUMBER; return
value;`. The parameter is not read. -/
def value_number {number_type : Type} (_number : number_type) : value_t := .number

/-- `value_string`. -/
def value_string (string : String) : value_t := .string string

/-- `value_bool`. -/
def value_bool (boolean : Bool) : value_t := .boolean boolean

/-- `value_function` on the `function_t` that `math_add_function` makes. -/
def value_function (native_ptr : native_function) : value_t := .function native_ptr

/-- `value_object_create`. -/
def value_object_create : value_t := .object [] [] 8

/-- The first loop of `object_set`: the index of the first key equal to `key`. -/
def object_find : List String → String → Option Nat
  | [], _ => none
  | k :: ks, key => if k = key then some 0 else (object_find ks key).map (· + 1)

/-- `object_set` on the member `object` of a value; a value of another type is
returned as it is (the C function is only given objects). -/
def object_set (obj : value_t) (key : String) (val : value_t) : value_t :=
  match obj with
  | .object keys values capacity =>
    match object_find keys key with
    | some i => .object keys (values.set i val) capacity
    | none =>
      let capacity := if keys.length = capacity then capacity * 2 else capacity
      .object (keys ++ [key]) (values ++ [val]) capacity
  | other => other

/-- `math_add_function`. -/
def math_add_function (obj : value_t) (name : String) (func : native_function) : value_t :=
  object_set obj name (value_function func)

/-- How an evaluation can stop without returning a value. -/
inductive eval_fault where
  /-- `TODO(...)`: the message is printed and `exit(EXIT_FAILURE)` is called. -/
  | todo (message : String)
  /-- `TODO(fmt, text)` where `fmt` holds one `%s`: the message and the string
  printed in the place of `%s`. -/
  | todo_s (message : String) (text : String)
  /-- A `mpfr` function reads a `number` that is zero-filled, not a number
  that `mpfr_init2` has initialised, and the process ends with a signal. -/
  | number_not_initialised
  /-- A scope is read after `env_free` has released it. -/
  | scope_released
  /-- A member of the union of a node is read that the node does not hold, or a
  `NULL` node is dereferenced. -/
  | wrong_node
deriving Repr, DecidableEq

/-- `eval_context_t`. The field `released` is not part of the C struct: it
records that `env_free` has been called on the scope `current_scope` points
to. -/
structure eval_context_t where
  current_scope : env_t value_t
  released : Bool
deriving Repr

/-- The result of an evaluation: the value and the context afterwards, or the
way the evaluation stopped. -/
abbrev eval_result := Except eval_fault (value_t × eval_context_t)

/-- `eval_init`. -/
def eval_init : eval_context_t := { current_scope := env_create none, released := false }

/-- A call of a native function through `native_ptr(ctx, argc, argv)`. Each
function but `math_random` first tests `argc` and the types of the arguments
(`TODO` with the message when the test fails) and then hands `argv[0].number`,
which `value_number` left zero-filled, to functions of the `mpfr` library. The
library is not part of the sources; the embedding follows what `mpfr` 4.2.0
does with a zero-filled number at a precision of 53 bits or more:

* `mpfr_sgn` is defined in `mpfr.h` to read the exponent and the sign, and gives 0, so
  `math_sign` returns a number, `math_log` finds `mpfr_sgn(...) <= 0` and stops
  with its second `TODO`, and `math_sqrt` does not find `mpfr_sgn(...) < 0`;
* `mpfr_set`, `mpfr_abs`, `mpfr_floor`, `mpfr_ceil` and `mpfr_exp` return, so
  `math_abs`, `math_floor`, `math_ceil` and `math_exp` return a number, and so
  do `math_min` and `math_max` when there is one argument;
* `mpfr_sin`, `mpfr_cos`, `mpfr_tan`, `mpfr_asin`, `mpfr_acos`, `mpfr_atan`,
  `mpfr_sqrt`, and `mpfr_less_p` and `mpfr_greater_p` (which `math_min` and
  `math_max` call from the second argument on) end the process with a signal:
  `number_not_initialised`. -/
def native_call (f : native_function) (argv : List value_t) : Except eval_fault value_t :=
  let returns (message : String) : Except eval_fault value_t :=
    match argv with
    | [.number] => .ok (value_number ())
    | _ => .error (.todo message)
  let signal (message : String) : Except eval_fault value_t :=
    match argv with
    | [.number] => .error .number_not_initialised
    | _ => .error (.todo message)
  let variadic (none_message other_message : String) : Except eval_fault value_t :=
    if argv.length = 0 then .error (.todo none_message)
    else if argv.any (fun v => v.type ≠ .VALUE_NUMBER) then .error (.todo other_message)
    else if argv.length = 1 then .ok (value_number ())
    else .error .number_not_initialised
  match f with
  | .math_sin => signal "Math.sin expects 1 numeric argument"
  | .math_cos => signal "Math.cos expects 1 numeric argument"
  | .math_tan => signal "Math.tan expects 1 numeric argument"
  | .math_asin => signal "Math.asin expects 1 numeric argument"
  | .math_acos => signal "Math.acos expects 1 numeric argument"
  | .math_atan => signal "Math.atan expects 1 numeric argument"
  | .math_sqrt => signal "Math.sqrt expects 1 numeric argument"
  | .math_log =>
    match argv with
    | [.number] => .error (.todo "Math.log cannot take non-positive numbers")
    | _ => .error (.todo "Math.log expects 1 numeric argument")
  | .math_exp => returns "Math.exp expects 1 numeric argument"
  | .math_abs => returns "Math.abs expects 1 numeric argument"
  | .math_floor => returns "Math.floor expects 1 numeric argument"
  | .math_ceil => returns "Math.ceil expects 1 numeric argument"
  | .math_sign => returns "Math.sign expects 1 numeric argument"
  | .math_min =>
    variadic "Math.min expects at least 1 argument" "Math.min expects numeric arguments only"
  | .math_max =>
    variadic "Math.max expects at least 1 argument" "Math.max expects numeric arguments only"
  | .math_random => .ok (value_number ())

/-- The `for` loop over the keys in the case `NODE_MEMBER`: the value under
the first key equal to `key`. -/
def object_lookup : List String → List value_t → String → Option value_t
  | k :: ks, v :: vs, key => if k = key then some v else object_lookup ks vs key
  | _, _, _ => none

/-- The arithmetic cases of the `switch` over `node->binary.op.type`: with
two numbers the `mpfr` function of the operator reads `left.number` and
`right.number` (for `/` and `%` `mpfr_zero_p(right.number)` comes first),
otherwise `TODO("Unsupported ...")`. -/
def eval_binary (op : token_type_t) (left right : value_t) : Except eval_fault value_t :=
  let arithmetic (symbol : String) : Except eval_fault value_t :=
    if left.type = .VALUE_NUMBER ∧ right.type = .VALUE_NUMBER then
      .error .number_not_initialised
    else
      .error (.todo ("Unsupported '" ++ symbol ++ "' for %d, %d"))
  match op with
  | TOKEN_PLUS => arithmetic "+"
  | TOKEN_MINUS => arithmetic "-"
  | TOKEN_STAR => arithmetic "*"
  | TOKEN_SLASH => arithmetic "/"
  | TOKEN_PERCENT => arithmetic "%%"
  | TOKEN_STAR_STAR => arithmetic "**"
  | _ => .error (.todo "Unimplemented binary operator %d")

mutual

/-- `eval_node` on a node that is not `NULL`. -/
def eval_node (ctx : eval_context_t) : Node → eval_result
  | .number number => .ok (value_number number, ctx)
  | .string string => .ok (value_string string, ctx)
  | .boolean boolean => .ok (value_bool boolean, ctx)
  | .identifier identifier =>
    if ctx.released then .error .scope_released
    else
      match env_get_value ctx.current_scope identifier with
      | none => .error (.todo_s "Identifier '%s' not found" identifier)
      | some value => .ok (value, ctx)
  | .array _ => .error (.todo "NODE_ARRAY not implemented")
  | .object _ _ => .error (.todo "NODE_OBJECT not implemented")
  | .spread _ => .error (.todo "NODE_SPREAD not implemented")
  | .undefined => .ok (value_undefined, ctx)
  | .null => .ok (value_null, ctx)
  | .program _ => .error (.todo "NODE_PROGRAM should be handled by eval_program")
  | .block statements =>
    -- env_enter_scope(ctx->current_scope): the new scope is not stored
    match eval_statements ctx value_undefined statements with
    | .error e => .error e
    | .ok (result, ctx) =>
      -- env_leave_scope(ctx->current_scope): reads `parent`, then env_free
      if ctx.released then .error .scope_released
      else .ok (result, { ctx with released := true })
  | .binary op left right =>
    match eval_node ctx left with
    | .error e => .error e
    | .ok (left, ctx) =>
      match eval_node ctx right with
      | .error e => .error e
      | .ok (right, ctx) =>
        match eval_binary op.type left right with
        | .error e => .error e
        | .ok value => .ok (value, ctx)
  | .unary _ _ _ => .error (.todo "NODE_UNARY not implemented")
  | .assignment _ _ _ _ => .error (.todo "NODE_ASSIGNMENT not implemented")
  | .ternary _ _ _ => .error (.todo "NODE_TERNARY not implemented")
  | .if_stmt _ _ _ => .error (.todo "NODE_IF not implemented")
  | .while_stmt _ _ => .error (.todo "NODE_WHILE not implemented")
  | .do_while_stmt _ _ => .error (.todo "NODE_DO_WHILE not implemented")
  | .for_stmt _ _ _ _ => .error (.todo "NODE_FOR not implemented")
  | .call callee args =>
    match eval_node ctx callee with
    | .error e => .error e
    | .ok (callee, ctx) =>
      match callee with
      | .function native_ptr =>
        match eval_arguments ctx args with
        | .error e => .error e
        | .ok (argv, ctx) =>
          match native_call native_ptr argv with
          | .error e => .error e
          | .ok result => .ok (result, ctx)
      | _ => .error (.todo "Trying to call a non-function")
  | .index _ _ => .error (.todo "NODE_INDEX not implemented")
  | .member object property =>
    match eval_node ctx object with
    | .error e => .error e
    | .ok (obj_val, ctx) =>
      match obj_val with
      | .object keys values _ =>
        match property with
        | some (.identifier key) =>
          match object_lookup keys values key with
          | some value => .ok (value, ctx)
          | none => .error (.todo_s "Object has no member '%s'" key)
        | _ => .error .wrong_node
      | _ => .error (.todo "Trying to access member of a non-object")
  | .postfix_op _ _ => .error (.todo "NODE_POSTFIX not implemented")
  | .function _ _ _ _ => .error (.todo "NODE_FUNCTION not implemented")
  | .declaration _ _ _ => .error (.todo "NODE_DECLARATION not implemented")
  | .switch_stmt _ _ => .error (.todo "NODE_SWITCH not implemented")
  | .label _ _ => .error (.todo "NODE_LABEL not implemented")
  | .await_expr _ _ => .error (.todo "NODE_AWAIT not implemented")
  | .new_expr _ => .error (.todo "Unimplemented node type %s(%d)")
  | .this _ => .error (.todo "Unimplemented node type %s(%d)")
  | .debugger => .error (.todo "Unimplemented node type %s(%d)")
  | .break_stmt _ _ => .error (.todo "NODE_BREAK not implemented")
  | .continue_stmt _ _ => .error (.todo "NODE_CONTINUE not implemented")
  | .throw_stmt _ => .error (.todo "NODE_THROW not implemented")
  | .try_stmt _ _ _ _ => .error (.todo "NODE_TRY not implemented")
  | .return_stmt _ => .error (.todo "NODE_RETURN not implemented")
  | .import_stmt _ _ _ => .error (.todo "NODE_IMPORT not implemented")
  | .export_stmt _ _ _ => .error (.todo "NODE_EXPORT not implemented")
  | .empty _ => .ok (value_undefined, ctx)

/-- The loop `for (i = 0; i < count; i++) result = eval_node(ctx,
statements[i]);` of `eval_program` and of the case `NODE_BLOCK`; `result` is
the value before the loop. -/
def eval_statements (ctx : eval_context_t) (result : value_t) : List Node → eval_result
  | [] => .ok (result, ctx)
  | stmt :: rest =>
    match eval_node ctx stmt with
    | .error e => .error e
    | .ok (result, ctx) => eval_statements ctx result rest

/-- The loop `for (i = 0; i < argc; i++) argv[i] = eval_node(ctx, args[i]);`
of the case `NODE_CALL`. -/
def eval_arguments (ctx : eval_context_t) :
    List Node → Except eval_fault (List value_t × eval_context_t)
  | [] => .ok ([], ctx)
  | arg :: rest =>
    match eval_node ctx arg with
    | .error e => .error e
    | .ok (value, ctx) =>
      match eval_arguments ctx rest with
      | .error e => .error e
      | .ok (values, ctx) => .ok (value :: values, ctx)

end

/-- The object `eval_program` builds for `Math`. -/
def math_object : value_t :=
  let math_obj := value_object_create
  let math_obj := object_set math_obj "PI" (value_number ())
  let math_obj := object_set math_obj "E" (value_number ())
  let math_obj := object_set math_obj "PHI" (value_number ())
  let math_obj := math_add_function math_obj "sin" .math_sin
  let math_obj := math_add_function math_obj "cos" .math_cos
  let math_obj := math_add_function math_obj "tan" .math_tan
  let math_obj := math_add_function math_obj "asin" .math_asin
  let math_obj := math_add_function math_obj "acos" .math_acos
  let math_obj := math_add_function math_obj "atan" .math_atan
  let math_obj := math_add_function math_obj "exp" .math_exp
  let math_obj := math_add_function math_obj "log" .math_log
  let math_obj := math_add_function math_obj "sqrt" .math_sqrt
  let math_obj := math_add_function math_obj "abs" .math_abs
  let math_obj := math_add_function math_obj "floor" .math_floor
  let math_obj := math_add_function math_obj "ceil" .math_ceil
  let math_obj := math_add_function math_obj "min" .math_min
  let math_obj := math_add_function math_obj "max" .math_max
  let math_obj := math_add_function math_obj "sign" .math_sign
  math_add_function math_obj "random" .math_random

/-- `eval_program`; `program` is `NULL` (`none`) or points to a node, whose
member `program` the loops read. -/
def eval_program (ctx : eval_context_t) (program : Option Node) : eval_result :=
  if ctx.released then .error .scope_released
  else
    let ctx := { ctx with current_scope := env_set ctx.current_scope "Math" math_object }
    match program with
    | none => .ok (value_undefined, ctx)
    | some (.program statements) => eval_statements ctx value_undefined statements
    | some _ => .error .wrong_node

/-! ## Deciding the equality of values -/

mutual

/-- Equality of two values is decidable. -/
def value_t.decEq : (a b : value_t) → Decidable (a = b)
  | .number, b =>
    match b with
    | .number => isTrue rfl
    | .string _ | .boolean _ | .function _ | .array _ | .object _ _ _ | .null | .undefined =>
      isFalse (fun h => value_t.noConfusion h)
  | .string x0, b =>
    match b with
    | .string y0 => decidable_of_iff (x0 = y0) ⟨fun h => by rw [h], fun h => by injection h⟩
    | .number | .boolean _ | .function _ | .array _ | .object _ _ _ | .null | .undefined =>
      isFalse (fun h => value_t.noConfusion h)
  | .boolean x0, b =>
    match b with
    | .boolean y0 => decidable_of_iff (x0 = y0) ⟨fun h => by rw [h], fun h => by injection h⟩
    | .number | .string _ | .function _ | .array _ | .object _ _ _ | .null | .undefined =>
      isFalse (fun h => value_t.noConfusion h)
  | .function x0, b =>
    match b with
    | .function y0 => decidable_of_iff (x0 = y0) ⟨fun h => by rw [h], fun h => by injection h⟩
    | .number | .string _ | .boolean _ | .array _ | .object _ _ _ | .null | .undefined =>
      isFalse (fun h => value_t.noConfusion h)
  | .array x0, b =>
    match b with
    | .array y0 =>
      have : Decidable (x0 = y0) := value_t.decEqList x0 y0
      decidable_of_iff (x0 = y0) ⟨fun h => by rw [h], fun h => by injection h⟩
    | .number | .string _ | .boolean _ | .function _ | .object _ _ _ | .null | .undefined =>
      isFalse (fun h => value_t.noConfusion h)
  | .object x0 x1 x2, b =>
    match b with
    | .object y0 y1 y2 =>
      have : Decidable (x1 = y1) := value_t.decEqList x1 y1
      decidable_of_iff (x0 = y0 ∧ x1 = y1 ∧ x2 = y2)
        ⟨fun ⟨h0, h1, h2⟩ => by rw [h0, h1, h2],
          fun h => by injection h with h0 h1 h2; exact ⟨h0, h1, h2⟩⟩
    | .number | .string _ | .boolean _ | .function _ | .array _ | .null | .undefined =>
      isFalse (fun h => value_t.noConfusion h)
  | .null, b =>
    match b with
    | .null => isTrue rfl
    | .number | .string _ | .boolean _ | .function _ | .array _ | .object _ _ _ | .undefined =>
      isFalse (fun h => value_t.noConfusion h)
  | .undefined, b =>
    match b with
    | .undefined => isTrue rfl
    | .number | .string _ | .boolean _ | .function _ | .array _ | .object _ _ _ | .null =>
      isFalse (fun h => value_t.noConfusion h)
termination_by structural a => a

/-- Equality of two lists of values is decidable. -/
def value_t.decEqList : (a b : List value_t) → Decidable (a = b)
  | [], [] => isTrue rfl
  | x :: xs, y :: ys =>
    have : Decidable (x = y) := value_t.decEq x y
    have : Decidable (xs = ys) := value_t.decEqList xs ys
    decidable_of_iff (x = y ∧ xs = ys)
      ⟨fun ⟨h0, h1⟩ => by rw [h0, h1], fun h => by injection h with h0 h1; exact ⟨h0, h1⟩⟩
  | [], _ :: _ => isFalse (fun h => List.noConfusion h)
  | _ :: _, [] => isFalse (fun h => List.noConfusion h)
termination_by structural a => a

end

instance : DecidableEq value_t := value_t.decEq

deriving instance DecidableEq for env_t

deriving instance DecidableEq for eval_context_t

/-! ## Statements about the parser -/

/-- The parser after `parser_advance`. -/
def parser_t.advance (p : parser_t) : parser_t :=
  { (lexer_next p).2 with previous := p.current, current := (lexer_next p).1 }

/-- The type of the current token is `type`. -/
def parser_t.at_type (p : parser_t) (type : token_type_t) : Prop :=
  ∃ t, p.current = some t ∧ t.type = type

/-- A parameter does not have both `is_rest` and a default value. -/
def Param.rest_without_default : Param → Bool
  | .mk _ default_value is_rest => !(is_rest && default_value.isSome)

/-- Field `is_rest` of a parameter. -/
def Param.is_rest : Param → Bool
  | .mk _ _ is_rest => is_rest

/-- Whenever the run of `m` from `p` returns, `post` holds of the result and of
the parser afterwards. -/
def parse_m.ensures {α : Type} (m : parse_m α) (post : α → parser_t → Prop) (p : parser_t) :
    Prop :=
  ∀ a p', m p = .ok (a, p') → post a p'

/-- The tokens the parser has not consumed: the current token and the tokens
of the array from `index` on. -/
def parser_t.rest (p : parser_t) : List token_t :=
  match p.current with
  | some t => t :: p.tokens.drop p.index
  | none => []

/-- The parser after the messages `messages` have been written. -/
def parser_t.reported (p : parser_t) (messages : List String) : parser_t :=
  { p with diagnostics := p.diagnostics ++ messages }

/-- The current token exists and has the type `type`. -/
def parser_t.current_is (p : parser_t) (type : token_type_t) : Bool :=
  match p.current with
  | some t => decide (t.type = type)
  | none => false

/-- The current token exists and its type is not one of `types`. -/
def parser_t.current_not_in (p : parser_t) (types : List token_type_t) : Bool :=
  match p.current with
  | some t => !decide (t.type ∈ types)
  | none => false

/-- The statements `body` are met one after the other from the parser `p` on:
each entry holds the node `parse_statement` returns and the parser it leaves,
and no statement starts at a token whose type is in `stops`. -/
def statements_run (rec : parse_rec) (stops : List token_type_t) :
    parser_t → List (Node × parser_t) → Prop
  | _, [] => True
  | p, (stmt, p') :: rest =>
    p.current_not_in stops = true ∧ rec .statement p = .ok (some stmt, p') ∧
      statements_run rec stops p' rest

/-- The parser after the last statement of `body`, `p` when there is none. -/
def run_end : parser_t → List (Node × parser_t) → parser_t
  | p, [] => p
  | _, (_, p') :: rest => run_end p' rest

/-- The node is a `Break` or a `Continue` node. -/
def is_break_continue : Node → Bool
  | .break_stmt _ _ | .continue_stmt _ _ => true
  | _ => false

/-- The tokens the lexer returns on `while (true) \x7b break; \x7d`. -/
def while_true_break_tokens : List token_t :=
  [⟨"while", 5, TOKEN_WHILE, ⟨"a.rose", 1, 1⟩⟩, ⟨"(", 1, TOKEN_LEFT_PAREN, ⟨"a.rose", 1, 7⟩⟩,
   ⟨"true", 4, TOKEN_BOOL_LITERAL, ⟨"a.rose", 1, 8⟩⟩,
   ⟨")", 1, TOKEN_RIGHT_PAREN, ⟨"a.rose", 1, 12⟩⟩,
   ⟨"\x7b", 1, TOKEN_LEFT_BRACE, ⟨"a.rose", 1, 14⟩⟩,
   ⟨"break", 5, TOKEN_BREAK, ⟨"a.rose", 1, 16⟩⟩, ⟨";", 1, TOKEN_SEMICOLON, ⟨"a.rose", 1, 21⟩⟩,
   ⟨"\x7d", 1, TOKEN_RIGHT_BRACE, ⟨"a.rose", 1, 23⟩⟩, ⟨"", 0, TOKEN_EOF, ⟨"a.rose", 1, 24⟩⟩]

/-- The parser after `n` calls of `parser_advance`. -/
def parser_t.advance_by : Nat → parser_t → parser_t
  | 0, p => p
  | n + 1, p => parser_t.advance_by n p.advance

/-- A maximal run of `case <expr>:` labels, met from the parser `p` that stands
behind the first `case`: each entry holds the node `parse_comma` returns on
the expression of a label and the parser it leaves, which stands at the `:`;
a `case` follows every label but the last. -/
def labels_run (fuel : Nat) (rec : parse_rec) : parser_t → List (Node × parser_t) → Prop
  | _, [] => False
  | p, (label, p') :: rest =>
    parse_comma fuel rec p = .ok (some label, p') ∧ p'.current_is TOKEN_COLON = true ∧
      match rest with
      | [] => p'.advance.current_not_in [TOKEN_CASE] = true
      | next :: more =>
        p'.advance.current_is TOKEN_CASE = true ∧
          labels_run fuel rec p'.advance.advance (next :: more)

/-- The parser behind the `:` of the last label of a run met from `p`. -/
def labels_end : parser_t → List (Node × parser_t) → parser_t
  | p, [] => p
  | _, (_, p') :: rest =>
    match rest with
    | [] => p'.advance
    | next :: more => labels_end p'.advance.advance (next :: more)

/-- One section of a `switch` as it is written: a run of `case` labels or one
`default:`, and the statements that follow. -/
inductive switch_section where
  | case (labels : List (Node × parser_t)) (body : List (Node × parser_t))
  | default (body : List (Node × parser_t))

/-- The statements of a section. -/
def switch_section.body : switch_section → List (Node × parser_t)
  | .case _ body => body
  | .default body => body

/-- The labels of a section. -/
def switch_section.labels : switch_section → List (Node × parser_t)
  | .case labels _ => labels
  | .default _ => []

/-- The section a `Switch` node holds for a section as written: the nodes of
the labels in order, the `Block` of the nodes of the statements in order, and
`is_default`. -/
def switch_section.node : switch_section → SwitchCase
  | .case labels body => .mk (labels.map Prod.fst) (.block (body.map Prod.fst)) false
  | .default body => .mk [] (.block (body.map Prod.fst)) true

/-- The types at which the statements of a section end. -/
def section_stops : List token_type_t :=
  [TOKEN_CASE, TOKEN_DEFAULT, TOKEN_RIGHT_BRACE, TOKEN_EOF]

/-- The parser at the first statement of a section that starts at `p`. -/
def section_body_start (p : parser_t) : switch_section → parser_t
  | .case labels _ => labels_end p.advance labels
  | .default _ => p.advance.advance

/-- The parser behind the last statement of a section that starts at `p`. -/
def section_end (p : parser_t) (s : switch_section) : parser_t :=
  run_end (section_body_start p s) s.body

/-- The section `s` is met from the parser `p` on: `case` and a maximal run of
labels, or `default` and `:`, then the statements of the section. -/
def section_run (fuel : Nat) (rec : parse_rec) (p : parser_t) (s : switch_section) : Prop :=
  (match s with
    | .case labels _ => p.current_is TOKEN_CASE = true ∧ labels_run fuel rec p.advance labels
    | .default _ =>
      p.current_is TOKEN_DEFAULT = true ∧ p.advance.current_is TOKEN_COLON = true) ∧
  statements_run rec section_stops (section_body_start p s) s.body

/-- The sections are met one after the other from the parser `p` on. -/
def sections_run (fuel : Nat) (rec : parse_rec) : parser_t → List switch_section → Prop
  | _, [] => True
  | p, s :: rest => section_run fuel rec p s ∧ sections_run fuel rec (section_end p s) rest

/-- The parser behind the last section met from `p`. -/
def sections_end : parser_t → List switch_section → parser_t
  | p, [] => p
  | p, s :: rest => sections_end (section_end p s) rest

/-- The tokens the lexer returns on
`switch (x) \x7b case 1: case 2: a; default: b; \x7d`. -/
def switch_example_tokens : List token_t :=
  [⟨"switch", 6, TOKEN_SWITCH, ⟨"a.rose", 1, 1⟩⟩, ⟨"(", 1, TOKEN_LEFT_PAREN, ⟨"a.rose", 1, 8⟩⟩,
   ⟨"x", 1, TOKEN_IDENTIFIER, ⟨"a.rose", 1, 9⟩⟩, ⟨")", 1, TOKEN_RIGHT_PAREN, ⟨"a.rose", 1, 10⟩⟩,
   ⟨"\x7b", 1, TOKEN_LEFT_BRACE, ⟨"a.rose", 1, 12⟩⟩, ⟨"case", 4, TOKEN_CASE, ⟨"a.rose", 1, 14⟩⟩,
   ⟨"1", 1, TOKEN_NUMBER_LITERAL, ⟨"a.rose", 1, 19⟩⟩, ⟨":", 1, TOKEN_COLON, ⟨"a.rose", 1, 20⟩⟩,
   ⟨"case", 4, TOKEN_CASE, ⟨"a.rose", 1, 22⟩⟩,
   ⟨"2", 1, TOKEN_NUMBER_LITERAL, ⟨"a.rose", 1, 27⟩⟩, ⟨":", 1, TOKEN_COLON, ⟨"a.rose", 1, 28⟩⟩,
   ⟨"a", 1, TOKEN_IDENTIFIER, ⟨"a.rose", 1, 30⟩⟩, ⟨";", 1, TOKEN_SEMICOLON, ⟨"a.rose", 1, 31⟩⟩,
   ⟨"default", 7, TOKEN_DEFAULT, ⟨"a.rose", 1, 33⟩⟩, ⟨":", 1, TOKEN_COLON, ⟨"a.rose", 1, 40⟩⟩,
   ⟨"b", 1, TOKEN_IDENTIFIER, ⟨"a.rose", 1, 42⟩⟩, ⟨";", 1, TOKEN_SEMICOLON, ⟨"a.rose", 1, 43⟩⟩,
   ⟨"\x7d", 1, TOKEN_RIGHT_BRACE, ⟨"a.rose", 1, 45⟩⟩, ⟨"", 0, TOKEN_EOF, ⟨"a.rose", 1, 46⟩⟩]

/-- The tokens the lexer returns on `let x = 2; let y = 3; x ** y;`. -/
def end_to_end_tokens : List token_t :=
  [⟨"let", 3, TOKEN_LET, ⟨"a.rose", 1, 1⟩⟩, ⟨"x", 1, TOKEN_IDENTIFIER, ⟨"a.rose", 1, 5⟩⟩,
   ⟨"=", 1, TOKEN_EQUAL, ⟨"a.rose", 1, 7⟩⟩, ⟨"2", 1, TOKEN_NUMBER_LITERAL, ⟨"a.rose", 1, 9⟩⟩,
   ⟨";", 1, TOKEN_SEMICOLON, ⟨"a.rose", 1, 10⟩⟩,
   ⟨"let", 3, TOKEN_LET, ⟨"a.rose", 1, 12⟩⟩, ⟨"y", 1, TOKEN_IDENTIFIER, ⟨"a.rose", 1, 16⟩⟩,
   ⟨"=", 1, TOKEN_EQUAL, ⟨"a.rose", 1, 18⟩⟩, ⟨"3", 1, TOKEN_NUMBER_LITERAL, ⟨"a.rose", 1, 20⟩⟩,
   ⟨";", 1, TOKEN_SEMICOLON, ⟨"a.rose", 1, 21⟩⟩,
   ⟨"x", 1, TOKEN_IDENTIFIER, ⟨"a.rose", 1, 23⟩⟩, ⟨"**", 2, TOKEN_STAR_STAR, ⟨"a.rose", 1, 25⟩⟩,
   ⟨"y", 1, TOKEN_IDENTIFIER, ⟨"a.rose", 1, 28⟩⟩, ⟨";", 1, TOKEN_SEMICOLON, ⟨"a.rose", 1, 29⟩⟩,
   ⟨"", 0, TOKEN_EOF, ⟨"a.rose", 1, 30⟩⟩]

/-- The tokens that are left end with a token of the type EOF, and no token
before it has that type. -/
def parser_t.ends_with_eof (p : parser_t) : Prop :=
  ∃ pre eof, p.rest = pre ++ [eof] ∧ eof.type = TOKEN_EOF ∧ ∀ t ∈ pre, t.type ≠ TOKEN_EOF

/-- The current token of `p` is `t`, and the tokens that are left end with the
only EOF token among them. -/
def parser_t.reads (p : parser_t) (t : token_t) : Prop :=
  p.current = some t ∧ p.ends_with_eof

/-- The run of `m` from `p` reads no token that is not there, it stops neither
at a `NULL` token nor past the token array, and `post` holds of the result and
of the parser when it returns. -/
@[irreducible]
def parse_m.safe {α : Type} (m : parse_m α) (post : α → parser_t → Prop) (p : parser_t) :
    Prop :=
  match m p with
  | .ok (a, p') => post a p'
  | .error e => e ≠ .null_token ∧ e ≠ .out_of_bounds

/-- Every function that is called through `rec` reads no token that is not
there and returns with a current token before the end of the tokens. -/
def rec_safe (rec : parse_rec) : Prop :=
  ∀ c p, p.ends_with_eof → (rec c).safe (fun _ p' => p'.ends_with_eof) p

/-- The operator types of the functions from `parse_logical_or` down to
`parse_factor`, one list for each function, in the order in which the
functions call each other. -/
def binary_levels : List (List token_type_t) :=
  [[TOKEN_LOGICAL_OR], [TOKEN_LOGICAL_AND], [TOKEN_PIPE], [TOKEN_CARET], [TOKEN_AMPERSAND],
   [TOKEN_EQUAL_EQUAL, TOKEN_BANG_EQUAL],
   [TOKEN_LESS, TOKEN_LESS_EQUAL, TOKEN_GREATER, TOKEN_GREATER_EQUAL],
   [TOKEN_LEFT_SHIFT, TOKEN_RIGHT_SHIFT], [TOKEN_PLUS, TOKEN_MINUS],
   [TOKEN_STAR, TOKEN_SLASH, TOKEN_PERCENT]]

/-- Functions of the shape of `parse_logical_or` to `parse_factor` for the
operator types `levels`, each one calling the next and the last one calling
`base`. -/
def binary_tower (levels : List (List token_type_t)) (base : parse_m (Option Node))
    (fuel : Nat) : parse_m (Option Node) :=
  match levels with
  | [] => base
  | types :: rest => binary_level types (binary_tower rest base fuel) fuel

/-- The tokens `lexer_init` returns on the source text `source`, none when it
returns `NULL`. -/
def tokens_of (source : String) : List token_t :=
  match lexer_init (some "a.rose") source.data with
  | some lex => lex.tokens
  | none => []

/-! ## Tree teardown and the source printer (`src/node.c`) -/

/-- The order of the calls in the loop `for (i = 0; i < count; i++) \x7b
node_free(names[i]); node_free(values[i]); \x7d` over the two arrays of a
declaration, given what each call releases. The C struct has one `count` for
both arrays; where one list of the model is longer, the rest of it follows. -/
def interleave : List (List Node) → List (List Node) → List Node
  | a :: as, b :: bs => a ++ b ++ interleave as bs
  | as, [] => as.flatten
  | [], bs => bs.flatten

mutual

/-- `node_free` on a node that is not `NULL`: the nodes on which `free(node)`
is called, in the order of the calls. `NODE_NEW` and `NODE_DEBUGGER` have no
`case`: they reach `default`, where `ERROR` prints, and then `free(node)`. The
case `NODE_DO_WHILE` goes through the member `while_stmt`, whose `body` is the
second pointer of the node and whose `condition` is the first. -/
def node_free : Node → List Node
  | .program statements => node_free_list statements ++ [.program statements]
  | .block statements => node_free_list statements ++ [.block statements]
  | .binary op left right => node_free left ++ node_free right ++ [.binary op left right]
  | .unary loc op right => node_free right ++ [.unary loc op right]
  | .assignment loc op target value =>
    node_free target ++ node_free value ++ [.assignment loc op target value]
  | .ternary condition true_expr false_expr =>
    node_free condition ++ node_free true_expr ++ node_free false_expr ++
      [.ternary condition true_expr false_expr]
  | .if_stmt condition then_branch else_branch =>
    node_free condition ++ node_free then_branch ++ node_free_opt else_branch ++
      [.if_stmt condition then_branch else_branch]
  | .while_stmt condition body =>
    node_free condition ++ node_free body ++ [.while_stmt condition body]
  | .do_while_stmt first second =>
    node_free second ++ node_free first ++ [.do_while_stmt first second]
  | .for_stmt body init condition increment =>
    node_free body ++ node_free_opt init ++ node_free_opt condition ++
      node_free_opt increment ++ [.for_stmt body init condition increment]
  | .call callee args => node_free callee ++ node_free_list args ++ [.call callee args]
  | .postfix_op op left => node_free left ++ [.postfix_op op left]
  | .index array index => node_free array ++ node_free index ++ [.index array index]
  | .member object property =>
    node_free object ++ node_free_opt property ++ [.member object property]
  | .function is_async name params body =>
    node_free_params params ++ node_free body ++ [.function is_async name params body]
  | .array elements => node_free_list elements ++ [.array elements]
  | .object keys values => node_free_list values ++ [.object keys values]
  | .spread argument => node_free argument ++ [.spread argument]
  | .declaration kind names values =>
    interleave (node_free_each names) (node_free_each_opt values) ++
      [.declaration kind names values]
  | .switch_stmt expr cases =>
    node_free expr ++ node_free_cases cases ++ [.switch_stmt expr cases]
  | .label name statement => node_free statement ++ [.label name statement]
  | .await_expr loc argument => node_free argument ++ [.await_expr loc argument]
  | .break_stmt loc label => [.break_stmt loc label]
  | .continue_stmt loc label => [.continue_stmt loc label]
  | .throw_stmt value => node_free value ++ [.throw_stmt value]
  | .try_stmt try_block catch_param catch_block finally_block =>
    node_free try_block ++ node_free_opt catch_block ++ node_free_opt finally_block ++
      [.try_stmt try_block catch_param catch_block finally_block]
  | .return_stmt value => node_free_opt value ++ [.return_stmt value]
  | .import_stmt module default_name imported => [.import_stmt module default_name imported]
  | .export_stmt is_default declaration exported =>
    node_free_opt declaration ++ [.export_stmt is_default declaration exported]
  | .undefined => [.undefined]
  | .null => [.null]
  | .number number => [.number number]
  | .string string => [.string string]
  | .boolean boolean => [.boolean boolean]
  | .identifier identifier => [.identifier identifier]
  | .this loc => [.this loc]
  | .empty loc => [.empty loc]
  -- default: ERROR("Unreachable! ..."), then free(node)
  | .new_expr argument => [.new_expr argument]
  | .debugger => [.debugger]
termination_by structural node => node

/-- `node_free`: `if (!node) return;`. -/
def node_free_opt : Option Node → List Node
  | none => []
  | some node => node_free node
termination_by structural node => node

/-- A loop `for (i = 0; i < count; i++) node_free(xs[i]);`. -/
def node_free_list : List Node → List Node
  | [] => []
  | node :: rest => node_free node ++ node_free_list rest
termination_by structural node => node

/-- What the calls `node_free(names[i])` release, one entry for each call. -/
def node_free_each : List Node → List (List Node)
  | [] => []
  | node :: rest => node_free node :: node_free_each rest
termination_by structural node => node

/-- What the calls `node_free(values[i])` release, one entry for each call. -/
def node_free_each_opt : List (Option Node) → List (List Node)
  | [] => []
  | node :: rest => node_free_opt node :: node_free_each_opt rest
termination_by structural node => node

/-- The loop over `function.params`: `node_free(params[i].default_value)`. -/
def node_free_params : List Param → List Node
  | [] => []
  | .mk _ default_value _ :: rest => node_free_opt default_value ++ node_free_params rest
termination_by structural node => node

/-- The loop over `switch_stmt.cases`: the labels of a section, then its
body. -/
def node_free_cases : List SwitchCase → List Node
  | [] => []
  | .mk labels body _ :: rest => node_free_list labels ++ node_free body ++ node_free_cases rest
termination_by structural node => node

end

mutual

/-- The nodes of a tree: the node and the nodes of the trees of all its
children, field by field. -/
def Node.nodes : Node → List Node
  | .program statements => .program statements :: nodes_list statements
  | .block statements => .block statements :: nodes_list statements
  | .binary op left right => .binary op left right :: (left.nodes ++ right.nodes)
  | .unary loc op right => .unary loc op right :: right.nodes
  | .assignment loc op target value =>
    .assignment loc op target value :: (target.nodes ++ value.nodes)
  | .ternary condition true_expr false_expr =>
    .ternary condition true_expr false_expr ::
      (condition.nodes ++ true_expr.nodes ++ false_expr.nodes)
  | .if_stmt condition then_branch else_branch =>
    .if_stmt condition then_branch else_branch ::
      (condition.nodes ++ then_branch.nodes ++ nodes_opt else_branch)
  | .while_stmt condition body => .while_stmt condition body :: (condition.nodes ++ body.nodes)
  | .do_while_stmt first second => .do_while_stmt first second :: (first.nodes ++ second.nodes)
  | .for_stmt body init condition increment =>
    .for_stmt body init condition increment ::
      (body.nodes ++ nodes_opt init ++ nodes_opt condition ++ nodes_opt increment)
  | .call callee args => .call callee args :: (callee.nodes ++ nodes_list args)
  | .postfix_op op left => .postfix_op op left :: left.nodes
  | .index array index => .index array index :: (array.nodes ++ index.nodes)
  | .member object property => .member object property :: (object.nodes ++ nodes_opt property)
  | .function is_async name params body =>
    .function is_async name params body :: (nodes_params params ++ body.nodes)
  | .array elements => .array elements :: nodes_list elements
  | .object keys values => .object keys values :: nodes_list values
  | .spread argument => .spread argument :: argument.nodes
  | .declaration kind names values =>
    .declaration kind names values :: (nodes_list names ++ nodes_values values)
  | .switch_stmt expr cases => .switch_stmt expr cases :: (expr.nodes ++ nodes_cases cases)
  | .label name statement => .label name statement :: statement.nodes
  | .await_expr loc argument => .await_expr loc argument :: argument.nodes
  | .new_expr argument => .new_expr argument :: argument.nodes
  | .break_stmt loc label => [.break_stmt loc label]
  | .continue_stmt loc label => [.continue_stmt loc label]
  | .throw_stmt value => .throw_stmt value :: value.nodes
  | .try_stmt try_block catch_param catch_block finally_block =>
    .try_stmt try_block catch_param catch_block finally_block ::
      (try_block.nodes ++ nodes_opt catch_block ++ nodes_opt finally_block)
  | .return_stmt value => .return_stmt value :: nodes_opt value
  | .import_stmt module default_name imported => [.import_stmt module default_name imported]
  | .export_stmt is_default declaration exported =>
    .export_stmt is_default declaration exported :: nodes_opt declaration
  | .undefined => [.undefined]
  | .null => [.null]
  | .number number => [.number number]
  | .string string => [.string string]
  | .boolean boolean => [.boolean boolean]
  | .identifier identifier => [.identifier identifier]
  | .this loc => [.this loc]
  | .empty loc => [.empty loc]
  | .debugger => [.debugger]
termination_by structural node => node

/-- The nodes of a child that may be `NULL`. -/
def nodes_opt : Option Node → List Node
  | none => []
  | some node => node.nodes
termination_by structural node => node

/-- The nodes of the trees of a list. -/
def nodes_list : List Node → List Node
  | [] => []
  | node :: rest => node.nodes ++ nodes_list rest
termination_by structural node => node

/-- The nodes of the trees of a list whose entries may be `NULL`. -/
def nodes_values : List (Option Node) → List Node
  | [] => []
  | node :: rest => nodes_opt node ++ nodes_values rest
termination_by structural node => node

/-- The nodes of the default values of the parameters. -/
def nodes_params : List Param → List Node
  | [] => []
  | .mk _ default_value _ :: rest => nodes_opt default_value ++ nodes_params rest
termination_by structural node => node

/-- The nodes of the labels and bodies of the sections. -/
def nodes_cases : List SwitchCase → List Node
  | [] => []
  | .mk labels body _ :: rest => nodes_list labels ++ body.nodes ++ nodes_cases rest
termination_by structural node => node

end

/-- No node of the tree is a `New` node. -/
def Node.no_new (node : Node) : Bool :=
  node.nodes.all fun n => n.as_new_expr.isNone

/-- The text `printf("%s", node->identifier)` prints for a node that holds an
identifier; `none` for a node of another kind, whose member `identifier` is
not what the union holds. -/
def identifier_text : Node → Option String
  | .identifier identifier => some identifier
  | _ => none

/-- The loop over the names of `NODE_IMPORT` and of `NODE_EXPORT`: the names
with `, ` between them. -/
def names_text : List String → String
  | [] => ""
  | [name] => name
  | name :: rest => name ++ ", " ++ names_text rest

mutual

/-- `node_build_internal` on a node that is not `NULL`: the text written to
`stdout`. `format` is the text `printf("%Lf", node->number)` writes for a
number. The result is `none` where `printf("%s", ...)` is handed the member
`identifier` of a node that is not an identifier, or a `NULL` key. The case
`NODE_DO_WHILE` goes through the member `while_stmt`, whose `body` is the
second pointer of the node and whose `condition` is the first. -/
def node_build_internal (format : number_t → String) : Node → Option String
  | .program statements => build_statements format statements
  | .block statements => do
    let body ← build_statements format statements
    pure ("\x7b" ++ body ++ "\x7d")
  | .declaration kind names values => do
    let body ← build_declarators format names values
    pure (kind.value ++ " " ++ body)
  | .switch_stmt expr cases => do
    let expr ← node_build_internal format expr
    let cases ← build_cases format cases
    pure ("switch (" ++ expr ++ ") \x7b" ++ cases ++ "\x7d")
  | .label name statement => do
    let statement ← node_build_internal format statement
    pure (name ++ ":" ++ statement)
  | .await_expr _ argument => do
    let argument ← node_build_internal format argument
    pure ("await " ++ argument)
  | .binary op left right => do
    let left ← node_build_internal format left
    let right ← node_build_internal format right
    pure ("(" ++ left ++ " " ++ op.value ++ " " ++ right ++ ")")
  | .unary _ op right => do
    let right ← node_build_internal format right
    pure (op.value ++ right)
  | .assignment _ op target value => do
    let target ← node_build_internal format target
    let value ← node_build_internal format value
    pure (target ++ " " ++ op.value ++ " " ++ value)
  | .ternary condition true_expr false_expr => do
    let condition ← node_build_internal format condition
    let true_expr ← node_build_internal format true_expr
    let false_expr ← node_build_internal format false_expr
    pure (condition ++ " ? " ++ true_expr ++ " : " ++ false_expr)
  | .if_stmt condition then_branch else_branch => do
    let condition ← node_build_internal format condition
    let then_branch ← node_build_internal format then_branch
    let else_text ← build_opt format else_branch
    pure ("if (" ++ condition ++ ") " ++ then_branch ++
      (if else_branch.isSome then " else " ++ else_text else ""))
  | .while_stmt condition body => do
    let condition ← node_build_internal format condition
    let body ← node_build_internal format body
    pure ("while (" ++ condition ++ ") " ++ body)
  | .do_while_stmt first second => do
    let body ← node_build_internal format second
    let condition ← node_build_internal format first
    pure ("do " ++ body ++ " while (" ++ condition ++ ")")
  | .for_stmt body init condition increment => do
    let init ← build_opt format init
    let condition ← build_opt format condition
    let increment ← build_opt format increment
    let body ← node_build_internal format body
    pure ("for (" ++ init ++ "; " ++ condition ++ "; " ++ increment ++ ") " ++ body)
  | .call callee args => do
    let callee ← node_build_internal format callee
    let args ← build_commas format args
    pure (callee ++ "(" ++ args ++ ")")
  | .postfix_op op left => do
    let left ← node_build_internal format left
    pure (left ++ op.value)
  | .index array index => do
    let array ← node_build_internal format array
    let index ← node_build_internal format index
    pure (array ++ "[" ++ index ++ "]")
  | .member object property => do
    let object ← node_build_internal format object
    let property ← build_opt format property
    pure (object ++ "." ++ property)
  | .function is_async name params body => do
    let params ← build_params format params
    let body ← node_build_internal format body
    pure ((if is_async then "async " else "") ++ "function " ++ name.getD "" ++
      "(" ++ params ++ ") " ++ body)
  | .array elements => do
    let elements ← build_commas format elements
    pure ("[" ++ elements ++ "]")
  | .object keys values => do
    let entries ← build_entries format keys values
    pure ("\x7b" ++ entries ++ "\x7d")
  | .spread argument => do
    let argument ← node_build_internal format argument
    pure ("..." ++ argument)
  | .break_stmt _ label =>
    some ("break" ++ match label with | some label => " " ++ label | none => "")
  | .continue_stmt _ label =>
    some ("continue" ++ match label with | some label => " " ++ label | none => "")
  | .throw_stmt value => do
    let value ← node_build_internal format value
    pure ("throw " ++ value)
  | .try_stmt try_block catch_param catch_block finally_block => do
    let try_block ← node_build_internal format try_block
    let catch_text ← build_opt format catch_block
    let finally_text ← build_opt format finally_block
    pure ("try " ++ try_block ++
      (if catch_block.isSome then
        " catch" ++ (match catch_param with | some param => "(" ++ param ++ ")" | none => "") ++
          " " ++ catch_text
       else "") ++
      (if finally_block.isSome then " finally " ++ finally_text else ""))
  | .return_stmt value => do
    let text ← build_opt format value
    pure ("return" ++ (if value.isSome then " " ++ text else ""))
  | .import_stmt module default_name imported =>
    some ("import " ++ default_name.getD "" ++
      (if imported.length > 0 then
        (if default_name.isSome then ", " else "") ++ "\x7b " ++ names_text imported ++ " \x7d"
       else "") ++
      " from \"" ++ module ++ "\"")
  | .export_stmt is_default declaration exported => do
    let text ← build_opt format declaration
    pure ("export" ++ (if is_default then " default" else "") ++ " " ++
      (if declaration.isSome then text
       else if exported.length > 0 then "\x7b " ++ names_text exported ++ " \x7d"
       else ""))
  | .number number => some (format number)
  | .string string => some ("\"" ++ string ++ "\"")
  | .boolean boolean => some (if boolean then "true" else "false")
  | .identifier identifier => some identifier
  | .null => some "null"
  | .undefined => some "undefined"
  | .this _ => some "this"
  | .empty _ => some ""
  -- default: node_type_to_string gives "UNKNOWN" for the two kinds
  | .new_expr _ => some "/* unsupported node: (UNKNOWN)28 */"
  | .debugger => some "/* unsupported node: (UNKNOWN)30 */"
termination_by structural node => node

/-- `node_build_internal`: `if (!node) return;`. -/
def build_opt (format : number_t → String) : Option Node → Option String
  | none => some ""
  | some node => node_build_internal format node
termination_by structural node => node

/-- The loop of `NODE_PROGRAM` and `NODE_BLOCK`: each statement, then `;`. -/
def build_statements (format : number_t → String) : List Node → Option String
  | [] => some ""
  | node :: rest => do
    let text ← node_build_internal format node
    let tail ← build_statements format rest
    pure (text ++ ";" ++ tail)
termination_by structural nodes => nodes

/-- The loop of `NODE_CALL` and `NODE_ARRAY`: the nodes with `, ` between
them. -/
def build_commas (format : number_t → String) : List Node → Option String
  | [] => some ""
  | node :: rest => do
    let text ← node_build_internal format node
    let tail ← build_commas format rest
    pure (text ++ (if rest.isEmpty then "" else ", ") ++ tail)
termination_by structural nodes => nodes

/-- The loop of `NODE_DECLARATION` over `values`, with the names alongside. -/
def build_declarators (format : number_t → String) :
    List Node → List (Option Node) → Option String
  | name :: names, value :: values => do
    let name ← identifier_text name
    let text ← build_opt format value
    let tail ← build_declarators format names values
    pure (name ++ (if value.isSome then " = " ++ text else "") ++
      (if values.isEmpty then "" else ", ") ++ tail)
  | _, _ => some ""
termination_by structural _ values => values

/-- The loop of `NODE_OBJECT` over `values`, with the keys alongside. -/
def build_entries (format : number_t → String) :
    List (Option String) → List Node → Option String
  | key :: keys, value :: values => do
    let key ← key
    let text ← node_build_internal format value
    let tail ← build_entries format keys values
    pure (key ++ ": " ++ text ++ (if values.isEmpty then "" else ", ") ++ tail)
  | _, _ => some ""
termination_by structural _ values => values

/-- The loop of `NODE_FUNCTION` over the parameters. -/
def build_params (format : number_t → String) : List Param → Option String
  | [] => some ""
  | .mk name default_value is_rest :: rest => do
    let text ← build_opt format default_value
    let tail ← build_params format rest
    pure ((if is_rest then "..." else "") ++ name ++
      (if default_value.isSome then " = " ++ text else "") ++
      (if rest.isEmpty then "" else ", ") ++ tail)
termination_by structural params => params

/-- The inner loop of `NODE_SWITCH` over the labels of a section. -/
def build_labels (format : number_t → String) : List Node → Option String
  | [] => some ""
  | label :: rest => do
    let text ← node_build_internal format label
    let tail ← build_labels format rest
    pure ("case " ++ text ++ ":" ++ tail)
termination_by structural labels => labels

/-- The loop of `NODE_SWITCH` over the sections. -/
def build_cases (format : number_t → String) : List SwitchCase → Option String
  | [] => some ""
  | .mk labels body is_default :: rest => do
    let head ← if is_default then some "default:" else build_labels format labels
    let body ← node_build_internal format body
    let tail ← build_cases format rest
    pure (head ++ body ++ tail)
termination_by structural cases => cases

end

/-- `node_build`: nothing for `NULL`, else the text of the tree and a
newline. -/
def node_build (format : number_t → String) : Option Node → Option String
  | none => some ""
  | some node => (node_build_internal format node).map (· ++ "\n")

/-! ## Trees without `New` node -/

/-- What the parser returns or carries along holds no `New` node: `clean`
says so of a tree, of the trees of a list, of a child that may be `NULL`, of
the default value of a parameter and of the labels and the body of a section
of a `switch`. -/
class Clean (α : Type) where
  clean : α → Prop

instance : Clean Node := ⟨fun node => node.no_new = true⟩

instance : Clean String := ⟨fun _ => True⟩

instance {α : Type} [Clean α] : Clean (Option α) := ⟨fun value => ∀ a ∈ value, Clean.clean a⟩

instance {α : Type} [Clean α] : Clean (List α) := ⟨fun values => ∀ a ∈ values, Clean.clean a⟩

instance {α β : Type} [Clean α] [Clean β] : Clean (α × β) :=
  ⟨fun pair => Clean.clean pair.1 ∧ Clean.clean pair.2⟩

instance : Clean Param :=
  ⟨fun param => match param with
    | .mk _ default_value _ => Clean.clean default_value⟩

instance : Clean SwitchCase :=
  ⟨fun section_ => match section_ with
    | .mk labels body _ => Clean.clean labels ∧ Clean.clean body⟩

/-- The calls through `rec` return trees without `New` node. -/
def rec_clean (rec : parse_rec) : Prop :=
  ∀ c p, (rec c).ensures (fun a _ => Clean.clean a) p

/-! ## Properties of the environment -/

section EnvLemmas
variable {V : Type}

theorem scope_find_some {vs : List (variable_t V)} {n : String} {i : Nat}
    (h : scope_find vs n = some i) :
    (∃ v, vs.get? i = some v ∧ v.name = n) ∧
      ∀ j, j < i → ∀ w, vs.get? j = some w → w.name ≠ n := by
  induction vs generalizing i with
  | nil => simp [scope_find] at h
  | cons v vs ih =>
    unfold scope_find at h
    by_cases hv : v.name = n
    · simp only [hv, if_true, Option.some.injEq] at h
      subst h
      exact ⟨⟨v, rfl, hv⟩, fun j hj => absurd hj (Nat.not_lt_zero j)⟩
    · simp only [hv, if_false, Option.map_eq_some'] at h
      obtain ⟨k, hk, rfl⟩ := h
      obtain ⟨⟨w, hw, hwn⟩, hlt⟩ := ih hk
      refine ⟨⟨w, by simpa using hw, hwn⟩, ?_⟩
      intro j hj u hu
      cases j with
      | zero =>
        simp only [List.get?_cons_zero, Option.some.injEq] at hu
        subst hu
        exact hv
      | succ j =>
        simp only [List.get?_cons_succ] at hu
        exact hlt j (Nat.lt_of_succ_lt_succ hj) u hu

theorem scope_find_none {vs : List (variable_t V)} {n : String} :
    scope_find vs n = none ↔ ∀ v ∈ vs, v.name ≠ n := by
  induction vs with
  | nil => simp [scope_find]
  | cons v vs ih =>
    unfold scope_find
    by_cases hv : v.name = n
    · simp [hv]
    · simp [hv, ih]

theorem scope_find_isSome {vs : List (variable_t V)} {n : String} :
    (∃ i, scope_find vs n = some i) ↔ ∃ v ∈ vs, v.name = n := by
  constructor
  · rintro ⟨i, hi⟩
    obtain ⟨⟨v, hv, hn⟩, _⟩ := scope_find_some hi
    exact ⟨v, List.get?_mem hv, hn⟩
  · rintro ⟨v, hv, hn⟩
    cases h : scope_find vs n with
    | none => exact absurd hn (scope_find_none.1 h v hv)
    | some i => exact ⟨i, rfl⟩

theorem scope_update_names (vs : List (variable_t V)) (i : Nat) (val : V) :
    (scope_update vs i val).map (·.name) = vs.map (·.name) := by
  induction vs generalizing i with
  | nil => rfl
  | cons v vs ih =>
    cases i with
    | zero => simp [scope_update]
    | succ i => simp [scope_update, ih]

theorem scope_update_length (vs : List (variable_t V)) (i : Nat) (val : V) :
    (scope_update vs i val).length = vs.length := by
  have h := congrArg List.length (scope_update_names vs i val)
  simpa using h

theorem scope_update_get_self {vs : List (variable_t V)} {i : Nat} {w : variable_t V}
    (val : V) (h : vs.get? i = some w) :
    (scope_update vs i val).get? i = some { w with value := val } := by
  induction vs generalizing i with
  | nil => simp at h
  | cons v vs ih =>
    cases i with
    | zero =>
      simp only [List.get?_cons_zero, Option.some.injEq] at h
      subst h
      simp [scope_update]
    | succ i =>
      simp only [List.get?_cons_succ] at h
      simpa [scope_update] using ih h

theorem scope_update_get_other (vs : List (variable_t V)) (i j : Nat) (val : V)
    (h : j ≠ i) : (scope_update vs i val).get? j = vs.get? j := by
  induction vs generalizing i j with
  | nil => rfl
  | cons v vs ih =>
    cases i with
    | zero =>
      cases j with
      | zero => exact absurd rfl h
      | succ j => simp [scope_update]
    | succ i =>
      cases j with
      | zero => simp [scope_update]
      | succ j =>
        simp only [scope_update, List.get?_cons_succ]
        exact ih i j (fun e => h (by rw [e]))

theorem scope_find_update (vs : List (variable_t V)) (i : Nat) (val : V) (m : String) :
    scope_find (scope_update vs i val) m = scope_find vs m := by
  induction vs generalizing i with
  | nil => rfl
  | cons v vs ih =>
    cases i with
    | zero => simp [scope_update, scope_find]
    | succ i => simp [scope_update, scope_find, ih]

theorem scope_find_append (vs : List (variable_t V)) (n m : String) (val : V) :
    scope_find (vs ++ [⟨n, val⟩]) m =
      match scope_find vs m with
      | some i => some i
      | none => if n = m then some vs.length else none := by
  induction vs with
  | nil =>
    by_cases h : n = m <;> simp [scope_find, h]
  | cons v vs ih =>
    by_cases hv : v.name = m
    · simp [scope_find, hv]
    · have e : scope_find (v :: vs ++ [⟨n, val⟩]) m =
          (scope_find (vs ++ [⟨n, val⟩]) m).map (· + 1) := by
        simp [scope_find, hv]
      have e2 : scope_find (v :: vs) m = (scope_find vs m).map (· + 1) := by
        simp [scope_find, hv]
      rw [e, e2, ih]
      cases scope_find vs m with
      | some i => rfl
      | none => by_cases h : n = m <;> simp [h]

@[simp] theorem env_mk_vars (p : Option (env_t V)) (vs : List (variable_t V)) (c : Nat) :
    (env_t.mk p vs c).vars = vs := by
  cases p <;> rfl

@[simp] theorem env_mk_parent (p : Option (env_t V)) (vs : List (variable_t V)) (c : Nat) :
    (env_t.mk p vs c).parent = p := by
  cases p <;> rfl

theorem env_set_of_some {s : env_t V} {n : String} {i : Nat} (v : V)
    (h : scope_find s.vars n = some i) :
    env_set s n v = .mk s.parent (scope_update s.vars i v) s.capacity := by
  simp [env_set, h]

theorem env_set_of_none {s : env_t V} {n : String} (v : V)
    (h : scope_find s.vars n = none) :
    env_set s n v = .mk s.parent (s.vars ++ [⟨n, v⟩])
      (if s.size ≥ s.capacity then s.capacity * 2 else s.capacity) := by
  simp [env_set, h]

theorem env_set_parent (s : env_t V) (n : String) (v : V) :
    (env_set s n v).parent = s.parent := by
  cases h : scope_find s.vars n with
  | some i => rw [env_set_of_some v h]; simp
  | none => rw [env_set_of_none v h]; simp

theorem env_get_of_some {e : env_t V} {m : String} {i : Nat}
    (h : scope_find e.vars m = some i) : env_get e m = some ⟨0, i⟩ := by
  cases e with
  | root vs c => simp only [env_t.vars] at h; simp [env_get, h]
  | child p vs c => simp only [env_t.vars] at h; simp [env_get, h]

theorem env_get_of_none {e : env_t V} {m : String}
    (h : scope_find e.vars m = none) :
    env_get e m = (e.parent.bind fun p => env_get p m).map
      fun r => ⟨r.depth + 1, r.index⟩ := by
  cases e with
  | root vs c => simp only [env_t.vars] at h; simp [env_get, h, env_t.parent]
  | child p vs c => simp only [env_t.vars] at h; simp [env_get, h, env_t.parent]

theorem env_ancestor_zero (e : env_t V) : env_ancestor e 0 = some e := by
  cases e <;> rfl

theorem env_ancestor_succ (e : env_t V) (d : Nat) :
    env_ancestor e (d + 1) = e.parent.bind fun p => env_ancestor p d := by
  cases e <;> rfl

theorem env_get_value_of_some {e : env_t V} {m : String} {i : Nat}
    (h : scope_find e.vars m = some i) :
    env_get_value e m = (e.vars.get? i).map (·.value) := by
  unfold env_get_value
  rw [env_get_of_some h]
  simp [env_deref, env_ancestor_zero]

theorem env_get_value_of_none {e : env_t V} {m : String}
    (h : scope_find e.vars m = none) :
    env_get_value e m = e.parent.bind fun q => env_get_value q m := by
  unfold env_get_value
  rw [env_get_of_none h]
  cases hp : e.parent with
  | none => simp
  | some q =>
    cases hq : env_get q m with
    | none => simp [hq]
    | some r => simp [hq, env_deref, env_ancestor_succ, hp]

theorem env_get_value_set_self (s : env_t V) (n : String) (v : V) :
    env_get_value (env_set s n v) n = some v := by
  cases h : scope_find s.vars n with
  | some i =>
    obtain ⟨⟨w, hw, _⟩, _⟩ := scope_find_some h
    have h2 : scope_find (env_set s n v).vars n = some i := by
      rw [env_set_of_some v h, env_mk_vars, scope_find_update]; exact h
    rw [env_get_value_of_some h2, env_set_of_some v h, env_mk_vars,
      scope_update_get_self v hw]
    rfl
  | none =>
    have h2 : scope_find (env_set s n v).vars n = some s.vars.length := by
      rw [env_set_of_none v h, env_mk_vars, scope_find_append, h]; simp
    rw [env_get_value_of_some h2, env_set_of_none v h, env_mk_vars]
    simp

theorem env_get_value_set_other (s : env_t V) (n m : String) (v : V) (hm : m ≠ n) :
    env_get_value (env_set s n v) m = env_get_value s m := by
  cases h : scope_find s.vars n with
  | some i =>
    have hv : (env_set s n v).vars = scope_update s.vars i v := by
      rw [env_set_of_some v h, env_mk_vars]
    cases hm2 : scope_find s.vars m with
    | some j =>
      have hj : scope_find (env_set s n v).vars m = some j := by
        rw [hv, scope_find_update]; exact hm2
      rw [env_get_value_of_some hj, env_get_value_of_some hm2, hv]
      have hji : j ≠ i := by
        intro e
        subst e
        obtain ⟨⟨w, hw, hwn⟩, _⟩ := scope_find_some h
        obtain ⟨⟨w2, hw2, hwm⟩, _⟩ := scope_find_some hm2
        rw [hw] at hw2
        simp only [Option.some.injEq] at hw2
        subst hw2
        exact hm (hwm.symm.trans hwn)
      rw [scope_update_get_other s.vars i j v hji]
    | none =>
      have hj : scope_find (env_set s n v).vars m = none := by
        rw [hv, scope_find_update]; exact hm2
      rw [env_get_value_of_none hj, env_get_value_of_none hm2, env_set_parent]
  | none =>
    have hv : (env_set s n v).vars = s.vars ++ [⟨n, v⟩] := by
      rw [env_set_of_none v h, env_mk_vars]
    have hne : ¬ n = m := fun e => hm e.symm
    cases hm2 : scope_find s.vars m with
    | some j =>
      have hj : scope_find (env_set s n v).vars m = some j := by
        rw [hv, scope_find_append, hm2]
      rw [env_get_value_of_some hj, env_get_value_of_some hm2, hv]
      obtain ⟨⟨w, hw, _⟩, _⟩ := scope_find_some hm2
      have hlt : j < s.vars.length := by
        rcases Nat.lt_or_ge j s.vars.length with hlt | hge
        · exact hlt
        · rw [List.get?_eq_none.2 hge] at hw
          exact absurd hw (by simp)
      simp [List.getElem?_append_left hlt]
    | none =>
      have hj : scope_find (env_set s n v).vars m = none := by
        rw [hv, scope_find_append, hm2]; simp [hne]
      rw [env_get_value_of_none hj, env_get_value_of_none hm2, env_set_parent]

theorem binds_at_zero (e : env_t V) (n : String) :
    binds_at e 0 n ↔ ∃ v ∈ e.vars, v.name = n := by
  simp [binds_at, env_ancestor_zero]

theorem binds_at_succ (e : env_t V) (d : Nat) (n : String) :
    binds_at e (d + 1) n ↔ ∃ p, e.parent = some p ∧ binds_at p d n := by
  unfold binds_at
  rw [env_ancestor_succ]
  cases e.parent with
  | none => simp
  | some p => simp

theorem env_get_some_spec (env : env_t V) (n : String) (r : var_ref)
    (h : env_get env n = some r) :
    (∃ v, env_deref env r = some v ∧ v.name = n) ∧
    (∀ d, d < r.depth → ¬ binds_at env d n) ∧
    (∀ e, env_ancestor env r.depth = some e →
      ∀ j, j < r.index → ∀ w, e.vars.get? j = some w → w.name ≠ n) := by
  have key : ∀ (e : env_t V), (∀ q, e.parent = some q → ∀ r, env_get q n = some r →
        (∃ v, env_deref q r = some v ∧ v.name = n) ∧
        (∀ d, d < r.depth → ¬ binds_at q d n) ∧
        (∀ e', env_ancestor q r.depth = some e' →
          ∀ j, j < r.index → ∀ w, e'.vars.get? j = some w → w.name ≠ n)) →
      ∀ r, env_get e n = some r →
        (∃ v, env_deref e r = some v ∧ v.name = n) ∧
        (∀ d, d < r.depth → ¬ binds_at e d n) ∧
        (∀ e', env_ancestor e r.depth = some e' →
          ∀ j, j < r.index → ∀ w, e'.vars.get? j = some w → w.name ≠ n) := by
    intro e ih r h
    cases hf : scope_find e.vars n with
    | some i =>
      rw [env_get_of_some hf] at h
      simp only [Option.some.injEq] at h
      subst h
      obtain ⟨⟨w, hw, hwn⟩, hlt⟩ := scope_find_some hf
      refine ⟨⟨w, by simpa [env_deref, env_ancestor_zero] using hw, hwn⟩, ?_, ?_⟩
      · intro d hd
        exact absurd hd (Nat.not_lt_zero d)
      · intro e' he j hj u hu
        simp only [env_ancestor_zero, Option.some.injEq] at he
        subst he
        exact hlt j hj u hu
    | none =>
      rw [env_get_of_none hf] at h
      cases hp : e.parent with
      | none => simp [hp] at h
      | some q =>
        simp only [hp, Option.bind_some, Option.map_eq_some'] at h
        obtain ⟨r', hr', rfl⟩ := h
        obtain ⟨hv, hd, hi⟩ := ih q hp r' hr'
        refine ⟨?_, ?_, ?_⟩
        · simpa [env_deref, env_ancestor_succ, hp] using hv
        · intro d hdlt
          cases d with
          | zero =>
            rw [binds_at_zero]
            rintro ⟨v, hv1, hv2⟩
            exact scope_find_none.1 hf v hv1 hv2
          | succ d =>
            rw [binds_at_succ]
            rintro ⟨p, hp2, hb⟩
            rw [hp] at hp2
            cases hp2
            exact hd d (Nat.lt_of_succ_lt_succ hdlt) hb
        · intro e' he
          simp only [env_ancestor_succ, hp, Option.bind_some] at he
          exact hi e' he
  induction env generalizing r with
  | root vs c => exact key _ (fun q hq => by simp [env_t.parent] at hq) r h
  | child p vs c ih =>
    refine key _ (fun q hq r' hr' => ?_) r h
    simp only [env_t.parent, Option.some.injEq] at hq
    subst hq
    exact ih r' hr'

theorem env_get_none_spec (env : env_t V) (n : String) :
    env_get env n = none ↔ ∀ d, ¬ binds_at env d n := by
  have key : ∀ (e : env_t V), (∀ q, e.parent = some q →
        (env_get q n = none ↔ ∀ d, ¬ binds_at q d n)) →
      (env_get e n = none ↔ ∀ d, ¬ binds_at e d n) := by
    intro e ih
    cases hf : scope_find e.vars n with
    | some i =>
      rw [env_get_of_some hf]
      refine ⟨fun hc => Option.noConfusion hc, fun hall => ?_⟩
      exfalso
      obtain ⟨⟨w, hw, hwn⟩, _⟩ := scope_find_some hf
      exact hall 0 ((binds_at_zero e n).2 ⟨w, List.get?_mem hw, hwn⟩)
    | none =>
      rw [env_get_of_none hf]
      have h0 : ¬ binds_at e 0 n := by
        rw [binds_at_zero]
        rintro ⟨v, hv1, hv2⟩
        exact scope_find_none.1 hf v hv1 hv2
      cases hp : e.parent with
      | none =>
        refine ⟨fun _ d => ?_, fun _ => rfl⟩
        cases d with
        | zero => exact h0
        | succ d => rw [binds_at_succ]; simp [hp]
      | some q =>
        simp only [Option.bind_some, Option.map_eq_none']
        show env_get q n = none ↔ _
        rw [ih q hp]
        constructor
        · intro h d
          cases d with
          | zero => exact h0
          | succ d =>
            rw [binds_at_succ]
            rintro ⟨p, hp2, hb⟩
            rw [hp] at hp2
            cases hp2
            exact h d hb
        · intro h d hb
          exact h (d + 1) ((binds_at_succ e d n).2 ⟨q, hp, hb⟩)
  induction env with
  | root vs c => exact key _ (fun q hq => by simp [env_t.parent] at hq)
  | child p vs c ih =>
    refine key _ (fun q hq => ?_)
    simp only [env_t.parent, Option.some.injEq] at hq
    subst hq
    exact ih

theorem env_set_names_nodup (e : env_t V) (n : String) (v : V)
    (h : (e.vars.map (·.name)).Nodup) : ((env_set e n v).vars.map (·.name)).Nodup := by
  cases hf : scope_find e.vars n with
  | some i =>
    rw [env_set_of_some v hf, env_mk_vars, scope_update_names]
    exact h
  | none =>
    rw [env_set_of_none v hf, env_mk_vars, List.map_append, List.nodup_append]
    refine ⟨h, by simp, ?_⟩
    intro a ha hb
    simp only [List.map_cons, List.map_nil, List.mem_singleton] at hb
    subst hb
    simp only [List.mem_map] at ha
    obtain ⟨w, hw, hwn⟩ := ha
    exact scope_find_none.1 hf w hw hwn

end EnvLemmas

/-- C7: `env_get` returns the slot of the innermost scope that binds the name
(a slot carrying the name, in the scope of least depth that binds it, and the
first such slot of that scope), and it returns not-found exactly when no scope
of the chain binds the name. -/
theorem C7_env_get_innermost {V : Type} (env : env_t V) (name : String) :
    (∀ r, env_get env name = some r →
      (∃ v, env_deref env r = some v ∧ v.name = name) ∧
      (∀ d, d < r.depth → ¬ binds_at env d name) ∧
      (∀ e, env_ancestor env r.depth = some e →
        ∀ j, j < r.index → ∀ w, e.vars.get? j = some w → w.name ≠ name)) ∧
    (env_get env name = none ↔ ∀ d, ¬ binds_at env d name) :=
  ⟨fun r h => env_get_some_spec env name r h, env_get_none_spec env name⟩

/-- C8: `env_set(s, n, v)` overwrites the value of the slot of `s` that
carries `n` when there is one, keeping the number, the order and the names of
the slots (and every other slot as it was); otherwise it appends `(n, v)` as the
last slot, so the size grows by one. In both cases the parent link is kept,
looking `n` up afterwards yields `v`, and the lookup of every other name is
unchanged. -/
theorem C8_env_set_update_or_append {V : Type} (s : env_t V) (n : String) (v : V) :
    ((∃ w ∈ s.vars, w.name = n) →
      (env_set s n v).vars.map (·.name) = s.vars.map (·.name) ∧
      (env_set s n v).size = s.size ∧
      ∃ i, scope_find s.vars n = some i ∧
        ((env_set s n v).vars.get? i).map (·.value) = some v ∧
        ∀ j, j ≠ i → (env_set s n v).vars.get? j = s.vars.get? j) ∧
    ((∀ w ∈ s.vars, w.name ≠ n) →
      (env_set s n v).vars = s.vars ++ [⟨n, v⟩] ∧
      (env_set s n v).size = s.size + 1) ∧
    (env_set s n v).parent = s.parent ∧
    env_get_value (env_set s n v) n = some v ∧
    ∀ m, m ≠ n → env_get_value (env_set s n v) m = env_get_value s m := by
  refine ⟨?_, ?_, env_set_parent s n v, env_get_value_set_self s n v,
    fun m hm => env_get_value_set_other s n m v hm⟩
  · intro hb
    obtain ⟨i, hi⟩ := scope_find_isSome.2 hb
    obtain ⟨⟨w, hw, _⟩, _⟩ := scope_find_some hi
    have hv : (env_set s n v).vars = scope_update s.vars i v := by
      rw [env_set_of_some v hi, env_mk_vars]
    simp only [env_t.size, hv]
    refine ⟨scope_update_names _ i v, scope_update_length _ i v, i, hi, ?_, ?_⟩
    · rw [scope_update_get_self v hw]; rfl
    · intro j hj
      exact scope_update_get_other _ i j v hj
  · intro hn
    have hf : scope_find s.vars n = none := scope_find_none.2 hn
    have hv : (env_set s n v).vars = s.vars ++ [⟨n, v⟩] := by
      rw [env_set_of_none v hf, env_mk_vars]
    simp [env_t.size, hv]

/-- C9: with `x` bound to `v1` as seen from `outer`, setting `x` to `v2` in a
scope entered from `outer` makes the lookup in that scope yield `v2`, keeps the
parent link on the unchanged `outer`, and leaving the scope gives back `outer`,
where the lookup of `x` still yields `v1`. -/
theorem C9_env_shadowing {V : Type} (outer : env_t V) (x : String) (v1 v2 : V)
    (h : env_get_value outer x = some v1) :
    env_get_value (env_set (env_enter_scope outer) x v2) x = some v2 ∧
    (env_set (env_enter_scope outer) x v2).parent = some outer ∧
    env_leave_scope (env_set (env_enter_scope outer) x v2) = some outer ∧
    (env_leave_scope (env_set (env_enter_scope outer) x v2)).bind
      (fun e => env_get_value e x) = some v1 := by
  have hp : (env_set (env_enter_scope outer) x v2).parent = some outer := by
    rw [env_set_parent]; rfl
  refine ⟨env_get_value_set_self _ x v2, hp, hp, ?_⟩
  unfold env_leave_scope
  rw [hp]
  exact h

/-- Witness of C9: `x` is 1 in the global scope and 2 in a block. -/
theorem C9_env_shadowing_witness :
    env_get_value (env_set (env_create (none : Option (env_t Nat))) "x" 1) "x" = some 1 ∧
    env_get_value (env_set (env_enter_scope
      (env_set (env_create (none : Option (env_t Nat))) "x" 1)) "x" 2) "x" = some 2 ∧
    (env_leave_scope (env_set (env_enter_scope
      (env_set (env_create (none : Option (env_t Nat))) "x" 1)) "x" 2)).bind
      (fun e => env_get_value e "x") = some 1 :=
  have h := C9_env_shadowing (env_set (env_create (none : Option (env_t Nat))) "x" 1)
    "x" 1 2 (by decide)
  ⟨by decide, h.1, h.2.2.2⟩

/-- C10: in every scope obtained from `env_create` by `env_set` calls, the
names of the slots are pairwise different. -/
theorem C10_env_unique_names {V : Type} (e : env_t V) (h : Built e) :
    (e.vars.map (·.name)).Nodup := by
  induction h with
  | create p => simp [env_create]
  | set n v _ ih => exact env_set_names_nodup _ n v ih

/-- Witness of C10: three `env_set` calls, one of them on a name already set. -/
theorem C10_env_unique_names_witness :
    ((env_set (env_set (env_set (env_create (none : Option (env_t Nat))) "a" 1) "b" 2)
      "a" 3).vars.map (·.name)).Nodup :=
  C10_env_unique_names _ (.set "a" 3 (.set "b" 2 (.set "a" 1 (.create none))))

/-! ## Properties of the semantic analysis -/

theorem sema_frame_refl (s : sema_t) : sema_frame s s := ⟨rfl, rfl, rfl, id⟩

theorem sema_frame_trans {a b c : sema_t} (h1 : sema_frame a b) (h2 : sema_frame b c) :
    sema_frame a c :=
  ⟨h2.1.trans h1.1, h2.2.1.trans h1.2.1, h2.2.2.1.trans h1.2.2.1,
    fun h => h2.2.2.2 (h1.2.2.2 h)⟩

theorem sema_frame_error (s : sema_t) (m : sema_message) (l : location_t) :
    sema_frame s (SEMA_ERROR s m l) := ⟨rfl, rfl, rfl, fun _ => rfl⟩

theorem loop_depth_dec_inc (s : sema_t) (h : s.loop_depth < SIZE_MODULUS) :
    (s.loop_depth + 1) % SIZE_MODULUS + SIZE_MODULUS - 1 = s.loop_depth + SIZE_MODULUS ∨
    (s.loop_depth + 1) % SIZE_MODULUS + SIZE_MODULUS - 1 = s.loop_depth := by
  unfold SIZE_MODULUS at *
  omega

theorem loop_depth_restore (d : Nat) (h : d < SIZE_MODULUS) :
    ((d + 1) % SIZE_MODULUS + SIZE_MODULUS - 1) % SIZE_MODULUS = d := by
  unfold SIZE_MODULUS at *
  omega

theorem loop_depth_inc_lt (s : sema_t) : (loop_depth_inc s).loop_depth < SIZE_MODULUS :=
  Nat.mod_lt _ (by unfold SIZE_MODULUS; decide)

theorem loop_depth_inc_fields (s : sema_t) :
    (loop_depth_inc s).program = s.program ∧
    (loop_depth_inc s).loop_depth = (s.loop_depth + 1) % SIZE_MODULUS ∧
    (loop_depth_inc s).in_async_function = s.in_async_function ∧
    (loop_depth_inc s).had_error = s.had_error := by
  unfold loop_depth_inc
  exact ⟨rfl, rfl, rfl, rfl⟩

theorem loop_depth_dec_fields (s : sema_t) :
    (loop_depth_dec s).program = s.program ∧
    (loop_depth_dec s).loop_depth = (s.loop_depth + SIZE_MODULUS - 1) % SIZE_MODULUS ∧
    (loop_depth_dec s).in_async_function = s.in_async_function ∧
    (loop_depth_dec s).had_error = s.had_error := by
  unfold loop_depth_dec
  exact ⟨rfl, rfl, rfl, rfl⟩

/-- The shape of a loop visit: increment, visit, decrement. -/
theorem sema_frame_loop {s t : sema_t} (h : s.loop_depth < SIZE_MODULUS)
    (hf : sema_frame (loop_depth_inc s) t) : sema_frame s (loop_depth_dec t) := by
  obtain ⟨i1, i2, i3, i4⟩ := loop_depth_inc_fields s
  obtain ⟨d1, d2, d3, d4⟩ := loop_depth_dec_fields t
  obtain ⟨h1, h2, h3, h4⟩ := hf
  rw [i1] at h1
  rw [i2] at h2
  rw [i3] at h3
  rw [i4] at h4
  unfold sema_frame
  rw [d1, d2, d3, d4, h2]
  exact ⟨h1, loop_depth_restore _ h, h3, h4⟩

theorem sema_frame_lt {s t : sema_t} (h : s.loop_depth < SIZE_MODULUS)
    (hf : sema_frame s t) : t.loop_depth < SIZE_MODULUS := by
  rw [hf.2.1]; exact h

mutual

theorem sema_visit_node_frame : (n : Node) → (s : sema_t) →
    s.loop_depth < SIZE_MODULUS → sema_frame s (sema_visit_node s n)
  | .number _, s, _ | .string _, s, _ | .boolean _, s, _ | .undefined, s, _
  | .null, s, _ | .this _, s, _ | .identifier _, s, _ | .empty _, s, _
  | .switch_stmt _ _, s, _ | .label _ _, s, _ | .new_expr _, s, _ | .debugger, s, _
  | .import_stmt _ _ _, s, _ | .export_stmt _ _ _, s, _ => by
    simp only [sema_visit_node]; exact sema_frame_refl s
  | .array elements, s, h => by
    simp only [sema_visit_node]; exact sema_visit_list_frame elements s h
  | .object _ values, s, h => by
    simp only [sema_visit_node]; exact sema_visit_list_frame values s h
  | .spread argument, s, h => by
    simp only [sema_visit_node]; exact sema_visit_node_frame argument s h
  | .program statements, s, h => by
    simp only [sema_visit_node]; exact sema_visit_list_frame statements s h
  | .block statements, s, h => by
    simp only [sema_visit_node]; exact sema_visit_list_frame statements s h
  | .binary _ left right, s, h => by
    simp only [sema_visit_node]
    have h1 := sema_visit_node_frame left s h
    exact sema_frame_trans h1 (sema_visit_node_frame right _ (sema_frame_lt h h1))
  | .unary _ _ right, s, h => by
    simp only [sema_visit_node]; exact sema_visit_node_frame right s h
  | .assignment _ _ target value, s, h => by
    simp only [sema_visit_node]
    have h1 := sema_visit_node_frame target s h
    exact sema_frame_trans h1 (sema_visit_node_frame value _ (sema_frame_lt h h1))
  | .ternary condition true_expr false_expr, s, h => by
    simp only [sema_visit_node]
    have h1 := sema_visit_node_frame condition s h
    have h2 := sema_frame_trans h1 (sema_visit_node_frame true_expr _ (sema_frame_lt h h1))
    exact sema_frame_trans h2 (sema_visit_node_frame false_expr _ (sema_frame_lt h h2))
  | .if_stmt condition then_branch else_branch, s, h => by
    simp only [sema_visit_node]
    have h1 := sema_visit_node_frame condition s h
    have h2 := sema_frame_trans h1 (sema_visit_node_frame then_branch _ (sema_frame_lt h h1))
    exact sema_frame_trans h2 (sema_visit_frame else_branch _ (sema_frame_lt h h2))
  | .while_stmt condition body, s, h => by
    simp only [sema_visit_node]
    have h0 := loop_depth_inc_lt s
    have h1 := sema_visit_node_frame condition (loop_depth_inc s) h0
    have h2 := sema_frame_trans h1 (sema_visit_node_frame body _ (sema_frame_lt h0 h1))
    exact sema_frame_loop h h2
  | .do_while_stmt body condition, s, h => by
    simp only [sema_visit_node]
    have h0 := loop_depth_inc_lt s
    have h1 := sema_visit_node_frame body (loop_depth_inc s) h0
    have h2 := sema_frame_trans h1 (sema_visit_node_frame condition _ (sema_frame_lt h0 h1))
    exact sema_frame_loop h h2
  | .for_stmt body init condition increment, s, h => by
    simp only [sema_visit_node]
    have h0 := loop_depth_inc_lt s
    have h1 := sema_visit_frame init (loop_depth_inc s) h0
    have h2 := sema_frame_trans h1 (sema_visit_frame condition _ (sema_frame_lt h0 h1))
    have h3 := sema_frame_trans h2 (sema_visit_frame increment _ (sema_frame_lt h0 h2))
    have h4 := sema_frame_trans h3 (sema_visit_node_frame body _ (sema_frame_lt h0 h3))
    exact sema_frame_loop h h4
  | .call callee args, s, h => by
    simp only [sema_visit_node]
    have h1 := sema_visit_node_frame callee s h
    exact sema_frame_trans h1 (sema_visit_list_frame args _ (sema_frame_lt h h1))
  | .index array index, s, h => by
    simp only [sema_visit_node]
    have h1 := sema_visit_node_frame array s h
    exact sema_frame_trans h1 (sema_visit_node_frame index _ (sema_frame_lt h h1))
  | .member object _, s, h => by
    simp only [sema_visit_node]; exact sema_visit_node_frame object s h
  | .postfix_op _ left, s, h => by
    simp only [sema_visit_node]; exact sema_visit_node_frame left s h
  | .function is_async _ _ body, s, h => by
    simp only [sema_visit_node]
    obtain ⟨h1, h2, _, h4⟩ :=
      sema_visit_node_frame body { s with in_async_function := is_async } h
    exact ⟨h1, h2, rfl, h4⟩
  | .declaration _ _ values, s, h => by
    simp only [sema_visit_node]; exact sema_visit_values_frame values s h
  | .break_stmt loc _, s, _ => by
    simp only [sema_visit_node]
    split
    · exact sema_frame_error s _ loc
    · exact sema_frame_refl s
  | .continue_stmt loc _, s, _ => by
    simp only [sema_visit_node]
    split
    · exact sema_frame_error s _ loc
    · exact sema_frame_refl s
  | .throw_stmt value, s, h => by
    simp only [sema_visit_node]; exact sema_visit_node_frame value s h
  | .try_stmt try_block _ catch_block finally_block, s, h => by
    simp only [sema_visit_node]
    have h1 := sema_visit_node_frame try_block s h
    have h2 := sema_frame_trans h1 (sema_visit_frame catch_block _ (sema_frame_lt h h1))
    exact sema_frame_trans h2 (sema_visit_frame finally_block _ (sema_frame_lt h h2))
  | .return_stmt value, s, h => by
    simp only [sema_visit_node]; exact sema_visit_frame value s h
  | .await_expr loc argument, s, h => by
    simp only [sema_visit_node]
    split
    · exact sema_frame_trans (sema_frame_error s _ loc)
        (sema_visit_node_frame argument _ h)
    · exact sema_visit_node_frame argument s h

theorem sema_visit_frame : (o : Option Node) → (s : sema_t) →
    s.loop_depth < SIZE_MODULUS → sema_frame s (sema_visit s o)
  | none, s, _ => by simp only [sema_visit]; exact sema_frame_refl s
  | some n, s, h => by simp only [sema_visit]; exact sema_visit_node_frame n s h

theorem sema_visit_list_frame : (l : List Node) → (s : sema_t) →
    s.loop_depth < SIZE_MODULUS → sema_frame s (sema_visit_list s l)
  | [], s, _ => by simp only [sema_visit_list]; exact sema_frame_refl s
  | n :: rest, s, h => by
    simp only [sema_visit_list]
    have h1 := sema_visit_node_frame n s h
    exact sema_frame_trans h1 (sema_visit_list_frame rest _ (sema_frame_lt h h1))

theorem sema_visit_values_frame : (l : List (Option Node)) → (s : sema_t) →
    s.loop_depth < SIZE_MODULUS → sema_frame s (sema_visit_values s l)
  | [], s, _ => by simp only [sema_visit_values]; exact sema_frame_refl s
  | v :: rest, s, h => by
    simp only [sema_visit_values]
    have h1 := sema_visit_frame v s h
    exact sema_frame_trans h1 (sema_visit_values_frame rest _ (sema_frame_lt h h1))

end

theorem loop_depth_dec_inc_eq (s : sema_t) (h : s.loop_depth < SIZE_MODULUS) :
    loop_depth_dec (loop_depth_inc s) = s := by
  cases s with
  | mk p d a e g =>
    simp only [loop_depth_inc, loop_depth_dec]
    congr
    exact loop_depth_restore d h

theorem loop_depth_inc_val (s : sema_t) (h : s.loop_depth + 1 < SIZE_MODULUS) :
    (loop_depth_inc s).loop_depth = s.loop_depth + 1 := by
  simp only [loop_depth_inc]
  exact Nat.mod_eq_of_lt h

theorem loop_depth_inc_async (s : sema_t) :
    (loop_depth_inc s).in_async_function = s.in_async_function := rfl

mutual

theorem sema_visit_node_placed : (n : Node) → (s : sema_t) → (in_loop : Bool) →
    well_placed in_loop s.in_async_function n = true →
    (in_loop = true → 0 < s.loop_depth) →
    s.loop_depth + loop_nesting n < SIZE_MODULUS → sema_visit_node s n = s
  | .number _, s, _, _, _, _ | .string _, s, _, _, _, _ | .boolean _, s, _, _, _, _
  | .undefined, s, _, _, _, _ | .null, s, _, _, _, _ | .this _, s, _, _, _, _
  | .identifier _, s, _, _, _, _ | .empty _, s, _, _, _, _
  | .switch_stmt _ _, s, _, _, _, _ | .label _ _, s, _, _, _, _
  | .new_expr _, s, _, _, _, _ | .debugger, s, _, _, _, _
  | .import_stmt _ _ _, s, _, _, _, _ | .export_stmt _ _ _, s, _, _, _, _ => by
    simp only [sema_visit_node]
  | .array elements, s, il, hw, hl, hn => by
    simp only [sema_visit_node, well_placed, loop_nesting] at *
    exact sema_visit_list_placed elements s il hw hl hn
  | .object _ values, s, il, hw, hl, hn => by
    simp only [sema_visit_node, well_placed, loop_nesting] at *
    exact sema_visit_list_placed values s il hw hl hn
  | .spread argument, s, il, hw, hl, hn => by
    simp only [sema_visit_node, well_placed, loop_nesting] at *
    exact sema_visit_node_placed argument s il hw hl hn
  | .program statements, s, il, hw, hl, hn => by
    simp only [sema_visit_node, well_placed, loop_nesting] at *
    exact sema_visit_list_placed statements s il hw hl hn
  | .block statements, s, il, hw, hl, hn => by
    simp only [sema_visit_node, well_placed, loop_nesting] at *
    exact sema_visit_list_placed statements s il hw hl hn
  | .binary _ left right, s, il, hw, hl, hn => by
    simp only [sema_visit_node, well_placed, loop_nesting, Bool.and_eq_true] at *
    rw [sema_visit_node_placed left s il hw.1 hl (by omega)]
    exact sema_visit_node_placed right s il hw.2 hl (by omega)
  | .unary _ _ right, s, il, hw, hl, hn => by
    simp only [sema_visit_node, well_placed, loop_nesting] at *
    exact sema_visit_node_placed right s il hw hl hn
  | .assignment _ _ target value, s, il, hw, hl, hn => by
    simp only [sema_visit_node, well_placed, loop_nesting, Bool.and_eq_true] at *
    rw [sema_visit_node_placed target s il hw.1 hl (by omega)]
    exact sema_visit_node_placed value s il hw.2 hl (by omega)
  | .ternary condition true_expr false_expr, s, il, hw, hl, hn => by
    simp only [sema_visit_node, well_placed, loop_nesting, Bool.and_eq_true] at *
    rw [sema_visit_node_placed condition s il hw.1.1 hl (by omega),
      sema_visit_node_placed true_expr s il hw.1.2 hl (by omega)]
    exact sema_visit_node_placed false_expr s il hw.2 hl (by omega)
  | .if_stmt condition then_branch else_branch, s, il, hw, hl, hn => by
    simp only [sema_visit_node, well_placed, loop_nesting, Bool.and_eq_true] at *
    rw [sema_visit_node_placed condition s il hw.1.1 hl (by omega),
      sema_visit_node_placed then_branch s il hw.1.2 hl (by omega)]
    exact sema_visit_placed else_branch s il hw.2 hl (by omega)
  | .while_stmt condition body, s, il, hw, hl, hn => by
    simp only [sema_visit_node, well_placed, loop_nesting, Bool.and_eq_true] at *
    have hv := loop_depth_inc_val s (by omega)
    rw [sema_visit_node_placed condition (loop_depth_inc s) true hw.1
        (fun _ => by omega) (by omega),
      sema_visit_node_placed body (loop_depth_inc s) true hw.2
        (fun _ => by omega) (by omega)]
    exact loop_depth_dec_inc_eq s (by omega)
  | .do_while_stmt body condition, s, il, hw, hl, hn => by
    simp only [sema_visit_node, well_placed, loop_nesting, Bool.and_eq_true] at *
    have hv := loop_depth_inc_val s (by omega)
    rw [sema_visit_node_placed body (loop_depth_inc s) true hw.1
        (fun _ => by omega) (by omega),
      sema_visit_node_placed condition (loop_depth_inc s) true hw.2
        (fun _ => by omega) (by omega)]
    exact loop_depth_dec_inc_eq s (by omega)
  | .for_stmt body init condition increment, s, il, hw, hl, hn => by
    simp only [sema_visit_node, well_placed, loop_nesting, Bool.and_eq_true] at *
    have hv := loop_depth_inc_val s (by omega)
    rw [sema_visit_placed init (loop_depth_inc s) true hw.1.1.1
        (fun _ => by omega) (by omega),
      sema_visit_placed condition (loop_depth_inc s) true hw.1.1.2
        (fun _ => by omega) (by omega),
      sema_visit_placed increment (loop_depth_inc s) true hw.1.2
        (fun _ => by omega) (by omega),
      sema_visit_node_placed body (loop_depth_inc s) true hw.2
        (fun _ => by omega) (by omega)]
    exact loop_depth_dec_inc_eq s (by omega)
  | .call callee args, s, il, hw, hl, hn => by
    simp only [sema_visit_node, well_placed, loop_nesting, Bool.and_eq_true] at *
    rw [sema_visit_node_placed callee s il hw.1 hl (by omega)]
    exact sema_visit_list_placed args s il hw.2 hl (by omega)
  | .index array index, s, il, hw, hl, hn => by
    simp only [sema_visit_node, well_placed, loop_nesting, Bool.and_eq_true] at *
    rw [sema_visit_node_placed array s il hw.1 hl (by omega)]
    exact sema_visit_node_placed index s il hw.2 hl (by omega)
  | .member object _, s, il, hw, hl, hn => by
    simp only [sema_visit_node, well_placed, loop_nesting, Bool.and_eq_true] at *
    exact sema_visit_node_placed object s il hw.1 hl hn
  | .postfix_op _ left, s, il, hw, hl, hn => by
    simp only [sema_visit_node, well_placed, loop_nesting] at *
    exact sema_visit_node_placed left s il hw hl hn
  | .function is_async _ _ body, s, il, hw, hl, hn => by
    simp only [sema_visit_node, well_placed, loop_nesting, Bool.and_eq_true] at *
    rw [sema_visit_node_placed body { s with in_async_function := is_async } il hw.2 hl hn]
  | .declaration _ _ values, s, il, hw, hl, hn => by
    simp only [sema_visit_node, well_placed, loop_nesting, Bool.and_eq_true] at *
    exact sema_visit_values_placed values s il hw.2 hl hn
  | .break_stmt loc _, s, il, hw, hl, _ => by
    simp only [sema_visit_node, well_placed] at *
    have := hl hw
    rw [if_neg (by omega)]
  | .continue_stmt loc _, s, il, hw, hl, _ => by
    simp only [sema_visit_node, well_placed] at *
    have := hl hw
    rw [if_neg (by omega)]
  | .throw_stmt value, s, il, hw, hl, hn => by
    simp only [sema_visit_node, well_placed, loop_nesting] at *
    exact sema_visit_node_placed value s il hw hl hn
  | .try_stmt try_block _ catch_block finally_block, s, il, hw, hl, hn => by
    simp only [sema_visit_node, well_placed, loop_nesting, Bool.and_eq_true] at *
    rw [sema_visit_node_placed try_block s il hw.1.1 hl (by omega),
      sema_visit_placed catch_block s il hw.1.2 hl (by omega)]
    exact sema_visit_placed finally_block s il hw.2 hl (by omega)
  | .return_stmt value, s, il, hw, hl, hn => by
    simp only [sema_visit_node, well_placed, loop_nesting] at *
    exact sema_visit_placed value s il hw hl hn
  | .await_expr loc argument, s, il, hw, hl, hn => by
    simp only [sema_visit_node, well_placed, loop_nesting, Bool.and_eq_true] at *
    simp only [hw.1, Bool.not_true, Bool.false_eq_true, if_false]
    exact sema_visit_node_placed argument s il hw.2 hl hn

theorem sema_visit_placed : (o : Option Node) → (s : sema_t) → (in_loop : Bool) →
    well_placed_opt in_loop s.in_async_function o = true →
    (in_loop = true → 0 < s.loop_depth) →
    s.loop_depth + loop_nesting_opt o < SIZE_MODULUS → sema_visit s o = s
  | none, s, _, _, _, _ => by simp only [sema_visit]
  | some n, s, il, hw, hl, hn => by
    simp only [sema_visit, well_placed_opt, loop_nesting_opt] at *
    exact sema_visit_node_placed n s il hw hl hn

theorem sema_visit_list_placed : (l : List Node) → (s : sema_t) → (in_loop : Bool) →
    well_placed_list in_loop s.in_async_function l = true →
    (in_loop = true → 0 < s.loop_depth) →
    s.loop_depth + loop_nesting_list l < SIZE_MODULUS → sema_visit_list s l = s
  | [], s, _, _, _, _ => by simp only [sema_visit_list]
  | n :: rest, s, il, hw, hl, hn => by
    simp only [sema_visit_list, well_placed_list, loop_nesting_list, Bool.and_eq_true] at *
    rw [sema_visit_node_placed n s il hw.1 hl (by omega)]
    exact sema_visit_list_placed rest s il hw.2 hl (by omega)

theorem sema_visit_values_placed : (l : List (Option Node)) → (s : sema_t) →
    (in_loop : Bool) →
    well_placed_values in_loop s.in_async_function l = true →
    (in_loop = true → 0 < s.loop_depth) →
    s.loop_depth + loop_nesting_values l < SIZE_MODULUS → sema_visit_values s l = s
  | [], s, _, _, _, _ => by simp only [sema_visit_values]
  | v :: rest, s, il, hw, hl, hn => by
    simp only [sema_visit_values, well_placed_values, loop_nesting_values,
      Bool.and_eq_true] at *
    rw [sema_visit_placed v s il hw.1 hl (by omega)]
    exact sema_visit_values_placed rest s il hw.2 hl (by omega)

end

theorem sema_visit_node_flags (n : Node) (s : sema_t) (hd : s.loop_depth = 0)
    (ha : s.in_async_function = false) (hn : is_break_continue_await n = true) :
    (sema_visit_node s n).had_error = true := by
  cases n <;> simp only [is_break_continue_await, Bool.false_eq_true] at hn
  · simp only [sema_visit_node, ha, Bool.not_false, if_true]
    exact (sema_visit_node_frame _ _ (by
      show s.loop_depth < SIZE_MODULUS
      rw [hd]; unfold SIZE_MODULUS; decide)).2.2.2 rfl
  · simp only [sema_visit_node, hd, if_true]; rfl
  · simp only [sema_visit_node, hd, if_true]; rfl

theorem sema_visit_list_flags (l : List Node) (s : sema_t) (hd : s.loop_depth = 0)
    (ha : s.in_async_function = false)
    (h : ∃ n ∈ l, is_break_continue_await n = true) :
    (sema_visit_list s l).had_error = true := by
  have hlt : ∀ t : sema_t, t.loop_depth = 0 → t.loop_depth < SIZE_MODULUS := by
    intro t ht; rw [ht]; unfold SIZE_MODULUS; decide
  induction l generalizing s with
  | nil => obtain ⟨n, hn, _⟩ := h; cases hn
  | cons m rest ih =>
    simp only [sema_visit_list]
    have hf := sema_visit_node_frame m s (hlt s hd)
    by_cases hm : is_break_continue_await m = true
    · have he := sema_visit_node_flags m s hd ha hm
      exact (sema_visit_list_frame rest _ (sema_frame_lt (hlt s hd) hf)).2.2.2 he
    · obtain ⟨n, hn, hb⟩ := h
      rcases List.mem_cons.1 hn with e | hr
      · subst e; exact absurd hb hm
      · exact ih _ (hf.2.1.trans hd) (hf.2.2.1.trans ha) ⟨n, hr, hb⟩

/-- C4: a program with a `Break`, a `Continue` or an `Await` node directly
among its top-level statements makes `sema_analyze`, started from `sema_init`,
set `had_error`. -/
theorem C4_top_level_flagged (statements : List Node)
    (h : ∃ n ∈ statements, is_break_continue_await n = true) :
    (sema_analyze (sema_init (some (.program statements)))).had_error = true := by
  simp only [sema_analyze, sema_init, sema_visit, sema_visit_node]
  exact sema_visit_list_flags statements _ rfl rfl h

/-- Witness of C4: the program `x; break;`. -/
theorem C4_top_level_flagged_witness :
    (sema_analyze (sema_init (some (.program
      [.identifier "x", .break_stmt ⟨"f", 1, 4⟩ none])))).had_error = true :=
  C4_top_level_flagged _ ⟨.break_stmt ⟨"f", 1, 4⟩ none, by simp, rfl⟩

/-- C5: a tree in which every `Break` and `Continue` node has a loop ancestor
and the nearest `Function` node around every `Await` node is async, and whose
loops nest less than `2 ^ 64` deep (`loop_depth` is a `size_t`), is left without
error by `sema_analyze` started from `sema_init`: the analyzer state comes back
unchanged, `had_error` false and nothing printed. -/
theorem C5_no_false_positive (program : Node)
    (hw : well_placed false false program = true)
    (hn : loop_nesting program < SIZE_MODULUS) :
    sema_analyze (sema_init (some program)) = sema_init (some program) ∧
    (sema_analyze (sema_init (some program))).had_error = false := by
  have h : sema_analyze (sema_init (some program)) = sema_init (some program) := by
    simp only [sema_analyze, sema_init, sema_visit]
    exact sema_visit_node_placed program _ false hw (fun h => by cases h)
      (by simpa using hn)
  exact ⟨h, by rw [h]; rfl⟩

/-- Witness of C5: `while (true) { break; }` followed by
`async function f() { await g; }`. -/
theorem C5_no_false_positive_witness :
    (sema_analyze (sema_init (some (.program
      [.while_stmt (.boolean true) (.block [.break_stmt ⟨"f", 1, 16⟩ none]),
       .function true (some "f") []
         (.block [.await_expr ⟨"f", 2, 22⟩ (.identifier "g")])])))).had_error = false :=
  (C5_no_false_positive _ (by decide) (by
    simp only [loop_nesting, loop_nesting_list]
    unfold SIZE_MODULUS
    decide)).2

/-- C6, what the code does: the labeled statement `L: continue;` at top level
holds a `Continue` node with no loop around it, and `sema_analyze` does not set
`had_error`; the same for a `break` in a switch section and an `await` under
`export default`. -/
theorem C6_unvisited_constructs :
    (sema_analyze (sema_init (some (.program
      [.label "L" (.continue_stmt ⟨"f", 1, 4⟩ none)])))).had_error = false ∧
    (sema_analyze (sema_init (some (.program
      [.switch_stmt (.identifier "x")
        [.mk [.number (.strtold "1")] (.block [.break_stmt ⟨"f", 1, 23⟩ none]) false]]
      )))).had_error = false ∧
    (sema_analyze (sema_init (some (.program
      [.export_stmt true (some (.await_expr ⟨"f", 1, 16⟩ (.identifier "g"))) []]
      )))).had_error = false := by
  refine ⟨rfl, rfl, rfl⟩

/-! ## The calls of `sema_visit` inside a loop -/

theorem await_state_depth (s : sema_t) (loc : location_t) :
    (if !s.in_async_function then SEMA_ERROR s .await_outside_async loc else s).loop_depth =
      s.loop_depth := by
  split <;> rfl

theorem reports_await_only_refl (s : sema_t) : reports_await_only s s :=
  ⟨[], (List.append_nil _).symm, fun d hd => absurd hd (List.not_mem_nil d), fun h => Or.inl h⟩

theorem reports_await_only_trans {a b c : sema_t} (h1 : reports_await_only a b)
    (h2 : reports_await_only b c) : reports_await_only a c := by
  obtain ⟨l1, e1, a1, r1⟩ := h1
  obtain ⟨l2, e2, a2, r2⟩ := h2
  refine ⟨l1 ++ l2, by rw [e2, e1, List.append_assoc], ?_, ?_⟩
  · intro d hd
    rcases List.mem_append.1 hd with h | h
    · exact a1 d h
    · exact a2 d h
  · intro h
    rcases r2 h with h | h
    · rcases r1 h with h | h
      · exact Or.inl h
      · exact Or.inr (fun e => h (List.append_eq_nil.1 e).1)
    · exact Or.inr (fun e => h (List.append_eq_nil.1 e).2)

theorem reports_await_only_await (s : sema_t) (loc : location_t) :
    reports_await_only s
      (if !s.in_async_function then SEMA_ERROR s .await_outside_async loc else s) := by
  split
  · exact ⟨[(.await_outside_async, loc)], rfl,
      fun d hd => by rw [List.mem_singleton.1 hd], fun _ => Or.inr (List.cons_ne_nil _ _)⟩
  · exact reports_await_only_refl s

theorem loop_depth_inc_diagnostics (s : sema_t) :
    (loop_depth_inc s).diagnostics = s.diagnostics := by
  unfold loop_depth_inc
  rfl

theorem loop_depth_dec_diagnostics (s : sema_t) :
    (loop_depth_dec s).diagnostics = s.diagnostics := by
  unfold loop_depth_dec
  rfl

theorem reports_await_only_loop {s t : sema_t}
    (h : reports_await_only (loop_depth_inc s) t) : reports_await_only s (loop_depth_dec t) := by
  obtain ⟨l, e, a, r⟩ := h
  rw [loop_depth_inc_diagnostics] at e
  rw [(loop_depth_inc_fields s).2.2.2] at r
  unfold reports_await_only
  rw [loop_depth_dec_diagnostics, (loop_depth_dec_fields t).2.2.2]
  exact ⟨l, e, a, r⟩

theorem reports_await_only_async {s t : sema_t} (a b : Bool)
    (h : reports_await_only { s with in_async_function := a } t) :
    reports_await_only s { t with in_async_function := b } := by
  obtain ⟨l, e, a, r⟩ := h
  exact ⟨l, e, a, r⟩

mutual

/-- Every call made in the visit of a node is entered with a `loop_depth` that is
at least the `loop_depth` of the visit, and is a `size_t`. -/
theorem sema_calls_depth : (n : Node) → (s : sema_t) → (d : Nat) → s.loop_depth = d →
    d + loop_nesting n < SIZE_MODULUS →
    ∀ c ∈ sema_calls s n, d ≤ c.1.loop_depth ∧ c.1.loop_depth < SIZE_MODULUS
  | .number _, s, d, hd, hn => by
    intro c hc
    simp only [sema_calls, List.mem_singleton] at hc
    subst hc
    exact ⟨le_of_eq hd.symm, by rw [hd]; omega⟩
  | .string _, s, d, hd, hn => by
    intro c hc
    simp only [sema_calls, List.mem_singleton] at hc
    subst hc
    exact ⟨le_of_eq hd.symm, by rw [hd]; omega⟩
  | .boolean _, s, d, hd, hn => by
    intro c hc
    simp only [sema_calls, List.mem_singleton] at hc
    subst hc
    exact ⟨le_of_eq hd.symm, by rw [hd]; omega⟩
  | .undefined, s, d, hd, hn => by
    intro c hc
    simp only [sema_calls, List.mem_singleton] at hc
    subst hc
    exact ⟨le_of_eq hd.symm, by rw [hd]; omega⟩
  | .null, s, d, hd, hn => by
    intro c hc
    simp only [sema_calls, List.mem_singleton] at hc
    subst hc
    exact ⟨le_of_eq hd.symm, by rw [hd]; omega⟩
  | .this _, s, d, hd, hn => by
    intro c hc
    simp only [sema_calls, List.mem_singleton] at hc
    subst hc
    exact ⟨le_of_eq hd.symm, by rw [hd]; omega⟩
  | .identifier _, s, d, hd, hn => by
    intro c hc
    simp only [sema_calls, List.mem_singleton] at hc
    subst hc
    exact ⟨le_of_eq hd.symm, by rw [hd]; omega⟩
  | .empty _, s, d, hd, hn => by
    intro c hc
    simp only [sema_calls, List.mem_singleton] at hc
    subst hc
    exact ⟨le_of_eq hd.symm, by rw [hd]; omega⟩
  | .switch_stmt _ _, s, d, hd, hn => by
    intro c hc
    simp only [sema_calls, List.mem_singleton] at hc
    subst hc
    exact ⟨le_of_eq hd.symm, by rw [hd]; omega⟩
  | .label _ _, s, d, hd, hn => by
    intro c hc
    simp only [sema_calls, List.mem_singleton] at hc
    subst hc
    exact ⟨le_of_eq hd.symm, by rw [hd]; omega⟩
  | .new_expr _, s, d, hd, hn => by
    intro c hc
    simp only [sema_calls, List.mem_singleton] at hc
    subst hc
    exact ⟨le_of_eq hd.symm, by rw [hd]; omega⟩
  | .debugger, s, d, hd, hn => by
    intro c hc
    simp only [sema_calls, List.mem_singleton] at hc
    subst hc
    exact ⟨le_of_eq hd.symm, by rw [hd]; omega⟩
  | .import_stmt _ _ _, s, d, hd, hn => by
    intro c hc
    simp only [sema_calls, List.mem_singleton] at hc
    subst hc
    exact ⟨le_of_eq hd.symm, by rw [hd]; omega⟩
  | .export_stmt _ _ _, s, d, hd, hn => by
    intro c hc
    simp only [sema_calls, List.mem_singleton] at hc
    subst hc
    exact ⟨le_of_eq hd.symm, by rw [hd]; omega⟩
  | .break_stmt _ _, s, d, hd, hn => by
    intro c hc
    simp only [sema_calls, List.mem_singleton] at hc
    subst hc
    exact ⟨le_of_eq hd.symm, by rw [hd]; omega⟩
  | .continue_stmt _ _, s, d, hd, hn => by
    intro c hc
    simp only [sema_calls, List.mem_singleton] at hc
    subst hc
    exact ⟨le_of_eq hd.symm, by rw [hd]; omega⟩
  | .array elements, s, d, hd, hn => by
    intro c hc
    simp only [loop_nesting, loop_nesting_opt, loop_nesting_list, loop_nesting_values] at hn
    simp only [sema_calls, List.mem_cons, List.mem_append] at hc
    have e1 := hd
    rcases hc with rfl | hc
    · exact ⟨le_of_eq hd.symm, by rw [hd]; omega⟩
    · exact sema_calls_list_depth elements _ d e1 (by omega) c hc
  | .object _ values, s, d, hd, hn => by
    intro c hc
    simp only [loop_nesting, loop_nesting_opt, loop_nesting_list, loop_nesting_values] at hn
    simp only [sema_calls, List.mem_cons, List.mem_append] at hc
    have e1 := hd
    rcases hc with rfl | hc
    · exact ⟨le_of_eq hd.symm, by rw [hd]; omega⟩
    · exact sema_calls_list_depth values _ d e1 (by omega) c hc
  | .spread argument, s, d, hd, hn => by
    intro c hc
    simp only [loop_nesting, loop_nesting_opt, loop_nesting_list, loop_nesting_values] at hn
    simp only [sema_calls, List.mem_cons, List.mem_append] at hc
    have e1 := hd
    rcases hc with rfl | hc
    · exact ⟨le_of_eq hd.symm, by rw [hd]; omega⟩
    · exact sema_calls_depth argument _ d e1 (by omega) c hc
  | .program statements, s, d, hd, hn => by
    intro c hc
    simp only [loop_nesting, loop_nesting_opt, loop_nesting_list, loop_nesting_values] at hn
    simp only [sema_calls, List.mem_cons, List.mem_append] at hc
    have e1 := hd
    rcases hc with rfl | hc
    · exact ⟨le_of_eq hd.symm, by rw [hd]; omega⟩
    · exact sema_calls_list_depth statements _ d e1 (by omega) c hc
  | .block statements, s, d, hd, hn => by
    intro c hc
    simp only [loop_nesting, loop_nesting_opt, loop_nesting_list, loop_nesting_values] at hn
    simp only [sema_calls, List.mem_cons, List.mem_append] at hc
    have e1 := hd
    rcases hc with rfl | hc
    · exact ⟨le_of_eq hd.symm, by rw [hd]; omega⟩
    · exact sema_calls_list_depth statements _ d e1 (by omega) c hc
  | .binary _ left right, s, d, hd, hn => by
    intro c hc
    simp only [loop_nesting, loop_nesting_opt, loop_nesting_list, loop_nesting_values] at hn
    simp only [sema_calls, List.mem_cons, List.mem_append] at hc
    have e1 := hd
    have e2 := (sema_visit_node_frame left _ (by rw [e1]; omega)).2.1.trans e1
    rcases hc with rfl | hc | hc
    · exact ⟨le_of_eq hd.symm, by rw [hd]; omega⟩
    · exact sema_calls_depth left _ d e1 (by omega) c hc
    · exact sema_calls_depth right _ d e2 (by omega) c hc
  | .unary _ _ right, s, d, hd, hn => by
    intro c hc
    simp only [loop_nesting, loop_nesting_opt, loop_nesting_list, loop_nesting_values] at hn
    simp only [sema_calls, List.mem_cons, List.mem_append] at hc
    have e1 := hd
    rcases hc with rfl | hc
    · exact ⟨le_of_eq hd.symm, by rw [hd]; omega⟩
    · exact sema_calls_depth right _ d e1 (by omega) c hc
  | .assignment _ _ target value, s, d, hd, hn => by
    intro c hc
    simp only [loop_nesting, loop_nesting_opt, loop_nesting_list, loop_nesting_values] at hn
    simp only [sema_calls, List.mem_cons, List.mem_append] at hc
    have e1 := hd
    have e2 := (sema_visit_node_frame target _ (by rw [e1]; omega)).2.1.trans e1
    rcases hc with rfl | hc | hc
    · exact ⟨le_of_eq hd.symm, by rw [hd]; omega⟩
    · exact sema_calls_depth target _ d e1 (by omega) c hc
    · exact sema_calls_depth value _ d e2 (by omega) c hc
  | .ternary condition true_expr false_expr, s, d, hd, hn => by
    intro c hc
    simp only [loop_nesting, loop_nesting_opt, loop_nesting_list, loop_nesting_values] at hn
    simp only [sema_calls, List.mem_cons, List.mem_append] at hc
    have e1 := hd
    have e2 := (sema_visit_node_frame condition _ (by rw [e1]; omega)).2.1.trans e1
    have e3 := (sema_visit_node_frame true_expr _ (by rw [e2]; omega)).2.1.trans e2
    rcases hc with rfl | hc | hc | hc
    · exact ⟨le_of_eq hd.symm, by rw [hd]; omega⟩
    · exact sema_calls_depth condition _ d e1 (by omega) c hc
    · exact sema_calls_depth true_expr _ d e2 (by omega) c hc
    · exact sema_calls_depth false_expr _ d e3 (by omega) c hc
  | .if_stmt condition then_branch else_branch, s, d, hd, hn => by
    intro c hc
    simp only [loop_nesting, loop_nesting_opt, loop_nesting_list, loop_nesting_values] at hn
    simp only [sema_calls, List.mem_cons, List.mem_append] at hc
    have e1 := hd
    have e2 := (sema_visit_node_frame condition _ (by rw [e1]; omega)).2.1.trans e1
    have e3 := (sema_visit_node_frame then_branch _ (by rw [e2]; omega)).2.1.trans e2
    rcases hc with rfl | hc | hc | hc
    · exact ⟨le_of_eq hd.symm, by rw [hd]; omega⟩
    · exact sema_calls_depth condition _ d e1 (by omega) c hc
    · exact sema_calls_depth then_branch _ d e2 (by omega) c hc
    · exact sema_calls_opt_depth else_branch _ d e3 (by omega) c hc
  | .while_stmt condition body, s, d, hd, hn => by
    intro c hc
    simp only [loop_nesting, loop_nesting_opt, loop_nesting_list, loop_nesting_values] at hn
    simp only [sema_calls, List.mem_cons, List.mem_append] at hc
    have e1 : (loop_depth_inc s).loop_depth = d + 1 :=
      (loop_depth_inc_val s (by omega)).trans (by rw [hd])
    have e2 := (sema_visit_node_frame condition _ (by rw [e1]; omega)).2.1.trans e1
    rcases hc with rfl | hc | hc
    · exact ⟨le_of_eq hd.symm, by rw [hd]; omega⟩
    · exact ⟨by have := (sema_calls_depth condition _ (d + 1) e1 (by omega) c hc).1; omega, (sema_calls_depth condition _ (d + 1) e1 (by omega) c hc).2⟩
    · exact ⟨by have := (sema_calls_depth body _ (d + 1) e2 (by omega) c hc).1; omega, (sema_calls_depth body _ (d + 1) e2 (by omega) c hc).2⟩
  | .do_while_stmt body condition, s, d, hd, hn => by
    intro c hc
    simp only [loop_nesting, loop_nesting_opt, loop_nesting_list, loop_nesting_values] at hn
    simp only [sema_calls, List.mem_cons, List.mem_append] at hc
    have e1 : (loop_depth_inc s).loop_depth = d + 1 :=
      (loop_depth_inc_val s (by omega)).trans (by rw [hd])
    have e2 := (sema_visit_node_frame body _ (by rw [e1]; omega)).2.1.trans e1
    rcases hc with rfl | hc | hc
    · exact ⟨le_of_eq hd.symm, by rw [hd]; omega⟩
    · exact ⟨by have := (sema_calls_depth body _ (d + 1) e1 (by omega) c hc).1; omega, (sema_calls_depth body _ (d + 1) e1 (by omega) c hc).2⟩
    · exact ⟨by have := (sema_calls_depth condition _ (d + 1) e2 (by omega) c hc).1; omega, (sema_calls_depth condition _ (d + 1) e2 (by omega) c hc).2⟩
  | .for_stmt body init condition increment, s, d, hd, hn => by
    intro c hc
    simp only [loop_nesting, loop_nesting_opt, loop_nesting_list, loop_nesting_values] at hn
    simp only [sema_calls, List.mem_cons, List.mem_append] at hc
    have e1 : (loop_depth_inc s).loop_depth = d + 1 :=
      (loop_depth_inc_val s (by omega)).trans (by rw [hd])
    have e2 := (sema_visit_frame init _ (by rw [e1]; omega)).2.1.trans e1
    have e3 := (sema_visit_frame condition _ (by rw [e2]; omega)).2.1.trans e2
    have e4 := (sema_visit_frame increment _ (by rw [e3]; omega)).2.1.trans e3
    rcases hc with rfl | hc | hc | hc | hc
    · exact ⟨le_of_eq hd.symm, by rw [hd]; omega⟩
    · exact ⟨by have := (sema_calls_opt_depth init _ (d + 1) e1 (by omega) c hc).1; omega, (sema_calls_opt_depth init _ (d + 1) e1 (by omega) c hc).2⟩
    · exact ⟨by have := (sema_calls_opt_depth condition _ (d + 1) e2 (by omega) c hc).1; omega, (sema_calls_opt_depth condition _ (d + 1) e2 (by omega) c hc).2⟩
    · exact ⟨by have := (sema_calls_opt_depth increment _ (d + 1) e3 (by omega) c hc).1; omega, (sema_calls_opt_depth increment _ (d + 1) e3 (by omega) c hc).2⟩
    · exact ⟨by have := (sema_calls_depth body _ (d + 1) e4 (by omega) c hc).1; omega, (sema_calls_depth body _ (d + 1) e4 (by omega) c hc).2⟩
  | .call callee args, s, d, hd, hn => by
    intro c hc
    simp only [loop_nesting, loop_nesting_opt, loop_nesting_list, loop_nesting_values] at hn
    simp only [sema_calls, List.mem_cons, List.mem_append] at hc
    have e1 := hd
    have e2 := (sema_visit_node_frame callee _ (by rw [e1]; omega)).2.1.trans e1
    rcases hc with rfl | hc | hc
    · exact ⟨le_of_eq hd.symm, by rw [hd]; omega⟩
    · exact sema_calls_depth callee _ d e1 (by omega) c hc
    · exact sema_calls_list_depth args _ d e2 (by omega) c hc
  | .index array index, s, d, hd, hn => by
    intro c hc
    simp only [loop_nesting, loop_nesting_opt, loop_nesting_list, loop_nesting_values] at hn
    simp only [sema_calls, List.mem_cons, List.mem_append] at hc
    have e1 := hd
    have e2 := (sema_visit_node_frame array _ (by rw [e1]; omega)).2.1.trans e1
    rcases hc with rfl | hc | hc
    · exact ⟨le_of_eq hd.symm, by rw [hd]; omega⟩
    · exact sema_calls_depth array _ d e1 (by omega) c hc
    · exact sema_calls_depth index _ d e2 (by omega) c hc
  | .member object _, s, d, hd, hn => by
    intro c hc
    simp only [loop_nesting, loop_nesting_opt, loop_nesting_list, loop_nesting_values] at hn
    simp only [sema_calls, List.mem_cons, List.mem_append] at hc
    have e1 := hd
    rcases hc with rfl | hc
    · exact ⟨le_of_eq hd.symm, by rw [hd]; omega⟩
    · exact sema_calls_depth object _ d e1 (by omega) c hc
  | .postfix_op _ left, s, d, hd, hn => by
    intro c hc
    simp only [loop_nesting, loop_nesting_opt, loop_nesting_list, loop_nesting_values] at hn
    simp only [sema_calls, List.mem_cons, List.mem_append] at hc
    have e1 := hd
    rcases hc with rfl | hc
    · exact ⟨le_of_eq hd.symm, by rw [hd]; omega⟩
    · exact sema_calls_depth left _ d e1 (by omega) c hc
  | .function is_async _ _ body, s, d, hd, hn => by
    intro c hc
    simp only [loop_nesting, loop_nesting_opt, loop_nesting_list, loop_nesting_values] at hn
    simp only [sema_calls, List.mem_cons, List.mem_append] at hc
    have e1 : ({ s with in_async_function := is_async }).loop_depth = d := hd
    rcases hc with rfl | hc
    · exact ⟨le_of_eq hd.symm, by rw [hd]; omega⟩
    · exact sema_calls_depth body _ d e1 (by omega) c hc
  | .declaration _ _ values, s, d, hd, hn => by
    intro c hc
    simp only [loop_nesting, loop_nesting_opt, loop_nesting_list, loop_nesting_values] at hn
    simp only [sema_calls, List.mem_cons, List.mem_append] at hc
    have e1 := hd
    rcases hc with rfl | hc
    · exact ⟨le_of_eq hd.symm, by rw [hd]; omega⟩
    · exact sema_calls_values_depth values _ d e1 (by omega) c hc
  | .throw_stmt value, s, d, hd, hn => by
    intro c hc
    simp only [loop_nesting, loop_nesting_opt, loop_nesting_list, loop_nesting_values] at hn
    simp only [sema_calls, List.mem_cons, List.mem_append] at hc
    have e1 := hd
    rcases hc with rfl | hc
    · exact ⟨le_of_eq hd.symm, by rw [hd]; omega⟩
    · exact sema_calls_depth value _ d e1 (by omega) c hc
  | .try_stmt try_block _ catch_block finally_block, s, d, hd, hn => by
    intro c hc
    simp only [loop_nesting, loop_nesting_opt, loop_nesting_list, loop_nesting_values] at hn
    simp only [sema_calls, List.mem_cons, List.mem_append] at hc
    have e1 := hd
    have e2 := (sema_visit_node_frame try_block _ (by rw [e1]; omega)).2.1.trans e1
    have e3 := (sema_visit_frame catch_block _ (by rw [e2]; omega)).2.1.trans e2
    rcases hc with rfl | hc | hc | hc
    · exact ⟨le_of_eq hd.symm, by rw [hd]; omega⟩
    · exact sema_calls_depth try_block _ d e1 (by omega) c hc
    · exact sema_calls_opt_depth catch_block _ d e2 (by omega) c hc
    · exact sema_calls_opt_depth finally_block _ d e3 (by omega) c hc
  | .return_stmt value, s, d, hd, hn => by
    intro c hc
    simp only [loop_nesting, loop_nesting_opt, loop_nesting_list, loop_nesting_values] at hn
    simp only [sema_calls, List.mem_cons, List.mem_append] at hc
    have e1 := hd
    rcases hc with rfl | hc
    · exact ⟨le_of_eq hd.symm, by rw [hd]; omega⟩
    · exact sema_calls_opt_depth value _ d e1 (by omega) c hc
  | .await_expr loc argument, s, d, hd, hn => by
    intro c hc
    simp only [loop_nesting, loop_nesting_opt, loop_nesting_list, loop_nesting_values] at hn
    simp only [sema_calls, List.mem_cons, List.mem_append] at hc
    have e1 := (await_state_depth s loc).trans hd
    rcases hc with rfl | hc
    · exact ⟨le_of_eq hd.symm, by rw [hd]; omega⟩
    · exact sema_calls_depth argument _ d e1 (by omega) c hc

theorem sema_calls_opt_depth : (o : Option Node) → (s : sema_t) → (d : Nat) →
    s.loop_depth = d → d + loop_nesting_opt o < SIZE_MODULUS →
    ∀ c ∈ sema_calls_opt s o, d ≤ c.1.loop_depth ∧ c.1.loop_depth < SIZE_MODULUS
  | none, _, _, _, _ => by
    intro c hc
    simp only [sema_calls_opt, List.not_mem_nil] at hc
  | some n, s, d, hd, hn => by
    simp only [sema_calls_opt, loop_nesting_opt] at hn ⊢
    exact sema_calls_depth n s d hd hn

theorem sema_calls_list_depth : (l : List Node) → (s : sema_t) → (d : Nat) →
    s.loop_depth = d → d + loop_nesting_list l < SIZE_MODULUS →
    ∀ c ∈ sema_calls_list s l, d ≤ c.1.loop_depth ∧ c.1.loop_depth < SIZE_MODULUS
  | [], _, _, _, _ => by
    intro c hc
    simp only [sema_calls_list, List.not_mem_nil] at hc
  | n :: rest, s, d, hd, hn => by
    intro c hc
    simp only [loop_nesting_list] at hn
    simp only [sema_calls_list, List.mem_append] at hc
    have e2 := (sema_visit_node_frame n s (by rw [hd]; omega)).2.1.trans hd
    rcases hc with hc | hc
    · exact sema_calls_depth n s d hd (by omega) c hc
    · exact sema_calls_list_depth rest _ d e2 (by omega) c hc

theorem sema_calls_values_depth : (l : List (Option Node)) → (s : sema_t) → (d : Nat) →
    s.loop_depth = d → d + loop_nesting_values l < SIZE_MODULUS →
    ∀ c ∈ sema_calls_values s l, d ≤ c.1.loop_depth ∧ c.1.loop_depth < SIZE_MODULUS
  | [], _, _, _, _ => by
    intro c hc
    simp only [sema_calls_values, List.not_mem_nil] at hc
  | v :: rest, s, d, hd, hn => by
    intro c hc
    simp only [loop_nesting_values] at hn
    simp only [sema_calls_values, List.mem_append] at hc
    have e2 := (sema_visit_frame v s (by rw [hd]; omega)).2.1.trans hd
    rcases hc with hc | hc
    · exact sema_calls_opt_depth v s d hd (by omega) c hc
    · exact sema_calls_values_depth rest _ d e2 (by omega) c hc

end

mutual

/-- The calls made in a call of the visit of a node are calls of that visit. -/
theorem sema_calls_sub : (n : Node) → (s : sema_t) → ∀ c ∈ sema_calls s n,
    ∀ c' ∈ sema_calls c.1 c.2, c' ∈ sema_calls s n
  | .number _, s => by
    intro c hc c' hc'
    simp only [sema_calls, List.mem_singleton] at hc
    subst hc
    exact hc'
  | .string _, s => by
    intro c hc c' hc'
    simp only [sema_calls, List.mem_singleton] at hc
    subst hc
    exact hc'
  | .boolean _, s => by
    intro c hc c' hc'
    simp only [sema_calls, List.mem_singleton] at hc
    subst hc
    exact hc'
  | .undefined, s => by
    intro c hc c' hc'
    simp only [sema_calls, List.mem_singleton] at hc
    subst hc
    exact hc'
  | .null, s => by
    intro c hc c' hc'
    simp only [sema_calls, List.mem_singleton] at hc
    subst hc
    exact hc'
  | .this _, s => by
    intro c hc c' hc'
    simp only [sema_calls, List.mem_singleton] at hc
    subst hc
    exact hc'
  | .identifier _, s => by
    intro c hc c' hc'
    simp only [sema_calls, List.mem_singleton] at hc
    subst hc
    exact hc'
  | .empty _, s => by
    intro c hc c' hc'
    simp only [sema_calls, List.mem_singleton] at hc
    subst hc
    exact hc'
  | .switch_stmt _ _, s => by
    intro c hc c' hc'
    simp only [sema_calls, List.mem_singleton] at hc
    subst hc
    exact hc'
  | .label _ _, s => by
    intro c hc c' hc'
    simp only [sema_calls, List.mem_singleton] at hc
    subst hc
    exact hc'
  | .new_expr _, s => by
    intro c hc c' hc'
    simp only [sema_calls, List.mem_singleton] at hc
    subst hc
    exact hc'
  | .debugger, s => by
    intro c hc c' hc'
    simp only [sema_calls, List.mem_singleton] at hc
    subst hc
    exact hc'
  | .import_stmt _ _ _, s => by
    intro c hc c' hc'
    simp only [sema_calls, List.mem_singleton] at hc
    subst hc
    exact hc'
  | .export_stmt _ _ _, s => by
    intro c hc c' hc'
    simp only [sema_calls, List.mem_singleton] at hc
    subst hc
    exact hc'
  | .break_stmt _ _, s => by
    intro c hc c' hc'
    simp only [sema_calls, List.mem_singleton] at hc
    subst hc
    exact hc'
  | .continue_stmt _ _, s => by
    intro c hc c' hc'
    simp only [sema_calls, List.mem_singleton] at hc
    subst hc
    exact hc'
  | .array elements, s => by
    intro c hc c' hc'
    simp only [sema_calls, List.mem_cons, List.mem_append] at hc ⊢
    rcases hc with rfl | hc
    · simpa only [sema_calls, List.mem_cons, List.mem_append] using hc'
    · exact Or.inr (sema_calls_list_sub elements _ c hc c' hc')
  | .object _ values, s => by
    intro c hc c' hc'
    simp only [sema_calls, List.mem_cons, List.mem_append] at hc ⊢
    rcases hc with rfl | hc
    · simpa only [sema_calls, List.mem_cons, List.mem_append] using hc'
    · exact Or.inr (sema_calls_list_sub values _ c hc c' hc')
  | .spread argument, s => by
    intro c hc c' hc'
    simp only [sema_calls, List.mem_cons, List.mem_append] at hc ⊢
    rcases hc with rfl | hc
    · simpa only [sema_calls, List.mem_cons, List.mem_append] using hc'
    · exact Or.inr (sema_calls_sub argument _ c hc c' hc')
  | .program statements, s => by
    intro c hc c' hc'
    simp only [sema_calls, List.mem_cons, List.mem_append] at hc ⊢
    rcases hc with rfl | hc
    · simpa only [sema_calls, List.mem_cons, List.mem_append] using hc'
    · exact Or.inr (sema_calls_list_sub statements _ c hc c' hc')
  | .block statements, s => by
    intro c hc c' hc'
    simp only [sema_calls, List.mem_cons, List.mem_append] at hc ⊢
    rcases hc with rfl | hc
    · simpa only [sema_calls, List.mem_cons, List.mem_append] using hc'
    · exact Or.inr (sema_calls_list_sub statements _ c hc c' hc')
  | .binary _ left right, s => by
    intro c hc c' hc'
    simp only [sema_calls, List.mem_cons, List.mem_append] at hc ⊢
    rcases hc with rfl | hc | hc
    · simpa only [sema_calls, List.mem_cons, List.mem_append] using hc'
    · exact Or.inr (Or.inl (sema_calls_sub left _ c hc c' hc'))
    · exact Or.inr (Or.inr (sema_calls_sub right _ c hc c' hc'))
  | .unary _ _ right, s => by
    intro c hc c' hc'
    simp only [sema_calls, List.mem_cons, List.mem_append] at hc ⊢
    rcases hc with rfl | hc
    · simpa only [sema_calls, List.mem_cons, List.mem_append] using hc'
    · exact Or.inr (sema_calls_sub right _ c hc c' hc')
  | .assignment _ _ target value, s => by
    intro c hc c' hc'
    simp only [sema_calls, List.mem_cons, List.mem_append] at hc ⊢
    rcases hc with rfl | hc | hc
    · simpa only [sema_calls, List.mem_cons, List.mem_append] using hc'
    · exact Or.inr (Or.inl (sema_calls_sub target _ c hc c' hc'))
    · exact Or.inr (Or.inr (sema_calls_sub value _ c hc c' hc'))
  | .ternary condition true_expr false_expr, s => by
    intro c hc c' hc'
    simp only [sema_calls, List.mem_cons, List.mem_append] at hc ⊢
    rcases hc with rfl | hc | hc | hc
    · simpa only [sema_calls, List.mem_cons, List.mem_append] using hc'
    · exact Or.inr (Or.inl (sema_calls_sub condition _ c hc c' hc'))
    · exact Or.inr (Or.inr (Or.inl (sema_calls_sub true_expr _ c hc c' hc')))
    · exact Or.inr (Or.inr (Or.inr (sema_calls_sub false_expr _ c hc c' hc')))
  | .if_stmt condition then_branch else_branch, s => by
    intro c hc c' hc'
    simp only [sema_calls, List.mem_cons, List.mem_append] at hc ⊢
    rcases hc with rfl | hc | hc | hc
    · simpa only [sema_calls, List.mem_cons, List.mem_append] using hc'
    · exact Or.inr (Or.inl (sema_calls_sub condition _ c hc c' hc'))
    · exact Or.inr (Or.inr (Or.inl (sema_calls_sub then_branch _ c hc c' hc')))
    · exact Or.inr (Or.inr (Or.inr (sema_calls_opt_sub else_branch _ c hc c' hc')))
  | .while_stmt condition body, s => by
    intro c hc c' hc'
    simp only [sema_calls, List.mem_cons, List.mem_append] at hc ⊢
    rcases hc with rfl | hc | hc
    · simpa only [sema_calls, List.mem_cons, List.mem_append] using hc'
    · exact Or.inr (Or.inl (sema_calls_sub condition _ c hc c' hc'))
    · exact Or.inr (Or.inr (sema_calls_sub body _ c hc c' hc'))
  | .do_while_stmt body condition, s => by
    intro c hc c' hc'
    simp only [sema_calls, List.mem_cons, List.mem_append] at hc ⊢
    rcases hc with rfl | hc | hc
    · simpa only [sema_calls, List.mem_cons, List.mem_append] using hc'
    · exact Or.inr (Or.inl (sema_calls_sub body _ c hc c' hc'))
    · exact Or.inr (Or.inr (sema_calls_sub condition _ c hc c' hc'))
  | .for_stmt body init condition increment, s => by
    intro c hc c' hc'
    simp only [sema_calls, List.mem_cons, List.mem_append] at hc ⊢
    rcases hc with rfl | hc | hc | hc | hc
    · simpa only [sema_calls, List.mem_cons, List.mem_append] using hc'
    · exact Or.inr (Or.inl (sema_calls_opt_sub init _ c hc c' hc'))
    · exact Or.inr (Or.inr (Or.inl (sema_calls_opt_sub condition _ c hc c' hc')))
    · exact Or.inr (Or.inr (Or.inr (Or.inl (sema_calls_opt_sub increment _ c hc c' hc'))))
    · exact Or.inr (Or.inr (Or.inr (Or.inr (sema_calls_sub body _ c hc c' hc'))))
  | .call callee args, s => by
    intro c hc c' hc'
    simp only [sema_calls, List.mem_cons, List.mem_append] at hc ⊢
    rcases hc with rfl | hc | hc
    · simpa only [sema_calls, List.mem_cons, List.mem_append] using hc'
    · exact Or.inr (Or.inl (sema_calls_sub callee _ c hc c' hc'))
    · exact Or.inr (Or.inr (sema_calls_list_sub args _ c hc c' hc'))
  | .index array index, s => by
    intro c hc c' hc'
    simp only [sema_calls, List.mem_cons, List.mem_append] at hc ⊢
    rcases hc with rfl | hc | hc
    · simpa only [sema_calls, List.mem_cons, List.mem_append] using hc'
    · exact Or.inr (Or.inl (sema_calls_sub array _ c hc c' hc'))
    · exact Or.inr (Or.inr (sema_calls_sub index _ c hc c' hc'))
  | .member object _, s => by
    intro c hc c' hc'
    simp only [sema_calls, List.mem_cons, List.mem_append] at hc ⊢
    rcases hc with rfl | hc
    · simpa only [sema_calls, List.mem_cons, List.mem_append] using hc'
    · exact Or.inr (sema_calls_sub object _ c hc c' hc')
  | .postfix_op _ left, s => by
    intro c hc c' hc'
    simp only [sema_calls, List.mem_cons, List.mem_append] at hc ⊢
    rcases hc with rfl | hc
    · simpa only [sema_calls, List.mem_cons, List.mem_append] using hc'
    · exact Or.inr (sema_calls_sub left _ c hc c' hc')
  | .function is_async _ _ body, s => by
    intro c hc c' hc'
    simp only [sema_calls, List.mem_cons, List.mem_append] at hc ⊢
    rcases hc with rfl | hc
    · simpa only [sema_calls, List.mem_cons, List.mem_append] using hc'
    · exact Or.inr (sema_calls_sub body _ c hc c' hc')
  | .declaration _ _ values, s => by
    intro c hc c' hc'
    simp only [sema_calls, List.mem_cons, List.mem_append] at hc ⊢
    rcases hc with rfl | hc
    · simpa only [sema_calls, List.mem_cons, List.mem_append] using hc'
    · exact Or.inr (sema_calls_values_sub values _ c hc c' hc')
  | .throw_stmt value, s => by
    intro c hc c' hc'
    simp only [sema_calls, List.mem_cons, List.mem_append] at hc ⊢
    rcases hc with rfl | hc
    · simpa only [sema_calls, List.mem_cons, List.mem_append] using hc'
    · exact Or.inr (sema_calls_sub value _ c hc c' hc')
  | .try_stmt try_block _ catch_block finally_block, s => by
    intro c hc c' hc'
    simp only [sema_calls, List.mem_cons, List.mem_append] at hc ⊢
    rcases hc with rfl | hc | hc | hc
    · simpa only [sema_calls, List.mem_cons, List.mem_append] using hc'
    · exact Or.inr (Or.inl (sema_calls_sub try_block _ c hc c' hc'))
    · exact Or.inr (Or.inr (Or.inl (sema_calls_opt_sub catch_block _ c hc c' hc')))
    · exact Or.inr (Or.inr (Or.inr (sema_calls_opt_sub finally_block _ c hc c' hc')))
  | .return_stmt value, s => by
    intro c hc c' hc'
    simp only [sema_calls, List.mem_cons, List.mem_append] at hc ⊢
    rcases hc with rfl | hc
    · simpa only [sema_calls, List.mem_cons, List.mem_append] using hc'
    · exact Or.inr (sema_calls_opt_sub value _ c hc c' hc')
  | .await_expr loc argument, s => by
    intro c hc c' hc'
    simp only [sema_calls, List.mem_cons, List.mem_append] at hc ⊢
    rcases hc with rfl | hc
    · simpa only [sema_calls, List.mem_cons, List.mem_append] using hc'
    · exact Or.inr (sema_calls_sub argument _ c hc c' hc')

theorem sema_calls_opt_sub : (o : Option Node) → (s : sema_t) → ∀ c ∈ sema_calls_opt s o,
    ∀ c' ∈ sema_calls c.1 c.2, c' ∈ sema_calls_opt s o
  | none, _ => by
    intro c hc
    simp only [sema_calls_opt, List.not_mem_nil] at hc
  | some n, s => by
    simp only [sema_calls_opt]
    exact sema_calls_sub n s

theorem sema_calls_list_sub : (l : List Node) → (s : sema_t) → ∀ c ∈ sema_calls_list s l,
    ∀ c' ∈ sema_calls c.1 c.2, c' ∈ sema_calls_list s l
  | [], _ => by
    intro c hc
    simp only [sema_calls_list, List.not_mem_nil] at hc
  | n :: rest, s => by
    intro c hc c' hc'
    simp only [sema_calls_list, List.mem_append] at hc ⊢
    rcases hc with hc | hc
    · exact Or.inl (sema_calls_sub n s c hc c' hc')
    · exact Or.inr (sema_calls_list_sub rest _ c hc c' hc')

theorem sema_calls_values_sub : (l : List (Option Node)) → (s : sema_t) →
    ∀ c ∈ sema_calls_values s l, ∀ c' ∈ sema_calls c.1 c.2, c' ∈ sema_calls_values s l
  | [], _ => by
    intro c hc
    simp only [sema_calls_values, List.not_mem_nil] at hc
  | v :: rest, s => by
    intro c hc c' hc'
    simp only [sema_calls_values, List.mem_append] at hc ⊢
    rcases hc with hc | hc
    · exact Or.inl (sema_calls_opt_sub v s c hc c' hc')
    · exact Or.inr (sema_calls_values_sub rest _ c hc c' hc')

end

mutual

/-- The visit of a loop, and the visit of any node entered with a `loop_depth`
that is not 0, reports nothing about `break` and `continue`. -/
theorem sema_visit_node_await : (n : Node) → (s : sema_t) → (d : Nat) → s.loop_depth = d →
    d + loop_nesting n < SIZE_MODULUS → (d ≠ 0 ∨ is_loop n = true) →
    reports_await_only s (sema_visit_node s n)
  | .number _, s, _, _, _, _ => by
    simp only [sema_visit_node]
    exact reports_await_only_refl s
  | .string _, s, _, _, _, _ => by
    simp only [sema_visit_node]
    exact reports_await_only_refl s
  | .boolean _, s, _, _, _, _ => by
    simp only [sema_visit_node]
    exact reports_await_only_refl s
  | .undefined, s, _, _, _, _ => by
    simp only [sema_visit_node]
    exact reports_await_only_refl s
  | .null, s, _, _, _, _ => by
    simp only [sema_visit_node]
    exact reports_await_only_refl s
  | .this _, s, _, _, _, _ => by
    simp only [sema_visit_node]
    exact reports_await_only_refl s
  | .identifier _, s, _, _, _, _ => by
    simp only [sema_visit_node]
    exact reports_await_only_refl s
  | .empty _, s, _, _, _, _ => by
    simp only [sema_visit_node]
    exact reports_await_only_refl s
  | .switch_stmt _ _, s, _, _, _, _ => by
    simp only [sema_visit_node]
    exact reports_await_only_refl s
  | .label _ _, s, _, _, _, _ => by
    simp only [sema_visit_node]
    exact reports_await_only_refl s
  | .new_expr _, s, _, _, _, _ => by
    simp only [sema_visit_node]
    exact reports_await_only_refl s
  | .debugger, s, _, _, _, _ => by
    simp only [sema_visit_node]
    exact reports_await_only_refl s
  | .import_stmt _ _ _, s, _, _, _, _ => by
    simp only [sema_visit_node]
    exact reports_await_only_refl s
  | .export_stmt _ _ _, s, _, _, _, _ => by
    simp only [sema_visit_node]
    exact reports_await_only_refl s
  | .break_stmt _ _, s, d, hd, _, h0 => by
    have h1 : s.loop_depth ≠ 0 := by
      rw [hd]
      exact h0.resolve_right (by simp only [is_loop, Bool.false_eq_true, not_false_eq_true])
    simp only [sema_visit_node, h1, if_false]
    exact reports_await_only_refl s
  | .continue_stmt _ _, s, d, hd, _, h0 => by
    have h1 : s.loop_depth ≠ 0 := by
      rw [hd]
      exact h0.resolve_right (by simp only [is_loop, Bool.false_eq_true, not_false_eq_true])
    simp only [sema_visit_node, h1, if_false]
    exact reports_await_only_refl s
  | .array elements, s, d, hd, hn, h0 => by
    simp only [loop_nesting, loop_nesting_opt, loop_nesting_list, loop_nesting_values] at hn
    have h1 : d ≠ 0 ∨ False :=
      Or.inl (h0.resolve_right (by simp only [is_loop, Bool.false_eq_true, not_false_eq_true]))
    have e1 := hd
    have r1 := sema_visit_list_await elements _ d e1 (by omega) (h1.imp_right False.elim)
    simp only [sema_visit_node]
    exact r1
  | .object _ values, s, d, hd, hn, h0 => by
    simp only [loop_nesting, loop_nesting_opt, loop_nesting_list, loop_nesting_values] at hn
    have h1 : d ≠ 0 ∨ False :=
      Or.inl (h0.resolve_right (by simp only [is_loop, Bool.false_eq_true, not_false_eq_true]))
    have e1 := hd
    have r1 := sema_visit_list_await values _ d e1 (by omega) (h1.imp_right False.elim)
    simp only [sema_visit_node]
    exact r1
  | .spread argument, s, d, hd, hn, h0 => by
    simp only [loop_nesting, loop_nesting_opt, loop_nesting_list, loop_nesting_values] at hn
    have h1 : d ≠ 0 ∨ False :=
      Or.inl (h0.resolve_right (by simp only [is_loop, Bool.false_eq_true, not_false_eq_true]))
    have e1 := hd
    have r1 := sema_visit_node_await argument _ d e1 (by omega) (h1.imp_right False.elim)
    simp only [sema_visit_node]
    exact r1
  | .program statements, s, d, hd, hn, h0 => by
    simp only [loop_nesting, loop_nesting_opt, loop_nesting_list, loop_nesting_values] at hn
    have h1 : d ≠ 0 ∨ False :=
      Or.inl (h0.resolve_right (by simp only [is_loop, Bool.false_eq_true, not_false_eq_true]))
    have e1 := hd
    have r1 := sema_visit_list_await statements _ d e1 (by omega) (h1.imp_right False.elim)
    simp only [sema_visit_node]
    exact r1
  | .block statements, s, d, hd, hn, h0 => by
    simp only [loop_nesting, loop_nesting_opt, loop_nesting_list, loop_nesting_values] at hn
    have h1 : d ≠ 0 ∨ False :=
      Or.inl (h0.resolve_right (by simp only [is_loop, Bool.false_eq_true, not_false_eq_true]))
    have e1 := hd
    have r1 := sema_visit_list_await statements _ d e1 (by omega) (h1.imp_right False.elim)
    simp only [sema_visit_node]
    exact r1
  | .binary _ left right, s, d, hd, hn, h0 => by
    simp only [loop_nesting, loop_nesting_opt, loop_nesting_list, loop_nesting_values] at hn
    have h1 : d ≠ 0 ∨ False :=
      Or.inl (h0.resolve_right (by simp only [is_loop, Bool.false_eq_true, not_false_eq_true]))
    have e1 := hd
    have r1 := sema_visit_node_await left _ d e1 (by omega) (h1.imp_right False.elim)
    have e2 := (sema_visit_node_frame left _ (by rw [e1]; omega)).2.1.trans e1
    have r2 := sema_visit_node_await right _ d e2 (by omega) (h1.imp_right False.elim)
    simp only [sema_visit_node]
    exact (reports_await_only_trans r1 r2)
  | .unary _ _ right, s, d, hd, hn, h0 => by
    simp only [loop_nesting, loop_nesting_opt, loop_nesting_list, loop_nesting_values] at hn
    have h1 : d ≠ 0 ∨ False :=
      Or.inl (h0.resolve_right (by simp only [is_loop, Bool.false_eq_true, not_false_eq_true]))
    have e1 := hd
    have r1 := sema_visit_node_await right _ d e1 (by omega) (h1.imp_right False.elim)
    simp only [sema_visit_node]
    exact r1
  | .assignment _ _ target value, s, d, hd, hn, h0 => by
    simp only [loop_nesting, loop_nesting_opt, loop_nesting_list, loop_nesting_values] at hn
    have h1 : d ≠ 0 ∨ False :=
      Or.inl (h0.resolve_right (by simp only [is_loop, Bool.false_eq_true, not_false_eq_true]))
    have e1 := hd
    have r1 := sema_visit_node_await target _ d e1 (by omega) (h1.imp_right False.elim)
    have e2 := (sema_visit_node_frame target _ (by rw [e1]; omega)).2.1.trans e1
    have r2 := sema_visit_node_await value _ d e2 (by omega) (h1.imp_right False.elim)
    simp only [sema_visit_node]
    exact (reports_await_only_trans r1 r2)
  | .ternary condition true_expr false_expr, s, d, hd, hn, h0 => by
    simp only [loop_nesting, loop_nesting_opt, loop_nesting_list, loop_nesting_values] at hn
    have h1 : d ≠ 0 ∨ False :=
      Or.inl (h0.resolve_right (by simp only [is_loop, Bool.false_eq_true, not_false_eq_true]))
    have e1 := hd
    have r1 := sema_visit_node_await condition _ d e1 (by omega) (h1.imp_right False.elim)
    have e2 := (sema_visit_node_frame condition _ (by rw [e1]; omega)).2.1.trans e1
    have r2 := sema_visit_node_await true_expr _ d e2 (by omega) (h1.imp_right False.elim)
    have e3 := (sema_visit_node_frame true_expr _ (by rw [e2]; omega)).2.1.trans e2
    have r3 := sema_visit_node_await false_expr _ d e3 (by omega) (h1.imp_right False.elim)
    simp only [sema_visit_node]
    exact (reports_await_only_trans (reports_await_only_trans r1 r2) r3)
  | .if_stmt condition then_branch else_branch, s, d, hd, hn, h0 => by
    simp only [loop_nesting, loop_nesting_opt, loop_nesting_list, loop_nesting_values] at hn
    have h1 : d ≠ 0 ∨ False :=
      Or.inl (h0.resolve_right (by simp only [is_loop, Bool.false_eq_true, not_false_eq_true]))
    have e1 := hd
    have r1 := sema_visit_node_await condition _ d e1 (by omega) (h1.imp_right False.elim)
    have e2 := (sema_visit_node_frame condition _ (by rw [e1]; omega)).2.1.trans e1
    have r2 := sema_visit_node_await then_branch _ d e2 (by omega) (h1.imp_right False.elim)
    have e3 := (sema_visit_node_frame then_branch _ (by rw [e2]; omega)).2.1.trans e2
    have r3 := sema_visit_await else_branch _ d e3 (by omega) (h1.imp_right False.elim)
    simp only [sema_visit_node]
    exact (reports_await_only_trans (reports_await_only_trans r1 r2) r3)
  | .while_stmt condition body, s, d, hd, hn, h0 => by
    simp only [loop_nesting, loop_nesting_opt, loop_nesting_list, loop_nesting_values] at hn
    have e1 : (loop_depth_inc s).loop_depth = d + 1 :=
      (loop_depth_inc_val s (by omega)).trans (by rw [hd])
    have h1 : d + 1 ≠ 0 ∨ False := Or.inl (Nat.succ_ne_zero d)
    have r1 := sema_visit_node_await condition _ (d + 1) e1 (by omega) (h1.imp_right False.elim)
    have e2 := (sema_visit_node_frame condition _ (by rw [e1]; omega)).2.1.trans e1
    have r2 := sema_visit_node_await body _ (d + 1) e2 (by omega) (h1.imp_right False.elim)
    simp only [sema_visit_node]
    exact reports_await_only_loop (reports_await_only_trans r1 r2)
  | .do_while_stmt body condition, s, d, hd, hn, h0 => by
    simp only [loop_nesting, loop_nesting_opt, loop_nesting_list, loop_nesting_values] at hn
    have e1 : (loop_depth_inc s).loop_depth = d + 1 :=
      (loop_depth_inc_val s (by omega)).trans (by rw [hd])
    have h1 : d + 1 ≠ 0 ∨ False := Or.inl (Nat.succ_ne_zero d)
    have r1 := sema_visit_node_await body _ (d + 1) e1 (by omega) (h1.imp_right False.elim)
    have e2 := (sema_visit_node_frame body _ (by rw [e1]; omega)).2.1.trans e1
    have r2 := sema_visit_node_await condition _ (d + 1) e2 (by omega) (h1.imp_right False.elim)
    simp only [sema_visit_node]
    exact reports_await_only_loop (reports_await_only_trans r1 r2)
  | .for_stmt body init condition increment, s, d, hd, hn, h0 => by
    simp only [loop_nesting, loop_nesting_opt, loop_nesting_list, loop_nesting_values] at hn
    have e1 : (loop_depth_inc s).loop_depth = d + 1 :=
      (loop_depth_inc_val s (by omega)).trans (by rw [hd])
    have h1 : d + 1 ≠ 0 ∨ False := Or.inl (Nat.succ_ne_zero d)
    have r1 := sema_visit_await init _ (d + 1) e1 (by omega) (h1.imp_right False.elim)
    have e2 := (sema_visit_frame init _ (by rw [e1]; omega)).2.1.trans e1
    have r2 := sema_visit_await condition _ (d + 1) e2 (by omega) (h1.imp_right False.elim)
    have e3 := (sema_visit_frame condition _ (by rw [e2]; omega)).2.1.trans e2
    have r3 := sema_visit_await increment _ (d + 1) e3 (by omega) (h1.imp_right False.elim)
    have e4 := (sema_visit_frame increment _ (by rw [e3]; omega)).2.1.trans e3
    have r4 := sema_visit_node_await body _ (d + 1) e4 (by omega) (h1.imp_right False.elim)
    simp only [sema_visit_node]
    exact reports_await_only_loop (reports_await_only_trans (reports_await_only_trans (reports_await_only_trans r1 r2) r3) r4)
  | .call callee args, s, d, hd, hn, h0 => by
    simp only [loop_nesting, loop_nesting_opt, loop_nesting_list, loop_nesting_values] at hn
    have h1 : d ≠ 0 ∨ False :=
      Or.inl (h0.resolve_right (by simp only [is_loop, Bool.false_eq_true, not_false_eq_true]))
    have e1 := hd
    have r1 := sema_visit_node_await callee _ d e1 (by omega) (h1.imp_right False.elim)
    have e2 := (sema_visit_node_frame callee _ (by rw [e1]; omega)).2.1.trans e1
    have r2 := sema_visit_list_await args _ d e2 (by omega) (h1.imp_right False.elim)
    simp only [sema_visit_node]
    exact (reports_await_only_trans r1 r2)
  | .index array index, s, d, hd, hn, h0 => by
    simp only [loop_nesting, loop_nesting_opt, loop_nesting_list, loop_nesting_values] at hn
    have h1 : d ≠ 0 ∨ False :=
      Or.inl (h0.resolve_right (by simp only [is_loop, Bool.false_eq_true, not_false_eq_true]))
    have e1 := hd
    have r1 := sema_visit_node_await array _ d e1 (by omega) (h1.imp_right False.elim)
    have e2 := (sema_visit_node_frame array _ (by rw [e1]; omega)).2.1.trans e1
    have r2 := sema_visit_node_await index _ d e2 (by omega) (h1.imp_right False.elim)
    simp only [sema_visit_node]
    exact (reports_await_only_trans r1 r2)
  | .member object _, s, d, hd, hn, h0 => by
    simp only [loop_nesting, loop_nesting_opt, loop_nesting_list, loop_nesting_values] at hn
    have h1 : d ≠ 0 ∨ False :=
      Or.inl (h0.resolve_right (by simp only [is_loop, Bool.false_eq_true, not_false_eq_true]))
    have e1 := hd
    have r1 := sema_visit_node_await object _ d e1 (by omega) (h1.imp_right False.elim)
    simp only [sema_visit_node]
    exact r1
  | .postfix_op _ left, s, d, hd, hn, h0 => by
    simp only [loop_nesting, loop_nesting_opt, loop_nesting_list, loop_nesting_values] at hn
    have h1 : d ≠ 0 ∨ False :=
      Or.inl (h0.resolve_right (by simp only [is_loop, Bool.false_eq_true, not_false_eq_true]))
    have e1 := hd
    have r1 := sema_visit_node_await left _ d e1 (by omega) (h1.imp_right False.elim)
    simp only [sema_visit_node]
    exact r1
  | .function is_async _ _ body, s, d, hd, hn, h0 => by
    simp only [loop_nesting, loop_nesting_opt, loop_nesting_list, loop_nesting_values] at hn
    have h1 : d ≠ 0 ∨ False :=
      Or.inl (h0.resolve_right (by simp only [is_loop, Bool.false_eq_true, not_false_eq_true]))
    have e1 : ({ s with in_async_function := is_async }).loop_depth = d := hd
    have r1 := sema_visit_node_await body _ d e1 (by omega) (h1.imp_right False.elim)
    simp only [sema_visit_node]
    exact reports_await_only_async _ _ r1
  | .declaration _ _ values, s, d, hd, hn, h0 => by
    simp only [loop_nesting, loop_nesting_opt, loop_nesting_list, loop_nesting_values] at hn
    have h1 : d ≠ 0 ∨ False :=
      Or.inl (h0.resolve_right (by simp only [is_loop, Bool.false_eq_true, not_false_eq_true]))
    have e1 := hd
    have r1 := sema_visit_values_await values _ d e1 (by omega) (h1.imp_right False.elim)
    simp only [sema_visit_node]
    exact r1
  | .throw_stmt value, s, d, hd, hn, h0 => by
    simp only [loop_nesting, loop_nesting_opt, loop_nesting_list, loop_nesting_values] at hn
    have h1 : d ≠ 0 ∨ False :=
      Or.inl (h0.resolve_right (by simp only [is_loop, Bool.false_eq_true, not_false_eq_true]))
    have e1 := hd
    have r1 := sema_visit_node_await value _ d e1 (by omega) (h1.imp_right False.elim)
    simp only [sema_visit_node]
    exact r1
  | .try_stmt try_block _ catch_block finally_block, s, d, hd, hn, h0 => by
    simp only [loop_nesting, loop_nesting_opt, loop_nesting_list, loop_nesting_values] at hn
    have h1 : d ≠ 0 ∨ False :=
      Or.inl (h0.resolve_right (by simp only [is_loop, Bool.false_eq_true, not_false_eq_true]))
    have e1 := hd
    have r1 := sema_visit_node_await try_block _ d e1 (by omega) (h1.imp_right False.elim)
    have e2 := (sema_visit_node_frame try_block _ (by rw [e1]; omega)).2.1.trans e1
    have r2 := sema_visit_await catch_block _ d e2 (by omega) (h1.imp_right False.elim)
    have e3 := (sema_visit_frame catch_block _ (by rw [e2]; omega)).2.1.trans e2
    have r3 := sema_visit_await finally_block _ d e3 (by omega) (h1.imp_right False.elim)
    simp only [sema_visit_node]
    exact (reports_await_only_trans (reports_await_only_trans r1 r2) r3)
  | .return_stmt value, s, d, hd, hn, h0 => by
    simp only [loop_nesting, loop_nesting_opt, loop_nesting_list, loop_nesting_values] at hn
    have h1 : d ≠ 0 ∨ False :=
      Or.inl (h0.resolve_right (by simp only [is_loop, Bool.false_eq_true, not_false_eq_true]))
    have e1 := hd
    have r1 := sema_visit_await value _ d e1 (by omega) (h1.imp_right False.elim)
    simp only [sema_visit_node]
    exact r1
  | .await_expr loc argument, s, d, hd, hn, h0 => by
    simp only [loop_nesting, loop_nesting_opt, loop_nesting_list, loop_nesting_values] at hn
    have h1 : d ≠ 0 ∨ False :=
      Or.inl (h0.resolve_right (by simp only [is_loop, Bool.false_eq_true, not_false_eq_true]))
    have e1 := (await_state_depth s loc).trans hd
    have r1 := sema_visit_node_await argument _ d e1 (by omega) (h1.imp_right False.elim)
    simp only [sema_visit_node]
    exact reports_await_only_trans (reports_await_only_await s loc) r1

theorem sema_visit_await : (o : Option Node) → (s : sema_t) → (d : Nat) → s.loop_depth = d →
    d + loop_nesting_opt o < SIZE_MODULUS → (d ≠ 0 ∨ False) →
    reports_await_only s (sema_visit s o)
  | none, s, _, _, _, _ => by
    simp only [sema_visit]
    exact reports_await_only_refl s
  | some n, s, d, hd, hn, h0 => by
    simp only [loop_nesting_opt] at hn
    simp only [sema_visit]
    exact sema_visit_node_await n s d hd hn (h0.imp_right False.elim)

theorem sema_visit_list_await : (l : List Node) → (s : sema_t) → (d : Nat) →
    s.loop_depth = d → d + loop_nesting_list l < SIZE_MODULUS → (d ≠ 0 ∨ False) →
    reports_await_only s (sema_visit_list s l)
  | [], s, _, _, _, _ => by
    simp only [sema_visit_list]
    exact reports_await_only_refl s
  | n :: rest, s, d, hd, hn, h0 => by
    simp only [loop_nesting_list] at hn
    have e2 := (sema_visit_node_frame n s (by rw [hd]; omega)).2.1.trans hd
    simp only [sema_visit_list]
    exact reports_await_only_trans (sema_visit_node_await n s d hd (by omega) (h0.imp_right False.elim))
      (sema_visit_list_await rest _ d e2 (by omega) h0)

theorem sema_visit_values_await : (l : List (Option Node)) → (s : sema_t) → (d : Nat) →
    s.loop_depth = d → d + loop_nesting_values l < SIZE_MODULUS → (d ≠ 0 ∨ False) →
    reports_await_only s (sema_visit_values s l)
  | [], s, _, _, _, _ => by
    simp only [sema_visit_values]
    exact reports_await_only_refl s
  | v :: rest, s, d, hd, hn, h0 => by
    simp only [loop_nesting_values] at hn
    have e2 := (sema_visit_frame v s (by rw [hd]; omega)).2.1.trans hd
    simp only [sema_visit_values]
    exact reports_await_only_trans (sema_visit_await v s d hd (by omega) h0)
      (sema_visit_values_await rest _ d e2 (by omega) h0)

end
/-! ## Semantic analysis: functions inside loops, and the frame -/

theorem sema_visit_list_append (xs ys : List Node) (s : sema_t) :
    sema_visit_list s (xs ++ ys) = sema_visit_list (sema_visit_list s xs) ys := by
  induction xs generalizing s with
  | nil => simp only [List.nil_append, sema_visit_list]
  | cons x rest ih =>
    simp only [List.cons_append, sema_visit_list]
    exact ih _

/-- Where `loop_depth` is not 0 a `Break` or `Continue` node is not flagged. -/
theorem sema_visit_jump (jump : Node) (hj : is_break_continue jump = true) (s : sema_t)
    (hd : s.loop_depth ≠ 0) : sema_visit_node s jump = s := by
  cases jump <;> simp only [is_break_continue, Bool.false_eq_true] at hj <;>
    simp only [sema_visit_node, hd, if_false]

/-- A `Break` or `Continue` node among the statements of a list visited with a
`loop_depth` that is not 0 can be left out. -/
theorem sema_visit_list_jump (before after : List Node) (jump : Node)
    (hj : is_break_continue jump = true) (s : sema_t) (hd : s.loop_depth ≠ 0)
    (hlt : s.loop_depth < SIZE_MODULUS) :
    sema_visit_list s (before ++ jump :: after) = sema_visit_list s (before ++ after) := by
  have hf := sema_visit_list_frame before s hlt
  rw [sema_visit_list_append, sema_visit_list_append]
  simp only [sema_visit_list]
  rw [sema_visit_jump jump hj _ (by rw [hf.2.1]; exact hd)]

/-- The visit of a function whose body holds a `Break` or `Continue` node
directly, started with a `loop_depth` that is not 0, is the visit of the
function without that node. -/
theorem sema_visit_function_jump (is_async : Bool) (name : Option String)
    (params : List Param) (before after : List Node) (jump : Node)
    (hj : is_break_continue jump = true) (s : sema_t) (hd : s.loop_depth ≠ 0)
    (hlt : s.loop_depth < SIZE_MODULUS) :
    sema_visit_node s (.function is_async name params (.block (before ++ jump :: after))) =
      sema_visit_node s (.function is_async name params (.block (before ++ after))) := by
  simp only [sema_visit_node]
  rw [sema_visit_list_jump before after jump hj { s with in_async_function := is_async } hd hlt]

/-- The same inside a list of statements. -/
theorem sema_visit_list_function_jump (is_async : Bool) (name : Option String)
    (params : List Param) (before after : List Node) (jump : Node)
    (hj : is_break_continue jump = true) (pre post : List Node) (s : sema_t)
    (hd : s.loop_depth ≠ 0) (hlt : s.loop_depth < SIZE_MODULUS) :
    sema_visit_list s
        (pre ++ .function is_async name params (.block (before ++ jump :: after)) :: post) =
      sema_visit_list s
        (pre ++ .function is_async name params (.block (before ++ after)) :: post) := by
  have hf := sema_visit_list_frame pre s hlt
  rw [sema_visit_list_append, sema_visit_list_append]
  simp only [sema_visit_list]
  rw [sema_visit_function_jump is_async name params before after jump hj _
    (by rw [hf.2.1]; exact hd) (by rw [hf.2.1]; exact hlt)]

theorem loop_depth_inc_ne_zero (s : sema_t) (h : s.loop_depth + 1 < SIZE_MODULUS) :
    (loop_depth_inc s).loop_depth ≠ 0 ∧ (loop_depth_inc s).loop_depth < SIZE_MODULUS := by
  rw [loop_depth_inc_val s h]
  exact ⟨Nat.succ_ne_zero _, h⟩

theorem sema_calls_list_append (xs ys : List Node) (s : sema_t) :
    sema_calls_list s (xs ++ ys) =
      sema_calls_list s xs ++ sema_calls_list (sema_visit_list s xs) ys := by
  induction xs generalizing s with
  | nil => simp only [List.nil_append, sema_calls_list, sema_visit_list]
  | cons x rest ih =>
    simp only [List.cons_append, sema_calls_list, sema_visit_list, List.append_assoc,
      List.append_eq]
    rw [ih]

/-- The first call of a visit is the call on the node itself. -/
theorem sema_calls_head (s : sema_t) (n : Node) : (s, n) ∈ sema_calls s n := by
  cases n <;> simp only [sema_calls, List.mem_cons, List.mem_singleton, true_or]

/-- The calls inside the visit of a loop are entered with a `loop_depth` above
that of the loop, and the calls they make are calls inside the visit of the
loop. -/
theorem sema_calls_inside_loop (s : sema_t) (loop : Node) (hloop : is_loop loop = true)
    (hrange : s.loop_depth + loop_nesting loop < SIZE_MODULUS) :
    ∀ c ∈ (sema_calls s loop).tail,
      (s.loop_depth + 1 ≤ c.1.loop_depth ∧ c.1.loop_depth < SIZE_MODULUS) ∧
      ∀ c' ∈ sema_calls c.1 c.2, c' ∈ (sema_calls s loop).tail := by
  cases loop <;> try (simp only [is_loop, Bool.false_eq_true] at hloop)
  case while_stmt condition body =>
    simp only [loop_nesting] at hrange
    simp only [sema_calls, List.tail_cons, List.mem_append]
    have e1 : (loop_depth_inc s).loop_depth = s.loop_depth + 1 :=
      loop_depth_inc_val s (by omega)
    have e2 := (sema_visit_node_frame condition _ (by rw [e1]; omega)).2.1.trans e1
    intro c hc
    rcases hc with hc | hc
    · exact ⟨sema_calls_depth condition _ _ e1 (by omega) c hc,
        fun c' hc' => Or.inl (sema_calls_sub condition _ c hc c' hc')⟩
    · exact ⟨sema_calls_depth body _ _ e2 (by omega) c hc,
        fun c' hc' => Or.inr (sema_calls_sub body _ c hc c' hc')⟩
  case do_while_stmt body condition =>
    simp only [loop_nesting] at hrange
    simp only [sema_calls, List.tail_cons, List.mem_append]
    have e1 : (loop_depth_inc s).loop_depth = s.loop_depth + 1 :=
      loop_depth_inc_val s (by omega)
    have e2 := (sema_visit_node_frame body _ (by rw [e1]; omega)).2.1.trans e1
    intro c hc
    rcases hc with hc | hc
    · exact ⟨sema_calls_depth body _ _ e1 (by omega) c hc,
        fun c' hc' => Or.inl (sema_calls_sub body _ c hc c' hc')⟩
    · exact ⟨sema_calls_depth condition _ _ e2 (by omega) c hc,
        fun c' hc' => Or.inr (sema_calls_sub condition _ c hc c' hc')⟩
  case for_stmt body init condition increment =>
    simp only [loop_nesting] at hrange
    simp only [sema_calls, List.tail_cons, List.mem_append]
    have e1 : (loop_depth_inc s).loop_depth = s.loop_depth + 1 :=
      loop_depth_inc_val s (by omega)
    have e2 := (sema_visit_frame init _ (by rw [e1]; omega)).2.1.trans e1
    have e3 := (sema_visit_frame condition _ (by rw [e2]; omega)).2.1.trans e2
    have e4 := (sema_visit_frame increment _ (by rw [e3]; omega)).2.1.trans e3
    intro c hc
    rcases hc with hc | hc | hc | hc
    · exact ⟨sema_calls_opt_depth init _ _ e1 (by omega) c hc,
        fun c' hc' => Or.inl (sema_calls_opt_sub init _ c hc c' hc')⟩
    · exact ⟨sema_calls_opt_depth condition _ _ e2 (by omega) c hc,
        fun c' hc' => Or.inr (Or.inl (sema_calls_opt_sub condition _ c hc c' hc'))⟩
    · exact ⟨sema_calls_opt_depth increment _ _ e3 (by omega) c hc,
        fun c' hc' => Or.inr (Or.inr (Or.inl (sema_calls_opt_sub increment _ c hc c' hc')))⟩
    · exact ⟨sema_calls_depth body _ _ e4 (by omega) c hc,
        fun c' hc' => Or.inr (Or.inr (Or.inr (sema_calls_sub body _ c hc c' hc')))⟩

/-- The call on a statement of the body of a function is one of the calls of
the visit of the function: it is entered with the state the statements before
it leave. -/
theorem sema_calls_function_statement (t : sema_t) (is_async : Bool) (name : Option String)
    (params : List Param) (before after : List Node) (stmt : Node) :
    (sema_visit_list { t with in_async_function := is_async } before, stmt) ∈
      sema_calls t (.function is_async name params (.block (before ++ stmt :: after))) := by
  simp only [sema_calls, sema_calls_list_append, sema_calls_list, List.mem_cons,
    List.mem_append]
  exact Or.inr (Or.inr (Or.inr (Or.inl (sema_calls_head _ _))))

/-- C39: `sema_visit_function` does not reset `loop_depth`. Take a `While`,
`DoWhile` or `For` node, visited from a state in which `loop_depth`, a
`size_t`, does not wrap around on the way down the loops of the node. Then
every call of `sema_visit` inside the visit of the loop (every call but the
first, which is the call on the loop itself) is entered with a `loop_depth`
that is not 0, and a call on a `Break` or `Continue` node among them returns
the state unchanged: nothing is reported and `had_error` is as before. For a
function (async or not) that is visited there, as a statement, under an
assignment, under an `if` or anywhere else, with a `break` or a `continue`
directly in its body: the statement is visited with the `loop_depth` the
function is entered with, its call is one of the calls inside the visit of the
loop and returns the state unchanged, and the function is analysed as the
same function without that statement. And the visit of the loop as a whole
reports nothing about `break` or `continue`, whatever the loop holds and
whether it is visited or not: the diagnostics it adds are about `await`, and
`had_error` is set afterwards only if it was set before or such a diagnostic
was added. -/
theorem C39_jump_in_function_in_loop (s : sema_t) (loop : Node) (hloop : is_loop loop = true)
    (hrange : s.loop_depth + loop_nesting loop < SIZE_MODULUS) :
    (∀ c ∈ (sema_calls s loop).tail, c.1.loop_depth ≠ 0 ∧
      (is_break_continue c.2 = true → sema_visit_node c.1 c.2 = c.1)) ∧
    (∀ (t : sema_t) (is_async : Bool) (name : Option String) (params : List Param)
        (before after : List Node) (jump : Node), is_break_continue jump = true →
      (t, .function is_async name params (.block (before ++ jump :: after))) ∈
        (sema_calls s loop).tail →
      (sema_visit_list { t with in_async_function := is_async } before).loop_depth =
        t.loop_depth ∧
      (sema_visit_list { t with in_async_function := is_async } before, jump) ∈
        (sema_calls s loop).tail ∧
      sema_visit_node (sema_visit_list { t with in_async_function := is_async } before) jump =
        sema_visit_list { t with in_async_function := is_async } before ∧
      sema_visit_node t (.function is_async name params (.block (before ++ jump :: after))) =
        sema_visit_node t (.function is_async name params (.block (before ++ after)))) ∧
    reports_await_only s (sema_visit_node s loop) := by
  refine ⟨fun c hc => ?_, fun t is_async name params before after jump hj hmem => ?_, ?_⟩
  · obtain ⟨⟨h1, -⟩, -⟩ := sema_calls_inside_loop s loop hloop hrange c hc
    exact ⟨by omega, fun hj => sema_visit_jump c.2 hj c.1 (by omega)⟩
  · obtain ⟨⟨h1, h2⟩, hsub⟩ := sema_calls_inside_loop s loop hloop hrange _ hmem
    have hu : (sema_visit_list { t with in_async_function := is_async } before).loop_depth =
        t.loop_depth := (sema_visit_list_frame before { t with in_async_function := is_async } h2).2.1
    have h0 : t.loop_depth ≠ 0 := by
      have h1' : s.loop_depth + 1 ≤ t.loop_depth := h1
      omega
    exact ⟨hu, hsub _ (sema_calls_function_statement t is_async name params before after jump),
      sema_visit_jump jump hj _ (by rw [hu]; exact h0),
      sema_visit_function_jump is_async name params before after jump hj t h0 h2⟩
  · exact sema_visit_node_await loop s s.loop_depth rfl hrange (Or.inr hloop)

/-- C39 on `while (true) \x7b x = function () \x7b break; \x7d; \x7d` and on
`do \x7b if (x) \x7b async function f() \x7b continue; \x7d \x7d \x7d while (true);`
as the parser builds them, the block of the `do` loop in the second member:
each function is visited with `loop_depth` 1 and analysed as the function with
an empty body. -/
theorem C39_jump_in_function_in_loop_witness :
    (lex_and_parse 12 "while (true) \x7b x = function () \x7b break; \x7d; \x7d").map
        (Except.map Prod.fst) =
      some (.ok (some (.program [.while_stmt (.boolean true) (.block
        [.assignment ⟨"a.rose", 1, 18⟩ ⟨"=", 1, TOKEN_EQUAL, ⟨"a.rose", 1, 18⟩⟩
          (.identifier "x")
          (.function false none [] (.block [.break_stmt ⟨"a.rose", 1, 39⟩ none]))])]))) ∧
    sema_visit_node ⟨none, 1, false, false, []⟩
        (.function false none [] (.block [.break_stmt ⟨"a.rose", 1, 39⟩ none])) =
      sema_visit_node ⟨none, 1, false, false, []⟩ (.function false none [] (.block [])) ∧
    (lex_and_parse 12
        "do \x7b if (x) \x7b async function f() \x7b continue; \x7d \x7d \x7d while (true);").map
        (Except.map Prod.fst) =
      some (.ok (some (.program [.do_while_stmt (.boolean true) (.block
        [.if_stmt (.identifier "x") (.block
          [.function true (some "f") [] (.block [.continue_stmt ⟨"a.rose", 1, 36⟩ none])])
          none])]))) ∧
    sema_visit_node ⟨none, 1, false, false, []⟩
        (.function true (some "f") [] (.block [.continue_stmt ⟨"a.rose", 1, 36⟩ none])) =
      sema_visit_node ⟨none, 1, false, false, []⟩ (.function true (some "f") [] (.block [])) :=
  ⟨by decide!,
    ((C39_jump_in_function_in_loop (sema_init none)
      (.while_stmt (.boolean true) (.block
        [.assignment ⟨"a.rose", 1, 18⟩ ⟨"=", 1, TOKEN_EQUAL, ⟨"a.rose", 1, 18⟩⟩
          (.identifier "x")
          (.function false none [] (.block [.break_stmt ⟨"a.rose", 1, 39⟩ none]))]))
      rfl (by decide!)).2.1 ⟨none, 1, false, false, []⟩ false none [] [] []
      (.break_stmt ⟨"a.rose", 1, 39⟩ none) rfl (by decide!)).2.2.2,
    by decide!,
    ((C39_jump_in_function_in_loop (sema_init none)
      (.do_while_stmt (.boolean true) (.block
        [.if_stmt (.identifier "x") (.block
          [.function true (some "f") [] (.block [.continue_stmt ⟨"a.rose", 1, 36⟩ none])])
          none]))
      rfl (by decide!)).2.1 ⟨none, 1, false, false, []⟩ true (some "f") [] [] []
      (.continue_stmt ⟨"a.rose", 1, 36⟩ none) rfl (by decide!)).2.2.2⟩

/-- C40: from every state whose `loop_depth` is a `size_t`, `sema_visit` on any
node, or on `NULL`, returns with the `loop_depth` and the `in_async_function`
it was entered with, and with `had_error` set if it was set on entry. -/
theorem C40_state_restored (node : Option Node) (s : sema_t)
    (h : s.loop_depth < SIZE_MODULUS) :
    (sema_visit s node).loop_depth = s.loop_depth ∧
    (sema_visit s node).in_async_function = s.in_async_function ∧
    (s.had_error = true → (sema_visit s node).had_error = true) :=
  (sema_visit_frame node s h).2

/-- C40 on a loop that holds an async function, entered with `had_error` set. -/
theorem C40_state_restored_witness :
    (sema_visit (SEMA_ERROR (sema_init none) .break_not_in_loop ⟨"a.rose", 1, 1⟩)
      (some (.while_stmt (.boolean true) (.block
        [.function true none [] (.block [])])))).loop_depth = 0 ∧
    (sema_visit (SEMA_ERROR (sema_init none) .break_not_in_loop ⟨"a.rose", 1, 1⟩)
      (some (.while_stmt (.boolean true) (.block
        [.function true none [] (.block [])])))).in_async_function = false ∧
    (sema_visit (SEMA_ERROR (sema_init none) .break_not_in_loop ⟨"a.rose", 1, 1⟩)
      (some (.while_stmt (.boolean true) (.block
        [.function true none [] (.block [])])))).had_error = true :=
  have h := C40_state_restored
    (some (.while_stmt (.boolean true) (.block [.function true none [] (.block [])])))
    (SEMA_ERROR (sema_init none) .break_not_in_loop ⟨"a.rose", 1, 1⟩)
    (by show 0 < SIZE_MODULUS; unfold SIZE_MODULUS; decide)
  ⟨h.1, h.2.1, h.2.2 rfl⟩
/-! ## Tree teardown -/

/-- Releasing the node last is a permutation of listing it first. -/
theorem perm_snoc {a : Node} {xs ys : List Node} (h : xs.Perm ys) :
    (xs ++ [a]).Perm (a :: ys) :=
  (List.perm_append_singleton a xs).trans (List.Perm.cons a h)

theorem interleave_perm : ∀ (as bs : List (List Node)),
    (interleave as bs).Perm (as.flatten ++ bs.flatten)
  | [], [] => by simp [interleave]
  | [], b :: bs => by simp [interleave]
  | a :: as, [] => by simp [interleave]
  | a :: as, b :: bs => by
    simp only [interleave, List.flatten_cons, List.append_assoc]
    refine List.Perm.append_left a ?_
    refine (List.Perm.append_left b (interleave_perm as bs)).trans ?_
    rw [← List.append_assoc, ← List.append_assoc]
    exact List.Perm.append_right _ List.perm_append_comm

mutual

theorem node_free_perm : (node : Node) → node.nodes.all (fun n => n.as_new_expr.isNone) = true →
    (node_free node).Perm node.nodes
  | .program x0, h => by
    simp only [Node.nodes, List.all_cons, List.all_append, Bool.and_eq_true] at h
    simp only [node_free, Node.nodes]
    exact perm_snoc (node_free_list_perm x0 h.2)
  | .block x0, h => by
    simp only [Node.nodes, List.all_cons, List.all_append, Bool.and_eq_true] at h
    simp only [node_free, Node.nodes]
    exact perm_snoc (node_free_list_perm x0 h.2)
  | .binary x0 x1 x2, h => by
    simp only [Node.nodes, List.all_cons, List.all_append, Bool.and_eq_true] at h
    simp only [node_free, Node.nodes]
    exact perm_snoc (List.Perm.append (node_free_perm x1 h.2.1) (node_free_perm x2 h.2.2))
  | .unary x0 x1 x2, h => by
    simp only [Node.nodes, List.all_cons, List.all_append, Bool.and_eq_true] at h
    simp only [node_free, Node.nodes]
    exact perm_snoc (node_free_perm x2 h.2)
  | .assignment x0 x1 x2 x3, h => by
    simp only [Node.nodes, List.all_cons, List.all_append, Bool.and_eq_true] at h
    simp only [node_free, Node.nodes]
    exact perm_snoc (List.Perm.append (node_free_perm x2 h.2.1) (node_free_perm x3 h.2.2))
  | .ternary x0 x1 x2, h => by
    simp only [Node.nodes, List.all_cons, List.all_append, Bool.and_eq_true] at h
    simp only [node_free, Node.nodes]
    exact perm_snoc (List.Perm.append (List.Perm.append (node_free_perm x0 h.2.1.1) (node_free_perm x1 h.2.1.2)) (node_free_perm x2 h.2.2))
  | .if_stmt x0 x1 x2, h => by
    simp only [Node.nodes, List.all_cons, List.all_append, Bool.and_eq_true] at h
    simp only [node_free, Node.nodes]
    exact perm_snoc (List.Perm.append (List.Perm.append (node_free_perm x0 h.2.1.1) (node_free_perm x1 h.2.1.2)) (node_free_opt_perm x2 h.2.2))
  | .while_stmt x0 x1, h => by
    simp only [Node.nodes, List.all_cons, List.all_append, Bool.and_eq_true] at h
    simp only [node_free, Node.nodes]
    exact perm_snoc (List.Perm.append (node_free_perm x0 h.2.1) (node_free_perm x1 h.2.2))
  | .do_while_stmt x0 x1, h => by
    simp only [Node.nodes, List.all_cons, List.all_append, Bool.and_eq_true] at h
    simp only [node_free, Node.nodes]
    exact perm_snoc (List.perm_append_comm.trans
      (List.Perm.append (node_free_perm x0 h.2.1) (node_free_perm x1 h.2.2)))
  | .for_stmt x0 x1 x2 x3, h => by
    simp only [Node.nodes, List.all_cons, List.all_append, Bool.and_eq_true] at h
    simp only [node_free, Node.nodes]
    exact perm_snoc (List.Perm.append (List.Perm.append (List.Perm.append (node_free_perm x0 h.2.1.1.1) (node_free_opt_perm x1 h.2.1.1.2)) (node_free_opt_perm x2 h.2.1.2)) (node_free_opt_perm x3 h.2.2))
  | .call x0 x1, h => by
    simp only [Node.nodes, List.all_cons, List.all_append, Bool.and_eq_true] at h
    simp only [node_free, Node.nodes]
    exact perm_snoc (List.Perm.append (node_free_perm x0 h.2.1) (node_free_list_perm x1 h.2.2))
  | .postfix_op x0 x1, h => by
    simp only [Node.nodes, List.all_cons, List.all_append, Bool.and_eq_true] at h
    simp only [node_free, Node.nodes]
    exact perm_snoc (node_free_perm x1 h.2)
  | .index x0 x1, h => by
    simp only [Node.nodes, List.all_cons, List.all_append, Bool.and_eq_true] at h
    simp only [node_free, Node.nodes]
    exact perm_snoc (List.Perm.append (node_free_perm x0 h.2.1) (node_free_perm x1 h.2.2))
  | .member x0 x1, h => by
    simp only [Node.nodes, List.all_cons, List.all_append, Bool.and_eq_true] at h
    simp only [node_free, Node.nodes]
    exact perm_snoc (List.Perm.append (node_free_perm x0 h.2.1) (node_free_opt_perm x1 h.2.2))
  | .function x0 x1 x2 x3, h => by
    simp only [Node.nodes, List.all_cons, List.all_append, Bool.and_eq_true] at h
    simp only [node_free, Node.nodes]
    exact perm_snoc (List.Perm.append (node_free_params_perm x2 h.2.1) (node_free_perm x3 h.2.2))
  | .array x0, h => by
    simp only [Node.nodes, List.all_cons, List.all_append, Bool.and_eq_true] at h
    simp only [node_free, Node.nodes]
    exact perm_snoc (node_free_list_perm x0 h.2)
  | .object x0 x1, h => by
    simp only [Node.nodes, List.all_cons, List.all_append, Bool.and_eq_true] at h
    simp only [node_free, Node.nodes]
    exact perm_snoc (node_free_list_perm x1 h.2)
  | .spread x0, h => by
    simp only [Node.nodes, List.all_cons, List.all_append, Bool.and_eq_true] at h
    simp only [node_free, Node.nodes]
    exact perm_snoc (node_free_perm x0 h.2)
  | .declaration x0 x1 x2, h => by
    simp only [Node.nodes, List.all_cons, List.all_append, Bool.and_eq_true] at h
    simp only [node_free, Node.nodes]
    exact perm_snoc ((interleave_perm _ _).trans
      (List.Perm.append (node_free_each_perm x1 h.2.1) (node_free_each_opt_perm x2 h.2.2)))
  | .switch_stmt x0 x1, h => by
    simp only [Node.nodes, List.all_cons, List.all_append, Bool.and_eq_true] at h
    simp only [node_free, Node.nodes]
    exact perm_snoc (List.Perm.append (node_free_perm x0 h.2.1) (node_free_cases_perm x1 h.2.2))
  | .label x0 x1, h => by
    simp only [Node.nodes, List.all_cons, List.all_append, Bool.and_eq_true] at h
    simp only [node_free, Node.nodes]
    exact perm_snoc (node_free_perm x1 h.2)
  | .await_expr x0 x1, h => by
    simp only [Node.nodes, List.all_cons, List.all_append, Bool.and_eq_true] at h
    simp only [node_free, Node.nodes]
    exact perm_snoc (node_free_perm x1 h.2)
  | .new_expr x0, h => by
    simp only [Node.nodes, List.all_cons, Node.as_new_expr, Option.isNone_some,
      Bool.false_and, Bool.false_eq_true] at h
  | .break_stmt x0 x1, h => by
    simp only [node_free, Node.nodes, List.Perm.refl]
  | .continue_stmt x0 x1, h => by
    simp only [node_free, Node.nodes, List.Perm.refl]
  | .throw_stmt x0, h => by
    simp only [Node.nodes, List.all_cons, List.all_append, Bool.and_eq_true] at h
    simp only [node_free, Node.nodes]
    exact perm_snoc (node_free_perm x0 h.2)
  | .try_stmt x0 x1 x2 x3, h => by
    simp only [Node.nodes, List.all_cons, List.all_append, Bool.and_eq_true] at h
    simp only [node_free, Node.nodes]
    exact perm_snoc (List.Perm.append (List.Perm.append (node_free_perm x0 h.2.1.1) (node_free_opt_perm x2 h.2.1.2)) (node_free_opt_perm x3 h.2.2))
  | .return_stmt x0, h => by
    simp only [Node.nodes, List.all_cons, List.all_append, Bool.and_eq_true] at h
    simp only [node_free, Node.nodes]
    exact perm_snoc (node_free_opt_perm x0 h.2)
  | .import_stmt x0 x1 x2, h => by
    simp only [node_free, Node.nodes, List.Perm.refl]
  | .export_stmt x0 x1 x2, h => by
    simp only [Node.nodes, List.all_cons, List.all_append, Bool.and_eq_true] at h
    simp only [node_free, Node.nodes]
    exact perm_snoc (node_free_opt_perm x1 h.2)
  | .undefined, h => by
    simp only [node_free, Node.nodes, List.Perm.refl]
  | .null, h => by
    simp only [node_free, Node.nodes, List.Perm.refl]
  | .number x0, h => by
    simp only [node_free, Node.nodes, List.Perm.refl]
  | .string x0, h => by
    simp only [node_free, Node.nodes, List.Perm.refl]
  | .boolean x0, h => by
    simp only [node_free, Node.nodes, List.Perm.refl]
  | .identifier x0, h => by
    simp only [node_free, Node.nodes, List.Perm.refl]
  | .this x0, h => by
    simp only [node_free, Node.nodes, List.Perm.refl]
  | .empty x0, h => by
    simp only [node_free, Node.nodes, List.Perm.refl]
  | .debugger, h => by
    simp only [node_free, Node.nodes, List.Perm.refl]
termination_by structural node => node

theorem node_free_opt_perm : (node : Option Node) →
    (nodes_opt node).all (fun n => n.as_new_expr.isNone) = true →
    (node_free_opt node).Perm (nodes_opt node)
  | none, _ => by simp only [node_free_opt, nodes_opt, List.Perm.refl]
  | some x, h => by
    simp only [nodes_opt] at h
    simp only [node_free_opt, nodes_opt]
    exact node_free_perm x h
termination_by structural node => node

theorem node_free_list_perm : (nodes : List Node) → (nodes_list nodes).all (fun n => n.as_new_expr.isNone) = true →
    (node_free_list nodes).Perm (nodes_list nodes)
  | [], _ => by simp only [node_free_list, nodes_list, List.flatten_nil, List.Perm.refl]
  | x :: rest, h => by
    simp only [nodes_list, List.all_append, Bool.and_eq_true] at h
    simp only [node_free_list, nodes_list, List.flatten_cons]
    exact List.Perm.append (node_free_perm x h.1) (node_free_list_perm rest h.2)
termination_by structural nodes => nodes

theorem node_free_each_perm : (nodes : List Node) → (nodes_list nodes).all (fun n => n.as_new_expr.isNone) = true →
    (node_free_each nodes).flatten.Perm (nodes_list nodes)
  | [], _ => by simp only [node_free_each, nodes_list, List.flatten_nil, List.Perm.refl]
  | x :: rest, h => by
    simp only [nodes_list, List.all_append, Bool.and_eq_true] at h
    simp only [node_free_each, nodes_list, List.flatten_cons]
    exact List.Perm.append (node_free_perm x h.1) (node_free_each_perm rest h.2)
termination_by structural nodes => nodes

theorem node_free_each_opt_perm : (nodes : List (Option Node)) → (nodes_values nodes).all (fun n => n.as_new_expr.isNone) = true →
    (node_free_each_opt nodes).flatten.Perm (nodes_values nodes)
  | [], _ => by simp only [node_free_each_opt, nodes_values, List.flatten_nil, List.Perm.refl]
  | x :: rest, h => by
    simp only [nodes_values, List.all_append, Bool.and_eq_true] at h
    simp only [node_free_each_opt, nodes_values, List.flatten_cons]
    exact List.Perm.append (node_free_opt_perm x h.1) (node_free_each_opt_perm rest h.2)
termination_by structural nodes => nodes

theorem node_free_params_perm : (params : List Param) →
    (nodes_params params).all (fun n => n.as_new_expr.isNone) = true →
    (node_free_params params).Perm (nodes_params params)
  | [], _ => by simp only [node_free_params, nodes_params, List.Perm.refl]
  | .mk _ x _ :: rest, h => by
    simp only [nodes_params, List.all_append, Bool.and_eq_true] at h
    simp only [node_free_params, nodes_params]
    exact List.Perm.append (node_free_opt_perm x h.1) (node_free_params_perm rest h.2)
termination_by structural params => params

theorem node_free_cases_perm : (cases : List SwitchCase) →
    (nodes_cases cases).all (fun n => n.as_new_expr.isNone) = true →
    (node_free_cases cases).Perm (nodes_cases cases)
  | [], _ => by simp only [node_free_cases, nodes_cases, List.Perm.refl]
  | .mk labels body _ :: rest, h => by
    simp only [nodes_cases, List.all_append, Bool.and_eq_true] at h
    simp only [node_free_cases, nodes_cases]
    exact List.Perm.append (List.Perm.append (node_free_list_perm labels h.1.1)
      (node_free_perm body h.1.2)) (node_free_cases_perm rest h.2)
termination_by structural cases => cases

end
/-! ## Tree teardown and the printer: the claims -/

/-- C34: the source `while (true) \x7b break; \x7d` is parsed to a program of
one statement; `node_build` writes `while (true) \x7bbreak;\x7d;` for this
program, whatever the format of numbers is, with a `;` after the block as
after every statement; and this text is parsed to a program of two
statements, the loop and an `Empty` node for the `;`. -/
theorem C34_printed_program_has_one_more_statement :
    (lex_and_parse 10 "while (true) \x7b break; \x7d").map (Except.map Prod.fst) =
      some (.ok (some (.program [.while_stmt (.boolean true)
        (.block [.break_stmt ⟨"a.rose", 1, 21⟩ none])]))) ∧
    (∀ format, node_build format (some (.program [.while_stmt (.boolean true)
        (.block [.break_stmt ⟨"a.rose", 1, 21⟩ none])])) =
      some "while (true) \x7bbreak;\x7d;\n") ∧
    (lex_and_parse 10 "while (true) \x7bbreak;\x7d;\n").map (Except.map Prod.fst) =
      some (.ok (some (.program [.while_stmt (.boolean true)
        (.block [.break_stmt ⟨"a.rose", 1, 20⟩ none]), .empty ⟨"a.rose", 1, 22⟩]))) :=
  ⟨by decide!, fun _ => rfl, by decide!⟩

/-! ## The lexer: reading text -/

theorem lexer_peek_of_nil (lex : lexer_t) (h : lex.rest = []) : lexer_peek lex = '\x00' := by
  unfold lexer_peek
  split
  · rfl
  · rename_i hlt
    simp only [lexer_t.rest, List.drop_eq_nil_iff] at h
    exact absurd h hlt

theorem lexer_rest_cons (lex : lexer_t) (c : Char) (r : List Char) (h : lex.rest = c :: r) :
    lex.pos < lex.length ∧ lex.source.getD lex.pos '\x00' = c := by
  unfold lexer_t.rest at h
  have hlt : lex.pos < lex.source.length := by
    by_contra hge
    rw [List.drop_eq_nil_iff.mpr (by omega)] at h
    cases h
  refine ⟨hlt, ?_⟩
  have := List.head?_drop lex.source lex.pos
  rw [h] at this
  simp only [List.head?_cons] at this
  simp [List.getD_eq_getElem?_getD, ← this]

theorem lexer_peek_of_cons (lex : lexer_t) (c : Char) (r : List Char) (h : lex.rest = c :: r) :
    lexer_peek lex = c := by
  obtain ⟨hlt, hc⟩ := lexer_rest_cons lex c r h
  unfold lexer_peek
  rw [if_neg (by omega), hc]

theorem lexer_peek_eq (lex : lexer_t) : lexer_peek lex = lex.rest.headD '\x00' := by
  cases h : lex.rest with
  | nil => simp [lexer_peek_of_nil lex h]
  | cons c r => simp [lexer_peek_of_cons lex c r h]

theorem lexer_read_nil (lex : lexer_t) : lexer_read lex [] = lex := by
  cases lex
  simp [lexer_read, loc_after]

theorem loc_after_append (loc : location_t) (a b : List Char) :
    loc_after loc (a ++ b) = loc_after (loc_after loc a) b := by
  simp [loc_after, List.foldl_append]

theorem lexer_read_append (lex : lexer_t) (a b : List Char) :
    lexer_read (lexer_read lex a) b = lexer_read lex (a ++ b) := by
  simp [lexer_read, loc_after_append, Nat.add_assoc, Bool.or_assoc]

theorem lexer_rest_read (lex : lexer_t) (cs r : List Char) (h : lex.rest = cs ++ r) :
    (lexer_read lex cs).rest = r := by
  unfold lexer_t.rest at h ⊢
  simp only [lexer_read]
  rw [← List.drop_drop, h]
  simp

theorem lexer_advance_of_nil (lex : lexer_t) (h : lex.rest = []) :
    lexer_advance lex = ('\x00', lex) := by
  unfold lexer_advance
  rw [if_pos]
  simp only [lexer_t.rest, List.drop_eq_nil_iff] at h
  exact h

theorem lexer_advance_of_cons (lex : lexer_t) (c : Char) (r : List Char) (h : lex.rest = c :: r) :
    lexer_advance lex = (if c.toNat > 127 then '\x00' else c, lexer_read lex [c]) := by
  obtain ⟨hlt, hc⟩ := lexer_rest_cons lex c r h
  unfold lexer_advance
  rw [if_neg (by omega)]
  simp only [hc]
  cases lex
  by_cases h1 : c.toNat > 127
  · simp [h1, lexer_read, loc_after, loc_step, LEXER_ERROR]
  · by_cases h2 : c = '\n'
    · simp [h1, h2, lexer_read, loc_after, loc_step]
    · simp [h1, h2, lexer_read, loc_after, loc_step]

theorem lexer_read_fields (lex : lexer_t) (cs : List Char) :
    (lexer_read lex cs).source = lex.source ∧ (lexer_read lex cs).tokens = lex.tokens ∧
    (lexer_read lex cs).pos = lex.pos + cs.length ∧
    (lexer_read lex cs).loc = loc_after lex.loc cs ∧
    (lexer_read lex cs).length = lex.length := ⟨rfl, rfl, rfl, rfl, rfl⟩

theorem loc_step_filename (loc : location_t) (c : Char) :
    (loc_step loc c).filename = loc.filename := by
  unfold loc_step
  split
  · rfl
  · split <;> rfl

theorem loc_after_filename (loc : location_t) (cs : List Char) :
    (loc_after loc cs).filename = loc.filename := by
  induction cs generalizing loc with
  | nil => rfl
  | cons c cs ih =>
    show (loc_after (loc_step loc c) cs).filename = _
    rw [ih, loc_step_filename]

theorem lexer_read_had_error (lex : lexer_t) (cs : List Char) :
    (lexer_read lex cs).had_error = false ↔
      lex.had_error = false ∧ ∀ c ∈ cs, c.toNat ≤ 127 := by
  simp [lexer_read, Nat.not_lt]

/-- Reading a prefix of the rest is a `lexer_reads`. -/
theorem lexer_reads_read (lex : lexer_t) (cs r : List Char) (h : lex.rest = cs ++ r) :
    lexer_reads lex (lexer_read lex cs) cs := by
  refine ⟨?_, rfl, rfl, rfl, loc_after_filename _ _, ?_, ?_⟩
  · rw [lexer_rest_read lex cs r h, h]
  · intro he
    simp [lexer_read, he]
  · intro he
    exact ⟨rfl, ((lexer_read_had_error lex cs).mp he).2⟩

theorem lexer_reads_refl (lex : lexer_t) : lexer_reads lex lex [] :=
  ⟨rfl, rfl, rfl, rfl, rfl, id, fun _ => ⟨rfl, by simp⟩⟩

theorem lexer_reads_trans {a b c : lexer_t} {x y : List Char}
    (h1 : lexer_reads a b x) (h2 : lexer_reads b c y) : lexer_reads a c (x ++ y) := by
  obtain ⟨a1, a2, a3, a4, a5, a6, a7⟩ := h1
  obtain ⟨b1, b2, b3, b4, b5, b6, b7⟩ := h2
  refine ⟨?_, b2.trans a2, ?_, b4.trans a4, b5.trans a5, fun h => b6 (a6 h), ?_⟩
  · rw [a1, b1, List.append_assoc]
  · rw [b3, a3, List.length_append, Nat.add_assoc]
  · intro he
    obtain ⟨l2, q2⟩ := b7 he
    have hb : b.had_error = false := by
      cases hb : b.had_error
      · rfl
      · rw [b6 hb] at he; cases he
    obtain ⟨l1, q1⟩ := a7 hb
    refine ⟨by rw [l2, l1, loc_after_append], ?_⟩
    intro ch hch
    rcases List.mem_append.mp hch with h | h
    · exact q1 ch h
    · exact q2 ch h

/-- An error with another location afterwards is still a `lexer_reads`. -/
theorem lexer_reads_error {a b : lexer_t} {x : List Char} (h : lexer_reads a b x)
    (loc : location_t) (hf : loc.filename = b.loc.filename) :
    lexer_reads a (LEXER_ERROR { b with loc := loc }) x := by
  obtain ⟨a1, a2, a3, a4, a5, a6, a7⟩ := h
  exact ⟨a1, a2, a3, a4, hf.trans a5, fun _ => rfl, fun he => by cases he⟩

theorem lexer_reads_advance (lex : lexer_t) :
    ∃ cs, lexer_reads lex (lexer_advance lex).2 cs ∧ cs.length ≤ 1 ∧
      (lex.rest ≠ [] → cs.length = 1) := by
  cases h : lex.rest with
  | nil =>
    rw [lexer_advance_of_nil lex h]
    exact ⟨[], lexer_reads_refl lex, by simp, by simp⟩
  | cons c r =>
    rw [lexer_advance_of_cons lex c r h]
    exact ⟨[c], lexer_reads_read lex [c] r h, by simp, by simp⟩

theorem lexer_rest_length (lex : lexer_t) : lex.rest.length = lex.length - lex.pos := by
  simp [lexer_t.rest, lexer_t.length]

/-- The loop `while (p(peek)) advance` reads the characters that satisfy `p`. -/
theorem lexer_advance_while_read (p : Char → Bool) (cs r : List Char) :
    ∀ (lex : lexer_t) (fuel : Nat), lex.rest = cs ++ r → (∀ c ∈ cs, p c = true) →
      p (r.headD '\x00') = false → cs.length ≤ fuel →
      lexer_advance_while p fuel lex = lexer_read lex cs := by
  induction cs with
  | nil =>
    intro lex fuel h _ hr _
    rw [lexer_read_nil]
    cases fuel with
    | zero => rfl
    | succ f =>
      simp only [lexer_advance_while]
      rw [lexer_peek_eq, h, List.nil_append, hr]
      simp
  | cons c cs ih =>
    intro lex fuel h hp hr hf
    cases fuel with
    | zero => simp at hf
    | succ f =>
      simp only [lexer_advance_while]
      rw [lexer_peek_of_cons lex c (cs ++ r) h, hp c (List.mem_cons_self _ _), if_pos rfl,
        lexer_advance_of_cons lex c (cs ++ r) h]
      simp only
      rw [ih (lexer_read lex [c]) f (lexer_rest_read lex [c] (cs ++ r) h)
        (fun x hx => hp x (List.mem_cons_of_mem _ hx)) hr (by simpa using hf),
        lexer_read_append]
      rfl

theorem headD_dropWhile (p : Char → Bool) (l : List Char) (h0 : p '\x00' = false) :
    p ((l.dropWhile p).headD '\x00') = false := by
  induction l with
  | nil => simpa using h0
  | cons c l ih =>
    by_cases hc : p c = true
    · simpa [List.dropWhile_cons, hc] using ih
    · simp [List.dropWhile_cons, hc]

/-- With the fuel the callers give, the loop reads the longest prefix of the
rest whose characters satisfy `p`. -/
theorem lexer_advance_while_eq (p : Char → Bool) (h0 : p '\x00' = false) (lex : lexer_t)
    (fuel : Nat) (hf : lex.length - lex.pos ≤ fuel) :
    lexer_advance_while p fuel lex = lexer_read lex (lex.rest.takeWhile p) := by
  apply lexer_advance_while_read p _ (lex.rest.dropWhile p)
  · exact (List.takeWhile_append_dropWhile p lex.rest).symm
  · intro c hc
    exact List.mem_takeWhile_imp hc
  · exact headD_dropWhile p _ h0
  · have h1 := congrArg List.length (List.takeWhile_append_dropWhile p lex.rest)
    rw [List.length_append, lexer_rest_length] at h1
    omega

theorem lexer_reads_advance_while (p : Char → Bool) (h0 : p '\x00' = false) (lex : lexer_t)
    (fuel : Nat) (hf : lex.length - lex.pos ≤ fuel) :
    lexer_reads lex (lexer_advance_while p fuel lex) (lex.rest.takeWhile p) := by
  rw [lexer_advance_while_eq p h0 lex fuel hf]
  exact lexer_reads_read lex _ (lex.rest.dropWhile p)
    (List.takeWhile_append_dropWhile p lex.rest).symm

theorem lexer_rest_second (lex : lexer_t) (a b : Char) (t : List Char)
    (h : lex.rest = a :: b :: t) :
    lex.pos + 1 < lex.length ∧ lex.source.getD (lex.pos + 1) '\x00' = b := by
  have hl := lexer_rest_length lex
  rw [h] at hl
  simp only [List.length_cons] at hl
  refine ⟨by omega, ?_⟩
  have h2 : lex.source.drop (lex.pos + 1) = b :: t := by
    have := congrArg (List.drop 1) h
    simpa [lexer_t.rest, List.drop_drop, Nat.add_comm] using this
  have := List.head?_drop lex.source (lex.pos + 1)
  rw [h2] at this
  simp only [List.head?_cons] at this
  simp [List.getD_eq_getElem?_getD, ← this]

theorem lexer_rest_single (lex : lexer_t) (a : Char) (h : lex.rest = [a]) :
    ¬ lex.pos + 1 < lex.length := by
  have hl := lexer_rest_length lex
  rw [h] at hl
  simp only [List.length_cons, List.length_nil] at hl
  omega

/-- A round that meets white space and then a token. -/
theorem lexer_step_of_token (lex : lexer_t) (ws r : List Char) (h : lex.rest = ws ++ r)
    (hws : ∀ c ∈ ws, isspace c = true) (hr : isspace (r.headD '\x00') = false)
    (hc : opens_comment r = false) :
    lexer_step lex = lexer_token (lexer_read lex ws) := by
  unfold lexer_step
  have hw := lexer_advance_while_read isspace ws r lex (lex.length - lex.pos) h hws hr (by
    have := lexer_rest_length lex
    rw [h, List.length_append] at this
    omega)
  simp only [hw]
  have hrest := lexer_rest_read lex ws r h
  match r, hrest, hc with
  | [], hrest, _ =>
    rw [lexer_peek_of_nil _ hrest]
    simp
  | [a], hrest, _ =>
    have := lexer_rest_single _ a hrest
    simp [this]
  | a :: b :: t, hrest, hc =>
    obtain ⟨h1, h2⟩ := lexer_rest_second _ a b t hrest
    rw [lexer_peek_of_cons _ a _ hrest]
    simp only [h2]
    simp only [opens_comment, Bool.and_eq_false_imp, Bool.or_eq_false_iff, decide_eq_true_eq,
      decide_eq_false_iff_not] at hc
    by_cases ha : a = '/'
    · obtain ⟨hb1, hb2⟩ := hc ha
      simp [ha, h1, hb1, hb2]
    · simp [ha]

/-! ## The lexer: one token -/

theorem lexer_strndup_read (lex lex' : lexer_t) (cs r : List Char) (h : lex.rest = cs ++ r)
    (hs : lex'.source = lex.source) (n : Nat) (hn : n = cs.length) :
    lexer_strndup lex' lex.pos n = cs := by
  unfold lexer_strndup
  rw [hs, hn]
  unfold lexer_t.rest at h
  rw [h]
  simp

theorem ident_start_facts (c : Char) (hc : isalpha c = true ∨ c = '_' ∨ c = '$') :
    ¬ c.toNat > 127 ∧ c ≠ '\x00' ∧ c ≠ '"' ∧ c ≠ '\'' ∧ isdigit c = false := by
  rcases hc with h | h | h
  · simp only [isalpha, Bool.or_eq_true, Bool.and_eq_true, decide_eq_true_eq] at h
    refine ⟨by omega, ?_, ?_, ?_, ?_⟩
    · rintro rfl; simp at h
    · rintro rfl; simp at h
    · rintro rfl; simp at h
    · simp only [isdigit, Bool.and_eq_false_imp, decide_eq_true_eq, decide_eq_false_iff_not]
      omega
  · subst h; decide
  · subst h; decide

/-- What the round does at an identifier or keyword. -/
theorem lexer_token_identifier (lex : lexer_t) (c : Char) (cs tail : List Char)
    (h : lex.rest = c :: cs ++ tail) (hc : isalpha c = true ∨ c = '_' ∨ c = '$')
    (hcs : ∀ x ∈ cs, in_identifier x = true) (ht : in_identifier (tail.headD '\x00') = false) :
    lexer_token lex =
      (lexer_append (lexer_read lex (c :: cs))
        ⟨String.mk (c :: cs), cs.length + 1, keyword_type (c :: cs) (cs.length + 1), lex.loc⟩,
        true) := by
  obtain ⟨f1, f2, f3, f4, f5⟩ := ident_start_facts c hc
  have h' : lex.rest = c :: (cs ++ tail) := h
  have hw := lexer_advance_while_read in_identifier cs tail (lexer_read lex [c])
    ((lexer_read lex [c]).length - (lexer_read lex [c]).pos)
    (lexer_rest_read lex [c] (cs ++ tail) h') hcs ht (by
      have := lexer_rest_length lex
      rw [h'] at this
      simp only [List.length_cons, List.length_append] at this
      simp only [(lexer_read_fields lex [c]).2.2.1, (lexer_read_fields lex [c]).2.2.2.2,
        List.length_cons, List.length_nil]
      omega)
  rw [lexer_read_append, List.singleton_append] at hw
  have hv := lexer_strndup_read lex (lexer_read lex (c :: cs)) (c :: cs) tail h rfl
    ((lexer_read lex (c :: cs)).pos - lex.pos) (by simp [lexer_read])
  have hl : (lexer_read lex (c :: cs)).pos - lex.pos = cs.length + 1 := by simp [lexer_read]
  unfold lexer_token
  rw [lexer_advance_of_cons lex c (cs ++ tail) h']
  simp only [if_neg f1, if_neg f2, f3, f4, f5, or_self, if_false, hc, if_true, Bool.false_eq_true]
  rw [hw, hv, hl]
  have hfile : (lexer_read lex [c]).loc.filename = lex.loc.filename := loc_after_filename _ _
  rw [hfile]

theorem digit_facts (c : Char) (hc : isdigit c = true) :
    ¬ c.toNat > 127 ∧ c ≠ '\x00' ∧ c ≠ '"' ∧ c ≠ '\'' := by
  simp only [isdigit, Bool.and_eq_true, decide_eq_true_eq] at hc
  refine ⟨by omega, ?_, ?_, ?_⟩
  · rintro rfl; simp at hc
  · rintro rfl; simp at hc
  · rintro rfl; simp at hc

theorem lexer_read_fuel (lex : lexer_t) (a b r : List Char) (h : lex.rest = a ++ (b ++ r)) :
    b.length ≤ (lexer_read lex a).length - (lexer_read lex a).pos := by
  have := lexer_rest_length lex
  rw [h] at this
  simp only [List.length_append] at this
  simp only [(lexer_read_fields lex a).2.2.1, (lexer_read_fields lex a).2.2.2.2]
  omega

/-- What the round does at a number without a `.`. -/
theorem lexer_token_number_int (lex : lexer_t) (d : Char) (ds tail : List Char)
    (h : lex.rest = d :: ds ++ tail) (hd : isdigit d = true)
    (hds : ∀ x ∈ ds, in_number x = true) (ht : in_number (tail.headD '\x00') = false)
    (hdot : tail.headD '\x00' ≠ '.') :
    lexer_token lex =
      (lexer_append (lexer_read lex (d :: ds))
        ⟨String.mk (d :: ds), ds.length + 1, TOKEN_NUMBER_LITERAL, lex.loc⟩, true) := by
  obtain ⟨f1, f2, f3, f4⟩ := digit_facts d hd
  have h' : lex.rest = [d] ++ (ds ++ tail) := h
  have hw := lexer_advance_while_read in_number ds tail (lexer_read lex [d])
    ((lexer_read lex [d]).length - (lexer_read lex [d]).pos)
    (lexer_rest_read lex [d] (ds ++ tail) h') hds ht (lexer_read_fuel lex [d] ds tail h')
  rw [lexer_read_append, List.singleton_append] at hw
  have hp : lexer_peek (lexer_read lex (d :: ds)) = tail.headD '\x00' := by
    rw [lexer_peek_eq, lexer_rest_read lex (d :: ds) tail h]
  have hs : (lexer_read lex [d]).pos - 1 = lex.pos := by simp [lexer_read]
  have hl : (lexer_read lex (d :: ds)).pos - lex.pos = ds.length + 1 := by simp [lexer_read]
  have hv := lexer_strndup_read lex (lexer_read lex (d :: ds)) (d :: ds) tail h rfl
    (ds.length + 1) (by simp)
  have hfile : (lexer_read lex [d]).loc.filename = lex.loc.filename := loc_after_filename _ _
  unfold lexer_token
  rw [lexer_advance_of_cons lex d (ds ++ tail) h]
  simp only [if_neg f1, if_neg f2, f3, f4, or_self, if_false, hd, if_true]
  rw [hw, hs, hp, if_neg hdot, hl, hv, hfile]

/-- What the round does at a number with a `.`. -/
theorem lexer_token_number_frac (lex : lexer_t) (d : Char) (ds fs tail : List Char)
    (h : lex.rest = d :: ds ++ '.' :: fs ++ tail) (hd : isdigit d = true)
    (hds : ∀ x ∈ ds, in_number x = true) (hfs : ∀ x ∈ fs, in_number x = true)
    (ht : in_number (tail.headD '\x00') = false) :
    lexer_token lex =
      (lexer_append (lexer_read lex (d :: ds ++ '.' :: fs))
        ⟨String.mk (d :: ds ++ '.' :: fs), ds.length + fs.length + 2, TOKEN_NUMBER_LITERAL,
          lex.loc⟩, true) := by
  obtain ⟨f1, f2, f3, f4⟩ := digit_facts d hd
  have h1 : lex.rest = [d] ++ (ds ++ ('.' :: fs ++ tail)) := by simp [h]
  have h2 : lex.rest = (d :: ds) ++ ('.' :: (fs ++ tail)) := by simp [h]
  have h3 : lex.rest = (d :: ds ++ ['.']) ++ (fs ++ tail) := by simp [h]
  have hw := lexer_advance_while_read in_number ds ('.' :: fs ++ tail) (lexer_read lex [d])
    ((lexer_read lex [d]).length - (lexer_read lex [d]).pos)
    (lexer_rest_read lex [d] _ h1) hds (by simp [in_number, isdigit])
    (lexer_read_fuel lex [d] ds _ h1)
  rw [lexer_read_append, List.singleton_append] at hw
  have hp : lexer_peek (lexer_read lex (d :: ds)) = '.' := by
    rw [lexer_peek_eq, lexer_rest_read lex (d :: ds) _ h2]; rfl
  have ha : lexer_advance (lexer_read lex (d :: ds)) =
      ('.', lexer_read lex (d :: ds ++ ['.'])) := by
    rw [lexer_advance_of_cons _ '.' (fs ++ tail) (lexer_rest_read lex (d :: ds) _ h2),
      lexer_read_append]
    rfl
  have hw2 := lexer_advance_while_read in_number fs tail (lexer_read lex (d :: ds ++ ['.']))
    ((lexer_read lex (d :: ds ++ ['.'])).length - (lexer_read lex (d :: ds ++ ['.'])).pos)
    (lexer_rest_read lex _ (fs ++ tail) h3) hfs ht (lexer_read_fuel lex _ fs tail h3)
  rw [lexer_read_append] at hw2
  have e : d :: ds ++ ['.'] ++ fs = d :: ds ++ '.' :: fs := by simp
  rw [e] at hw2
  have hs : (lexer_read lex [d]).pos - 1 = lex.pos := by simp [lexer_read]
  have hl : (lexer_read lex (d :: ds ++ '.' :: fs)).pos - lex.pos = ds.length + fs.length + 2 := by
    simp [lexer_read]; omega
  have hv := lexer_strndup_read lex (lexer_read lex (d :: ds ++ '.' :: fs)) (d :: ds ++ '.' :: fs)
    tail h rfl (ds.length + fs.length + 2) (by simp; omega)
  have hfile : (lexer_read lex [d]).loc.filename = lex.loc.filename := loc_after_filename _ _
  unfold lexer_token
  rw [lexer_advance_of_cons lex d _ h2]
  simp only [if_neg f1, if_neg f2, f3, f4, or_self, if_false, hd, if_true]
  rw [hw, hs, hp, if_pos rfl]
  simp only [ha]
  rw [hw2, hl, hv, hfile]

/-! ## The lexer: operators and punctuation -/

theorem lexer_match_cases (lex : lexer_t) (e : Char) (he : ¬ e.toNat > 127)
    (he0 : e ≠ '\x00') :
    (lexer_match lex e = (true, lexer_read lex [e]) ∧ ∃ r, lex.rest = e :: r) ∨
    (lexer_match lex e = (false, lex) ∧ lex.rest.headD '\x00' ≠ e) := by
  unfold lexer_match
  by_cases hp : lexer_peek lex = e
  · rw [if_pos hp]
    rw [lexer_peek_eq] at hp
    cases hr : lex.rest with
    | nil =>
      rw [hr] at hp
      exact absurd hp.symm he0
    | cons c r =>
      rw [hr] at hp
      simp only [List.headD_cons] at hp
      subst hp
      left
      rw [lexer_advance_of_cons lex c r hr]
      exact ⟨rfl, r, rfl⟩
  · rw [if_neg hp]
    right
    rw [lexer_peek_eq] at hp
    exact ⟨rfl, hp⟩

theorem lexer_rest_two (lex : lexer_t) (a b : Char) (r1 r2 : List Char)
    (h1 : lex.rest = a :: r1) (h2 : (lexer_read lex [a]).rest = b :: r2) :
    lex.rest = [a, b] ++ r2 := by
  rw [lexer_rest_read lex [a] r1 h1] at h2
  rw [h1, h2]
  rfl

theorem lexer_operator_spec_plus (lex : lexer_t)
    (res : lexer_t × Option (token_type_t × String × Nat)) (h : lexer_operator lex '+' = res) :
    ∃ cs r, lex.rest = cs ++ r ∧ cs.length ≤ 2 ∧ (∀ x ∈ cs, x.toNat ≤ 127) ∧
      res.1 = lexer_read lex cs ∧
      (res.2 = none ∨
        ∃ ty text, res.2 = some (ty, text, text.length) ∧
          (ty, text) ∈ operator_table ∧
          (ty ≠ TOKEN_ARROW → text.data <+: '+' :: cs) ∧
          (ty = TOKEN_ARROW → '+' = '-' ∧ cs = ['>'])) := by
  unfold lexer_operator at h
  rw [if_pos (rfl : '+' = '+')] at h
  rcases lexer_match_cases (lex) '+' (by decide) (by decide) with
    ⟨e1, r1, hr1⟩ | ⟨e1, -⟩
  · rw [e1] at h
    dsimp only at h
    rw [if_pos rfl] at h
    subst h
    exact ⟨['+'], _, hr1, by decide, by decide, rfl,
      Or.inr ⟨_, _, rfl, by decide, fun _ => ⟨[], rfl⟩, fun h => by cases h⟩⟩
  · rw [e1] at h
    dsimp only at h
    rw [if_neg Bool.false_ne_true] at h
    rcases lexer_match_cases (lex) '=' (by decide) (by decide) with
      ⟨e2, r1, hr1⟩ | ⟨e2, -⟩
    · rw [e2] at h
      dsimp only at h
      rw [if_pos rfl] at h
      subst h
      exact ⟨['='], _, hr1, by decide, by decide, rfl,
        Or.inr ⟨_, _, rfl, by decide, fun _ => ⟨[], rfl⟩, fun h => by cases h⟩⟩
    · rw [e2] at h
      dsimp only at h
      rw [if_neg Bool.false_ne_true] at h
      subst h
      exact ⟨[], lex.rest, rfl, by decide, by decide, (lexer_read_nil lex).symm,
        Or.inr ⟨_, _, rfl, by decide, fun _ => ⟨[], rfl⟩, fun h => by cases h⟩⟩

theorem lexer_operator_spec_minus (lex : lexer_t)
    (res : lexer_t × Option (token_type_t × String × Nat)) (h : lexer_operator lex '-' = res) :
    ∃ cs r, lex.rest = cs ++ r ∧ cs.length ≤ 2 ∧ (∀ x ∈ cs, x.toNat ≤ 127) ∧
      res.1 = lexer_read lex cs ∧
      (res.2 = none ∨
        ∃ ty text, res.2 = some (ty, text, text.length) ∧
          (ty, text) ∈ operator_table ∧
          (ty ≠ TOKEN_ARROW → text.data <+: '-' :: cs) ∧
          (ty = TOKEN_ARROW → '-' = '-' ∧ cs = ['>'])) := by
  unfold lexer_operator at h
  rw [if_neg (show ¬ ('-' = '+') by decide)] at h
  rw [if_pos (rfl : '-' = '-')] at h
  rcases lexer_match_cases (lex) '-' (by decide) (by decide) with
    ⟨e1, r1, hr1⟩ | ⟨e1, -⟩
  · rw [e1] at h
    dsimp only at h
    rw [if_pos rfl] at h
    subst h
    exact ⟨['-'], _, hr1, by decide, by decide, rfl,
      Or.inr ⟨_, _, rfl, by decide, fun _ => ⟨[], rfl⟩, fun h => by cases h⟩⟩
  · rw [e1] at h
    dsimp only at h
    rw [if_neg Bool.false_ne_true] at h
    rcases lexer_match_cases (lex) '=' (by decide) (by decide) with
      ⟨e2, r1, hr1⟩ | ⟨e2, -⟩
    · rw [e2] at h
      dsimp only at h
      rw [if_pos rfl] at h
      subst h
      exact ⟨['='], _, hr1, by decide, by decide, rfl,
        Or.inr ⟨_, _, rfl, by decide, fun _ => ⟨[], rfl⟩, fun h => by cases h⟩⟩
    · rw [e2] at h
      dsimp only at h
      rw [if_neg Bool.false_ne_true] at h
      rcases lexer_match_cases (lex) '>' (by decide) (by decide) with
        ⟨e3, r1, hr1⟩ | ⟨e3, -⟩
      · rw [e3] at h
        dsimp only at h
        rw [if_pos rfl] at h
        subst h
        exact ⟨['>'], _, hr1, by decide, by decide, rfl,
          Or.inr ⟨_, _, rfl, by decide, fun h => absurd rfl h, fun _ => ⟨rfl, rfl⟩⟩⟩
      · rw [e3] at h
        dsimp only at h
        rw [if_neg Bool.false_ne_true] at h
        subst h
        exact ⟨[], lex.rest, rfl, by decide, by decide, (lexer_read_nil lex).symm,
          Or.inr ⟨_, _, rfl, by decide, fun _ => ⟨[], rfl⟩, fun h => by cases h⟩⟩

theorem lexer_operator_spec_star (lex : lexer_t)
    (res : lexer_t × Option (token_type_t × String × Nat)) (h : lexer_operator lex '*' = res) :
    ∃ cs r, lex.rest = cs ++ r ∧ cs.length ≤ 2 ∧ (∀ x ∈ cs, x.toNat ≤ 127) ∧
      res.1 = lexer_read lex cs ∧
      (res.2 = none ∨
        ∃ ty text, res.2 = some (ty, text, text.length) ∧
          (ty, text) ∈ operator_table ∧
          (ty ≠ TOKEN_ARROW → text.data <+: '*' :: cs) ∧
          (ty = TOKEN_ARROW → '*' = '-' ∧ cs = ['>'])) := by
  unfold lexer_operator at h
  rw [if_neg (show ¬ ('*' = '+') by decide)] at h
  rw [if_neg (show ¬ ('*' = '-') by decide)] at h
  rw [if_pos (rfl : '*' = '*')] at h
  rcases lexer_match_cases (lex) '*' (by decide) (by decide) with
    ⟨e1, r1, hr1⟩ | ⟨e1, -⟩
  · rw [e1] at h
    dsimp only at h
    rw [if_pos rfl] at h
    rcases lexer_match_cases (lexer_read lex ['*']) '=' (by decide) (by decide) with
      ⟨e2, r2, hr2⟩ | ⟨e2, -⟩
    · rw [e2] at h
      dsimp only at h
      rw [if_pos rfl] at h
      subst h
      exact ⟨['*', '='], _, (lexer_rest_two lex _ _ _ _ hr1 hr2), by decide, by decide, (lexer_read_append lex _ _),
        Or.inr ⟨_, _, rfl, by decide, fun _ => ⟨[], rfl⟩, fun h => by cases h⟩⟩
    · rw [e2] at h
      dsimp only at h
      rw [if_neg Bool.false_ne_true] at h
      subst h
      exact ⟨['*'], _, hr1, by decide, by decide, rfl,
        Or.inr ⟨_, _, rfl, by decide, fun _ => ⟨[], rfl⟩, fun h => by cases h⟩⟩
  · rw [e1] at h
    dsimp only at h
    rw [if_neg Bool.false_ne_true] at h
    rcases lexer_match_cases (lex) '=' (by decide) (by decide) with
      ⟨e3, r1, hr1⟩ | ⟨e3, -⟩
    · rw [e3] at h
      dsimp only at h
      rw [if_pos rfl] at h
      subst h
      exact ⟨['='], _, hr1, by decide, by decide, rfl,
        Or.inr ⟨_, _, rfl, by decide, fun _ => ⟨[], rfl⟩, fun h => by cases h⟩⟩
    · rw [e3] at h
      dsimp only at h
      rw [if_neg Bool.false_ne_true] at h
      subst h
      exact ⟨[], lex.rest, rfl, by decide, by decide, (lexer_read_nil lex).symm,
        Or.inr ⟨_, _, rfl, by decide, fun _ => ⟨[], rfl⟩, fun h => by cases h⟩⟩

theorem lexer_operator_spec_slash (lex : lexer_t)
    (res : lexer_t × Option (token_type_t × String × Nat)) (h : lexer_operator lex '/' = res) :
    ∃ cs r, lex.rest = cs ++ r ∧ cs.length ≤ 2 ∧ (∀ x ∈ cs, x.toNat ≤ 127) ∧
      res.1 = lexer_read lex cs ∧
      (res.2 = none ∨
        ∃ ty text, res.2 = some (ty, text, text.length) ∧
          (ty, text) ∈ operator_table ∧
          (ty ≠ TOKEN_ARROW → text.data <+: '/' :: cs) ∧
          (ty = TOKEN_ARROW → '/' = '-' ∧ cs = ['>'])) := by
  unfold lexer_operator at h
  rw [if_neg (show ¬ ('/' = '+') by decide)] at h
  rw [if_neg (show ¬ ('/' = '-') by decide)] at h
  rw [if_neg (show ¬ ('/' = '*') by decide)] at h
  rw [if_pos (rfl : '/' = '/')] at h
  rcases lexer_match_cases (lex) '=' (by decide) (by decide) with
    ⟨e1, r1, hr1⟩ | ⟨e1, -⟩
  · rw [e1] at h
    dsimp only at h
    rw [if_pos rfl] at h
    subst h
    exact ⟨['='], _, hr1, by decide, by decide, rfl,
      Or.inr ⟨_, _, rfl, by decide, fun _ => ⟨[], rfl⟩, fun h => by cases h⟩⟩
  · rw [e1] at h
    dsimp only at h
    rw [if_neg Bool.false_ne_true] at h
    subst h
    exact ⟨[], lex.rest, rfl, by decide, by decide, (lexer_read_nil lex).symm,
      Or.inr ⟨_, _, rfl, by decide, fun _ => ⟨[], rfl⟩, fun h => by cases h⟩⟩

theorem lexer_operator_spec_percent (lex : lexer_t)
    (res : lexer_t × Option (token_type_t × String × Nat)) (h : lexer_operator lex '%' = res) :
    ∃ cs r, lex.rest = cs ++ r ∧ cs.length ≤ 2 ∧ (∀ x ∈ cs, x.toNat ≤ 127) ∧
      res.1 = lexer_read lex cs ∧
      (res.2 = none ∨
        ∃ ty text, res.2 = some (ty, text, text.length) ∧
          (ty, text) ∈ operator_table ∧
          (ty ≠ TOKEN_ARROW → text.data <+: '%' :: cs) ∧
          (ty = TOKEN_ARROW → '%' = '-' ∧ cs = ['>'])) := by
  unfold lexer_operator at h
  rw [if_neg (show ¬ ('%' = '+') by decide)] at h
  rw [if_neg (show ¬ ('%' = '-') by decide)] at h
  rw [if_neg (show ¬ ('%' = '*') by decide)] at h
  rw [if_neg (show ¬ ('%' = '/') by decide)] at h
  rw [if_pos (rfl : '%' = '%')] at h
  rcases lexer_match_cases (lex) '=' (by decide) (by decide) with
    ⟨e1, r1, hr1⟩ | ⟨e1, -⟩
  · rw [e1] at h
    dsimp only at h
    rw [if_pos rfl] at h
    subst h
    exact ⟨['='], _, hr1, by decide, by decide, rfl,
      Or.inr ⟨_, _, rfl, by decide, fun _ => ⟨[], rfl⟩, fun h => by cases h⟩⟩
  · rw [e1] at h
    dsimp only at h
    rw [if_neg Bool.false_ne_true] at h
    subst h
    exact ⟨[], lex.rest, rfl, by decide, by decide, (lexer_read_nil lex).symm,
      Or.inr ⟨_, _, rfl, by decide, fun _ => ⟨[], rfl⟩, fun h => by cases h⟩⟩

theorem lexer_operator_spec_ampersand (lex : lexer_t)
    (res : lexer_t × Option (token_type_t × String × Nat)) (h : lexer_operator lex '&' = res) :
    ∃ cs r, lex.rest = cs ++ r ∧ cs.length ≤ 2 ∧ (∀ x ∈ cs, x.toNat ≤ 127) ∧
      res.1 = lexer_read lex cs ∧
      (res.2 = none ∨
        ∃ ty text, res.2 = some (ty, text, text.length) ∧
          (ty, text) ∈ operator_table ∧
          (ty ≠ TOKEN_ARROW → text.data <+: '&' :: cs) ∧
          (ty = TOKEN_ARROW → '&' = '-' ∧ cs = ['>'])) := by
  unfold lexer_operator at h
  rw [if_neg (show ¬ ('&' = '+') by decide)] at h
  rw [if_neg (show ¬ ('&' = '-') by decide)] at h
  rw [if_neg (show ¬ ('&' = '*') by decide)] at h
  rw [if_neg (show ¬ ('&' = '/') by decide)] at h
  rw [if_neg (show ¬ ('&' = '%') by decide)] at h
  rw [if_pos (rfl : '&' = '&')] at h
  rcases lexer_match_cases (lex) '&' (by decide) (by decide) with
    ⟨e1, r1, hr1⟩ | ⟨e1, -⟩
  · rw [e1] at h
    dsimp only at h
    rw [if_pos rfl] at h
    rcases lexer_match_cases (lexer_read lex ['&']) '=' (by decide) (by decide) with
      ⟨e2, r2, hr2⟩ | ⟨e2, -⟩
    · rw [e2] at h
      dsimp only at h
      rw [if_pos rfl] at h
      subst h
      exact ⟨['&', '='], _, (lexer_rest_two lex _ _ _ _ hr1 hr2), by decide, by decide, (lexer_read_append lex _ _),
        Or.inr ⟨_, _, rfl, by decide, fun _ => ⟨[], rfl⟩, fun h => by cases h⟩⟩
    · rw [e2] at h
      dsimp only at h
      rw [if_neg Bool.false_ne_true] at h
      subst h
      exact ⟨['&'], _, hr1, by decide, by decide, rfl,
        Or.inr ⟨_, _, rfl, by decide, fun _ => ⟨[], rfl⟩, fun h => by cases h⟩⟩
  · rw [e1] at h
    dsimp only at h
    rw [if_neg Bool.false_ne_true] at h
    rcases lexer_match_cases (lex) '=' (by decide) (by decide) with
      ⟨e3, r1, hr1⟩ | ⟨e3, -⟩
    · rw [e3] at h
      dsimp only at h
      rw [if_pos rfl] at h
      subst h
      exact ⟨['='], _, hr1, by decide, by decide, rfl,
        Or.inr ⟨_, _, rfl, by decide, fun _ => ⟨[], rfl⟩, fun h => by cases h⟩⟩
    · rw [e3] at h
      dsimp only at h
      rw [if_neg Bool.false_ne_true] at h
      subst h
      exact ⟨[], lex.rest, rfl, by decide, by decide, (lexer_read_nil lex).symm,
        Or.inr ⟨_, _, rfl, by decide, fun _ => ⟨[], rfl⟩, fun h => by cases h⟩⟩

theorem lexer_operator_spec_pipe (lex : lexer_t)
    (res : lexer_t × Option (token_type_t × String × Nat)) (h : lexer_operator lex '|' = res) :
    ∃ cs r, lex.rest = cs ++ r ∧ cs.length ≤ 2 ∧ (∀ x ∈ cs, x.toNat ≤ 127) ∧
      res.1 = lexer_read lex cs ∧
      (res.2 = none ∨
        ∃ ty text, res.2 = some (ty, text, text.length) ∧
          (ty, text) ∈ operator_table ∧
          (ty ≠ TOKEN_ARROW → text.data <+: '|' :: cs) ∧
          (ty = TOKEN_ARROW → '|' = '-' ∧ cs = ['>'])) := by
  unfold lexer_operator at h
  rw [if_neg (show ¬ ('|' = '+') by decide)] at h
  rw [if_neg (show ¬ ('|' = '-') by decide)] at h
  rw [if_neg (show ¬ ('|' = '*') by decide)] at h
  rw [if_neg (show ¬ ('|' = '/') by decide)] at h
  rw [if_neg (show ¬ ('|' = '%') by decide)] at h
  rw [if_neg (show ¬ ('|' = '&') by decide)] at h
  rw [if_pos (rfl : '|' = '|')] at h
  rcases lexer_match_cases (lex) '|' (by decide) (by decide) with
    ⟨e1, r1, hr1⟩ | ⟨e1, -⟩
  · rw [e1] at h
    dsimp only at h
    rw [if_pos rfl] at h
    rcases lexer_match_cases (lexer_read lex ['|']) '=' (by decide) (by decide) with
      ⟨e2, r2, hr2⟩ | ⟨e2, -⟩
    · rw [e2] at h
      dsimp only at h
      rw [if_pos rfl] at h
      subst h
      exact ⟨['|', '='], _, (lexer_rest_two lex _ _ _ _ hr1 hr2), by decide, by decide, (lexer_read_append lex _ _),
        Or.inr ⟨_, _, rfl, by decide, fun _ => ⟨[], rfl⟩, fun h => by cases h⟩⟩
    · rw [e2] at h
      dsimp only at h
      rw [if_neg Bool.false_ne_true] at h
      subst h
      exact ⟨['|'], _, hr1, by decide, by decide, rfl,
        Or.inr ⟨_, _, rfl, by decide, fun _ => ⟨[], rfl⟩, fun h => by cases h⟩⟩
  · rw [e1] at h
    dsimp only at h
    rw [if_neg Bool.false_ne_true] at h
    rcases lexer_match_cases (lex) '=' (by decide) (by decide) with
      ⟨e3, r1, hr1⟩ | ⟨e3, -⟩
    · rw [e3] at h
      dsimp only at h
      rw [if_pos rfl] at h
      subst h
      exact ⟨['='], _, hr1, by decide, by decide, rfl,
        Or.inr ⟨_, _, rfl, by decide, fun _ => ⟨[], rfl⟩, fun h => by cases h⟩⟩
    · rw [e3] at h
      dsimp only at h
      rw [if_neg Bool.false_ne_true] at h
      subst h
      exact ⟨[], lex.rest, rfl, by decide, by decide, (lexer_read_nil lex).symm,
        Or.inr ⟨_, _, rfl, by decide, fun _ => ⟨[], rfl⟩, fun h => by cases h⟩⟩

theorem lexer_operator_spec_caret (lex : lexer_t)
    (res : lexer_t × Option (token_type_t × String × Nat)) (h : lexer_operator lex '^' = res) :
    ∃ cs r, lex.rest = cs ++ r ∧ cs.length ≤ 2 ∧ (∀ x ∈ cs, x.toNat ≤ 127) ∧
      res.1 = lexer_read lex cs ∧
      (res.2 = none ∨
        ∃ ty text, res.2 = some (ty, text, text.length) ∧
          (ty, text) ∈ operator_table ∧
          (ty ≠ TOKEN_ARROW → text.data <+: '^' :: cs) ∧
          (ty = TOKEN_ARROW → '^' = '-' ∧ cs = ['>'])) := by
  unfold lexer_operator at h
  rw [if_neg (show ¬ ('^' = '+') by decide)] at h
  rw [if_neg (show ¬ ('^' = '-') by decide)] at h
  rw [if_neg (show ¬ ('^' = '*') by decide)] at h
  rw [if_neg (show ¬ ('^' = '/') by decide)] at h
  rw [if_neg (show ¬ ('^' = '%') by decide)] at h
  rw [if_neg (show ¬ ('^' = '&') by decide)] at h
  rw [if_neg (show ¬ ('^' = '|') by decide)] at h
  rw [if_pos (rfl : '^' = '^')] at h
  rcases lexer_match_cases (lex) '=' (by decide) (by decide) with
    ⟨e1, r1, hr1⟩ | ⟨e1, -⟩
  · rw [e1] at h
    dsimp only at h
    rw [if_pos rfl] at h
    subst h
    exact ⟨['='], _, hr1, by decide, by decide, rfl,
      Or.inr ⟨_, _, rfl, by decide, fun _ => ⟨[], rfl⟩, fun h => by cases h⟩⟩
  · rw [e1] at h
    dsimp only at h
    rw [if_neg Bool.false_ne_true] at h
    subst h
    exact ⟨[], lex.rest, rfl, by decide, by decide, (lexer_read_nil lex).symm,
      Or.inr ⟨_, _, rfl, by decide, fun _ => ⟨[], rfl⟩, fun h => by cases h⟩⟩

theorem lexer_operator_spec_tilde (lex : lexer_t)
    (res : lexer_t × Option (token_type_t × String × Nat)) (h : lexer_operator lex '~' = res) :
    ∃ cs r, lex.rest = cs ++ r ∧ cs.length ≤ 2 ∧ (∀ x ∈ cs, x.toNat ≤ 127) ∧
      res.1 = lexer_read lex cs ∧
      (res.2 = none ∨
        ∃ ty text, res.2 = some (ty, text, text.length) ∧
          (ty, text) ∈ operator_table ∧
          (ty ≠ TOKEN_ARROW → text.data <+: '~' :: cs) ∧
          (ty = TOKEN_ARROW → '~' = '-' ∧ cs = ['>'])) := by
  unfold lexer_operator at h
  rw [if_neg (show ¬ ('~' = '+') by decide)] at h
  rw [if_neg (show ¬ ('~' = '-') by decide)] at h
  rw [if_neg (show ¬ ('~' = '*') by decide)] at h
  rw [if_neg (show ¬ ('~' = '/') by decide)] at h
  rw [if_neg (show ¬ ('~' = '%') by decide)] at h
  rw [if_neg (show ¬ ('~' = '&') by decide)] at h
  rw [if_neg (show ¬ ('~' = '|') by decide)] at h
  rw [if_neg (show ¬ ('~' = '^') by decide)] at h
  rw [if_pos (rfl : '~' = '~')] at h
  subst h
  exact ⟨[], lex.rest, rfl, by decide, by decide, (lexer_read_nil lex).symm,
    Or.inr ⟨_, _, rfl, by decide, fun _ => ⟨[], rfl⟩, fun h => by cases h⟩⟩

theorem lexer_operator_spec_less (lex : lexer_t)
    (res : lexer_t × Option (token_type_t × String × Nat)) (h : lexer_operator lex '<' = res) :
    ∃ cs r, lex.rest = cs ++ r ∧ cs.length ≤ 2 ∧ (∀ x ∈ cs, x.toNat ≤ 127) ∧
      res.1 = lexer_read lex cs ∧
      (res.2 = none ∨
        ∃ ty text, res.2 = some (ty, text, text.length) ∧
          (ty, text) ∈ operator_table ∧
          (ty ≠ TOKEN_ARROW → text.data <+: '<' :: cs) ∧
          (ty = TOKEN_ARROW → '<' = '-' ∧ cs = ['>'])) := by
  unfold lexer_operator at h
  rw [if_neg (show ¬ ('<' = '+') by decide)] at h
  rw [if_neg (show ¬ ('<' = '-') by decide)] at h
  rw [if_neg (show ¬ ('<' = '*') by decide)] at h
  rw [if_neg (show ¬ ('<' = '/') by decide)] at h
  rw [if_neg (show ¬ ('<' = '%') by decide)] at h
  rw [if_neg (show ¬ ('<' = '&') by decide)] at h
  rw [if_neg (show ¬ ('<' = '|') by decide)] at h
  rw [if_neg (show ¬ ('<' = '^') by decide)] at h
  rw [if_neg (show ¬ ('<' = '~') by decide)] at h
  rw [if_pos (rfl : '<' = '<')] at h
  rcases lexer_match_cases (lex) '<' (by decide) (by decide) with
    ⟨e1, r1, hr1⟩ | ⟨e1, -⟩
  · rw [e1] at h
    dsimp only at h
    rw [if_pos rfl] at h
    rcases lexer_match_cases (lexer_read lex ['<']) '=' (by decide) (by decide) with
      ⟨e2, r2, hr2⟩ | ⟨e2, -⟩
    · rw [e2] at h
      dsimp only at h
      rw [if_pos rfl] at h
      subst h
      exact ⟨['<', '='], _, (lexer_rest_two lex _ _ _ _ hr1 hr2), by decide, by decide, (lexer_read_append lex _ _),
        Or.inr ⟨_, _, rfl, by decide, fun _ => ⟨[], rfl⟩, fun h => by cases h⟩⟩
    · rw [e2] at h
      dsimp only at h
      rw [if_neg Bool.false_ne_true] at h
      subst h
      exact ⟨['<'], _, hr1, by decide, by decide, rfl,
        Or.inr ⟨_, _, rfl, by decide, fun _ => ⟨[], rfl⟩, fun h => by cases h⟩⟩
  · rw [e1] at h
    dsimp only at h
    rw [if_neg Bool.false_ne_true] at h
    rcases lexer_match_cases (lex) '=' (by decide) (by decide) with
      ⟨e3, r1, hr1⟩ | ⟨e3, -⟩
    · rw [e3] at h
      dsimp only at h
      rw [if_pos rfl] at h
      subst h
      exact ⟨['='], _, hr1, by decide, by decide, rfl,
        Or.inr ⟨_, _, rfl, by decide, fun _ => ⟨[], rfl⟩, fun h => by cases h⟩⟩
    · rw [e3] at h
      dsimp only at h
      rw [if_neg Bool.false_ne_true] at h
      subst h
      exact ⟨[], lex.rest, rfl, by decide, by decide, (lexer_read_nil lex).symm,
        Or.inr ⟨_, _, rfl, by decide, fun _ => ⟨[], rfl⟩, fun h => by cases h⟩⟩

theorem lexer_operator_spec_greater (lex : lexer_t)
    (res : lexer_t × Option (token_type_t × String × Nat)) (h : lexer_operator lex '>' = res) :
    ∃ cs r, lex.rest = cs ++ r ∧ cs.length ≤ 2 ∧ (∀ x ∈ cs, x.toNat ≤ 127) ∧
      res.1 = lexer_read lex cs ∧
      (res.2 = none ∨
        ∃ ty text, res.2 = some (ty, text, text.length) ∧
          (ty, text) ∈ operator_table ∧
          (ty ≠ TOKEN_ARROW → text.data <+: '>' :: cs) ∧
          (ty = TOKEN_ARROW → '>' = '-' ∧ cs = ['>'])) := by
  unfold lexer_operator at h
  rw [if_neg (show ¬ ('>' = '+') by decide)] at h
  rw [if_neg (show ¬ ('>' = '-') by decide)] at h
  rw [if_neg (show ¬ ('>' = '*') by decide)] at h
  rw [if_neg (show ¬ ('>' = '/') by decide)] at h
  rw [if_neg (show ¬ ('>' = '%') by decide)] at h
  rw [if_neg (show ¬ ('>' = '&') by decide)] at h
  rw [if_neg (show ¬ ('>' = '|') by decide)] at h
  rw [if_neg (show ¬ ('>' = '^') by decide)] at h
  rw [if_neg (show ¬ ('>' = '~') by decide)] at h
  rw [if_neg (show ¬ ('>' = '<') by decide)] at h
  rw [if_pos (rfl : '>' = '>')] at h
  rcases lexer_match_cases (lex) '>' (by decide) (by decide) with
    ⟨e1, r1, hr1⟩ | ⟨e1, -⟩
  · rw [e1] at h
    dsimp only at h
    rw [if_pos rfl] at h
    rcases lexer_match_cases (lexer_read lex ['>']) '=' (by decide) (by decide) with
      ⟨e2, r2, hr2⟩ | ⟨e2, -⟩
    · rw [e2] at h
      dsimp only at h
      rw [if_pos rfl] at h
      subst h
      exact ⟨['>', '='], _, (lexer_rest_two lex _ _ _ _ hr1 hr2), by decide, by decide, (lexer_read_append lex _ _),
        Or.inr ⟨_, _, rfl, by decide, fun _ => ⟨[], rfl⟩, fun h => by cases h⟩⟩
    · rw [e2] at h
      dsimp only at h
      rw [if_neg Bool.false_ne_true] at h
      subst h
      exact ⟨['>'], _, hr1, by decide, by decide, rfl,
        Or.inr ⟨_, _, rfl, by decide, fun _ => ⟨[], rfl⟩, fun h => by cases h⟩⟩
  · rw [e1] at h
    dsimp only at h
    rw [if_neg Bool.false_ne_true] at h
    rcases lexer_match_cases (lex) '=' (by decide) (by decide) with
      ⟨e3, r1, hr1⟩ | ⟨e3, -⟩
    · rw [e3] at h
      dsimp only at h
      rw [if_pos rfl] at h
      subst h
      exact ⟨['='], _, hr1, by decide, by decide, rfl,
        Or.inr ⟨_, _, rfl, by decide, fun _ => ⟨[], rfl⟩, fun h => by cases h⟩⟩
    · rw [e3] at h
      dsimp only at h
      rw [if_neg Bool.false_ne_true] at h
      subst h
      exact ⟨[], lex.rest, rfl, by decide, by decide, (lexer_read_nil lex).symm,
        Or.inr ⟨_, _, rfl, by decide, fun _ => ⟨[], rfl⟩, fun h => by cases h⟩⟩

theorem lexer_operator_spec_equal (lex : lexer_t)
    (res : lexer_t × Option (token_type_t × String × Nat)) (h : lexer_operator lex '=' = res) :
    ∃ cs r, lex.rest = cs ++ r ∧ cs.length ≤ 2 ∧ (∀ x ∈ cs, x.toNat ≤ 127) ∧
      res.1 = lexer_read lex cs ∧
      (res.2 = none ∨
        ∃ ty text, res.2 = some (ty, text, text.length) ∧
          (ty, text) ∈ operator_table ∧
          (ty ≠ TOKEN_ARROW → text.data <+: '=' :: cs) ∧
          (ty = TOKEN_ARROW → '=' = '-' ∧ cs = ['>'])) := by
  unfold lexer_operator at h
  rw [if_neg (show ¬ ('=' = '+') by decide)] at h
  rw [if_neg (show ¬ ('=' = '-') by decide)] at h
  rw [if_neg (show ¬ ('=' = '*') by decide)] at h
  rw [if_neg (show ¬ ('=' = '/') by decide)] at h
  rw [if_neg (show ¬ ('=' = '%') by decide)] at h
  rw [if_neg (show ¬ ('=' = '&') by decide)] at h
  rw [if_neg (show ¬ ('=' = '|') by decide)] at h
  rw [if_neg (show ¬ ('=' = '^') by decide)] at h
  rw [if_neg (show ¬ ('=' = '~') by decide)] at h
  rw [if_neg (show ¬ ('=' = '<') by decide)] at h
  rw [if_neg (show ¬ ('=' = '>') by decide)] at h
  rw [if_pos (rfl : '=' = '=')] at h
  rcases lexer_match_cases (lex) '=' (by decide) (by decide) with
    ⟨e1, r1, hr1⟩ | ⟨e1, -⟩
  · rw [e1] at h
    dsimp only at h
    rw [if_pos rfl] at h
    subst h
    exact ⟨['='], _, hr1, by decide, by decide, rfl,
      Or.inr ⟨_, _, rfl, by decide, fun _ => ⟨[], rfl⟩, fun h => by cases h⟩⟩
  · rw [e1] at h
    dsimp only at h
    rw [if_neg Bool.false_ne_true] at h
    subst h
    exact ⟨[], lex.rest, rfl, by decide, by decide, (lexer_read_nil lex).symm,
      Or.inr ⟨_, _, rfl, by decide, fun _ => ⟨[], rfl⟩, fun h => by cases h⟩⟩

theorem lexer_operator_spec_bang (lex : lexer_t)
    (res : lexer_t × Option (token_type_t × String × Nat)) (h : lexer_operator lex '!' = res) :
    ∃ cs r, lex.rest = cs ++ r ∧ cs.length ≤ 2 ∧ (∀ x ∈ cs, x.toNat ≤ 127) ∧
      res.1 = lexer_read lex cs ∧
      (res.2 = none ∨
        ∃ ty text, res.2 = some (ty, text, text.length) ∧
          (ty, text) ∈ operator_table ∧
          (ty ≠ TOKEN_ARROW → text.data <+: '!' :: cs) ∧
          (ty = TOKEN_ARROW → '!' = '-' ∧ cs = ['>'])) := by
  unfold lexer_operator at h
  rw [if_neg (show ¬ ('!' = '+') by decide)] at h
  rw [if_neg (show ¬ ('!' = '-') by decide)] at h
  rw [if_neg (show ¬ ('!' = '*') by decide)] at h
  rw [if_neg (show ¬ ('!' = '/') by decide)] at h
  rw [if_neg (show ¬ ('!' = '%') by decide)] at h
  rw [if_neg (show ¬ ('!' = '&') by decide)] at h
  rw [if_neg (show ¬ ('!' = '|') by decide)] at h
  rw [if_neg (show ¬ ('!' = '^') by decide)] at h
  rw [if_neg (show ¬ ('!' = '~') by decide)] at h
  rw [if_neg (show ¬ ('!' = '<') by decide)] at h
  rw [if_neg (show ¬ ('!' = '>') by decide)] at h
  rw [if_neg (show ¬ ('!' = '=') by decide)] at h
  rw [if_pos (rfl : '!' = '!')] at h
  rcases lexer_match_cases (lex) '=' (by decide) (by decide) with
    ⟨e1, r1, hr1⟩ | ⟨e1, -⟩
  · rw [e1] at h
    dsimp only at h
    rw [if_pos rfl] at h
    subst h
    exact ⟨['='], _, hr1, by decide, by decide, rfl,
      Or.inr ⟨_, _, rfl, by decide, fun _ => ⟨[], rfl⟩, fun h => by cases h⟩⟩
  · rw [e1] at h
    dsimp only at h
    rw [if_neg Bool.false_ne_true] at h
    subst h
    exact ⟨[], lex.rest, rfl, by decide, by decide, (lexer_read_nil lex).symm,
      Or.inr ⟨_, _, rfl, by decide, fun _ => ⟨[], rfl⟩, fun h => by cases h⟩⟩

theorem lexer_operator_spec_left_paren (lex : lexer_t)
    (res : lexer_t × Option (token_type_t × String × Nat)) (h : lexer_operator lex '(' = res) :
    ∃ cs r, lex.rest = cs ++ r ∧ cs.length ≤ 2 ∧ (∀ x ∈ cs, x.toNat ≤ 127) ∧
      res.1 = lexer_read lex cs ∧
      (res.2 = none ∨
        ∃ ty text, res.2 = some (ty, text, text.length) ∧
          (ty, text) ∈ operator_table ∧
          (ty ≠ TOKEN_ARROW → text.data <+: '(' :: cs) ∧
          (ty = TOKEN_ARROW → '(' = '-' ∧ cs = ['>'])) := by
  unfold lexer_operator at h
  rw [if_neg (show ¬ ('(' = '+') by decide)] at h
  rw [if_neg (show ¬ ('(' = '-') by decide)] at h
  rw [if_neg (show ¬ ('(' = '*') by decide)] at h
  rw [if_neg (show ¬ ('(' = '/') by decide)] at h
  rw [if_neg (show ¬ ('(' = '%') by decide)] at h
  rw [if_neg (show ¬ ('(' = '&') by decide)] at h
  rw [if_neg (show ¬ ('(' = '|') by decide)] at h
  rw [if_neg (show ¬ ('(' = '^') by decide)] at h
  rw [if_neg (show ¬ ('(' = '~') by decide)] at h
  rw [if_neg (show ¬ ('(' = '<') by decide)] at h
  rw [if_neg (show ¬ ('(' = '>') by decide)] at h
  rw [if_neg (show ¬ ('(' = '=') by decide)] at h
  rw [if_neg (show ¬ ('(' = '!') by decide)] at h
  rw [if_pos (rfl : '(' = '(')] at h
  subst h
  exact ⟨[], lex.rest, rfl, by decide, by decide, (lexer_read_nil lex).symm,
    Or.inr ⟨_, _, rfl, by decide, fun _ => ⟨[], rfl⟩, fun h => by cases h⟩⟩

theorem lexer_operator_spec_right_paren (lex : lexer_t)
    (res : lexer_t × Option (token_type_t × String × Nat)) (h : lexer_operator lex ')' = res) :
    ∃ cs r, lex.rest = cs ++ r ∧ cs.length ≤ 2 ∧ (∀ x ∈ cs, x.toNat ≤ 127) ∧
      res.1 = lexer_read lex cs ∧
      (res.2 = none ∨
        ∃ ty text, res.2 = some (ty, text, text.length) ∧
          (ty, text) ∈ operator_table ∧
          (ty ≠ TOKEN_ARROW → text.data <+: ')' :: cs) ∧
          (ty = TOKEN_ARROW → ')' = '-' ∧ cs = ['>'])) := by
  unfold lexer_operator at h
  rw [if_neg (show ¬ (')' = '+') by decide)] at h
  rw [if_neg (show ¬ (')' = '-') by decide)] at h
  rw [if_neg (show ¬ (')' = '*') by decide)] at h
  rw [if_neg (show ¬ (')' = '/') by decide)] at h
  rw [if_neg (show ¬ (')' = '%') by decide)] at h
  rw [if_neg (show ¬ (')' = '&') by decide)] at h
  rw [if_neg (show ¬ (')' = '|') by decide)] at h
  rw [if_neg (show ¬ (')' = '^') by decide)] at h
  rw [if_neg (show ¬ (')' = '~') by decide)] at h
  rw [if_neg (show ¬ (')' = '<') by decide)] at h
  rw [if_neg (show ¬ (')' = '>') by decide)] at h
  rw [if_neg (show ¬ (')' = '=') by decide)] at h
  rw [if_neg (show ¬ (')' = '!') by decide)] at h
  rw [if_neg (show ¬ (')' = '(') by decide)] at h
  rw [if_pos (rfl : ')' = ')')] at h
  subst h
  exact ⟨[], lex.rest, rfl, by decide, by decide, (lexer_read_nil lex).symm,
    Or.inr ⟨_, _, rfl, by decide, fun _ => ⟨[], rfl⟩, fun h => by cases h⟩⟩

theorem lexer_operator_spec_left_brace (lex : lexer_t)
    (res : lexer_t × Option (token_type_t × String × Nat)) (h : lexer_operator lex '\x7b' = res) :
    ∃ cs r, lex.rest = cs ++ r ∧ cs.length ≤ 2 ∧ (∀ x ∈ cs, x.toNat ≤ 127) ∧
      res.1 = lexer_read lex cs ∧
      (res.2 = none ∨
        ∃ ty text, res.2 = some (ty, text, text.length) ∧
          (ty, text) ∈ operator_table ∧
          (ty ≠ TOKEN_ARROW → text.data <+: '\x7b' :: cs) ∧
          (ty = TOKEN_ARROW → '\x7b' = '-' ∧ cs = ['>'])) := by
  unfold lexer_operator at h
  rw [if_neg (show ¬ ('\x7b' = '+') by decide)] at h
  rw [if_neg (show ¬ ('\x7b' = '-') by decide)] at h
  rw [if_neg (show ¬ ('\x7b' = '*') by decide)] at h
  rw [if_neg (show ¬ ('\x7b' = '/') by decide)] at h
  rw [if_neg (show ¬ ('\x7b' = '%') by decide)] at h
  rw [if_neg (show ¬ ('\x7b' = '&') by decide)] at h
  rw [if_neg (show ¬ ('\x7b' = '|') by decide)] at h
  rw [if_neg (show ¬ ('\x7b' = '^') by decide)] at h
  rw [if_neg (show ¬ ('\x7b' = '~') by decide)] at h
  rw [if_neg (show ¬ ('\x7b' = '<') by decide)] at h
  rw [if_neg (show ¬ ('\x7b' = '>') by decide)] at h
  rw [if_neg (show ¬ ('\x7b' = '=') by decide)] at h
  rw [if_neg (show ¬ ('\x7b' = '!') by decide)] at h
  rw [if_neg (show ¬ ('\x7b' = '(') by decide)] at h
  rw [if_neg (show ¬ ('\x7b' = ')') by decide)] at h
  rw [if_pos (rfl : '\x7b' = '\x7b')] at h
  subst h
  exact ⟨[], lex.rest, rfl, by decide, by decide, (lexer_read_nil lex).symm,
    Or.inr ⟨_, _, rfl, by decide, fun _ => ⟨[], rfl⟩, fun h => by cases h⟩⟩

theorem lexer_operator_spec_right_brace (lex : lexer_t)
    (res : lexer_t × Option (token_type_t × String × Nat)) (h : lexer_operator lex '\x7d' = res) :
    ∃ cs r, lex.rest = cs ++ r ∧ cs.length ≤ 2 ∧ (∀ x ∈ cs, x.toNat ≤ 127) ∧
      res.1 = lexer_read lex cs ∧
      (res.2 = none ∨
        ∃ ty text, res.2 = some (ty, text, text.length) ∧
          (ty, text) ∈ operator_table ∧
          (ty ≠ TOKEN_ARROW → text.data <+: '\x7d' :: cs) ∧
          (ty = TOKEN_ARROW → '\x7d' = '-' ∧ cs = ['>'])) := by
  unfold lexer_operator at h
  rw [if_neg (show ¬ ('\x7d' = '+') by decide)] at h
  rw [if_neg (show ¬ ('\x7d' = '-') by decide)] at h
  rw [if_neg (show ¬ ('\x7d' = '*') by decide)] at h
  rw [if_neg (show ¬ ('\x7d' = '/') by decide)] at h
  rw [if_neg (show ¬ ('\x7d' = '%') by decide)] at h
  rw [if_neg (show ¬ ('\x7d' = '&') by decide)] at h
  rw [if_neg (show ¬ ('\x7d' = '|') by decide)] at h
  rw [if_neg (show ¬ ('\x7d' = '^') by decide)] at h
  rw [if_neg (show ¬ ('\x7d' = '~') by decide)] at h
  rw [if_neg (show ¬ ('\x7d' = '<') by decide)] at h
  rw [if_neg (show ¬ ('\x7d' = '>') by decide)] at h
  rw [if_neg (show ¬ ('\x7d' = '=') by decide)] at h
  rw [if_neg (show ¬ ('\x7d' = '!') by decide)] at h
  rw [if_neg (show ¬ ('\x7d' = '(') by decide)] at h
  rw [if_neg (show ¬ ('\x7d' = ')') by decide)] at h
  rw [if_neg (show ¬ ('\x7d' = '\x7b') by decide)] at h
  rw [if_pos (rfl : '\x7d' = '\x7d')] at h
  subst h
  exact ⟨[], lex.rest, rfl, by decide, by decide, (lexer_read_nil lex).symm,
    Or.inr ⟨_, _, rfl, by decide, fun _ => ⟨[], rfl⟩, fun h => by cases h⟩⟩

theorem lexer_operator_spec_left_bracket (lex : lexer_t)
    (res : lexer_t × Option (token_type_t × String × Nat)) (h : lexer_operator lex '[' = res) :
    ∃ cs r, lex.rest = cs ++ r ∧ cs.length ≤ 2 ∧ (∀ x ∈ cs, x.toNat ≤ 127) ∧
      res.1 = lexer_read lex cs ∧
      (res.2 = none ∨
        ∃ ty text, res.2 = some (ty, text, text.length) ∧
          (ty, text) ∈ operator_table ∧
          (ty ≠ TOKEN_ARROW → text.data <+: '[' :: cs) ∧
          (ty = TOKEN_ARROW → '[' = '-' ∧ cs = ['>'])) := by
  unfold lexer_operator at h
  rw [if_neg (show ¬ ('[' = '+') by decide)] at h
  rw [if_neg (show ¬ ('[' = '-') by decide)] at h
  rw [if_neg (show ¬ ('[' = '*') by decide)] at h
  rw [if_neg (show ¬ ('[' = '/') by decide)] at h
  rw [if_neg (show ¬ ('[' = '%') by decide)] at h
  rw [if_neg (show ¬ ('[' = '&') by decide)] at h
  rw [if_neg (show ¬ ('[' = '|') by decide)] at h
  rw [if_neg (show ¬ ('[' = '^') by decide)] at h
  rw [if_neg (show ¬ ('[' = '~') by decide)] at h
  rw [if_neg (show ¬ ('[' = '<') by decide)] at h
  rw [if_neg (show ¬ ('[' = '>') by decide)] at h
  rw [if_neg (show ¬ ('[' = '=') by decide)] at h
  rw [if_neg (show ¬ ('[' = '!') by decide)] at h
  rw [if_neg (show ¬ ('[' = '(') by decide)] at h
  rw [if_neg (show ¬ ('[' = ')') by decide)] at h
  rw [if_neg (show ¬ ('[' = '\x7b') by decide)] at h
  rw [if_neg (show ¬ ('[' = '\x7d') by decide)] at h
  rw [if_pos (rfl : '[' = '[')] at h
  subst h
  exact ⟨[], lex.rest, rfl, by decide, by decide, (lexer_read_nil lex).symm,
    Or.inr ⟨_, _, rfl, by decide, fun _ => ⟨[], rfl⟩, fun h => by cases h⟩⟩

theorem lexer_operator_spec_right_bracket (lex : lexer_t)
    (res : lexer_t × Option (token_type_t × String × Nat)) (h : lexer_operator lex ']' = res) :
    ∃ cs r, lex.rest = cs ++ r ∧ cs.length ≤ 2 ∧ (∀ x ∈ cs, x.toNat ≤ 127) ∧
      res.1 = lexer_read lex cs ∧
      (res.2 = none ∨
        ∃ ty text, res.2 = some (ty, text, text.length) ∧
          (ty, text) ∈ operator_table ∧
          (ty ≠ TOKEN_ARROW → text.data <+: ']' :: cs) ∧
          (ty = TOKEN_ARROW → ']' = '-' ∧ cs = ['>'])) := by
  unfold lexer_operator at h
  rw [if_neg (show ¬ (']' = '+') by decide)] at h
  rw [if_neg (show ¬ (']' = '-') by decide)] at h
  rw [if_neg (show ¬ (']' = '*') by decide)] at h
  rw [if_neg (show ¬ (']' = '/') by decide)] at h
  rw [if_neg (show ¬ (']' = '%') by decide)] at h
  rw [if_neg (show ¬ (']' = '&') by decide)] at h
  rw [if_neg (show ¬ (']' = '|') by decide)] at h
  rw [if_neg (show ¬ (']' = '^') by decide)] at h
  rw [if_neg (show ¬ (']' = '~') by decide)] at h
  rw [if_neg (show ¬ (']' = '<') by decide)] at h
  rw [if_neg (show ¬ (']' = '>') by decide)] at h
  rw [if_neg (show ¬ (']' = '=') by decide)] at h
  rw [if_neg (show ¬ (']' = '!') by decide)] at h
  rw [if_neg (show ¬ (']' = '(') by decide)] at h
  rw [if_neg (show ¬ (']' = ')') by decide)] at h
  rw [if_neg (show ¬ (']' = '\x7b') by decide)] at h
  rw [if_neg (show ¬ (']' = '\x7d') by decide)] at h
  rw [if_neg (show ¬ (']' = '[') by decide)] at h
  rw [if_pos (rfl : ']' = ']')] at h
  subst h
  exact ⟨[], lex.rest, rfl, by decide, by decide, (lexer_read_nil lex).symm,
    Or.inr ⟨_, _, rfl, by decide, fun _ => ⟨[], rfl⟩, fun h => by cases h⟩⟩

theorem lexer_operator_spec_dot (lex : lexer_t)
    (res : lexer_t × Option (token_type_t × String × Nat)) (h : lexer_operator lex '.' = res) :
    ∃ cs r, lex.rest = cs ++ r ∧ cs.length ≤ 2 ∧ (∀ x ∈ cs, x.toNat ≤ 127) ∧
      res.1 = lexer_read lex cs ∧
      (res.2 = none ∨
        ∃ ty text, res.2 = some (ty, text, text.length) ∧
          (ty, text) ∈ operator_table ∧
          (ty ≠ TOKEN_ARROW → text.data <+: '.' :: cs) ∧
          (ty = TOKEN_ARROW → '.' = '-' ∧ cs = ['>'])) := by
  unfold lexer_operator at h
  rw [if_neg (show ¬ ('.' = '+') by decide)] at h
  rw [if_neg (show ¬ ('.' = '-') by decide)] at h
  rw [if_neg (show ¬ ('.' = '*') by decide)] at h
  rw [if_neg (show ¬ ('.' = '/') by decide)] at h
  rw [if_neg (show ¬ ('.' = '%') by decide)] at h
  rw [if_neg (show ¬ ('.' = '&') by decide)] at h
  rw [if_neg (show ¬ ('.' = '|') by decide)] at h
  rw [if_neg (show ¬ ('.' = '^') by decide)] at h
  rw [if_neg (show ¬ ('.' = '~') by decide)] at h
  rw [if_neg (show ¬ ('.' = '<') by decide)] at h
  rw [if_neg (show ¬ ('.' = '>') by decide)] at h
  rw [if_neg (show ¬ ('.' = '=') by decide)] at h
  rw [if_neg (show ¬ ('.' = '!') by decide)] at h
  rw [if_neg (show ¬ ('.' = '(') by decide)] at h
  rw [if_neg (show ¬ ('.' = ')') by decide)] at h
  rw [if_neg (show ¬ ('.' = '\x7b') by decide)] at h
  rw [if_neg (show ¬ ('.' = '\x7d') by decide)] at h
  rw [if_neg (show ¬ ('.' = '[') by decide)] at h
  rw [if_neg (show ¬ ('.' = ']') by decide)] at h
  rw [if_pos (rfl : '.' = '.')] at h
  rcases lexer_match_cases (lex) '.' (by decide) (by decide) with
    ⟨e1, r1, hr1⟩ | ⟨e1, -⟩
  · rw [e1] at h
    dsimp only at h
    rw [if_pos rfl] at h
    rcases lexer_match_cases (lexer_read lex ['.']) '.' (by decide) (by decide) with
      ⟨e2, r2, hr2⟩ | ⟨e2, -⟩
    · rw [e2] at h
      dsimp only at h
      rw [if_pos rfl] at h
      subst h
      exact ⟨['.', '.'], _, (lexer_rest_two lex _ _ _ _ hr1 hr2), by decide, by decide, (lexer_read_append lex _ _),
        Or.inr ⟨_, _, rfl, by decide, fun _ => ⟨[], rfl⟩, fun h => by cases h⟩⟩
    · rw [e2] at h
      dsimp only at h
      rw [if_neg Bool.false_ne_true] at h
      subst h
      exact ⟨['.'], _, hr1, by decide, by decide, rfl,
        Or.inr ⟨_, _, rfl, by decide, fun _ => ⟨['.'], rfl⟩, fun h => by cases h⟩⟩
  · rw [e1] at h
    dsimp only at h
    rw [if_neg Bool.false_ne_true] at h
    subst h
    exact ⟨[], lex.rest, rfl, by decide, by decide, (lexer_read_nil lex).symm,
      Or.inr ⟨_, _, rfl, by decide, fun _ => ⟨[], rfl⟩, fun h => by cases h⟩⟩

theorem lexer_operator_spec_comma (lex : lexer_t)
    (res : lexer_t × Option (token_type_t × String × Nat)) (h : lexer_operator lex ',' = res) :
    ∃ cs r, lex.rest = cs ++ r ∧ cs.length ≤ 2 ∧ (∀ x ∈ cs, x.toNat ≤ 127) ∧
      res.1 = lexer_read lex cs ∧
      (res.2 = none ∨
        ∃ ty text, res.2 = some (ty, text, text.length) ∧
          (ty, text) ∈ operator_table ∧
          (ty ≠ TOKEN_ARROW → text.data <+: ',' :: cs) ∧
          (ty = TOKEN_ARROW → ',' = '-' ∧ cs = ['>'])) := by
  unfold lexer_operator at h
  rw [if_neg (show ¬ (',' = '+') by decide)] at h
  rw [if_neg (show ¬ (',' = '-') by decide)] at h
  rw [if_neg (show ¬ (',' = '*') by decide)] at h
  rw [if_neg (show ¬ (',' = '/') by decide)] at h
  rw [if_neg (show ¬ (',' = '%') by decide)] at h
  rw [if_neg (show ¬ (',' = '&') by decide)] at h
  rw [if_neg (show ¬ (',' = '|') by decide)] at h
  rw [if_neg (show ¬ (',' = '^') by decide)] at h
  rw [if_neg (show ¬ (',' = '~') by decide)] at h
  rw [if_neg (show ¬ (',' = '<') by decide)] at h
  rw [if_neg (show ¬ (',' = '>') by decide)] at h
  rw [if_neg (show ¬ (',' = '=') by decide)] at h
  rw [if_neg (show ¬ (',' = '!') by decide)] at h
  rw [if_neg (show ¬ (',' = '(') by decide)] at h
  rw [if_neg (show ¬ (',' = ')') by decide)] at h
  rw [if_neg (show ¬ (',' = '\x7b') by decide)] at h
  rw [if_neg (show ¬ (',' = '\x7d') by decide)] at h
  rw [if_neg (show ¬ (',' = '[') by decide)] at h
  rw [if_neg (show ¬ (',' = ']') by decide)] at h
  rw [if_neg (show ¬ (',' = '.') by decide)] at h
  rw [if_pos (rfl : ',' = ',')] at h
  subst h
  exact ⟨[], lex.rest, rfl, by decide, by decide, (lexer_read_nil lex).symm,
    Or.inr ⟨_, _, rfl, by decide, fun _ => ⟨[], rfl⟩, fun h => by cases h⟩⟩

theorem lexer_operator_spec_semicolon (lex : lexer_t)
    (res : lexer_t × Option (token_type_t × String × Nat)) (h : lexer_operator lex ';' = res) :
    ∃ cs r, lex.rest = cs ++ r ∧ cs.length ≤ 2 ∧ (∀ x ∈ cs, x.toNat ≤ 127) ∧
      res.1 = lexer_read lex cs ∧
      (res.2 = none ∨
        ∃ ty text, res.2 = some (ty, text, text.length) ∧
          (ty, text) ∈ operator_table ∧
          (ty ≠ TOKEN_ARROW → text.data <+: ';' :: cs) ∧
          (ty = TOKEN_ARROW → ';' = '-' ∧ cs = ['>'])) := by
  unfold lexer_operator at h
  rw [if_neg (show ¬ (';' = '+') by decide)] at h
  rw [if_neg (show ¬ (';' = '-') by decide)] at h
  rw [if_neg (show ¬ (';' = '*') by decide)] at h
  rw [if_neg (show ¬ (';' = '/') by decide)] at h
  rw [if_neg (show ¬ (';' = '%') by decide)] at h
  rw [if_neg (show ¬ (';' = '&') by decide)] at h
  rw [if_neg (show ¬ (';' = '|') by decide)] at h
  rw [if_neg (show ¬ (';' = '^') by decide)] at h
  rw [if_neg (show ¬ (';' = '~') by decide)] at h
  rw [if_neg (show ¬ (';' = '<') by decide)] at h
  rw [if_neg (show ¬ (';' = '>') by decide)] at h
  rw [if_neg (show ¬ (';' = '=') by decide)] at h
  rw [if_neg (show ¬ (';' = '!') by decide)] at h
  rw [if_neg (show ¬ (';' = '(') by decide)] at h
  rw [if_neg (show ¬ (';' = ')') by decide)] at h
  rw [if_neg (show ¬ (';' = '\x7b') by decide)] at h
  rw [if_neg (show ¬ (';' = '\x7d') by decide)] at h
  rw [if_neg (show ¬ (';' = '[') by decide)] at h
  rw [if_neg (show ¬ (';' = ']') by decide)] at h
  rw [if_neg (show ¬ (';' = '.') by decide)] at h
  rw [if_neg (show ¬ (';' = ',') by decide)] at h
  rw [if_pos (rfl : ';' = ';')] at h
  subst h
  exact ⟨[], lex.rest, rfl, by decide, by decide, (lexer_read_nil lex).symm,
    Or.inr ⟨_, _, rfl, by decide, fun _ => ⟨[], rfl⟩, fun h => by cases h⟩⟩

theorem lexer_operator_spec_colon (lex : lexer_t)
    (res : lexer_t × Option (token_type_t × String × Nat)) (h : lexer_operator lex ':' = res) :
    ∃ cs r, lex.rest = cs ++ r ∧ cs.length ≤ 2 ∧ (∀ x ∈ cs, x.toNat ≤ 127) ∧
      res.1 = lexer_read lex cs ∧
      (res.2 = none ∨
        ∃ ty text, res.2 = some (ty, text, text.length) ∧
          (ty, text) ∈ operator_table ∧
          (ty ≠ TOKEN_ARROW → text.data <+: ':' :: cs) ∧
          (ty = TOKEN_ARROW → ':' = '-' ∧ cs = ['>'])) := by
  unfold lexer_operator at h
  rw [if_neg (show ¬ (':' = '+') by decide)] at h
  rw [if_neg (show ¬ (':' = '-') by decide)] at h
  rw [if_neg (show ¬ (':' = '*') by decide)] at h
  rw [if_neg (show ¬ (':' = '/') by decide)] at h
  rw [if_neg (show ¬ (':' = '%') by decide)] at h
  rw [if_neg (show ¬ (':' = '&') by decide)] at h
  rw [if_neg (show ¬ (':' = '|') by decide)] at h
  rw [if_neg (show ¬ (':' = '^') by decide)] at h
  rw [if_neg (show ¬ (':' = '~') by decide)] at h
  rw [if_neg (show ¬ (':' = '<') by decide)] at h
  rw [if_neg (show ¬ (':' = '>') by decide)] at h
  rw [if_neg (show ¬ (':' = '=') by decide)] at h
  rw [if_neg (show ¬ (':' = '!') by decide)] at h
  rw [if_neg (show ¬ (':' = '(') by decide)] at h
  rw [if_neg (show ¬ (':' = ')') by decide)] at h
  rw [if_neg (show ¬ (':' = '\x7b') by decide)] at h
  rw [if_neg (show ¬ (':' = '\x7d') by decide)] at h
  rw [if_neg (show ¬ (':' = '[') by decide)] at h
  rw [if_neg (show ¬ (':' = ']') by decide)] at h
  rw [if_neg (show ¬ (':' = '.') by decide)] at h
  rw [if_neg (show ¬ (':' = ',') by decide)] at h
  rw [if_neg (show ¬ (':' = ';') by decide)] at h
  rw [if_pos (rfl : ':' = ':')] at h
  subst h
  exact ⟨[], lex.rest, rfl, by decide, by decide, (lexer_read_nil lex).symm,
    Or.inr ⟨_, _, rfl, by decide, fun _ => ⟨[], rfl⟩, fun h => by cases h⟩⟩

theorem lexer_operator_spec_question (lex : lexer_t)
    (res : lexer_t × Option (token_type_t × String × Nat)) (h : lexer_operator lex '?' = res) :
    ∃ cs r, lex.rest = cs ++ r ∧ cs.length ≤ 2 ∧ (∀ x ∈ cs, x.toNat ≤ 127) ∧
      res.1 = lexer_read lex cs ∧
      (res.2 = none ∨
        ∃ ty text, res.2 = some (ty, text, text.length) ∧
          (ty, text) ∈ operator_table ∧
          (ty ≠ TOKEN_ARROW → text.data <+: '?' :: cs) ∧
          (ty = TOKEN_ARROW → '?' = '-' ∧ cs = ['>'])) := by
  unfold lexer_operator at h
  rw [if_neg (show ¬ ('?' = '+') by decide)] at h
  rw [if_neg (show ¬ ('?' = '-') by decide)] at h
  rw [if_neg (show ¬ ('?' = '*') by decide)] at h
  rw [if_neg (show ¬ ('?' = '/') by decide)] at h
  rw [if_neg (show ¬ ('?' = '%') by decide)] at h
  rw [if_neg (show ¬ ('?' = '&') by decide)] at h
  rw [if_neg (show ¬ ('?' = '|') by decide)] at h
  rw [if_neg (show ¬ ('?' = '^') by decide)] at h
  rw [if_neg (show ¬ ('?' = '~') by decide)] at h
  rw [if_neg (show ¬ ('?' = '<') by decide)] at h
  rw [if_neg (show ¬ ('?' = '>') by decide)] at h
  rw [if_neg (show ¬ ('?' = '=') by decide)] at h
  rw [if_neg (show ¬ ('?' = '!') by decide)] at h
  rw [if_neg (show ¬ ('?' = '(') by decide)] at h
  rw [if_neg (show ¬ ('?' = ')') by decide)] at h
  rw [if_neg (show ¬ ('?' = '\x7b') by decide)] at h
  rw [if_neg (show ¬ ('?' = '\x7d') by decide)] at h
  rw [if_neg (show ¬ ('?' = '[') by decide)] at h
  rw [if_neg (show ¬ ('?' = ']') by decide)] at h
  rw [if_neg (show ¬ ('?' = '.') by decide)] at h
  rw [if_neg (show ¬ ('?' = ',') by decide)] at h
  rw [if_neg (show ¬ ('?' = ';') by decide)] at h
  rw [if_neg (show ¬ ('?' = ':') by decide)] at h
  rw [if_pos (rfl : '?' = '?')] at h
  subst h
  exact ⟨[], lex.rest, rfl, by decide, by decide, (lexer_read_nil lex).symm,
    Or.inr ⟨_, _, rfl, by decide, fun _ => ⟨[], rfl⟩, fun h => by cases h⟩⟩

/-- What the `switch` over operators reads and gives: at most two more
characters, all of them ASCII, and a type and text of `operator_table`. -/
theorem lexer_operator_spec (c : Char) (lex : lexer_t)
    (res : lexer_t × Option (token_type_t × String × Nat)) (h : lexer_operator lex c = res) :
    ∃ cs r, lex.rest = cs ++ r ∧ cs.length ≤ 2 ∧ (∀ x ∈ cs, x.toNat ≤ 127) ∧
      res.1 = lexer_read lex cs ∧
      (res.2 = none ∨
        ∃ ty text, res.2 = some (ty, text, text.length) ∧
          (ty, text) ∈ operator_table ∧
          (ty ≠ TOKEN_ARROW → text.data <+: c :: cs) ∧
          (ty = TOKEN_ARROW → c = '-' ∧ cs = ['>'])) := by
  by_cases h0 : c = '+'
  · subst h0; exact lexer_operator_spec_plus lex res h
  by_cases h1 : c = '-'
  · subst h1; exact lexer_operator_spec_minus lex res h
  by_cases h2 : c = '*'
  · subst h2; exact lexer_operator_spec_star lex res h
  by_cases h3 : c = '/'
  · subst h3; exact lexer_operator_spec_slash lex res h
  by_cases h4 : c = '%'
  · subst h4; exact lexer_operator_spec_percent lex res h
  by_cases h5 : c = '&'
  · subst h5; exact lexer_operator_spec_ampersand lex res h
  by_cases h6 : c = '|'
  · subst h6; exact lexer_operator_spec_pipe lex res h
  by_cases h7 : c = '^'
  · subst h7; exact lexer_operator_spec_caret lex res h
  by_cases h8 : c = '~'
  · subst h8; exact lexer_operator_spec_tilde lex res h
  by_cases h9 : c = '<'
  · subst h9; exact lexer_operator_spec_less lex res h
  by_cases h10 : c = '>'
  · subst h10; exact lexer_operator_spec_greater lex res h
  by_cases h11 : c = '='
  · subst h11; exact lexer_operator_spec_equal lex res h
  by_cases h12 : c = '!'
  · subst h12; exact lexer_operator_spec_bang lex res h
  by_cases h13 : c = '('
  · subst h13; exact lexer_operator_spec_left_paren lex res h
  by_cases h14 : c = ')'
  · subst h14; exact lexer_operator_spec_right_paren lex res h
  by_cases h15 : c = '\x7b'
  · subst h15; exact lexer_operator_spec_left_brace lex res h
  by_cases h16 : c = '\x7d'
  · subst h16; exact lexer_operator_spec_right_brace lex res h
  by_cases h17 : c = '['
  · subst h17; exact lexer_operator_spec_left_bracket lex res h
  by_cases h18 : c = ']'
  · subst h18; exact lexer_operator_spec_right_bracket lex res h
  by_cases h19 : c = '.'
  · subst h19; exact lexer_operator_spec_dot lex res h
  by_cases h20 : c = ','
  · subst h20; exact lexer_operator_spec_comma lex res h
  by_cases h21 : c = ';'
  · subst h21; exact lexer_operator_spec_semicolon lex res h
  by_cases h22 : c = ':'
  · subst h22; exact lexer_operator_spec_colon lex res h
  by_cases h23 : c = '?'
  · subst h23; exact lexer_operator_spec_question lex res h
  unfold lexer_operator at h
  rw [if_neg h0, if_neg h1, if_neg h2, if_neg h3, if_neg h4, if_neg h5, if_neg h6, if_neg h7, if_neg h8, if_neg h9, if_neg h10, if_neg h11, if_neg h12, if_neg h13, if_neg h14, if_neg h15, if_neg h16, if_neg h17, if_neg h18, if_neg h19, if_neg h20, if_neg h21, if_neg h22, if_neg h23] at h
  subst h
  exact ⟨[], lex.rest, rfl, by decide, by decide, (lexer_read_nil lex).symm, Or.inl rfl⟩

/-! ## The lexer: each operator, read forward -/

theorem lexer_match_hit (lex : lexer_t) (e : Char) (r : List Char) (h : lex.rest = e :: r)
    (he : ¬ e.toNat > 127) : lexer_match lex e = (true, lexer_read lex [e]) := by
  unfold lexer_match
  rw [lexer_peek_of_cons lex e r h, if_pos rfl, lexer_advance_of_cons lex e r h, if_neg he]

theorem lexer_match_miss (lex : lexer_t) (e : Char) (h : lex.rest.headD '\x00' ≠ e) :
    lexer_match lex e = (false, lex) := by
  unfold lexer_match
  rw [lexer_peek_eq, if_neg h]

theorem headD_space (tail : List Char) (ht : tail = [] ∨ ∃ t, tail = ' ' :: t) (e : Char)
    (h0 : e ≠ '\x00') (h1 : e ≠ ' ') : tail.headD '\x00' ≠ e := by
  rcases ht with rfl | ⟨t, rfl⟩
  · exact fun h => h0 h.symm
  · exact fun h => h1 h.symm

theorem lexer_rest_read_cons (lex : lexer_t) (e : Char) (r : List Char) (h : lex.rest = e :: r) :
    (lexer_read lex [e]).rest = r := lexer_rest_read lex [e] r h

theorem lexer_operator_plus_plus (lex : lexer_t) (tail : List Char)
    (h : lex.rest = '+' :: tail) (ht : tail = [] ∨ ∃ t, tail = ' ' :: t) :
    lexer_operator lex '+' = (lexer_read lex ['+'], some (TOKEN_PLUS_PLUS, "++", 2)) := by
  generalize hres : lexer_operator lex '+' = res
  unfold lexer_operator at hres
  rw [if_pos (rfl : '+' = '+')] at hres
  have hs0 : lex.rest = '+' :: tail := h
  rw [lexer_match_hit (lex) '+' (tail) hs0 (by decide)] at hres
  dsimp only at hres
  rw [if_pos rfl] at hres
  have hs1 : (lexer_read lex ['+']).rest = tail := lexer_rest_read_cons (lex) '+' _ hs0
  rw [← hres]

theorem lexer_operator_plus_equal (lex : lexer_t) (tail : List Char)
    (h : lex.rest = '=' :: tail) (ht : tail = [] ∨ ∃ t, tail = ' ' :: t) :
    lexer_operator lex '+' = (lexer_read lex ['='], some (TOKEN_PLUS_EQUAL, "+=", 2)) := by
  generalize hres : lexer_operator lex '+' = res
  unfold lexer_operator at hres
  rw [if_pos (rfl : '+' = '+')] at hres
  have hs0 : lex.rest = '=' :: tail := h
  rw [lexer_match_miss (lex) '+' (by rw [hs0]; exact (by decide : ('=' : Char) ≠ '+'))] at hres
  dsimp only at hres
  rw [if_neg Bool.false_ne_true] at hres
  rw [lexer_match_hit (lex) '=' (tail) hs0 (by decide)] at hres
  dsimp only at hres
  rw [if_pos rfl] at hres
  have hs1 : (lexer_read lex ['=']).rest = tail := lexer_rest_read_cons (lex) '=' _ hs0
  rw [← hres]

theorem lexer_operator_plus (lex : lexer_t) (tail : List Char)
    (h : lex.rest = tail) (ht : tail = [] ∨ ∃ t, tail = ' ' :: t) :
    lexer_operator lex '+' = (lexer_read lex [], some (TOKEN_PLUS, "+", 1)) := by
  generalize hres : lexer_operator lex '+' = res
  unfold lexer_operator at hres
  rw [if_pos (rfl : '+' = '+')] at hres
  have hs0 : lex.rest = tail := h
  rw [lexer_match_miss (lex) '+' (by rw [hs0]; exact headD_space tail ht '+' (by decide) (by decide))] at hres
  dsimp only at hres
  rw [if_neg Bool.false_ne_true] at hres
  rw [lexer_match_miss (lex) '=' (by rw [hs0]; exact headD_space tail ht '=' (by decide) (by decide))] at hres
  dsimp only at hres
  rw [if_neg Bool.false_ne_true] at hres
  rw [← hres]
  rw [lexer_read_nil]

theorem lexer_operator_minus_minus (lex : lexer_t) (tail : List Char)
    (h : lex.rest = '-' :: tail) (ht : tail = [] ∨ ∃ t, tail = ' ' :: t) :
    lexer_operator lex '-' = (lexer_read lex ['-'], some (TOKEN_MINUS_MINUS, "--", 2)) := by
  generalize hres : lexer_operator lex '-' = res
  unfold lexer_operator at hres
  rw [if_neg (show ¬ ('-' = '+') by decide)] at hres
  rw [if_pos (rfl : '-' = '-')] at hres
  have hs0 : lex.rest = '-' :: tail := h
  rw [lexer_match_hit (lex) '-' (tail) hs0 (by decide)] at hres
  dsimp only at hres
  rw [if_pos rfl] at hres
  have hs1 : (lexer_read lex ['-']).rest = tail := lexer_rest_read_cons (lex) '-' _ hs0
  rw [← hres]

theorem lexer_operator_minus_equal (lex : lexer_t) (tail : List Char)
    (h : lex.rest = '=' :: tail) (ht : tail = [] ∨ ∃ t, tail = ' ' :: t) :
    lexer_operator lex '-' = (lexer_read lex ['='], some (TOKEN_MINUS_EQUAL, "-=", 2)) := by
  generalize hres : lexer_operator lex '-' = res
  unfold lexer_operator at hres
  rw [if_neg (show ¬ ('-' = '+') by decide)] at hres
  rw [if_pos (rfl : '-' = '-')] at hres
  have hs0 : lex.rest = '=' :: tail := h
  rw [lexer_match_miss (lex) '-' (by rw [hs0]; exact (by decide : ('=' : Char) ≠ '-'))] at hres
  dsimp only at hres
  rw [if_neg Bool.false_ne_true] at hres
  rw [lexer_match_hit (lex) '=' (tail) hs0 (by decide)] at hres
  dsimp only at hres
  rw [if_pos rfl] at hres
  have hs1 : (lexer_read lex ['=']).rest = tail := lexer_rest_read_cons (lex) '=' _ hs0
  rw [← hres]

theorem lexer_operator_minus (lex : lexer_t) (tail : List Char)
    (h : lex.rest = tail) (ht : tail = [] ∨ ∃ t, tail = ' ' :: t) :
    lexer_operator lex '-' = (lexer_read lex [], some (TOKEN_MINUS, "-", 1)) := by
  generalize hres : lexer_operator lex '-' = res
  unfold lexer_operator at hres
  rw [if_neg (show ¬ ('-' = '+') by decide)] at hres
  rw [if_pos (rfl : '-' = '-')] at hres
  have hs0 : lex.rest = tail := h
  rw [lexer_match_miss (lex) '-' (by rw [hs0]; exact headD_space tail ht '-' (by decide) (by decide))] at hres
  dsimp only at hres
  rw [if_neg Bool.false_ne_true] at hres
  rw [lexer_match_miss (lex) '=' (by rw [hs0]; exact headD_space tail ht '=' (by decide) (by decide))] at hres
  dsimp only at hres
  rw [if_neg Bool.false_ne_true] at hres
  rw [lexer_match_miss (lex) '>' (by rw [hs0]; exact headD_space tail ht '>' (by decide) (by decide))] at hres
  dsimp only at hres
  rw [if_neg Bool.false_ne_true] at hres
  rw [← hres]
  rw [lexer_read_nil]

theorem lexer_operator_star_star_equal (lex : lexer_t) (tail : List Char)
    (h : lex.rest = '*' :: '=' :: tail) (ht : tail = [] ∨ ∃ t, tail = ' ' :: t) :
    lexer_operator lex '*' = (lexer_read lex ['*', '='], some (TOKEN_STAR_STAR_EQUAL, "**=", 3)) := by
  generalize hres : lexer_operator lex '*' = res
  unfold lexer_operator at hres
  rw [if_neg (show ¬ ('*' = '+') by decide)] at hres
  rw [if_neg (show ¬ ('*' = '-') by decide)] at hres
  rw [if_pos (rfl : '*' = '*')] at hres
  have hs0 : lex.rest = '*' :: '=' :: tail := h
  rw [lexer_match_hit (lex) '*' ('=' :: tail) hs0 (by decide)] at hres
  dsimp only at hres
  rw [if_pos rfl] at hres
  have hs1 : (lexer_read lex ['*']).rest = '=' :: tail := lexer_rest_read_cons (lex) '*' _ hs0
  rw [lexer_match_hit (lexer_read lex ['*']) '=' (tail) hs1 (by decide)] at hres
  dsimp only at hres
  rw [if_pos rfl] at hres
  have hs2 : (lexer_read (lexer_read lex ['*']) ['=']).rest = tail := lexer_rest_read_cons (lexer_read lex ['*']) '=' _ hs1
  rw [← hres]
  rw [lexer_read_append]
  rfl

theorem lexer_operator_star_star (lex : lexer_t) (tail : List Char)
    (h : lex.rest = '*' :: tail) (ht : tail = [] ∨ ∃ t, tail = ' ' :: t) :
    lexer_operator lex '*' = (lexer_read lex ['*'], some (TOKEN_STAR_STAR, "**", 2)) := by
  generalize hres : lexer_operator lex '*' = res
  unfold lexer_operator at hres
  rw [if_neg (show ¬ ('*' = '+') by decide)] at hres
  rw [if_neg (show ¬ ('*' = '-') by decide)] at hres
  rw [if_pos (rfl : '*' = '*')] at hres
  have hs0 : lex.rest = '*' :: tail := h
  rw [lexer_match_hit (lex) '*' (tail) hs0 (by decide)] at hres
  dsimp only at hres
  rw [if_pos rfl] at hres
  have hs1 : (lexer_read lex ['*']).rest = tail := lexer_rest_read_cons (lex) '*' _ hs0
  rw [lexer_match_miss (lexer_read lex ['*']) '=' (by rw [hs1]; exact headD_space tail ht '=' (by decide) (by decide))] at hres
  dsimp only at hres
  rw [if_neg Bool.false_ne_true] at hres
  rw [← hres]

theorem lexer_operator_star_equal (lex : lexer_t) (tail : List Char)
    (h : lex.rest = '=' :: tail) (ht : tail = [] ∨ ∃ t, tail = ' ' :: t) :
    lexer_operator lex '*' = (lexer_read lex ['='], some (TOKEN_STAR_EQUAL, "*=", 2)) := by
  generalize hres : lexer_operator lex '*' = res
  unfold lexer_operator at hres
  rw [if_neg (show ¬ ('*' = '+') by decide)] at hres
  rw [if_neg (show ¬ ('*' = '-') by decide)] at hres
  rw [if_pos (rfl : '*' = '*')] at hres
  have hs0 : lex.rest = '=' :: tail := h
  rw [lexer_match_miss (lex) '*' (by rw [hs0]; exact (by decide : ('=' : Char) ≠ '*'))] at hres
  dsimp only at hres
  rw [if_neg Bool.false_ne_true] at hres
  rw [lexer_match_hit (lex) '=' (tail) hs0 (by decide)] at hres
  dsimp only at hres
  rw [if_pos rfl] at hres
  have hs1 : (lexer_read lex ['=']).rest = tail := lexer_rest_read_cons (lex) '=' _ hs0
  rw [← hres]

theorem lexer_operator_star (lex : lexer_t) (tail : List Char)
    (h : lex.rest = tail) (ht : tail = [] ∨ ∃ t, tail = ' ' :: t) :
    lexer_operator lex '*' = (lexer_read lex [], some (TOKEN_STAR, "*", 1)) := by
  generalize hres : lexer_operator lex '*' = res
  unfold lexer_operator at hres
  rw [if_neg (show ¬ ('*' = '+') by decide)] at hres
  rw [if_neg (show ¬ ('*' = '-') by decide)] at hres
  rw [if_pos (rfl : '*' = '*')] at hres
  have hs0 : lex.rest = tail := h
  rw [lexer_match_miss (lex) '*' (by rw [hs0]; exact headD_space tail ht '*' (by decide) (by decide))] at hres
  dsimp only at hres
  rw [if_neg Bool.false_ne_true] at hres
  rw [lexer_match_miss (lex) '=' (by rw [hs0]; exact headD_space tail ht '=' (by decide) (by decide))] at hres
  dsimp only at hres
  rw [if_neg Bool.false_ne_true] at hres
  rw [← hres]
  rw [lexer_read_nil]

theorem lexer_operator_slash_equal (lex : lexer_t) (tail : List Char)
    (h : lex.rest = '=' :: tail) (ht : tail = [] ∨ ∃ t, tail = ' ' :: t) :
    lexer_operator lex '/' = (lexer_read lex ['='], some (TOKEN_SLASH_EQUAL, "/=", 2)) := by
  generalize hres : lexer_operator lex '/' = res
  unfold lexer_operator at hres
  rw [if_neg (show ¬ ('/' = '+') by decide)] at hres
  rw [if_neg (show ¬ ('/' = '-') by decide)] at hres
  rw [if_neg (show ¬ ('/' = '*') by decide)] at hres
  rw [if_pos (rfl : '/' = '/')] at hres
  have hs0 : lex.rest = '=' :: tail := h
  rw [lexer_match_hit (lex) '=' (tail) hs0 (by decide)] at hres
  dsimp only at hres
  rw [if_pos rfl] at hres
  have hs1 : (lexer_read lex ['=']).rest = tail := lexer_rest_read_cons (lex) '=' _ hs0
  rw [← hres]

theorem lexer_operator_slash (lex : lexer_t) (tail : List Char)
    (h : lex.rest = tail) (ht : tail = [] ∨ ∃ t, tail = ' ' :: t) :
    lexer_operator lex '/' = (lexer_read lex [], some (TOKEN_SLASH, "/", 1)) := by
  generalize hres : lexer_operator lex '/' = res
  unfold lexer_operator at hres
  rw [if_neg (show ¬ ('/' = '+') by decide)] at hres
  rw [if_neg (show ¬ ('/' = '-') by decide)] at hres
  rw [if_neg (show ¬ ('/' = '*') by decide)] at hres
  rw [if_pos (rfl : '/' = '/')] at hres
  have hs0 : lex.rest = tail := h
  rw [lexer_match_miss (lex) '=' (by rw [hs0]; exact headD_space tail ht '=' (by decide) (by decide))] at hres
  dsimp only at hres
  rw [if_neg Bool.false_ne_true] at hres
  rw [← hres]
  rw [lexer_read_nil]

theorem lexer_operator_percent_equal (lex : lexer_t) (tail : List Char)
    (h : lex.rest = '=' :: tail) (ht : tail = [] ∨ ∃ t, tail = ' ' :: t) :
    lexer_operator lex '%' = (lexer_read lex ['='], some (TOKEN_PERCENT_EQUAL, "%=", 2)) := by
  generalize hres : lexer_operator lex '%' = res
  unfold lexer_operator at hres
  rw [if_neg (show ¬ ('%' = '+') by decide)] at hres
  rw [if_neg (show ¬ ('%' = '-') by decide)] at hres
  rw [if_neg (show ¬ ('%' = '*') by decide)] at hres
  rw [if_neg (show ¬ ('%' = '/') by decide)] at hres
  rw [if_pos (rfl : '%' = '%')] at hres
  have hs0 : lex.rest = '=' :: tail := h
  rw [lexer_match_hit (lex) '=' (tail) hs0 (by decide)] at hres
  dsimp only at hres
  rw [if_pos rfl] at hres
  have hs1 : (lexer_read lex ['=']).rest = tail := lexer_rest_read_cons (lex) '=' _ hs0
  rw [← hres]

theorem lexer_operator_percent (lex : lexer_t) (tail : List Char)
    (h : lex.rest = tail) (ht : tail = [] ∨ ∃ t, tail = ' ' :: t) :
    lexer_operator lex '%' = (lexer_read lex [], some (TOKEN_PERCENT, "%", 1)) := by
  generalize hres : lexer_operator lex '%' = res
  unfold lexer_operator at hres
  rw [if_neg (show ¬ ('%' = '+') by decide)] at hres
  rw [if_neg (show ¬ ('%' = '-') by decide)] at hres
  rw [if_neg (show ¬ ('%' = '*') by decide)] at hres
  rw [if_neg (show ¬ ('%' = '/') by decide)] at hres
  rw [if_pos (rfl : '%' = '%')] at hres
  have hs0 : lex.rest = tail := h
  rw [lexer_match_miss (lex) '=' (by rw [hs0]; exact headD_space tail ht '=' (by decide) (by decide))] at hres
  dsimp only at hres
  rw [if_neg Bool.false_ne_true] at hres
  rw [← hres]
  rw [lexer_read_nil]

theorem lexer_operator_logical_and_equal (lex : lexer_t) (tail : List Char)
    (h : lex.rest = '&' :: '=' :: tail) (ht : tail = [] ∨ ∃ t, tail = ' ' :: t) :
    lexer_operator lex '&' = (lexer_read lex ['&', '='], some (TOKEN_LOGICAL_AND_EQUAL, "&&=", 3)) := by
  generalize hres : lexer_operator lex '&' = res
  unfold lexer_operator at hres
  rw [if_neg (show ¬ ('&' = '+') by decide)] at hres
  rw [if_neg (show ¬ ('&' = '-') by decide)] at hres
  rw [if_neg (show ¬ ('&' = '*') by decide)] at hres
  rw [if_neg (show ¬ ('&' = '/') by decide)] at hres
  rw [if_neg (show ¬ ('&' = '%') by decide)] at hres
  rw [if_pos (rfl : '&' = '&')] at hres
  have hs0 : lex.rest = '&' :: '=' :: tail := h
  rw [lexer_match_hit (lex) '&' ('=' :: tail) hs0 (by decide)] at hres
  dsimp only at hres
  rw [if_pos rfl] at hres
  have hs1 : (lexer_read lex ['&']).rest = '=' :: tail := lexer_rest_read_cons (lex) '&' _ hs0
  rw [lexer_match_hit (lexer_read lex ['&']) '=' (tail) hs1 (by decide)] at hres
  dsimp only at hres
  rw [if_pos rfl] at hres
  have hs2 : (lexer_read (lexer_read lex ['&']) ['=']).rest = tail := lexer_rest_read_cons (lexer_read lex ['&']) '=' _ hs1
  rw [← hres]
  rw [lexer_read_append]
  rfl

theorem lexer_operator_logical_and (lex : lexer_t) (tail : List Char)
    (h : lex.rest = '&' :: tail) (ht : tail = [] ∨ ∃ t, tail = ' ' :: t) :
    lexer_operator lex '&' = (lexer_read lex ['&'], some (TOKEN_LOGICAL_AND, "&&", 2)) := by
  generalize hres : lexer_operator lex '&' = res
  unfold lexer_operator at hres
  rw [if_neg (show ¬ ('&' = '+') by decide)] at hres
  rw [if_neg (show ¬ ('&' = '-') by decide)] at hres
  rw [if_neg (show ¬ ('&' = '*') by decide)] at hres
  rw [if_neg (show ¬ ('&' = '/') by decide)] at hres
  rw [if_neg (show ¬ ('&' = '%') by decide)] at hres
  rw [if_pos (rfl : '&' = '&')] at hres
  have hs0 : lex.rest = '&' :: tail := h
  rw [lexer_match_hit (lex) '&' (tail) hs0 (by decide)] at hres
  dsimp only at hres
  rw [if_pos rfl] at hres
  have hs1 : (lexer_read lex ['&']).rest = tail := lexer_rest_read_cons (lex) '&' _ hs0
  rw [lexer_match_miss (lexer_read lex ['&']) '=' (by rw [hs1]; exact headD_space tail ht '=' (by decide) (by decide))] at hres
  dsimp only at hres
  rw [if_neg Bool.false_ne_true] at hres
  rw [← hres]

theorem lexer_operator_ampersand_equal (lex : lexer_t) (tail : List Char)
    (h : lex.rest = '=' :: tail) (ht : tail = [] ∨ ∃ t, tail = ' ' :: t) :
    lexer_operator lex '&' = (lexer_read lex ['='], some (TOKEN_AMPERSAND_EQUAL, "&=", 2)) := by
  generalize hres : lexer_operator lex '&' = res
  unfold lexer_operator at hres
  rw [if_neg (show ¬ ('&' = '+') by decide)] at hres
  rw [if_neg (show ¬ ('&' = '-') by decide)] at hres
  rw [if_neg (show ¬ ('&' = '*') by decide)] at hres
  rw [if_neg (show ¬ ('&' = '/') by decide)] at hres
  rw [if_neg (show ¬ ('&' = '%') by decide)] at hres
  rw [if_pos (rfl : '&' = '&')] at hres
  have hs0 : lex.rest = '=' :: tail := h
  rw [lexer_match_miss (lex) '&' (by rw [hs0]; exact (by decide : ('=' : Char) ≠ '&'))] at hres
  dsimp only at hres
  rw [if_neg Bool.false_ne_true] at hres
  rw [lexer_match_hit (lex) '=' (tail) hs0 (by decide)] at hres
  dsimp only at hres
  rw [if_pos rfl] at hres
  have hs1 : (lexer_read lex ['=']).rest = tail := lexer_rest_read_cons (lex) '=' _ hs0
  rw [← hres]

theorem lexer_operator_ampersand (lex : lexer_t) (tail : List Char)
    (h : lex.rest = tail) (ht : tail = [] ∨ ∃ t, tail = ' ' :: t) :
    lexer_operator lex '&' = (lexer_read lex [], some (TOKEN_AMPERSAND, "&", 1)) := by
  generalize hres : lexer_operator lex '&' = res
  unfold lexer_operator at hres
  rw [if_neg (show ¬ ('&' = '+') by decide)] at hres
  rw [if_neg (show ¬ ('&' = '-') by decide)] at hres
  rw [if_neg (show ¬ ('&' = '*') by decide)] at hres
  rw [if_neg (show ¬ ('&' = '/') by decide)] at hres
  rw [if_neg (show ¬ ('&' = '%') by decide)] at hres
  rw [if_pos (rfl : '&' = '&')] at hres
  have hs0 : lex.rest = tail := h
  rw [lexer_match_miss (lex) '&' (by rw [hs0]; exact headD_space tail ht '&' (by decide) (by decide))] at hres
  dsimp only at hres
  rw [if_neg Bool.false_ne_true] at hres
  rw [lexer_match_miss (lex) '=' (by rw [hs0]; exact headD_space tail ht '=' (by decide) (by decide))] at hres
  dsimp only at hres
  rw [if_neg Bool.false_ne_true] at hres
  rw [← hres]
  rw [lexer_read_nil]

theorem lexer_operator_logical_or_equal (lex : lexer_t) (tail : List Char)
    (h : lex.rest = '|' :: '=' :: tail) (ht : tail = [] ∨ ∃ t, tail = ' ' :: t) :
    lexer_operator lex '|' = (lexer_read lex ['|', '='], some (TOKEN_LOGICAL_OR_EQUAL, "||=", 3)) := by
  generalize hres : lexer_operator lex '|' = res
  unfold lexer_operator at hres
  rw [if_neg (show ¬ ('|' = '+') by decide)] at hres
  rw [if_neg (show ¬ ('|' = '-') by decide)] at hres
  rw [if_neg (show ¬ ('|' = '*') by decide)] at hres
  rw [if_neg (show ¬ ('|' = '/') by decide)] at hres
  rw [if_neg (show ¬ ('|' = '%') by decide)] at hres
  rw [if_neg (show ¬ ('|' = '&') by decide)] at hres
  rw [if_pos (rfl : '|' = '|')] at hres
  have hs0 : lex.rest = '|' :: '=' :: tail := h
  rw [lexer_match_hit (lex) '|' ('=' :: tail) hs0 (by decide)] at hres
  dsimp only at hres
  rw [if_pos rfl] at hres
  have hs1 : (lexer_read lex ['|']).rest = '=' :: tail := lexer_rest_read_cons (lex) '|' _ hs0
  rw [lexer_match_hit (lexer_read lex ['|']) '=' (tail) hs1 (by decide)] at hres
  dsimp only at hres
  rw [if_pos rfl] at hres
  have hs2 : (lexer_read (lexer_read lex ['|']) ['=']).rest = tail := lexer_rest_read_cons (lexer_read lex ['|']) '=' _ hs1
  rw [← hres]
  rw [lexer_read_append]
  rfl

theorem lexer_operator_logical_or (lex : lexer_t) (tail : List Char)
    (h : lex.rest = '|' :: tail) (ht : tail = [] ∨ ∃ t, tail = ' ' :: t) :
    lexer_operator lex '|' = (lexer_read lex ['|'], some (TOKEN_LOGICAL_OR, "||", 2)) := by
  generalize hres : lexer_operator lex '|' = res
  unfold lexer_operator at hres
  rw [if_neg (show ¬ ('|' = '+') by decide)] at hres
  rw [if_neg (show ¬ ('|' = '-') by decide)] at hres
  rw [if_neg (show ¬ ('|' = '*') by decide)] at hres
  rw [if_neg (show ¬ ('|' = '/') by decide)] at hres
  rw [if_neg (show ¬ ('|' = '%') by decide)] at hres
  rw [if_neg (show ¬ ('|' = '&') by decide)] at hres
  rw [if_pos (rfl : '|' = '|')] at hres
  have hs0 : lex.rest = '|' :: tail := h
  rw [lexer_match_hit (lex) '|' (tail) hs0 (by decide)] at hres
  dsimp only at hres
  rw [if_pos rfl] at hres
  have hs1 : (lexer_read lex ['|']).rest = tail := lexer_rest_read_cons (lex) '|' _ hs0
  rw [lexer_match_miss (lexer_read lex ['|']) '=' (by rw [hs1]; exact headD_space tail ht '=' (by decide) (by decide))] at hres
  dsimp only at hres
  rw [if_neg Bool.false_ne_true] at hres
  rw [← hres]

theorem lexer_operator_pipe_equal (lex : lexer_t) (tail : List Char)
    (h : lex.rest = '=' :: tail) (ht : tail = [] ∨ ∃ t, tail = ' ' :: t) :
    lexer_operator lex '|' = (lexer_read lex ['='], some (TOKEN_PIPE_EQUAL, "|=", 2)) := by
  generalize hres : lexer_operator lex '|' = res
  unfold lexer_operator at hres
  rw [if_neg (show ¬ ('|' = '+') by decide)] at hres
  rw [if_neg (show ¬ ('|' = '-') by decide)] at hres
  rw [if_neg (show ¬ ('|' = '*') by decide)] at hres
  rw [if_neg (show ¬ ('|' = '/') by decide)] at hres
  rw [if_neg (show ¬ ('|' = '%') by decide)] at hres
  rw [if_neg (show ¬ ('|' = '&') by decide)] at hres
  rw [if_pos (rfl : '|' = '|')] at hres
  have hs0 : lex.rest = '=' :: tail := h
  rw [lexer_match_miss (lex) '|' (by rw [hs0]; exact (by decide : ('=' : Char) ≠ '|'))] at hres
  dsimp only at hres
  rw [if_neg Bool.false_ne_true] at hres
  rw [lexer_match_hit (lex) '=' (tail) hs0 (by decide)] at hres
  dsimp only at hres
  rw [if_pos rfl] at hres
  have hs1 : (lexer_read lex ['=']).rest = tail := lexer_rest_read_cons (lex) '=' _ hs0
  rw [← hres]

theorem lexer_operator_pipe (lex : lexer_t) (tail : List Char)
    (h : lex.rest = tail) (ht : tail = [] ∨ ∃ t, tail = ' ' :: t) :
    lexer_operator lex '|' = (lexer_read lex [], some (TOKEN_PIPE, "|", 1)) := by
  generalize hres : lexer_operator lex '|' = res
  unfold lexer_operator at hres
  rw [if_neg (show ¬ ('|' = '+') by decide)] at hres
  rw [if_neg (show ¬ ('|' = '-') by decide)] at hres
  rw [if_neg (show ¬ ('|' = '*') by decide)] at hres
  rw [if_neg (show ¬ ('|' = '/') by decide)] at hres
  rw [if_neg (show ¬ ('|' = '%') by decide)] at hres
  rw [if_neg (show ¬ ('|' = '&') by decide)] at hres
  rw [if_pos (rfl : '|' = '|')] at hres
  have hs0 : lex.rest = tail := h
  rw [lexer_match_miss (lex) '|' (by rw [hs0]; exact headD_space tail ht '|' (by decide) (by decide))] at hres
  dsimp only at hres
  rw [if_neg Bool.false_ne_true] at hres
  rw [lexer_match_miss (lex) '=' (by rw [hs0]; exact headD_space tail ht '=' (by decide) (by decide))] at hres
  dsimp only at hres
  rw [if_neg Bool.false_ne_true] at hres
  rw [← hres]
  rw [lexer_read_nil]

theorem lexer_operator_caret_equal (lex : lexer_t) (tail : List Char)
    (h : lex.rest = '=' :: tail) (ht : tail = [] ∨ ∃ t, tail = ' ' :: t) :
    lexer_operator lex '^' = (lexer_read lex ['='], some (TOKEN_CARET_EQUAL, "^=", 2)) := by
  generalize hres : lexer_operator lex '^' = res
  unfold lexer_operator at hres
  rw [if_neg (show ¬ ('^' = '+') by decide)] at hres
  rw [if_neg (show ¬ ('^' = '-') by decide)] at hres
  rw [if_neg (show ¬ ('^' = '*') by decide)] at hres
  rw [if_neg (show ¬ ('^' = '/') by decide)] at hres
  rw [if_neg (show ¬ ('^' = '%') by decide)] at hres
  rw [if_neg (show ¬ ('^' = '&') by decide)] at hres
  rw [if_neg (show ¬ ('^' = '|') by decide)] at hres
  rw [if_pos (rfl : '^' = '^')] at hres
  have hs0 : lex.rest = '=' :: tail := h
  rw [lexer_match_hit (lex) '=' (tail) hs0 (by decide)] at hres
  dsimp only at hres
  rw [if_pos rfl] at hres
  have hs1 : (lexer_read lex ['=']).rest = tail := lexer_rest_read_cons (lex) '=' _ hs0
  rw [← hres]

theorem lexer_operator_caret (lex : lexer_t) (tail : List Char)
    (h : lex.rest = tail) (ht : tail = [] ∨ ∃ t, tail = ' ' :: t) :
    lexer_operator lex '^' = (lexer_read lex [], some (TOKEN_CARET, "^", 1)) := by
  generalize hres : lexer_operator lex '^' = res
  unfold lexer_operator at hres
  rw [if_neg (show ¬ ('^' = '+') by decide)] at hres
  rw [if_neg (show ¬ ('^' = '-') by decide)] at hres
  rw [if_neg (show ¬ ('^' = '*') by decide)] at hres
  rw [if_neg (show ¬ ('^' = '/') by decide)] at hres
  rw [if_neg (show ¬ ('^' = '%') by decide)] at hres
  rw [if_neg (show ¬ ('^' = '&') by decide)] at hres
  rw [if_neg (show ¬ ('^' = '|') by decide)] at hres
  rw [if_pos (rfl : '^' = '^')] at hres
  have hs0 : lex.rest = tail := h
  rw [lexer_match_miss (lex) '=' (by rw [hs0]; exact headD_space tail ht '=' (by decide) (by decide))] at hres
  dsimp only at hres
  rw [if_neg Bool.false_ne_true] at hres
  rw [← hres]
  rw [lexer_read_nil]

theorem lexer_operator_tilde (lex : lexer_t) (tail : List Char)
    (h : lex.rest = tail) (ht : tail = [] ∨ ∃ t, tail = ' ' :: t) :
    lexer_operator lex '~' = (lexer_read lex [], some (TOKEN_TILDE, "~", 1)) := by
  generalize hres : lexer_operator lex '~' = res
  unfold lexer_operator at hres
  rw [if_neg (show ¬ ('~' = '+') by decide)] at hres
  rw [if_neg (show ¬ ('~' = '-') by decide)] at hres
  rw [if_neg (show ¬ ('~' = '*') by decide)] at hres
  rw [if_neg (show ¬ ('~' = '/') by decide)] at hres
  rw [if_neg (show ¬ ('~' = '%') by decide)] at hres
  rw [if_neg (show ¬ ('~' = '&') by decide)] at hres
  rw [if_neg (show ¬ ('~' = '|') by decide)] at hres
  rw [if_neg (show ¬ ('~' = '^') by decide)] at hres
  rw [if_pos (rfl : '~' = '~')] at hres
  have hs0 : lex.rest = tail := h
  rw [← hres]
  rw [lexer_read_nil]

theorem lexer_operator_left_shift_equal (lex : lexer_t) (tail : List Char)
    (h : lex.rest = '<' :: '=' :: tail) (ht : tail = [] ∨ ∃ t, tail = ' ' :: t) :
    lexer_operator lex '<' = (lexer_read lex ['<', '='], some (TOKEN_LEFT_SHIFT_EQUAL, "<<=", 3)) := by
  generalize hres : lexer_operator lex '<' = res
  unfold lexer_operator at hres
  rw [if_neg (show ¬ ('<' = '+') by decide)] at hres
  rw [if_neg (show ¬ ('<' = '-') by decide)] at hres
  rw [if_neg (show ¬ ('<' = '*') by decide)] at hres
  rw [if_neg (show ¬ ('<' = '/') by decide)] at hres
  rw [if_neg (show ¬ ('<' = '%') by decide)] at hres
  rw [if_neg (show ¬ ('<' = '&') by decide)] at hres
  rw [if_neg (show ¬ ('<' = '|') by decide)] at hres
  rw [if_neg (show ¬ ('<' = '^') by decide)] at hres
  rw [if_neg (show ¬ ('<' = '~') by decide)] at hres
  rw [if_pos (rfl : '<' = '<')] at hres
  have hs0 : lex.rest = '<' :: '=' :: tail := h
  rw [lexer_match_hit (lex) '<' ('=' :: tail) hs0 (by decide)] at hres
  dsimp only at hres
  rw [if_pos rfl] at hres
  have hs1 : (lexer_read lex ['<']).rest = '=' :: tail := lexer_rest_read_cons (lex) '<' _ hs0
  rw [lexer_match_hit (lexer_read lex ['<']) '=' (tail) hs1 (by decide)] at hres
  dsimp only at hres
  rw [if_pos rfl] at hres
  have hs2 : (lexer_read (lexer_read lex ['<']) ['=']).rest = tail := lexer_rest_read_cons (lexer_read lex ['<']) '=' _ hs1
  rw [← hres]
  rw [lexer_read_append]
  rfl

theorem lexer_operator_left_shift (lex : lexer_t) (tail : List Char)
    (h : lex.rest = '<' :: tail) (ht : tail = [] ∨ ∃ t, tail = ' ' :: t) :
    lexer_operator lex '<' = (lexer_read lex ['<'], some (TOKEN_LEFT_SHIFT, "<<", 2)) := by
  generalize hres : lexer_operator lex '<' = res
  unfold lexer_operator at hres
  rw [if_neg (show ¬ ('<' = '+') by decide)] at hres
  rw [if_neg (show ¬ ('<' = '-') by decide)] at hres
  rw [if_neg (show ¬ ('<' = '*') by decide)] at hres
  rw [if_neg (show ¬ ('<' = '/') by decide)] at hres
  rw [if_neg (show ¬ ('<' = '%') by decide)] at hres
  rw [if_neg (show ¬ ('<' = '&') by decide)] at hres
  rw [if_neg (show ¬ ('<' = '|') by decide)] at hres
  rw [if_neg (show ¬ ('<' = '^') by decide)] at hres
  rw [if_neg (show ¬ ('<' = '~') by decide)] at hres
  rw [if_pos (rfl : '<' = '<')] at hres
  have hs0 : lex.rest = '<' :: tail := h
  rw [lexer_match_hit (lex) '<' (tail) hs0 (by decide)] at hres
  dsimp only at hres
  rw [if_pos rfl] at hres
  have hs1 : (lexer_read lex ['<']).rest = tail := lexer_rest_read_cons (lex) '<' _ hs0
  rw [lexer_match_miss (lexer_read lex ['<']) '=' (by rw [hs1]; exact headD_space tail ht '=' (by decide) (by decide))] at hres
  dsimp only at hres
  rw [if_neg Bool.false_ne_true] at hres
  rw [← hres]

theorem lexer_operator_less_equal (lex : lexer_t) (tail : List Char)
    (h : lex.rest = '=' :: tail) (ht : tail = [] ∨ ∃ t, tail = ' ' :: t) :
    lexer_operator lex '<' = (lexer_read lex ['='], some (TOKEN_LESS_EQUAL, "<=", 2)) := by
  generalize hres : lexer_operator lex '<' = res
  unfold lexer_operator at hres
  rw [if_neg (show ¬ ('<' = '+') by decide)] at hres
  rw [if_neg (show ¬ ('<' = '-') by decide)] at hres
  rw [if_neg (show ¬ ('<' = '*') by decide)] at hres
  rw [if_neg (show ¬ ('<' = '/') by decide)] at hres
  rw [if_neg (show ¬ ('<' = '%') by decide)] at hres
  rw [if_neg (show ¬ ('<' = '&') by decide)] at hres
  rw [if_neg (show ¬ ('<' = '|') by decide)] at hres
  rw [if_neg (show ¬ ('<' = '^') by decide)] at hres
  rw [if_neg (show ¬ ('<' = '~') by decide)] at hres
  rw [if_pos (rfl : '<' = '<')] at hres
  have hs0 : lex.rest = '=' :: tail := h
  rw [lexer_match_miss (lex) '<' (by rw [hs0]; exact (by decide : ('=' : Char) ≠ '<'))] at hres
  dsimp only at hres
  rw [if_neg Bool.false_ne_true] at hres
  rw [lexer_match_hit (lex) '=' (tail) hs0 (by decide)] at hres
  dsimp only at hres
  rw [if_pos rfl] at hres
  have hs1 : (lexer_read lex ['=']).rest = tail := lexer_rest_read_cons (lex) '=' _ hs0
  rw [← hres]

theorem lexer_operator_less (lex : lexer_t) (tail : List Char)
    (h : lex.rest = tail) (ht : tail = [] ∨ ∃ t, tail = ' ' :: t) :
    lexer_operator lex '<' = (lexer_read lex [], some (TOKEN_LESS, "<", 1)) := by
  generalize hres : lexer_operator lex '<' = res
  unfold lexer_operator at hres
  rw [if_neg (show ¬ ('<' = '+') by decide)] at hres
  rw [if_neg (show ¬ ('<' = '-') by decide)] at hres
  rw [if_neg (show ¬ ('<' = '*') by decide)] at hres
  rw [if_neg (show ¬ ('<' = '/') by decide)] at hres
  rw [if_neg (show ¬ ('<' = '%') by decide)] at hres
  rw [if_neg (show ¬ ('<' = '&') by decide)] at hres
  rw [if_neg (show ¬ ('<' = '|') by decide)] at hres
  rw [if_neg (show ¬ ('<' = '^') by decide)] at hres
  rw [if_neg (show ¬ ('<' = '~') by decide)] at hres
  rw [if_pos (rfl : '<' = '<')] at hres
  have hs0 : lex.rest = tail := h
  rw [lexer_match_miss (lex) '<' (by rw [hs0]; exact headD_space tail ht '<' (by decide) (by decide))] at hres
  dsimp only at hres
  rw [if_neg Bool.false_ne_true] at hres
  rw [lexer_match_miss (lex) '=' (by rw [hs0]; exact headD_space tail ht '=' (by decide) (by decide))] at hres
  dsimp only at hres
  rw [if_neg Bool.false_ne_true] at hres
  rw [← hres]
  rw [lexer_read_nil]

theorem lexer_operator_right_shift_equal (lex : lexer_t) (tail : List Char)
    (h : lex.rest = '>' :: '=' :: tail) (ht : tail = [] ∨ ∃ t, tail = ' ' :: t) :
    lexer_operator lex '>' = (lexer_read lex ['>', '='], some (TOKEN_RIGHT_SHIFT_EQUAL, ">>=", 3)) := by
  generalize hres : lexer_operator lex '>' = res
  unfold lexer_operator at hres
  rw [if_neg (show ¬ ('>' = '+') by decide)] at hres
  rw [if_neg (show ¬ ('>' = '-') by decide)] at hres
  rw [if_neg (show ¬ ('>' = '*') by decide)] at hres
  rw [if_neg (show ¬ ('>' = '/') by decide)] at hres
  rw [if_neg (show ¬ ('>' = '%') by decide)] at hres
  rw [if_neg (show ¬ ('>' = '&') by decide)] at hres
  rw [if_neg (show ¬ ('>' = '|') by decide)] at hres
  rw [if_neg (show ¬ ('>' = '^') by decide)] at hres
  rw [if_neg (show ¬ ('>' = '~') by decide)] at hres
  rw [if_neg (show ¬ ('>' = '<') by decide)] at hres
  rw [if_pos (rfl : '>' = '>')] at hres
  have hs0 : lex.rest = '>' :: '=' :: tail := h
  rw [lexer_match_hit (lex) '>' ('=' :: tail) hs0 (by decide)] at hres
  dsimp only at hres
  rw [if_pos rfl] at hres
  have hs1 : (lexer_read lex ['>']).rest = '=' :: tail := lexer_rest_read_cons (lex) '>' _ hs0
  rw [lexer_match_hit (lexer_read lex ['>']) '=' (tail) hs1 (by decide)] at hres
  dsimp only at hres
  rw [if_pos rfl] at hres
  have hs2 : (lexer_read (lexer_read lex ['>']) ['=']).rest = tail := lexer_rest_read_cons (lexer_read lex ['>']) '=' _ hs1
  rw [← hres]
  rw [lexer_read_append]
  rfl

theorem lexer_operator_right_shift (lex : lexer_t) (tail : List Char)
    (h : lex.rest = '>' :: tail) (ht : tail = [] ∨ ∃ t, tail = ' ' :: t) :
    lexer_operator lex '>' = (lexer_read lex ['>'], some (TOKEN_RIGHT_SHIFT, ">>", 2)) := by
  generalize hres : lexer_operator lex '>' = res
  unfold lexer_operator at hres
  rw [if_neg (show ¬ ('>' = '+') by decide)] at hres
  rw [if_neg (show ¬ ('>' = '-') by decide)] at hres
  rw [if_neg (show ¬ ('>' = '*') by decide)] at hres
  rw [if_neg (show ¬ ('>' = '/') by decide)] at hres
  rw [if_neg (show ¬ ('>' = '%') by decide)] at hres
  rw [if_neg (show ¬ ('>' = '&') by decide)] at hres
  rw [if_neg (show ¬ ('>' = '|') by decide)] at hres
  rw [if_neg (show ¬ ('>' = '^') by decide)] at hres
  rw [if_neg (show ¬ ('>' = '~') by decide)] at hres
  rw [if_neg (show ¬ ('>' = '<') by decide)] at hres
  rw [if_pos (rfl : '>' = '>')] at hres
  have hs0 : lex.rest = '>' :: tail := h
  rw [lexer_match_hit (lex) '>' (tail) hs0 (by decide)] at hres
  dsimp only at hres
  rw [if_pos rfl] at hres
  have hs1 : (lexer_read lex ['>']).rest = tail := lexer_rest_read_cons (lex) '>' _ hs0
  rw [lexer_match_miss (lexer_read lex ['>']) '=' (by rw [hs1]; exact headD_space tail ht '=' (by decide) (by decide))] at hres
  dsimp only at hres
  rw [if_neg Bool.false_ne_true] at hres
  rw [← hres]

theorem lexer_operator_greater_equal (lex : lexer_t) (tail : List Char)
    (h : lex.rest = '=' :: tail) (ht : tail = [] ∨ ∃ t, tail = ' ' :: t) :
    lexer_operator lex '>' = (lexer_read lex ['='], some (TOKEN_GREATER_EQUAL, ">=", 2)) := by
  generalize hres : lexer_operator lex '>' = res
  unfold lexer_operator at hres
  rw [if_neg (show ¬ ('>' = '+') by decide)] at hres
  rw [if_neg (show ¬ ('>' = '-') by decide)] at hres
  rw [if_neg (show ¬ ('>' = '*') by decide)] at hres
  rw [if_neg (show ¬ ('>' = '/') by decide)] at hres
  rw [if_neg (show ¬ ('>' = '%') by decide)] at hres
  rw [if_neg (show ¬ ('>' = '&') by decide)] at hres
  rw [if_neg (show ¬ ('>' = '|') by decide)] at hres
  rw [if_neg (show ¬ ('>' = '^') by decide)] at hres
  rw [if_neg (show ¬ ('>' = '~') by decide)] at hres
  rw [if_neg (show ¬ ('>' = '<') by decide)] at hres
  rw [if_pos (rfl : '>' = '>')] at hres
  have hs0 : lex.rest = '=' :: tail := h
  rw [lexer_match_miss (lex) '>' (by rw [hs0]; exact (by decide : ('=' : Char) ≠ '>'))] at hres
  dsimp only at hres
  rw [if_neg Bool.false_ne_true] at hres
  rw [lexer_match_hit (lex) '=' (tail) hs0 (by decide)] at hres
  dsimp only at hres
  rw [if_pos rfl] at hres
  have hs1 : (lexer_read lex ['=']).rest = tail := lexer_rest_read_cons (lex) '=' _ hs0
  rw [← hres]

theorem lexer_operator_greater (lex : lexer_t) (tail : List Char)
    (h : lex.rest = tail) (ht : tail = [] ∨ ∃ t, tail = ' ' :: t) :
    lexer_operator lex '>' = (lexer_read lex [], some (TOKEN_GREATER, ">", 1)) := by
  generalize hres : lexer_operator lex '>' = res
  unfold lexer_operator at hres
  rw [if_neg (show ¬ ('>' = '+') by decide)] at hres
  rw [if_neg (show ¬ ('>' = '-') by decide)] at hres
  rw [if_neg (show ¬ ('>' = '*') by decide)] at hres
  rw [if_neg (show ¬ ('>' = '/') by decide)] at hres
  rw [if_neg (show ¬ ('>' = '%') by decide)] at hres
  rw [if_neg (show ¬ ('>' = '&') by decide)] at hres
  rw [if_neg (show ¬ ('>' = '|') by decide)] at hres
  rw [if_neg (show ¬ ('>' = '^') by decide)] at hres
  rw [if_neg (show ¬ ('>' = '~') by decide)] at hres
  rw [if_neg (show ¬ ('>' = '<') by decide)] at hres
  rw [if_pos (rfl : '>' = '>')] at hres
  have hs0 : lex.rest = tail := h
  rw [lexer_match_miss (lex) '>' (by rw [hs0]; exact headD_space tail ht '>' (by decide) (by decide))] at hres
  dsimp only at hres
  rw [if_neg Bool.false_ne_true] at hres
  rw [lexer_match_miss (lex) '=' (by rw [hs0]; exact headD_space tail ht '=' (by decide) (by decide))] at hres
  dsimp only at hres
  rw [if_neg Bool.false_ne_true] at hres
  rw [← hres]
  rw [lexer_read_nil]

theorem lexer_operator_equal_equal (lex : lexer_t) (tail : List Char)
    (h : lex.rest = '=' :: tail) (ht : tail = [] ∨ ∃ t, tail = ' ' :: t) :
    lexer_operator lex '=' = (lexer_read lex ['='], some (TOKEN_EQUAL_EQUAL, "==", 2)) := by
  generalize hres : lexer_operator lex '=' = res
  unfold lexer_operator at hres
  rw [if_neg (show ¬ ('=' = '+') by decide)] at hres
  rw [if_neg (show ¬ ('=' = '-') by decide)] at hres
  rw [if_neg (show ¬ ('=' = '*') by decide)] at hres
  rw [if_neg (show ¬ ('=' = '/') by decide)] at hres
  rw [if_neg (show ¬ ('=' = '%') by decide)] at hres
  rw [if_neg (show ¬ ('=' = '&') by decide)] at hres
  rw [if_neg (show ¬ ('=' = '|') by decide)] at hres
  rw [if_neg (show ¬ ('=' = '^') by decide)] at hres
  rw [if_neg (show ¬ ('=' = '~') by decide)] at hres
  rw [if_neg (show ¬ ('=' = '<') by decide)] at hres
  rw [if_neg (show ¬ ('=' = '>') by decide)] at hres
  rw [if_pos (rfl : '=' = '=')] at hres
  have hs0 : lex.rest = '=' :: tail := h
  rw [lexer_match_hit (lex) '=' (tail) hs0 (by decide)] at hres
  dsimp only at hres
  rw [if_pos rfl] at hres
  have hs1 : (lexer_read lex ['=']).rest = tail := lexer_rest_read_cons (lex) '=' _ hs0
  rw [← hres]

theorem lexer_operator_equal (lex : lexer_t) (tail : List Char)
    (h : lex.rest = tail) (ht : tail = [] ∨ ∃ t, tail = ' ' :: t) :
    lexer_operator lex '=' = (lexer_read lex [], some (TOKEN_EQUAL, "=", 1)) := by
  generalize hres : lexer_operator lex '=' = res
  unfold lexer_operator at hres
  rw [if_neg (show ¬ ('=' = '+') by decide)] at hres
  rw [if_neg (show ¬ ('=' = '-') by decide)] at hres
  rw [if_neg (show ¬ ('=' = '*') by decide)] at hres
  rw [if_neg (show ¬ ('=' = '/') by decide)] at hres
  rw [if_neg (show ¬ ('=' = '%') by decide)] at hres
  rw [if_neg (show ¬ ('=' = '&') by decide)] at hres
  rw [if_neg (show ¬ ('=' = '|') by decide)] at hres
  rw [if_neg (show ¬ ('=' = '^') by decide)] at hres
  rw [if_neg (show ¬ ('=' = '~') by decide)] at hres
  rw [if_neg (show ¬ ('=' = '<') by decide)] at hres
  rw [if_neg (show ¬ ('=' = '>') by decide)] at hres
  rw [if_pos (rfl : '=' = '=')] at hres
  have hs0 : lex.rest = tail := h
  rw [lexer_match_miss (lex) '=' (by rw [hs0]; exact headD_space tail ht '=' (by decide) (by decide))] at hres
  dsimp only at hres
  rw [if_neg Bool.false_ne_true] at hres
  rw [← hres]
  rw [lexer_read_nil]

theorem lexer_operator_bang_equal (lex : lexer_t) (tail : List Char)
    (h : lex.rest = '=' :: tail) (ht : tail = [] ∨ ∃ t, tail = ' ' :: t) :
    lexer_operator lex '!' = (lexer_read lex ['='], some (TOKEN_BANG_EQUAL, "!=", 2)) := by
  generalize hres : lexer_operator lex '!' = res
  unfold lexer_operator at hres
  rw [if_neg (show ¬ ('!' = '+') by decide)] at hres
  rw [if_neg (show ¬ ('!' = '-') by decide)] at hres
  rw [if_neg (show ¬ ('!' = '*') by decide)] at hres
  rw [if_neg (show ¬ ('!' = '/') by decide)] at hres
  rw [if_neg (show ¬ ('!' = '%') by decide)] at hres
  rw [if_neg (show ¬ ('!' = '&') by decide)] at hres
  rw [if_neg (show ¬ ('!' = '|') by decide)] at hres
  rw [if_neg (show ¬ ('!' = '^') by decide)] at hres
  rw [if_neg (show ¬ ('!' = '~') by decide)] at hres
  rw [if_neg (show ¬ ('!' = '<') by decide)] at hres
  rw [if_neg (show ¬ ('!' = '>') by decide)] at hres
  rw [if_neg (show ¬ ('!' = '=') by decide)] at hres
  rw [if_pos (rfl : '!' = '!')] at hres
  have hs0 : lex.rest = '=' :: tail := h
  rw [lexer_match_hit (lex) '=' (tail) hs0 (by decide)] at hres
  dsimp only at hres
  rw [if_pos rfl] at hres
  have hs1 : (lexer_read lex ['=']).rest = tail := lexer_rest_read_cons (lex) '=' _ hs0
  rw [← hres]

theorem lexer_operator_bang (lex : lexer_t) (tail : List Char)
    (h : lex.rest = tail) (ht : tail = [] ∨ ∃ t, tail = ' ' :: t) :
    lexer_operator lex '!' = (lexer_read lex [], some (TOKEN_BANG, "!", 1)) := by
  generalize hres : lexer_operator lex '!' = res
  unfold lexer_operator at hres
  rw [if_neg (show ¬ ('!' = '+') by decide)] at hres
  rw [if_neg (show ¬ ('!' = '-') by decide)] at hres
  rw [if_neg (show ¬ ('!' = '*') by decide)] at hres
  rw [if_neg (show ¬ ('!' = '/') by decide)] at hres
  rw [if_neg (show ¬ ('!' = '%') by decide)] at hres
  rw [if_neg (show ¬ ('!' = '&') by decide)] at hres
  rw [if_neg (show ¬ ('!' = '|') by decide)] at hres
  rw [if_neg (show ¬ ('!' = '^') by decide)] at hres
  rw [if_neg (show ¬ ('!' = '~') by decide)] at hres
  rw [if_neg (show ¬ ('!' = '<') by decide)] at hres
  rw [if_neg (show ¬ ('!' = '>') by decide)] at hres
  rw [if_neg (show ¬ ('!' = '=') by decide)] at hres
  rw [if_pos (rfl : '!' = '!')] at hres
  have hs0 : lex.rest = tail := h
  rw [lexer_match_miss (lex) '=' (by rw [hs0]; exact headD_space tail ht '=' (by decide) (by decide))] at hres
  dsimp only at hres
  rw [if_neg Bool.false_ne_true] at hres
  rw [← hres]
  rw [lexer_read_nil]

theorem lexer_operator_left_paren (lex : lexer_t) (tail : List Char)
    (h : lex.rest = tail) (ht : tail = [] ∨ ∃ t, tail = ' ' :: t) :
    lexer_operator lex '(' = (lexer_read lex [], some (TOKEN_LEFT_PAREN, "(", 1)) := by
  generalize hres : lexer_operator lex '(' = res
  unfold lexer_operator at hres
  rw [if_neg (show ¬ ('(' = '+') by decide)] at hres
  rw [if_neg (show ¬ ('(' = '-') by decide)] at hres
  rw [if_neg (show ¬ ('(' = '*') by decide)] at hres
  rw [if_neg (show ¬ ('(' = '/') by decide)] at hres
  rw [if_neg (show ¬ ('(' = '%') by decide)] at hres
  rw [if_neg (show ¬ ('(' = '&') by decide)] at hres
  rw [if_neg (show ¬ ('(' = '|') by decide)] at hres
  rw [if_neg (show ¬ ('(' = '^') by decide)] at hres
  rw [if_neg (show ¬ ('(' = '~') by decide)] at hres
  rw [if_neg (show ¬ ('(' = '<') by decide)] at hres
  rw [if_neg (show ¬ ('(' = '>') by decide)] at hres
  rw [if_neg (show ¬ ('(' = '=') by decide)] at hres
  rw [if_neg (show ¬ ('(' = '!') by decide)] at hres
  rw [if_pos (rfl : '(' = '(')] at hres
  have hs0 : lex.rest = tail := h
  rw [← hres]
  rw [lexer_read_nil]

theorem lexer_operator_right_paren (lex : lexer_t) (tail : List Char)
    (h : lex.rest = tail) (ht : tail = [] ∨ ∃ t, tail = ' ' :: t) :
    lexer_operator lex ')' = (lexer_read lex [], some (TOKEN_RIGHT_PAREN, ")", 1)) := by
  generalize hres : lexer_operator lex ')' = res
  unfold lexer_operator at hres
  rw [if_neg (show ¬ (')' = '+') by decide)] at hres
  rw [if_neg (show ¬ (')' = '-') by decide)] at hres
  rw [if_neg (show ¬ (')' = '*') by decide)] at hres
  rw [if_neg (show ¬ (')' = '/') by decide)] at hres
  rw [if_neg (show ¬ (')' = '%') by decide)] at hres
  rw [if_neg (show ¬ (')' = '&') by decide)] at hres
  rw [if_neg (show ¬ (')' = '|') by decide)] at hres
  rw [if_neg (show ¬ (')' = '^') by decide)] at hres
  rw [if_neg (show ¬ (')' = '~') by decide)] at hres
  rw [if_neg (show ¬ (')' = '<') by decide)] at hres
  rw [if_neg (show ¬ (')' = '>') by decide)] at hres
  rw [if_neg (show ¬ (')' = '=') by decide)] at hres
  rw [if_neg (show ¬ (')' = '!') by decide)] at hres
  rw [if_neg (show ¬ (')' = '(') by decide)] at hres
  rw [if_pos (rfl : ')' = ')')] at hres
  have hs0 : lex.rest = tail := h
  rw [← hres]
  rw [lexer_read_nil]

theorem lexer_operator_left_brace (lex : lexer_t) (tail : List Char)
    (h : lex.rest = tail) (ht : tail = [] ∨ ∃ t, tail = ' ' :: t) :
    lexer_operator lex '\x7b' = (lexer_read lex [], some (TOKEN_LEFT_BRACE, "\x7b", 1)) := by
  generalize hres : lexer_operator lex '\x7b' = res
  unfold lexer_operator at hres
  rw [if_neg (show ¬ ('\x7b' = '+') by decide)] at hres
  rw [if_neg (show ¬ ('\x7b' = '-') by decide)] at hres
  rw [if_neg (show ¬ ('\x7b' = '*') by decide)] at hres
  rw [if_neg (show ¬ ('\x7b' = '/') by decide)] at hres
  rw [if_neg (show ¬ ('\x7b' = '%') by decide)] at hres
  rw [if_neg (show ¬ ('\x7b' = '&') by decide)] at hres
  rw [if_neg (show ¬ ('\x7b' = '|') by decide)] at hres
  rw [if_neg (show ¬ ('\x7b' = '^') by decide)] at hres
  rw [if_neg (show ¬ ('\x7b' = '~') by decide)] at hres
  rw [if_neg (show ¬ ('\x7b' = '<') by decide)] at hres
  rw [if_neg (show ¬ ('\x7b' = '>') by decide)] at hres
  rw [if_neg (show ¬ ('\x7b' = '=') by decide)] at hres
  rw [if_neg (show ¬ ('\x7b' = '!') by decide)] at hres
  rw [if_neg (show ¬ ('\x7b' = '(') by decide)] at hres
  rw [if_neg (show ¬ ('\x7b' = ')') by decide)] at hres
  rw [if_pos (rfl : '\x7b' = '\x7b')] at hres
  have hs0 : lex.rest = tail := h
  rw [← hres]
  rw [lexer_read_nil]

theorem lexer_operator_right_brace (lex : lexer_t) (tail : List Char)
    (h : lex.rest = tail) (ht : tail = [] ∨ ∃ t, tail = ' ' :: t) :
    lexer_operator lex '\x7d' = (lexer_read lex [], some (TOKEN_RIGHT_BRACE, "\x7d", 1)) := by
  generalize hres : lexer_operator lex '\x7d' = res
  unfold lexer_operator at hres
  rw [if_neg (show ¬ ('\x7d' = '+') by decide)] at hres
  rw [if_neg (show ¬ ('\x7d' = '-') by decide)] at hres
  rw [if_neg (show ¬ ('\x7d' = '*') by decide)] at hres
  rw [if_neg (show ¬ ('\x7d' = '/') by decide)] at hres
  rw [if_neg (show ¬ ('\x7d' = '%') by decide)] at hres
  rw [if_neg (show ¬ ('\x7d' = '&') by decide)] at hres
  rw [if_neg (show ¬ ('\x7d' = '|') by decide)] at hres
  rw [if_neg (show ¬ ('\x7d' = '^') by decide)] at hres
  rw [if_neg (show ¬ ('\x7d' = '~') by decide)] at hres
  rw [if_neg (show ¬ ('\x7d' = '<') by decide)] at hres
  rw [if_neg (show ¬ ('\x7d' = '>') by decide)] at hres
  rw [if_neg (show ¬ ('\x7d' = '=') by decide)] at hres
  rw [if_neg (show ¬ ('\x7d' = '!') by decide)] at hres
  rw [if_neg (show ¬ ('\x7d' = '(') by decide)] at hres
  rw [if_neg (show ¬ ('\x7d' = ')') by decide)] at hres
  rw [if_neg (show ¬ ('\x7d' = '\x7b') by decide)] at hres
  rw [if_pos (rfl : '\x7d' = '\x7d')] at hres
  have hs0 : lex.rest = tail := h
  rw [← hres]
  rw [lexer_read_nil]

theorem lexer_operator_left_bracket (lex : lexer_t) (tail : List Char)
    (h : lex.rest = tail) (ht : tail = [] ∨ ∃ t, tail = ' ' :: t) :
    lexer_operator lex '[' = (lexer_read lex [], some (TOKEN_LEFT_BRACKET, "[", 1)) := by
  generalize hres : lexer_operator lex '[' = res
  unfold lexer_operator at hres
  rw [if_neg (show ¬ ('[' = '+') by decide)] at hres
  rw [if_neg (show ¬ ('[' = '-') by decide)] at hres
  rw [if_neg (show ¬ ('[' = '*') by decide)] at hres
  rw [if_neg (show ¬ ('[' = '/') by decide)] at hres
  rw [if_neg (show ¬ ('[' = '%') by decide)] at hres
  rw [if_neg (show ¬ ('[' = '&') by decide)] at hres
  rw [if_neg (show ¬ ('[' = '|') by decide)] at hres
  rw [if_neg (show ¬ ('[' = '^') by decide)] at hres
  rw [if_neg (show ¬ ('[' = '~') by decide)] at hres
  rw [if_neg (show ¬ ('[' = '<') by decide)] at hres
  rw [if_neg (show ¬ ('[' = '>') by decide)] at hres
  rw [if_neg (show ¬ ('[' = '=') by decide)] at hres
  rw [if_neg (show ¬ ('[' = '!') by decide)] at hres
  rw [if_neg (show ¬ ('[' = '(') by decide)] at hres
  rw [if_neg (show ¬ ('[' = ')') by decide)] at hres
  rw [if_neg (show ¬ ('[' = '\x7b') by decide)] at hres
  rw [if_neg (show ¬ ('[' = '\x7d') by decide)] at hres
  rw [if_pos (rfl : '[' = '[')] at hres
  have hs0 : lex.rest = tail := h
  rw [← hres]
  rw [lexer_read_nil]

theorem lexer_operator_right_bracket (lex : lexer_t) (tail : List Char)
    (h : lex.rest = tail) (ht : tail = [] ∨ ∃ t, tail = ' ' :: t) :
    lexer_operator lex ']' = (lexer_read lex [], some (TOKEN_RIGHT_BRACKET, "]", 1)) := by
  generalize hres : lexer_operator lex ']' = res
  unfold lexer_operator at hres
  rw [if_neg (show ¬ (']' = '+') by decide)] at hres
  rw [if_neg (show ¬ (']' = '-') by decide)] at hres
  rw [if_neg (show ¬ (']' = '*') by decide)] at hres
  rw [if_neg (show ¬ (']' = '/') by decide)] at hres
  rw [if_neg (show ¬ (']' = '%') by decide)] at hres
  rw [if_neg (show ¬ (']' = '&') by decide)] at hres
  rw [if_neg (show ¬ (']' = '|') by decide)] at hres
  rw [if_neg (show ¬ (']' = '^') by decide)] at hres
  rw [if_neg (show ¬ (']' = '~') by decide)] at hres
  rw [if_neg (show ¬ (']' = '<') by decide)] at hres
  rw [if_neg (show ¬ (']' = '>') by decide)] at hres
  rw [if_neg (show ¬ (']' = '=') by decide)] at hres
  rw [if_neg (show ¬ (']' = '!') by decide)] at hres
  rw [if_neg (show ¬ (']' = '(') by decide)] at hres
  rw [if_neg (show ¬ (']' = ')') by decide)] at hres
  rw [if_neg (show ¬ (']' = '\x7b') by decide)] at hres
  rw [if_neg (show ¬ (']' = '\x7d') by decide)] at hres
  rw [if_neg (show ¬ (']' = '[') by decide)] at hres
  rw [if_pos (rfl : ']' = ']')] at hres
  have hs0 : lex.rest = tail := h
  rw [← hres]
  rw [lexer_read_nil]

theorem lexer_operator_ellipsis (lex : lexer_t) (tail : List Char)
    (h : lex.rest = '.' :: '.' :: tail) (ht : tail = [] ∨ ∃ t, tail = ' ' :: t) :
    lexer_operator lex '.' = (lexer_read lex ['.', '.'], some (TOKEN_ELLIPSIS, "...", 3)) := by
  generalize hres : lexer_operator lex '.' = res
  unfold lexer_operator at hres
  rw [if_neg (show ¬ ('.' = '+') by decide)] at hres
  rw [if_neg (show ¬ ('.' = '-') by decide)] at hres
  rw [if_neg (show ¬ ('.' = '*') by decide)] at hres
  rw [if_neg (show ¬ ('.' = '/') by decide)] at hres
  rw [if_neg (show ¬ ('.' = '%') by decide)] at hres
  rw [if_neg (show ¬ ('.' = '&') by decide)] at hres
  rw [if_neg (show ¬ ('.' = '|') by decide)] at hres
  rw [if_neg (show ¬ ('.' = '^') by decide)] at hres
  rw [if_neg (show ¬ ('.' = '~') by decide)] at hres
  rw [if_neg (show ¬ ('.' = '<') by decide)] at hres
  rw [if_neg (show ¬ ('.' = '>') by decide)] at hres
  rw [if_neg (show ¬ ('.' = '=') by decide)] at hres
  rw [if_neg (show ¬ ('.' = '!') by decide)] at hres
  rw [if_neg (show ¬ ('.' = '(') by decide)] at hres
  rw [if_neg (show ¬ ('.' = ')') by decide)] at hres
  rw [if_neg (show ¬ ('.' = '\x7b') by decide)] at hres
  rw [if_neg (show ¬ ('.' = '\x7d') by decide)] at hres
  rw [if_neg (show ¬ ('.' = '[') by decide)] at hres
  rw [if_neg (show ¬ ('.' = ']') by decide)] at hres
  rw [if_pos (rfl : '.' = '.')] at hres
  have hs0 : lex.rest = '.' :: '.' :: tail := h
  rw [lexer_match_hit (lex) '.' ('.' :: tail) hs0 (by decide)] at hres
  dsimp only at hres
  rw [if_pos rfl] at hres
  have hs1 : (lexer_read lex ['.']).rest = '.' :: tail := lexer_rest_read_cons (lex) '.' _ hs0
  rw [lexer_match_hit (lexer_read lex ['.']) '.' (tail) hs1 (by decide)] at hres
  dsimp only at hres
  rw [if_pos rfl] at hres
  have hs2 : (lexer_read (lexer_read lex ['.']) ['.']).rest = tail := lexer_rest_read_cons (lexer_read lex ['.']) '.' _ hs1
  rw [← hres]
  rw [lexer_read_append]
  rfl

theorem lexer_operator_dot (lex : lexer_t) (tail : List Char)
    (h : lex.rest = tail) (ht : tail = [] ∨ ∃ t, tail = ' ' :: t) :
    lexer_operator lex '.' = (lexer_read lex [], some (TOKEN_DOT, ".", 1)) := by
  generalize hres : lexer_operator lex '.' = res
  unfold lexer_operator at hres
  rw [if_neg (show ¬ ('.' = '+') by decide)] at hres
  rw [if_neg (show ¬ ('.' = '-') by decide)] at hres
  rw [if_neg (show ¬ ('.' = '*') by decide)] at hres
  rw [if_neg (show ¬ ('.' = '/') by decide)] at hres
  rw [if_neg (show ¬ ('.' = '%') by decide)] at hres
  rw [if_neg (show ¬ ('.' = '&') by decide)] at hres
  rw [if_neg (show ¬ ('.' = '|') by decide)] at hres
  rw [if_neg (show ¬ ('.' = '^') by decide)] at hres
  rw [if_neg (show ¬ ('.' = '~') by decide)] at hres
  rw [if_neg (show ¬ ('.' = '<') by decide)] at hres
  rw [if_neg (show ¬ ('.' = '>') by decide)] at hres
  rw [if_neg (show ¬ ('.' = '=') by decide)] at hres
  rw [if_neg (show ¬ ('.' = '!') by decide)] at hres
  rw [if_neg (show ¬ ('.' = '(') by decide)] at hres
  rw [if_neg (show ¬ ('.' = ')') by decide)] at hres
  rw [if_neg (show ¬ ('.' = '\x7b') by decide)] at hres
  rw [if_neg (show ¬ ('.' = '\x7d') by decide)] at hres
  rw [if_neg (show ¬ ('.' = '[') by decide)] at hres
  rw [if_neg (show ¬ ('.' = ']') by decide)] at hres
  rw [if_pos (rfl : '.' = '.')] at hres
  have hs0 : lex.rest = tail := h
  rw [lexer_match_miss (lex) '.' (by rw [hs0]; exact headD_space tail ht '.' (by decide) (by decide))] at hres
  dsimp only at hres
  rw [if_neg Bool.false_ne_true] at hres
  rw [← hres]
  rw [lexer_read_nil]

theorem lexer_operator_comma (lex : lexer_t) (tail : List Char)
    (h : lex.rest = tail) (ht : tail = [] ∨ ∃ t, tail = ' ' :: t) :
    lexer_operator lex ',' = (lexer_read lex [], some (TOKEN_COMMA, ",", 1)) := by
  generalize hres : lexer_operator lex ',' = res
  unfold lexer_operator at hres
  rw [if_neg (show ¬ (',' = '+') by decide)] at hres
  rw [if_neg (show ¬ (',' = '-') by decide)] at hres
  rw [if_neg (show ¬ (',' = '*') by decide)] at hres
  rw [if_neg (show ¬ (',' = '/') by decide)] at hres
  rw [if_neg (show ¬ (',' = '%') by decide)] at hres
  rw [if_neg (show ¬ (',' = '&') by decide)] at hres
  rw [if_neg (show ¬ (',' = '|') by decide)] at hres
  rw [if_neg (show ¬ (',' = '^') by decide)] at hres
  rw [if_neg (show ¬ (',' = '~') by decide)] at hres
  rw [if_neg (show ¬ (',' = '<') by decide)] at hres
  rw [if_neg (show ¬ (',' = '>') by decide)] at hres
  rw [if_neg (show ¬ (',' = '=') by decide)] at hres
  rw [if_neg (show ¬ (',' = '!') by decide)] at hres
  rw [if_neg (show ¬ (',' = '(') by decide)] at hres
  rw [if_neg (show ¬ (',' = ')') by decide)] at hres
  rw [if_neg (show ¬ (',' = '\x7b') by decide)] at hres
  rw [if_neg (show ¬ (',' = '\x7d') by decide)] at hres
  rw [if_neg (show ¬ (',' = '[') by decide)] at hres
  rw [if_neg (show ¬ (',' = ']') by decide)] at hres
  rw [if_neg (show ¬ (',' = '.') by decide)] at hres
  rw [if_pos (rfl : ',' = ',')] at hres
  have hs0 : lex.rest = tail := h
  rw [← hres]
  rw [lexer_read_nil]

theorem lexer_operator_semicolon (lex : lexer_t) (tail : List Char)
    (h : lex.rest = tail) (ht : tail = [] ∨ ∃ t, tail = ' ' :: t) :
    lexer_operator lex ';' = (lexer_read lex [], some (TOKEN_SEMICOLON, ";", 1)) := by
  generalize hres : lexer_operator lex ';' = res
  unfold lexer_operator at hres
  rw [if_neg (show ¬ (';' = '+') by decide)] at hres
  rw [if_neg (show ¬ (';' = '-') by decide)] at hres
  rw [if_neg (show ¬ (';' = '*') by decide)] at hres
  rw [if_neg (show ¬ (';' = '/') by decide)] at hres
  rw [if_neg (show ¬ (';' = '%') by decide)] at hres
  rw [if_neg (show ¬ (';' = '&') by decide)] at hres
  rw [if_neg (show ¬ (';' = '|') by decide)] at hres
  rw [if_neg (show ¬ (';' = '^') by decide)] at hres
  rw [if_neg (show ¬ (';' = '~') by decide)] at hres
  rw [if_neg (show ¬ (';' = '<') by decide)] at hres
  rw [if_neg (show ¬ (';' = '>') by decide)] at hres
  rw [if_neg (show ¬ (';' = '=') by decide)] at hres
  rw [if_neg (show ¬ (';' = '!') by decide)] at hres
  rw [if_neg (show ¬ (';' = '(') by decide)] at hres
  rw [if_neg (show ¬ (';' = ')') by decide)] at hres
  rw [if_neg (show ¬ (';' = '\x7b') by decide)] at hres
  rw [if_neg (show ¬ (';' = '\x7d') by decide)] at hres
  rw [if_neg (show ¬ (';' = '[') by decide)] at hres
  rw [if_neg (show ¬ (';' = ']') by decide)] at hres
  rw [if_neg (show ¬ (';' = '.') by decide)] at hres
  rw [if_neg (show ¬ (';' = ',') by decide)] at hres
  rw [if_pos (rfl : ';' = ';')] at hres
  have hs0 : lex.rest = tail := h
  rw [← hres]
  rw [lexer_read_nil]

theorem lexer_operator_colon (lex : lexer_t) (tail : List Char)
    (h : lex.rest = tail) (ht : tail = [] ∨ ∃ t, tail = ' ' :: t) :
    lexer_operator lex ':' = (lexer_read lex [], some (TOKEN_COLON, ":", 1)) := by
  generalize hres : lexer_operator lex ':' = res
  unfold lexer_operator at hres
  rw [if_neg (show ¬ (':' = '+') by decide)] at hres
  rw [if_neg (show ¬ (':' = '-') by decide)] at hres
  rw [if_neg (show ¬ (':' = '*') by decide)] at hres
  rw [if_neg (show ¬ (':' = '/') by decide)] at hres
  rw [if_neg (show ¬ (':' = '%') by decide)] at hres
  rw [if_neg (show ¬ (':' = '&') by decide)] at hres
  rw [if_neg (show ¬ (':' = '|') by decide)] at hres
  rw [if_neg (show ¬ (':' = '^') by decide)] at hres
  rw [if_neg (show ¬ (':' = '~') by decide)] at hres
  rw [if_neg (show ¬ (':' = '<') by decide)] at hres
  rw [if_neg (show ¬ (':' = '>') by decide)] at hres
  rw [if_neg (show ¬ (':' = '=') by decide)] at hres
  rw [if_neg (show ¬ (':' = '!') by decide)] at hres
  rw [if_neg (show ¬ (':' = '(') by decide)] at hres
  rw [if_neg (show ¬ (':' = ')') by decide)] at hres
  rw [if_neg (show ¬ (':' = '\x7b') by decide)] at hres
  rw [if_neg (show ¬ (':' = '\x7d') by decide)] at hres
  rw [if_neg (show ¬ (':' = '[') by decide)] at hres
  rw [if_neg (show ¬ (':' = ']') by decide)] at hres
  rw [if_neg (show ¬ (':' = '.') by decide)] at hres
  rw [if_neg (show ¬ (':' = ',') by decide)] at hres
  rw [if_neg (show ¬ (':' = ';') by decide)] at hres
  rw [if_pos (rfl : ':' = ':')] at hres
  have hs0 : lex.rest = tail := h
  rw [← hres]
  rw [lexer_read_nil]

theorem lexer_operator_question (lex : lexer_t) (tail : List Char)
    (h : lex.rest = tail) (ht : tail = [] ∨ ∃ t, tail = ' ' :: t) :
    lexer_operator lex '?' = (lexer_read lex [], some (TOKEN_QUESTION, "?", 1)) := by
  generalize hres : lexer_operator lex '?' = res
  unfold lexer_operator at hres
  rw [if_neg (show ¬ ('?' = '+') by decide)] at hres
  rw [if_neg (show ¬ ('?' = '-') by decide)] at hres
  rw [if_neg (show ¬ ('?' = '*') by decide)] at hres
  rw [if_neg (show ¬ ('?' = '/') by decide)] at hres
  rw [if_neg (show ¬ ('?' = '%') by decide)] at hres
  rw [if_neg (show ¬ ('?' = '&') by decide)] at hres
  rw [if_neg (show ¬ ('?' = '|') by decide)] at hres
  rw [if_neg (show ¬ ('?' = '^') by decide)] at hres
  rw [if_neg (show ¬ ('?' = '~') by decide)] at hres
  rw [if_neg (show ¬ ('?' = '<') by decide)] at hres
  rw [if_neg (show ¬ ('?' = '>') by decide)] at hres
  rw [if_neg (show ¬ ('?' = '=') by decide)] at hres
  rw [if_neg (show ¬ ('?' = '!') by decide)] at hres
  rw [if_neg (show ¬ ('?' = '(') by decide)] at hres
  rw [if_neg (show ¬ ('?' = ')') by decide)] at hres
  rw [if_neg (show ¬ ('?' = '\x7b') by decide)] at hres
  rw [if_neg (show ¬ ('?' = '\x7d') by decide)] at hres
  rw [if_neg (show ¬ ('?' = '[') by decide)] at hres
  rw [if_neg (show ¬ ('?' = ']') by decide)] at hres
  rw [if_neg (show ¬ ('?' = '.') by decide)] at hres
  rw [if_neg (show ¬ ('?' = ',') by decide)] at hres
  rw [if_neg (show ¬ ('?' = ';') by decide)] at hres
  rw [if_neg (show ¬ ('?' = ':') by decide)] at hres
  rw [if_pos (rfl : '?' = '?')] at hres
  have hs0 : lex.rest = tail := h
  rw [← hres]
  rw [lexer_read_nil]

/-! ## The lexer: string literals and comments, what they read -/

theorem lexer_reads_advance' (lex : lexer_t) :
    ∃ cs, lexer_reads lex (lexer_advance lex).2 cs := by
  obtain ⟨cs, h, _⟩ := lexer_reads_advance lex
  exact ⟨cs, h⟩

theorem lexer_reads_unicode_digits :
    ∀ (i : Nat) (lex : lexer_t) (codepoint : Nat),
      ∃ cs, lexer_reads lex (lexer_unicode_digits i lex codepoint).1 cs ∧
        ((lexer_unicode_digits i lex codepoint).2 = none →
          (lexer_unicode_digits i lex codepoint).1.had_error = true) := by
  intro i
  induction i with
  | zero =>
    intro lex codepoint
    exact ⟨[], lexer_reads_refl lex, fun h => by cases h⟩
  | succ i ih =>
    intro lex codepoint
    obtain ⟨cs, hcs⟩ := lexer_reads_advance' lex
    simp only [lexer_unicode_digits]
    split
    · exact ⟨cs, lexer_reads_error hcs _ rfl, fun _ => rfl⟩
    · obtain ⟨ds, hds, he⟩ := ih (lexer_advance lex).2
        ((codepoint <<< 4) ||| hex_value (lexer_advance lex).1)
      exact ⟨cs ++ ds, lexer_reads_trans hcs hds, he⟩

theorem lexer_reads_string_body (quote : Char) :
    ∀ (fuel : Nat) (lex : lexer_t) (buf : List Char),
      ∃ cs, lexer_reads lex (lexer_string_body quote fuel lex buf).1 cs ∧
        ((lexer_string_body quote fuel lex buf).2 = none →
          (lexer_string_body quote fuel lex buf).1.had_error = true) := by
  intro fuel
  induction fuel with
  | zero =>
    intro lex buf
    exact ⟨[], lexer_reads_refl lex, fun h => by cases h⟩
  | succ fuel ih =>
    intro lex buf
    obtain ⟨c1, h1⟩ := lexer_reads_advance' lex
    obtain ⟨c2, h2⟩ := lexer_reads_advance' (lexer_advance lex).2
    have h12 := lexer_reads_trans h1 h2
    simp only [lexer_string_body]
    split
    · split
      · split
        · split
          · exact ⟨_, lexer_reads_error h12 _ rfl, fun _ => rfl⟩
          · obtain ⟨c3, h3, e3⟩ := lexer_reads_unicode_digits 4 (lexer_advance (lexer_advance lex).2).2 0
            split
            · rename_i l hl
              rw [hl] at h3 e3
              exact ⟨_, lexer_reads_trans h12 h3, fun _ => e3 rfl⟩
            · rename_i l cp hl
              rw [hl] at h3
              obtain ⟨c4, h4, e4⟩ := ih l (buf ++ (utf8_bytes cp).map Char.ofNat)
              exact ⟨_, lexer_reads_trans (lexer_reads_trans h12 h3) h4, e4⟩
        · split
          · rename_i ch hch
            obtain ⟨c4, h4, e4⟩ := ih (lexer_advance (lexer_advance lex).2).2 (buf ++ [ch])
            exact ⟨_, lexer_reads_trans h12 h4, e4⟩
          · exact ⟨_, lexer_reads_error h12 _ rfl, fun _ => rfl⟩
      · obtain ⟨c4, h4, e4⟩ := ih (lexer_advance lex).2 (buf ++ [(lexer_advance lex).1])
        exact ⟨_, lexer_reads_trans h1 h4, e4⟩
    · exact ⟨[], lexer_reads_refl lex, fun h => by cases h⟩

theorem lexer_advance_pos (lex : lexer_t) (h : lexer_peek lex ≠ '\x00') :
    (lexer_advance lex).2.pos = lex.pos + 1 ∧ (lexer_advance lex).2.length = lex.length ∧
      lex.pos < lex.length := by
  cases hr : lex.rest with
  | nil => exact absurd (lexer_peek_of_nil lex hr) h
  | cons c r =>
    rw [lexer_advance_of_cons lex c r hr]
    exact ⟨rfl, rfl, (lexer_rest_cons lex c r hr).1⟩

theorem lexer_reads_block_comment :
    ∀ (fuel : Nat) (lex : lexer_t), lex.length - lex.pos < fuel →
      ∃ cs, lexer_reads lex (lexer_block_comment fuel lex).1 cs ∧
        ((lexer_block_comment fuel lex).2 = false →
          (lexer_block_comment fuel lex).1.had_error = true) := by
  intro fuel
  induction fuel with
  | zero => intro lex h; omega
  | succ fuel ih =>
    intro lex hf
    obtain ⟨c1, h1⟩ := lexer_reads_advance' lex
    obtain ⟨c2, h2⟩ := lexer_reads_advance' (lexer_advance lex).2
    simp only [lexer_block_comment]
    split
    · exact ⟨[], lexer_reads_error (lexer_reads_refl lex) _ rfl, fun _ => rfl⟩
    · rename_i hp
      split
      · exact ⟨_, lexer_reads_trans h1 h2, fun h => by cases h⟩
      · obtain ⟨e1, e2, e0⟩ := lexer_advance_pos lex hp
        obtain ⟨c3, h3, e3⟩ := ih (lexer_advance lex).2 (by rw [e1, e2]; omega)
        exact ⟨_, lexer_reads_trans h1 h3, e3⟩

/-! ## The lexer: one token, in general -/

theorem lexer_token_eof_nil (lex : lexer_t) (h : lex.rest = []) :
    lexer_token lex = (lexer_append lex ⟨"", 0, TOKEN_EOF, lex.loc⟩, false) := by
  unfold lexer_token
  rw [lexer_advance_of_nil lex h]
  simp

theorem lexer_token_eof_char (lex : lexer_t) (c : Char) (r : List Char) (h : lex.rest = c :: r)
    (hc : c.toNat > 127 ∨ c = '\x00') :
    lexer_token lex = (lexer_append (lexer_read lex [c]) ⟨"", 0, TOKEN_EOF, lex.loc⟩, false) := by
  have hfile : (lexer_read lex [c]).loc.filename = lex.loc.filename := loc_after_filename _ _
  unfold lexer_token
  rw [lexer_advance_of_cons lex c r h]
  have : (if c.toNat > 127 then '\x00' else c) = '\x00' := by
    rcases hc with hc | hc
    · rw [if_pos hc]
    · rw [hc]; rfl
  simp only [this, if_true, hfile]

theorem lexer_token_string (lex : lexer_t) (q : Char) (r : List Char) (h : lex.rest = q :: r)
    (hq : q = '"' ∨ q = '\'') :
    lexer_token lex =
      match lexer_string_body q ((lexer_read lex [q]).length - (lexer_read lex [q]).pos)
          (lexer_read lex [q]) [] with
      | (lex', none) => (lex', false)
      | (lex', some buf) =>
        if lexer_peek lex' ≠ q then
          (LEXER_ERROR { lex' with
            loc := { lex'.loc with line := lex.loc.line, column := lex.loc.column } }, false)
        else
          (lexer_append (lexer_advance lex').2
            ⟨String.mk buf, buf.length, TOKEN_STRING_LITERAL, lex.loc⟩, true) := by
  have hfile : (lexer_read lex [q]).loc.filename = lex.loc.filename := loc_after_filename _ _
  have h1 : ¬ q.toNat > 127 := by rcases hq with rfl | rfl <;> decide
  have h2 : q ≠ '\x00' := by rcases hq with rfl | rfl <;> decide
  unfold lexer_token
  rw [lexer_advance_of_cons lex q r h]
  simp only [if_neg h1, if_neg h2, hq, if_true, hfile]
  try rfl

/-- The characters at which the round goes to the `switch` over operators. -/
theorem lexer_token_other (lex : lexer_t) (c : Char) (r : List Char) (h : lex.rest = c :: r)
    (h1 : ¬ c.toNat > 127) (h2 : c ≠ '\x00') (h3 : c ≠ '"') (h4 : c ≠ '\'')
    (h5 : isdigit c = false) (h6 : isalpha c = false) (h7 : c ≠ '_') (h8 : c ≠ '$') :
    lexer_token lex =
      match lexer_operator (lexer_read lex [c]) c with
      | (lex', some (type, value, length)) =>
        (lexer_append lex' ⟨value, length, type, lex.loc⟩, true)
      | (lex', none) =>
        (LEXER_ERROR { lex' with
          loc := { lex'.loc with line := lex.loc.line, column := lex.loc.column } }, false) := by
  have hfile : (lexer_read lex [c]).loc.filename = lex.loc.filename := loc_after_filename _ _
  unfold lexer_token
  rw [lexer_advance_of_cons lex c r h]
  simp only [if_neg h1, if_neg h2, h3, h4, h5, h6, h7, h8, or_self, if_false, hfile,
    Bool.false_eq_true]
  try rfl

theorem lexer_reads_tokens {a b : lexer_t} {cs : List Char} (h : lexer_reads a b cs) :
    { b with tokens := a.tokens } = b := by
  obtain ⟨_, _, _, h4, _⟩ := h
  cases b
  simp only at h4
  simp [h4]

theorem lexer_reads_append {a b : lexer_t} {cs : List Char} (h : lexer_reads a b cs)
    (t : token_t) : lexer_reads a { lexer_append b t with tokens := a.tokens } cs := by
  have : { lexer_append b t with tokens := a.tokens } = { b with tokens := a.tokens } := rfl
  rw [this, lexer_reads_tokens h]
  exact h

theorem ite_ne_of {α : Type} {c : Prop} [Decidable c] {a b x : α} (ha : a ≠ x) (hb : b ≠ x) :
    (if c then a else b) ≠ x := by
  split <;> assumption

theorem keyword_type_ne_eof (value : List Char) (n : Nat) : keyword_type value n ≠ TOKEN_EOF := by
  unfold keyword_type
  repeat (refine ite_ne_of (fun h => token_type_t.noConfusion h) ?_)
  exact fun h => token_type_t.noConfusion h

theorem operator_table_ne_eof :
    ∀ p ∈ operator_table, p.1 ≠ TOKEN_EOF ∧ (p.1 = TOKEN_ARROW → p.2 = "=>") := by decide

theorem token_round_of_read (lex : lexer_t) (text tail : List Char) (t : token_t)
    (h : lex.rest = text ++ tail) (hne : text ≠ []) (hloc : t.loc = lex.loc)
    (hty : t.type ≠ TOKEN_EOF) (hat : token_at t text) :
    token_round lex (lexer_append (lexer_read lex text) t) true text :=
  ⟨lexer_reads_append (lexer_reads_read lex text tail h) t,
    Or.inr (Or.inr ⟨rfl, hne, t, rfl, hloc, hty, hat⟩)⟩

theorem token_round_eof_nil (lex : lexer_t) (h : lex.rest = []) :
    token_round lex (lexer_token lex).1 (lexer_token lex).2 [] := by
  rw [lexer_token_eof_nil lex h]
  exact ⟨lexer_reads_append (lexer_reads_refl lex) _,
    Or.inr (Or.inl ⟨rfl, _, rfl, rfl, rfl, fun _ => Or.inl rfl, fun _ => h⟩)⟩

theorem token_round_eof_char (lex : lexer_t) (c : Char) (r : List Char) (h : lex.rest = c :: r)
    (hc : c.toNat > 127 ∨ c = '\x00') :
    token_round lex (lexer_token lex).1 (lexer_token lex).2 [c] := by
  rw [lexer_token_eof_char lex c r h hc]
  refine ⟨lexer_reads_append (lexer_reads_read lex [c] r h) _,
    Or.inr (Or.inl ⟨rfl, _, rfl, rfl, rfl, ?_, fun h => by cases h⟩)⟩
  intro he
  have he' : (lexer_read lex [c]).had_error = false := he
  have := ((lexer_read_had_error lex [c]).mp he').2 c (List.mem_singleton_self c)
  rcases hc with hc | hc
  · omega
  · right; rw [hc]

theorem token_round_number (lex : lexer_t) (d : Char) (r : List Char) (h : lex.rest = d :: r)
    (hd : isdigit d = true) :
    ∃ cs, token_round lex (lexer_token lex).1 (lexer_token lex).2 cs := by
  have hsplit := (List.takeWhile_append_dropWhile in_number r).symm
  have hds : ∀ x ∈ r.takeWhile in_number, in_number x = true := fun x hx =>
    List.mem_takeWhile_imp hx
  have hrem := headD_dropWhile in_number r (by decide)
  by_cases hdot : (r.dropWhile in_number).headD '\x00' = '.'
  · obtain ⟨rem2, hrem2⟩ : ∃ rem2, r.dropWhile in_number = '.' :: rem2 := by
      cases hx : r.dropWhile in_number with
      | nil => rw [hx] at hdot; cases hdot
      | cons a b =>
        rw [hx] at hdot
        simp only [List.headD_cons] at hdot
        exact ⟨b, by rw [hdot]⟩
    have hsplit2 := (List.takeWhile_append_dropWhile in_number rem2).symm
    have hfs : ∀ x ∈ rem2.takeWhile in_number, in_number x = true := fun x hx =>
      List.mem_takeWhile_imp hx
    have hrest : lex.rest = d :: r.takeWhile in_number ++ '.' :: rem2.takeWhile in_number ++
        rem2.dropWhile in_number := by
      rw [h]
      conv_lhs => rw [hsplit, hrem2, hsplit2]
      simp
    rw [lexer_token_number_frac lex d _ _ _ hrest hd hds hfs
      (headD_dropWhile in_number rem2 (by decide))]
    exact ⟨_, token_round_of_read lex _ _ _ hrest (by simp) rfl
      (fun h => token_type_t.noConfusion h)
      (Or.inr (Or.inr ⟨Or.inr (Or.inl ⟨⟨d, _, hd, hds, Or.inr ⟨_, hfs, rfl⟩⟩, rfl⟩),
        List.prefix_refl _, by simp [String.length]; omega⟩))⟩
  · have hrest : lex.rest = d :: r.takeWhile in_number ++ r.dropWhile in_number := by
      rw [h]
      conv_lhs => rw [hsplit]
      simp
    rw [lexer_token_number_int lex d _ _ hrest hd hds hrem hdot]
    exact ⟨_, token_round_of_read lex _ _ _ hrest (by simp) rfl
      (fun h => token_type_t.noConfusion h)
      (Or.inr (Or.inr ⟨Or.inr (Or.inl ⟨⟨d, _, hd, hds, Or.inl rfl⟩, rfl⟩),
        List.prefix_refl _, by simp [String.length]⟩))⟩

theorem token_round_identifier (lex : lexer_t) (c : Char) (r : List Char) (h : lex.rest = c :: r)
    (hc : isalpha c = true ∨ c = '_' ∨ c = '$') :
    ∃ cs, token_round lex (lexer_token lex).1 (lexer_token lex).2 cs := by
  have hsplit := (List.takeWhile_append_dropWhile in_identifier r).symm
  have hcs : ∀ x ∈ r.takeWhile in_identifier, in_identifier x = true := fun x hx =>
    List.mem_takeWhile_imp hx
  have hrest : lex.rest = c :: r.takeWhile in_identifier ++ r.dropWhile in_identifier := by
    rw [h]
    conv_lhs => rw [hsplit]
    simp
  rw [lexer_token_identifier lex c _ _ hrest hc hcs (headD_dropWhile in_identifier r (by decide))]
  exact ⟨_, token_round_of_read lex _ _ _ hrest (by simp) rfl (keyword_type_ne_eof _ _)
    (Or.inr (Or.inr ⟨Or.inl ⟨⟨c, _, rfl, hc, hcs⟩, by simp⟩,
      List.prefix_refl _, by simp [String.length]⟩))⟩

theorem token_round_string (lex : lexer_t) (q : Char) (r : List Char) (h : lex.rest = q :: r)
    (hq : q = '"' ∨ q = '\'') :
    ∃ cs, token_round lex (lexer_token lex).1 (lexer_token lex).2 cs := by
  rw [lexer_token_string lex q r h hq]
  have h0 := lexer_reads_read lex [q] r h
  obtain ⟨c3, h3, e3⟩ := lexer_reads_string_body q
    ((lexer_read lex [q]).length - (lexer_read lex [q]).pos) (lexer_read lex [q]) []
  generalize lexer_string_body q ((lexer_read lex [q]).length - (lexer_read lex [q]).pos)
    (lexer_read lex [q]) [] = res at h3 e3
  obtain ⟨s2, ob⟩ := res
  have h03 := lexer_reads_trans h0 h3
  cases ob with
  | none =>
    refine ⟨[q] ++ c3, ?_, Or.inl ⟨rfl, h03.2.2.2.1, e3 rfl⟩⟩
    show lexer_reads lex { s2 with tokens := lex.tokens } _
    rw [lexer_reads_tokens h03]
    exact h03
  | some buf =>
    dsimp only
    split
    · have := lexer_reads_error h03
        { s2.loc with line := lex.loc.line, column := lex.loc.column } rfl
      refine ⟨[q] ++ c3, ?_, Or.inl ⟨rfl, this.2.2.2.1, rfl⟩⟩
      rw [lexer_reads_tokens this]
      exact this
    · obtain ⟨c4, h4⟩ := lexer_reads_advance' s2
      have h04 := lexer_reads_trans h03 h4
      exact ⟨_, lexer_reads_append h04 _,
        Or.inr (Or.inr ⟨rfl, by simp, _, congrArg (· ++ _) h04.2.2.2.1, rfl,
          fun h => token_type_t.noConfusion h, Or.inl ⟨rfl, q, c3 ++ c4, by simp, hq⟩⟩)⟩

theorem token_round_operator (lex : lexer_t) (c : Char) (r : List Char) (h : lex.rest = c :: r)
    (h1 : ¬ c.toNat > 127) (h2 : c ≠ '\x00') (h3 : c ≠ '"') (h4 : c ≠ '\'')
    (h5 : isdigit c = false) (h6 : isalpha c = false) (h7 : c ≠ '_') (h8 : c ≠ '$') :
    ∃ cs, token_round lex (lexer_token lex).1 (lexer_token lex).2 cs := by
  rw [lexer_token_other lex c r h h1 h2 h3 h4 h5 h6 h7 h8]
  obtain ⟨cs, r', hr, _, _, hs, hres⟩ :=
    lexer_operator_spec c (lexer_read lex [c]) (lexer_operator (lexer_read lex [c]) c) rfl
  generalize lexer_operator (lexer_read lex [c]) c = res at hs hres
  obtain ⟨s2, ob⟩ := res
  dsimp only at hs hres
  rw [lexer_rest_read lex [c] r h] at hr
  have hrest : lex.rest = (c :: cs) ++ r' := by rw [h, hr]; rfl
  have hs2 : s2 = lexer_read lex (c :: cs) := by rw [hs, lexer_read_append]; rfl
  subst hs2
  rcases hres with hn | ⟨ty, text, hsome, hmem, hpre, harrow⟩
  · subst hn
    dsimp only
    have := lexer_reads_error (lexer_reads_read lex (c :: cs) r' hrest)
      { (lexer_read lex (c :: cs)).loc with line := lex.loc.line, column := lex.loc.column } rfl
    refine ⟨c :: cs, ?_, Or.inl ⟨rfl, this.2.2.2.1, rfl⟩⟩
    rw [lexer_reads_tokens this]
    exact this
  · subst hsome
    dsimp only
    obtain ⟨hne, hv⟩ := operator_table_ne_eof _ hmem
    refine ⟨_, token_round_of_read lex (c :: cs) r' _ hrest (by simp) rfl hne ?_⟩
    by_cases ha : ty = TOKEN_ARROW
    · obtain ⟨hc, hcs⟩ := harrow ha
      exact Or.inr (Or.inl ⟨ha, hv ha, by rw [hc, hcs]⟩)
    · exact Or.inr (Or.inr ⟨Or.inr (Or.inr ⟨hmem, ha⟩), hpre ha, rfl⟩)

/-- Every round from a token start is a `token_round`. -/
theorem lexer_token_spec (lex : lexer_t) :
    ∃ cs, token_round lex (lexer_token lex).1 (lexer_token lex).2 cs := by
  cases h : lex.rest with
  | nil => exact ⟨[], token_round_eof_nil lex h⟩
  | cons c r =>
    by_cases h1 : c.toNat > 127
    · exact ⟨_, token_round_eof_char lex c r h (Or.inl h1)⟩
    by_cases h2 : c = '\x00'
    · exact ⟨_, token_round_eof_char lex c r h (Or.inr h2)⟩
    by_cases hq : c = '"' ∨ c = '\''
    · exact token_round_string lex c r h hq
    by_cases h5 : isdigit c = true
    · exact token_round_number lex c r h h5
    by_cases h6 : isalpha c = true ∨ c = '_' ∨ c = '$'
    · exact token_round_identifier lex c r h h6
    simp only [not_or, Bool.not_eq_true] at hq h5 h6
    exact token_round_operator lex c r h h1 h2 hq.1 hq.2 h5 h6.1 h6.2.1 h6.2.2

/-! ## The lexer: the rounds of `lexer_tokenize` -/

theorem lexer_reads_advance_ne (lex : lexer_t) (h : lexer_peek lex ≠ '\x00') :
    ∃ cs, lexer_reads lex (lexer_advance lex).2 cs ∧ cs ≠ [] := by
  obtain ⟨cs, h1, _, h3⟩ := lexer_reads_advance lex
  refine ⟨cs, h1, ?_⟩
  have hne : lex.rest ≠ [] := fun hn => h (lexer_peek_of_nil lex hn)
  intro hc
  have := h3 hne
  rw [hc] at this
  cases this

theorem step_round_intro (lex s1 lex' : lexer_t) (cont : Bool) (cs : List Char)
    (hs1 : lexer_read lex (lex.rest.takeWhile isspace) = s1)
    (h : (cont = true ∧ cs ≠ [] ∧ lexer_reads s1 lex' cs) ∨ token_round s1 lex' cont cs) :
    step_round lex lex' cont := by
  subst hs1
  refine ⟨_, _, cs, (List.takeWhile_append_dropWhile isspace lex.rest).symm,
    fun x hx => List.mem_takeWhile_imp hx, ?_⟩
  rcases h with h | h
  · exact Or.inl h
  · exact Or.inr ⟨headD_dropWhile isspace lex.rest (by decide), h⟩

/-- Every round of the `while (true)` is a `step_round`. -/
theorem lexer_step_spec (lex : lexer_t) :
    step_round lex (lexer_step lex).1 (lexer_step lex).2 := by
  have hw := lexer_advance_while_eq isspace (by decide) lex (lex.length - lex.pos) (le_refl _)
  generalize hres : lexer_step lex = res
  unfold lexer_step at hres
  simp only [hw] at hres
  generalize hs1 : lexer_read lex (lex.rest.takeWhile isspace) = s1 at hres
  split at hres
  · rename_i hp
    have hp0 : lexer_peek s1 ≠ '\x00' := by rw [hp.1]; decide
    obtain ⟨c1, h1, hne⟩ := lexer_reads_advance_ne s1 hp0
    obtain ⟨c2, h2⟩ := lexer_reads_advance' (lexer_advance s1).2
    have h12 := lexer_reads_trans h1 h2
    split at hres
    · -- a `//` comment
      have h3 := lexer_reads_advance_while in_line_comment (by decide)
        (lexer_advance (lexer_advance s1).2).2
        ((lexer_advance (lexer_advance s1).2).2.length - (lexer_advance (lexer_advance s1).2).2.pos)
        (le_refl _)
      subst hres
      exact step_round_intro lex s1 _ _ _ hs1
        (Or.inl ⟨rfl, by simp [hne], lexer_reads_trans h12 h3⟩)
    · split at hres
      · -- a `/* */` comment
        obtain ⟨c3, h3, e3⟩ := lexer_reads_block_comment
          ((lexer_advance (lexer_advance s1).2).2.length -
            (lexer_advance (lexer_advance s1).2).2.pos + 1)
          (lexer_advance (lexer_advance s1).2).2 (by omega)
        rw [hres] at h3 e3
        have h13 := lexer_reads_trans h12 h3
        obtain ⟨s3, ok⟩ := res
        cases ok with
        | true =>
          exact step_round_intro lex s1 _ _ (c1 ++ c2 ++ c3) hs1
            (Or.inl ⟨rfl, by simp [hne], h13⟩)
        | false =>
          refine step_round_intro lex s1 _ _ (c1 ++ c2 ++ c3) hs1
            (Or.inr ⟨?_, Or.inl ⟨rfl, h13.2.2.2.1, e3 rfl⟩⟩)
          show lexer_reads s1 { s3 with tokens := s1.tokens } _
          rw [lexer_reads_tokens h13]
          exact h13
      · obtain ⟨cs, hcs⟩ := lexer_token_spec s1
        subst hres
        exact step_round_intro lex s1 _ _ cs hs1 (Or.inr hcs)
  · obtain ⟨cs, hcs⟩ := lexer_token_spec s1
    subst hres
    exact step_round_intro lex s1 _ _ cs hs1 (Or.inr hcs)

theorem lexer_reads_rest_length {a b : lexer_t} {cs : List Char} (h : lexer_reads a b cs) :
    a.rest.length = cs.length + b.rest.length := by
  rw [h.1, List.length_append]

theorem step_round_progress {lex lex' : lexer_t} (h : step_round lex lex' true) :
    lex'.rest.length < lex.rest.length := by
  obtain ⟨ws, r, cs, hrest, _, h⟩ := h
  have h0 := lexer_reads_rest_length (lexer_reads_read lex ws r hrest)
  rcases h with ⟨_, hne, hr⟩ | ⟨_, hr, ht⟩
  · have h1 := lexer_reads_rest_length hr
    have : 0 < cs.length := List.length_pos.mpr hne
    omega
  · have h1 := lexer_reads_rest_length hr
    have h2 : ({ lex' with tokens := (lexer_read lex ws).tokens } : lexer_t).rest = lex'.rest := rfl
    rw [h2] at h1
    rcases ht with ⟨hc, _⟩ | ⟨hc, _⟩ | ⟨_, hne, _⟩
    · cases hc
    · cases hc
    · have : 0 < cs.length := List.length_pos.mpr hne
      omega

/-- With fuel above the length of the rest, the loop of `lexer_tokenize`
reaches its `break` or `return`, by rounds that are `step_round`s. -/
theorem lexer_tokenize_loop_run :
    ∀ (fuel : Nat) (lex : lexer_t), lex.rest.length < fuel →
      ∃ lex', lexer_tokenize_loop fuel lex = some lex' ∧ lexer_run lex lex' := by
  intro fuel
  induction fuel with
  | zero => intro lex h; omega
  | succ fuel ih =>
    intro lex hf
    have hs := lexer_step_spec lex
    simp only [lexer_tokenize_loop]
    generalize lexer_step lex = res at hs
    obtain ⟨mid, cont⟩ := res
    cases cont with
    | false => exact ⟨mid, rfl, lexer_run.stop lex mid hs⟩
    | true =>
      have hp : mid.rest.length < lex.rest.length := step_round_progress hs
      obtain ⟨lex', h1, h2⟩ := ih mid (by omega)
      exact ⟨lex', h1, lexer_run.step lex mid lex' hs h2⟩

/-- `lexer_tokenize` returns, and what it returns is the end of a run. -/
theorem lexer_tokenize_run (lex : lexer_t) :
    ∃ lex', lexer_tokenize lex = some lex' ∧ lexer_run lex lex' := by
  unfold lexer_tokenize
  apply lexer_tokenize_loop_run
  rw [lexer_rest_length]
  omega

/-! ## The lexer: the token list of a run -/

theorem step_round_tokens {lex lex' : lexer_t} (h : step_round lex lex' true) :
    lex'.tokens = lex.tokens ∨
      ∃ t cs, lex'.tokens = lex.tokens ++ [t] ∧ t.type ≠ TOKEN_EOF ∧ token_at t cs := by
  obtain ⟨ws, r, cs, _, _, h⟩ := h
  rcases h with ⟨_, _, hr⟩ | ⟨_, _, ht⟩
  · exact Or.inl hr.2.2.2.1
  · rcases ht with ⟨hc, _⟩ | ⟨hc, _⟩ | ⟨_, _, t, ht, _, hty, hat⟩
    · cases hc
    · cases hc
    · exact Or.inr ⟨t, cs, ht, hty, hat⟩

theorem step_round_stop {lex lex' : lexer_t} (h : step_round lex lex' false)
    (he : lex'.had_error = false) :
    ∃ t, lex'.tokens = lex.tokens ++ [t] ∧ t.type = TOKEN_EOF := by
  obtain ⟨ws, r, cs, _, _, h⟩ := h
  rcases h with ⟨hc, _⟩ | ⟨_, _, ht⟩
  · cases hc
  · rcases ht with ⟨_, _, herr⟩ | ⟨_, t, ht, hty, _⟩ | ⟨hc, _⟩
    · rw [he] at herr; cases herr
    · exact ⟨t, ht, hty⟩
    · cases hc

theorem lexer_run_tokens {lex lex' : lexer_t} (h : lexer_run lex lex')
    (he : lex'.had_error = false) :
    ∃ toks eof, lex'.tokens = lex.tokens ++ toks ++ [eof] ∧ eof.type = TOKEN_EOF ∧
      ∀ t ∈ toks, t.type ≠ TOKEN_EOF := by
  induction h with
  | stop lex lex' hs =>
    obtain ⟨t, ht, hty⟩ := step_round_stop hs he
    exact ⟨[], t, by simpa using ht, hty, by simp⟩
  | step lex mid lex' hs _ ih =>
    obtain ⟨toks, eof, h1, h2, h3⟩ := ih he
    rcases step_round_tokens hs with hm | ⟨t, _, hm, hty, _⟩
    · exact ⟨toks, eof, by rw [h1, hm], h2, h3⟩
    · refine ⟨t :: toks, eof, by rw [h1, hm]; simp, h2, ?_⟩
      intro x hx
      rcases List.mem_cons.mp hx with rfl | hx
      · exact hty
      · exact h3 x hx

/-- C11: `lexer_init` returns for every source text, and when it has not set
`had_error` the token list is not empty, its last token has type `TOKEN_EOF`
and no other token of the list has. -/
theorem C11_token_list_ends_in_eof (filename : Option String) (source : List Char) :
    ∃ lex, lexer_init filename source = some lex ∧
      (lex.had_error = false →
        ∃ toks eof, lex.tokens = toks ++ [eof] ∧ eof.type = TOKEN_EOF ∧
          ∀ t ∈ toks, t.type ≠ TOKEN_EOF) := by
  obtain ⟨lex, h1, h2⟩ := lexer_tokenize_run
    { tokens := [], source := c_string source, loc := ⟨filename.getD "(null)", 1, 1⟩,
      pos := 0, had_error := false }
  refine ⟨lex, h1, fun he => ?_⟩
  obtain ⟨toks, eof, h3, h4, h5⟩ := lexer_run_tokens h2 he
  exact ⟨toks, eof, by simpa using h3, h4, h5⟩

/-! ## The lexer: identifiers and keywords -/

theorem keyword_step {value : List Char} {k : String} {ty R1 R2 : token_type_t} {n : Nat}
    (hk : k.data.length = n) (h : R1 = R2) :
    (if value.length = n ∧ strncmp_eq value k.data n = true then ty else R1) =
      (if String.mk value = k then ty else R2) := by
  subst h
  have : (value.length = n ∧ strncmp_eq value k.data n = true) ↔ String.mk value = k := by
    constructor
    · rintro ⟨h1, h2⟩
      simp only [strncmp_eq, decide_eq_true_eq] at h2
      rw [← h1, List.take_length, h1, ← hk, List.take_length] at h2
      rw [h2]
    · rintro rfl
      exact ⟨hk, by simp [strncmp_eq]⟩
  simp only [this]

theorem lookup_cons_getD (a k : String) (v d : token_type_t) (es : List (String × token_type_t)) :
    (List.lookup a ((k, v) :: es)).getD d = if a = k then v else (List.lookup a es).getD d := by
  by_cases h : a = k
  · have hb : (a == k) = true := by simp [h]
    simp only [List.lookup, hb, if_pos h, Option.getD_some]
  · have hb : (a == k) = false := by simp [h]
    simp only [List.lookup, hb, if_neg h]

/-- The chain of comparisons of the lexer is the keyword table. -/
theorem keyword_type_eq (value : List Char) :
    keyword_type value value.length = lexeme_type (String.mk value) := by
  unfold keyword_type lexeme_type keyword_table
  repeat (rw [lookup_cons_getD]; refine keyword_step rfl ?_)
  rfl

/-! ## The lexer: identifiers, keywords and numbers at a token start -/

theorem opens_comment_of_head (r : List Char) (h : r.headD '\x00' ≠ '/') :
    opens_comment r = false := by
  match r, h with
  | [], _ => rfl
  | [_], _ => rfl
  | a :: b :: _, h =>
    have : a ≠ '/' := h
    simp [opens_comment, this]

theorem takeWhile_length_of_isPrefix (p : Char → Bool) (xs l : List Char)
    (hx : ∀ x ∈ xs, p x = true) (h : xs <+: l) : xs.length ≤ (l.takeWhile p).length := by
  obtain ⟨t, rfl⟩ := h
  induction xs with
  | nil => simp
  | cons x xs ih =>
    have hpx : p x = true := hx x (List.mem_cons_self _ _)
    simp only [List.cons_append, List.takeWhile_cons, hpx, if_true, List.length_cons]
    exact Nat.succ_le_succ (ih (fun y hy => hx y (List.mem_cons_of_mem _ hy)))

theorem takeWhile_of_split (p : Char → Bool) (xs zs : List Char) (y : Char)
    (hx : ∀ x ∈ xs, p x = true) (hy : p y = false) :
    (xs ++ y :: zs).takeWhile p = xs ∧ (xs ++ y :: zs).dropWhile p = y :: zs := by
  induction xs with
  | nil => simp [List.takeWhile_cons, List.dropWhile_cons, hy]
  | cons x xs ih =>
    have hpx : p x = true := hx x (List.mem_cons_self _ _)
    obtain ⟨i1, i2⟩ := ih (fun y hy => hx y (List.mem_cons_of_mem _ hy))
    simp only [List.cons_append, List.takeWhile_cons, List.dropWhile_cons, hpx, if_true, i1, i2,
      and_self]

theorem isspace_of_start (c : Char) (hc : isalpha c = true ∨ isdigit c = true ∨ c = '_' ∨ c = '$') :
    isspace c = false ∧ c ≠ '/' := by
  rcases hc with h | h | h | h
  · simp only [isalpha, Bool.or_eq_true, Bool.and_eq_true, decide_eq_true_eq] at h
    constructor
    · simp only [isspace, Bool.or_eq_false_iff, decide_eq_false_iff_not, Bool.and_eq_false_iff]
      omega
    · rintro rfl
      revert h
      decide
  · simp only [isdigit, Bool.and_eq_true, decide_eq_true_eq] at h
    constructor
    · simp only [isspace, Bool.or_eq_false_iff, decide_eq_false_iff_not, Bool.and_eq_false_iff]
      omega
    · rintro rfl
      revert h
      decide
  · subst h
    exact ⟨by decide, by decide⟩
  · subst h
    exact ⟨by decide, by decide⟩

/-- C12: at a token start (after any whitespace `ws`), a lexeme `c :: cs` of the
form `[A-Za-z_$][A-Za-z0-9_$]*` that the next character does not continue makes
one round of the lexer append one token: its text is the lexeme, its length the
number of characters of the lexeme, its location that of the lexeme's first
character, and its type the one the keyword table gives the lexeme
(`TOKEN_BOOL_LITERAL` for `true` and `false`), `TOKEN_IDENTIFIER` when the
lexeme is not in the table. -/
theorem C12_identifier_or_keyword (lex : lexer_t) (ws : List Char) (c : Char) (cs tail : List Char)
    (h : lex.rest = ws ++ (c :: cs ++ tail)) (hws : ∀ x ∈ ws, isspace x = true)
    (hc : isalpha c = true ∨ c = '_' ∨ c = '$')
    (hcs : ∀ x ∈ cs, in_identifier x = true) (ht : in_identifier (tail.headD '\x00') = false) :
    lexer_step lex =
      (lexer_append (lexer_read lex (ws ++ c :: cs))
        ⟨String.mk (c :: cs), (c :: cs).length, lexeme_type (String.mk (c :: cs)),
          (lexer_read lex ws).loc⟩, true) := by
  have hc' : isalpha c = true ∨ isdigit c = true ∨ c = '_' ∨ c = '$' := by
    rcases hc with h | h | h
    · exact Or.inl h
    · exact Or.inr (Or.inr (Or.inl h))
    · exact Or.inr (Or.inr (Or.inr h))
  obtain ⟨s1, s2⟩ := isspace_of_start c hc'
  rw [lexer_step_of_token lex ws (c :: cs ++ tail) h hws s1 (opens_comment_of_head _ s2),
    lexer_token_identifier (lexer_read lex ws) c cs tail (lexer_rest_read lex ws _ h) hc hcs ht,
    ← lexer_read_append]
  have := keyword_type_eq (c :: cs)
  simp only [List.length_cons] at this ⊢
  rw [this]

/-- C12 at the source `while1 ` read from its start: one identifier token. -/
theorem C12_identifier_or_keyword_witness :
    lexer_step ⟨[], "while1 ".data, ⟨"a.rose", 1, 1⟩, 0, false⟩ =
      (lexer_append (lexer_read ⟨[], "while1 ".data, ⟨"a.rose", 1, 1⟩, 0, false⟩ ([] ++ 'w' :: "hile1".data))
        ⟨String.mk ('w' :: "hile1".data), ('w' :: "hile1".data).length,
          lexeme_type (String.mk ('w' :: "hile1".data)),
          (lexer_read ⟨[], "while1 ".data, ⟨"a.rose", 1, 1⟩, 0, false⟩ []).loc⟩, true) :=
  C12_identifier_or_keyword ⟨[], "while1 ".data, ⟨"a.rose", 1, 1⟩, 0, false⟩ [] 'w' "hile1".data [' ']
    (by decide) (by decide) (by decide) (by decide) (by decide)

/-- C15: at a token start (after any whitespace `ws`) where a digit `d` is the
next character, one round of the lexer appends one `TOKEN_NUMBER_LITERAL`
token whose text is the longest start of the remaining input of the form digit,
digits and underscores, and maybe one `.` with digits and underscores after it;
the length field is the number of characters of the text and the lexer has read
the whitespace and the text, no more. -/
theorem C15_number_literal (lex : lexer_t) (ws : List Char) (d : Char) (r : List Char)
    (h : lex.rest = ws ++ d :: r) (hws : ∀ x ∈ ws, isspace x = true) (hd : isdigit d = true) :
    ∃ text tail, d :: r = text ++ tail ∧ number_shape text ∧
      (∀ other, number_shape other → other <+: d :: r → other.length ≤ text.length) ∧
      lexer_step lex =
        (lexer_append (lexer_read lex (ws ++ text))
          ⟨String.mk text, text.length, TOKEN_NUMBER_LITERAL, (lexer_read lex ws).loc⟩, true) := by
  obtain ⟨s1, s2⟩ := isspace_of_start d (Or.inr (Or.inl hd))
  have hstep := lexer_step_of_token lex ws (d :: r) h hws s1 (opens_comment_of_head _ s2)
  have hrest := lexer_rest_read lex ws _ h
  have hsplit : r = r.takeWhile in_number ++ r.dropWhile in_number :=
    (List.takeWhile_append_dropWhile _ _).symm
  have hds : ∀ x ∈ r.takeWhile in_number, in_number x = true := fun x hx => List.mem_takeWhile_imp hx
  have hrem := headD_dropWhile in_number r (by decide)
  have hdot : in_number '.' = false := by decide
  generalize hdsd : r.takeWhile in_number = ds at hsplit hds
  generalize hremd : r.dropWhile in_number = rem at hsplit hrem
  -- what a shape that starts the input looks like
  have hshape : ∀ other, number_shape other → other <+: d :: r →
      (∃ ds', other = d :: ds' ∧ ds'.length ≤ ds.length) ∨
      (∃ fs' t, other = d :: ds ++ '.' :: fs' ∧ (∀ x ∈ fs', in_number x = true) ∧
        rem = '.' :: (fs' ++ t)) := by
    rintro other ⟨d', ds', -, hds', hother⟩ hpre
    rcases hother with rfl | ⟨fs', hfs', rfl⟩
    · obtain ⟨t, ht⟩ := hpre
      simp only [List.cons_append, List.cons.injEq] at ht
      obtain ⟨rfl, ht⟩ := ht
      refine Or.inl ⟨ds', rfl, ?_⟩
      rw [← hdsd]
      exact takeWhile_length_of_isPrefix in_number ds' r hds' ⟨t, ht⟩
    · obtain ⟨t, ht⟩ := hpre
      simp only [List.cons_append, List.append_assoc, List.cons.injEq] at ht
      obtain ⟨rfl, ht⟩ := ht
      obtain ⟨e1, e2⟩ := takeWhile_of_split in_number ds' (fs' ++ t) '.' hds' hdot
      rw [ht] at e1 e2
      rw [hdsd] at e1
      rw [hremd] at e2
      subst e1
      exact Or.inr ⟨fs', t, rfl, hfs', e2⟩
  by_cases hp : rem.headD '\x00' = '.'
  · match rem, hp, hsplit, hrem, hshape with
    | [], hp, _, _, _ => exact absurd hp (by decide)
    | x :: r2, hp, hsplit, hrem, hshape =>
      have hx : x = '.' := hp
      subst hx
      have hsplit2 : r2 = r2.takeWhile in_number ++ r2.dropWhile in_number :=
        (List.takeWhile_append_dropWhile _ _).symm
      have hfs : ∀ x ∈ r2.takeWhile in_number, in_number x = true :=
        fun x hx => List.mem_takeWhile_imp hx
      have hrem2 := headD_dropWhile in_number r2 (by decide)
      refine ⟨d :: ds ++ '.' :: r2.takeWhile in_number, r2.dropWhile in_number, ?_, ?_, ?_, ?_⟩
      · rw [hsplit]
        simp only [List.cons_append, List.append_assoc, List.cons.injEq, true_and,
          List.append_cancel_left_eq]
        exact hsplit2
      · exact ⟨d, ds, hd, hds, Or.inr ⟨_, hfs, rfl⟩⟩
      · intro other ho hpre
        rcases hshape other ho hpre with ⟨ds', rfl, hl⟩ | ⟨fs', t, rfl, hfs', e⟩
        · simp only [List.length_cons, List.cons_append, List.length_append]
          omega
        · simp only [List.cons.injEq, true_and] at e
          have := takeWhile_length_of_isPrefix in_number fs' r2 hfs' ⟨t, e.symm⟩
          simp only [List.length_cons, List.cons_append, List.length_append]
          omega
      · rw [hstep, lexer_token_number_frac (lexer_read lex ws) d ds (r2.takeWhile in_number)
          (r2.dropWhile in_number) (by
            rw [hrest, hsplit]
            simp only [List.cons_append, List.append_assoc, List.cons.injEq, true_and,
              List.append_cancel_left_eq]
            exact hsplit2) hd hds hfs hrem2, lexer_read_append lex ws]
        have : (d :: ds ++ '.' :: List.takeWhile in_number r2).length =
            ds.length + (List.takeWhile in_number r2).length + 2 := by
          simp only [List.length_cons, List.cons_append, List.length_append]
          omega
        rw [this]
  · refine ⟨d :: ds, rem, ?_, ?_, ?_, ?_⟩
    · rw [hsplit]
      rfl
    · exact ⟨d, ds, hd, hds, Or.inl rfl⟩
    · intro other ho hpre
      rcases hshape other ho hpre with ⟨ds', rfl, hl⟩ | ⟨fs', t, rfl, hfs', e⟩
      · simp only [List.length_cons]
        omega
      · rw [e] at hp
        exact absurd rfl hp
    · rw [hstep, lexer_token_number_int (lexer_read lex ws) d ds rem (by
          rw [hrest, hsplit]
          rfl) hd hds hrem hp, ← lexer_read_append]
      rfl

/-- C15 at the source `1_0.5.2` read from its start. -/
theorem C15_number_literal_witness :
    ∃ text tail, '1' :: "_0.5.2".data = text ++ tail ∧ number_shape text ∧
      (∀ other, number_shape other → other <+: '1' :: "_0.5.2".data →
        other.length ≤ text.length) ∧
      lexer_step ⟨[], "1_0.5.2".data, ⟨"a.rose", 1, 1⟩, 0, false⟩ =
        (lexer_append (lexer_read ⟨[], "1_0.5.2".data, ⟨"a.rose", 1, 1⟩, 0, false⟩ ([] ++ text))
          ⟨String.mk text, text.length, TOKEN_NUMBER_LITERAL,
            (lexer_read ⟨[], "1_0.5.2".data, ⟨"a.rose", 1, 1⟩, 0, false⟩ []).loc⟩, true) :=
  C15_number_literal ⟨[], "1_0.5.2".data, ⟨"a.rose", 1, 1⟩, 0, false⟩ [] '1' "_0.5.2".data
    (by decide) (by decide) (by decide)

/-! ## The lexer: the arrow token -/

theorem keyword_type_ne_arrow (value : List Char) (n : Nat) :
    keyword_type value n ≠ TOKEN_ARROW := by
  unfold keyword_type
  repeat (refine ite_ne_of (fun h => token_type_t.noConfusion h) ?_)
  exact fun h => token_type_t.noConfusion h

/-- A token of type `TOKEN_ARROW` has the text `=>` and was read from `->`. -/
theorem token_at_arrow {t : token_t} {cs : List Char} (h : token_at t cs)
    (ht : t.type = TOKEN_ARROW) : t.value = "=>" ∧ cs = ['-', '>'] := by
  rcases h with ⟨hs, _⟩ | ⟨_, hv, hcs⟩ | ⟨hr, _⟩
  · rw [ht] at hs; cases hs
  · exact ⟨hv, hcs⟩
  · rcases hr with ⟨_, hk⟩ | ⟨_, hn⟩ | ⟨_, ha⟩
    · rw [ht] at hk; exact absurd hk.symm (keyword_type_ne_arrow _ _)
    · rw [ht] at hn; cases hn
    · exact absurd ht ha

theorem lexer_operator_arrow (lex : lexer_t) (tail : List Char) (h : lex.rest = '>' :: tail) :
    lexer_operator lex '-' = (lexer_read lex ['>'], some (TOKEN_ARROW, "=>", 2)) := by
  generalize hres : lexer_operator lex '-' = res
  unfold lexer_operator at hres
  rw [if_neg (show ¬ ('-' = '+') by decide)] at hres
  rw [if_pos (rfl : '-' = '-')] at hres
  rw [lexer_match_miss lex '-' (by rw [h]; exact (by decide : ('>' : Char) ≠ '-'))] at hres
  dsimp only at hres
  rw [if_neg Bool.false_ne_true] at hres
  rw [lexer_match_miss lex '=' (by rw [h]; exact (by decide : ('>' : Char) ≠ '='))] at hres
  dsimp only at hres
  rw [if_neg Bool.false_ne_true] at hres
  rw [lexer_match_hit lex '>' tail h (by decide)] at hres
  dsimp only at hres
  rw [if_pos rfl] at hres
  rw [← hres]

theorem lexer_operator_equal_greater (lex : lexer_t) (tail : List Char)
    (h : lex.rest = '>' :: tail) :
    lexer_operator lex '=' = (lex, some (TOKEN_EQUAL, "=", 1)) := by
  generalize hres : lexer_operator lex '=' = res
  unfold lexer_operator at hres
  rw [if_neg (show ¬ ('=' = '+') by decide)] at hres
  rw [if_neg (show ¬ ('=' = '-') by decide)] at hres
  rw [if_neg (show ¬ ('=' = '*') by decide)] at hres
  rw [if_neg (show ¬ ('=' = '/') by decide)] at hres
  rw [if_neg (show ¬ ('=' = '%') by decide)] at hres
  rw [if_neg (show ¬ ('=' = '&') by decide)] at hres
  rw [if_neg (show ¬ ('=' = '|') by decide)] at hres
  rw [if_neg (show ¬ ('=' = '^') by decide)] at hres
  rw [if_neg (show ¬ ('=' = '~') by decide)] at hres
  rw [if_neg (show ¬ ('=' = '<') by decide)] at hres
  rw [if_neg (show ¬ ('=' = '>') by decide)] at hres
  rw [if_pos (rfl : '=' = '=')] at hres
  rw [lexer_match_miss lex '=' (by rw [h]; exact (by decide : ('>' : Char) ≠ '='))] at hres
  dsimp only at hres
  rw [if_neg Bool.false_ne_true] at hres
  rw [← hres]

/-- C38: a round of the lexer that appends a token of type `TOKEN_ARROW` has
read, after white space, the two characters `->`, and the text of the token is
`=>`; wherever `->` stands at a token start the round appends this token, of
length 2, and reads the two characters; where `=>` stands at a token start the
round appends `TOKEN_EQUAL` with the text `=` and reads one character. The
source `->` gives the tokens ARROW `=>` and EOF, the source `=>` the tokens
EQUAL, GREATER and EOF. -/
theorem C38_arrow_token :
    (∀ (lex : lexer_t) (t : token_t), (lexer_step lex).1.tokens = lex.tokens ++ [t] →
      t.type = TOKEN_ARROW →
      t.value = "=>" ∧ ∃ ws tail, lex.rest = ws ++ '-' :: '>' :: tail ∧
        ∀ c ∈ ws, isspace c = true) ∧
    (∀ (lex : lexer_t) (ws tail : List Char), lex.rest = ws ++ '-' :: '>' :: tail →
      (∀ c ∈ ws, isspace c = true) →
      lexer_step lex = (lexer_append (lexer_read lex (ws ++ ['-', '>']))
        ⟨"=>", 2, TOKEN_ARROW, (lexer_read lex ws).loc⟩, true)) ∧
    (∀ (lex : lexer_t) (ws tail : List Char), lex.rest = ws ++ '=' :: '>' :: tail →
      (∀ c ∈ ws, isspace c = true) →
      lexer_step lex = (lexer_append (lexer_read lex (ws ++ ['=']))
        ⟨"=", 1, TOKEN_EQUAL, (lexer_read lex ws).loc⟩, true)) ∧
    (lexer_init (some "a.rose") "->".data).map (fun lex => lex.tokens.map token_t.type_text) =
      some [(TOKEN_ARROW, "=>"), (TOKEN_EOF, "")] ∧
    (lexer_init (some "a.rose") "=>".data).map (fun lex => lex.tokens.map token_t.type_text) =
      some [(TOKEN_EQUAL, "="), (TOKEN_GREATER, ">"), (TOKEN_EOF, "")] := by
  refine ⟨fun lex t h ht => ?_, fun lex ws tail h hws => ?_, fun lex ws tail h hws => ?_,
    by rfl, by rfl⟩
  · obtain ⟨ws, r, cs, hrest, hws, hround⟩ := lexer_step_spec lex
    have hno : ∀ l : List token_t, l = l ++ [t] → False := fun l e => by
      have := congrArg List.length e
      simp at this
    rcases hround with ⟨_, _, hr⟩ | ⟨_, hreads, hr⟩
    · exact (hno lex.tokens (show lex.tokens = lex.tokens ++ [t] from
        hr.2.2.2.1.symm.trans h)).elim
    · have hr0 := lexer_rest_read lex ws r hrest
      rcases hr with ⟨_, htok, _⟩ | ⟨_, t', htok, hty, _⟩ | ⟨_, _, t', htok, _, _, hat⟩
      · exact (hno lex.tokens (show lex.tokens = lex.tokens ++ [t] from
          htok.symm.trans h)).elim
      · have : t = t' := by
          have e : lex.tokens ++ [t] = lex.tokens ++ [t'] :=
            show lex.tokens ++ [t] = (lexer_read lex ws).tokens ++ [t'] from h.symm.trans htok
          simpa using e
        rw [this, hty] at ht
        cases ht
      · have : t = t' := by
          have e : lex.tokens ++ [t] = lex.tokens ++ [t'] :=
            show lex.tokens ++ [t] = (lexer_read lex ws).tokens ++ [t'] from h.symm.trans htok
          simpa using e
        subst this
        obtain ⟨hv, hcs⟩ := token_at_arrow hat ht
        have h1 := hreads.1
        rw [hr0, hcs] at h1
        exact ⟨hv, ws, _, hrest.trans (congrArg (ws ++ ·) h1), hws⟩
  · have hr0 := lexer_rest_read lex ws _ h
    rw [lexer_step_of_token lex ws _ h hws (show isspace '-' = false by decide) (by rfl),
      lexer_token_other (lexer_read lex ws) '-' _ hr0 (by decide) (by decide) (by decide)
        (by decide) (by decide) (by decide) (by decide) (by decide),
      lexer_operator_arrow _ tail (lexer_rest_read _ ['-'] _ hr0)]
    show _ = (lexer_append (lexer_read lex (ws ++ (['-'] ++ ['>']))) _, true)
    simp only [lexer_read_append, List.append_assoc]
  · have hr0 := lexer_rest_read lex ws _ h
    rw [lexer_step_of_token lex ws _ h hws (show isspace '=' = false by decide) (by rfl),
      lexer_token_other (lexer_read lex ws) '=' _ hr0 (by decide) (by decide) (by decide)
        (by decide) (by decide) (by decide) (by decide) (by decide),
      lexer_operator_equal_greater _ tail (lexer_rest_read _ ['='] _ hr0)]
    simp only [lexer_read_append]

/-! ## The lexer: the location of a token -/

theorem loc_after_snoc (loc : location_t) (cs : List Char) (c : Char) :
    loc_after loc (cs ++ [c]) = loc_step (loc_after loc cs) c := by
  simp [loc_after, List.foldl_append]

/-- Reading text without a byte above 127 from the start of the source leaves
the lexer at the line and the column the specification gives the next
character. -/
theorem loc_after_position (filename : String) (cs : List Char)
    (h : ∀ c ∈ cs, c.toNat ≤ 127) :
    loc_after ⟨filename, 1, 1⟩ cs = ⟨filename, line_of cs, column_of cs⟩ := by
  induction cs using List.reverseRecOn with
  | nil => rfl
  | append_singleton l a ih =>
    have hl : ∀ c ∈ l, c.toNat ≤ 127 := fun c hc => h c (List.mem_append_left _ hc)
    have ha : ¬ a.toNat > 127 := Nat.not_lt.mpr (h a (by simp))
    rw [loc_after_snoc, ih hl]
    unfold loc_step line_of column_of
    rw [if_neg ha]
    by_cases hn : a = '\n'
    · subst hn
      simp [List.count_append]
      omega
    · rw [if_neg hn]
      simp [List.count_append, List.takeWhile_cons, hn, List.count_cons]
      omega

theorem c_string_no_nul (source : List Char) : ∀ c ∈ c_string source, c ≠ '\x00' := by
  intro c hc
  have := List.mem_takeWhile_imp hc
  simpa using this

theorem isspace_ascii (c : Char) (h : isspace c = true) : c.toNat ≤ 127 := by
  unfold isspace at h
  simp only [Bool.or_eq_true, decide_eq_true_eq, Bool.and_eq_true] at h
  omega

theorem take_of_rest (lex : lexer_t) (x y : List Char) (h : lex.rest = x ++ y) :
    lex.source.take (lex.pos + x.length) = lex.source.take lex.pos ++ x ∧
      lex.source = lex.source.take lex.pos ++ x ++ y := by
  unfold lexer_t.rest at h
  refine ⟨?_, ?_⟩
  · rw [List.take_add, h, List.take_left']
    rfl
  · rw [List.append_assoc, ← h, List.take_append_drop]

theorem step_round_had_error {lex lex' : lexer_t} {cont : Bool} (h : step_round lex lex' cont)
    (he : lex'.had_error = false) : lex.had_error = false := by
  obtain ⟨ws, r, cs, hrest, hws, h⟩ := h
  have h0 := lexer_reads_read lex ws r hrest
  have key : ∀ s : lexer_t, lexer_reads (lexer_read lex ws) s cs → s.had_error = false →
      lex.had_error = false := by
    intro s hs hse
    cases hb : lex.had_error
    · rfl
    · rw [hs.2.2.2.2.2.1 (h0.2.2.2.2.2.1 hb)] at hse
      cases hse
  rcases h with ⟨_, _, hr⟩ | ⟨_, hr, _⟩
  · exact key _ hr he
  · have := key _ hr he
    exact this

theorem step_round_source {lex lex' : lexer_t} {cont : Bool} (h : step_round lex lex' cont) :
    lex'.source = lex.source := by
  obtain ⟨ws, r, cs, _, _, h⟩ := h
  rcases h with ⟨_, _, hr⟩ | ⟨_, hr, _⟩
  · exact hr.2.1
  · exact hr.2.1

theorem lexer_run_had_error {lex lex' : lexer_t} (h : lexer_run lex lex')
    (he : lex'.had_error = false) : lex.had_error = false := by
  induction h with
  | stop lex lex' hs => exact step_round_had_error hs he
  | step lex mid lex' hs _ ih => exact step_round_had_error hs (ih he)

/-- A round that goes on leaves the lexer at the location of the text it has
read, when it has read no byte above 127. -/
theorem step_round_located (loc0 : location_t) {lex lex' : lexer_t}
    (h : step_round lex lex' true) (he : lex'.had_error = false)
    (hloc : lex.loc = loc_after loc0 (lex.source.take lex.pos))
    (hascii : ∀ c ∈ lex.source.take lex.pos, c.toNat ≤ 127) :
    lex'.source = lex.source ∧ lex'.loc = loc_after loc0 (lex'.source.take lex'.pos) ∧
      ∀ c ∈ lex'.source.take lex'.pos, c.toNat ≤ 127 := by
  obtain ⟨ws, r, cs, hrest, hws, h⟩ := h
  have key : ∀ s : lexer_t, lexer_reads (lexer_read lex ws) s cs → s.had_error = false →
      s.source = lex.source ∧ s.loc = loc_after loc0 (s.source.take s.pos) ∧
        ∀ c ∈ s.source.take s.pos, c.toNat ≤ 127 := by
    intro s hs hse
    obtain ⟨a1, a2, a3, -, -, -, a7⟩ := hs
    obtain ⟨l1, q1⟩ := a7 hse
    have hr : r = cs ++ s.rest := by
      rw [← a1]
      exact (lexer_rest_read lex ws r hrest).symm
    have hrest' : lex.rest = (ws ++ cs) ++ s.rest := by
      rw [hrest, hr, List.append_assoc]
    have ht := (take_of_rest lex (ws ++ cs) s.rest hrest').1
    have hpos : s.pos = lex.pos + (ws ++ cs).length := by
      rw [a3, List.length_append, ← Nat.add_assoc]
      rfl
    have hsrc : s.source = lex.source := a2
    refine ⟨hsrc, ?_, ?_⟩
    · rw [hsrc, hpos, ht, l1]
      show loc_after (loc_after lex.loc ws) cs = _
      rw [hloc, ← loc_after_append, ← loc_after_append]
    · rw [hsrc, hpos, ht]
      intro c hc
      rcases List.mem_append.mp hc with hc | hc
      · exact hascii c hc
      · rcases List.mem_append.mp hc with hc | hc
        · exact isspace_ascii c (hws c hc)
        · exact q1 c hc
  rcases h with ⟨_, _, hr⟩ | ⟨_, hr, _⟩
  · exact key _ hr he
  · have := key _ hr he
    exact this

/-- What the lexer appends in a round without error: a token at the location
of the first character it is made from, or the end token at the location of
the end of the text. -/
theorem step_round_token_location (loc0 : location_t) {lex lex' : lexer_t} {cont : Bool}
    (h : step_round lex lex' cont) (he : lex'.had_error = false)
    (hloc : lex.loc = loc_after loc0 (lex.source.take lex.pos))
    (hascii : ∀ c ∈ lex.source.take lex.pos, c.toNat ≤ 127)
    (hnul : ∀ c ∈ lex.source, c ≠ '\x00') :
    ∀ t ∈ lex'.tokens, t ∈ lex.tokens ∨
      ∃ before after, lex.source = before ++ after ∧ t.loc = loc_after loc0 before ∧
        (∀ c ∈ before, c.toNat ≤ 127) ∧
        ((t.type = TOKEN_EOF ∧ after = []) ∨
         (t.type ≠ TOKEN_EOF ∧ ∃ cs, cs ≠ [] ∧ cs <+: after ∧ token_at t cs)) := by
  obtain ⟨ws, r, cs, hrest, hws, h⟩ := h
  have hsplit := take_of_rest lex ws r hrest
  have hbefore : ∀ c ∈ lex.source.take lex.pos ++ ws, c.toNat ≤ 127 := by
    intro c hc
    rcases List.mem_append.mp hc with hc | hc
    · exact hascii c hc
    · exact isspace_ascii c (hws c hc)
  have hs1 : (lexer_read lex ws).loc = loc_after loc0 (lex.source.take lex.pos ++ ws) := by
    show loc_after lex.loc ws = _
    rw [hloc, ← loc_after_append]
  have hr1 : (lexer_read lex ws).rest = r := lexer_rest_read lex ws r hrest
  intro t ht
  rcases h with ⟨_, _, hr⟩ | ⟨_, hr, hk⟩
  · rw [hr.2.2.2.1] at ht
    exact Or.inl ht
  · rcases hk with ⟨_, hk, _⟩ | ⟨_, t', hk, hty, hl, hcs, hnil⟩ | ⟨_, hne, t', hk, hl, hty, hat⟩
    · rw [hk] at ht
      exact Or.inl ht
    · rw [hk] at ht
      rcases List.mem_append.mp ht with ht | ht
      · exact Or.inl ht
      · rw [List.mem_singleton] at ht
        subst ht
        refine Or.inr ⟨_, r, hsplit.2, hl.trans hs1, hbefore, Or.inl ⟨hty, ?_⟩⟩
        rcases hcs he with hc | hc
        · rw [← hr1]
          exact hnil hc
        · exfalso
          have h1 : r = cs ++ _ := hr1.symm.trans hr.1
          have : '\x00' ∈ lex.source := by
            rw [hsplit.2, h1, hc]
            simp
          exact hnul _ this rfl
    · rw [hk] at ht
      rcases List.mem_append.mp ht with ht | ht
      · exact Or.inl ht
      · rw [List.mem_singleton] at ht
        subst ht
        refine Or.inr ⟨_, r, hsplit.2, hl.trans hs1, hbefore,
          Or.inr ⟨hty, cs, hne, ?_, hat⟩⟩
        exact ⟨_, (hr1.symm.trans hr.1).symm⟩

theorem lexer_run_token_location (loc0 : location_t) {lex lex' : lexer_t}
    (h : lexer_run lex lex') (he : lex'.had_error = false)
    (hloc : lex.loc = loc_after loc0 (lex.source.take lex.pos))
    (hascii : ∀ c ∈ lex.source.take lex.pos, c.toNat ≤ 127)
    (hnul : ∀ c ∈ lex.source, c ≠ '\x00') :
    lex'.source = lex.source ∧
    ∀ t ∈ lex'.tokens, t ∈ lex.tokens ∨
      ∃ before after, lex.source = before ++ after ∧ t.loc = loc_after loc0 before ∧
        (∀ c ∈ before, c.toNat ≤ 127) ∧
        ((t.type = TOKEN_EOF ∧ after = []) ∨
         (t.type ≠ TOKEN_EOF ∧ ∃ cs, cs ≠ [] ∧ cs <+: after ∧ token_at t cs)) := by
  induction h with
  | stop lex lex' hs =>
    exact ⟨step_round_source hs, step_round_token_location loc0 hs he hloc hascii hnul⟩
  | step lex mid lex' hs hrun ih =>
    have hmid := lexer_run_had_error hrun he
    obtain ⟨m1, m2, m3⟩ := step_round_located loc0 hs hmid hloc hascii
    obtain ⟨i1, i2⟩ := ih he m2 m3 (by rw [m1]; exact hnul)
    refine ⟨i1.trans m1, ?_⟩
    intro t ht
    rcases i2 t ht with hm | hm
    · exact step_round_token_location loc0 hs hmid hloc hascii hnul t hm
    · rw [m1] at hm
      exact Or.inr hm

/-- C17: when `lexer_init` returns without `had_error`, every token of the
list stands at the position of the first character it was made from, the end
token at the end of the text: the text splits into `before` and `after`, the
token was made from a start of `after`, its line is 1 + the number of newline
characters of `before` and its column is 1 + the number of characters of
`before` behind the last newline. On the text `/*` 0x80 `*/x`, where
`lexer_advance` flags the byte 0x80 inside the comment and goes on, the
identifier `x` is appended with the column 5 while it stands at column 6. -/
theorem C17_token_location :
    (∀ (filename : Option String) (source : List Char) (lex : lexer_t),
      lexer_init filename source = some lex → lex.had_error = false →
      ∀ t ∈ lex.tokens, ∃ before after, c_string source = before ++ after ∧
        t.loc = ⟨filename.getD "(null)", line_of before, column_of before⟩ ∧
        ((t.type = TOKEN_EOF ∧ after = []) ∨
         (t.type ≠ TOKEN_EOF ∧ ∃ cs, cs ≠ [] ∧ cs <+: after ∧ token_at t cs))) ∧
    (lexer_init (some "a.rose") ['/', '*', '\x80', '*', '/', 'x']).map
        (fun lex => (lex.had_error,
          lex.tokens.map (fun t => (t.type, t.value, t.loc.line, t.loc.column)))) =
      some (true, [(TOKEN_IDENTIFIER, "x", 1, 5), (TOKEN_EOF, "", 1, 6)]) ∧
    column_of ['/', '*', '\x80', '*', '/'] = 6 := by
  refine ⟨?_, by rfl, by rfl⟩
  intro filename source lex hinit he t ht
  obtain ⟨lex', h1, h2⟩ := lexer_tokenize_run
    { tokens := [], source := c_string source, loc := ⟨filename.getD "(null)", 1, 1⟩,
      pos := 0, had_error := false }
  have hlex : lex' = lex := Option.some.inj (h1.symm.trans hinit)
  subst hlex
  obtain ⟨-, h3⟩ := lexer_run_token_location ⟨filename.getD "(null)", 1, 1⟩ h2 he rfl
    (by intro c hc; simp at hc) (c_string_no_nul source)
  rcases h3 t ht with hm | ⟨before, after, hs, hl, ha, hk⟩
  · simp at hm
  · exact ⟨before, after, hs, hl.trans (loc_after_position _ before ha), hk⟩

/-! ## The lexer: the text of a string literal -/

theorem escape_value_eq (e : Char) : escape_value e = escape_table.lookup e := by
  unfold escape_value escape_table
  simp only [List.lookup]
  repeat' split
  all_goals first
    | rfl
    | (rename_i h1 h2; simp_all)
    | simp_all

theorem isxdigit_ascii (d : Char) (h : isxdigit d = true) : d.toNat ≤ 127 ∧ d ≠ '\x00' := by
  unfold isxdigit isdigit at h
  simp only [Bool.or_eq_true, Bool.and_eq_true, decide_eq_true_eq] at h
  refine ⟨by omega, ?_⟩
  rintro rfl
  simp at h

theorem hex_value_eq (d : Char) (h : isxdigit d = true) :
    hex_value d = hex_digit d ∧ hex_digit d < 16 := by
  unfold isxdigit isdigit at h
  simp only [Bool.or_eq_true, Bool.and_eq_true, decide_eq_true_eq] at h
  unfold hex_value hex_digit isdigit
  simp only [Bool.and_eq_true, decide_eq_true_eq]
  split_ifs <;> constructor <;> omega

theorem shift_or_eq (n v : Nat) (h : v < 16) : (n <<< 4) ||| v = 16 * n + v := by
  have := Nat.mul_add_lt_is_or (show v < 2 ^ 4 from h) n
  rw [Nat.shiftLeft_eq, Nat.mul_comm]
  exact this.symm

theorem lexer_unicode_digits_step (i : Nat) (lex : lexer_t) (codepoint : Nat) (h : Char)
    (r : List Char) (hrest : lex.rest = h :: r) (hh : isxdigit h = true) :
    lexer_unicode_digits (i + 1) lex codepoint =
      lexer_unicode_digits i (lexer_read lex [h]) (16 * codepoint + hex_digit h) := by
  have ha := isxdigit_ascii h hh
  have hv := hex_value_eq h hh
  rw [lexer_unicode_digits, lexer_advance_of_cons lex h r hrest]
  simp only [if_neg (Nat.not_lt.mpr ha.1), hh, Bool.not_true, Bool.false_eq_true, if_false]
  rw [hv.1, shift_or_eq _ _ hv.2]

theorem lexer_unicode_digits_four (lex : lexer_t) (a b c d : Char) (r : List Char)
    (hrest : lex.rest = a :: b :: c :: d :: r) (ha : isxdigit a = true) (hb : isxdigit b = true)
    (hc : isxdigit c = true) (hd : isxdigit d = true) :
    lexer_unicode_digits 4 lex 0 = (lexer_read lex [a, b, c, d], some (hex_number [a, b, c, d])) := by
  have h1 := lexer_rest_read lex [a] _ hrest
  have h2 := lexer_rest_read (lexer_read lex [a]) [b] _ h1
  have h3 := lexer_rest_read (lexer_read (lexer_read lex [a]) [b]) [c] _ h2
  rw [lexer_unicode_digits_step 3 lex 0 a _ hrest ha,
    lexer_unicode_digits_step 2 _ _ b _ h1 hb,
    lexer_unicode_digits_step 1 _ _ c _ h2 hc,
    lexer_unicode_digits_step 0 _ _ d _ h3 hd]
  simp only [lexer_unicode_digits]
  refine Prod.ext ?_ ?_
  · show lexer_read (lexer_read (lexer_read (lexer_read lex [a]) [b]) [c]) [d] =
      lexer_read lex ([a] ++ ([b] ++ ([c] ++ [d])))
    rw [lexer_read_append, lexer_read_append, lexer_read_append]
  · simp [hex_number]

theorem hex_number_lt (a b c d : Char) (ha : isxdigit a = true) (hb : isxdigit b = true)
    (hc : isxdigit c = true) (hd : isxdigit d = true) : hex_number [a, b, c, d] < 65536 := by
  have h1 := (hex_value_eq a ha).2
  have h2 := (hex_value_eq b hb).2
  have h3 := (hex_value_eq c hc).2
  have h4 := (hex_value_eq d hd).2
  simp only [hex_number, List.foldl]
  omega

theorem or_80 : ∀ y < 64, 0x80 ||| y = 0x80 + y := by decide

theorem or_C0 : ∀ y < 32, 0xC0 ||| y = 0xC0 + y := by decide

theorem or_E0 : ∀ y < 16, 0xE0 ||| y = 0xE0 + y := by decide

/-- The bytes the lexer appends for a code point are its UTF-8 encoding as the
specification words it. -/
theorem utf8_bytes_eq (codepoint : Nat) (h : codepoint < 65536) :
    utf8_bytes codepoint = utf8_encode codepoint := by
  have m3F : ∀ x : Nat, x &&& 0x3F = x % 64 := fun x => Nat.and_pow_two_sub_one_eq_mod x 6
  have m1F : ∀ x : Nat, x &&& 0x1F = x % 32 := fun x => Nat.and_pow_two_sub_one_eq_mod x 5
  have m0F : ∀ x : Nat, x &&& 0x0F = x % 16 := fun x => Nat.and_pow_two_sub_one_eq_mod x 4
  unfold utf8_bytes utf8_encode
  split
  · rfl
  · split
    · rename_i h1 h2
      rw [m1F, m3F, Nat.shiftRight_eq_div_pow, or_C0 _ (Nat.mod_lt _ (by decide)),
        or_80 _ (Nat.mod_lt _ (by decide))]
      have : codepoint / 2 ^ 6 % 32 = codepoint / 64 := by omega
      rw [this]
    · rw [m0F, m3F, m3F, Nat.shiftRight_eq_div_pow, Nat.shiftRight_eq_div_pow,
        or_E0 _ (Nat.mod_lt _ (by decide)), or_80 _ (Nat.mod_lt _ (by decide)),
        or_80 _ (Nat.mod_lt _ (by decide))]
      have h12 : codepoint / 2 ^ 12 % 16 = codepoint / 4096 := by omega
      have h6 : codepoint / 2 ^ 6 = codepoint / 64 := by omega
      rw [h12, h6]

/-- Standard decoding gives back every code point below 0x10000 that is not a
surrogate. -/
theorem utf8_decode_one (a : Nat) :
    utf8_decode [a] = if a < 0x80 then some a else none := rfl

theorem utf8_decode_two (a b : Nat) :
    utf8_decode [a, b] =
      if 0xC2 ≤ a ∧ a ≤ 0xDF ∧ 0x80 ≤ b ∧ b ≤ 0xBF then some ((a - 0xC0) * 64 + (b - 0x80))
      else none := rfl

theorem utf8_decode_three (a b c : Nat) :
    utf8_decode [a, b, c] =
      if 0xE0 ≤ a ∧ a ≤ 0xEF ∧ 0x80 ≤ b ∧ b ≤ 0xBF ∧ 0x80 ≤ c ∧ c ≤ 0xBF then
        if (a - 0xE0) * 4096 + (b - 0x80) * 64 + (c - 0x80) < 0x800 ∨
            (0xD800 ≤ (a - 0xE0) * 4096 + (b - 0x80) * 64 + (c - 0x80) ∧
              (a - 0xE0) * 4096 + (b - 0x80) * 64 + (c - 0x80) ≤ 0xDFFF) then none
        else some ((a - 0xE0) * 4096 + (b - 0x80) * 64 + (c - 0x80))
      else none := rfl

theorem utf8_decode_encode (codepoint : Nat) (h : codepoint < 65536)
    (hs : ¬ (0xD800 ≤ codepoint ∧ codepoint ≤ 0xDFFF)) :
    utf8_decode (utf8_encode codepoint) = some codepoint := by
  unfold utf8_encode
  split
  · rw [utf8_decode_one, if_pos (by omega)]
  · split
    · rw [utf8_decode_two, if_pos (by omega)]
      exact congrArg some (by omega)
    · rw [utf8_decode_three, if_pos (by omega), if_neg (by omega)]
      exact congrArg some (by omega)

/-! ### The specification of the text, unfolded -/

theorem string_text_char (q c : Char) (rest : List Char) (h1 : c ≠ '\\') (h2 : c ≠ q) :
    string_text q (c :: rest) = (string_text q rest).map (fun text => c :: text) := by
  conv => lhs; unfold string_text
  simp only [if_neg h1, if_neg h2]

theorem string_text_quote (q : Char) (rest : List Char) (hq : q ≠ '\\') :
    string_text q (q :: rest) = none := by
  conv => lhs; unfold string_text
  simp only [if_neg hq, if_true]

theorem string_text_backslash (q : Char) : string_text q ['\\'] = none := by
  conv => lhs; unfold string_text
  simp only [if_true]

theorem string_text_escape (q e value : Char) (rest : List Char) (h1 : e ≠ 'u')
    (h2 : escape_table.lookup e = some value) :
    string_text q ('\\' :: e :: rest) =
      (string_text q rest).map (fun text => value :: text) := by
  conv => lhs; unfold string_text
  simp only [if_neg h1, if_true, h2]

theorem string_text_escape_none (q e : Char) (rest : List Char) (h1 : e ≠ 'u')
    (h2 : escape_table.lookup e = none) : string_text q ('\\' :: e :: rest) = none := by
  conv => lhs; unfold string_text
  simp only [if_neg h1, if_true, h2]

theorem string_text_unicode (q a b c d : Char) (rest : List Char) :
    string_text q ('\\' :: 'u' :: a :: b :: c :: d :: rest) =
      if isxdigit a ∧ isxdigit b ∧ isxdigit c ∧ isxdigit d then
        (string_text q rest).map
          (fun text => (utf8_encode (hex_number [a, b, c, d])).map Char.ofNat ++ text)
      else none := by
  conv => lhs; unfold string_text
  simp only [if_true]

theorem string_text_unicode_short (q : Char) (rest : List Char) (h : rest.length < 4) :
    string_text q ('\\' :: 'u' :: rest) = none := by
  conv => lhs; unfold string_text
  simp only [if_true]
  split
  · simp only [List.length_cons] at h
    omega
  · rfl

/-! ### The rounds of the loop over the body -/

theorem lexer_string_body_stop (q : Char) (fuel : Nat) (lex : lexer_t) (buf : List Char)
    (h : lex.rest.headD '\x00' = q ∨ lex.rest.headD '\x00' = '\x00') :
    lexer_string_body q fuel lex buf = (lex, some buf) := by
  cases fuel with
  | zero => rfl
  | succ fuel =>
    rw [lexer_string_body, lexer_peek_eq, if_neg]
    rcases h with h | h
    · exact fun hn => hn.1 h
    · exact fun hn => hn.2 h

theorem lexer_string_body_char (q : Char) (fuel : Nat) (lex : lexer_t) (buf : List Char)
    (c : Char) (r : List Char) (h : lex.rest = c :: r) (h1 : c.toNat ≤ 127) (h2 : c ≠ '\x00')
    (h3 : c ≠ q) (h4 : c ≠ '\\') :
    lexer_string_body q (fuel + 1) lex buf =
      lexer_string_body q fuel (lexer_read lex [c]) (buf ++ [c]) := by
  rw [lexer_string_body, lexer_peek_of_cons lex c r h, if_pos ⟨h3, h2⟩,
    lexer_advance_of_cons lex c r h]
  simp only [if_neg (Nat.not_lt.mpr h1), if_neg h4]

theorem lexer_string_body_escape (q : Char) (fuel : Nat) (lex : lexer_t) (buf : List Char)
    (e value : Char) (r : List Char) (h : lex.rest = '\\' :: e :: r) (hq : q ≠ '\\')
    (h1 : e.toNat ≤ 127) (h2 : e ≠ 'u') (h3 : escape_table.lookup e = some value) :
    lexer_string_body q (fuel + 1) lex buf =
      lexer_string_body q fuel (lexer_read lex ['\\', e]) (buf ++ [value]) := by
  have hr := lexer_rest_read lex ['\\'] _ h
  rw [lexer_string_body, lexer_peek_of_cons lex _ _ h,
    if_pos ⟨fun e => hq e.symm, by decide⟩, lexer_advance_of_cons lex _ _ h]
  simp only [show ¬ ('\\' : Char).toNat > 127 by decide, if_false, if_true,
    lexer_advance_of_cons _ _ _ hr, if_neg (Nat.not_lt.mpr h1), if_neg h2,
    escape_value_eq, h3, lexer_read_append]
  rfl

theorem lexer_string_body_escape_none (q : Char) (fuel : Nat) (lex : lexer_t) (buf : List Char)
    (e : Char) (r : List Char) (h : lex.rest = '\\' :: e :: r) (hq : q ≠ '\\')
    (h1 : e.toNat ≤ 127) (h2 : e ≠ 'u') (h3 : escape_table.lookup e = none) :
    lexer_string_body q (fuel + 1) lex buf =
      (LEXER_ERROR { lexer_read lex ['\\', e] with
        loc := { (lexer_read lex ['\\', e]).loc with
          column := (lexer_read lex ['\\', e]).loc.column - 1 } }, none) := by
  have hr := lexer_rest_read lex ['\\'] _ h
  rw [lexer_string_body, lexer_peek_of_cons lex _ _ h,
    if_pos ⟨fun e => hq e.symm, by decide⟩, lexer_advance_of_cons lex _ _ h]
  simp only [show ¬ ('\\' : Char).toNat > 127 by decide, if_false, if_true,
    lexer_advance_of_cons _ _ _ hr, if_neg (Nat.not_lt.mpr h1), if_neg h2,
    escape_value_eq, h3, lexer_read_append]
  rfl

theorem lexer_string_body_unicode (q : Char) (fuel : Nat) (lex : lexer_t) (buf : List Char)
    (a b c d : Char) (r : List Char) (h : lex.rest = '\\' :: 'u' :: a :: b :: c :: d :: r)
    (hq : q ≠ '\\') (ha : isxdigit a = true) (hb : isxdigit b = true)
    (hc : isxdigit c = true) (hd : isxdigit d = true) :
    lexer_string_body q (fuel + 1) lex buf =
      lexer_string_body q fuel (lexer_read lex ['\\', 'u', a, b, c, d])
        (buf ++ (utf8_encode (hex_number [a, b, c, d])).map Char.ofNat) := by
  have hr := lexer_rest_read lex ['\\'] _ h
  have hr2 := lexer_rest_read (lexer_read lex ['\\']) ['u'] _ hr
  have hlen := lexer_rest_length (lexer_read (lexer_read lex ['\\']) ['u'])
  rw [hr2] at hlen
  simp only [List.length_cons] at hlen
  have hpos : ¬ ((lexer_read (lexer_read lex ['\\']) ['u']).pos + 4 >
      (lexer_read (lexer_read lex ['\\']) ['u']).length) := by omega
  rw [lexer_string_body, lexer_peek_of_cons lex _ _ h,
    if_pos ⟨fun e => hq e.symm, by decide⟩, lexer_advance_of_cons lex _ _ h]
  simp only [show ¬ ('\\' : Char).toNat > 127 by decide, if_false, if_true,
    lexer_advance_of_cons _ _ _ hr, show ¬ ('u' : Char).toNat > 127 by decide, if_neg hpos,
    lexer_unicode_digits_four _ a b c d r hr2 ha hb hc hd,
    utf8_bytes_eq _ (hex_number_lt a b c d ha hb hc hd)]
  rw [lexer_read_append, lexer_read_append]
  rfl

/-! ## The lexer: string literals -/

theorem quote_facts (q : Char) (hq : q = '"' ∨ q = '\'') :
    q ≠ '\\' ∧ q ≠ '\x00' ∧ q.toNat ≤ 127 ∧ isspace q = false ∧ q ≠ '/' := by
  rcases hq with rfl | rfl <;> decide

/-- The loop over the body of a string literal reads a body that is valid, and
appends its text to the buffer. -/
theorem lexer_string_body_prefix (q : Char) (hq : q = '"' ∨ q = '\'') :
    ∀ (n : Nat) (good : List Char), good.length ≤ n →
      ∀ (text : List Char) (lex : lexer_t) (buf tail : List Char) (fuel : Nat),
        string_text q good = some text → (∀ c ∈ good, c.toNat ≤ 127 ∧ c ≠ '\x00') →
        lex.rest = good ++ tail → good.length ≤ fuel →
        ∃ fuel', fuel ≤ fuel' + good.length ∧
          lexer_string_body q fuel lex buf =
            lexer_string_body q fuel' (lexer_read lex good) (buf ++ text) := by
  obtain ⟨q1, q2, q3, -, -⟩ := quote_facts q hq
  intro n
  induction n with
  | zero =>
    intro good hlen text lex buf tail fuel ht _ _ _
    have : good = [] := List.length_eq_zero.mp (Nat.le_zero.mp hlen)
    subst this
    have : text = [] := by
      have h0 : string_text q [] = some [] := by unfold string_text; rfl
      exact (Option.some.inj (ht.symm.trans h0))
    subst this
    exact ⟨fuel, by simp, by rw [lexer_read_nil, List.append_nil]⟩
  | succ n ih =>
    intro good hlen text lex buf tail fuel ht hascii hrest hfuel
    cases good with
    | nil =>
      have : text = [] := by
        have h0 : string_text q [] = some [] := by unfold string_text; rfl
        exact (Option.some.inj (ht.symm.trans h0))
      subst this
      exact ⟨fuel, by simp, by rw [lexer_read_nil, List.append_nil]⟩
    | cons c rest =>
      simp only [List.length_cons] at hlen hfuel
      obtain ⟨f, rfl⟩ : ∃ f, fuel = f + 1 := ⟨fuel - 1, by omega⟩
      by_cases hc : c = '\\'
      · subst hc
        cases rest with
        | nil => rw [string_text_backslash] at ht; cases ht
        | cons e rest1 =>
          simp only [List.length_cons] at hlen hfuel
          have he := hascii e (by simp)
          by_cases heu : e = 'u'
          · subst heu
            by_cases hl : rest1.length < 4
            · rw [string_text_unicode_short q rest1 hl] at ht; cases ht
            · obtain ⟨a, b, c, d, rest2, rfl⟩ :
                  ∃ a b c d rest2, rest1 = a :: b :: c :: d :: rest2 := by
                match rest1, hl with
                | a :: b :: c :: d :: rest2, _ => exact ⟨a, b, c, d, rest2, rfl⟩
                | [], hl => simp at hl
                | [_], hl => simp at hl
                | [_, _], hl => simp at hl
                | [_, _, _], hl => simp at hl
              simp only [List.length_cons] at hlen hfuel
              rw [string_text_unicode] at ht
              split at ht
              · rename_i hx
                obtain ⟨text2, ht2, rfl⟩ := Option.map_eq_some'.mp ht
                obtain ⟨fuel', hf, heq⟩ := ih rest2 (by omega) text2
                  (lexer_read lex ['\\', 'u', a, b, c, d])
                  (buf ++ (utf8_encode (hex_number [a, b, c, d])).map Char.ofNat) tail f ht2
                  (fun x hx' => hascii x (by simp [hx']))
                  (lexer_rest_read lex ['\\', 'u', a, b, c, d] _ hrest) (by omega)
                refine ⟨fuel', by simp only [List.length_cons]; omega, ?_⟩
                rw [lexer_string_body_unicode q f lex buf a b c d (rest2 ++ tail) hrest q1
                  hx.1 hx.2.1 hx.2.2.1 hx.2.2.2, heq, lexer_read_append, List.append_assoc]
                rfl
              · cases ht
          · cases hlook : escape_table.lookup e with
            | none => rw [string_text_escape_none q e rest1 heu hlook] at ht; cases ht
            | some value =>
              rw [string_text_escape q e value rest1 heu hlook] at ht
              obtain ⟨text2, ht2, rfl⟩ := Option.map_eq_some'.mp ht
              obtain ⟨fuel', hf, heq⟩ := ih rest1 (by omega) text2
                (lexer_read lex ['\\', e]) (buf ++ [value]) tail f ht2
                (fun x hx' => hascii x (by simp [hx']))
                (lexer_rest_read lex ['\\', e] _ hrest) (by omega)
              refine ⟨fuel', by simp only [List.length_cons]; omega, ?_⟩
              rw [lexer_string_body_escape q f lex buf e value (rest1 ++ tail) hrest q1 he.1
                heu hlook, heq, lexer_read_append, List.append_assoc]
              rfl
      · have hcc := hascii c (by simp)
        by_cases hcq : c = q
        · subst hcq
          rw [string_text_quote c rest q1] at ht
          cases ht
        · rw [string_text_char q c rest hc hcq] at ht
          obtain ⟨text2, ht2, rfl⟩ := Option.map_eq_some'.mp ht
          obtain ⟨fuel', hf, heq⟩ := ih rest (by omega) text2 (lexer_read lex [c])
            (buf ++ [c]) tail f ht2 (fun x hx' => hascii x (by simp [hx']))
            (lexer_rest_read lex [c] _ hrest) (by omega)
          refine ⟨fuel', by simp only [List.length_cons]; omega, ?_⟩
          rw [lexer_string_body_char q f lex buf c (rest ++ tail) hrest hcc.1 hcc.2 hcq hc,
            heq, lexer_read_append, List.append_assoc]
          rfl

/-- The fuel `lexer_token` gives the loop over the body of a string literal. -/
theorem lexer_string_fuel (lex : lexer_t) (q : Char) (r : List Char) (h : lex.rest = q :: r) :
    (lexer_read lex [q]).length - (lexer_read lex [q]).pos = r.length := by
  rw [← lexer_rest_length, lexer_rest_read lex [q] r h]

/-- A string literal that is closed, with a valid body: the token. -/
theorem lexer_token_string_text (lex : lexer_t) (q : Char) (body tail text : List Char)
    (hq : q = '"' ∨ q = '\'') (h : lex.rest = q :: (body ++ q :: tail))
    (hascii : ∀ c ∈ body, c.toNat ≤ 127 ∧ c ≠ '\x00') (ht : string_text q body = some text) :
    lexer_token lex =
      (lexer_append (lexer_read lex (q :: (body ++ [q])))
        ⟨String.mk text, text.length, TOKEN_STRING_LITERAL, lex.loc⟩, true) := by
  obtain ⟨q1, q2, q3, -, -⟩ := quote_facts q hq
  have hr := lexer_rest_read lex [q] _ h
  obtain ⟨fuel', -, heq⟩ := lexer_string_body_prefix q hq body.length body (le_refl _) text
    (lexer_read lex [q]) [] (q :: tail) (body ++ q :: tail).length ht hascii hr
    (by simp)
  have hr2 := lexer_rest_read (lexer_read lex [q]) body _ hr
  rw [lexer_token_string lex q _ h hq, lexer_string_fuel lex q _ h, heq,
    lexer_string_body_stop q fuel' _ _ (Or.inl (by rw [hr2]; rfl))]
  simp only [List.nil_append, lexer_peek_of_cons _ _ _ hr2, ne_eq, not_true_eq_false,
    if_false, lexer_advance_of_cons _ _ _ hr2]
  rw [lexer_read_append, lexer_read_append]
  rfl

/-- A string literal that is not closed, with a valid body: the error, at the
location of the opening quote. -/
theorem lexer_token_string_open (lex : lexer_t) (q : Char) (body text : List Char)
    (hq : q = '"' ∨ q = '\'') (h : lex.rest = q :: body)
    (hascii : ∀ c ∈ body, c.toNat ≤ 127 ∧ c ≠ '\x00') (ht : string_text q body = some text) :
    lexer_token lex =
      (LEXER_ERROR { lexer_read lex (q :: body) with
        loc := { (lexer_read lex (q :: body)).loc with
          line := lex.loc.line, column := lex.loc.column } }, false) := by
  obtain ⟨q1, q2, q3, -, -⟩ := quote_facts q hq
  have hr := lexer_rest_read lex [q] body (by rw [h]; rfl)
  obtain ⟨fuel', -, heq⟩ := lexer_string_body_prefix q hq body.length body (le_refl _) text
    (lexer_read lex [q]) [] [] body.length ht hascii (by rw [hr, List.append_nil]) (le_refl _)
  have hr2 := lexer_rest_read (lexer_read lex [q]) body [] (by rw [hr, List.append_nil])
  rw [lexer_token_string lex q _ h hq, lexer_string_fuel lex q _ h, heq,
    lexer_string_body_stop q fuel' _ _ (Or.inr (by rw [hr2]; rfl))]
  simp only [List.nil_append, lexer_peek_of_nil _ hr2, ne_eq, Ne.symm q2, not_false_eq_true,
    if_true]
  rw [lexer_read_append]
  rfl

/-- A string literal with an escape that is not one of the ten and not `\u`,
behind a valid start of the body: the error, one column before the place the
lexer has reached. -/
theorem lexer_token_string_escape (lex : lexer_t) (q e : Char) (good tail text : List Char)
    (hq : q = '"' ∨ q = '\'') (h : lex.rest = q :: (good ++ '\\' :: e :: tail))
    (hascii : ∀ c ∈ good, c.toNat ≤ 127 ∧ c ≠ '\x00') (ht : string_text q good = some text)
    (he : e.toNat ≤ 127) (heu : e ≠ 'u') (hlook : escape_table.lookup e = none) :
    lexer_token lex =
      (LEXER_ERROR { lexer_read lex (q :: (good ++ ['\\', e])) with
        loc := { (lexer_read lex (q :: (good ++ ['\\', e]))).loc with
          column := (lexer_read lex (q :: (good ++ ['\\', e]))).loc.column - 1 } }, false) := by
  obtain ⟨q1, q2, q3, -, -⟩ := quote_facts q hq
  have hr := lexer_rest_read lex [q] _ h
  obtain ⟨fuel', hf, heq⟩ := lexer_string_body_prefix q hq good.length good (le_refl _) text
    (lexer_read lex [q]) [] ('\\' :: e :: tail) (good ++ '\\' :: e :: tail).length ht hascii hr
    (by simp)
  have hr2 := lexer_rest_read (lexer_read lex [q]) good _ hr
  obtain ⟨f, rfl⟩ : ∃ f, fuel' = f + 1 := by
    refine ⟨fuel' - 1, ?_⟩
    simp only [List.length_append, List.length_cons] at hf
    omega
  rw [lexer_token_string lex q _ h hq, lexer_string_fuel lex q _ h, heq,
    lexer_string_body_escape_none q f _ _ e tail hr2 q1 he heu hlook]
  simp only [lexer_read_append]
  rfl

theorem isxdigit_advance (c : Char) :
    isxdigit (if c.toNat > 127 then '\x00' else c) = isxdigit c := by
  split
  · rename_i h
    have : isxdigit c = false := by
      unfold isxdigit isdigit
      simp only [Bool.or_eq_false_iff, Bool.and_eq_false_iff, decide_eq_false_iff_not]
      omega
    rw [this]
    rfl
  · rfl

theorem lexer_unicode_digits_bad (i : Nat) (lex : lexer_t) (codepoint : Nat) (h : Char)
    (r : List Char) (hrest : lex.rest = h :: r) (hh : isxdigit h = false) :
    (lexer_unicode_digits (i + 1) lex codepoint).2 = none := by
  rw [lexer_unicode_digits, lexer_advance_of_cons lex h r hrest]
  simp only [isxdigit_advance, hh, Bool.not_false, if_true]

theorem lexer_unicode_digits_good (i : Nat) (lex : lexer_t) (codepoint : Nat) (h : Char)
    (r : List Char) (hrest : lex.rest = h :: r) (hh : isxdigit h = true) :
    ∃ cp, lexer_unicode_digits (i + 1) lex codepoint =
      lexer_unicode_digits i (lexer_read lex [h]) cp :=
  ⟨_, lexer_unicode_digits_step i lex codepoint h r hrest hh⟩

/-- Four characters that are not four hexadecimal digits end the loop over the
digits of a `\u` escape with an error. -/
theorem lexer_unicode_digits_none (lex : lexer_t) (a b c d : Char) (r : List Char)
    (hrest : lex.rest = a :: b :: c :: d :: r)
    (h : ¬ (isxdigit a = true ∧ isxdigit b = true ∧ isxdigit c = true ∧ isxdigit d = true)) :
    (lexer_unicode_digits 4 lex 0).2 = none := by
  have h1 := lexer_rest_read lex [a] _ hrest
  have h2 := lexer_rest_read (lexer_read lex [a]) [b] _ h1
  have h3 := lexer_rest_read (lexer_read (lexer_read lex [a]) [b]) [c] _ h2
  cases ha : isxdigit a with
  | false => exact lexer_unicode_digits_bad 3 lex 0 a _ hrest ha
  | true =>
    obtain ⟨cp1, e1⟩ := lexer_unicode_digits_good 3 lex 0 a _ hrest ha
    rw [e1]
    cases hb : isxdigit b with
    | false => exact lexer_unicode_digits_bad 2 _ _ b _ h1 hb
    | true =>
      obtain ⟨cp2, e2⟩ := lexer_unicode_digits_good 2 _ cp1 b _ h1 hb
      rw [e2]
      cases hc : isxdigit c with
      | false => exact lexer_unicode_digits_bad 1 _ _ c _ h2 hc
      | true =>
        obtain ⟨cp3, e3⟩ := lexer_unicode_digits_good 1 _ cp2 c _ h2 hc
        rw [e3]
        cases hd : isxdigit d with
        | false => exact lexer_unicode_digits_bad 0 _ _ d _ h3 hd
        | true => exact absurd ⟨ha, hb, hc, hd⟩ h

theorem escape_value_nul : escape_value '\x00' = none := by decide

theorem escape_value_advance (e : Char) (h : escape_table.lookup e = none) :
    escape_value (if e.toNat > 127 then '\x00' else e) = none := by
  split
  · exact escape_value_nul
  · rw [escape_value_eq, h]

/-- An escape that is not valid ends the loop over the body with an error. -/
theorem lexer_string_body_invalid (q : Char) (hq : q = '"' ∨ q = '\'') (fuel : Nat)
    (lex : lexer_t) (buf bad : List Char) (h : lex.rest = '\\' :: bad)
    (hbad : escape_length ('\\' :: bad) = none) :
    (lexer_string_body q (fuel + 1) lex buf).2 = none := by
  obtain ⟨q1, q2, q3, -, -⟩ := quote_facts q hq
  have hr := lexer_rest_read lex ['\\'] _ h
  rw [lexer_string_body, lexer_peek_of_cons lex _ _ h,
    if_pos ⟨fun e => q1 e.symm, by decide⟩, lexer_advance_of_cons lex _ _ h]
  simp only [show ¬ ('\\' : Char).toNat > 127 by decide, if_false, if_true]
  cases bad with
  | nil =>
    rw [lexer_advance_of_nil _ hr]
    simp only [show ¬ ('\x00' : Char) = 'u' by decide, if_false, escape_value_nul]
  | cons e tail =>
    rw [lexer_advance_of_cons _ e tail hr]
    by_cases heu : e = 'u'
    · subst heu
      simp only [show ¬ ('u' : Char).toNat > 127 by decide, if_false, if_true]
      have hr2 := lexer_rest_read (lexer_read lex ['\\']) ['u'] _ hr
      have hlen := lexer_rest_length (lexer_read (lexer_read lex ['\\']) ['u'])
      rw [hr2] at hlen
      split
      · rfl
      · rename_i hpos
        match tail, hbad, hr2, hlen with
        | a :: b :: c :: d :: rest, hbad, hr2, _ =>
          have hx : ¬ (isxdigit a = true ∧ isxdigit b = true ∧ isxdigit c = true ∧
              isxdigit d = true) := by
            intro hx
            unfold escape_length at hbad
            simp only [if_true, hx, and_self] at hbad
            cases hbad
          have := lexer_unicode_digits_none _ a b c d rest hr2 hx
          generalize lexer_unicode_digits 4 (lexer_read (lexer_read lex ['\\']) ['u']) 0 = res
            at this
          obtain ⟨l, o⟩ := res
          simp only at this
          subst this
          rfl
        | [], _, _, hlen => simp only [List.length_nil] at hlen; omega
        | [_], _, _, hlen => simp only [List.length_cons, List.length_nil] at hlen; omega
        | [_, _], _, _, hlen => simp only [List.length_cons, List.length_nil] at hlen; omega
        | [_, _, _], _, _, hlen => simp only [List.length_cons, List.length_nil] at hlen; omega
    · have hlook : escape_table.lookup e = none := by
        unfold escape_length at hbad
        simp only [if_true, if_neg heu] at hbad
        cases hl : escape_table.lookup e with
        | none => rfl
        | some v =>
          rw [hl] at hbad
          simp at hbad
      have hne : ¬ (if e.toNat > 127 then '\x00' else e) = 'u' := by
        split
        · decide
        · exact heu
      simp only [if_neg hne, escape_value_advance e hlook]

/-- A string literal with an escape that is not valid behind a valid start of
the body: the round ends with the error, no token is appended. -/
theorem lexer_token_string_invalid (lex : lexer_t) (q : Char) (good bad text : List Char)
    (hq : q = '"' ∨ q = '\'') (h : lex.rest = q :: (good ++ '\\' :: bad))
    (hascii : ∀ c ∈ good, c.toNat ≤ 127 ∧ c ≠ '\x00') (ht : string_text q good = some text)
    (hbad : escape_length ('\\' :: bad) = none) :
    (lexer_token lex).2 = false ∧ (lexer_token lex).1.tokens = lex.tokens ∧
      (lexer_token lex).1.had_error = true := by
  obtain ⟨q1, q2, q3, -, -⟩ := quote_facts q hq
  have hr := lexer_rest_read lex [q] _ h
  obtain ⟨fuel', hf, heq⟩ := lexer_string_body_prefix q hq good.length good (le_refl _) text
    (lexer_read lex [q]) [] ('\\' :: bad) (good ++ '\\' :: bad).length ht hascii hr (by simp)
  have hr2 := lexer_rest_read (lexer_read lex [q]) good _ hr
  obtain ⟨f, rfl⟩ : ∃ f, fuel' = f + 1 := by
    refine ⟨fuel' - 1, ?_⟩
    simp only [List.length_append, List.length_cons] at hf
    omega
  have hnone := lexer_string_body_invalid q hq f _ ([] ++ text) bad hr2 hbad
  obtain ⟨cs, hreads, herr⟩ := lexer_reads_string_body q (f + 1)
    (lexer_read (lexer_read lex [q]) good) ([] ++ text)
  rw [lexer_token_string lex q _ h hq, lexer_string_fuel lex q _ h, heq]
  generalize lexer_string_body q (f + 1) (lexer_read (lexer_read lex [q]) good) ([] ++ text) = res
    at hnone hreads herr
  obtain ⟨l, o⟩ := res
  simp only at hnone
  subst hnone
  exact ⟨rfl, hreads.2.2.2.1, herr rfl⟩

theorem lexer_step_of_quote (lex : lexer_t) (ws : List Char) (q : Char) (r : List Char)
    (h : lex.rest = ws ++ q :: r) (hws : ∀ x ∈ ws, isspace x = true)
    (hq : q = '"' ∨ q = '\'') : lexer_step lex = lexer_token (lexer_read lex ws) := by
  obtain ⟨-, -, -, q4, q5⟩ := quote_facts q hq
  exact lexer_step_of_token lex ws (q :: r) h hws q4 (opens_comment_of_head _ q5)

/-- C14 fails for the escapes `\uD800` to `\uDFFF`: the lexer appends three
bytes for them as for every code point above 0x7FF, and these bytes are not
UTF-8, standard decoding does not give the code point back. On `"\uD800"` the
text of the token is the bytes ED A0 80. -/
theorem C14_surrogate_escape :
    (lexer_init (some "a.rose") ['"', '\\', 'u', 'D', '8', '0', '0', '"']).map
        (fun lex => (lex.had_error,
          lex.tokens.map (fun t => (t.type, t.value.data.map Char.toNat, t.length)))) =
      some (false, [(TOKEN_STRING_LITERAL, [0xED, 0xA0, 0x80], 3), (TOKEN_EOF, [], 0)]) ∧
    hex_number ['D', '8', '0', '0'] = 0xD800 ∧
    utf8_decode [0xED, 0xA0, 0x80] = none := by
  refine ⟨by rfl, by rfl, by rfl⟩

/-- C14, amended: at a token start (after any whitespace `ws`), a string
literal in the quotes `q` that is closed, whose body holds bytes up to 127 only
and escapes that are all valid, makes one round of the lexer append one
`TOKEN_STRING_LITERAL` token: its text is the body with each escape replaced by
its value and each `\uXXXX` by one, two or three bytes for the code point, and
its length field is the number of bytes of the text. The bytes for a code
point below 0x10000 that is not one of 0xD800 to 0xDFFF decode to the code
point by standard UTF-8 decoding. -/
theorem C14_string_literal_text (lex : lexer_t) (ws : List Char) (q : Char)
    (body tail text : List Char) (h : lex.rest = ws ++ q :: (body ++ q :: tail))
    (hws : ∀ x ∈ ws, isspace x = true) (hq : q = '"' ∨ q = '\'')
    (hascii : ∀ c ∈ body, c.toNat ≤ 127 ∧ c ≠ '\x00') (ht : string_text q body = some text) :
    lexer_step lex =
      (lexer_append (lexer_read lex (ws ++ q :: (body ++ [q])))
        ⟨String.mk text, text.length, TOKEN_STRING_LITERAL, (lexer_read lex ws).loc⟩, true) ∧
    (∀ codepoint < 0x10000, ¬ (0xD800 ≤ codepoint ∧ codepoint ≤ 0xDFFF) →
      utf8_decode (utf8_bytes codepoint) = some codepoint) ∧
    (∀ codepoint < 0x10000, (utf8_bytes codepoint).length =
      if codepoint ≤ 0x7F then 1 else if codepoint ≤ 0x7FF then 2 else 3) := by
  refine ⟨?_, ?_, ?_⟩
  · rw [lexer_step_of_quote lex ws q _ h hws hq,
      lexer_token_string_text (lexer_read lex ws) q body tail text hq
        (lexer_rest_read lex ws _ h) hascii ht, lexer_read_append]
  · intro codepoint hlt hs
    rw [utf8_bytes_eq codepoint hlt]
    exact utf8_decode_encode codepoint hlt hs
  · intro codepoint _
    unfold utf8_bytes
    split
    · rfl
    · split <;> rfl

/-- C14 on the text `"a\né"`: the token has the text `a`, LF and the bytes
C3 A9, and the length 4. -/
theorem C14_string_literal_text_witness :
    lexer_step ⟨[], ['"', 'a', '\\', 'n', '\\', 'u', '0', '0', 'e', '9', '"'],
        ⟨"a.rose", 1, 1⟩, 0, false⟩ =
      (lexer_append
        (lexer_read ⟨[], ['"', 'a', '\\', 'n', '\\', 'u', '0', '0', 'e', '9', '"'],
          ⟨"a.rose", 1, 1⟩, 0, false⟩
          ([] ++ '"' :: (['a', '\\', 'n', '\\', 'u', '0', '0', 'e', '9'] ++ ['"'])))
        ⟨String.mk ['a', '\n', '\xc3', '\xa9'], ['a', '\n', '\xc3', '\xa9'].length,
          TOKEN_STRING_LITERAL,
          (lexer_read ⟨[], ['"', 'a', '\\', 'n', '\\', 'u', '0', '0', 'e', '9', '"'],
            ⟨"a.rose", 1, 1⟩, 0, false⟩ []).loc⟩, true) ∧
    (∀ codepoint < 0x10000, ¬ (0xD800 ≤ codepoint ∧ codepoint ≤ 0xDFFF) →
      utf8_decode (utf8_bytes codepoint) = some codepoint) ∧
    (∀ codepoint < 0x10000, (utf8_bytes codepoint).length =
      if codepoint ≤ 0x7F then 1 else if codepoint ≤ 0x7FF then 2 else 3) :=
  C14_string_literal_text
    ⟨[], ['"', 'a', '\\', 'n', '\\', 'u', '0', '0', 'e', '9', '"'], ⟨"a.rose", 1, 1⟩, 0, false⟩
    [] '"' ['a', '\\', 'n', '\\', 'u', '0', '0', 'e', '9'] [] ['a', '\n', '\xc3', '\xa9']
    (by rfl) (by decide) (by decide) (by decide) (by decide)

/-- C19 fails for an escape that is not valid: on `"a\q"` the lexer flags the
error and appends no token, and the location it holds is line 1, column 4, that
of the `q`, not that of the opening quote; on `"a\u12"` it is line 1, column 5,
behind the `u`. -/
theorem C19_escape_error_location :
    (lexer_init (some "a.rose") ['"', 'a', '\\', 'q', '"']).map
        (fun lex => (lex.had_error, lex.tokens.length, lex.loc.line, lex.loc.column)) =
      some (true, 0, 1, 4) ∧
    (lexer_init (some "a.rose") ['"', 'a', '\\', 'u', '1', '2', '"']).map
        (fun lex => (lex.had_error, lex.tokens.length, lex.loc.line, lex.loc.column)) =
      some (true, 0, 1, 5) := by
  refine ⟨by rfl, by rfl⟩

/-- C19, amended: at a token start (after any whitespace `ws`), a string
literal whose body starts with the valid text `good` of bytes up to 127: when an
escape that is not valid follows (a backslash before a character that is no
escape character, a backslash at the end of the text, or `\u` without four
hexadecimal digits), the round sets `had_error`, appends no token and ends the
run; and when the text ends behind `good`, the literal is not closed, the round
sets `had_error`, appends no token and ends the run, and the location the lexer
holds is that of the opening quote. -/
theorem C19_string_errors (lex : lexer_t) (ws : List Char) (q : Char) (good text : List Char)
    (hws : ∀ x ∈ ws, isspace x = true) (hq : q = '"' ∨ q = '\'')
    (hascii : ∀ c ∈ good, c.toNat ≤ 127 ∧ c ≠ '\x00') (ht : string_text q good = some text) :
    (∀ bad, lex.rest = ws ++ q :: (good ++ '\\' :: bad) →
      escape_length ('\\' :: bad) = none →
      (lexer_step lex).2 = false ∧ (lexer_step lex).1.tokens = lex.tokens ∧
        (lexer_step lex).1.had_error = true) ∧
    (lex.rest = ws ++ q :: good →
      (lexer_step lex).2 = false ∧ (lexer_step lex).1.tokens = lex.tokens ∧
        (lexer_step lex).1.had_error = true ∧
        (lexer_step lex).1.loc = loc_after lex.loc ws) := by
  refine ⟨?_, ?_⟩
  · intro bad h hbad
    rw [lexer_step_of_quote lex ws q _ h hws hq]
    exact lexer_token_string_invalid (lexer_read lex ws) q good bad text hq
      (lexer_rest_read lex ws _ h) hascii ht hbad
  · intro h
    rw [lexer_step_of_quote lex ws q _ h hws hq,
      lexer_token_string_open (lexer_read lex ws) q good text hq
        (lexer_rest_read lex ws _ h) hascii ht]
    refine ⟨rfl, rfl, rfl, ?_⟩
    show (⟨_, _, _⟩ : location_t) = _
    have hf : (lexer_read (lexer_read lex ws) (q :: good)).loc.filename =
        (loc_after lex.loc ws).filename := loc_after_filename _ _
    rw [hf]
    rfl

/-- C19 on the text `'a` followed by `\q'`, by `\u12'`, by a backslash and
nothing else, or by nothing. -/
theorem C19_string_errors_witness :
    (lexer_step ⟨[], ['\'', 'a', '\\', 'q', '\''], ⟨"a.rose", 1, 1⟩, 0, false⟩).1.had_error =
      true ∧
    (lexer_step ⟨[], ['\'', 'a', '\\', 'u', '1', '2', '\''], ⟨"a.rose", 1, 1⟩, 0, false⟩).1.had_error =
      true ∧
    (lexer_step ⟨[], ['\'', 'a', '\\'], ⟨"a.rose", 1, 1⟩, 0, false⟩).1.had_error = true ∧
    (lexer_step ⟨[], ['\'', 'a'], ⟨"a.rose", 1, 1⟩, 0, false⟩).1.loc = ⟨"a.rose", 1, 1⟩ :=
  ⟨((C19_string_errors ⟨[], ['\'', 'a', '\\', 'q', '\''], ⟨"a.rose", 1, 1⟩, 0, false⟩ [] '\''
      ['a'] ['a'] (by decide) (by decide) (by decide) (by decide)).1
      ['q', '\''] (by rfl) (by decide)).2.2,
   ((C19_string_errors ⟨[], ['\'', 'a', '\\', 'u', '1', '2', '\''], ⟨"a.rose", 1, 1⟩, 0, false⟩
      [] '\'' ['a'] ['a'] (by decide) (by decide) (by decide) (by decide)).1
      ['u', '1', '2', '\''] (by rfl) (by decide)).2.2,
   ((C19_string_errors ⟨[], ['\'', 'a', '\\'], ⟨"a.rose", 1, 1⟩, 0, false⟩
      [] '\'' ['a'] ['a'] (by decide) (by decide) (by decide) (by decide)).1
      [] (by rfl) (by decide)).2.2,
   ((C19_string_errors ⟨[], ['\'', 'a'], ⟨"a.rose", 1, 1⟩, 0, false⟩ [] '\''
      ['a'] ['a'] (by decide) (by decide) (by decide) (by decide)).2 (by rfl)).2.2.2⟩


/-! ## The lexer: a token read again from its text -/

/-- An operator of the table other than the arrow, followed by a space or by
the end of the text, is read as the token of that operator. -/
theorem lexer_token_operator (lex : lexer_t) (type : token_type_t) (text : String)
    (tail : List Char) (hmem : (type, text) ∈ operator_table) (hne : type ≠ TOKEN_ARROW)
    (h : lex.rest = text.data ++ tail) (ht : tail = [] ∨ ∃ t, tail = ' ' :: t) :
    lexer_token lex =
        (lexer_append (lexer_read lex text.data) ⟨text, text.length, type, lex.loc⟩, true) ∧
      isspace (text.data.headD '\x00') = false ∧ opens_comment (text.data ++ tail) = false := by
  simp only [operator_table, List.mem_cons, Prod.mk.injEq, List.mem_singleton,
    List.not_mem_nil, or_false] at hmem
  rcases hmem with
    ⟨e0, f0⟩ |
    ⟨e1, f1⟩ |
    ⟨e2, f2⟩ |
    ⟨e3, f3⟩ |
    ⟨e4, f4⟩ |
    ⟨e5, f5⟩ |
    ⟨e6, f6⟩ |
    ⟨e7, f7⟩ |
    ⟨e8, f8⟩ |
    ⟨e9, f9⟩ |
    ⟨e10, f10⟩ |
    ⟨e11, f11⟩ |
    ⟨e12, f12⟩ |
    ⟨e13, f13⟩ |
    ⟨e14, f14⟩ |
    ⟨e15, f15⟩ |
    ⟨e16, f16⟩ |
    ⟨e17, f17⟩ |
    ⟨e18, f18⟩ |
    ⟨e19, f19⟩ |
    ⟨e20, f20⟩ |
    ⟨e21, f21⟩ |
    ⟨e22, f22⟩ |
    ⟨e23, f23⟩ |
    ⟨e24, f24⟩ |
    ⟨e25, f25⟩ |
    ⟨e26, f26⟩ |
    ⟨e27, f27⟩ |
    ⟨e28, f28⟩ |
    ⟨e29, f29⟩ |
    ⟨e30, f30⟩ |
    ⟨e31, f31⟩ |
    ⟨e32, f32⟩ |
    ⟨e33, f33⟩ |
    ⟨e34, f34⟩ |
    ⟨e35, f35⟩ |
    ⟨e36, f36⟩ |
    ⟨e37, f37⟩ |
    ⟨e38, f38⟩ |
    ⟨e39, f39⟩ |
    ⟨e40, f40⟩ |
    ⟨e41, f41⟩ |
    ⟨e42, f42⟩ |
    ⟨e43, f43⟩ |
    ⟨e44, f44⟩ |
    ⟨e45, f45⟩ |
    ⟨e46, f46⟩ |
    ⟨e47, f47⟩ |
    ⟨e48, f48⟩ |
    ⟨e49, f49⟩
  · subst e0 f0
    have hr : lex.rest = '+' :: ('+' :: tail) := h
    refine ⟨?_, by decide, ?_⟩
    · rw [lexer_token_other lex '+' _ hr (by decide) (by decide) (by decide) (by decide)
        (by decide) (by decide) (by decide) (by decide),
        lexer_operator_plus_plus (lexer_read lex ['+']) tail (lexer_rest_read lex ['+'] _ hr) ht]
      simp only [lexer_read_append]
      rfl
    · rcases ht with rfl | ⟨t, rfl⟩ <;> rfl
  · subst e1 f1
    have hr : lex.rest = '+' :: ('=' :: tail) := h
    refine ⟨?_, by decide, ?_⟩
    · rw [lexer_token_other lex '+' _ hr (by decide) (by decide) (by decide) (by decide)
        (by decide) (by decide) (by decide) (by decide),
        lexer_operator_plus_equal (lexer_read lex ['+']) tail (lexer_rest_read lex ['+'] _ hr) ht]
      simp only [lexer_read_append]
      rfl
    · rcases ht with rfl | ⟨t, rfl⟩ <;> rfl
  · subst e2 f2
    have hr : lex.rest = '+' :: (tail) := h
    refine ⟨?_, by decide, ?_⟩
    · rw [lexer_token_other lex '+' _ hr (by decide) (by decide) (by decide) (by decide)
        (by decide) (by decide) (by decide) (by decide),
        lexer_operator_plus (lexer_read lex ['+']) tail (lexer_rest_read lex ['+'] _ hr) ht]
      simp only [lexer_read_append]
      rfl
    · rcases ht with rfl | ⟨t, rfl⟩ <;> rfl
  · subst e3 f3
    have hr : lex.rest = '-' :: ('-' :: tail) := h
    refine ⟨?_, by decide, ?_⟩
    · rw [lexer_token_other lex '-' _ hr (by decide) (by decide) (by decide) (by decide)
        (by decide) (by decide) (by decide) (by decide),
        lexer_operator_minus_minus (lexer_read lex ['-']) tail (lexer_rest_read lex ['-'] _ hr) ht]
      simp only [lexer_read_append]
      rfl
    · rcases ht with rfl | ⟨t, rfl⟩ <;> rfl
  · subst e4 f4
    have hr : lex.rest = '-' :: ('=' :: tail) := h
    refine ⟨?_, by decide, ?_⟩
    · rw [lexer_token_other lex '-' _ hr (by decide) (by decide) (by decide) (by decide)
        (by decide) (by decide) (by decide) (by decide),
        lexer_operator_minus_equal (lexer_read lex ['-']) tail (lexer_rest_read lex ['-'] _ hr) ht]
      simp only [lexer_read_append]
      rfl
    · rcases ht with rfl | ⟨t, rfl⟩ <;> rfl
  · subst e5 f5
    exact absurd rfl hne
  · subst e6 f6
    have hr : lex.rest = '-' :: (tail) := h
    refine ⟨?_, by decide, ?_⟩
    · rw [lexer_token_other lex '-' _ hr (by decide) (by decide) (by decide) (by decide)
        (by decide) (by decide) (by decide) (by decide),
        lexer_operator_minus (lexer_read lex ['-']) tail (lexer_rest_read lex ['-'] _ hr) ht]
      simp only [lexer_read_append]
      rfl
    · rcases ht with rfl | ⟨t, rfl⟩ <;> rfl
  · subst e7 f7
    have hr : lex.rest = '*' :: ('*' :: '=' :: tail) := h
    refine ⟨?_, by decide, ?_⟩
    · rw [lexer_token_other lex '*' _ hr (by decide) (by decide) (by decide) (by decide)
        (by decide) (by decide) (by decide) (by decide),
        lexer_operator_star_star_equal (lexer_read lex ['*']) tail (lexer_rest_read lex ['*'] _ hr) ht]
      simp only [lexer_read_append]
      rfl
    · rcases ht with rfl | ⟨t, rfl⟩ <;> rfl
  · subst e8 f8
    have hr : lex.rest = '*' :: ('*' :: tail) := h
    refine ⟨?_, by decide, ?_⟩
    · rw [lexer_token_other lex '*' _ hr (by decide) (by decide) (by decide) (by decide)
        (by decide) (by decide) (by decide) (by decide),
        lexer_operator_star_star (lexer_read lex ['*']) tail (lexer_rest_read lex ['*'] _ hr) ht]
      simp only [lexer_read_append]
      rfl
    · rcases ht with rfl | ⟨t, rfl⟩ <;> rfl
  · subst e9 f9
    have hr : lex.rest = '*' :: ('=' :: tail) := h
    refine ⟨?_, by decide, ?_⟩
    · rw [lexer_token_other lex '*' _ hr (by decide) (by decide) (by decide) (by decide)
        (by decide) (by decide) (by decide) (by decide),
        lexer_operator_star_equal (lexer_read lex ['*']) tail (lexer_rest_read lex ['*'] _ hr) ht]
      simp only [lexer_read_append]
      rfl
    · rcases ht with rfl | ⟨t, rfl⟩ <;> rfl
  · subst e10 f10
    have hr : lex.rest = '*' :: (tail) := h
    refine ⟨?_, by decide, ?_⟩
    · rw [lexer_token_other lex '*' _ hr (by decide) (by decide) (by decide) (by decide)
        (by decide) (by decide) (by decide) (by decide),
        lexer_operator_star (lexer_read lex ['*']) tail (lexer_rest_read lex ['*'] _ hr) ht]
      simp only [lexer_read_append]
      rfl
    · rcases ht with rfl | ⟨t, rfl⟩ <;> rfl
  · subst e11 f11
    have hr : lex.rest = '/' :: ('=' :: tail) := h
    refine ⟨?_, by decide, ?_⟩
    · rw [lexer_token_other lex '/' _ hr (by decide) (by decide) (by decide) (by decide)
        (by decide) (by decide) (by decide) (by decide),
        lexer_operator_slash_equal (lexer_read lex ['/']) tail (lexer_rest_read lex ['/'] _ hr) ht]
      simp only [lexer_read_append]
      rfl
    · rcases ht with rfl | ⟨t, rfl⟩ <;> rfl
  · subst e12 f12
    have hr : lex.rest = '/' :: (tail) := h
    refine ⟨?_, by decide, ?_⟩
    · rw [lexer_token_other lex '/' _ hr (by decide) (by decide) (by decide) (by decide)
        (by decide) (by decide) (by decide) (by decide),
        lexer_operator_slash (lexer_read lex ['/']) tail (lexer_rest_read lex ['/'] _ hr) ht]
      simp only [lexer_read_append]
      rfl
    · rcases ht with rfl | ⟨t, rfl⟩ <;> rfl
  · subst e13 f13
    have hr : lex.rest = '%' :: ('=' :: tail) := h
    refine ⟨?_, by decide, ?_⟩
    · rw [lexer_token_other lex '%' _ hr (by decide) (by decide) (by decide) (by decide)
        (by decide) (by decide) (by decide) (by decide),
        lexer_operator_percent_equal (lexer_read lex ['%']) tail (lexer_rest_read lex ['%'] _ hr) ht]
      simp only [lexer_read_append]
      rfl
    · rcases ht with rfl | ⟨t, rfl⟩ <;> rfl
  · subst e14 f14
    have hr : lex.rest = '%' :: (tail) := h
    refine ⟨?_, by decide, ?_⟩
    · rw [lexer_token_other lex '%' _ hr (by decide) (by decide) (by decide) (by decide)
        (by decide) (by decide) (by decide) (by decide),
        lexer_operator_percent (lexer_read lex ['%']) tail (lexer_rest_read lex ['%'] _ hr) ht]
      simp only [lexer_read_append]
      rfl
    · rcases ht with rfl | ⟨t, rfl⟩ <;> rfl
  · subst e15 f15
    have hr : lex.rest = '&' :: ('&' :: '=' :: tail) := h
    refine ⟨?_, by decide, ?_⟩
    · rw [lexer_token_other lex '&' _ hr (by decide) (by decide) (by decide) (by decide)
        (by decide) (by decide) (by decide) (by decide),
        lexer_operator_logical_and_equal (lexer_read lex ['&']) tail (lexer_rest_read lex ['&'] _ hr) ht]
      simp only [lexer_read_append]
      rfl
    · rcases ht with rfl | ⟨t, rfl⟩ <;> rfl
  · subst e16 f16
    have hr : lex.rest = '&' :: ('&' :: tail) := h
    refine ⟨?_, by decide, ?_⟩
    · rw [lexer_token_other lex '&' _ hr (by decide) (by decide) (by decide) (by decide)
        (by decide) (by decide) (by decide) (by decide),
        lexer_operator_logical_and (lexer_read lex ['&']) tail (lexer_rest_read lex ['&'] _ hr) ht]
      simp only [lexer_read_append]
      rfl
    · rcases ht with rfl | ⟨t, rfl⟩ <;> rfl
  · subst e17 f17
    have hr : lex.rest = '&' :: ('=' :: tail) := h
    refine ⟨?_, by decide, ?_⟩
    · rw [lexer_token_other lex '&' _ hr (by decide) (by decide) (by decide) (by decide)
        (by decide) (by decide) (by decide) (by decide),
        lexer_operator_ampersand_equal (lexer_read lex ['&']) tail (lexer_rest_read lex ['&'] _ hr) ht]
      simp only [lexer_read_append]
      rfl
    · rcases ht with rfl | ⟨t, rfl⟩ <;> rfl
  · subst e18 f18
    have hr : lex.rest = '&' :: (tail) := h
    refine ⟨?_, by decide, ?_⟩
    · rw [lexer_token_other lex '&' _ hr (by decide) (by decide) (by decide) (by decide)
        (by decide) (by decide) (by decide) (by decide),
        lexer_operator_ampersand (lexer_read lex ['&']) tail (lexer_rest_read lex ['&'] _ hr) ht]
      simp only [lexer_read_append]
      rfl
    · rcases ht with rfl | ⟨t, rfl⟩ <;> rfl
  · subst e19 f19
    have hr : lex.rest = '|' :: ('|' :: '=' :: tail) := h
    refine ⟨?_, by decide, ?_⟩
    · rw [lexer_token_other lex '|' _ hr (by decide) (by decide) (by decide) (by decide)
        (by decide) (by decide) (by decide) (by decide),
        lexer_operator_logical_or_equal (lexer_read lex ['|']) tail (lexer_rest_read lex ['|'] _ hr) ht]
      simp only [lexer_read_append]
      rfl
    · rcases ht with rfl | ⟨t, rfl⟩ <;> rfl
  · subst e20 f20
    have hr : lex.rest = '|' :: ('|' :: tail) := h
    refine ⟨?_, by decide, ?_⟩
    · rw [lexer_token_other lex '|' _ hr (by decide) (by decide) (by decide) (by decide)
        (by decide) (by decide) (by decide) (by decide),
        lexer_operator_logical_or (lexer_read lex ['|']) tail (lexer_rest_read lex ['|'] _ hr) ht]
      simp only [lexer_read_append]
      rfl
    · rcases ht with rfl | ⟨t, rfl⟩ <;> rfl
  · subst e21 f21
    have hr : lex.rest = '|' :: ('=' :: tail) := h
    refine ⟨?_, by decide, ?_⟩
    · rw [lexer_token_other lex '|' _ hr (by decide) (by decide) (by decide) (by decide)
        (by decide) (by decide) (by decide) (by decide),
        lexer_operator_pipe_equal (lexer_read lex ['|']) tail (lexer_rest_read lex ['|'] _ hr) ht]
      simp only [lexer_read_append]
      rfl
    · rcases ht with rfl | ⟨t, rfl⟩ <;> rfl
  · subst e22 f22
    have hr : lex.rest = '|' :: (tail) := h
    refine ⟨?_, by decide, ?_⟩
    · rw [lexer_token_other lex '|' _ hr (by decide) (by decide) (by decide) (by decide)
        (by decide) (by decide) (by decide) (by decide),
        lexer_operator_pipe (lexer_read lex ['|']) tail (lexer_rest_read lex ['|'] _ hr) ht]
      simp only [lexer_read_append]
      rfl
    · rcases ht with rfl | ⟨t, rfl⟩ <;> rfl
  · subst e23 f23
    have hr : lex.rest = '^' :: ('=' :: tail) := h
    refine ⟨?_, by decide, ?_⟩
    · rw [lexer_token_other lex '^' _ hr (by decide) (by decide) (by decide) (by decide)
        (by decide) (by decide) (by decide) (by decide),
        lexer_operator_caret_equal (lexer_read lex ['^']) tail (lexer_rest_read lex ['^'] _ hr) ht]
      simp only [lexer_read_append]
      rfl
    · rcases ht with rfl | ⟨t, rfl⟩ <;> rfl
  · subst e24 f24
    have hr : lex.rest = '^' :: (tail) := h
    refine ⟨?_, by decide, ?_⟩
    · rw [lexer_token_other lex '^' _ hr (by decide) (by decide) (by decide) (by decide)
        (by decide) (by decide) (by decide) (by decide),
        lexer_operator_caret (lexer_read lex ['^']) tail (lexer_rest_read lex ['^'] _ hr) ht]
      simp only [lexer_read_append]
      rfl
    · rcases ht with rfl | ⟨t, rfl⟩ <;> rfl
  · subst e25 f25
    have hr : lex.rest = '~' :: (tail) := h
    refine ⟨?_, by decide, ?_⟩
    · rw [lexer_token_other lex '~' _ hr (by decide) (by decide) (by decide) (by decide)
        (by decide) (by decide) (by decide) (by decide),
        lexer_operator_tilde (lexer_read lex ['~']) tail (lexer_rest_read lex ['~'] _ hr) ht]
      simp only [lexer_read_append]
      rfl
    · rcases ht with rfl | ⟨t, rfl⟩ <;> rfl
  · subst e26 f26
    have hr : lex.rest = '<' :: ('<' :: '=' :: tail) := h
    refine ⟨?_, by decide, ?_⟩
    · rw [lexer_token_other lex '<' _ hr (by decide) (by decide) (by decide) (by decide)
        (by decide) (by decide) (by decide) (by decide),
        lexer_operator_left_shift_equal (lexer_read lex ['<']) tail (lexer_rest_read lex ['<'] _ hr) ht]
      simp only [lexer_read_append]
      rfl
    · rcases ht with rfl | ⟨t, rfl⟩ <;> rfl
  · subst e27 f27
    have hr : lex.rest = '<' :: ('<' :: tail) := h
    refine ⟨?_, by decide, ?_⟩
    · rw [lexer_token_other lex '<' _ hr (by decide) (by decide) (by decide) (by decide)
        (by decide) (by decide) (by decide) (by decide),
        lexer_operator_left_shift (lexer_read lex ['<']) tail (lexer_rest_read lex ['<'] _ hr) ht]
      simp only [lexer_read_append]
      rfl
    · rcases ht with rfl | ⟨t, rfl⟩ <;> rfl
  · subst e28 f28
    have hr : lex.rest = '<' :: ('=' :: tail) := h
    refine ⟨?_, by decide, ?_⟩
    · rw [lexer_token_other lex '<' _ hr (by decide) (by decide) (by decide) (by decide)
        (by decide) (by decide) (by decide) (by decide),
        lexer_operator_less_equal (lexer_read lex ['<']) tail (lexer_rest_read lex ['<'] _ hr) ht]
      simp only [lexer_read_append]
      rfl
    · rcases ht with rfl | ⟨t, rfl⟩ <;> rfl
  · subst e29 f29
    have hr : lex.rest = '<' :: (tail) := h
    refine ⟨?_, by decide, ?_⟩
    · rw [lexer_token_other lex '<' _ hr (by decide) (by decide) (by decide) (by decide)
        (by decide) (by decide) (by decide) (by decide),
        lexer_operator_less (lexer_read lex ['<']) tail (lexer_rest_read lex ['<'] _ hr) ht]
      simp only [lexer_read_append]
      rfl
    · rcases ht with rfl | ⟨t, rfl⟩ <;> rfl
  · subst e30 f30
    have hr : lex.rest = '>' :: ('>' :: '=' :: tail) := h
    refine ⟨?_, by decide, ?_⟩
    · rw [lexer_token_other lex '>' _ hr (by decide) (by decide) (by decide) (by decide)
        (by decide) (by decide) (by decide) (by decide),
        lexer_operator_right_shift_equal (lexer_read lex ['>']) tail (lexer_rest_read lex ['>'] _ hr) ht]
      simp only [lexer_read_append]
      rfl
    · rcases ht with rfl | ⟨t, rfl⟩ <;> rfl
  · subst e31 f31
    have hr : lex.rest = '>' :: ('>' :: tail) := h
    refine ⟨?_, by decide, ?_⟩
    · rw [lexer_token_other lex '>' _ hr (by decide) (by decide) (by decide) (by decide)
        (by decide) (by decide) (by decide) (by decide),
        lexer_operator_right_shift (lexer_read lex ['>']) tail (lexer_rest_read lex ['>'] _ hr) ht]
      simp only [lexer_read_append]
      rfl
    · rcases ht with rfl | ⟨t, rfl⟩ <;> rfl
  · subst e32 f32
    have hr : lex.rest = '>' :: ('=' :: tail) := h
    refine ⟨?_, by decide, ?_⟩
    · rw [lexer_token_other lex '>' _ hr (by decide) (by decide) (by decide) (by decide)
        (by decide) (by decide) (by decide) (by decide),
        lexer_operator_greater_equal (lexer_read lex ['>']) tail (lexer_rest_read lex ['>'] _ hr) ht]
      simp only [lexer_read_append]
      rfl
    · rcases ht with rfl | ⟨t, rfl⟩ <;> rfl
  · subst e33 f33
    have hr : lex.rest = '>' :: (tail) := h
    refine ⟨?_, by decide, ?_⟩
    · rw [lexer_token_other lex '>' _ hr (by decide) (by decide) (by decide) (by decide)
        (by decide) (by decide) (by decide) (by decide),
        lexer_operator_greater (lexer_read lex ['>']) tail (lexer_rest_read lex ['>'] _ hr) ht]
      simp only [lexer_read_append]
      rfl
    · rcases ht with rfl | ⟨t, rfl⟩ <;> rfl
  · subst e34 f34
    have hr : lex.rest = '=' :: ('=' :: tail) := h
    refine ⟨?_, by decide, ?_⟩
    · rw [lexer_token_other lex '=' _ hr (by decide) (by decide) (by decide) (by decide)
        (by decide) (by decide) (by decide) (by decide),
        lexer_operator_equal_equal (lexer_read lex ['=']) tail (lexer_rest_read lex ['='] _ hr) ht]
      simp only [lexer_read_append]
      rfl
    · rcases ht with rfl | ⟨t, rfl⟩ <;> rfl
  · subst e35 f35
    have hr : lex.rest = '=' :: (tail) := h
    refine ⟨?_, by decide, ?_⟩
    · rw [lexer_token_other lex '=' _ hr (by decide) (by decide) (by decide) (by decide)
        (by decide) (by decide) (by decide) (by decide),
        lexer_operator_equal (lexer_read lex ['=']) tail (lexer_rest_read lex ['='] _ hr) ht]
      simp only [lexer_read_append]
      rfl
    · rcases ht with rfl | ⟨t, rfl⟩ <;> rfl
  · subst e36 f36
    have hr : lex.rest = '!' :: ('=' :: tail) := h
    refine ⟨?_, by decide, ?_⟩
    · rw [lexer_token_other lex '!' _ hr (by decide) (by decide) (by decide) (by decide)
        (by decide) (by decide) (by decide) (by decide),
        lexer_operator_bang_equal (lexer_read lex ['!']) tail (lexer_rest_read lex ['!'] _ hr) ht]
      simp only [lexer_read_append]
      rfl
    · rcases ht with rfl | ⟨t, rfl⟩ <;> rfl
  · subst e37 f37
    have hr : lex.rest = '!' :: (tail) := h
    refine ⟨?_, by decide, ?_⟩
    · rw [lexer_token_other lex '!' _ hr (by decide) (by decide) (by decide) (by decide)
        (by decide) (by decide) (by decide) (by decide),
        lexer_operator_bang (lexer_read lex ['!']) tail (lexer_rest_read lex ['!'] _ hr) ht]
      simp only [lexer_read_append]
      rfl
    · rcases ht with rfl | ⟨t, rfl⟩ <;> rfl
  · subst e38 f38
    have hr : lex.rest = '(' :: (tail) := h
    refine ⟨?_, by decide, ?_⟩
    · rw [lexer_token_other lex '(' _ hr (by decide) (by decide) (by decide) (by decide)
        (by decide) (by decide) (by decide) (by decide),
        lexer_operator_left_paren (lexer_read lex ['(']) tail (lexer_rest_read lex ['('] _ hr) ht]
      simp only [lexer_read_append]
      rfl
    · rcases ht with rfl | ⟨t, rfl⟩ <;> rfl
  · subst e39 f39
    have hr : lex.rest = ')' :: (tail) := h
    refine ⟨?_, by decide, ?_⟩
    · rw [lexer_token_other lex ')' _ hr (by decide) (by decide) (by decide) (by decide)
        (by decide) (by decide) (by decide) (by decide),
        lexer_operator_right_paren (lexer_read lex [')']) tail (lexer_rest_read lex [')'] _ hr) ht]
      simp only [lexer_read_append]
      rfl
    · rcases ht with rfl | ⟨t, rfl⟩ <;> rfl
  · subst e40 f40
    have hr : lex.rest = '\x7b' :: (tail) := h
    refine ⟨?_, by decide, ?_⟩
    · rw [lexer_token_other lex '\x7b' _ hr (by decide) (by decide) (by decide) (by decide)
        (by decide) (by decide) (by decide) (by decide),
        lexer_operator_left_brace (lexer_read lex ['\x7b']) tail (lexer_rest_read lex ['\x7b'] _ hr) ht]
      simp only [lexer_read_append]
      rfl
    · rcases ht with rfl | ⟨t, rfl⟩ <;> rfl
  · subst e41 f41
    have hr : lex.rest = '\x7d' :: (tail) := h
    refine ⟨?_, by decide, ?_⟩
    · rw [lexer_token_other lex '\x7d' _ hr (by decide) (by decide) (by decide) (by decide)
        (by decide) (by decide) (by decide) (by decide),
        lexer_operator_right_brace (lexer_read lex ['\x7d']) tail (lexer_rest_read lex ['\x7d'] _ hr) ht]
      simp only [lexer_read_append]
      rfl
    · rcases ht with rfl | ⟨t, rfl⟩ <;> rfl
  · subst e42 f42
    have hr : lex.rest = '[' :: (tail) := h
    refine ⟨?_, by decide, ?_⟩
    · rw [lexer_token_other lex '[' _ hr (by decide) (by decide) (by decide) (by decide)
        (by decide) (by decide) (by decide) (by decide),
        lexer_operator_left_bracket (lexer_read lex ['[']) tail (lexer_rest_read lex ['['] _ hr) ht]
      simp only [lexer_read_append]
      rfl
    · rcases ht with rfl | ⟨t, rfl⟩ <;> rfl
  · subst e43 f43
    have hr : lex.rest = ']' :: (tail) := h
    refine ⟨?_, by decide, ?_⟩
    · rw [lexer_token_other lex ']' _ hr (by decide) (by decide) (by decide) (by decide)
        (by decide) (by decide) (by decide) (by decide),
        lexer_operator_right_bracket (lexer_read lex [']']) tail (lexer_rest_read lex [']'] _ hr) ht]
      simp only [lexer_read_append]
      rfl
    · rcases ht with rfl | ⟨t, rfl⟩ <;> rfl
  · subst e44 f44
    have hr : lex.rest = '.' :: ('.' :: '.' :: tail) := h
    refine ⟨?_, by decide, ?_⟩
    · rw [lexer_token_other lex '.' _ hr (by decide) (by decide) (by decide) (by decide)
        (by decide) (by decide) (by decide) (by decide),
        lexer_operator_ellipsis (lexer_read lex ['.']) tail (lexer_rest_read lex ['.'] _ hr) ht]
      simp only [lexer_read_append]
      rfl
    · rcases ht with rfl | ⟨t, rfl⟩ <;> rfl
  · subst e45 f45
    have hr : lex.rest = '.' :: (tail) := h
    refine ⟨?_, by decide, ?_⟩
    · rw [lexer_token_other lex '.' _ hr (by decide) (by decide) (by decide) (by decide)
        (by decide) (by decide) (by decide) (by decide),
        lexer_operator_dot (lexer_read lex ['.']) tail (lexer_rest_read lex ['.'] _ hr) ht]
      simp only [lexer_read_append]
      rfl
    · rcases ht with rfl | ⟨t, rfl⟩ <;> rfl
  · subst e46 f46
    have hr : lex.rest = ',' :: (tail) := h
    refine ⟨?_, by decide, ?_⟩
    · rw [lexer_token_other lex ',' _ hr (by decide) (by decide) (by decide) (by decide)
        (by decide) (by decide) (by decide) (by decide),
        lexer_operator_comma (lexer_read lex [',']) tail (lexer_rest_read lex [','] _ hr) ht]
      simp only [lexer_read_append]
      rfl
    · rcases ht with rfl | ⟨t, rfl⟩ <;> rfl
  · subst e47 f47
    have hr : lex.rest = ';' :: (tail) := h
    refine ⟨?_, by decide, ?_⟩
    · rw [lexer_token_other lex ';' _ hr (by decide) (by decide) (by decide) (by decide)
        (by decide) (by decide) (by decide) (by decide),
        lexer_operator_semicolon (lexer_read lex [';']) tail (lexer_rest_read lex [';'] _ hr) ht]
      simp only [lexer_read_append]
      rfl
    · rcases ht with rfl | ⟨t, rfl⟩ <;> rfl
  · subst e48 f48
    have hr : lex.rest = ':' :: (tail) := h
    refine ⟨?_, by decide, ?_⟩
    · rw [lexer_token_other lex ':' _ hr (by decide) (by decide) (by decide) (by decide)
        (by decide) (by decide) (by decide) (by decide),
        lexer_operator_colon (lexer_read lex [':']) tail (lexer_rest_read lex [':'] _ hr) ht]
      simp only [lexer_read_append]
      rfl
    · rcases ht with rfl | ⟨t, rfl⟩ <;> rfl
  · subst e49 f49
    have hr : lex.rest = '?' :: (tail) := h
    refine ⟨?_, by decide, ?_⟩
    · rw [lexer_token_other lex '?' _ hr (by decide) (by decide) (by decide) (by decide)
        (by decide) (by decide) (by decide) (by decide),
        lexer_operator_question (lexer_read lex ['?']) tail (lexer_rest_read lex ['?'] _ hr) ht]
      simp only [lexer_read_append]
      rfl
    · rcases ht with rfl | ⟨t, rfl⟩ <;> rfl

/-! ## The lexer: the texts of the tokens, read again -/

theorem operator_table_ascii :
    ∀ p ∈ operator_table, p.2.data ≠ [] ∧ ∀ c ∈ p.2.data, c.toNat ≤ 127 ∧ c ≠ '\x00' := by
  decide

theorem in_number_ascii (c : Char) (h : in_number c = true) : c.toNat ≤ 127 ∧ c ≠ '\x00' := by
  simp only [in_number, isdigit, Bool.or_eq_true, Bool.and_eq_true, decide_eq_true_eq] at h
  rcases h with h | rfl
  · refine ⟨by omega, ?_⟩
    rintro rfl
    revert h
    decide
  · decide

theorem in_identifier_ascii (c : Char) (h : in_identifier c = true) :
    c.toNat ≤ 127 ∧ c ≠ '\x00' := by
  simp only [in_identifier, isalnum, isalpha, isdigit, Bool.or_eq_true, Bool.and_eq_true,
    decide_eq_true_eq] at h
  rcases h with (((h | h) | h) | rfl) | rfl
  · refine ⟨by omega, ?_⟩
    rintro rfl
    revert h
    decide
  · refine ⟨by omega, ?_⟩
    rintro rfl
    revert h
    decide
  · refine ⟨by omega, ?_⟩
    rintro rfl
    revert h
    decide
  · decide
  · decide

theorem in_identifier_of_start (c : Char) (hc : isalpha c = true ∨ c = '_' ∨ c = '$') :
    in_identifier c = true := by
  rcases hc with h | rfl | rfl
  · simp [in_identifier, isalnum, h]
  · decide
  · decide

/-- The text of a token that is written as its text is not empty and has
neither a character above 127 nor a NUL. -/
theorem relexable_ascii (type : token_type_t) (text : String) (h : relexable type text) :
    text.data ≠ [] ∧ ∀ c ∈ text.data, c.toNat ≤ 127 ∧ c ≠ '\x00' := by
  rcases h with ⟨⟨c, cs, hx, hc, hcs⟩, _⟩ | ⟨⟨d, ds, hd, hds, hx⟩, _⟩ | ⟨hmem, _⟩
  · rw [hx]
    refine ⟨by simp, fun x hm => ?_⟩
    rcases List.mem_cons.mp hm with rfl | hm
    · exact in_identifier_ascii _ (in_identifier_of_start _ hc)
    · exact in_identifier_ascii _ (hcs x hm)
  · have hd' : in_number d = true := by simp [in_number, hd]
    rcases hx with hx | ⟨fs, hfs, hx⟩
    · rw [hx]
      refine ⟨by simp, fun x hm => ?_⟩
      rcases List.mem_cons.mp hm with rfl | hm
      · exact in_number_ascii _ hd'
      · exact in_number_ascii _ (hds x hm)
    · rw [hx]
      refine ⟨by simp, fun x hm => ?_⟩
      simp only [List.cons_append, List.mem_cons, List.mem_append] at hm
      rcases hm with rfl | hm | rfl | hm
      · exact in_number_ascii _ hd'
      · exact in_number_ascii _ (hds x hm)
      · decide
      · exact in_number_ascii _ (hfs x hm)
  · exact operator_table_ascii (type, text) hmem

theorem tail_facts (tail : List Char) (ht : tail = [] ∨ ∃ t, tail = ' ' :: t) :
    in_identifier (tail.headD '\x00') = false ∧ in_number (tail.headD '\x00') = false ∧
      tail.headD '\x00' ≠ '.' := by
  rcases ht with rfl | ⟨t, rfl⟩
  · decide
  · simp only [List.headD_cons]
    decide

/-- A token that is written as its text, followed by a space or by the end of
the text, is read as that token. -/
theorem relex_token (lex : lexer_t) (type : token_type_t) (text : String) (tail : List Char)
    (hr : relexable type text) (h : lex.rest = text.data ++ tail)
    (ht : tail = [] ∨ ∃ t, tail = ' ' :: t) :
    (∃ n, lexer_token lex =
        (lexer_append (lexer_read lex text.data) ⟨text, n, type, lex.loc⟩, true)) ∧
      isspace (text.data.headD '\x00') = false ∧ opens_comment (text.data ++ tail) = false := by
  obtain ⟨t1, t2, t3⟩ := tail_facts tail ht
  obtain ⟨data⟩ := text
  simp only at h ⊢
  rcases hr with ⟨⟨c, cs, hx, hc, hcs⟩, hty⟩ | ⟨⟨d, ds, hd, hds, hx⟩, hty⟩ | ⟨hmem, hne⟩
  · simp only at hx hty
    subst hx
    subst hty
    have hs := isspace_of_start c (by tauto)
    exact ⟨⟨_, lexer_token_identifier lex c cs tail h hc hcs t1⟩, hs.1,
      opens_comment_of_head _ hs.2⟩
  · simp only at hx
    subst hty
    have hs := isspace_of_start d (Or.inr (Or.inl hd))
    rcases hx with hx | ⟨fs, hfs, hx⟩
    · subst hx
      exact ⟨⟨_, lexer_token_number_int lex d ds tail h hd hds t2 t3⟩, hs.1,
        opens_comment_of_head _ hs.2⟩
    · subst hx
      exact ⟨⟨_, lexer_token_number_frac lex d ds fs tail h hd hds hfs t2⟩, hs.1,
        opens_comment_of_head _ hs.2⟩
  · obtain ⟨k1, k2, k3⟩ := lexer_token_operator lex type ⟨data⟩ tail hmem hne h ht
    exact ⟨⟨_, k1⟩, k2, k3⟩

theorem headD_append_of_ne (a b : List Char) (h : a ≠ []) :
    (a ++ b).headD '\x00' = a.headD '\x00' := by
  cases a with
  | nil => exact absurd rfl h
  | cons x xs => rfl

/-- A round at a token that is written as its text, after at most one space. -/
theorem relex_step (lex : lexer_t) (ws : List Char) (type : token_type_t) (text : String)
    (tail : List Char) (hws : ws = [] ∨ ws = [' ']) (hr : relexable type text)
    (h : lex.rest = ws ++ (text.data ++ tail)) (ht : tail = [] ∨ ∃ t, tail = ' ' :: t) :
    ∃ n loc, lexer_step lex =
      (lexer_append (lexer_read lex (ws ++ text.data)) ⟨text, n, type, loc⟩, true) := by
  obtain ⟨⟨n, k1⟩, k2, k3⟩ := relex_token (lexer_read lex ws) type text tail hr
    (lexer_rest_read lex ws _ h) ht
  have hsp : ∀ c ∈ ws, isspace c = true := by
    rcases hws with rfl | rfl
    · simp
    · decide
  rw [← headD_append_of_ne _ tail (relexable_ascii type text hr).1] at k2
  refine ⟨n, (lexer_read lex ws).loc, ?_⟩
  rw [lexer_step_of_token lex ws _ h hsp k2 k3, k1, lexer_read_append]

/-- The last round, at the end of the text after at most one space. -/
theorem relex_stop (lex : lexer_t) (ws : List Char) (hws : ws = [] ∨ ws = [' '])
    (h : lex.rest = ws) :
    ∃ loc, lexer_step lex = (lexer_append (lexer_read lex ws) ⟨"", 0, TOKEN_EOF, loc⟩, false) := by
  have hsp : ∀ c ∈ ws, isspace c = true := by
    rcases hws with rfl | rfl
    · simp
    · decide
  have h' : lex.rest = ws ++ [] := by rw [h, List.append_nil]
  refine ⟨(lexer_read lex ws).loc, ?_⟩
  rw [lexer_step_of_token lex ws [] h' hsp (by decide) (by decide),
    lexer_token_eof_nil _ (lexer_rest_read lex ws [] h')]

theorem intercalate_cons (sep x : List Char) (xs : List (List Char)) :
    List.intercalate sep (x :: xs) =
      x ++ ((if xs = [] then [] else sep) ++ List.intercalate sep xs) := by
  cases xs with
  | nil => simp [List.intercalate]
  | cons y ys => simp [List.intercalate, List.intersperse]

theorem lexer_append_type_text (lex : lexer_t) (t : token_t) :
    (lexer_append lex t).tokens.map token_t.type_text =
      lex.tokens.map token_t.type_text ++ [t.type_text] := by
  simp [lexer_append]

/-- The rounds over the texts of tokens that are written as their texts,
joined with single spaces: they give the tokens of these types and texts and the
token of the end of the text, and flag no error. -/
theorem relex_run : ∀ (ts : List token_t), (∀ t ∈ ts, relexable t.type t.value) →
    ∀ (fuel : Nat) (lex : lexer_t) (ws : List Char), (ws = [] ∨ ws = [' ']) →
      lex.rest = ws ++ List.intercalate [' '] (ts.map (fun t => t.value.data)) →
      ts.length < fuel → lex.had_error = false →
      ∃ lex', lexer_tokenize_loop fuel lex = some lex' ∧ lex'.had_error = false ∧
        lex'.tokens.map token_t.type_text =
          lex.tokens.map token_t.type_text ++ ts.map token_t.type_text ++ [(TOKEN_EOF, "")] := by
  intro ts
  induction ts with
  | nil =>
    intro _ fuel lex ws hws h hf he
    obtain ⟨fuel, rfl⟩ : ∃ f, fuel = f + 1 := ⟨fuel - 1, by omega⟩
    have h' : lex.rest = ws := by simpa [List.intercalate] using h
    obtain ⟨loc, hs⟩ := relex_stop lex ws hws h'
    refine ⟨_, by rw [lexer_tokenize_loop, hs], ?_, ?_⟩
    · show (lexer_read lex ws).had_error = false
      rw [lexer_read_had_error]
      refine ⟨he, ?_⟩
      rcases hws with rfl | rfl
      · simp
      · decide
    · rw [lexer_append_type_text]
      simp [lexer_read, token_t.type_text]
  | cons t ts ih =>
    intro hts fuel lex ws hws h hf he
    obtain ⟨fuel, rfl⟩ : ∃ f, fuel = f + 1 := ⟨fuel - 1, by omega⟩
    have hr := hts t (List.mem_cons_self _ _)
    rw [List.map_cons, intercalate_cons] at h
    have hsp : ∀ c ∈ ws, c.toNat ≤ 127 := by
      rcases hws with rfl | rfl
      · simp
      · decide
    have hsep : ((if ts.map (fun t => t.value.data) = [] then [] else [' ']) = [] ∧
          List.intercalate [' '] (ts.map (fun t => t.value.data)) = []) ∨
        (if ts.map (fun t => t.value.data) = [] then [] else [' ']) = [' '] := by
      cases ts with
      | nil => exact Or.inl ⟨rfl, rfl⟩
      | cons a as => exact Or.inr (by simp)
    generalize (if ts.map (fun t => t.value.data) = [] then [] else [' ']) = sep at h hsep
    have htail : sep ++ List.intercalate [' '] (ts.map (fun t => t.value.data)) = [] ∨
        ∃ r, sep ++ List.intercalate [' '] (ts.map (fun t => t.value.data)) = ' ' :: r := by
      rcases hsep with ⟨e1, e2⟩ | e
      · exact Or.inl (by rw [e1, e2]; rfl)
      · exact Or.inr ⟨_, by rw [e]; rfl⟩
    have hsep' : sep = [] ∨ sep = [' '] := by
      rcases hsep with ⟨e1, _⟩ | e
      · exact Or.inl e1
      · exact Or.inr e
    obtain ⟨n, loc, hs⟩ := relex_step lex ws t.type t.value _ hws hr h htail
    rw [← List.append_assoc] at h
    have hrest := lexer_rest_read lex (ws ++ t.value.data) _ h
    have herr : (lexer_read lex (ws ++ t.value.data)).had_error = false := by
      rw [lexer_read_had_error]
      refine ⟨he, fun c hc => ?_⟩
      rcases List.mem_append.mp hc with hc | hc
      · exact hsp c hc
      · exact ((relexable_ascii _ _ hr).2 c hc).1
    obtain ⟨lex', i1, i2, i3⟩ := ih (fun x hx => hts x (List.mem_cons_of_mem _ hx)) fuel
      (lexer_append (lexer_read lex (ws ++ t.value.data)) ⟨t.value, n, t.type, loc⟩) sep hsep'
      hrest (by simpa using hf) herr
    refine ⟨lex', by rw [lexer_tokenize_loop, hs]; exact i1, i2, ?_⟩
    rw [i3, lexer_append_type_text]
    simp [lexer_read, token_t.type_text]

theorem token_round_stop (lex : lexer_t) (cs : List Char)
    (h : token_round lex (lexer_token lex).1 (lexer_token lex).2 cs)
    (h2 : (lexer_token lex).2 = false) (he : (lexer_token lex).1.had_error = false) :
    cs = [] ∨ cs = ['\x00'] := by
  rcases h with ⟨_, ⟨_, _, herr⟩ | ⟨_, _, _, _, _, hcs, _⟩ | ⟨hc, _⟩⟩
  · rw [he] at herr; cases herr
  · exact hcs he
  · rw [h2] at hc; cases hc

/-- A round from a token start that ends the loop without an error appends
the token of the end of the text, which has no text. -/
theorem lexer_token_stop (lex : lexer_t) (h2 : (lexer_token lex).2 = false)
    (he : (lexer_token lex).1.had_error = false) :
    (lexer_token lex).1.tokens.map token_t.type_text =
      lex.tokens.map token_t.type_text ++ [(TOKEN_EOF, "")] := by
  cases h : lex.rest with
  | nil =>
    rw [lexer_token_eof_nil lex h, lexer_append_type_text]
    rfl
  | cons c r =>
    by_cases h1 : c.toNat > 127
    · rw [lexer_token_eof_char lex c r h (Or.inl h1), lexer_append_type_text]
      rfl
    by_cases hz : c = '\x00'
    · rw [lexer_token_eof_char lex c r h (Or.inr hz), lexer_append_type_text]
      rfl
    exfalso
    have hspec : ∃ cs, token_round lex (lexer_token lex).1 (lexer_token lex).2 cs := by
      by_cases hq : c = '"' ∨ c = '\''
      · exact token_round_string lex c r h hq
      by_cases h5 : isdigit c = true
      · exact token_round_number lex c r h h5
      by_cases h6 : isalpha c = true ∨ c = '_' ∨ c = '$'
      · exact token_round_identifier lex c r h h6
      simp only [not_or, Bool.not_eq_true] at hq h5 h6
      exact token_round_operator lex c r h h1 hz hq.1 hq.2 h5 h6.1 h6.2.1 h6.2.2
    obtain ⟨cs, hcs⟩ := hspec
    have hpre := hcs.1.1
    rw [h] at hpre
    rcases token_round_stop lex cs hcs h2 he with rfl | rfl
    · rcases hcs with ⟨_, ⟨_, _, herr⟩ | ⟨_, _, _, _, _, _, hnil⟩ | ⟨hc, _⟩⟩
      · rw [he] at herr; cases herr
      · rw [hnil rfl] at h; cases h
      · rw [h2] at hc; cases hc
    · simp only [List.cons_append, List.nil_append, List.cons.injEq] at hpre
      exact hz hpre.1

/-- A round of the loop that ends it without an error appends the token of
the end of the text, which has no text. -/
theorem lexer_step_stop (lex : lexer_t) (h2 : (lexer_step lex).2 = false)
    (he : (lexer_step lex).1.had_error = false) :
    (lexer_step lex).1.tokens.map token_t.type_text =
      lex.tokens.map token_t.type_text ++ [(TOKEN_EOF, "")] := by
  have hw := lexer_advance_while_eq isspace (by decide) lex (lex.length - lex.pos) (le_refl _)
  generalize hres : lexer_step lex = res at h2 he
  unfold lexer_step at hres
  simp only [hw] at hres
  generalize hs1 : lexer_read lex (lex.rest.takeWhile isspace) = s1 at hres
  have ht1 : s1.tokens = lex.tokens := by rw [← hs1]; rfl
  split at hres
  · split at hres
    · subst hres
      cases h2
    · split at hres
      · obtain ⟨c3, _, e3⟩ := lexer_reads_block_comment
          ((lexer_advance (lexer_advance s1).2).2.length -
            (lexer_advance (lexer_advance s1).2).2.pos + 1)
          (lexer_advance (lexer_advance s1).2).2 (by omega)
        rw [hres] at e3
        rw [e3 h2] at he
        cases he
      · subst hres
        rw [lexer_token_stop s1 h2 he, ht1]
  · subst hres
    rw [lexer_token_stop s1 h2 he, ht1]

/-- The tokens of a run of the loop that flags no error: tokens made from
the text, none of them the token of the end of the text, and then that token,
which has no text. -/
theorem lexer_tokenize_loop_tokens : ∀ (fuel : Nat) (lex lex' : lexer_t),
    lexer_tokenize_loop fuel lex = some lex' → lex'.had_error = false →
    ∃ toks eof, lex'.tokens = lex.tokens ++ toks ++ [eof] ∧
      eof.type_text = (TOKEN_EOF, "") ∧ ∀ t ∈ toks, t.type ≠ TOKEN_EOF ∧ ∃ cs, token_at t cs := by
  intro fuel
  induction fuel with
  | zero => intro lex lex' h; cases h
  | succ fuel ih =>
    intro lex lex' h he
    have hs := lexer_step_spec lex
    have hstop := lexer_step_stop lex
    simp only [lexer_tokenize_loop] at h
    generalize lexer_step lex = res at hs hstop h
    obtain ⟨mid, cont⟩ := res
    cases cont with
    | false =>
      simp only [Option.some.injEq] at h
      subst h
      have hm := hstop rfl he
      obtain ⟨t, ht, _⟩ := step_round_stop hs he
      refine ⟨[], t, by simpa using ht, ?_, by simp⟩
      rw [ht, List.map_append, List.append_cancel_left_eq] at hm
      simpa using hm
    | true =>
      simp only at h
      obtain ⟨toks, eof, k1, k2, k3⟩ := ih mid lex' h he
      rcases step_round_tokens hs with hm | ⟨t, cs, hm, hty, hat⟩
      · exact ⟨toks, eof, by rw [k1, hm], k2, k3⟩
      · refine ⟨t :: toks, eof, by rw [k1, hm]; simp, k2, ?_⟩
        intro x hx
        rcases List.mem_cons.mp hx with rfl | hx
        · exact ⟨hty, cs, hat⟩
        · exact k3 x hx

theorem intercalate_length (xs : List (List Char)) (h : ∀ x ∈ xs, x ≠ []) :
    xs.length ≤ (List.intercalate [' '] xs).length := by
  induction xs with
  | nil => simp
  | cons x xs ih =>
    rw [intercalate_cons]
    have := ih (fun y hy => h y (List.mem_cons_of_mem _ hy))
    have hx : 0 < x.length := List.length_pos.mpr (h x (List.mem_cons_self _ _))
    simp only [List.length_cons, List.length_append]
    omega

theorem intercalate_no_nul (xs : List (List Char)) (h : ∀ x ∈ xs, ∀ c ∈ x, c ≠ '\x00') :
    ∀ c ∈ List.intercalate [' '] xs, c ≠ '\x00' := by
  induction xs with
  | nil => simp [List.intercalate]
  | cons x xs ih =>
    rw [intercalate_cons]
    intro c hc
    simp only [List.mem_append] at hc
    rcases hc with hc | hc | hc
    · exact h x (List.mem_cons_self _ _) c hc
    · split at hc
      · cases hc
      · rw [List.mem_singleton.mp hc]; decide
    · exact ih (fun y hy => h y (List.mem_cons_of_mem _ hy)) c hc

theorem c_string_of_no_nul (source : List Char) (h : ∀ c ∈ source, c ≠ '\x00') :
    c_string source = source := by
  unfold c_string
  rw [List.takeWhile_eq_self_iff]
  intro c hc
  simpa using h c hc

/-- C20, where the claim fails: the source `"a"` is one string literal; its
token has the text `a`, and `a` read again is an identifier. -/
theorem C20_string_literal_text :
    ∃ lex lex', lexer_init none ['"', 'a', '"'] = some lex ∧ lex.had_error = false ∧
      lex.tokens.map token_t.type_text = [(TOKEN_STRING_LITERAL, "a"), (TOKEN_EOF, "")] ∧
      join_texts lex.tokens = ['a'] ∧
      lexer_init none (join_texts lex.tokens) = some lex' ∧ lex'.had_error = false ∧
      lex'.tokens.map token_t.type_text = [(TOKEN_IDENTIFIER, "a"), (TOKEN_EOF, "")] ∧
      lex'.tokens.map token_t.type_text ≠ lex.tokens.map token_t.type_text :=
  ⟨_, _, rfl, rfl, rfl, rfl, rfl, rfl, rfl, by decide⟩

/-- C20, amended: for every source that lexes without error into tokens none
of which is a string literal or the arrow, the texts of the tokens other than
the token of the end of the text, joined with single spaces, lex again without
error into tokens of the same types and texts, in the same order. -/
theorem C20_round_trip (filename : Option String) (source : List Char) (lex : lexer_t)
    (hlex : lexer_init filename source = some lex) (herr : lex.had_error = false)
    (htok : ∀ t ∈ lex.tokens, t.type ≠ TOKEN_STRING_LITERAL ∧ t.type ≠ TOKEN_ARROW) :
    ∃ lex', lexer_init filename (join_texts lex.tokens) = some lex' ∧
      lex'.had_error = false ∧
      lex'.tokens.map token_t.type_text = lex.tokens.map token_t.type_text := by
  obtain ⟨toks, eof, h1, h2, h3⟩ := lexer_tokenize_loop_tokens _ _ lex hlex herr
  simp only [List.nil_append] at h1
  have heof : eof.type = TOKEN_EOF := congrArg Prod.fst h2
  have hrel : ∀ t ∈ toks, relexable t.type t.value := by
    intro t ht
    obtain ⟨_, cs, hat⟩ := h3 t ht
    have hno := htok t (by rw [h1]; exact List.mem_append_left _ ht)
    rcases hat with ⟨hs, _⟩ | ⟨ha, _⟩ | ⟨hr, _⟩
    · exact absurd hs hno.1
    · exact absurd ha hno.2
    · exact hr
  have hjoin : join_texts lex.tokens =
      List.intercalate [' '] (toks.map (fun t => t.value.data)) := by
    unfold join_texts
    rw [h1, List.filter_append, List.filter_eq_self.mpr (fun t ht => by simpa using (h3 t ht).1)]
    simp [heof]
  have hnul : ∀ c ∈ join_texts lex.tokens, c ≠ '\x00' := by
    rw [hjoin]
    apply intercalate_no_nul
    intro x hx c hc
    obtain ⟨t, ht, rfl⟩ := List.mem_map.mp hx
    exact ((relexable_ascii _ _ (hrel t ht)).2 c hc).2
  have hlen : toks.length ≤ (join_texts lex.tokens).length := by
    rw [hjoin]
    have := intercalate_length (toks.map (fun t => t.value.data)) (by
      intro x hx
      obtain ⟨t, ht, rfl⟩ := List.mem_map.mp hx
      exact (relexable_ascii _ _ (hrel t ht)).1)
    simpa using this
  unfold lexer_init lexer_tokenize
  rw [c_string_of_no_nul _ hnul]
  obtain ⟨lex', k1, k2, k3⟩ := relex_run toks hrel
    ((join_texts lex.tokens).length - 0 + 1)
    { tokens := [], source := join_texts lex.tokens, loc := ⟨filename.getD "(null)", 1, 1⟩,
      pos := 0, had_error := false } [] (Or.inl rfl)
    (by rw [hjoin]; rfl) (by omega) rfl
  refine ⟨lex', k1, k2, ?_⟩
  rw [k3, h1]
  simp [h2]

theorem C20_round_trip_witness :
    ∃ lex, lexer_init none "if (x1 >= 2.5) return y_ ** -z;".data = some lex ∧
      lex.had_error = false ∧
      (∀ t ∈ lex.tokens, t.type ≠ TOKEN_STRING_LITERAL ∧ t.type ≠ TOKEN_ARROW) ∧
      join_texts lex.tokens = "if ( x1 >= 2.5 ) return y_ ** - z ;".data ∧
      ∃ lex', lexer_init none (join_texts lex.tokens) = some lex' ∧
        lex'.had_error = false ∧
        lex'.tokens.map token_t.type_text = lex.tokens.map token_t.type_text :=
  ⟨_, rfl, rfl, by decide, rfl,
    C20_round_trip none "if (x1 >= 2.5) return y_ ** -z;".data _ rfl rfl (by decide)⟩

/-! ## The lexer: two runs over texts that differ behind a stop -/

theorem same_stop_headD {t1 t2 : List Char} (h : same_stop t1 t2) :
    t1.headD '\x00' = t2.headD '\x00' := by
  rcases h with ⟨rfl, rfl⟩ | ⟨w, r1, r2, _, rfl, rfl⟩ <;> rfl

theorem same_stop_nil : same_stop [] [] := Or.inl ⟨rfl, rfl⟩

theorem lexer_later_refl (x : lexer_t) : lexer_later x x := ⟨le_refl _, id⟩

theorem lexer_later_trans {x y z : lexer_t} (h1 : lexer_later x y) (h2 : lexer_later y z) :
    lexer_later x z :=
  ⟨le_trans h2.1 h1.1, fun h => h2.2 (h1.2 h)⟩

theorem lexer_later_of_reads {x y : lexer_t} {cs : List Char} (h : lexer_reads x y cs) :
    lexer_later x y := by
  refine ⟨?_, h.2.2.2.2.2.1⟩
  rw [h.1, List.length_append]
  omega

theorem lexer_later_error (x : lexer_t) (loc : location_t) :
    lexer_later x (LEXER_ERROR { x with loc := loc }) :=
  ⟨le_refl _, fun _ => rfl⟩

theorem lexer_later_append (x : lexer_t) (t : token_t) : lexer_later x (lexer_append x t) :=
  ⟨le_refl _, id⟩

theorem lexer_bad_of_later {t : List Char} {x y : lexer_t} (h : lexer_later x y)
    (hb : lexer_bad t x) : lexer_bad t y := by
  rcases hb with hb | hb
  · exact Or.inl (lt_of_le_of_lt h.1 hb)
  · exact Or.inr (h.2 hb)

theorem lexer_later_advance (lex : lexer_t) : lexer_later lex (lexer_advance lex).2 := by
  obtain ⟨cs, h⟩ := lexer_reads_advance' lex
  exact lexer_later_of_reads h

theorem lexer_later_read (lex : lexer_t) (cs r : List Char) (h : lex.rest = cs ++ r) :
    lexer_later lex (lexer_read lex cs) :=
  lexer_later_of_reads (lexer_reads_read lex cs r h)

theorem lexer_later_unicode_digits (i : Nat) (lex : lexer_t) (codepoint : Nat) :
    lexer_later lex (lexer_unicode_digits i lex codepoint).1 := by
  obtain ⟨cs, h, _⟩ := lexer_reads_unicode_digits i lex codepoint
  exact lexer_later_of_reads h

theorem lexer_later_string_body (quote : Char) (fuel : Nat) (lex : lexer_t) (buf : List Char) :
    lexer_later lex (lexer_string_body quote fuel lex buf).1 := by
  obtain ⟨cs, h, _⟩ := lexer_reads_string_body quote fuel lex buf
  exact lexer_later_of_reads h

theorem lexer_later_block_comment (fuel : Nat) (lex : lexer_t) (hf : lex.length - lex.pos < fuel) :
    lexer_later lex (lexer_block_comment fuel lex).1 := by
  obtain ⟨cs, h, _⟩ := lexer_reads_block_comment fuel lex hf
  exact lexer_later_of_reads h

theorem lexer_later_advance_while (p : Char → Bool) (h0 : p '\x00' = false) (lex : lexer_t)
    (fuel : Nat) (hf : lex.length - lex.pos ≤ fuel) :
    lexer_later lex (lexer_advance_while p fuel lex) :=
  lexer_later_of_reads (lexer_reads_advance_while p h0 lex fuel hf)

theorem lexer_later_token (lex : lexer_t) : lexer_later lex (lexer_token lex).1 := by
  obtain ⟨cs, h, _⟩ := lexer_token_spec lex
  have := lexer_later_of_reads h
  exact ⟨this.1, this.2⟩

theorem lexer_later_step (lex : lexer_t) : lexer_later lex (lexer_step lex).1 := by
  obtain ⟨ws, r, cs, hrest, _, h⟩ := lexer_step_spec lex
  have h0 := lexer_later_read lex ws r hrest
  rcases h with ⟨_, _, hr⟩ | ⟨_, hr, _⟩
  · exact lexer_later_trans h0 (lexer_later_of_reads hr)
  · have := lexer_later_of_reads hr
    exact lexer_later_trans h0 ⟨this.1, this.2⟩

theorem lexer_sim_peek {a t1 t2 : List Char} {l1 l2 : lexer_t} (hst : same_stop t1 t2)
    (hs : lexer_sim a t1 t2 l1 l2) : lexer_peek l1 = lexer_peek l2 := by
  rw [lexer_peek_eq, lexer_peek_eq, hs.1, hs.2.1]
  cases a with
  | nil => exact same_stop_headD hst
  | cons c a => rfl

theorem lexer_sim_read {t1 t2 : List Char} {l1 l2 : lexer_t} (cs a : List Char)
    (hs : lexer_sim (cs ++ a) t1 t2 l1 l2) :
    lexer_sim a t1 t2 (lexer_read l1 cs) (lexer_read l2 cs) := by
  obtain ⟨h1, h2, h3, h4⟩ := hs
  refine ⟨lexer_rest_read l1 cs _ (by rw [h1, List.append_assoc]),
    lexer_rest_read l2 cs _ (by rw [h2, List.append_assoc]), ?_, h4⟩
  simp only [lexer_read, h3]

theorem lexer_sim_append {a t1 t2 : List Char} {l1 l2 : lexer_t}
    (hs : lexer_sim a t1 t2 l1 l2) (k1 k2 : token_t) (hk : k1.type_text = k2.type_text) :
    lexer_sim a t1 t2 (lexer_append l1 k1) (lexer_append l2 k2) := by
  obtain ⟨h1, h2, h3, h4⟩ := hs
  refine ⟨h1, h2, h3, ?_⟩
  rw [lexer_append_type_text, lexer_append_type_text, h4, hk]

/-- `lexer_advance` in two lexers that have the same text to read. -/
theorem lexer_sim_advance {a t1 t2 : List Char} {l1 l2 : lexer_t} (hst : same_stop t1 t2)
    (hs : lexer_sim a t1 t2 l1 l2) :
    (lexer_advance l1).1 = (lexer_advance l2).1 ∧
      (lexer_bad t1 (lexer_advance l1).2 ∨
        ∃ a', lexer_sim a' t1 t2 (lexer_advance l1).2 (lexer_advance l2).2) := by
  cases a with
  | nil =>
    rcases hst with ⟨rfl, rfl⟩ | ⟨w, r1, r2, hw, rfl, rfl⟩
    · have h1 : l1.rest = [] := hs.1
      have h2 : l2.rest = [] := hs.2.1
      rw [lexer_advance_of_nil l1 h1, lexer_advance_of_nil l2 h2]
      exact ⟨rfl, Or.inr ⟨[], hs⟩⟩
    · have h1 : l1.rest = w :: r1 := hs.1
      have h2 : l2.rest = w :: r2 := hs.2.1
      rw [lexer_advance_of_cons l1 w r1 h1, lexer_advance_of_cons l2 w r2 h2]
      refine ⟨rfl, Or.inl (Or.inl ?_)⟩
      show (lexer_read l1 [w]).rest.length < (w :: r1).length
      rw [lexer_rest_read l1 [w] r1 h1]
      simp
  | cons c a =>
    have h1 : l1.rest = c :: (a ++ t1) := hs.1
    have h2 : l2.rest = c :: (a ++ t2) := hs.2.1
    rw [lexer_advance_of_cons l1 c _ h1, lexer_advance_of_cons l2 c _ h2]
    exact ⟨rfl, Or.inr ⟨a, lexer_sim_read [c] a hs⟩⟩

/-- `lexer_match` in two lexers that have the same text to read. -/
theorem lexer_sim_match {a t1 t2 : List Char} {l1 l2 : lexer_t} (hst : same_stop t1 t2)
    (hs : lexer_sim a t1 t2 l1 l2) (e : Char) (he : ¬ e.toNat > 127) (he0 : e ≠ '\x00')
    (hes : isspace e = false) :
    (∃ a', lexer_match l1 e = (true, lexer_read l1 [e]) ∧
        lexer_match l2 e = (true, lexer_read l2 [e]) ∧
        lexer_sim a' t1 t2 (lexer_read l1 [e]) (lexer_read l2 [e])) ∨
      (lexer_match l1 e = (false, l1) ∧ lexer_match l2 e = (false, l2)) := by
  have hp := lexer_sim_peek hst hs
  rw [lexer_peek_eq, lexer_peek_eq] at hp
  rcases lexer_match_cases l1 e he he0 with ⟨e1, r1, hr1⟩ | ⟨e1, hn1⟩
  · rcases lexer_match_cases l2 e he he0 with ⟨e2, r2, hr2⟩ | ⟨e2, hn2⟩
    · left
      cases a with
      | nil =>
        exfalso
        rcases hst with ⟨rfl, rfl⟩ | ⟨w, q1, q2, hw, rfl, rfl⟩
        · rw [hs.1] at hr1
          cases hr1
        · rw [hs.1] at hr1
          simp only [List.nil_append, List.cons.injEq] at hr1
          rw [hr1.1, hes] at hw
          cases hw
      | cons c a =>
        have hc : c = e := by
          rw [hs.1] at hr1
          simp only [List.cons_append, List.cons.injEq] at hr1
          exact hr1.1
        subst hc
        exact ⟨a, e1, e2, lexer_sim_read [c] a hs⟩
    · exfalso
      rw [hr1] at hp
      exact hn2 hp.symm
  · rcases lexer_match_cases l2 e he he0 with ⟨e2, r2, hr2⟩ | ⟨e2, hn2⟩
    · exfalso
      rw [hr2] at hp
      exact hn1 hp
    · exact Or.inr ⟨e1, e2⟩

theorem takeWhile_same_stop (p : Char → Bool) {t1 t2 : List Char} (hst : same_stop t1 t2) :
    ∀ a : List Char, (List.takeWhile p (a ++ t1)).length ≤ a.length →
      List.takeWhile p (a ++ t2) = List.takeWhile p (a ++ t1) ∧
        ∃ a', a = List.takeWhile p (a ++ t1) ++ a' := by
  intro a
  induction a with
  | nil =>
    intro h
    rcases hst with ⟨rfl, rfl⟩ | ⟨w, r1, r2, _, rfl, rfl⟩
    · exact ⟨rfl, [], rfl⟩
    · simp only [List.nil_append, List.length_nil, Nat.le_zero, List.length_eq_zero] at h
      have hw : p w = false := by
        cases hc : p w
        · rfl
        · simp [List.takeWhile_cons, hc] at h
      simp [List.takeWhile_cons, hw]
  | cons c a ih =>
    intro h
    cases hc : p c
    · simp [List.takeWhile_cons, hc]
    · simp only [List.cons_append, List.takeWhile_cons, hc, if_true, List.length_cons,
        Nat.add_le_add_iff_right] at h
      obtain ⟨i1, a', i2⟩ := ih h
      simp only [List.cons_append, List.takeWhile_cons, hc, if_true]
      exact ⟨by rw [i1], a', by rw [← i2]⟩

/-- The loops `while (p(peek)) advance` in two lexers that have the same text
to read. -/
theorem lexer_sim_advance_while (p : Char → Bool) (h0 : p '\x00' = false) {a t1 t2 : List Char}
    {l1 l2 : lexer_t} (hst : same_stop t1 t2) (hs : lexer_sim a t1 t2 l1 l2) (f1 f2 : Nat)
    (hf1 : l1.length - l1.pos ≤ f1) (hf2 : l2.length - l2.pos ≤ f2) :
    lexer_bad t1 (lexer_advance_while p f1 l1) ∨
      ∃ a', lexer_sim a' t1 t2 (lexer_advance_while p f1 l1) (lexer_advance_while p f2 l2) := by
  rw [lexer_advance_while_eq p h0 l1 f1 hf1, lexer_advance_while_eq p h0 l2 f2 hf2, hs.1, hs.2.1]
  by_cases hb : (List.takeWhile p (a ++ t1)).length ≤ a.length
  · obtain ⟨e, a', ha⟩ := takeWhile_same_stop p hst a hb
    rw [e]
    right
    refine ⟨a', lexer_sim_read _ a' ?_⟩
    rw [← ha]
    exact hs
  · left
    left
    have hr := lexer_rest_read l1 (List.takeWhile p (a ++ t1)) (List.dropWhile p (a ++ t1))
      (by rw [hs.1, List.takeWhile_append_dropWhile])
    have hl := congrArg List.length (List.takeWhile_append_dropWhile p (a ++ t1))
    rw [hr]
    simp only [List.length_append] at hl
    omega

/-- A text before a stop, split where a loop over the characters that
satisfy `p` ends, when `p` holds of no white space. -/
theorem split_same_stop (p : Char → Bool) (h0 : p '\x00' = false)
    (hp : ∀ w, isspace w = true → p w = false) {t1 t2 : List Char} (hst : same_stop t1 t2) :
    ∀ a : List Char, ∃ ds a', a = ds ++ a' ∧ (∀ x ∈ ds, p x = true) ∧
      p ((a' ++ t1).headD '\x00') = false ∧ p ((a' ++ t2).headD '\x00') = false := by
  intro a
  induction a with
  | nil =>
    refine ⟨[], [], rfl, by simp, ?_, ?_⟩
    · rcases hst with ⟨rfl, rfl⟩ | ⟨w, r1, r2, hw, rfl, rfl⟩
      · exact h0
      · exact hp w hw
    · rcases hst with ⟨rfl, rfl⟩ | ⟨w, r1, r2, hw, rfl, rfl⟩
      · exact h0
      · exact hp w hw
  | cons c a ih =>
    cases hc : p c
    · exact ⟨[], c :: a, rfl, by simp, hc, hc⟩
    · obtain ⟨ds, a', i1, i2, i3, i4⟩ := ih
      refine ⟨c :: ds, a', by rw [i1]; rfl, ?_, i3, i4⟩
      intro x hx
      rcases List.mem_cons.mp hx with rfl | hx
      · exact hc
      · exact i2 x hx

/-! ## The lexer: operators in two lexers that have the same text to read -/

theorem lexer_operator_sim_plus {a t1 t2 : List Char} {l1 l2 : lexer_t}
    (hst : same_stop t1 t2) (hs0 : lexer_sim a t1 t2 l1 l2)
    (res1 res2 : lexer_t × Option (token_type_t × String × Nat))
    (h1 : lexer_operator l1 '+' = res1) (h2 : lexer_operator l2 '+' = res2) :
    res1.2 = res2.2 ∧ ∃ a', lexer_sim a' t1 t2 res1.1 res2.1 := by
  unfold lexer_operator at h1 h2
  rw [if_pos (rfl : '+' = '+')] at h1 h2
  rcases lexer_sim_match hst hs0 '+' (by decide) (by decide) (by decide) with
    ⟨a1, e1, f1, hs1⟩ | ⟨e1, f1⟩
  · rw [e1] at h1
    rw [f1] at h2
    dsimp only at h1 h2
    rw [if_pos rfl] at h1 h2
    subst h1
    subst h2
    exact ⟨rfl, _, hs1⟩
  · rw [e1] at h1
    rw [f1] at h2
    dsimp only at h1 h2
    rw [if_neg Bool.false_ne_true] at h1 h2
    rcases lexer_sim_match hst hs0 '=' (by decide) (by decide) (by decide) with
      ⟨a2, e2, f2, hs2⟩ | ⟨e2, f2⟩
    · rw [e2] at h1
      rw [f2] at h2
      dsimp only at h1 h2
      rw [if_pos rfl] at h1 h2
      subst h1
      subst h2
      exact ⟨rfl, _, hs2⟩
    · rw [e2] at h1
      rw [f2] at h2
      dsimp only at h1 h2
      rw [if_neg Bool.false_ne_true] at h1 h2
      subst h1
      subst h2
      exact ⟨rfl, _, hs0⟩

theorem lexer_operator_sim_minus {a t1 t2 : List Char} {l1 l2 : lexer_t}
    (hst : same_stop t1 t2) (hs0 : lexer_sim a t1 t2 l1 l2)
    (res1 res2 : lexer_t × Option (token_type_t × String × Nat))
    (h1 : lexer_operator l1 '-' = res1) (h2 : lexer_operator l2 '-' = res2) :
    res1.2 = res2.2 ∧ ∃ a', lexer_sim a' t1 t2 res1.1 res2.1 := by
  unfold lexer_operator at h1 h2
  rw [if_neg (show ¬ ('-' = '+') by decide)] at h1 h2
  rw [if_pos (rfl : '-' = '-')] at h1 h2
  rcases lexer_sim_match hst hs0 '-' (by decide) (by decide) (by decide) with
    ⟨a1, e1, f1, hs1⟩ | ⟨e1, f1⟩
  · rw [e1] at h1
    rw [f1] at h2
    dsimp only at h1 h2
    rw [if_pos rfl] at h1 h2
    subst h1
    subst h2
    exact ⟨rfl, _, hs1⟩
  · rw [e1] at h1
    rw [f1] at h2
    dsimp only at h1 h2
    rw [if_neg Bool.false_ne_true] at h1 h2
    rcases lexer_sim_match hst hs0 '=' (by decide) (by decide) (by decide) with
      ⟨a2, e2, f2, hs2⟩ | ⟨e2, f2⟩
    · rw [e2] at h1
      rw [f2] at h2
      dsimp only at h1 h2
      rw [if_pos rfl] at h1 h2
      subst h1
      subst h2
      exact ⟨rfl, _, hs2⟩
    · rw [e2] at h1
      rw [f2] at h2
      dsimp only at h1 h2
      rw [if_neg Bool.false_ne_true] at h1 h2
      rcases lexer_sim_match hst hs0 '>' (by decide) (by decide) (by decide) with
        ⟨a3, e3, f3, hs3⟩ | ⟨e3, f3⟩
      · rw [e3] at h1
        rw [f3] at h2
        dsimp only at h1 h2
        rw [if_pos rfl] at h1 h2
        subst h1
        subst h2
        exact ⟨rfl, _, hs3⟩
      · rw [e3] at h1
        rw [f3] at h2
        dsimp only at h1 h2
        rw [if_neg Bool.false_ne_true] at h1 h2
        subst h1
        subst h2
        exact ⟨rfl, _, hs0⟩

theorem lexer_operator_sim_star {a t1 t2 : List Char} {l1 l2 : lexer_t}
    (hst : same_stop t1 t2) (hs0 : lexer_sim a t1 t2 l1 l2)
    (res1 res2 : lexer_t × Option (token_type_t × String × Nat))
    (h1 : lexer_operator l1 '*' = res1) (h2 : lexer_operator l2 '*' = res2) :
    res1.2 = res2.2 ∧ ∃ a', lexer_sim a' t1 t2 res1.1 res2.1 := by
  unfold lexer_operator at h1 h2
  rw [if_neg (show ¬ ('*' = '+') by decide)] at h1 h2
  rw [if_neg (show ¬ ('*' = '-') by decide)] at h1 h2
  rw [if_pos (rfl : '*' = '*')] at h1 h2
  rcases lexer_sim_match hst hs0 '*' (by decide) (by decide) (by decide) with
    ⟨a1, e1, f1, hs1⟩ | ⟨e1, f1⟩
  · rw [e1] at h1
    rw [f1] at h2
    dsimp only at h1 h2
    rw [if_pos rfl] at h1 h2
    rcases lexer_sim_match hst hs1 '=' (by decide) (by decide) (by decide) with
      ⟨a2, e2, f2, hs2⟩ | ⟨e2, f2⟩
    · rw [e2] at h1
      rw [f2] at h2
      dsimp only at h1 h2
      rw [if_pos rfl] at h1 h2
      subst h1
      subst h2
      exact ⟨rfl, _, hs2⟩
    · rw [e2] at h1
      rw [f2] at h2
      dsimp only at h1 h2
      rw [if_neg Bool.false_ne_true] at h1 h2
      subst h1
      subst h2
      exact ⟨rfl, _, hs1⟩
  · rw [e1] at h1
    rw [f1] at h2
    dsimp only at h1 h2
    rw [if_neg Bool.false_ne_true] at h1 h2
    rcases lexer_sim_match hst hs0 '=' (by decide) (by decide) (by decide) with
      ⟨a3, e3, f3, hs3⟩ | ⟨e3, f3⟩
    · rw [e3] at h1
      rw [f3] at h2
      dsimp only at h1 h2
      rw [if_pos rfl] at h1 h2
      subst h1
      subst h2
      exact ⟨rfl, _, hs3⟩
    · rw [e3] at h1
      rw [f3] at h2
      dsimp only at h1 h2
      rw [if_neg Bool.false_ne_true] at h1 h2
      subst h1
      subst h2
      exact ⟨rfl, _, hs0⟩

theorem lexer_operator_sim_slash {a t1 t2 : List Char} {l1 l2 : lexer_t}
    (hst : same_stop t1 t2) (hs0 : lexer_sim a t1 t2 l1 l2)
    (res1 res2 : lexer_t × Option (token_type_t × String × Nat))
    (h1 : lexer_operator l1 '/' = res1) (h2 : lexer_operator l2 '/' = res2) :
    res1.2 = res2.2 ∧ ∃ a', lexer_sim a' t1 t2 res1.1 res2.1 := by
  unfold lexer_operator at h1 h2
  rw [if_neg (show ¬ ('/' = '+') by decide)] at h1 h2
  rw [if_neg (show ¬ ('/' = '-') by decide)] at h1 h2
  rw [if_neg (show ¬ ('/' = '*') by decide)] at h1 h2
  rw [if_pos (rfl : '/' = '/')] at h1 h2
  rcases lexer_sim_match hst hs0 '=' (by decide) (by decide) (by decide) with
    ⟨a1, e1, f1, hs1⟩ | ⟨e1, f1⟩
  · rw [e1] at h1
    rw [f1] at h2
    dsimp only at h1 h2
    rw [if_pos rfl] at h1 h2
    subst h1
    subst h2
    exact ⟨rfl, _, hs1⟩
  · rw [e1] at h1
    rw [f1] at h2
    dsimp only at h1 h2
    rw [if_neg Bool.false_ne_true] at h1 h2
    subst h1
    subst h2
    exact ⟨rfl, _, hs0⟩

theorem lexer_operator_sim_percent {a t1 t2 : List Char} {l1 l2 : lexer_t}
    (hst : same_stop t1 t2) (hs0 : lexer_sim a t1 t2 l1 l2)
    (res1 res2 : lexer_t × Option (token_type_t × String × Nat))
    (h1 : lexer_operator l1 '%' = res1) (h2 : lexer_operator l2 '%' = res2) :
    res1.2 = res2.2 ∧ ∃ a', lexer_sim a' t1 t2 res1.1 res2.1 := by
  unfold lexer_operator at h1 h2
  rw [if_neg (show ¬ ('%' = '+') by decide)] at h1 h2
  rw [if_neg (show ¬ ('%' = '-') by decide)] at h1 h2
  rw [if_neg (show ¬ ('%' = '*') by decide)] at h1 h2
  rw [if_neg (show ¬ ('%' = '/') by decide)] at h1 h2
  rw [if_pos (rfl : '%' = '%')] at h1 h2
  rcases lexer_sim_match hst hs0 '=' (by decide) (by decide) (by decide) with
    ⟨a1, e1, f1, hs1⟩ | ⟨e1, f1⟩
  · rw [e1] at h1
    rw [f1] at h2
    dsimp only at h1 h2
    rw [if_pos rfl] at h1 h2
    subst h1
    subst h2
    exact ⟨rfl, _, hs1⟩
  · rw [e1] at h1
    rw [f1] at h2
    dsimp only at h1 h2
    rw [if_neg Bool.false_ne_true] at h1 h2
    subst h1
    subst h2
    exact ⟨rfl, _, hs0⟩

theorem lexer_operator_sim_ampersand {a t1 t2 : List Char} {l1 l2 : lexer_t}
    (hst : same_stop t1 t2) (hs0 : lexer_sim a t1 t2 l1 l2)
    (res1 res2 : lexer_t × Option (token_type_t × String × Nat))
    (h1 : lexer_operator l1 '&' = res1) (h2 : lexer_operator l2 '&' = res2) :
    res1.2 = res2.2 ∧ ∃ a', lexer_sim a' t1 t2 res1.1 res2.1 := by
  unfold lexer_operator at h1 h2
  rw [if_neg (show ¬ ('&' = '+') by decide)] at h1 h2
  rw [if_neg (show ¬ ('&' = '-') by decide)] at h1 h2
  rw [if_neg (show ¬ ('&' = '*') by decide)] at h1 h2
  rw [if_neg (show ¬ ('&' = '/') by decide)] at h1 h2
  rw [if_neg (show ¬ ('&' = '%') by decide)] at h1 h2
  rw [if_pos (rfl : '&' = '&')] at h1 h2
  rcases lexer_sim_match hst hs0 '&' (by decide) (by decide) (by decide) with
    ⟨a1, e1, f1, hs1⟩ | ⟨e1, f1⟩
  · rw [e1] at h1
    rw [f1] at h2
    dsimp only at h1 h2
    rw [if_pos rfl] at h1 h2
    rcases lexer_sim_match hst hs1 '=' (by decide) (by decide) (by decide) with
      ⟨a2, e2, f2, hs2⟩ | ⟨e2, f2⟩
    · rw [e2] at h1
      rw [f2] at h2
      dsimp only at h1 h2
      rw [if_pos rfl] at h1 h2
      subst h1
      subst h2
      exact ⟨rfl, _, hs2⟩
    · rw [e2] at h1
      rw [f2] at h2
      dsimp only at h1 h2
      rw [if_neg Bool.false_ne_true] at h1 h2
      subst h1
      subst h2
      exact ⟨rfl, _, hs1⟩
  · rw [e1] at h1
    rw [f1] at h2
    dsimp only at h1 h2
    rw [if_neg Bool.false_ne_true] at h1 h2
    rcases lexer_sim_match hst hs0 '=' (by decide) (by decide) (by decide) with
      ⟨a3, e3, f3, hs3⟩ | ⟨e3, f3⟩
    · rw [e3] at h1
      rw [f3] at h2
      dsimp only at h1 h2
      rw [if_pos rfl] at h1 h2
      subst h1
      subst h2
      exact ⟨rfl, _, hs3⟩
    · rw [e3] at h1
      rw [f3] at h2
      dsimp only at h1 h2
      rw [if_neg Bool.false_ne_true] at h1 h2
      subst h1
      subst h2
      exact ⟨rfl, _, hs0⟩

theorem lexer_operator_sim_pipe {a t1 t2 : List Char} {l1 l2 : lexer_t}
    (hst : same_stop t1 t2) (hs0 : lexer_sim a t1 t2 l1 l2)
    (res1 res2 : lexer_t × Option (token_type_t × String × Nat))
    (h1 : lexer_operator l1 '|' = res1) (h2 : lexer_operator l2 '|' = res2) :
    res1.2 = res2.2 ∧ ∃ a', lexer_sim a' t1 t2 res1.1 res2.1 := by
  unfold lexer_operator at h1 h2
  rw [if_neg (show ¬ ('|' = '+') by decide)] at h1 h2
  rw [if_neg (show ¬ ('|' = '-') by decide)] at h1 h2
  rw [if_neg (show ¬ ('|' = '*') by decide)] at h1 h2
  rw [if_neg (show ¬ ('|' = '/') by decide)] at h1 h2
  rw [if_neg (show ¬ ('|' = '%') by decide)] at h1 h2
  rw [if_neg (show ¬ ('|' = '&') by decide)] at h1 h2
  rw [if_pos (rfl : '|' = '|')] at h1 h2
  rcases lexer_sim_match hst hs0 '|' (by decide) (by decide) (by decide) with
    ⟨a1, e1, f1, hs1⟩ | ⟨e1, f1⟩
  · rw [e1] at h1
    rw [f1] at h2
    dsimp only at h1 h2
    rw [if_pos rfl] at h1 h2
    rcases lexer_sim_match hst hs1 '=' (by decide) (by decide) (by decide) with
      ⟨a2, e2, f2, hs2⟩ | ⟨e2, f2⟩
    · rw [e2] at h1
      rw [f2] at h2
      dsimp only at h1 h2
      rw [if_pos rfl] at h1 h2
      subst h1
      subst h2
      exact ⟨rfl, _, hs2⟩
    · rw [e2] at h1
      rw [f2] at h2
      dsimp only at h1 h2
      rw [if_neg Bool.false_ne_true] at h1 h2
      subst h1
      subst h2
      exact ⟨rfl, _, hs1⟩
  · rw [e1] at h1
    rw [f1] at h2
    dsimp only at h1 h2
    rw [if_neg Bool.false_ne_true] at h1 h2
    rcases lexer_sim_match hst hs0 '=' (by decide) (by decide) (by decide) with
      ⟨a3, e3, f3, hs3⟩ | ⟨e3, f3⟩
    · rw [e3] at h1
      rw [f3] at h2
      dsimp only at h1 h2
      rw [if_pos rfl] at h1 h2
      subst h1
      subst h2
      exact ⟨rfl, _, hs3⟩
    · rw [e3] at h1
      rw [f3] at h2
      dsimp only at h1 h2
      rw [if_neg Bool.false_ne_true] at h1 h2
      subst h1
      subst h2
      exact ⟨rfl, _, hs0⟩

theorem lexer_operator_sim_caret {a t1 t2 : List Char} {l1 l2 : lexer_t}
    (hst : same_stop t1 t2) (hs0 : lexer_sim a t1 t2 l1 l2)
    (res1 res2 : lexer_t × Option (token_type_t × String × Nat))
    (h1 : lexer_operator l1 '^' = res1) (h2 : lexer_operator l2 '^' = res2) :
    res1.2 = res2.2 ∧ ∃ a', lexer_sim a' t1 t2 res1.1 res2.1 := by
  unfold lexer_operator at h1 h2
  rw [if_neg (show ¬ ('^' = '+') by decide)] at h1 h2
  rw [if_neg (show ¬ ('^' = '-') by decide)] at h1 h2
  rw [if_neg (show ¬ ('^' = '*') by decide)] at h1 h2
  rw [if_neg (show ¬ ('^' = '/') by decide)] at h1 h2
  rw [if_neg (show ¬ ('^' = '%') by decide)] at h1 h2
  rw [if_neg (show ¬ ('^' = '&') by decide)] at h1 h2
  rw [if_neg (show ¬ ('^' = '|') by decide)] at h1 h2
  rw [if_pos (rfl : '^' = '^')] at h1 h2
  rcases lexer_sim_match hst hs0 '=' (by decide) (by decide) (by decide) with
    ⟨a1, e1, f1, hs1⟩ | ⟨e1, f1⟩
  · rw [e1] at h1
    rw [f1] at h2
    dsimp only at h1 h2
    rw [if_pos rfl] at h1 h2
    subst h1
    subst h2
    exact ⟨rfl, _, hs1⟩
  · rw [e1] at h1
    rw [f1] at h2
    dsimp only at h1 h2
    rw [if_neg Bool.false_ne_true] at h1 h2
    subst h1
    subst h2
    exact ⟨rfl, _, hs0⟩

theorem lexer_operator_sim_tilde {a t1 t2 : List Char} {l1 l2 : lexer_t}
    (hst : same_stop t1 t2) (hs0 : lexer_sim a t1 t2 l1 l2)
    (res1 res2 : lexer_t × Option (token_type_t × String × Nat))
    (h1 : lexer_operator l1 '~' = res1) (h2 : lexer_operator l2 '~' = res2) :
    res1.2 = res2.2 ∧ ∃ a', lexer_sim a' t1 t2 res1.1 res2.1 := by
  unfold lexer_operator at h1 h2
  rw [if_neg (show ¬ ('~' = '+') by decide)] at h1 h2
  rw [if_neg (show ¬ ('~' = '-') by decide)] at h1 h2
  rw [if_neg (show ¬ ('~' = '*') by decide)] at h1 h2
  rw [if_neg (show ¬ ('~' = '/') by decide)] at h1 h2
  rw [if_neg (show ¬ ('~' = '%') by decide)] at h1 h2
  rw [if_neg (show ¬ ('~' = '&') by decide)] at h1 h2
  rw [if_neg (show ¬ ('~' = '|') by decide)] at h1 h2
  rw [if_neg (show ¬ ('~' = '^') by decide)] at h1 h2
  rw [if_pos (rfl : '~' = '~')] at h1 h2
  subst h1
  subst h2
  exact ⟨rfl, _, hs0⟩

theorem lexer_operator_sim_less {a t1 t2 : List Char} {l1 l2 : lexer_t}
    (hst : same_stop t1 t2) (hs0 : lexer_sim a t1 t2 l1 l2)
    (res1 res2 : lexer_t × Option (token_type_t × String × Nat))
    (h1 : lexer_operator l1 '<' = res1) (h2 : lexer_operator l2 '<' = res2) :
    res1.2 = res2.2 ∧ ∃ a', lexer_sim a' t1 t2 res1.1 res2.1 := by
  unfold lexer_operator at h1 h2
  rw [if_neg (show ¬ ('<' = '+') by decide)] at h1 h2
  rw [if_neg (show ¬ ('<' = '-') by decide)] at h1 h2
  rw [if_neg (show ¬ ('<' = '*') by decide)] at h1 h2
  rw [if_neg (show ¬ ('<' = '/') by decide)] at h1 h2
  rw [if_neg (show ¬ ('<' = '%') by decide)] at h1 h2
  rw [if_neg (show ¬ ('<' = '&') by decide)] at h1 h2
  rw [if_neg (show ¬ ('<' = '|') by decide)] at h1 h2
  rw [if_neg (show ¬ ('<' = '^') by decide)] at h1 h2
  rw [if_neg (show ¬ ('<' = '~') by decide)] at h1 h2
  rw [if_pos (rfl : '<' = '<')] at h1 h2
  rcases lexer_sim_match hst hs0 '<' (by decide) (by decide) (by decide) with
    ⟨a1, e1, f1, hs1⟩ | ⟨e1, f1⟩
  · rw [e1] at h1
    rw [f1] at h2
    dsimp only at h1 h2
    rw [if_pos rfl] at h1 h2
    rcases lexer_sim_match hst hs1 '=' (by decide) (by decide) (by decide) with
      ⟨a2, e2, f2, hs2⟩ | ⟨e2, f2⟩
    · rw [e2] at h1
      rw [f2] at h2
      dsimp only at h1 h2
      rw [if_pos rfl] at h1 h2
      subst h1
      subst h2
      exact ⟨rfl, _, hs2⟩
    · rw [e2] at h1
      rw [f2] at h2
      dsimp only at h1 h2
      rw [if_neg Bool.false_ne_true] at h1 h2
      subst h1
      subst h2
      exact ⟨rfl, _, hs1⟩
  · rw [e1] at h1
    rw [f1] at h2
    dsimp only at h1 h2
    rw [if_neg Bool.false_ne_true] at h1 h2
    rcases lexer_sim_match hst hs0 '=' (by decide) (by decide) (by decide) with
      ⟨a3, e3, f3, hs3⟩ | ⟨e3, f3⟩
    · rw [e3] at h1
      rw [f3] at h2
      dsimp only at h1 h2
      rw [if_pos rfl] at h1 h2
      subst h1
      subst h2
      exact ⟨rfl, _, hs3⟩
    · rw [e3] at h1
      rw [f3] at h2
      dsimp only at h1 h2
      rw [if_neg Bool.false_ne_true] at h1 h2
      subst h1
      subst h2
      exact ⟨rfl, _, hs0⟩

theorem lexer_operator_sim_greater {a t1 t2 : List Char} {l1 l2 : lexer_t}
    (hst : same_stop t1 t2) (hs0 : lexer_sim a t1 t2 l1 l2)
    (res1 res2 : lexer_t × Option (token_type_t × String × Nat))
    (h1 : lexer_operator l1 '>' = res1) (h2 : lexer_operator l2 '>' = res2) :
    res1.2 = res2.2 ∧ ∃ a', lexer_sim a' t1 t2 res1.1 res2.1 := by
  unfold lexer_operator at h1 h2
  rw [if_neg (show ¬ ('>' = '+') by decide)] at h1 h2
  rw [if_neg (show ¬ ('>' = '-') by decide)] at h1 h2
  rw [if_neg (show ¬ ('>' = '*') by decide)] at h1 h2
  rw [if_neg (show ¬ ('>' = '/') by decide)] at h1 h2
  rw [if_neg (show ¬ ('>' = '%') by decide)] at h1 h2
  rw [if_neg (show ¬ ('>' = '&') by decide)] at h1 h2
  rw [if_neg (show ¬ ('>' = '|') by decide)] at h1 h2
  rw [if_neg (show ¬ ('>' = '^') by decide)] at h1 h2
  rw [if_neg (show ¬ ('>' = '~') by decide)] at h1 h2
  rw [if_neg (show ¬ ('>' = '<') by decide)] at h1 h2
  rw [if_pos (rfl : '>' = '>')] at h1 h2
  rcases lexer_sim_match hst hs0 '>' (by decide) (by decide) (by decide) with
    ⟨a1, e1, f1, hs1⟩ | ⟨e1, f1⟩
  · rw [e1] at h1
    rw [f1] at h2
    dsimp only at h1 h2
    rw [if_pos rfl] at h1 h2
    rcases lexer_sim_match hst hs1 '=' (by decide) (by decide) (by decide) with
      ⟨a2, e2, f2, hs2⟩ | ⟨e2, f2⟩
    · rw [e2] at h1
      rw [f2] at h2
      dsimp only at h1 h2
      rw [if_pos rfl] at h1 h2
      subst h1
      subst h2
      exact ⟨rfl, _, hs2⟩
    · rw [e2] at h1
      rw [f2] at h2
      dsimp only at h1 h2
      rw [if_neg Bool.false_ne_true] at h1 h2
      subst h1
      subst h2
      exact ⟨rfl, _, hs1⟩
  · rw [e1] at h1
    rw [f1] at h2
    dsimp only at h1 h2
    rw [if_neg Bool.false_ne_true] at h1 h2
    rcases lexer_sim_match hst hs0 '=' (by decide) (by decide) (by decide) with
      ⟨a3, e3, f3, hs3⟩ | ⟨e3, f3⟩
    · rw [e3] at h1
      rw [f3] at h2
      dsimp only at h1 h2
      rw [if_pos rfl] at h1 h2
      subst h1
      subst h2
      exact ⟨rfl, _, hs3⟩
    · rw [e3] at h1
      rw [f3] at h2
      dsimp only at h1 h2
      rw [if_neg Bool.false_ne_true] at h1 h2
      subst h1
      subst h2
      exact ⟨rfl, _, hs0⟩

theorem lexer_operator_sim_equal {a t1 t2 : List Char} {l1 l2 : lexer_t}
    (hst : same_stop t1 t2) (hs0 : lexer_sim a t1 t2 l1 l2)
    (res1 res2 : lexer_t × Option (token_type_t × String × Nat))
    (h1 : lexer_operator l1 '=' = res1) (h2 : lexer_operator l2 '=' = res2) :
    res1.2 = res2.2 ∧ ∃ a', lexer_sim a' t1 t2 res1.1 res2.1 := by
  unfold lexer_operator at h1 h2
  rw [if_neg (show ¬ ('=' = '+') by decide)] at h1 h2
  rw [if_neg (show ¬ ('=' = '-') by decide)] at h1 h2
  rw [if_neg (show ¬ ('=' = '*') by decide)] at h1 h2
  rw [if_neg (show ¬ ('=' = '/') by decide)] at h1 h2
  rw [if_neg (show ¬ ('=' = '%') by decide)] at h1 h2
  rw [if_neg (show ¬ ('=' = '&') by decide)] at h1 h2
  rw [if_neg (show ¬ ('=' = '|') by decide)] at h1 h2
  rw [if_neg (show ¬ ('=' = '^') by decide)] at h1 h2
  rw [if_neg (show ¬ ('=' = '~') by decide)] at h1 h2
  rw [if_neg (show ¬ ('=' = '<') by decide)] at h1 h2
  rw [if_neg (show ¬ ('=' = '>') by decide)] at h1 h2
  rw [if_pos (rfl : '=' = '=')] at h1 h2
  rcases lexer_sim_match hst hs0 '=' (by decide) (by decide) (by decide) with
    ⟨a1, e1, f1, hs1⟩ | ⟨e1, f1⟩
  · rw [e1] at h1
    rw [f1] at h2
    dsimp only at h1 h2
    rw [if_pos rfl] at h1 h2
    subst h1
    subst h2
    exact ⟨rfl, _, hs1⟩
  · rw [e1] at h1
    rw [f1] at h2
    dsimp only at h1 h2
    rw [if_neg Bool.false_ne_true] at h1 h2
    subst h1
    subst h2
    exact ⟨rfl, _, hs0⟩

theorem lexer_operator_sim_bang {a t1 t2 : List Char} {l1 l2 : lexer_t}
    (hst : same_stop t1 t2) (hs0 : lexer_sim a t1 t2 l1 l2)
    (res1 res2 : lexer_t × Option (token_type_t × String × Nat))
    (h1 : lexer_operator l1 '!' = res1) (h2 : lexer_operator l2 '!' = res2) :
    res1.2 = res2.2 ∧ ∃ a', lexer_sim a' t1 t2 res1.1 res2.1 := by
  unfold lexer_operator at h1 h2
  rw [if_neg (show ¬ ('!' = '+') by decide)] at h1 h2
  rw [if_neg (show ¬ ('!' = '-') by decide)] at h1 h2
  rw [if_neg (show ¬ ('!' = '*') by decide)] at h1 h2
  rw [if_neg (show ¬ ('!' = '/') by decide)] at h1 h2
  rw [if_neg (show ¬ ('!' = '%') by decide)] at h1 h2
  rw [if_neg (show ¬ ('!' = '&') by decide)] at h1 h2
  rw [if_neg (show ¬ ('!' = '|') by decide)] at h1 h2
  rw [if_neg (show ¬ ('!' = '^') by decide)] at h1 h2
  rw [if_neg (show ¬ ('!' = '~') by decide)] at h1 h2
  rw [if_neg (show ¬ ('!' = '<') by decide)] at h1 h2
  rw [if_neg (show ¬ ('!' = '>') by decide)] at h1 h2
  rw [if_neg (show ¬ ('!' = '=') by decide)] at h1 h2
  rw [if_pos (rfl : '!' = '!')] at h1 h2
  rcases lexer_sim_match hst hs0 '=' (by decide) (by decide) (by decide) with
    ⟨a1, e1, f1, hs1⟩ | ⟨e1, f1⟩
  · rw [e1] at h1
    rw [f1] at h2
    dsimp only at h1 h2
    rw [if_pos rfl] at h1 h2
    subst h1
    subst h2
    exact ⟨rfl, _, hs1⟩
  · rw [e1] at h1
    rw [f1] at h2
    dsimp only at h1 h2
    rw [if_neg Bool.false_ne_true] at h1 h2
    subst h1
    subst h2
    exact ⟨rfl, _, hs0⟩

theorem lexer_operator_sim_left_paren {a t1 t2 : List Char} {l1 l2 : lexer_t}
    (hst : same_stop t1 t2) (hs0 : lexer_sim a t1 t2 l1 l2)
    (res1 res2 : lexer_t × Option (token_type_t × String × Nat))
    (h1 : lexer_operator l1 '(' = res1) (h2 : lexer_operator l2 '(' = res2) :
    res1.2 = res2.2 ∧ ∃ a', lexer_sim a' t1 t2 res1.1 res2.1 := by
  unfold lexer_operator at h1 h2
  rw [if_neg (show ¬ ('(' = '+') by decide)] at h1 h2
  rw [if_neg (show ¬ ('(' = '-') by decide)] at h1 h2
  rw [if_neg (show ¬ ('(' = '*') by decide)] at h1 h2
  rw [if_neg (show ¬ ('(' = '/') by decide)] at h1 h2
  rw [if_neg (show ¬ ('(' = '%') by decide)] at h1 h2
  rw [if_neg (show ¬ ('(' = '&') by decide)] at h1 h2
  rw [if_neg (show ¬ ('(' = '|') by decide)] at h1 h2
  rw [if_neg (show ¬ ('(' = '^') by decide)] at h1 h2
  rw [if_neg (show ¬ ('(' = '~') by decide)] at h1 h2
  rw [if_neg (show ¬ ('(' = '<') by decide)] at h1 h2
  rw [if_neg (show ¬ ('(' = '>') by decide)] at h1 h2
  rw [if_neg (show ¬ ('(' = '=') by decide)] at h1 h2
  rw [if_neg (show ¬ ('(' = '!') by decide)] at h1 h2
  rw [if_pos (rfl : '(' = '(')] at h1 h2
  subst h1
  subst h2
  exact ⟨rfl, _, hs0⟩

theorem lexer_operator_sim_right_paren {a t1 t2 : List Char} {l1 l2 : lexer_t}
    (hst : same_stop t1 t2) (hs0 : lexer_sim a t1 t2 l1 l2)
    (res1 res2 : lexer_t × Option (token_type_t × String × Nat))
    (h1 : lexer_operator l1 ')' = res1) (h2 : lexer_operator l2 ')' = res2) :
    res1.2 = res2.2 ∧ ∃ a', lexer_sim a' t1 t2 res1.1 res2.1 := by
  unfold lexer_operator at h1 h2
  rw [if_neg (show ¬ (')' = '+') by decide)] at h1 h2
  rw [if_neg (show ¬ (')' = '-') by decide)] at h1 h2
  rw [if_neg (show ¬ (')' = '*') by decide)] at h1 h2
  rw [if_neg (show ¬ (')' = '/') by decide)] at h1 h2
  rw [if_neg (show ¬ (')' = '%') by decide)] at h1 h2
  rw [if_neg (show ¬ (')' = '&') by decide)] at h1 h2
  rw [if_neg (show ¬ (')' = '|') by decide)] at h1 h2
  rw [if_neg (show ¬ (')' = '^') by decide)] at h1 h2
  rw [if_neg (show ¬ (')' = '~') by decide)] at h1 h2
  rw [if_neg (show ¬ (')' = '<') by decide)] at h1 h2
  rw [if_neg (show ¬ (')' = '>') by decide)] at h1 h2
  rw [if_neg (show ¬ (')' = '=') by decide)] at h1 h2
  rw [if_neg (show ¬ (')' = '!') by decide)] at h1 h2
  rw [if_neg (show ¬ (')' = '(') by decide)] at h1 h2
  rw [if_pos (rfl : ')' = ')')] at h1 h2
  subst h1
  subst h2
  exact ⟨rfl, _, hs0⟩

theorem lexer_operator_sim_left_brace {a t1 t2 : List Char} {l1 l2 : lexer_t}
    (hst : same_stop t1 t2) (hs0 : lexer_sim a t1 t2 l1 l2)
    (res1 res2 : lexer_t × Option (token_type_t × String × Nat))
    (h1 : lexer_operator l1 '\x7b' = res1) (h2 : lexer_operator l2 '\x7b' = res2) :
    res1.2 = res2.2 ∧ ∃ a', lexer_sim a' t1 t2 res1.1 res2.1 := by
  unfold lexer_operator at h1 h2
  rw [if_neg (show ¬ ('\x7b' = '+') by decide)] at h1 h2
  rw [if_neg (show ¬ ('\x7b' = '-') by decide)] at h1 h2
  rw [if_neg (show ¬ ('\x7b' = '*') by decide)] at h1 h2
  rw [if_neg (show ¬ ('\x7b' = '/') by decide)] at h1 h2
  rw [if_neg (show ¬ ('\x7b' = '%') by decide)] at h1 h2
  rw [if_neg (show ¬ ('\x7b' = '&') by decide)] at h1 h2
  rw [if_neg (show ¬ ('\x7b' = '|') by decide)] at h1 h2
  rw [if_neg (show ¬ ('\x7b' = '^') by decide)] at h1 h2
  rw [if_neg (show ¬ ('\x7b' = '~') by decide)] at h1 h2
  rw [if_neg (show ¬ ('\x7b' = '<') by decide)] at h1 h2
  rw [if_neg (show ¬ ('\x7b' = '>') by decide)] at h1 h2
  rw [if_neg (show ¬ ('\x7b' = '=') by decide)] at h1 h2
  rw [if_neg (show ¬ ('\x7b' = '!') by decide)] at h1 h2
  rw [if_neg (show ¬ ('\x7b' = '(') by decide)] at h1 h2
  rw [if_neg (show ¬ ('\x7b' = ')') by decide)] at h1 h2
  rw [if_pos (rfl : '\x7b' = '\x7b')] at h1 h2
  subst h1
  subst h2
  exact ⟨rfl, _, hs0⟩

theorem lexer_operator_sim_right_brace {a t1 t2 : List Char} {l1 l2 : lexer_t}
    (hst : same_stop t1 t2) (hs0 : lexer_sim a t1 t2 l1 l2)
    (res1 res2 : lexer_t × Option (token_type_t × String × Nat))
    (h1 : lexer_operator l1 '\x7d' = res1) (h2 : lexer_operator l2 '\x7d' = res2) :
    res1.2 = res2.2 ∧ ∃ a', lexer_sim a' t1 t2 res1.1 res2.1 := by
  unfold lexer_operator at h1 h2
  rw [if_neg (show ¬ ('\x7d' = '+') by decide)] at h1 h2
  rw [if_neg (show ¬ ('\x7d' = '-') by decide)] at h1 h2
  rw [if_neg (show ¬ ('\x7d' = '*') by decide)] at h1 h2
  rw [if_neg (show ¬ ('\x7d' = '/') by decide)] at h1 h2
  rw [if_neg (show ¬ ('\x7d' = '%') by decide)] at h1 h2
  rw [if_neg (show ¬ ('\x7d' = '&') by decide)] at h1 h2
  rw [if_neg (show ¬ ('\x7d' = '|') by decide)] at h1 h2
  rw [if_neg (show ¬ ('\x7d' = '^') by decide)] at h1 h2
  rw [if_neg (show ¬ ('\x7d' = '~') by decide)] at h1 h2
  rw [if_neg (show ¬ ('\x7d' = '<') by decide)] at h1 h2
  rw [if_neg (show ¬ ('\x7d' = '>') by decide)] at h1 h2
  rw [if_neg (show ¬ ('\x7d' = '=') by decide)] at h1 h2
  rw [if_neg (show ¬ ('\x7d' = '!') by decide)] at h1 h2
  rw [if_neg (show ¬ ('\x7d' = '(') by decide)] at h1 h2
  rw [if_neg (show ¬ ('\x7d' = ')') by decide)] at h1 h2
  rw [if_neg (show ¬ ('\x7d' = '\x7b') by decide)] at h1 h2
  rw [if_pos (rfl : '\x7d' = '\x7d')] at h1 h2
  subst h1
  subst h2
  exact ⟨rfl, _, hs0⟩

theorem lexer_operator_sim_left_bracket {a t1 t2 : List Char} {l1 l2 : lexer_t}
    (hst : same_stop t1 t2) (hs0 : lexer_sim a t1 t2 l1 l2)
    (res1 res2 : lexer_t × Option (token_type_t × String × Nat))
    (h1 : lexer_operator l1 '[' = res1) (h2 : lexer_operator l2 '[' = res2) :
    res1.2 = res2.2 ∧ ∃ a', lexer_sim a' t1 t2 res1.1 res2.1 := by
  unfold lexer_operator at h1 h2
  rw [if_neg (show ¬ ('[' = '+') by decide)] at h1 h2
  rw [if_neg (show ¬ ('[' = '-') by decide)] at h1 h2
  rw [if_neg (show ¬ ('[' = '*') by decide)] at h1 h2
  rw [if_neg (show ¬ ('[' = '/') by decide)] at h1 h2
  rw [if_neg (show ¬ ('[' = '%') by decide)] at h1 h2
  rw [if_neg (show ¬ ('[' = '&') by decide)] at h1 h2
  rw [if_neg (show ¬ ('[' = '|') by decide)] at h1 h2
  rw [if_neg (show ¬ ('[' = '^') by decide)] at h1 h2
  rw [if_neg (show ¬ ('[' = '~') by decide)] at h1 h2
  rw [if_neg (show ¬ ('[' = '<') by decide)] at h1 h2
  rw [if_neg (show ¬ ('[' = '>') by decide)] at h1 h2
  rw [if_neg (show ¬ ('[' = '=') by decide)] at h1 h2
  rw [if_neg (show ¬ ('[' = '!') by decide)] at h1 h2
  rw [if_neg (show ¬ ('[' = '(') by decide)] at h1 h2
  rw [if_neg (show ¬ ('[' = ')') by decide)] at h1 h2
  rw [if_neg (show ¬ ('[' = '\x7b') by decide)] at h1 h2
  rw [if_neg (show ¬ ('[' = '\x7d') by decide)] at h1 h2
  rw [if_pos (rfl : '[' = '[')] at h1 h2
  subst h1
  subst h2
  exact ⟨rfl, _, hs0⟩

theorem lexer_operator_sim_right_bracket {a t1 t2 : List Char} {l1 l2 : lexer_t}
    (hst : same_stop t1 t2) (hs0 : lexer_sim a t1 t2 l1 l2)
    (res1 res2 : lexer_t × Option (token_type_t × String × Nat))
    (h1 : lexer_operator l1 ']' = res1) (h2 : lexer_operator l2 ']' = res2) :
    res1.2 = res2.2 ∧ ∃ a', lexer_sim a' t1 t2 res1.1 res2.1 := by
  unfold lexer_operator at h1 h2
  rw [if_neg (show ¬ (']' = '+') by decide)] at h1 h2
  rw [if_neg (show ¬ (']' = '-') by decide)] at h1 h2
  rw [if_neg (show ¬ (']' = '*') by decide)] at h1 h2
  rw [if_neg (show ¬ (']' = '/') by decide)] at h1 h2
  rw [if_neg (show ¬ (']' = '%') by decide)] at h1 h2
  rw [if_neg (show ¬ (']' = '&') by decide)] at h1 h2
  rw [if_neg (show ¬ (']' = '|') by decide)] at h1 h2
  rw [if_neg (show ¬ (']' = '^') by decide)] at h1 h2
  rw [if_neg (show ¬ (']' = '~') by decide)] at h1 h2
  rw [if_neg (show ¬ (']' = '<') by decide)] at h1 h2
  rw [if_neg (show ¬ (']' = '>') by decide)] at h1 h2
  rw [if_neg (show ¬ (']' = '=') by decide)] at h1 h2
  rw [if_neg (show ¬ (']' = '!') by decide)] at h1 h2
  rw [if_neg (show ¬ (']' = '(') by decide)] at h1 h2
  rw [if_neg (show ¬ (']' = ')') by decide)] at h1 h2
  rw [if_neg (show ¬ (']' = '\x7b') by decide)] at h1 h2
  rw [if_neg (show ¬ (']' = '\x7d') by decide)] at h1 h2
  rw [if_neg (show ¬ (']' = '[') by decide)] at h1 h2
  rw [if_pos (rfl : ']' = ']')] at h1 h2
  subst h1
  subst h2
  exact ⟨rfl, _, hs0⟩

theorem lexer_operator_sim_dot {a t1 t2 : List Char} {l1 l2 : lexer_t}
    (hst : same_stop t1 t2) (hs0 : lexer_sim a t1 t2 l1 l2)
    (res1 res2 : lexer_t × Option (token_type_t × String × Nat))
    (h1 : lexer_operator l1 '.' = res1) (h2 : lexer_operator l2 '.' = res2) :
    res1.2 = res2.2 ∧ ∃ a', lexer_sim a' t1 t2 res1.1 res2.1 := by
  unfold lexer_operator at h1 h2
  rw [if_neg (show ¬ ('.' = '+') by decide)] at h1 h2
  rw [if_neg (show ¬ ('.' = '-') by decide)] at h1 h2
  rw [if_neg (show ¬ ('.' = '*') by decide)] at h1 h2
  rw [if_neg (show ¬ ('.' = '/') by decide)] at h1 h2
  rw [if_neg (show ¬ ('.' = '%') by decide)] at h1 h2
  rw [if_neg (show ¬ ('.' = '&') by decide)] at h1 h2
  rw [if_neg (show ¬ ('.' = '|') by decide)] at h1 h2
  rw [if_neg (show ¬ ('.' = '^') by decide)] at h1 h2
  rw [if_neg (show ¬ ('.' = '~') by decide)] at h1 h2
  rw [if_neg (show ¬ ('.' = '<') by decide)] at h1 h2
  rw [if_neg (show ¬ ('.' = '>') by decide)] at h1 h2
  rw [if_neg (show ¬ ('.' = '=') by decide)] at h1 h2
  rw [if_neg (show ¬ ('.' = '!') by decide)] at h1 h2
  rw [if_neg (show ¬ ('.' = '(') by decide)] at h1 h2
  rw [if_neg (show ¬ ('.' = ')') by decide)] at h1 h2
  rw [if_neg (show ¬ ('.' = '\x7b') by decide)] at h1 h2
  rw [if_neg (show ¬ ('.' = '\x7d') by decide)] at h1 h2
  rw [if_neg (show ¬ ('.' = '[') by decide)] at h1 h2
  rw [if_neg (show ¬ ('.' = ']') by decide)] at h1 h2
  rw [if_pos (rfl : '.' = '.')] at h1 h2
  rcases lexer_sim_match hst hs0 '.' (by decide) (by decide) (by decide) with
    ⟨a1, e1, f1, hs1⟩ | ⟨e1, f1⟩
  · rw [e1] at h1
    rw [f1] at h2
    dsimp only at h1 h2
    rw [if_pos rfl] at h1 h2
    rcases lexer_sim_match hst hs1 '.' (by decide) (by decide) (by decide) with
      ⟨a2, e2, f2, hs2⟩ | ⟨e2, f2⟩
    · rw [e2] at h1
      rw [f2] at h2
      dsimp only at h1 h2
      rw [if_pos rfl] at h1 h2
      subst h1
      subst h2
      exact ⟨rfl, _, hs2⟩
    · rw [e2] at h1
      rw [f2] at h2
      dsimp only at h1 h2
      rw [if_neg Bool.false_ne_true] at h1 h2
      subst h1
      subst h2
      exact ⟨rfl, _, hs1⟩
  · rw [e1] at h1
    rw [f1] at h2
    dsimp only at h1 h2
    rw [if_neg Bool.false_ne_true] at h1 h2
    subst h1
    subst h2
    exact ⟨rfl, _, hs0⟩

theorem lexer_operator_sim_comma {a t1 t2 : List Char} {l1 l2 : lexer_t}
    (hst : same_stop t1 t2) (hs0 : lexer_sim a t1 t2 l1 l2)
    (res1 res2 : lexer_t × Option (token_type_t × String × Nat))
    (h1 : lexer_operator l1 ',' = res1) (h2 : lexer_operator l2 ',' = res2) :
    res1.2 = res2.2 ∧ ∃ a', lexer_sim a' t1 t2 res1.1 res2.1 := by
  unfold lexer_operator at h1 h2
  rw [if_neg (show ¬ (',' = '+') by decide)] at h1 h2
  rw [if_neg (show ¬ (',' = '-') by decide)] at h1 h2
  rw [if_neg (show ¬ (',' = '*') by decide)] at h1 h2
  rw [if_neg (show ¬ (',' = '/') by decide)] at h1 h2
  rw [if_neg (show ¬ (',' = '%') by decide)] at h1 h2
  rw [if_neg (show ¬ (',' = '&') by decide)] at h1 h2
  rw [if_neg (show ¬ (',' = '|') by decide)] at h1 h2
  rw [if_neg (show ¬ (',' = '^') by decide)] at h1 h2
  rw [if_neg (show ¬ (',' = '~') by decide)] at h1 h2
  rw [if_neg (show ¬ (',' = '<') by decide)] at h1 h2
  rw [if_neg (show ¬ (',' = '>') by decide)] at h1 h2
  rw [if_neg (show ¬ (',' = '=') by decide)] at h1 h2
  rw [if_neg (show ¬ (',' = '!') by decide)] at h1 h2
  rw [if_neg (show ¬ (',' = '(') by decide)] at h1 h2
  rw [if_neg (show ¬ (',' = ')') by decide)] at h1 h2
  rw [if_neg (show ¬ (',' = '\x7b') by decide)] at h1 h2
  rw [if_neg (show ¬ (',' = '\x7d') by decide)] at h1 h2
  rw [if_neg (show ¬ (',' = '[') by decide)] at h1 h2
  rw [if_neg (show ¬ (',' = ']') by decide)] at h1 h2
  rw [if_neg (show ¬ (',' = '.') by decide)] at h1 h2
  rw [if_pos (rfl : ',' = ',')] at h1 h2
  subst h1
  subst h2
  exact ⟨rfl, _, hs0⟩

theorem lexer_operator_sim_semicolon {a t1 t2 : List Char} {l1 l2 : lexer_t}
    (hst : same_stop t1 t2) (hs0 : lexer_sim a t1 t2 l1 l2)
    (res1 res2 : lexer_t × Option (token_type_t × String × Nat))
    (h1 : lexer_operator l1 ';' = res1) (h2 : lexer_operator l2 ';' = res2) :
    res1.2 = res2.2 ∧ ∃ a', lexer_sim a' t1 t2 res1.1 res2.1 := by
  unfold lexer_operator at h1 h2
  rw [if_neg (show ¬ (';' = '+') by decide)] at h1 h2
  rw [if_neg (show ¬ (';' = '-') by decide)] at h1 h2
  rw [if_neg (show ¬ (';' = '*') by decide)] at h1 h2
  rw [if_neg (show ¬ (';' = '/') by decide)] at h1 h2
  rw [if_neg (show ¬ (';' = '%') by decide)] at h1 h2
  rw [if_neg (show ¬ (';' = '&') by decide)] at h1 h2
  rw [if_neg (show ¬ (';' = '|') by decide)] at h1 h2
  rw [if_neg (show ¬ (';' = '^') by decide)] at h1 h2
  rw [if_neg (show ¬ (';' = '~') by decide)] at h1 h2
  rw [if_neg (show ¬ (';' = '<') by decide)] at h1 h2
  rw [if_neg (show ¬ (';' = '>') by decide)] at h1 h2
  rw [if_neg (show ¬ (';' = '=') by decide)] at h1 h2
  rw [if_neg (show ¬ (';' = '!') by decide)] at h1 h2
  rw [if_neg (show ¬ (';' = '(') by decide)] at h1 h2
  rw [if_neg (show ¬ (';' = ')') by decide)] at h1 h2
  rw [if_neg (show ¬ (';' = '\x7b') by decide)] at h1 h2
  rw [if_neg (show ¬ (';' = '\x7d') by decide)] at h1 h2
  rw [if_neg (show ¬ (';' = '[') by decide)] at h1 h2
  rw [if_neg (show ¬ (';' = ']') by decide)] at h1 h2
  rw [if_neg (show ¬ (';' = '.') by decide)] at h1 h2
  rw [if_neg (show ¬ (';' = ',') by decide)] at h1 h2
  rw [if_pos (rfl : ';' = ';')] at h1 h2
  subst h1
  subst h2
  exact ⟨rfl, _, hs0⟩

theorem lexer_operator_sim_colon {a t1 t2 : List Char} {l1 l2 : lexer_t}
    (hst : same_stop t1 t2) (hs0 : lexer_sim a t1 t2 l1 l2)
    (res1 res2 : lexer_t × Option (token_type_t × String × Nat))
    (h1 : lexer_operator l1 ':' = res1) (h2 : lexer_operator l2 ':' = res2) :
    res1.2 = res2.2 ∧ ∃ a', lexer_sim a' t1 t2 res1.1 res2.1 := by
  unfold lexer_operator at h1 h2
  rw [if_neg (show ¬ (':' = '+') by decide)] at h1 h2
  rw [if_neg (show ¬ (':' = '-') by decide)] at h1 h2
  rw [if_neg (show ¬ (':' = '*') by decide)] at h1 h2
  rw [if_neg (show ¬ (':' = '/') by decide)] at h1 h2
  rw [if_neg (show ¬ (':' = '%') by decide)] at h1 h2
  rw [if_neg (show ¬ (':' = '&') by decide)] at h1 h2
  rw [if_neg (show ¬ (':' = '|') by decide)] at h1 h2
  rw [if_neg (show ¬ (':' = '^') by decide)] at h1 h2
  rw [if_neg (show ¬ (':' = '~') by decide)] at h1 h2
  rw [if_neg (show ¬ (':' = '<') by decide)] at h1 h2
  rw [if_neg (show ¬ (':' = '>') by decide)] at h1 h2
  rw [if_neg (show ¬ (':' = '=') by decide)] at h1 h2
  rw [if_neg (show ¬ (':' = '!') by decide)] at h1 h2
  rw [if_neg (show ¬ (':' = '(') by decide)] at h1 h2
  rw [if_neg (show ¬ (':' = ')') by decide)] at h1 h2
  rw [if_neg (show ¬ (':' = '\x7b') by decide)] at h1 h2
  rw [if_neg (show ¬ (':' = '\x7d') by decide)] at h1 h2
  rw [if_neg (show ¬ (':' = '[') by decide)] at h1 h2
  rw [if_neg (show ¬ (':' = ']') by decide)] at h1 h2
  rw [if_neg (show ¬ (':' = '.') by decide)] at h1 h2
  rw [if_neg (show ¬ (':' = ',') by decide)] at h1 h2
  rw [if_neg (show ¬ (':' = ';') by decide)] at h1 h2
  rw [if_pos (rfl : ':' = ':')] at h1 h2
  subst h1
  subst h2
  exact ⟨rfl, _, hs0⟩

theorem lexer_operator_sim_question {a t1 t2 : List Char} {l1 l2 : lexer_t}
    (hst : same_stop t1 t2) (hs0 : lexer_sim a t1 t2 l1 l2)
    (res1 res2 : lexer_t × Option (token_type_t × String × Nat))
    (h1 : lexer_operator l1 '?' = res1) (h2 : lexer_operator l2 '?' = res2) :
    res1.2 = res2.2 ∧ ∃ a', lexer_sim a' t1 t2 res1.1 res2.1 := by
  unfold lexer_operator at h1 h2
  rw [if_neg (show ¬ ('?' = '+') by decide)] at h1 h2
  rw [if_neg (show ¬ ('?' = '-') by decide)] at h1 h2
  rw [if_neg (show ¬ ('?' = '*') by decide)] at h1 h2
  rw [if_neg (show ¬ ('?' = '/') by decide)] at h1 h2
  rw [if_neg (show ¬ ('?' = '%') by decide)] at h1 h2
  rw [if_neg (show ¬ ('?' = '&') by decide)] at h1 h2
  rw [if_neg (show ¬ ('?' = '|') by decide)] at h1 h2
  rw [if_neg (show ¬ ('?' = '^') by decide)] at h1 h2
  rw [if_neg (show ¬ ('?' = '~') by decide)] at h1 h2
  rw [if_neg (show ¬ ('?' = '<') by decide)] at h1 h2
  rw [if_neg (show ¬ ('?' = '>') by decide)] at h1 h2
  rw [if_neg (show ¬ ('?' = '=') by decide)] at h1 h2
  rw [if_neg (show ¬ ('?' = '!') by decide)] at h1 h2
  rw [if_neg (show ¬ ('?' = '(') by decide)] at h1 h2
  rw [if_neg (show ¬ ('?' = ')') by decide)] at h1 h2
  rw [if_neg (show ¬ ('?' = '\x7b') by decide)] at h1 h2
  rw [if_neg (show ¬ ('?' = '\x7d') by decide)] at h1 h2
  rw [if_neg (show ¬ ('?' = '[') by decide)] at h1 h2
  rw [if_neg (show ¬ ('?' = ']') by decide)] at h1 h2
  rw [if_neg (show ¬ ('?' = '.') by decide)] at h1 h2
  rw [if_neg (show ¬ ('?' = ',') by decide)] at h1 h2
  rw [if_neg (show ¬ ('?' = ';') by decide)] at h1 h2
  rw [if_neg (show ¬ ('?' = ':') by decide)] at h1 h2
  rw [if_pos (rfl : '?' = '?')] at h1 h2
  subst h1
  subst h2
  exact ⟨rfl, _, hs0⟩

/-- The `switch` over operators in two lexers that have the same text to read:
it gives the same type and text, and leaves the same text to read. -/
theorem lexer_operator_sim (c : Char) {a t1 t2 : List Char} {l1 l2 : lexer_t}
    (hst : same_stop t1 t2) (hs0 : lexer_sim a t1 t2 l1 l2)
    (res1 res2 : lexer_t × Option (token_type_t × String × Nat))
    (h1 : lexer_operator l1 c = res1) (h2 : lexer_operator l2 c = res2) :
    res1.2 = res2.2 ∧ ∃ a', lexer_sim a' t1 t2 res1.1 res2.1 := by
  by_cases c0 : c = '+'
  · subst c0; exact lexer_operator_sim_plus hst hs0 res1 res2 h1 h2
  by_cases c1 : c = '-'
  · subst c1; exact lexer_operator_sim_minus hst hs0 res1 res2 h1 h2
  by_cases c2 : c = '*'
  · subst c2; exact lexer_operator_sim_star hst hs0 res1 res2 h1 h2
  by_cases c3 : c = '/'
  · subst c3; exact lexer_operator_sim_slash hst hs0 res1 res2 h1 h2
  by_cases c4 : c = '%'
  · subst c4; exact lexer_operator_sim_percent hst hs0 res1 res2 h1 h2
  by_cases c5 : c = '&'
  · subst c5; exact lexer_operator_sim_ampersand hst hs0 res1 res2 h1 h2
  by_cases c6 : c = '|'
  · subst c6; exact lexer_operator_sim_pipe hst hs0 res1 res2 h1 h2
  by_cases c7 : c = '^'
  · subst c7; exact lexer_operator_sim_caret hst hs0 res1 res2 h1 h2
  by_cases c8 : c = '~'
  · subst c8; exact lexer_operator_sim_tilde hst hs0 res1 res2 h1 h2
  by_cases c9 : c = '<'
  · subst c9; exact lexer_operator_sim_less hst hs0 res1 res2 h1 h2
  by_cases c10 : c = '>'
  · subst c10; exact lexer_operator_sim_greater hst hs0 res1 res2 h1 h2
  by_cases c11 : c = '='
  · subst c11; exact lexer_operator_sim_equal hst hs0 res1 res2 h1 h2
  by_cases c12 : c = '!'
  · subst c12; exact lexer_operator_sim_bang hst hs0 res1 res2 h1 h2
  by_cases c13 : c = '('
  · subst c13; exact lexer_operator_sim_left_paren hst hs0 res1 res2 h1 h2
  by_cases c14 : c = ')'
  · subst c14; exact lexer_operator_sim_right_paren hst hs0 res1 res2 h1 h2
  by_cases c15 : c = '\x7b'
  · subst c15; exact lexer_operator_sim_left_brace hst hs0 res1 res2 h1 h2
  by_cases c16 : c = '\x7d'
  · subst c16; exact lexer_operator_sim_right_brace hst hs0 res1 res2 h1 h2
  by_cases c17 : c = '['
  · subst c17; exact lexer_operator_sim_left_bracket hst hs0 res1 res2 h1 h2
  by_cases c18 : c = ']'
  · subst c18; exact lexer_operator_sim_right_bracket hst hs0 res1 res2 h1 h2
  by_cases c19 : c = '.'
  · subst c19; exact lexer_operator_sim_dot hst hs0 res1 res2 h1 h2
  by_cases c20 : c = ','
  · subst c20; exact lexer_operator_sim_comma hst hs0 res1 res2 h1 h2
  by_cases c21 : c = ';'
  · subst c21; exact lexer_operator_sim_semicolon hst hs0 res1 res2 h1 h2
  by_cases c22 : c = ':'
  · subst c22; exact lexer_operator_sim_colon hst hs0 res1 res2 h1 h2
  by_cases c23 : c = '?'
  · subst c23; exact lexer_operator_sim_question hst hs0 res1 res2 h1 h2
  unfold lexer_operator at h1 h2
  rw [if_neg c0, if_neg c1, if_neg c2, if_neg c3, if_neg c4, if_neg c5, if_neg c6, if_neg c7, if_neg c8, if_neg c9, if_neg c10, if_neg c11, if_neg c12, if_neg c13, if_neg c14, if_neg c15, if_neg c16, if_neg c17, if_neg c18, if_neg c19, if_neg c20, if_neg c21, if_neg c22, if_neg c23] at h1 h2
  subst h1
  subst h2
  exact ⟨rfl, _, hs0⟩

/-! ## The lexer: comments and string literals in two lexers that have the same text to read -/

theorem same_stop_left {t1 t2 : List Char} (h : same_stop t1 t2) :
    t1 = [] ∨ ∃ w r, isspace w = true ∧ t1 = w :: r := by
  rcases h with ⟨rfl, _⟩ | ⟨w, r1, _, hw, rfl, _⟩
  · exact Or.inl rfl
  · exact Or.inr ⟨w, r1, hw, rfl⟩

theorem same_stop_right {t1 t2 : List Char} (h : same_stop t1 t2) :
    t2 = [] ∨ ∃ w r, isspace w = true ∧ t2 = w :: r := by
  rcases h with ⟨_, rfl⟩ | ⟨w, _, r2, hw, _, rfl⟩
  · exact Or.inl rfl
  · exact Or.inr ⟨w, r2, hw, rfl⟩

theorem lexer_sim_nil {a t1 t2 : List Char} {l1 l2 : lexer_t} (hst : same_stop t1 t2)
    (hs : lexer_sim a t1 t2 l1 l2) : l1.rest = [] ↔ l2.rest = [] := by
  rw [hs.1, hs.2.1]
  rcases hst with ⟨rfl, rfl⟩ | ⟨w, r1, r2, _, rfl, rfl⟩
  · exact Iff.rfl
  · simp

/-- Two characters that are no white space stand at the start of a text
before a stop only when they stand in the text. -/
theorem start_two_stop (x y : Char) (hx : isspace x = false) (hy : isspace y = false)
    (a t : List Char) (ht : t = [] ∨ ∃ w r, isspace w = true ∧ t = w :: r) (r : List Char)
    (h : a ++ t = x :: y :: r) : ∃ a', a = x :: y :: a' := by
  match a, h with
  | [], h =>
    rcases ht with rfl | ⟨w, r', hw, rfl⟩
    · simp at h
    · simp only [List.nil_append, List.cons.injEq] at h
      rw [h.1, hx] at hw
      cases hw
  | [c], h =>
    rcases ht with rfl | ⟨w, r', hw, rfl⟩
    · simp at h
    · simp only [List.cons_append, List.nil_append, List.cons.injEq] at h
      rw [h.2.1, hy] at hw
      cases hw
  | c :: d :: a', h =>
    simp only [List.cons_append, List.cons.injEq] at h
    exact ⟨a', by rw [h.1, h.2.1]⟩

/-- The test for the two characters `x` and `y` at the start of the rest. -/
theorem lexer_second_iff (lex : lexer_t) (x y : Char) (hx : x ≠ '\x00') :
    (lexer_peek lex = x ∧ lex.pos + 1 < lex.length ∧
        lex.source.getD (lex.pos + 1) '\x00' = y) ↔ ∃ r, lex.rest = x :: y :: r := by
  constructor
  · rintro ⟨h1, h2, h3⟩
    rw [lexer_peek_eq] at h1
    have hl := lexer_rest_length lex
    match hr : lex.rest with
    | [] =>
      rw [hr] at h1
      exact absurd h1.symm hx
    | [c] =>
      rw [hr] at hl
      simp only [List.length_cons, List.length_nil] at hl
      omega
    | c :: d :: r =>
      rw [hr] at h1
      obtain ⟨_, g⟩ := lexer_rest_second lex c d r hr
      simp only [List.headD_cons] at h1
      rw [g] at h3
      exact ⟨r, by rw [h1, h3]⟩
  · rintro ⟨r, hr⟩
    obtain ⟨g1, g2⟩ := lexer_rest_second lex x y r hr
    exact ⟨lexer_peek_of_cons lex x _ hr, g1, g2⟩

/-- The loop over the body of a `/* */` comment in two lexers that have the
same text to read. -/
theorem lexer_sim_block_comment {t1 t2 : List Char} (hst : same_stop t1 t2) :
    ∀ (f1 f2 : Nat) (a : List Char) (l1 l2 : lexer_t), lexer_sim a t1 t2 l1 l2 →
      l1.length - l1.pos < f1 → l2.length - l2.pos < f2 →
      lexer_bad t1 (lexer_block_comment f1 l1).1 ∨
        ((lexer_block_comment f1 l1).2 = (lexer_block_comment f2 l2).2 ∧
          ∃ a', lexer_sim a' t1 t2 (lexer_block_comment f1 l1).1
            (lexer_block_comment f2 l2).1) := by
  intro f1
  induction f1 with
  | zero => intro f2 a l1 l2 _ h; omega
  | succ f1 ih =>
    intro f2 a l1 l2 hs hf1 hf2
    obtain ⟨f2, rfl⟩ : ∃ f, f2 = f + 1 := ⟨f2 - 1, by omega⟩
    have hp := lexer_sim_peek hst hs
    simp only [lexer_block_comment]
    by_cases h0 : lexer_peek l1 = '\x00'
    · left
      rw [if_pos h0]
      exact Or.inr rfl
    · have h0' : ¬ lexer_peek l2 = '\x00' := by rw [← hp]; exact h0
      rw [if_neg h0, if_neg h0']
      by_cases hc : lexer_peek l1 = '*' ∧ l1.pos + 1 < l1.length ∧
          l1.source.getD (l1.pos + 1) '\x00' = '/'
      · obtain ⟨r1, hr1⟩ := (lexer_second_iff l1 '*' '/' (by decide)).mp hc
        obtain ⟨a', ha⟩ := start_two_stop '*' '/' (by decide) (by decide) a t1
          (same_stop_left hst) r1 (by rw [← hs.1, hr1])
        subst ha
        have hr2 : l2.rest = '*' :: '/' :: (a' ++ t2) := hs.2.1
        have hr1' : l1.rest = '*' :: '/' :: (a' ++ t1) := hs.1
        have hc' := (lexer_second_iff l2 '*' '/' (by decide)).mpr ⟨_, hr2⟩
        rw [if_pos hc, if_pos hc']
        right
        refine ⟨rfl, a', ?_⟩
        rw [lexer_advance_of_cons l1 _ _ hr1', lexer_advance_of_cons l2 _ _ hr2]
        dsimp only
        rw [lexer_advance_of_cons _ '/' _ (lexer_rest_read l1 ['*'] _ hr1'),
          lexer_advance_of_cons _ '/' _ (lexer_rest_read l2 ['*'] _ hr2)]
        exact lexer_sim_read ['/'] a' (lexer_sim_read ['*'] ('/' :: a') hs)
      · have hc' : ¬ (lexer_peek l2 = '*' ∧ l2.pos + 1 < l2.length ∧
            l2.source.getD (l2.pos + 1) '\x00' = '/') := by
          intro h
          obtain ⟨r2, hr2⟩ := (lexer_second_iff l2 '*' '/' (by decide)).mp h
          obtain ⟨a', ha⟩ := start_two_stop '*' '/' (by decide) (by decide) a t2
            (same_stop_right hst) r2 (by rw [← hs.2.1, hr2])
          subst ha
          exact hc ((lexer_second_iff l1 '*' '/' (by decide)).mpr ⟨_, hs.1⟩)
        rw [if_neg hc, if_neg hc']
        obtain ⟨_, hadv⟩ := lexer_sim_advance hst hs
        obtain ⟨p1, p2, p3⟩ := lexer_advance_pos l1 h0
        obtain ⟨q1, q2, q3⟩ := lexer_advance_pos l2 h0'
        rcases hadv with hb | ⟨a', hs'⟩
        · left
          exact lexer_bad_of_later (lexer_later_block_comment f1 _ (by rw [p1, p2]; omega)) hb
        · exact ih f2 a' _ _ hs' (by rw [p1, p2]; omega) (by rw [q1, q2]; omega)

/-- The loop over the body of a comment without `*/` reads the body and the
`*/` behind it. -/
theorem lexer_block_comment_read : ∀ (body : List Char) (lex : lexer_t) (r : List Char)
    (fuel : Nat), lex.rest = body ++ '*' :: '/' :: r → (∀ c ∈ body, c ≠ '\x00') →
    ¬ ['*', '/'] <:+: body → body.length < fuel →
    lexer_block_comment fuel lex = (lexer_read lex (body ++ ['*', '/']), true) := by
  intro body
  induction body with
  | nil =>
    intro lex r fuel h _ _ hf
    obtain ⟨fuel, rfl⟩ : ∃ f, fuel = f + 1 := ⟨fuel - 1, by omega⟩
    have h' : lex.rest = '*' :: '/' :: r := h
    have hc := (lexer_second_iff lex '*' '/' (by decide)).mpr ⟨_, h'⟩
    simp only [lexer_block_comment]
    rw [if_neg (by rw [hc.1]; decide), if_pos hc, lexer_advance_of_cons lex _ _ h']
    dsimp only
    rw [lexer_advance_of_cons _ '/' _ (lexer_rest_read lex ['*'] _ h'), lexer_read_append]
    rfl
  | cons c body ih =>
    intro lex r fuel h hnul hin hf
    obtain ⟨fuel, rfl⟩ : ∃ f, fuel = f + 1 := ⟨fuel - 1, by omega⟩
    have h' : lex.rest = c :: (body ++ '*' :: '/' :: r) := h
    have hc0 : c ≠ '\x00' := hnul c (List.mem_cons_self _ _)
    have hnc : ¬ (lexer_peek lex = '*' ∧ lex.pos + 1 < lex.length ∧
        lex.source.getD (lex.pos + 1) '\x00' = '/') := by
      intro hc
      obtain ⟨r', hr'⟩ := (lexer_second_iff lex '*' '/' (by decide)).mp hc
      rw [h'] at hr'
      match body, hr', hin with
      | [], hr', _ => simp at hr'
      | d :: body', hr', hin =>
        simp only [List.cons_append, List.cons.injEq] at hr'
        apply hin
        rw [hr'.1, hr'.2.1]
        exact ⟨[], body', rfl⟩
    simp only [lexer_block_comment]
    rw [if_neg (by rw [lexer_peek_of_cons lex c _ h']; exact hc0), if_neg hnc,
      lexer_advance_of_cons lex c _ h']
    dsimp only
    rw [ih (lexer_read lex [c]) r fuel (lexer_rest_read lex [c] _ h')
      (fun x hx => hnul x (List.mem_cons_of_mem _ hx))
      (fun hx => hin (hx.trans (List.infix_cons (List.infix_refl body))))
      (by simpa using hf), lexer_read_append]
    rfl

theorem lexer_unicode_digits_some_length : ∀ (i : Nat) (lex : lexer_t) (cp : Nat),
    (lexer_unicode_digits i lex cp).2 ≠ none → i ≤ lex.rest.length := by
  intro i
  induction i with
  | zero => intros; omega
  | succ i ih =>
    intro lex cp h
    cases hr : lex.rest with
    | nil =>
      exfalso
      apply h
      simp only [lexer_unicode_digits, lexer_advance_of_nil lex hr]
      rfl
    | cons c r =>
      simp only [lexer_unicode_digits, lexer_advance_of_cons lex c r hr] at h
      have key : i ≤ (lexer_read lex [c]).rest.length := by
        split at h <;> (try split at h) <;> first | exact absurd rfl h | exact ih _ _ h
      rw [lexer_rest_read lex [c] r hr] at key
      simp only [List.length_cons]
      omega

/-- The loop over the digits of a `\u` escape in two lexers that have the same
text to read. -/
theorem lexer_sim_unicode_digits {t1 t2 : List Char} (hst : same_stop t1 t2) :
    ∀ (i : Nat) (a : List Char) (l1 l2 : lexer_t) (cp : Nat), lexer_sim a t1 t2 l1 l2 →
      lexer_bad t1 (lexer_unicode_digits i l1 cp).1 ∨
        ((lexer_unicode_digits i l1 cp).2 = (lexer_unicode_digits i l2 cp).2 ∧
          ∃ a', lexer_sim a' t1 t2 (lexer_unicode_digits i l1 cp).1
            (lexer_unicode_digits i l2 cp).1) := by
  intro i
  induction i with
  | zero => intro a l1 l2 cp hs; exact Or.inr ⟨rfl, a, hs⟩
  | succ i ih =>
    intro a l1 l2 cp hs
    obtain ⟨hc, hadv⟩ := lexer_sim_advance hst hs
    simp only [lexer_unicode_digits]
    rw [← hc]
    by_cases hx : (!isxdigit (lexer_advance l1).1) = true
    · left
      rw [if_pos hx]
      exact Or.inr rfl
    · rw [if_neg hx, if_neg hx]
      rcases hadv with hb | ⟨a', hs'⟩
      · left
        exact lexer_bad_of_later (lexer_later_unicode_digits _ _ _) hb
      · exact ih a' _ _ _ hs'

theorem lexer_later_ERROR (x : lexer_t) : lexer_later x (LEXER_ERROR x) :=
  ⟨le_refl _, fun _ => rfl⟩

/-- The states that a round of the loop over a string body goes through come
before the state the loop ends in. -/
theorem lexer_string_body_later (q : Char) (f : Nat) (lex : lexer_t) (buf : List Char)
    (hc : lexer_peek lex ≠ q ∧ lexer_peek lex ≠ '\x00')
    (res : lexer_t × Option (List Char)) (h : lexer_string_body q (f + 1) lex buf = res) :
    lexer_later (lexer_advance lex).2 res.1 ∧
      ((lexer_advance lex).1 = '\\' →
        lexer_later (lexer_advance (lexer_advance lex).2).2 res.1 ∧
          ((lexer_advance (lexer_advance lex).2).1 = 'u' →
            ¬ (lexer_advance (lexer_advance lex).2).2.pos + 4 >
              (lexer_advance (lexer_advance lex).2).2.length →
            lexer_later (lexer_unicode_digits 4 (lexer_advance (lexer_advance lex).2).2 0).1
              res.1)) := by
  have l2 := lexer_later_advance (lexer_advance lex).2
  simp only [lexer_string_body] at h
  rw [if_pos hc] at h
  by_cases hb : (lexer_advance lex).1 = '\\'
  · rw [if_pos hb] at h
    by_cases hu : (lexer_advance (lexer_advance lex).2).1 = 'u'
    · rw [if_pos hu] at h
      by_cases hl : (lexer_advance (lexer_advance lex).2).2.pos + 4 >
          (lexer_advance (lexer_advance lex).2).2.length
      · rw [if_pos hl] at h
        subst h
        exact ⟨lexer_later_trans l2 (lexer_later_ERROR _),
          fun _ => ⟨lexer_later_ERROR _, fun _ hn => absurd hl hn⟩⟩
      · rw [if_neg hl] at h
        have l3 := lexer_later_unicode_digits 4 (lexer_advance (lexer_advance lex).2).2 0
        rcases hu1 : lexer_unicode_digits 4 (lexer_advance (lexer_advance lex).2).2 0 with
          ⟨x, o⟩
        rw [hu1] at h l3
        cases o with
        | none =>
          dsimp only at h l3
          subst h
          exact ⟨lexer_later_trans l2 l3, fun _ => ⟨l3, fun _ _ => lexer_later_refl _⟩⟩
        | some cp =>
          dsimp only at h l3
          subst h
          have l4 := lexer_later_string_body q f x (buf ++ (utf8_bytes cp).map Char.ofNat)
          exact ⟨lexer_later_trans (lexer_later_trans l2 l3) l4,
            fun _ => ⟨lexer_later_trans l3 l4, fun _ _ => l4⟩⟩
    · rw [if_neg hu] at h
      cases he : escape_value (lexer_advance (lexer_advance lex).2).1 with
      | none =>
        rw [he] at h
        dsimp only at h
        subst h
        exact ⟨lexer_later_trans l2 (lexer_later_error _ _),
          fun _ => ⟨lexer_later_error _ _, fun hu' => absurd hu' hu⟩⟩
      | some ch =>
        rw [he] at h
        dsimp only at h
        subst h
        exact ⟨lexer_later_trans l2 (lexer_later_string_body _ _ _ _),
          fun _ => ⟨lexer_later_string_body _ _ _ _, fun hu' => absurd hu' hu⟩⟩
  · rw [if_neg hb] at h
    subst h
    exact ⟨lexer_later_string_body _ _ _ _, fun hb' => absurd hb' hb⟩

theorem lexer_advance_rest_length (lex : lexer_t) (f : Nat) (h : lexer_peek lex ≠ '\x00')
    (hf : lex.rest.length ≤ f + 1) : (lexer_advance lex).2.rest.length ≤ f := by
  obtain ⟨p1, p2, p3⟩ := lexer_advance_pos lex h
  rw [lexer_rest_length] at hf ⊢
  rw [p1, p2]
  omega

/-- The loop over the body of a string literal in two lexers that have the
same text to read. -/
theorem lexer_sim_string_body (q : Char) {t1 t2 : List Char} (hst : same_stop t1 t2) :
    ∀ (f1 f2 : Nat) (a : List Char) (l1 l2 : lexer_t) (buf : List Char),
      lexer_sim a t1 t2 l1 l2 → l1.rest.length ≤ f1 → l2.rest.length ≤ f2 →
      lexer_bad t1 (lexer_string_body q f1 l1 buf).1 ∨
        ((lexer_string_body q f1 l1 buf).2 = (lexer_string_body q f2 l2 buf).2 ∧
          ∃ a', lexer_sim a' t1 t2 (lexer_string_body q f1 l1 buf).1
            (lexer_string_body q f2 l2 buf).1) := by
  intro f1
  induction f1 with
  | zero =>
    intro f2 a l1 l2 buf hs hf1 _
    have e1 : l1.rest = [] := List.length_eq_zero.mp (Nat.le_zero.mp hf1)
    have e2 : l2.rest = [] := (lexer_sim_nil hst hs).mp e1
    rw [lexer_string_body_stop q 0 l1 buf (Or.inr (by rw [e1]; rfl)),
      lexer_string_body_stop q f2 l2 buf (Or.inr (by rw [e2]; rfl))]
    exact Or.inr ⟨rfl, a, hs⟩
  | succ f1 ih =>
    intro f2 a l1 l2 buf hs hf1 hf2
    have hp := lexer_sim_peek hst hs
    by_cases hc : lexer_peek l1 ≠ q ∧ lexer_peek l1 ≠ '\x00'
    · have hc' : lexer_peek l2 ≠ q ∧ lexer_peek l2 ≠ '\x00' := by rw [← hp]; exact hc
      obtain ⟨f2, rfl⟩ : ∃ f, f2 = f + 1 := by
        refine ⟨f2 - 1, ?_⟩
        have hne : l2.rest ≠ [] := fun hn => hc'.2 (lexer_peek_of_nil l2 hn)
        have := List.length_pos.mpr hne
        omega
      by_cases hbad : lexer_bad t1 (lexer_string_body q (f1 + 1) l1 buf).1
      · exact Or.inl hbad
      right
      have g1 := lexer_advance_rest_length l1 f1 hc.2 hf1
      have g2 := lexer_advance_rest_length l2 f2 hc'.2 hf2
      generalize h1 : lexer_string_body q (f1 + 1) l1 buf = res1 at hbad ⊢
      generalize h2 : lexer_string_body q (f2 + 1) l2 buf = res2
      obtain ⟨k1, k2⟩ := lexer_string_body_later q f1 l1 buf hc res1 h1
      simp only [lexer_string_body] at h1 h2
      rw [if_pos hc] at h1
      rw [if_pos hc'] at h2
      obtain ⟨hch, hadv⟩ := lexer_sim_advance hst hs
      obtain ⟨a1, hs1⟩ : ∃ a1, lexer_sim a1 t1 t2 (lexer_advance l1).2 (lexer_advance l2).2 := by
        rcases hadv with hb | h
        · exact absurd (lexer_bad_of_later k1 hb) hbad
        · exact h
      rw [← hch] at h2
      by_cases hb : (lexer_advance l1).1 = '\\'
      · rw [if_pos hb] at h1 h2
        obtain ⟨k3, k4⟩ := k2 hb
        obtain ⟨hch2, hadv2⟩ := lexer_sim_advance hst hs1
        obtain ⟨a2, hs2⟩ : ∃ a2, lexer_sim a2 t1 t2 (lexer_advance (lexer_advance l1).2).2
            (lexer_advance (lexer_advance l2).2).2 := by
          rcases hadv2 with hb | h
          · exact absurd (lexer_bad_of_later k3 hb) hbad
          · exact h
        have g3 := le_trans (lexer_later_advance (lexer_advance l1).2).1 g1
        have g4 := le_trans (lexer_later_advance (lexer_advance l2).2).1 g2
        rw [← hch2] at h2
        by_cases hu : (lexer_advance (lexer_advance l1).2).1 = 'u'
        · rw [if_pos hu] at h1 h2
          by_cases hl : (lexer_advance (lexer_advance l1).2).2.pos + 4 >
              (lexer_advance (lexer_advance l1).2).2.length
          · rw [if_pos hl] at h1
            subst h1
            exact absurd (Or.inr rfl) hbad
          · rw [if_neg hl] at h1
            have k5 := k4 hu hl
            have hsim := lexer_sim_unicode_digits hst 4 a2 _ _ 0 hs2
            obtain ⟨_, _, hnone⟩ := lexer_reads_unicode_digits 4
              (lexer_advance (lexer_advance l1).2).2 0
            have hlen2 := lexer_unicode_digits_some_length 4
              (lexer_advance (lexer_advance l2).2).2 0
            have g5 := (lexer_later_unicode_digits 4 (lexer_advance (lexer_advance l1).2).2 0).1
            have g6 := (lexer_later_unicode_digits 4 (lexer_advance (lexer_advance l2).2).2 0).1
            rcases hu1 : lexer_unicode_digits 4 (lexer_advance (lexer_advance l1).2).2 0 with
              ⟨x1, o1⟩
            rcases hu2 : lexer_unicode_digits 4 (lexer_advance (lexer_advance l2).2).2 0 with
              ⟨x2, o2⟩
            rw [hu1] at h1 k5 hsim hnone g5
            rw [hu2] at h2 hsim hlen2 g6
            dsimp only at h1 h2 k5 hsim hnone hlen2 g5 g6
            rcases hsim with hb5 | ⟨ho, a3, hs3⟩
            · exact absurd (lexer_bad_of_later k5 hb5) hbad
            · subst ho
              cases o1 with
              | none => exact absurd (lexer_bad_of_later k5 (Or.inr (hnone rfl))) hbad
              | some cp =>
                have h4 := hlen2 (by simp)
                have hl' : ¬ ((lexer_advance (lexer_advance l2).2).2.pos + 4 >
                    (lexer_advance (lexer_advance l2).2).2.length) := by
                  rw [lexer_rest_length] at h4
                  omega
                rw [if_neg hl'] at h2
                dsimp only at h1 h2
                subst h1
                subst h2
                exact (ih f2 a3 x1 x2 _ hs3 (le_trans g5 g3) (le_trans g6 g4)).resolve_left hbad
        · rw [if_neg hu] at h1 h2
          cases he : escape_value (lexer_advance (lexer_advance l1).2).1 with
          | none =>
            rw [he] at h1
            dsimp only at h1
            subst h1
            exact absurd (Or.inr rfl) hbad
          | some ch =>
            rw [he] at h1 h2
            dsimp only at h1 h2
            subst h1
            subst h2
            exact (ih f2 a2 _ _ _ hs2 g3 g4).resolve_left hbad
      · rw [if_neg hb] at h1 h2
        subst h1
        subst h2
        exact (ih f2 a1 _ _ _ hs1 g1 g2).resolve_left hbad
    · have hstop : l1.rest.headD '\x00' = q ∨ l1.rest.headD '\x00' = '\x00' := by
        rw [lexer_peek_eq] at hc
        by_cases hq : l1.rest.headD '\x00' = q
        · exact Or.inl hq
        · by_cases hz : l1.rest.headD '\x00' = '\x00'
          · exact Or.inr hz
          · exact absurd ⟨hq, hz⟩ hc
      have hstop' : l2.rest.headD '\x00' = q ∨ l2.rest.headD '\x00' = '\x00' := by
        rw [lexer_peek_eq, lexer_peek_eq] at hp
        rw [← hp]
        exact hstop
      rw [lexer_string_body_stop q _ l1 buf hstop, lexer_string_body_stop q f2 l2 buf hstop']
      exact Or.inr ⟨rfl, a, hs⟩

/-! ## The lexer: tokens and rounds in two lexers that have the same text to read -/

theorem in_identifier_space (w : Char) (hw : isspace w = true) : in_identifier w = false := by
  cases h : in_identifier w with
  | false => rfl
  | true =>
    exfalso
    simp only [in_identifier, isalnum, Bool.or_eq_true, decide_eq_true_eq] at h
    have := isspace_of_start w (by tauto)
    rw [this.1] at hw
    cases hw

theorem in_number_space (w : Char) (hw : isspace w = true) : in_number w = false := by
  cases h : in_number w with
  | false => rfl
  | true =>
    exfalso
    simp only [in_number, Bool.or_eq_true, decide_eq_true_eq] at h
    have := isspace_of_start w (by tauto)
    rw [this.1] at hw
    cases hw

theorem headD_stop_ne (x : Char) (hx : isspace x = false) (hx0 : x ≠ '\x00') (a t : List Char)
    (ht : t = [] ∨ ∃ w r, isspace w = true ∧ t = w :: r) (ha : ¬ ∃ a', a = x :: a') :
    (a ++ t).headD '\x00' ≠ x := by
  cases a with
  | nil =>
    rcases ht with rfl | ⟨w, r, hw, rfl⟩
    · exact fun h => hx0 h.symm
    · intro h
      simp only [List.nil_append, List.headD_cons] at h
      rw [h, hx] at hw
      cases hw
  | cons c a =>
    intro h
    simp only [List.cons_append, List.headD_cons] at h
    exact ha ⟨a, by rw [h]⟩

/-- A round from the start of a token in two lexers that have the same text
to read: the first has read into the text behind the stop or has flagged an
error, or both have made the same token and have the same text left. -/
theorem lexer_sim_token {a t1 t2 : List Char} {l1 l2 : lexer_t} (hst : same_stop t1 t2)
    (hs : lexer_sim a t1 t2 l1 l2) :
    lexer_bad t1 (lexer_token l1).1 ∨
      ((lexer_token l1).2 = (lexer_token l2).2 ∧
        ∃ a', lexer_sim a' t1 t2 (lexer_token l1).1 (lexer_token l2).1) := by
  cases a with
  | nil =>
    rcases hst with ⟨rfl, rfl⟩ | ⟨w, r1, r2, hw, rfl, rfl⟩
    · have h1 : l1.rest = [] := hs.1
      have h2 : l2.rest = [] := hs.2.1
      rw [lexer_token_eof_nil l1 h1, lexer_token_eof_nil l2 h2]
      exact Or.inr ⟨rfl, [], lexer_sim_append hs _ _ rfl⟩
    · left
      have h1 : l1.rest = w :: r1 := hs.1
      obtain ⟨cs, hrd, hcase⟩ := lexer_token_spec l1
      have e : l1.rest = cs ++ (lexer_token l1).1.rest := hrd.1
      rcases hcase with ⟨_, _, herr⟩ | ⟨_, t, _, _, _, hcs, hnil⟩ | ⟨_, hne, _⟩
      · exact Or.inr herr
      · cases he : (lexer_token l1).1.had_error with
        | true => exact Or.inr he
        | false =>
          exfalso
          rcases hcs he with rfl | rfl
          · rw [hnil rfl] at h1
            cases h1
          · rw [h1] at e
            simp only [List.cons_append, List.nil_append, List.cons.injEq] at e
            rw [e.1] at hw
            revert hw
            decide
      · left
        have hl := congrArg List.length e
        rw [h1] at hl
        simp only [List.length_cons, List.length_append] at hl
        have := List.length_pos.mpr hne
        show (lexer_token l1).1.rest.length < (w :: r1).length
        simp only [List.length_cons]
        omega
  | cons c a =>
    have h1 : l1.rest = c :: (a ++ t1) := hs.1
    have h2 : l2.rest = c :: (a ++ t2) := hs.2.1
    have hs' := lexer_sim_read [c] a hs
    by_cases c1 : c.toNat > 127
    · rw [lexer_token_eof_char l1 c _ h1 (Or.inl c1), lexer_token_eof_char l2 c _ h2 (Or.inl c1)]
      exact Or.inr ⟨rfl, a, lexer_sim_append hs' _ _ rfl⟩
    by_cases c2 : c = '\x00'
    · rw [lexer_token_eof_char l1 c _ h1 (Or.inr c2), lexer_token_eof_char l2 c _ h2 (Or.inr c2)]
      exact Or.inr ⟨rfl, a, lexer_sim_append hs' _ _ rfl⟩
    by_cases hq : c = '"' ∨ c = '\''
    · -- a string literal
      rw [lexer_token_string l1 c _ h1 hq, lexer_token_string l2 c _ h2 hq]
      have hsb := lexer_sim_string_body c hst
        ((lexer_read l1 [c]).length - (lexer_read l1 [c]).pos)
        ((lexer_read l2 [c]).length - (lexer_read l2 [c]).pos) a _ _ [] hs'
        (by rw [lexer_rest_length]) (by rw [lexer_rest_length])
      rcases hb1 : lexer_string_body c ((lexer_read l1 [c]).length - (lexer_read l1 [c]).pos)
        (lexer_read l1 [c]) [] with ⟨x1, o1⟩
      rcases hb2 : lexer_string_body c ((lexer_read l2 [c]).length - (lexer_read l2 [c]).pos)
        (lexer_read l2 [c]) [] with ⟨x2, o2⟩
      rw [hb1, hb2] at hsb
      dsimp only at hsb
      rcases hsb with hb | ⟨ho, a', hs''⟩
      · left
        cases o1 with
        | none => exact hb
        | some buf =>
          dsimp only
          split
          · exact lexer_bad_of_later (lexer_later_error _ _) hb
          · exact lexer_bad_of_later
              (lexer_later_trans (lexer_later_advance x1) (lexer_later_append _ _)) hb
      · subst ho
        cases o1 with
        | none => exact Or.inr ⟨rfl, a', hs''⟩
        | some buf =>
          dsimp only
          have hp := lexer_sim_peek hst hs''
          rw [← hp]
          by_cases hpq : lexer_peek x1 ≠ c
          · left
            rw [if_pos hpq]
            exact Or.inr rfl
          · rw [if_neg hpq, if_neg hpq]
            obtain ⟨_, hadv⟩ := lexer_sim_advance hst hs''
            rcases hadv with hb | ⟨a'', hs3⟩
            · left
              exact lexer_bad_of_later (lexer_later_append _ _) hb
            · exact Or.inr ⟨rfl, a'', lexer_sim_append hs3 _ _ rfl⟩
    by_cases h5 : isdigit c = true
    · -- a number
      obtain ⟨ds, a', e, hds, s1, s2⟩ :=
        split_same_stop in_number (by decide) in_number_space hst a
      subst e
      by_cases hdot : ∃ a'', a' = '.' :: a''
      · obtain ⟨a'', rfl⟩ := hdot
        obtain ⟨fs, a3, e3, hfs, s3, s4⟩ :=
          split_same_stop in_number (by decide) in_number_space hst a''
        subst e3
        rw [lexer_token_number_frac l1 c ds fs (a3 ++ t1) (by rw [h1]; simp) h5 hds hfs s3,
          lexer_token_number_frac l2 c ds fs (a3 ++ t2) (by rw [h2]; simp) h5 hds hfs s4]
        have hs3 : lexer_sim a3 t1 t2 (lexer_read l1 (c :: ds ++ '.' :: fs))
            (lexer_read l2 (c :: ds ++ '.' :: fs)) :=
          lexer_sim_read (c :: ds ++ '.' :: fs) a3 (by simpa using hs)
        exact Or.inr ⟨rfl, a3, lexer_sim_append hs3 _ _ rfl⟩
      · have d1 := headD_stop_ne '.' (by decide) (by decide) a' t1 (same_stop_left hst) hdot
        have d2 := headD_stop_ne '.' (by decide) (by decide) a' t2 (same_stop_right hst) hdot
        rw [lexer_token_number_int l1 c ds (a' ++ t1) (by rw [h1]; simp) h5 hds s1 d1,
          lexer_token_number_int l2 c ds (a' ++ t2) (by rw [h2]; simp) h5 hds s2 d2]
        exact Or.inr ⟨rfl, a', lexer_sim_append (lexer_sim_read (c :: ds) a' hs) _ _ rfl⟩
    by_cases h6 : isalpha c = true ∨ c = '_' ∨ c = '$'
    · -- an identifier or keyword
      obtain ⟨ds, a', e, hds, s1, s2⟩ :=
        split_same_stop in_identifier (by decide) in_identifier_space hst a
      subst e
      rw [lexer_token_identifier l1 c ds (a' ++ t1) (by rw [h1]; simp) h6 hds s1,
        lexer_token_identifier l2 c ds (a' ++ t2) (by rw [h2]; simp) h6 hds s2]
      exact Or.inr ⟨rfl, a', lexer_sim_append (lexer_sim_read (c :: ds) a' hs) _ _ rfl⟩
    -- an operator
    simp only [not_or, Bool.not_eq_true] at hq h5 h6
    rw [lexer_token_other l1 c _ h1 c1 c2 hq.1 hq.2 h5 h6.1 h6.2.1 h6.2.2,
      lexer_token_other l2 c _ h2 c1 c2 hq.1 hq.2 h5 h6.1 h6.2.1 h6.2.2]
    have hsim := lexer_operator_sim c hst hs' _ _ rfl rfl
    rcases ho1 : lexer_operator (lexer_read l1 [c]) c with ⟨x1, o1⟩
    rcases ho2 : lexer_operator (lexer_read l2 [c]) c with ⟨x2, o2⟩
    rw [ho1, ho2] at hsim
    obtain ⟨ho, a', hs''⟩ := hsim
    dsimp only at ho hs''
    subst ho
    cases o1 with
    | none =>
      left
      exact Or.inr rfl
    | some v =>
      obtain ⟨ty, text, n⟩ := v
      exact Or.inr ⟨rfl, a', lexer_sim_append hs'' _ _ rfl⟩

/-- A round of the loop goes on from behind white space at its start. -/
theorem lexer_step_skip (lex : lexer_t) (ws r : List Char) (h : lex.rest = ws ++ r)
    (hws : ∀ c ∈ ws, isspace c = true) : lexer_step lex = lexer_step (lexer_read lex ws) := by
  have hw1 := lexer_advance_while_eq isspace (by decide) lex (lex.length - lex.pos) (le_refl _)
  have hw2 := lexer_advance_while_eq isspace (by decide) (lexer_read lex ws)
    ((lexer_read lex ws).length - (lexer_read lex ws).pos) (le_refl _)
  have e : lexer_read (lexer_read lex ws) ((lexer_read lex ws).rest.takeWhile isspace) =
      lexer_read lex (lex.rest.takeWhile isspace) := by
    rw [lexer_read_append, lexer_rest_read lex ws r h, h, List.takeWhile_append_of_pos hws]
  unfold lexer_step
  simp only [hw1, hw2, e]

theorem lexer_step_skip_while (lex : lexer_t) :
    lexer_step lex = lexer_step (lexer_advance_while isspace (lex.length - lex.pos) lex) := by
  rw [lexer_advance_while_eq isspace (by decide) lex _ (le_refl _)]
  exact lexer_step_skip lex _ _ (List.takeWhile_append_dropWhile isspace lex.rest).symm
    (fun c hc => List.mem_takeWhile_imp hc)

theorem lexer_advance_while_head (p : Char → Bool) (h0 : p '\x00' = false) (lex : lexer_t) :
    p ((lexer_advance_while p (lex.length - lex.pos) lex).rest.headD '\x00') = false := by
  rw [lexer_advance_while_eq p h0 lex _ (le_refl _),
    lexer_rest_read lex _ (lex.rest.dropWhile p)
      (List.takeWhile_append_dropWhile p lex.rest).symm]
  exact headD_dropWhile p lex.rest h0

/-- A round at a `//` comment. -/
theorem lexer_step_line (lex : lexer_t) (r : List Char) (h : lex.rest = '/' :: '/' :: r) :
    lexer_step lex =
      (lexer_advance_while in_line_comment
        ((lexer_read lex ['/', '/']).length - (lexer_read lex ['/', '/']).pos)
        (lexer_read lex ['/', '/']), true) := by
  have hw := lexer_advance_while_read isspace [] lex.rest lex (lex.length - lex.pos) rfl
    (by simp) (by rw [h]; simp only [List.headD_cons]; decide) (by simp)
  rw [lexer_read_nil] at hw
  obtain ⟨g1, g2⟩ := lexer_rest_second lex '/' '/' r h
  have ha : (lexer_advance (lexer_advance lex).2).2 = lexer_read lex ['/', '/'] := by
    rw [lexer_advance_of_cons lex _ _ h]
    dsimp only
    rw [lexer_advance_of_cons _ '/' _ (lexer_rest_read lex ['/'] _ h), lexer_read_append]
    rfl
  unfold lexer_step
  simp only [hw]
  rw [if_pos ⟨lexer_peek_of_cons lex _ _ h, g1⟩]
  simp only [g2, if_true, ha]

/-- A round at a `/* */` comment. -/
theorem lexer_step_block (lex : lexer_t) (r : List Char) (h : lex.rest = '/' :: '*' :: r) :
    lexer_step lex =
      lexer_block_comment
        ((lexer_read lex ['/', '*']).length - (lexer_read lex ['/', '*']).pos + 1)
        (lexer_read lex ['/', '*']) := by
  have hw := lexer_advance_while_read isspace [] lex.rest lex (lex.length - lex.pos) rfl
    (by simp) (by rw [h]; simp only [List.headD_cons]; decide) (by simp)
  rw [lexer_read_nil] at hw
  obtain ⟨g1, g2⟩ := lexer_rest_second lex '/' '*' r h
  have ha : (lexer_advance (lexer_advance lex).2).2 = lexer_read lex ['/', '*'] := by
    rw [lexer_advance_of_cons lex _ _ h]
    dsimp only
    rw [lexer_advance_of_cons _ '*' _ (lexer_rest_read lex ['/'] _ h), lexer_read_append]
    rfl
  unfold lexer_step
  simp only [hw]
  rw [if_pos ⟨lexer_peek_of_cons lex _ _ h, g1⟩]
  simp only [g2, if_true, ha, show ¬ ('*' = '/') by decide, if_false]

theorem opens_comment_iff (r : List Char) :
    opens_comment r = true ↔ ∃ y t, (y = '/' ∨ y = '*') ∧ r = '/' :: y :: t := by
  match r with
  | [] => simp [opens_comment]
  | [a] => simp [opens_comment]
  | a :: b :: t =>
    simp only [opens_comment, Bool.and_eq_true, Bool.or_eq_true, decide_eq_true_eq,
      List.cons.injEq]
    constructor
    · rintro ⟨rfl, hb⟩
      exact ⟨b, t, hb, rfl, rfl, rfl⟩
    · rintro ⟨y, t', hy, rfl, rfl, _⟩
      exact ⟨rfl, hy⟩

theorem opens_comment_stop (a t : List Char)
    (ht : t = [] ∨ ∃ w r, isspace w = true ∧ t = w :: r)
    (ho : ¬ ∃ y a', (y = '/' ∨ y = '*') ∧ a = '/' :: y :: a') :
    opens_comment (a ++ t) = false := by
  cases h : opens_comment (a ++ t) with
  | false => rfl
  | true =>
    obtain ⟨y, r, hy, hr⟩ := (opens_comment_iff _).mp h
    have hy' : isspace y = false := by rcases hy with rfl | rfl <;> decide
    obtain ⟨a', ha⟩ := start_two_stop '/' y (by decide) hy' a t ht r hr
    exact absurd ⟨y, a', hy, ha⟩ ho

/-- A round of the loop from behind white space, in two lexers that have the
same text to read. -/
theorem lexer_sim_step_start {a t1 t2 : List Char} {s1 s2 : lexer_t} (hst : same_stop t1 t2)
    (hs : lexer_sim a t1 t2 s1 s2) (n1 : isspace (s1.rest.headD '\x00') = false)
    (n2 : isspace (s2.rest.headD '\x00') = false) :
    lexer_bad t1 (lexer_step s1).1 ∨
      ((lexer_step s1).2 = (lexer_step s2).2 ∧
        ∃ a', lexer_sim a' t1 t2 (lexer_step s1).1 (lexer_step s2).1) := by
  by_cases ho : ∃ y a', (y = '/' ∨ y = '*') ∧ a = '/' :: y :: a'
  · obtain ⟨y, a', hy, rfl⟩ := ho
    have h1 : s1.rest = '/' :: y :: (a' ++ t1) := hs.1
    have h2 : s2.rest = '/' :: y :: (a' ++ t2) := hs.2.1
    have hs' : lexer_sim a' t1 t2 (lexer_read s1 ['/', y]) (lexer_read s2 ['/', y]) :=
      lexer_sim_read ['/', y] a' hs
    rcases hy with rfl | rfl
    · rw [lexer_step_line s1 _ h1, lexer_step_line s2 _ h2]
      rcases lexer_sim_advance_while in_line_comment (by decide) hst hs' _ _ (le_refl _)
        (le_refl _) with hb | h
      · exact Or.inl hb
      · exact Or.inr ⟨rfl, h⟩
    · rw [lexer_step_block s1 _ h1, lexer_step_block s2 _ h2]
      exact lexer_sim_block_comment hst _ _ a' _ _ hs' (by omega) (by omega)
  · have o1 : opens_comment s1.rest = false := by
      rw [hs.1]
      exact opens_comment_stop a t1 (same_stop_left hst) ho
    have o2 : opens_comment s2.rest = false := by
      rw [hs.2.1]
      exact opens_comment_stop a t2 (same_stop_right hst) ho
    have e1 := lexer_step_of_token s1 [] s1.rest rfl (by simp) n1 o1
    have e2 := lexer_step_of_token s2 [] s2.rest rfl (by simp) n2 o2
    rw [lexer_read_nil] at e1 e2
    rw [e1, e2]
    exact lexer_sim_token hst hs

/-- A round of the loop in two lexers that have the same text to read. -/
theorem lexer_sim_step {a t1 t2 : List Char} {l1 l2 : lexer_t} (hst : same_stop t1 t2)
    (hs : lexer_sim a t1 t2 l1 l2) :
    lexer_bad t1 (lexer_step l1).1 ∨
      ((lexer_step l1).2 = (lexer_step l2).2 ∧
        ∃ a', lexer_sim a' t1 t2 (lexer_step l1).1 (lexer_step l2).1) := by
  rw [lexer_step_skip_while l1, lexer_step_skip_while l2]
  rcases lexer_sim_advance_while isspace (by decide) hst hs _ _ (le_refl _) (le_refl _) with
    hb | ⟨a', hs'⟩
  · left
    exact lexer_bad_of_later (lexer_later_step _) hb
  · exact lexer_sim_step_start hst hs' (lexer_advance_while_head isspace (by decide) l1)
      (lexer_advance_while_head isspace (by decide) l2)

/-! ## The lexer: runs in two lexers that have the same text to read -/

theorem lexer_later_rounds : ∀ (k : Nat) (l m : lexer_t), lexer_rounds k l = some m →
    lexer_later l m := by
  intro k
  induction k with
  | zero =>
    intro l m h
    simp only [lexer_rounds, Option.some.injEq] at h
    subst h
    exact lexer_later_refl _
  | succ k ih =>
    intro l m h
    have hl := lexer_later_step l
    simp only [lexer_rounds] at h
    rcases hstep : lexer_step l with ⟨y, c⟩
    rw [hstep] at h hl
    cases c with
    | false => cases h
    | true => exact lexer_later_trans hl (ih y m h)

theorem lexer_later_tokenize_loop : ∀ (f : Nat) (l x : lexer_t),
    lexer_tokenize_loop f l = some x → lexer_later l x := by
  intro f
  induction f with
  | zero => intro l x h; cases h
  | succ f ih =>
    intro l x h
    have hl := lexer_later_step l
    simp only [lexer_tokenize_loop] at h
    rcases hstep : lexer_step l with ⟨y, c⟩
    rw [hstep] at h hl
    cases c with
    | false =>
      simp only [Option.some.injEq] at h
      subst h
      exact hl
    | true => exact lexer_later_trans hl (ih y x h)

theorem lexer_rounds_source : ∀ (k : Nat) (l m : lexer_t), lexer_rounds k l = some m →
    m.source = l.source := by
  intro k
  induction k with
  | zero =>
    intro l m h
    simp only [lexer_rounds, Option.some.injEq] at h
    subst h
    rfl
  | succ k ih =>
    intro l m h
    have hl := step_round_source (lexer_step_spec l)
    simp only [lexer_rounds] at h
    rcases hstep : lexer_step l with ⟨y, c⟩
    rw [hstep] at h hl
    cases c with
    | false => cases h
    | true => exact (ih y m h).trans hl

/-- The rounds of the first lexer up to a state that has not read into the
text behind the stop and has no error are rounds of the second as well. -/
theorem lexer_sim_rounds {t1 t2 : List Char} (hst : same_stop t1 t2) :
    ∀ (k : Nat) (a : List Char) (l1 l2 m1 : lexer_t), lexer_sim a t1 t2 l1 l2 →
      lexer_rounds k l1 = some m1 → ¬ lexer_bad t1 m1 →
      ∃ m2 a', lexer_rounds k l2 = some m2 ∧ lexer_sim a' t1 t2 m1 m2 := by
  intro k
  induction k with
  | zero =>
    intro a l1 l2 m1 hs h _
    simp only [lexer_rounds, Option.some.injEq] at h
    subst h
    exact ⟨l2, a, rfl, hs⟩
  | succ k ih =>
    intro a l1 l2 m1 hs h hnb
    have hsim := lexer_sim_step hst hs
    simp only [lexer_rounds] at h ⊢
    rcases hstep1 : lexer_step l1 with ⟨y1, c1⟩
    rcases hstep2 : lexer_step l2 with ⟨y2, c2⟩
    rw [hstep1] at h hsim
    rw [hstep2] at hsim
    dsimp only at hsim
    cases c1 with
    | false => cases h
    | true =>
      dsimp only at h
      rcases hsim with hb | ⟨hc, a', hs'⟩
      · exact absurd (lexer_bad_of_later (lexer_later_rounds k y1 m1 h) hb) hnb
      · subst hc
        exact ih a' y1 y2 m1 hs' h hnb

theorem lexer_tokenize_loop_rounds : ∀ (k f : Nat) (l m x : lexer_t),
    lexer_rounds k l = some m → lexer_tokenize_loop f l = some x →
    ∃ f', lexer_tokenize_loop f' m = some x := by
  intro k
  induction k with
  | zero =>
    intro f l m x h hx
    simp only [lexer_rounds, Option.some.injEq] at h
    subst h
    exact ⟨f, hx⟩
  | succ k ih =>
    intro f l m x h hx
    cases f with
    | zero => cases hx
    | succ f =>
      simp only [lexer_rounds] at h
      simp only [lexer_tokenize_loop] at hx
      rcases hstep : lexer_step l with ⟨y, c⟩
      rw [hstep] at h hx
      cases c with
      | false => cases h
      | true => exact ih f y m x h hx

theorem lexer_rounds_tokenize_loop : ∀ (k f : Nat) (l m x : lexer_t),
    lexer_rounds k l = some m → lexer_tokenize_loop f m = some x →
    lexer_tokenize_loop (f + k) l = some x := by
  intro k
  induction k with
  | zero =>
    intro f l m x h hx
    simp only [lexer_rounds, Option.some.injEq] at h
    subst h
    exact hx
  | succ k ih =>
    intro f l m x h hx
    simp only [lexer_rounds] at h
    show lexer_tokenize_loop (f + k + 1) l = some x
    simp only [lexer_tokenize_loop]
    rcases hstep : lexer_step l with ⟨y, c⟩
    rw [hstep] at h
    cases c with
    | false => cases h
    | true => exact ih f y m x h hx

theorem lexer_tokenize_loop_unique : ∀ (f f' : Nat) (l x x' : lexer_t),
    lexer_tokenize_loop f l = some x → lexer_tokenize_loop f' l = some x' → x = x' := by
  intro f
  induction f with
  | zero => intro f' l x x' h; cases h
  | succ f ih =>
    intro f' l x x' h h'
    cases f' with
    | zero => cases h'
    | succ f' =>
      simp only [lexer_tokenize_loop] at h h'
      rcases hstep : lexer_step l with ⟨y, c⟩
      rw [hstep] at h h'
      cases c with
      | false =>
        simp only [Option.some.injEq] at h h'
        rw [← h, ← h']
      | true => exact ih f' y x x' h h'

/-- The run of the loop in two lexers that have the same text to read, to
its end: when the first ends without an error, the second ends without an
error and with tokens of the same types and texts. -/
theorem lexer_sim_tokenize_loop : ∀ (f1 f2 : Nat) (a : List Char) (l1 l2 x1 : lexer_t),
    lexer_sim a [] [] l1 l2 → lexer_tokenize_loop f1 l1 = some x1 → x1.had_error = false →
    l2.rest.length < f2 →
    ∃ x2, lexer_tokenize_loop f2 l2 = some x2 ∧ x2.had_error = false ∧
      x2.tokens.map token_t.type_text = x1.tokens.map token_t.type_text := by
  intro f1
  induction f1 with
  | zero => intro f2 a l1 l2 x1 _ h; cases h
  | succ f1 ih =>
    intro f2 a l1 l2 x1 hs h herr hf2
    obtain ⟨f2, rfl⟩ : ∃ f, f2 = f + 1 := ⟨f2 - 1, by omega⟩
    have hsim := lexer_sim_step same_stop_nil hs
    have hspec := lexer_step_spec l2
    simp only [lexer_tokenize_loop] at h ⊢
    rcases hstep1 : lexer_step l1 with ⟨y1, c1⟩
    rcases hstep2 : lexer_step l2 with ⟨y2, c2⟩
    rw [hstep1] at h hsim
    rw [hstep2] at hsim hspec
    dsimp only at hsim hspec
    have hy1 : y1.had_error = false := by
      cases c1 with
      | false =>
        simp only [Option.some.injEq] at h
        rw [h]
        exact herr
      | true =>
        have := (lexer_later_tokenize_loop f1 y1 x1 h).2
        cases he : y1.had_error with
        | false => rfl
        | true => rw [this he] at herr; cases herr
    rcases hsim with hb | ⟨hc, a', hs'⟩
    · rcases hb with hb | hb
      · simp at hb
      · rw [hy1] at hb
        cases hb
    · subst hc
      cases c1 with
      | false =>
        simp only [Option.some.injEq] at h
        subst h
        exact ⟨y2, rfl, by rw [← hs'.2.2.1]; exact herr, hs'.2.2.2.symm⟩
      | true =>
        have hp := step_round_progress hspec
        exact ih f2 a' y1 y2 x1 hs' h herr (by omega)

theorem takeWhile_append_of_stop (p : Char → Bool) (x y : List Char)
    (h : ∃ c ∈ x, p c = false) : List.takeWhile p (x ++ y) = List.takeWhile p x := by
  induction x with
  | nil =>
    obtain ⟨c, hc, _⟩ := h
    cases hc
  | cons c x ih =>
    cases hc : p c with
    | false => simp [List.takeWhile_cons, hc]
    | true =>
      obtain ⟨d, hd, hpd⟩ := h
      have hx : ∃ d ∈ x, p d = false := by
        rcases List.mem_cons.mp hd with e | hd
        · rw [e, hc] at hpd
          cases hpd
        · exact ⟨d, hd, hpd⟩
      simp only [List.cons_append, List.takeWhile_cons, hc, if_true, ih hx]

theorem c_string_append_of_nul (x y : List Char) (h : '\x00' ∈ x) :
    c_string (x ++ y) = c_string x := by
  unfold c_string
  exact takeWhile_append_of_stop _ x y ⟨'\x00', h, by simp⟩

theorem c_string_append_no_nul (x y : List Char) (h : ∀ c ∈ x, c ≠ '\x00') :
    c_string (x ++ y) = x ++ c_string y := by
  unfold c_string
  rw [List.takeWhile_append_of_pos]
  intro c hc
  simpa using h c hc

/-- The round at a complete comment behind white space: it reads the white
space and the comment, up to the newline that ends a `//` comment, and goes
on. -/
theorem lexer_step_comment (lex : lexer_t) (ws comment r : List Char) (w2 : Char)
    (h : lex.rest = ws ++ (comment ++ w2 :: r)) (hws : ∀ c ∈ ws, isspace c = true)
    (hc : complete_comment comment) :
    ∃ cs nl, lexer_step lex = (lexer_read lex cs, true) ∧ (∀ c ∈ cs, c.toNat ≤ 127) ∧
      (∀ c ∈ nl, isspace c = true) ∧ lex.rest = cs ++ (nl ++ w2 :: r) := by
  obtain ⟨hascii, hform⟩ := hc
  have hwsa : ∀ c ∈ ws, c.toNat ≤ 127 := fun c hc => isspace_ascii c (hws c hc)
  rw [lexer_step_skip lex ws _ h hws]
  have hr := lexer_rest_read lex ws _ h
  rcases hform with ⟨body, rfl, hnl⟩ | ⟨body, rfl, hin⟩
  · have hr' : (lexer_read lex ws).rest = '/' :: '/' :: (body ++ '\n' :: w2 :: r) := by
      rw [hr]
      simp
    have hr2 := lexer_rest_read (lexer_read lex ws) ['/', '/'] _ hr'
    have hbody : ∀ c ∈ body, in_line_comment c = true := by
      intro c hc
      have h1 : c ≠ '\n' := fun e => hnl (e ▸ hc)
      have h2 : c ≠ '\x00' := (hascii c (by simp [hc])).2
      simp [in_line_comment, h1, h2]
    rw [lexer_step_line _ _ hr',
      lexer_advance_while_read in_line_comment body ('\n' :: w2 :: r) _ _ hr2 hbody
        (by simp only [List.headD_cons]; decide)
        (by rw [← lexer_rest_length, hr2]; simp),
      lexer_read_append, lexer_read_append]
    refine ⟨ws ++ (['/', '/'] ++ body), ['\n'], rfl, ?_, by decide, by rw [h]; simp⟩
    intro c hc
    simp only [List.mem_append, List.mem_cons, List.mem_singleton, List.not_mem_nil,
      or_false] at hc
    rcases hc with hc | (hc | hc) | hc
    · exact hwsa c hc
    · rw [hc]; decide
    · rw [hc]; decide
    · exact (hascii c (by simp [hc])).1
  · have hr' : (lexer_read lex ws).rest = '/' :: '*' :: (body ++ '*' :: '/' :: (w2 :: r)) := by
      rw [hr]
      simp
    have hr2 := lexer_rest_read (lexer_read lex ws) ['/', '*'] _ hr'
    have hbody : ∀ c ∈ body, c ≠ '\x00' := fun c hc => (hascii c (by simp [hc])).2
    rw [lexer_step_block _ _ hr',
      lexer_block_comment_read body _ (w2 :: r) _ hr2 hbody hin
        (by rw [← lexer_rest_length, hr2]; simp; omega),
      lexer_read_append, lexer_read_append]
    refine ⟨ws ++ (['/', '*'] ++ (body ++ ['*', '/'])), [], rfl, ?_, by simp, by rw [h]; simp⟩
    intro c hc
    simp only [List.mem_append, List.mem_cons, List.mem_singleton, List.not_mem_nil,
      or_false] at hc
    rcases hc with hc | (hc | hc) | hc | hc | hc
    · exact hwsa c hc
    · rw [hc]; decide
    · rw [hc]; decide
    · exact (hascii c (by simp [hc])).1
    · rw [hc]; decide
    · rw [hc]; decide

/-! ## The lexer: a comment put between two white-space characters -/

/-- The run over a text with a complete comment put between two white-space
characters at which a round of the run over the text without it starts. -/
theorem lexer_sim_comment (init1 init2 : lexer_t) (before comment rest : List Char)
    (w1 w2 : Char) (hr1 : init1.rest = before ++ w1 :: w2 :: rest)
    (hr2 : init2.rest = before ++ w1 :: (comment ++ w2 :: rest))
    (he : init1.had_error = init2.had_error)
    (htok : init1.tokens.map token_t.type_text = init2.tokens.map token_t.type_text)
    (hw1 : isspace w1 = true) (hw2 : isspace w2 = true) (hcomment : complete_comment comment)
    (k : Nat) (mid : lexer_t) (hk : lexer_rounds k init1 = some mid) (ws : List Char)
    (hmr : mid.rest = ws ++ w1 :: w2 :: rest) (hwsp : ∀ c ∈ ws, isspace c = true)
    (f1 : Nat) (x1 : lexer_t) (hx : lexer_tokenize_loop f1 init1 = some x1)
    (herr : x1.had_error = false) :
    ∃ f2 x2, lexer_tokenize_loop f2 init2 = some x2 ∧ x2.had_error = false ∧
      x2.tokens.map token_t.type_text = x1.tokens.map token_t.type_text := by
  have hst : same_stop (w1 :: w2 :: rest) (w1 :: (comment ++ w2 :: rest)) :=
    Or.inr ⟨w1, _, _, hw1, rfl, rfl⟩
  have hs0 : lexer_sim before (w1 :: w2 :: rest) (w1 :: (comment ++ w2 :: rest)) init1 init2 :=
    ⟨hr1, hr2, he, htok⟩
  obtain ⟨f', hf'⟩ := lexer_tokenize_loop_rounds k f1 init1 mid x1 hk hx
  have hmerr : mid.had_error = false := by
    have := (lexer_later_tokenize_loop f' mid x1 hf').2
    cases hm : mid.had_error with
    | false => rfl
    | true => rw [this hm] at herr; cases herr
  have hnb : ¬ lexer_bad (w1 :: w2 :: rest) mid := by
    rintro (h | h)
    · rw [hmr] at h
      simp only [List.length_append, List.length_cons] at h
      omega
    · rw [hmerr] at h
      cases h
  obtain ⟨mid2, a', hk2, hsm⟩ := lexer_sim_rounds hst k before init1 init2 mid hs0 hk hnb
  have ha' : a' = ws := List.append_cancel_right (hsm.1.symm.trans hmr)
  subst ha'
  have hws1 : ∀ c ∈ a' ++ [w1], isspace c = true := by
    intro c hc
    rcases List.mem_append.mp hc with hc | hc
    · exact hwsp c hc
    · rw [List.mem_singleton.mp hc]
      exact hw1
  have hr2m : mid2.rest = (a' ++ [w1]) ++ (comment ++ w2 :: rest) := by
    rw [hsm.2.1]
    simp
  have hr1m : mid.rest = (a' ++ [w1]) ++ (w2 :: rest) := by
    rw [hmr]
    simp
  obtain ⟨cs, nl, hstep2, hcsa, hnlsp, hrest2⟩ :=
    lexer_step_comment mid2 (a' ++ [w1]) comment rest w2 hr2m hws1 hcomment
  have hx2r := lexer_rest_read (lexer_read mid2 cs) nl (w2 :: rest)
    (lexer_rest_read mid2 cs _ hrest2)
  have hx1r := lexer_rest_read mid (a' ++ [w1]) (w2 :: rest) hr1m
  have hsX : lexer_sim (w2 :: rest) [] [] (lexer_read mid (a' ++ [w1]))
      (lexer_read (lexer_read mid2 cs) nl) := by
    refine ⟨by rw [hx1r, List.append_nil], by rw [hx2r, List.append_nil], ?_, hsm.2.2.2⟩
    have e1 : (lexer_read mid (a' ++ [w1])).had_error = false :=
      (lexer_read_had_error mid _).mpr ⟨hmerr, fun c hc => isspace_ascii c (hws1 c hc)⟩
    have e2 : (lexer_read (lexer_read mid2 cs) nl).had_error = false :=
      (lexer_read_had_error _ _).mpr
        ⟨(lexer_read_had_error mid2 _).mpr ⟨by rw [← hsm.2.2.1]; exact hmerr, hcsa⟩,
          fun c hc => isspace_ascii c (hnlsp c hc)⟩
    rw [e1, e2]
  have hstepX1 := lexer_step_skip mid (a' ++ [w1]) (w2 :: rest) hr1m hws1
  have hloop1 : lexer_tokenize_loop f' (lexer_read mid (a' ++ [w1])) = some x1 := by
    cases f' with
    | zero => cases hf'
    | succ g =>
      simp only [lexer_tokenize_loop] at hf' ⊢
      rw [← hstepX1]
      exact hf'
  obtain ⟨x2, hl2, he2, ht2⟩ := lexer_sim_tokenize_loop f'
    ((lexer_read (lexer_read mid2 cs) nl).rest.length + 1) (w2 :: rest) _ _ x1 hsX hloop1 herr
    (by omega)
  have hstepX2 := lexer_step_skip (lexer_read mid2 cs) nl (w2 :: rest)
    (lexer_rest_read mid2 cs _ hrest2) hnlsp
  have hl2' : lexer_tokenize_loop ((lexer_read (lexer_read mid2 cs) nl).rest.length + 1)
      (lexer_read mid2 cs) = some x2 := by
    simp only [lexer_tokenize_loop] at hl2 ⊢
    rw [hstepX2]
    exact hl2
  have hl2'' : lexer_tokenize_loop ((lexer_read (lexer_read mid2 cs) nl).rest.length + 1 + 1)
      mid2 = some x2 := by
    rw [lexer_tokenize_loop, hstep2]
    exact hl2'
  exact ⟨_, x2, lexer_rounds_tokenize_loop k _ init2 mid2 x2 hk2 hl2'', he2, ht2⟩

/-- C16: for a source that lexes without error, a complete comment (a `//`
comment ended by a newline, or a `/* */` comment whose body has no `*/`, all
ASCII) put between two white-space characters `w1` and `w2` that stand outside
any token and comment (a round of the loop of the lexer starts at them or at
white space before them) gives a source that lexes without error into tokens
of the same types and texts, in the same order. -/
theorem C16_comment_insertion (filename : Option String) (before after comment : List Char)
    (w1 w2 : Char) (lex : lexer_t)
    (hlex : lexer_init filename (before ++ w1 :: w2 :: after) = some lex)
    (herr : lex.had_error = false) (hw1 : isspace w1 = true) (hw2 : isspace w2 = true)
    (hout : ∃ k mid,
      lexer_rounds k ⟨[], c_string (before ++ w1 :: w2 :: after),
        ⟨filename.getD "(null)", 1, 1⟩, 0, false⟩ = some mid ∧
      mid.pos ≤ before.length ∧ ∀ c ∈ before.drop mid.pos, isspace c = true)
    (hcomment : complete_comment comment) :
    ∃ lex', lexer_init filename (before ++ w1 :: (comment ++ w2 :: after)) = some lex' ∧
      lex'.had_error = false ∧
      lex'.tokens.map token_t.type_text = lex.tokens.map token_t.type_text := by
  by_cases hn : '\x00' ∈ before
  · refine ⟨lex, ?_, herr, rfl⟩
    unfold lexer_init at hlex ⊢
    rw [c_string_append_of_nul _ _ hn] at hlex ⊢
    exact hlex
  · have hb : ∀ c ∈ before, c ≠ '\x00' := fun c hc e => hn (e ▸ hc)
    have hw1n : w1 ≠ '\x00' := by rintro rfl; revert hw1; decide
    have hw2n : w2 ≠ '\x00' := by rintro rfl; revert hw2; decide
    have e1 : c_string (before ++ w1 :: w2 :: after) =
        before ++ w1 :: w2 :: c_string after := by
      rw [c_string_append_no_nul _ _ hb]
      have := c_string_append_no_nul [w1, w2] after (by
        intro c hc
        simp only [List.mem_cons, List.mem_singleton, List.not_mem_nil, or_false] at hc
        rcases hc with rfl | rfl
        · exact hw1n
        · exact hw2n)
      rw [show w1 :: w2 :: after = [w1, w2] ++ after from rfl, this]
      rfl
    have e2 : c_string (before ++ w1 :: (comment ++ w2 :: after)) =
        before ++ w1 :: (comment ++ w2 :: c_string after) := by
      rw [c_string_append_no_nul _ _ hb]
      have := c_string_append_no_nul (w1 :: (comment ++ [w2])) after (by
        intro c hc
        simp only [List.mem_cons, List.mem_append, List.mem_singleton, List.not_mem_nil,
          or_false] at hc
        rcases hc with rfl | hc | rfl
        · exact hw1n
        · exact (hcomment.1 c hc).2
        · exact hw2n)
      rw [show w1 :: (comment ++ w2 :: after) = (w1 :: (comment ++ [w2])) ++ after by simp, this]
      simp
    obtain ⟨k, mid, hk, hpos, hws⟩ := hout
    rw [e1] at hk
    unfold lexer_init lexer_tokenize at hlex
    rw [e1] at hlex
    have hsrc := lexer_rounds_source k _ mid hk
    have hmr : mid.rest = before.drop mid.pos ++ w1 :: w2 :: c_string after := by
      unfold lexer_t.rest
      rw [hsrc]
      exact List.drop_append_of_le_length hpos
    obtain ⟨f2, x2, hl2, he2, ht2⟩ := lexer_sim_comment
      ⟨[], before ++ w1 :: w2 :: c_string after, ⟨filename.getD "(null)", 1, 1⟩, 0, false⟩
      ⟨[], before ++ w1 :: (comment ++ w2 :: c_string after),
        ⟨filename.getD "(null)", 1, 1⟩, 0, false⟩
      before comment (c_string after) w1 w2 rfl rfl rfl rfl hw1 hw2 hcomment k mid hk
      (before.drop mid.pos) hmr hws _ lex hlex herr
    obtain ⟨lex', hrun, _⟩ := lexer_tokenize_run
      ⟨[], before ++ w1 :: (comment ++ w2 :: c_string after),
        ⟨filename.getD "(null)", 1, 1⟩, 0, false⟩
    have hu := lexer_tokenize_loop_unique _ _ _ _ _ hl2 hrun
    subst hu
    refine ⟨x2, ?_, he2, ht2⟩
    unfold lexer_init
    rw [e2]
    exact hrun

theorem C16_comment_insertion_witness :
    ∃ lex, lexer_init none "a =  1;".data = some lex ∧ lex.had_error = false ∧
      lexer_rounds 2 ⟨[], c_string "a =  1;".data, ⟨"(null)", 1, 1⟩, 0, false⟩ =
        some ⟨[⟨"a", 1, TOKEN_IDENTIFIER, ⟨"(null)", 1, 1⟩⟩, ⟨"=", 1, TOKEN_EQUAL, ⟨"(null)", 1, 3⟩⟩],
          "a =  1;".data, ⟨"(null)", 1, 4⟩, 3, false⟩ ∧
      complete_comment "/* b */".data ∧
      ∃ lex', lexer_init none "a = /* b */ 1;".data = some lex' ∧ lex'.had_error = false ∧
        lex'.tokens.map token_t.type_text = lex.tokens.map token_t.type_text :=
  have hc : complete_comment "/* b */".data :=
    ⟨by decide, Or.inr ⟨" b ".data, rfl, by decide⟩⟩
  ⟨_, rfl, rfl, rfl, hc,
    C16_comment_insertion none "a =".data "1;".data "/* b */".data ' ' ' ' _ rfl rfl
      (by decide) (by decide) ⟨2, _, rfl, by decide, by decide⟩ hc⟩

/-! ## The lexer on concrete sources -/

/-- C13: on the source `..` the lexer appends one `TOKEN_DOT` token with the
text `.` and then the end token: the round that made the `.` read both
characters. On the source `->` it appends a `TOKEN_ARROW` token whose text is
`=>`, and on the source `=>` the tokens `=` and `>`. -/
theorem C13_operator_divergence :
    (lexer_init (some "a.rose") "..".data).map
        (fun lex => (lex.had_error, lex.pos, lex.tokens.map token_t.type_text)) =
      some (false, 2, [(TOKEN_DOT, "."), (TOKEN_EOF, "")]) ∧
    (lexer_init (some "a.rose") "->".data).map
        (fun lex => (lex.had_error, lex.pos, lex.tokens.map token_t.type_text)) =
      some (false, 2, [(TOKEN_ARROW, "=>"), (TOKEN_EOF, "")]) ∧
    (lexer_init (some "a.rose") "=>".data).map
        (fun lex => (lex.had_error, lex.pos, lex.tokens.map token_t.type_text)) =
      some (false, 2, [(TOKEN_EQUAL, "="), (TOKEN_GREATER, ">"), (TOKEN_EOF, "")]) := by
  refine ⟨?_, ?_, ?_⟩ <;> rfl

/-- C18: on a source that is the one byte 0x80 the lexer sets `had_error` and
then appends the end token; on the source `"` 0x80 `"` ` x`, where the byte is
inside a string literal, it sets `had_error`, and then appends a string token,
the identifier `x` and the end token. -/
theorem C18_non_ascii_divergence :
    (lexer_init (some "a.rose") ['\x80']).map
        (fun lex => (lex.had_error, lex.tokens.map token_t.type_text)) =
      some (true, [(TOKEN_EOF, "")]) ∧
    (lexer_init (some "a.rose") ['"', '\x80', '"', ' ', 'x']).map
        (fun lex => (lex.had_error, lex.tokens.map token_t.type_text)) =
      some (true, [(TOKEN_STRING_LITERAL, "\x00"), (TOKEN_IDENTIFIER, "x"), (TOKEN_EOF, "")]) := by
  refine ⟨?_, ?_⟩ <;> rfl

/-! ## The parser: the primitive steps -/

theorem parse_bind_apply {α β : Type} (m : parse_m α) (f : α → parse_m β) (p : parser_t) :
    (m >>= f) p = match m p with
      | .ok (a, p') => f a p'
      | .error e => .error e := rfl

theorem parse_pure_apply {α : Type} (a : α) (p : parser_t) :
    (pure a : parse_m α) p = .ok (a, p) := rfl

theorem parse_bind_ok {α β : Type} {m : parse_m α} {f : α → parse_m β} {p p' : parser_t} {a : α}
    (h : m p = .ok (a, p')) : (m >>= f) p = f a p' := by
  rw [parse_bind_apply, h]

theorem parse_bind_error {α β : Type} {m : parse_m α} {f : α → parse_m β} {p : parser_t}
    {e : fault} (h : m p = .error e) : (m >>= f) p = .error e := by
  rw [parse_bind_apply, h]

theorem parser_advance_eq (p : parser_t) : parser_advance p = .ok ((), p.advance) := rfl

theorem parser_current_eq {p : parser_t} {t : token_t} (h : p.current = some t) :
    parser_current p = .ok (t, p) := by
  unfold parser_current
  rw [h]

theorem current_type_eq {p : parser_t} {t : token_t} (h : p.current = some t) :
    current_type p = .ok (t.type, p) := by
  unfold current_type
  rw [parse_bind_ok (parser_current_eq h)]
  rfl

theorem parser_check_eq {p : parser_t} {t : token_t} (h : p.current = some t)
    (type : token_type_t) : parser_check type p = .ok (decide (t.type = type), p) := by
  unfold parser_check
  rw [parse_bind_ok (parser_current_eq h)]
  rfl

theorem parser_match_hit {p : parser_t} {t : token_t} (h : p.current = some t) :
    parser_match t.type p = .ok (true, p.advance) := by
  unfold parser_match
  rw [parse_bind_ok (parser_check_eq h _)]
  simp only [decide_True, if_true]
  rfl

theorem parser_match_miss {p : parser_t} {t : token_t} {type : token_type_t}
    (h : p.current = some t) (ht : t.type ≠ type) : parser_match type p = .ok (false, p) := by
  unfold parser_match
  rw [parse_bind_ok (parser_check_eq h _)]
  simp only [ht, decide_False, Bool.false_eq_true, if_false]
  rfl

theorem parser_match_any_miss {p : parser_t} {t : token_t} (h : p.current = some t)
    (types : List token_type_t) (ht : t.type ∉ types) :
    parser_match_any types p = .ok (false, p) := by
  induction types with
  | nil => rfl
  | cons ty tys ih =>
    unfold parser_match_any
    rw [parse_bind_ok (parser_match_miss h (fun e => ht (e ▸ List.mem_cons_self _ _)))]
    simp only [Bool.false_eq_true, if_false]
    exact ih (fun hm => ht (List.mem_cons_of_mem _ hm))

theorem parser_match_any_hit {p : parser_t} {t : token_t} (h : p.current = some t)
    (types : List token_type_t) (ht : t.type ∈ types) :
    parser_match_any types p = .ok (true, p.advance) := by
  induction types with
  | nil => exact absurd ht (List.not_mem_nil _)
  | cons ty tys ih =>
    unfold parser_match_any
    by_cases e : t.type = ty
    · subst e
      rw [parse_bind_ok (parser_match_hit h)]
      rfl
    · rw [parse_bind_ok (parser_match_miss h e)]
      simp only [Bool.false_eq_true, if_false]
      rcases List.mem_cons.mp ht with h1 | h1
      · exact absurd h1 e
      · exact ih h1

/-! ### The tokens that are left -/

theorem rest_current {p : parser_t} {t : token_t} {r : List token_t} (h : p.rest = t :: r) :
    p.current = some t := by
  unfold parser_t.rest at h
  split at h
  · next t' ht =>
    simp only [List.cons.injEq] at h
    rw [ht, h.1]
  · exact absurd h (by simp)

theorem rest_drop {p : parser_t} {t : token_t} {r : List token_t} (h : p.rest = t :: r) :
    p.tokens.drop p.index = r := by
  unfold parser_t.rest at h
  split at h
  · simp only [List.cons.injEq] at h
    exact h.2
  · exact absurd h (by simp)

theorem advance_fields (p : parser_t) :
    p.advance.tokens = p.tokens ∧ p.advance.diagnostics = p.diagnostics ∧
      p.advance.previous = p.current := by
  unfold parser_t.advance lexer_next
  split <;> exact ⟨rfl, rfl, rfl⟩

/-- Advancing over a token that is not the last one. -/
theorem advance_rest {p : parser_t} {t t' : token_t} {r : List token_t}
    (h : p.rest = t :: t' :: r) : p.advance.rest = t' :: r := by
  have hd := rest_drop h
  have hlt : p.index < p.tokens.length := by
    by_contra hge
    rw [List.drop_eq_nil_of_le (Nat.le_of_not_lt hge)] at hd
    exact absurd hd (by simp)
  have hget : p.tokens.get? p.index = some t' := by
    rw [List.get?_eq_getElem?, ← List.head?_drop, hd]
    rfl
  have hdrop : p.tokens.drop (p.index + 1) = r := by
    rw [← List.tail_drop, hd]
    rfl
  unfold parser_t.advance lexer_next parser_t.rest
  rw [if_neg (Nat.not_le_of_lt hlt)]
  simp only [hget, hdrop]

/-- Advancing over the last token leaves no current token. -/
theorem advance_rest_last {p : parser_t} {t : token_t} (h : p.rest = [t]) :
    p.advance.rest = [] := by
  have hd := rest_drop h
  have hge : p.index ≥ p.tokens.length := by
    by_contra hlt
    have := List.drop_eq_nil_iff.mp hd
    omega
  unfold parser_t.advance lexer_next parser_t.rest
  rw [if_pos hge]

theorem reported_rest (p : parser_t) (messages : List String) :
    (p.reported messages).rest = p.rest := rfl

theorem report_eq (message : String) (p : parser_t) :
    report message p = .ok ((), p.reported [message]) := rfl

theorem PARSER_ERROR_eq {p : parser_t} {t : token_t} (h : p.current = some t)
    (message : String) : PARSER_ERROR message p = .ok ((), p.reported [message]) := by
  unfold PARSER_ERROR
  rw [parse_bind_ok (parser_current_eq h)]
  rfl

theorem parser_peek_eq {p : parser_t} {t t' : token_t} {r : List token_t}
    (h : p.rest = t :: t' :: r) : parser_peek p = .ok (t', p) := by
  have hd := rest_drop h
  have hget : p.tokens.get? p.index = some t' := by
    rw [List.get?_eq_getElem?, ← List.head?_drop, hd]
    rfl
  unfold parser_peek
  rw [hget]

theorem parser_match_hit_type {p : parser_t} {t : token_t} {type : token_type_t}
    (h : p.current = some t) (ht : t.type = type) :
    parser_match type p = .ok (true, p.advance) := by
  subst ht
  exact parser_match_hit h

theorem parser_match_rest {p : parser_t} {t : token_t} {r : List token_t} {type : token_type_t}
    (h : p.rest = t :: r) (ht : t.type = type) :
    parser_match type p = .ok (true, p.advance) :=
  parser_match_hit_type (rest_current h) ht

theorem parser_match_rest_miss {p : parser_t} {t : token_t} {r : List token_t}
    {type : token_type_t} (h : p.rest = t :: r) (ht : t.type ≠ type) :
    parser_match type p = .ok (false, p) :=
  parser_match_miss (rest_current h) ht

theorem current_type_rest {p : parser_t} {t : token_t} {r : List token_t} (h : p.rest = t :: r) :
    current_type p = .ok (t.type, p) :=
  current_type_eq (rest_current h)

theorem parser_current_rest {p : parser_t} {t : token_t} {r : List token_t}
    (h : p.rest = t :: r) : parser_current p = .ok (t, p) :=
  parser_current_eq (rest_current h)

theorem PARSER_ERROR_rest {p : parser_t} {t : token_t} {r : List token_t} (h : p.rest = t :: r)
    (message : String) : PARSER_ERROR message p = .ok ((), p.reported [message]) :=
  PARSER_ERROR_eq (rest_current h) message

/-! ## The parser: what a run ensures when it returns -/

theorem ensures_bind {α β : Type} {m : parse_m α} {f : α → parse_m β}
    {post : β → parser_t → Prop} {p : parser_t}
    (h : m.ensures (fun a p1 => (f a).ensures post p1) p) : (m >>= f).ensures post p := by
  intro b p' hb
  rw [parse_bind_apply] at hb
  split at hb
  · next a p1 heq => exact h a p1 heq b p' hb
  · exact absurd hb (by simp)

theorem ensures_pure {α : Type} {a : α} {post : α → parser_t → Prop} {p : parser_t}
    (h : post a p) : (pure a : parse_m α).ensures post p := by
  intro b p' hb
  rw [parse_pure_apply] at hb
  simp only [Except.ok.injEq, Prod.mk.injEq] at hb
  obtain ⟨rfl, rfl⟩ := hb
  exact h

theorem ensures_ite {α : Type} {c : Prop} [Decidable c] {t e : parse_m α}
    {post : α → parser_t → Prop} {p : parser_t}
    (ht : c → t.ensures post p) (he : ¬ c → e.ensures post p) :
    (if c then t else e).ensures post p := by
  by_cases h : c
  · rw [if_pos h]
    exact ht h
  · rw [if_neg h]
    exact he h

theorem ensures_mono {α : Type} {m : parse_m α} {post post' : α → parser_t → Prop}
    {p : parser_t} (h : m.ensures post p) (hi : ∀ a p', post a p' → post' a p') :
    m.ensures post' p :=
  fun a p' e => hi a p' (h a p' e)

theorem ensures_true {α : Type} (m : parse_m α) (p : parser_t) :
    m.ensures (fun _ _ => True) p := fun _ _ _ => trivial

theorem ensures_any {α : Type} {m : parse_m α} {post : α → parser_t → Prop} {p : parser_t}
    (h : ∀ a p', post a p') : m.ensures post p := fun a p' _ => h a p'

theorem ensures_stop {α : Type} (e : fault) (post : α → parser_t → Prop) (p : parser_t) :
    (parse_m.stop e : parse_m α).ensures post p := by
  intro a p' h
  exact absurd h (by simp [parse_m.stop])

/-! ## The parameters of a function -/

/-- A round of the loop over the parameters appends to the parameters read so
far, and what it appends has no rest parameter with a default value. -/
theorem parse_function_params_ensures (rec : parse_rec) (n : Nat) :
    ∀ (params : List Param) (p : parser_t),
      (parse_function_params rec n params).ensures
        (fun result _ => ∀ ps, result = some ps →
          ∃ new, ps = params ++ new ∧ ∀ q ∈ new, q.rest_without_default = true) p := by
  induction n with
  | zero =>
    intro params p
    exact ensures_stop _ _ _
  | succ n ih =>
    intro params p
    have hrec : ∀ (q : Param) (p1 : parser_t), q.rest_without_default = true →
        (parse_function_params rec n (params ++ [q])).ensures
          (fun result _ => ∀ ps, result = some ps →
            ∃ new, ps = params ++ new ∧ ∀ q ∈ new, q.rest_without_default = true) p1 := by
      intro q p1 hq
      refine ensures_mono (ih (params ++ [q]) p1) ?_
      intro result _ h ps hps
      obtain ⟨new, rfl, hnew⟩ := h ps hps
      refine ⟨q :: new, by simp, ?_⟩
      intro x hx
      rcases List.mem_cons.mp hx with rfl | hx
      · exact hq
      · exact hnew x hx
    have hdone : ∀ (q : Param) (p1 : parser_t), q.rest_without_default = true →
        (pure (some (params ++ [q])) : parse_m (Option (List Param))).ensures
          (fun result _ => ∀ ps, result = some ps →
            ∃ new, ps = params ++ new ∧ ∀ q ∈ new, q.rest_without_default = true) p1 := by
      intro q p1 hq
      refine ensures_pure ?_
      intro ps hps
      simp only [Option.some.injEq] at hps
      subst hps
      exact ⟨[q], rfl, by simpa using hq⟩
    have hnone : ∀ (p1 : parser_t),
        (pure none : parse_m (Option (List Param))).ensures
          (fun result _ => ∀ ps, result = some ps →
            ∃ new, ps = params ++ new ∧ ∀ q ∈ new, q.rest_without_default = true) p1 := by
      intro p1
      refine ensures_pure ?_
      intro ps hps
      exact absurd hps (by simp)
    unfold parse_function_params
    refine ensures_bind ?_
    intro is_rest p1 _
    refine ensures_bind ?_
    intro type p2 _
    refine ensures_ite (fun _ => ?_) (fun _ => ?_)
    · refine ensures_bind ?_
      intro _ p3 _
      exact hnone _
    · refine ensures_bind ?_
      intro _ p3 _
      refine ensures_bind ?_
      intro tok p4 _
      refine ensures_bind ?_
      intro _ p5 _
      refine ensures_ite (fun hr => ?_) (fun hr => ?_)
      · have hr' : is_rest = false := by simpa using hr
        subst hr'
        refine ensures_bind ?_
        intro eq p6 _
        refine ensures_ite (fun _ => ?_) (fun _ => ?_)
        · refine ensures_bind ?_
          intro value p7 _
          cases value with
          | none => exact hnone _
          | some default_expr =>
            refine ensures_bind ?_
            intro _ p8 _
            refine ensures_bind ?_
            intro comma p9 _
            refine ensures_ite (fun _ => ?_) (fun _ => ?_)
            · exact hrec _ _ rfl
            · exact hdone _ _ rfl
        · refine ensures_bind ?_
          intro _ p8 _
          refine ensures_bind ?_
          intro comma p9 _
          refine ensures_ite (fun _ => ?_) (fun _ => ?_)
          · exact hrec _ _ rfl
          · exact hdone _ _ rfl
      · refine ensures_bind ?_
        intro eq p6 _
        refine ensures_ite (fun _ => ?_) (fun _ => ?_)
        · refine ensures_bind ?_
          intro _ p7 _
          exact hnone _
        · refine ensures_bind ?_
          intro _ p8 _
          refine ensures_bind ?_
          intro comma p9 _
          refine ensures_ite (fun _ => ?_) (fun _ => ?_)
          · exact hrec _ _ (by cases is_rest <;> rfl)
          · exact hdone _ _ (by cases is_rest <;> rfl)

theorem parser_match_ensures (type : token_type_t) (p : parser_t) :
    (parser_match type).ensures (fun b _ => b = p.current_is type) p := by
  intro b p' h
  unfold parser_t.current_is
  cases hc : p.current with
  | none =>
    unfold parser_match parser_check at h
    rw [parse_bind_apply, parse_bind_apply] at h
    simp only [parser_current, hc] at h
    exact absurd h (by simp)
  | some t =>
    by_cases ht : t.type = type
    · rw [parser_match_hit_type hc ht] at h
      simp only [Except.ok.injEq, Prod.mk.injEq] at h
      simp [ht, ← h.1]
    · rw [parser_match_miss hc ht] at h
      simp only [Except.ok.injEq, Prod.mk.injEq] at h
      simp [ht, ← h.1]

/-- The parameter a round of the loop appends has `is_rest` set exactly when
the round starts at `...`, and the parameters read before stay in front. -/
theorem parse_function_params_is_rest (rec : parse_rec) (n : Nat) (params : List Param)
    (p : parser_t) :
    (parse_function_params rec (n + 1) params).ensures
      (fun result _ => ∀ ps, result = some ps →
        ∃ q more, ps = params ++ q :: more ∧ q.is_rest = p.current_is TOKEN_ELLIPSIS) p := by
  have hrec : ∀ (q : Param) (p1 : parser_t), q.is_rest = p.current_is TOKEN_ELLIPSIS →
      (parse_function_params rec n (params ++ [q])).ensures
        (fun result _ => ∀ ps, result = some ps →
          ∃ q more, ps = params ++ q :: more ∧ q.is_rest = p.current_is TOKEN_ELLIPSIS) p1 := by
    intro q p1 hq
    refine ensures_mono (parse_function_params_ensures rec n (params ++ [q]) p1) ?_
    intro result _ h ps hps
    obtain ⟨new, rfl, -⟩ := h ps hps
    exact ⟨q, new, by simp, hq⟩
  have hdone : ∀ (q : Param) (p1 : parser_t), q.is_rest = p.current_is TOKEN_ELLIPSIS →
      (pure (some (params ++ [q])) : parse_m (Option (List Param))).ensures
        (fun result _ => ∀ ps, result = some ps →
          ∃ q more, ps = params ++ q :: more ∧ q.is_rest = p.current_is TOKEN_ELLIPSIS) p1 := by
    intro q p1 hq
    refine ensures_pure ?_
    intro ps hps
    simp only [Option.some.injEq] at hps
    subst hps
    exact ⟨q, [], rfl, hq⟩
  unfold parse_function_params
  refine ensures_bind (ensures_mono (parser_match_ensures TOKEN_ELLIPSIS p) ?_)
  intro is_rest p1 his
  simp only []
  repeat' first
    | (refine ensures_pure ?_
       intro ps h
       exact Option.noConfusion h)
    | exact hrec _ _ his
    | exact hdone _ _ his
    | (refine ensures_bind ?_; intro _ _ _)
    | refine ensures_ite (fun _ => ?_) (fun _ => ?_)
    | split

/-! ## `parse_function` -/

/-- The parameters of a function node that `parse_function` returns hold no
rest parameter with a default value. -/
theorem parse_function_ensures (fuel : Nat) (rec : parse_rec) (p : parser_t) :
    (parse_function fuel rec).ensures
      (fun result _ => ∀ is_async name params body,
        result = some (.function is_async name params body) →
          ∀ q ∈ params, q.rest_without_default = true) p := by
  unfold parse_function
  simp only []
  repeat' first
    | (refine ensures_pure ?_
       intro a b c d h
       exact Option.noConfusion h)
    | (refine ensures_pure ?_
       intro a b c d h
       simp only [Option.some.injEq, Node.function.injEq] at h
       obtain ⟨-, -, rfl, -⟩ := h
       first
         | (intro q hq; exact absurd hq (List.not_mem_nil _))
         | (obtain ⟨new, h1, h2⟩ :=
              parse_function_params_ensures rec fuel [] _ _ _ (by assumption) _ rfl
            simp only [List.nil_append] at h1
            subst h1
            exact h2))
    | (refine ensures_bind ?_; intro _ _ _)
    | refine ensures_ite (fun _ => ?_) (fun _ => ?_)
    | split

/-- A round of the loop over the parameters that starts at `...`, an
identifier and `=` writes a message and ends the loop with `NULL`. -/
theorem parse_function_params_rest_default (rec : parse_rec) (n : Nat) (params : List Param)
    (p : parser_t) (t1 t2 t3 t4 : token_t) (r : List token_t)
    (h : p.rest = t1 :: t2 :: t3 :: t4 :: r) (h1 : t1.type = TOKEN_ELLIPSIS)
    (h2 : t2.type = TOKEN_IDENTIFIER) (h3 : t3.type = TOKEN_EQUAL) :
    parse_function_params rec (n + 1) params p =
      .ok (none, p.advance.advance.advance.reported
        ["Rest parameter cannot have a default value."]) := by
  have ha := advance_rest h
  have hb := advance_rest ha
  have hc := advance_rest hb
  unfold parse_function_params
  simp only [parse_bind_apply, parse_pure_apply, parser_match_rest h h1, current_type_rest ha,
    parser_current_rest ha, parser_advance_eq, parser_match_rest hb h3, PARSER_ERROR_rest hc,
    h2, ne_eq, not_true_eq_false, if_false, if_true, Bool.not_true, Bool.false_eq_true]

/-! ## The parser on concrete sources, and the parameters of a function -/

/-- C21: on the source `for (+;;) {}` the initializer `+` makes `parse_primary`
write `Expected primary expression`, and `parse_program` still returns a
`Program` node, whose `For` statement has no initializer. -/
theorem C21_error_in_for_initializer :
    (lex_and_parse 10 "for (+;;) \x7b\x7d").map
        (Except.map (fun r => (r.1, r.2.diagnostics))) =
      some (.ok (some (.program [.for_stmt (.block []) none none none]),
        ["Expected primary expression, got '%s'"])) := by
  decide!

/-- C22: the identifiers `Infinityx` and `NaNs` are parsed to the `Number`
nodes that hold infinity and NaN, not to `Identifier` nodes. -/
theorem C22_identifier_with_special_start :
    (lex_and_parse 10 "Infinityx;").map (Except.map Prod.fst) =
      some (.ok (some (.program [.number .infinity]))) ∧
    (lex_and_parse 10 "NaNs;").map (Except.map Prod.fst) =
      some (.ok (some (.program [.number .nan]))) := by
  decide!

/-- C23: for the number token `1_000` `strtold` converts the `1` and stops
at the `_`; `parse_number` writes `Invalid number literal` and returns a
`Number` node all the same, and `parse_program` returns the program. -/
theorem C23_number_not_converted_in_full :
    strtold "1_000".data = ("1".data, "_000".data) ∧
    (lex_and_parse 10 "1_000;").map (Except.map (fun r => (r.1, r.2.diagnostics))) =
      some (.ok (some (.program [.number (.strtold "1_000")]),
        ["Invalid number literal: %s"])) := by
  decide!

/-- C24: no parameter of a `Function` node that `parse_function` returns has
both `is_rest` and a default value; a round of the loop over the parameters
that starts at `...`, an identifier and `=` writes `Rest parameter cannot have
a default value.` and ends with `NULL`, which `parse_function` returns, as on
the source `function f(a, ...b = 1) {}`. -/
theorem C24_rest_parameter_has_no_default (fuel : Nat) (rec : parse_rec) (p : parser_t) :
    (∀ is_async name params body p',
      parse_function fuel rec p = .ok (some (.function is_async name params body), p') →
        ∀ q ∈ params, q.rest_without_default = true) ∧
    (∀ n params t1 t2 t3 t4 r, p.rest = t1 :: t2 :: t3 :: t4 :: r →
      t1.type = TOKEN_ELLIPSIS → t2.type = TOKEN_IDENTIFIER → t3.type = TOKEN_EQUAL →
        parse_function_params rec (n + 1) params p =
          .ok (none, p.advance.advance.advance.reported
            ["Rest parameter cannot have a default value."])) ∧
    (lex_and_parse 10 "function f(a, ...b = 1) \x7b\x7d").map
        (Except.map (fun r => (r.1, r.2.diagnostics))) =
      some (.ok (none, ["Rest parameter cannot have a default value."])) := by
  refine ⟨?_, ?_, by decide!⟩
  · intro is_async name params body p' h
    exact parse_function_ensures fuel rec p _ _ h is_async name params body rfl
  · intro n params t1 t2 t3 t4 r h h1 h2 h3
    exact parse_function_params_rest_default rec n params p t1 t2 t3 t4 r h h1 h2 h3

/-- C25, the claim as it stands fails: on the source `function f(...c, d) {}`
the parser returns a `Function` node whose first parameter has `is_rest` and is
followed by another parameter. -/
theorem C25_rest_parameter_not_last :
    (lex_and_parse 10 "function f(...c, d) \x7b\x7d").map (Except.map Prod.fst) =
      some (.ok (some (.program [.function false (some "f")
        [Param.mk "c" none true, Param.mk "d" none false] (.block [])]))) := by
  decide!

/-- C25, amended: in every round of the loop over the parameters of
`parse_function` that returns parameters, the parameters read before stay in
front, in order, and the parameter the round appends has `is_rest` set exactly
when the round starts at `...`, whatever follows it. -/
theorem C25_is_rest_where_written (rec : parse_rec) (n : Nat) (params ps : List Param)
    (p p' : parser_t) (h : parse_function_params rec (n + 1) params p = .ok (some ps, p')) :
    ∃ q more, ps = params ++ q :: more ∧ q.is_rest = p.current_is TOKEN_ELLIPSIS :=
  parse_function_params_is_rest rec n params p _ _ h ps rfl

/-- C25 amended, on the parameters `...c, d)`: the first round appends the
rest parameter `c`, and `d` follows it. -/
theorem C25_is_rest_where_written_witness :
    ∃ q more, [Param.mk "c" none true, Param.mk "d" none false] = [] ++ q :: more ∧
      q.is_rest = (parser_init
        [⟨"...", 3, TOKEN_ELLIPSIS, ⟨"a.rose", 1, 1⟩⟩, ⟨"c", 1, TOKEN_IDENTIFIER, ⟨"a.rose", 1, 4⟩⟩,
         ⟨",", 1, TOKEN_COMMA, ⟨"a.rose", 1, 5⟩⟩, ⟨"d", 1, TOKEN_IDENTIFIER, ⟨"a.rose", 1, 7⟩⟩,
         ⟨")", 1, TOKEN_RIGHT_PAREN, ⟨"a.rose", 1, 8⟩⟩,
         ⟨"", 0, TOKEN_EOF, ⟨"a.rose", 1, 9⟩⟩]).current_is TOKEN_ELLIPSIS :=
  C25_is_rest_where_written (parse_fn 5) 4 [] [Param.mk "c" none true, Param.mk "d" none false]
    (parser_init
        [⟨"...", 3, TOKEN_ELLIPSIS, ⟨"a.rose", 1, 1⟩⟩, ⟨"c", 1, TOKEN_IDENTIFIER, ⟨"a.rose", 1, 4⟩⟩,
         ⟨",", 1, TOKEN_COMMA, ⟨"a.rose", 1, 5⟩⟩, ⟨"d", 1, TOKEN_IDENTIFIER, ⟨"a.rose", 1, 7⟩⟩,
         ⟨")", 1, TOKEN_RIGHT_PAREN, ⟨"a.rose", 1, 8⟩⟩,
         ⟨"", 0, TOKEN_EOF, ⟨"a.rose", 1, 9⟩⟩])
    ⟨[⟨"...", 3, TOKEN_ELLIPSIS, ⟨"a.rose", 1, 1⟩⟩, ⟨"c", 1, TOKEN_IDENTIFIER, ⟨"a.rose", 1, 4⟩⟩,
         ⟨",", 1, TOKEN_COMMA, ⟨"a.rose", 1, 5⟩⟩, ⟨"d", 1, TOKEN_IDENTIFIER, ⟨"a.rose", 1, 7⟩⟩,
         ⟨")", 1, TOKEN_RIGHT_PAREN, ⟨"a.rose", 1, 8⟩⟩,
         ⟨"", 0, TOKEN_EOF, ⟨"a.rose", 1, 9⟩⟩], 5,
      some ⟨")", 1, TOKEN_RIGHT_PAREN, ⟨"a.rose", 1, 8⟩⟩, some ⟨"d", 1, TOKEN_IDENTIFIER, ⟨"a.rose", 1, 7⟩⟩, []⟩
    (by decide!)

/-! ## Evaluation -/

theorem eval_statements_append (stmts : List Node) (last : Node) :
    ∀ (ctx : eval_context_t) (result : value_t),
      eval_statements ctx result (stmts ++ [last]) =
        match eval_statements ctx result stmts with
        | .error e => .error e
        | .ok (_, ctx1) => eval_node ctx1 last := by
  induction stmts with
  | nil =>
    intro ctx result
    simp only [List.nil_append, eval_statements]
    cases eval_node ctx last with
    | error e => rfl
    | ok r => rfl
  | cons stmt rest ih =>
    intro ctx result
    simp only [List.cons_append, eval_statements]
    cases eval_node ctx stmt with
    | error e => rfl
    | ok r => exact ih r.2 r.1

/-- The arithmetic cases of `NODE_BINARY` return no value, whatever the
operands are. -/
theorem eval_binary_error (op : token_type_t) (left right : value_t) :
    ∃ e, eval_binary op left right = .error e := by
  unfold eval_binary
  cases op <;> simp only [] <;> first
    | exact ⟨_, rfl⟩
    | (split
       · exact ⟨_, rfl⟩
       · exact ⟨_, rfl⟩)

/-- C28: a `Number` node evaluates to the same value whatever number it holds,
`value_number` keeps none of it; the source `1 + 2;` is parsed to the program
with the one statement `Binary(+, 1, 2)`, and the evaluation of this program
does not return the number 3: `mpfr_add` is handed two numbers that were never
initialised. -/
theorem C28_number_value_not_kept :
    (∀ (ctx : eval_context_t) (n : number_t),
      eval_node ctx (.number n) = .ok (value_t.number, ctx)) ∧
    (lex_and_parse 10 "1 + 2;").map (Except.map Prod.fst) =
      some (.ok (some (.program [.binary ⟨"+", 1, TOKEN_PLUS, ⟨"a.rose", 1, 3⟩⟩
        (.number (.strtold "1")) (.number (.strtold "2"))]))) ∧
    eval_program eval_init (some (.program [.binary ⟨"+", 1, TOKEN_PLUS, ⟨"a.rose", 1, 3⟩⟩
        (.number (.strtold "1")) (.number (.strtold "2"))])) =
      .error .number_not_initialised := by
  refine ⟨fun ctx n => ?_, by decide!, by decide!⟩
  simp only [eval_node, value_number]

/-- C29: the source `5 / 0;` is parsed to the program with the one statement
`Binary(/, 5, 0)`, and its evaluation does not stop with `Division by zero`:
`mpfr_zero_p` is handed a number that was never initialised; and no arithmetic
operator returns a value, for any two operands. -/
theorem C29_division_by_zero_not_seen :
    (lex_and_parse 10 "5 / 0;").map (Except.map Prod.fst) =
      some (.ok (some (.program [.binary ⟨"/", 1, TOKEN_SLASH, ⟨"a.rose", 1, 3⟩⟩
        (.number (.strtold "5")) (.number (.strtold "0"))]))) ∧
    eval_program eval_init (some (.program [.binary ⟨"/", 1, TOKEN_SLASH, ⟨"a.rose", 1, 3⟩⟩
        (.number (.strtold "5")) (.number (.strtold "0"))])) =
      .error .number_not_initialised ∧
    (∀ (op : token_type_t) (left right : value_t), ∃ e, eval_binary op left right = .error e) :=
  ⟨by decide!, by decide!, eval_binary_error⟩

/-- C30, the claim as it stands fails: the source `let x = 2; let y = 3; x **
y;` is parsed to two declarations and `Binary(**, x, y)`, and `eval_program` in
a context that `eval_init` has made stops at the first statement with
`NODE_DECLARATION not implemented`. -/
theorem C30_declaration_not_evaluated :
    (lex_and_parse 10 "let x = 2; let y = 3; x ** y;").map (Except.map Prod.fst) =
      some (.ok (some (.program [
        .declaration ⟨"let", 3, TOKEN_LET, ⟨"a.rose", 1, 1⟩⟩ [.identifier "x"]
          [some (.number (.strtold "2"))],
        .declaration ⟨"let", 3, TOKEN_LET, ⟨"a.rose", 1, 12⟩⟩ [.identifier "y"]
          [some (.number (.strtold "3"))],
        .binary ⟨"**", 2, TOKEN_STAR_STAR, ⟨"a.rose", 1, 25⟩⟩ (.identifier "x")
          (.identifier "y")]))) ∧
    eval_program eval_init (some (.program [
        .declaration ⟨"let", 3, TOKEN_LET, ⟨"a.rose", 1, 1⟩⟩ [.identifier "x"]
          [some (.number (.strtold "2"))],
        .declaration ⟨"let", 3, TOKEN_LET, ⟨"a.rose", 1, 12⟩⟩ [.identifier "y"]
          [some (.number (.strtold "3"))],
        .binary ⟨"**", 2, TOKEN_STAR_STAR, ⟨"a.rose", 1, 25⟩⟩ (.identifier "x")
          (.identifier "y")])) =
      .error (.todo "NODE_DECLARATION not implemented") := by
  decide!

/-- C30, amended: in every context a declaration is not evaluated, the
evaluation stops with `NODE_DECLARATION not implemented`; an identifier
evaluates to the value `env_get` finds for it in the chain of the current
scope, and stops the evaluation when it finds none; and when `eval_program`
returns on a program with a last statement, every statement before it was
evaluated and the result is the value of the last statement. -/
theorem C30_identifier_and_last_statement (ctx : eval_context_t) :
    (∀ kind names values,
      eval_node ctx (.declaration kind names values) =
        .error (.todo "NODE_DECLARATION not implemented")) ∧
    (∀ name value, ctx.released = false →
      env_get_value ctx.current_scope name = some value →
        eval_node ctx (.identifier name) = .ok (value, ctx)) ∧
    (∀ name, ctx.released = false → env_get_value ctx.current_scope name = none →
      eval_node ctx (.identifier name) = .error (.todo_s "Identifier '%s' not found" name)) ∧
    (∀ stmts last value ctx',
      eval_program ctx (some (.program (stmts ++ [last]))) = .ok (value, ctx') →
        ∃ before ctx1,
          eval_statements { ctx with current_scope := env_set ctx.current_scope "Math" math_object }
            value_undefined stmts = .ok (before, ctx1) ∧
          eval_node ctx1 last = .ok (value, ctx')) := by
  refine ⟨fun kind names values => ?_, fun name value hr hv => ?_, fun name hr hv => ?_,
    fun stmts last value ctx' h => ?_⟩
  · simp only [eval_node]
  · simp only [eval_node, hr, hv, Bool.false_eq_true, if_false]
  · simp only [eval_node, hr, hv, Bool.false_eq_true, if_false]
  · unfold eval_program at h
    split at h
    · exact absurd h (by simp)
    · simp only [eval_statements_append] at h
      split at h
      · exact absurd h (by simp)
      · next before ctx1 heq => exact ⟨before, ctx1, heq, h⟩

/-- C30 amended, on the program `null; Math;` in the context `eval_init`
makes. -/
theorem C30_identifier_and_last_statement_witness :
    (eval_program eval_init (some (.program ([.null] ++ [.identifier "Math"])))).map
        (fun r => r.1.type) = .ok .VALUE_OBJECT ∧
    (eval_node eval_init (.identifier "x") =
      .error (.todo_s "Identifier '%s' not found" "x")) :=
  ⟨by decide!, (C30_identifier_and_last_statement eval_init).2.2.1 "x" (by decide!) (by decide!)⟩
/-! ## The parser: blocks and `while` -/

theorem parser_match_current_is {p : parser_t} {type : token_type_t}
    (h : p.current_is type = true) : parser_match type p = .ok (true, p.advance) := by
  unfold parser_t.current_is at h
  split at h
  · next t ht => exact parser_match_hit_type ht (of_decide_eq_true h)
  · exact absurd h (by simp)

theorem current_type_not_in {p : parser_t} {types : List token_type_t}
    (h : p.current_not_in types = true) :
    ∃ type, current_type p = .ok (type, p) ∧ type ∉ types := by
  unfold parser_t.current_not_in at h
  split at h
  · next t ht =>
    refine ⟨t.type, current_type_eq ht, ?_⟩
    simpa using h
  · exact absurd h (by simp)

theorem current_type_current_is {p : parser_t} {type : token_type_t}
    (h : p.current_is type = true) : current_type p = .ok (type, p) := by
  unfold parser_t.current_is at h
  split at h
  · next t ht =>
    rw [current_type_eq ht, of_decide_eq_true h]
  · exact absurd h (by simp)

/-- The loop of `parse_block` collects the statements of a run and stops at the
first token whose type is in `stops`. -/
theorem parse_statements_run (rec : parse_rec) (stops : List token_type_t) (stop : token_type_t)
    (hstop : stop ∈ stops) :
    ∀ (body : List (Node × parser_t)) (fuel : Nat) (statements : List Node) (p : parser_t),
      statements_run rec stops p body → (run_end p body).current_is stop = true →
      body.length < fuel →
      parse_statements rec stops fuel statements p =
        .ok (some (statements ++ body.map Prod.fst), run_end p body)
  | [], fuel, statements, p, _, hend, hfuel => by
    obtain ⟨n, rfl⟩ : ∃ n, fuel = n + 1 := ⟨fuel - 1, by simp at hfuel; omega⟩
    simp only [run_end] at hend
    simp only [parse_statements, parse_bind_apply, parse_pure_apply,
      current_type_current_is hend, hstop, if_true, List.map_nil, List.append_nil, run_end]
  | (stmt, p') :: rest, fuel, statements, p, hrun, hend, hfuel => by
    obtain ⟨n, rfl⟩ : ∃ n, fuel = n + 1 := ⟨fuel - 1, by simp at hfuel; omega⟩
    obtain ⟨hc, hs, hrest⟩ := hrun
    obtain ⟨type, hty, hnot⟩ := current_type_not_in hc
    simp only [run_end] at hend
    simp only [parse_statements, parse_bind_apply, parse_pure_apply, hty, hnot, if_false, hs,
      run_end, List.map_cons]
    rw [parse_statements_run rec stops stop hstop rest n _ p' hrest hend
      (by simp at hfuel; omega)]
    simp only [List.append_assoc, List.singleton_append]

/-- `parse_block` at a `{`: the statements up to the `}` in a `Block`. -/
theorem parse_block_run (rec : parse_rec) (fuel : Nat) (p : parser_t)
    (body : List (Node × parser_t)) (hopen : p.current_is TOKEN_LEFT_BRACE = true)
    (hrun : statements_run rec [TOKEN_RIGHT_BRACE, TOKEN_EOF] p.advance body)
    (hclose : (run_end p.advance body).current_is TOKEN_RIGHT_BRACE = true)
    (hfuel : body.length < fuel) :
    parse_block fuel rec p =
      .ok (some (.block (body.map Prod.fst)), (run_end p.advance body).advance) := by
  unfold parse_block
  simp only [parse_bind_apply, parse_pure_apply, parser_match_current_is hopen, if_true,
    parse_statements_run rec _ TOKEN_RIGHT_BRACE (by simp) body fuel [] _ hrun hclose hfuel,
    parser_match_current_is hclose, List.nil_append, Bool.not_true, Bool.false_eq_true,
    if_false]

/-- `parse_while` on `while ( condition ) { body }`. -/
theorem parse_while_run (rec : parse_rec) (fuel : Nat) (p p' : parser_t) (condition : Node)
    (body : List (Node × parser_t))
    (hwhile : p.current_is TOKEN_WHILE = true)
    (hleft : p.advance.current_is TOKEN_LEFT_PAREN = true)
    (hcondition : parse_comma fuel rec p.advance.advance = .ok (some condition, p'))
    (hright : p'.current_is TOKEN_RIGHT_PAREN = true)
    (hopen : p'.advance.current_is TOKEN_LEFT_BRACE = true)
    (hrun : statements_run rec [TOKEN_RIGHT_BRACE, TOKEN_EOF] p'.advance.advance body)
    (hclose : (run_end p'.advance.advance body).current_is TOKEN_RIGHT_BRACE = true)
    (hfuel : body.length < fuel) :
    parse_while fuel rec p =
      .ok (some (.while_stmt condition (.block (body.map Prod.fst))),
        (run_end p'.advance.advance body).advance) := by
  unfold parse_while
  simp only [parse_bind_apply, parse_pure_apply, parser_match_current_is hwhile,
    parser_match_current_is hleft, hcondition, parser_match_current_is hright,
    parse_block_run rec fuel _ body hopen hrun hclose hfuel, Bool.not_true,
    Bool.false_eq_true, if_false]

/-- In a loop a `Break` or `Continue` node is left without error. -/
theorem sema_visit_list_break_continue (statements : List Node)
    (h : ∀ s ∈ statements, is_break_continue s = true) (s : sema_t) (hd : s.loop_depth ≠ 0) :
    sema_visit_list s statements = s := by
  induction statements with
  | nil => simp only [sema_visit_list]
  | cons stmt rest ih =>
    have h1 : sema_visit_node s stmt = s := by
      have hs := h stmt (List.mem_cons_self _ _)
      cases stmt <;> simp only [is_break_continue, Bool.false_eq_true] at hs <;>
        simp only [sema_visit_node, hd, if_false]
    simp only [sema_visit_list, h1]
    exact ih (fun x hx => h x (List.mem_cons_of_mem _ hx))

/-- The analysis of a `While` node at the top of a program whose body holds
`Break` and `Continue` nodes only reports what the analysis of its condition
reports. -/
theorem sema_while_break_continue (condition : Node) (statements : List Node)
    (h : ∀ s ∈ statements, is_break_continue s = true) :
    (sema_analyze (sema_init (some (.program
      [.while_stmt condition (.block statements)])))).had_error =
    (sema_visit_node (loop_depth_inc (sema_init (some (.program
      [.while_stmt condition (.block statements)])))) condition).had_error := by
  have hone : (loop_depth_inc (sema_init (some (.program
      [.while_stmt condition (.block statements)])))).loop_depth = 1 := by
    simp only [loop_depth_inc, sema_init]
    unfold SIZE_MODULUS
    decide
  have hlt : (loop_depth_inc (sema_init (some (.program
      [.while_stmt condition (.block statements)])))).loop_depth < SIZE_MODULUS := by
    rw [hone]; unfold SIZE_MODULUS; decide
  have hf := sema_visit_node_frame condition _ hlt
  have hd : (sema_visit_node (loop_depth_inc (sema_init (some (.program
      [.while_stmt condition (.block statements)])))) condition).loop_depth ≠ 0 := by
    rw [hf.2.1, hone]; decide
  simp only [sema_analyze, sema_visit, sema_visit_node, sema_visit_list]
  rw [show (sema_init (some (.program [.while_stmt condition (.block statements)]))).program =
    some (.program [.while_stmt condition (.block statements)]) from rfl]
  simp only [sema_visit, sema_visit_node, sema_visit_list]
  rw [sema_visit_list_break_continue statements h _ hd]
  exact (loop_depth_dec_fields _).2.2.2

/-- C27, the claim as it stands fails: the source `while (await x) \x7b break;
\x7d` is parsed to `While(Await(Identifier x), Block[Break])`, its body holds
one `break;` only, and `sema_analyze` on the program sets `had_error`: the
`await` of the condition is outside an async function. -/
theorem C27_await_in_condition :
    (lex_and_parse 10 "while (await x) \x7b break; \x7d").map (Except.map Prod.fst) =
      some (.ok (some (.program [.while_stmt
        (.await_expr ⟨"a.rose", 1, 8⟩ (.identifier "x"))
        (.block [.break_stmt ⟨"a.rose", 1, 24⟩ none])]))) ∧
    (sema_analyze (sema_init (some (.program [.while_stmt
        (.await_expr ⟨"a.rose", 1, 8⟩ (.identifier "x"))
        (.block [.break_stmt ⟨"a.rose", 1, 24⟩ none])])))).had_error = true := by
  decide!

/-- C27, amended: on `while ( c ) \x7b s1 ... sk \x7d`, where `parse_comma`
returns the node `condition` on c and `parse_statement` returns the nodes of
`body` on s1 ... sk, `parse_while` with more fuel than there are statements
returns the `While` node whose condition is `condition` and whose body is the
`Block` of these nodes in order, and leaves the parser behind the `\x7d`; and if
every one of these nodes is a `Break` or `Continue` node and the analysis of
the condition reports no error, `sema_analyze` on the program made of this
statement reports no error. -/
theorem C27_while_statement (rec : parse_rec) (fuel : Nat) (p p' : parser_t) (condition : Node)
    (body : List (Node × parser_t))
    (hwhile : p.current_is TOKEN_WHILE = true)
    (hleft : p.advance.current_is TOKEN_LEFT_PAREN = true)
    (hcondition : parse_comma fuel rec p.advance.advance = .ok (some condition, p'))
    (hright : p'.current_is TOKEN_RIGHT_PAREN = true)
    (hopen : p'.advance.current_is TOKEN_LEFT_BRACE = true)
    (hrun : statements_run rec [TOKEN_RIGHT_BRACE, TOKEN_EOF] p'.advance.advance body)
    (hclose : (run_end p'.advance.advance body).current_is TOKEN_RIGHT_BRACE = true)
    (hfuel : body.length < fuel) :
    parse_while fuel rec p =
      .ok (some (.while_stmt condition (.block (body.map Prod.fst))),
        (run_end p'.advance.advance body).advance) ∧
    ((∀ s ∈ body.map Prod.fst, is_break_continue s = true) →
      (sema_visit_node (loop_depth_inc (sema_init (some (.program
        [.while_stmt condition (.block (body.map Prod.fst))])))) condition).had_error = false →
      (sema_analyze (sema_init (some (.program
        [.while_stmt condition (.block (body.map Prod.fst))])))).had_error = false) :=
  ⟨parse_while_run rec fuel p p' condition body hwhile hleft hcondition hright hopen hrun hclose
      hfuel,
    fun hall hc => (sema_while_break_continue condition _ hall).trans hc⟩

/-- C27 amended, on `while (true) \x7b break; \x7d`: the parser returns
`While(Bool true, Block[Break])` and `sema_analyze` leaves `had_error` false. -/
theorem C27_while_statement_witness :
    (lex_and_parse 10 "while (true) \x7b break; \x7d").map (Except.map Prod.fst) =
      some (.ok (some (.program [.while_stmt (.boolean true)
        (.block [.break_stmt ⟨"a.rose", 1, 21⟩ none])]))) ∧
    (parse_while 5 (parse_fn 5) (parser_init while_true_break_tokens)).map Prod.fst =
      .ok (some (.while_stmt (.boolean true) (.block [.break_stmt ⟨"a.rose", 1, 21⟩ none]))) ∧
    (sema_analyze (sema_init (some (.program [.while_stmt (.boolean true)
        (.block [.break_stmt ⟨"a.rose", 1, 21⟩ none])])))).had_error = false :=
  have h := C27_while_statement (parse_fn 5) 5 (parser_init while_true_break_tokens)
    (parser_init while_true_break_tokens).advance.advance.advance (.boolean true)
    [(.break_stmt ⟨"a.rose", 1, 21⟩ none,
      (parser_init while_true_break_tokens).advance.advance.advance.advance.advance.advance.advance)]
    (by decide!) (by decide!) (by decide!) (by decide!) (by decide!)
    ⟨by decide!, by decide!, trivial⟩ (by decide!) (by decide!)
  ⟨by decide!, by rw [h.1]; rfl, h.2 (by decide!) (by decide!)⟩
/-! ## The parser: `switch` -/

theorem parser_match_current_not_in {p : parser_t} {types : List token_type_t}
    {type : token_type_t} (h : p.current_not_in types = true) (hmem : type ∈ types) :
    parser_match type p = .ok (false, p) := by
  unfold parser_t.current_not_in at h
  split at h
  · next t ht =>
    refine parser_match_miss ht (fun e => ?_)
    rw [e] at h
    simp [hmem] at h
  · exact absurd h (by simp)

theorem parser_match_other {p : parser_t} {type other : token_type_t}
    (h : p.current_is type = true) (hne : type ≠ other) :
    parser_match other p = .ok (false, p) := by
  unfold parser_t.current_is at h
  split at h
  · next t ht =>
    exact parser_match_miss ht (fun e => hne ((of_decide_eq_true h).symm.trans e))
  · exact absurd h (by simp)

theorem parse_switch_labels_succ (fuel : Nat) (rec : parse_rec) (n : Nat) (labels : List Node) :
    parse_switch_labels fuel rec (n + 1) labels = (do
      let some label_expr ← parse_comma fuel rec | return none
      let labels := labels ++ [label_expr]
      if !(← parser_match TOKEN_COLON) then
        PARSER_ERROR "Expected ':' after case expression, got '%s'"
        return none
      if (← parser_match TOKEN_CASE) then
        parse_switch_labels fuel rec n labels
      else
        return some labels) := rfl

/-- The loop over the labels of a section collects the labels of a run. -/
theorem parse_switch_labels_run (fuel : Nat) (rec : parse_rec) :
    ∀ (labels : List (Node × parser_t)) (n : Nat) (found : List Node) (p : parser_t),
      labels_run fuel rec p labels → labels.length ≤ n →
      parse_switch_labels fuel rec n found p =
        .ok (some (found ++ labels.map Prod.fst), labels_end p labels)
  | [], _, _, _, hrun, _ => by
    simp only [labels_run] at hrun
  | [(label, p')], n, found, p, hrun, hn => by
    obtain ⟨n, rfl⟩ : ∃ m, n = m + 1 := by
      simp only [List.length_cons] at hn
      exact ⟨n - 1, by omega⟩
    simp only [labels_run] at hrun
    obtain ⟨hlabel, hcolon, hnext⟩ := hrun
    rw [parse_switch_labels_succ]
    simp only [parse_bind_apply, parse_pure_apply, hlabel,
      parser_match_current_is hcolon,
      parser_match_current_not_in hnext (List.mem_singleton_self _), Bool.not_true,
      Bool.false_eq_true, if_false, labels_end, List.map_cons, List.map_nil]
  | (label, p') :: next :: more, n, found, p, hrun, hn => by
    obtain ⟨n, rfl⟩ : ∃ m, n = m + 1 := by
      simp only [List.length_cons] at hn
      exact ⟨n - 1, by omega⟩
    simp only [labels_run] at hrun
    obtain ⟨hlabel, hcolon, hcase, hrest⟩ := hrun
    rw [parse_switch_labels_succ]
    simp only [parse_bind_apply, parse_pure_apply, hlabel,
      parser_match_current_is hcolon, parser_match_current_is hcase, Bool.not_true,
      Bool.false_eq_true, if_false, if_true, labels_end]
    rw [parse_switch_labels_run fuel rec (next :: more) n _ _ hrest
      (by simp only [List.length_cons] at hn ⊢; omega)]
    simp only [List.map_cons, List.append_assoc, List.singleton_append]

theorem parse_switch_cases_succ (fuel : Nat) (rec : parse_rec) (n : Nat)
    (cases : List SwitchCase) :
    parse_switch_cases fuel rec (n + 1) cases = (do
      if (← current_type) ∈ [TOKEN_RIGHT_BRACE, TOKEN_EOF] then
        return some cases
      let mut labels : List Node := []
      let mut is_default := false
      if (← parser_match TOKEN_CASE) then
        let some parsed ← parse_switch_labels fuel rec fuel [] | return none
        labels := parsed
      else if (← parser_match TOKEN_DEFAULT) then
        is_default := true
        if !(← parser_match TOKEN_COLON) then
          PARSER_ERROR "Expected ':' after 'default' got '%s'"
          return none
      else
        PARSER_ERROR "Expected 'case' or 'default' got '%s'"
        return none
      let some body ← parse_statements rec
          [TOKEN_CASE, TOKEN_DEFAULT, TOKEN_RIGHT_BRACE, TOKEN_EOF] fuel []
        | return none
      parse_switch_cases fuel rec n
        (cases ++ [SwitchCase.mk labels (.block body) is_default])) := rfl

/-- Where a list of sections starts, a `case`, a `default` or the closing
brace stands. -/
theorem sections_start (fuel : Nat) (rec : parse_rec) (p : parser_t)
    (sections : List switch_section) (hrun : sections_run fuel rec p sections)
    (hclose : (sections_end p sections).current_is TOKEN_RIGHT_BRACE = true) :
    ∃ stop, stop ∈ section_stops ∧ p.current_is stop = true := by
  cases sections with
  | nil => exact ⟨TOKEN_RIGHT_BRACE, by decide, hclose⟩
  | cons s rest =>
    obtain ⟨hs, _⟩ := hrun
    cases s with
    | case labels body => exact ⟨TOKEN_CASE, by decide, hs.1.1⟩
    | default body => exact ⟨TOKEN_DEFAULT, by decide, hs.1.1⟩

/-- The loop over the sections collects the sections in order. -/
theorem parse_switch_cases_run (fuel : Nat) (rec : parse_rec) :
    ∀ (sections : List switch_section) (n : Nat) (cases : List SwitchCase) (p : parser_t),
      sections_run fuel rec p sections →
      (sections_end p sections).current_is TOKEN_RIGHT_BRACE = true →
      sections.length < n →
      (∀ s ∈ sections, s.labels.length ≤ fuel ∧ s.body.length < fuel) →
      parse_switch_cases fuel rec n cases p =
        .ok (some (cases ++ sections.map switch_section.node), sections_end p sections)
  | [], n, cases, p, _, hclose, hn, _ => by
    obtain ⟨n, rfl⟩ : ∃ m, n = m + 1 := ⟨n - 1, by simp only [List.length_nil] at hn; omega⟩
    simp only [sections_end] at hclose
    rw [parse_switch_cases_succ]
    simp only [parse_bind_apply, parse_pure_apply, current_type_current_is hclose,
      List.mem_cons, true_or, if_true, List.map_nil, List.append_nil, sections_end]
  | .case labels body :: rest, n, cases, p, hrun, hclose, hn, hfuel => by
    obtain ⟨n, rfl⟩ : ∃ m, n = m + 1 := ⟨n - 1, by simp only [List.length_cons] at hn; omega⟩
    obtain ⟨⟨⟨hcase, hlabels⟩, hbody⟩, hrest⟩ := hrun
    simp only [sections_end] at hclose
    obtain ⟨stop, hstop, hat⟩ := sections_start fuel rec _ rest hrest hclose
    have hf := hfuel _ (List.mem_cons_self _ _)
    simp only [switch_section.labels, switch_section.body] at hf
    simp only [section_end, section_body_start, switch_section.body] at hat hbody
    have hnot : TOKEN_CASE ∉ [TOKEN_RIGHT_BRACE, TOKEN_EOF] := by decide
    rw [parse_switch_cases_succ]
    simp only [parse_bind_apply, parse_pure_apply, current_type_current_is hcase, hnot,
      if_false, parser_match_current_is hcase, if_true,
      parse_switch_labels_run fuel rec labels fuel [] _ hlabels hf.1, List.nil_append,
      parse_statements_run rec section_stops stop hstop body fuel [] _ hbody hat hf.2,
      show [TOKEN_CASE, TOKEN_DEFAULT, TOKEN_RIGHT_BRACE, TOKEN_EOF] = section_stops from rfl]
    refine (parse_switch_cases_run fuel rec rest n _ _ hrest hclose
      (by simp only [List.length_cons] at hn; omega)
      (fun s hs => hfuel s (List.mem_cons_of_mem _ hs))).trans ?_
    simp only [sections_end, section_end, section_body_start, switch_section.body,
      List.map_cons, switch_section.node, List.append_assoc, List.singleton_append]
  | .default body :: rest, n, cases, p, hrun, hclose, hn, hfuel => by
    obtain ⟨n, rfl⟩ : ∃ m, n = m + 1 := ⟨n - 1, by simp only [List.length_cons] at hn; omega⟩
    obtain ⟨⟨⟨hdefault, hcolon⟩, hbody⟩, hrest⟩ := hrun
    simp only [sections_end] at hclose
    obtain ⟨stop, hstop, hat⟩ := sections_start fuel rec _ rest hrest hclose
    have hf := hfuel _ (List.mem_cons_self _ _)
    simp only [switch_section.labels, switch_section.body] at hf
    simp only [section_end, section_body_start, switch_section.body] at hat hbody
    have hnot : TOKEN_DEFAULT ∉ [TOKEN_RIGHT_BRACE, TOKEN_EOF] := by decide
    rw [parse_switch_cases_succ]
    simp only [parse_bind_apply, parse_pure_apply, current_type_current_is hdefault, hnot,
      if_false, parser_match_other hdefault (show TOKEN_DEFAULT ≠ TOKEN_CASE by decide),
      parser_match_current_is hdefault, parser_match_current_is hcolon, if_true,
      Bool.false_eq_true, Bool.not_true,
      parse_statements_run rec section_stops stop hstop body fuel [] _ hbody hat hf.2,
      List.nil_append,
      show [TOKEN_CASE, TOKEN_DEFAULT, TOKEN_RIGHT_BRACE, TOKEN_EOF] = section_stops from rfl]
    refine (parse_switch_cases_run fuel rec rest n _ _ hrest hclose
      (by simp only [List.length_cons] at hn; omega)
      (fun s hs => hfuel s (List.mem_cons_of_mem _ hs))).trans ?_
    simp only [sections_end, section_end, section_body_start, switch_section.body,
      List.map_cons, switch_section.node, List.append_assoc, List.singleton_append]

/-- C26: on `switch ( e ) \x7b sections \x7d`, where each section is written as
a maximal run of `case <expr>:` labels or as one `default:`, followed by
statements up to the next `case`, `default` or the closing brace,
`parse_switch` with enough fuel returns the `Switch` node that holds one
section for each section written, in order: a `case` section holds the nodes of
all labels of its run in order with `is_default` false, a `default` section
holds no label with `is_default` true, and the body of each is the `Block` of
the nodes of its statements in order. -/
theorem C26_switch_sections (fuel : Nat) (rec : parse_rec) (p p' : parser_t) (expr : Node)
    (sections : List switch_section)
    (hswitch : p.current_is TOKEN_SWITCH = true)
    (hleft : p.advance.current_is TOKEN_LEFT_PAREN = true)
    (hexpr : parse_expression fuel rec p.advance.advance = .ok (some expr, p'))
    (hright : p'.current_is TOKEN_RIGHT_PAREN = true)
    (hopen : p'.advance.current_is TOKEN_LEFT_BRACE = true)
    (hrun : sections_run fuel rec p'.advance.advance sections)
    (hclose : (sections_end p'.advance.advance sections).current_is TOKEN_RIGHT_BRACE = true)
    (hn : sections.length < fuel)
    (hfuel : ∀ s ∈ sections, s.labels.length ≤ fuel ∧ s.body.length < fuel) :
    parse_switch fuel rec p =
      .ok (some (.switch_stmt expr (sections.map switch_section.node)),
        (sections_end p'.advance.advance sections).advance) := by
  unfold parse_switch
  simp only [parse_bind_apply, parse_pure_apply, parser_match_current_is hswitch,
    parser_match_current_is hleft, hexpr, parser_match_current_is hright,
    parser_match_current_is hopen,
    parse_switch_cases_run fuel rec sections fuel [] _ hrun hclose hn hfuel,
    parser_match_current_is hclose, List.nil_append, Bool.not_true, Bool.false_eq_true,
    if_false]

/-- C26 on `switch (x) \x7b case 1: case 2: a; default: b; \x7d`: one section
with the labels 1 and 2 and the body `a;`, one `default` section with the body
`b;`. -/
theorem C26_switch_sections_witness :
    (parse_switch 6 (parse_fn 6) (parser_init switch_example_tokens)).map Prod.fst =
      .ok (some (.switch_stmt (.identifier "x")
        [.mk [.number (.strtold "1"), .number (.strtold "2")] (.block [.identifier "a"]) false,
         .mk [] (.block [.identifier "b"]) true])) := by
  rw [C26_switch_sections 6 (parse_fn 6) (parser_init switch_example_tokens)
    (parser_t.advance_by 3 (parser_init switch_example_tokens)) (.identifier "x")
    [.case [(.number (.strtold "1"), parser_t.advance_by 7 (parser_init switch_example_tokens)),
        (.number (.strtold "2"), parser_t.advance_by 10 (parser_init switch_example_tokens))]
      [(.identifier "a", parser_t.advance_by 13 (parser_init switch_example_tokens))],
     .default [(.identifier "b", parser_t.advance_by 17 (parser_init switch_example_tokens))]]
    (by decide!) (by decide!) (by decide!) (by decide!) (by decide!)
    ⟨⟨⟨by decide!, by decide!, by decide!, by decide!, by decide!, by decide!, by decide!⟩,
        by decide!, by decide!, trivial⟩,
      ⟨⟨by decide!, by decide!⟩, by decide!, by decide!, trivial⟩, trivial⟩
    (by decide!) (by decide) (by decide)]
  rfl
/-! ## Evaluation: members, the `Math` object and blocks -/

/-- The scan of the case `NODE_MEMBER` returns the value under the first key
equal to `key`. -/
theorem object_lookup_first : ∀ (keys : List String) (values : List value_t) (key : String)
    (i : Nat) (value : value_t), keys.get? i = some key →
    (∀ j, j < i → keys.get? j ≠ some key) → values.get? i = some value →
    object_lookup keys values key = some value
  | [], _, _, _, _, hk, _, _ => by simp at hk
  | _ :: _, [], _, _, _, _, _, hv => by simp at hv
  | k :: ks, v :: vs, key, 0, value, hk, _, hv => by
    simp only [List.get?_cons_zero, Option.some.injEq] at hk hv
    simp only [object_lookup, hk, hv, if_true]
  | k :: ks, v :: vs, key, i + 1, value, hk, hfirst, hv => by
    have h0 : k ≠ key := fun e => hfirst 0 (Nat.succ_pos i) (by simp [e])
    simp only [object_lookup, h0, if_false]
    exact object_lookup_first ks vs key i value (by simpa using hk)
      (fun j hj => by simpa using hfirst (j + 1) (Nat.succ_lt_succ hj)) (by simpa using hv)

/-- The scan finds nothing when no key is equal to `key`. -/
theorem object_lookup_none : ∀ (keys : List String) (values : List value_t) (key : String),
    key ∉ keys → object_lookup keys values key = none
  | [], _, _, _ => by simp only [object_lookup]
  | _ :: _, [], _, _ => by simp only [object_lookup]
  | k :: ks, v :: vs, key, h => by
    have h0 : k ≠ key := fun e => h (e ▸ List.mem_cons_self _ _)
    simp only [object_lookup, h0, if_false]
    exact object_lookup_none ks vs key (fun hm => h (List.mem_cons_of_mem _ hm))

/-- What the scan returns is stored under a key equal to `key`. -/
theorem object_lookup_some : ∀ (keys : List String) (values : List value_t) (key : String)
    (value : value_t), object_lookup keys values key = some value →
    ∃ i, keys.get? i = some key ∧ values.get? i = some value
  | [], _, _, _, h => by simp [object_lookup] at h
  | _ :: _, [], _, _, h => by simp [object_lookup] at h
  | k :: ks, v :: vs, key, value, h => by
    simp only [object_lookup] at h
    split at h
    · next hk =>
      simp only [Option.some.injEq] at h
      exact ⟨0, by simp [hk], by simp [h]⟩
    · obtain ⟨i, hi, hv⟩ := object_lookup_some ks vs key value h
      exact ⟨i + 1, by simpa using hi, by simpa using hv⟩

/-- The case `NODE_MEMBER` on a property that is an `Identifier` node, when the
object of the `Member` node evaluates to `obj_val`: if `obj_val` is an object,
the result is the value stored under the first key equal to `key`, and when
no key is equal to `key` the evaluation stops with `Object has no member` and
the key; if `obj_val` is not an object the evaluation stops with `Trying to
access member of a non-object`. Whatever is returned is a value stored in the
object under that key, so no case yields `undefined` for a key that is
missing. -/
theorem eval_member_identifier (ctx ctx' : eval_context_t) (object : Node) (key : String)
    (obj_val : value_t) (h : eval_node ctx object = .ok (obj_val, ctx')) :
    (∀ keys values capacity i value, obj_val = .object keys values capacity →
      keys.get? i = some key → (∀ j, j < i → keys.get? j ≠ some key) →
      values.get? i = some value →
      eval_node ctx (.member object (some (.identifier key))) = .ok (value, ctx')) ∧
    (∀ keys values capacity, obj_val = .object keys values capacity → key ∉ keys →
      eval_node ctx (.member object (some (.identifier key))) =
        .error (.todo_s "Object has no member '%s'" key)) ∧
    (obj_val.type ≠ .VALUE_OBJECT →
      eval_node ctx (.member object (some (.identifier key))) =
        .error (.todo "Trying to access member of a non-object")) ∧
    (∀ value ctx'', eval_node ctx (.member object (some (.identifier key))) = .ok (value, ctx'') →
      ∃ keys values capacity i, obj_val = .object keys values capacity ∧
        keys.get? i = some key ∧ values.get? i = some value) := by
  refine ⟨fun keys values capacity i value ho hk hfirst hv => ?_,
    fun keys values capacity ho hk => ?_, fun ht => ?_, fun value ctx'' hr => ?_⟩
  · subst ho
    simp only [eval_node, h, object_lookup_first keys values key i value hk hfirst hv]
  · subst ho
    simp only [eval_node, h, object_lookup_none keys values key hk]
  · cases obj_val <;> simp only [value_t.type, ne_eq, not_true_eq_false] at ht <;>
      simp only [eval_node, h]
  · cases obj_val <;> simp only [eval_node, h] at hr <;> try exact absurd hr (by simp)
    next keys values capacity =>
      cases hl : object_lookup keys values key with
      | none => rw [hl] at hr; exact absurd hr (by simp)
      | some v =>
        rw [hl] at hr
        simp only [Except.ok.injEq, Prod.mk.injEq] at hr
        obtain ⟨i, hi, hv⟩ := object_lookup_some keys values key v hl
        exact ⟨keys, values, capacity, i, rfl, hi, hr.1 ▸ hv⟩

/-- The case `NODE_MEMBER` on `o.b` and `o.c` where `o` is bound to the object
with the keys `a` and `b`. -/
theorem eval_member_identifier_example :
    eval_node ⟨.root [⟨"o", .object ["a", "b"] [.null, .boolean true] 8⟩] 8, false⟩
        (.member (.identifier "o") (some (.identifier "b"))) =
      .ok (.boolean true, ⟨.root [⟨"o", .object ["a", "b"] [.null, .boolean true] 8⟩] 8, false⟩) ∧
    eval_node ⟨.root [⟨"o", .object ["a", "b"] [.null, .boolean true] 8⟩] 8, false⟩
        (.member (.identifier "o") (some (.identifier "c"))) =
      .error (.todo_s "Object has no member '%s'" "c") :=
  have h := eval_member_identifier
    ⟨.root [⟨"o", .object ["a", "b"] [.null, .boolean true] 8⟩] 8, false⟩
    ⟨.root [⟨"o", .object ["a", "b"] [.null, .boolean true] 8⟩] 8, false⟩
    (.identifier "o")
  ⟨(h "b" (.object ["a", "b"] [.null, .boolean true] 8) (by decide!)).1
      ["a", "b"] [.null, .boolean true] 8 1 (.boolean true) rfl (by decide)
      (by decide) (by decide!),
    (h "c" (.object ["a", "b"] [.null, .boolean true] 8) (by decide!)).2.1
      ["a", "b"] [.null, .boolean true] 8 rfl (by decide)⟩

/-- The case `NODE_MEMBER` reads `node->member.property->identifier` without a
look at the type of the property: on an object, a property that is not an
`Identifier` node makes it read a member of the union that the node does not
hold (or a `NULL` node). -/
theorem eval_member_not_identifier (ctx ctx' : eval_context_t) (object : Node)
    (property : Option Node) (keys : List String) (values : List value_t) (capacity : Nat)
    (h : eval_node ctx object = .ok (.object keys values capacity, ctx'))
    (hp : ∀ key, property ≠ some (.identifier key)) :
    eval_node ctx (.member object property) = .error .wrong_node := by
  rcases property with _ | node
  · simp only [eval_node, h]
  · cases node <;> simp only [eval_node, h]
    next key => exact absurd rfl (hp key)

/-- C31, what the code does: `parse_postfix` stores in `member.property` what
`parse_identifier` returns, and that is a `Number` node for a name that starts
with `NaN` or with `Infinity`. The sources `Math.NaN;` and `Math.Infinity;` are
parsed to a `Member` node whose property is a `Number` node, and the case
`NODE_MEMBER`, which reads `property->identifier` of any property, reads on
them a member of the union that the node does not hold: the evaluation ends
with none of the three outcomes (a stored value, `Object has no member`,
`Trying to access member of a non-object`). This holds for every `Member`
node with a `Number` property whose object evaluates to an object. With a
property that is an `Identifier` node the three outcomes are what happens, as on
`Math.PI;` and `Math.pi;`. -/
theorem C31_member_evaluation :
    (lex_and_parse 10 "Math.NaN;").map (Except.map Prod.fst) =
      some (.ok (some (.program [.member (.identifier "Math") (some (.number .nan))]))) ∧
    eval_program eval_init
        (some (.program [.member (.identifier "Math") (some (.number .nan))])) =
      .error .wrong_node ∧
    (lex_and_parse 10 "Math.Infinity;").map (Except.map Prod.fst) =
      some (.ok (some (.program [.member (.identifier "Math") (some (.number .infinity))]))) ∧
    eval_program eval_init
        (some (.program [.member (.identifier "Math") (some (.number .infinity))])) =
      .error .wrong_node ∧
    (∀ (ctx ctx' : eval_context_t) (object : Node) (number : number_t) (keys : List String)
        (values : List value_t) (capacity : Nat),
      eval_node ctx object = .ok (.object keys values capacity, ctx') →
      eval_node ctx (.member object (some (.number number))) = .error .wrong_node) ∧
    (lex_and_parse 10 "Math.PI;").map (Except.map Prod.fst) =
      some (.ok (some (.program [.member (.identifier "Math") (some (.identifier "PI"))]))) ∧
    (eval_program eval_init
        (some (.program [.member (.identifier "Math") (some (.identifier "PI"))]))).map
        (fun r => r.1) = .ok .number ∧
    eval_program eval_init
        (some (.program [.member (.identifier "Math") (some (.identifier "pi"))])) =
      .error (.todo_s "Object has no member '%s'" "pi") := by
  refine ⟨by decide!, by decide!, by decide!, by decide!, ?_, by decide!, by decide!,
    by decide!⟩
  intro ctx ctx' object number keys values capacity h
  exact eval_member_not_identifier ctx ctx' object _ keys values capacity h
    (fun key e => by cases e)

/-- C32: the object `eval_program` builds holds the nineteen keys in the order
of the calls of `object_set`, each once, with a number under `PI`, `E` and
`PHI` and a native function under the sixteen others; in a context whose scope
is live `eval_program` binds `Math` to this object in the current scope before
it runs the statements, for the empty program and for no program as well. -/
theorem C32_math_object (ctx : eval_context_t) (hlive : ctx.released = false) :
    math_object = .object
      ["PI", "E", "PHI", "sin", "cos", "tan", "asin", "acos", "atan", "exp", "log", "sqrt",
        "abs", "floor", "ceil", "min", "max", "sign", "random"]
      [.number, .number, .number, .function .math_sin, .function .math_cos,
        .function .math_tan, .function .math_asin, .function .math_acos,
        .function .math_atan, .function .math_exp, .function .math_log,
        .function .math_sqrt, .function .math_abs, .function .math_floor,
        .function .math_ceil, .function .math_min, .function .math_max,
        .function .math_sign, .function .math_random] 32 ∧
    env_get_value (env_set ctx.current_scope "Math" math_object) "Math" = some math_object ∧
    (∀ statements, eval_program ctx (some (.program statements)) =
      eval_statements { ctx with current_scope := env_set ctx.current_scope "Math" math_object }
        value_undefined statements) ∧
    eval_program ctx (some (.program [])) = .ok (value_undefined,
      { ctx with current_scope := env_set ctx.current_scope "Math" math_object }) ∧
    eval_program ctx none = .ok (value_undefined,
      { ctx with current_scope := env_set ctx.current_scope "Math" math_object }) := by
  refine ⟨by decide!, env_get_value_set_self _ _ _, fun statements => ?_, ?_, ?_⟩
  · simp only [eval_program, hlive, Bool.false_eq_true, if_false]
  · simp only [eval_program, hlive, Bool.false_eq_true, if_false, eval_statements]
  · simp only [eval_program, hlive, Bool.false_eq_true, if_false]

/-- C32 in the context `eval_init` makes: after `eval_program` on the empty
program the member `Math.random` is a function and `Math.PI` a number. -/
theorem C32_math_object_witness :
    (eval_program eval_init (some (.program
      [.member (.identifier "Math") (some (.identifier "random"))]))).map (fun r => r.1) =
      .ok (.function .math_random) ∧
    (eval_program eval_init (some (.program
      [.member (.identifier "Math") (some (.identifier "PI"))]))).map (fun r => r.1) =
      .ok .number :=
  have h := (C32_math_object eval_init rfl).2.2.1
  ⟨by rw [h]; decide!, by rw [h]; decide!⟩

/-- C33: in every context whose scope is live the evaluation of a block runs the
statements in the context it was given (the scope `env_enter_scope` makes is
not stored) and releases the scope `current_scope` points to, which stays in
the context: after the empty block the scope of the context is released. The
source `\x7b null; \x7d Math;` is parsed to a block and an identifier, and the
evaluation of the identifier after the block reads the released scope. -/
theorem C33_block_releases_current_scope :
    (∀ (ctx : eval_context_t), ctx.released = false →
      eval_node ctx (.block []) = .ok (value_undefined, { ctx with released := true })) ∧
    (∀ (ctx : eval_context_t) (statements : List Node),
      eval_node ctx (.block statements) =
        match eval_statements ctx value_undefined statements with
        | .error e => .error e
        | .ok (result, ctx') =>
          if ctx'.released then .error .scope_released
          else .ok (result, { ctx' with released := true })) ∧
    (lex_and_parse 10 "\x7b null; \x7d Math;").map (Except.map Prod.fst) =
      some (.ok (some (.program [.block [.null], .identifier "Math"]))) ∧
    eval_program eval_init (some (.program [.block [.null], .identifier "Math"])) =
      .error .scope_released := by
  refine ⟨fun ctx h => ?_, fun ctx statements => ?_, by decide!, by decide!⟩
  · simp only [eval_node, eval_statements, h, Bool.false_eq_true, if_false]
  · simp only [eval_node]
    try rfl
/-! ## The parser: locations -/

/-- C36: in the source `while (true) \x7b break; \x7d` the keyword `break` is
the token at line 1, column 16, and the `Break` node the parser returns has the
location line 1, column 21, that of the `;` behind the keyword; on `break;`
alone the diagnostic of `sema_analyze` carries line 1, column 6, where the `;`
stands. The `Continue` node of `continue;` has the location of its keyword. -/
theorem C36_break_location :
    (lexer_init (some "a.rose") "while (true) \x7b break; \x7d".data).map
        (fun lex => lex.tokens.get? 5) =
      some (some ⟨"break", 5, TOKEN_BREAK, ⟨"a.rose", 1, 16⟩⟩) ∧
    (lex_and_parse 10 "while (true) \x7b break; \x7d").map (Except.map Prod.fst) =
      some (.ok (some (.program [.while_stmt (.boolean true)
        (.block [.break_stmt ⟨"a.rose", 1, 21⟩ none])]))) ∧
    (lex_and_parse 10 "break;").map (Except.map Prod.fst) =
      some (.ok (some (.program [.break_stmt ⟨"a.rose", 1, 6⟩ none]))) ∧
    (sema_analyze (sema_init (some (.program
      [.break_stmt ⟨"a.rose", 1, 6⟩ none])))).diagnostics =
      [(.break_not_in_loop, ⟨"a.rose", 1, 6⟩)] ∧
    (lex_and_parse 10 "continue;").map (Except.map Prod.fst) =
      some (.ok (some (.program [.continue_stmt ⟨"a.rose", 1, 1⟩ none]))) := by
  decide!
/-! ## The parser: the statements of a program -/

theorem parse_program_loop_succ (fuel n : Nat) (statements : List Node) :
    parse_program_loop fuel (n + 1) statements = (do
      if (← current_type) = TOKEN_EOF then
        return some (.program statements)
      let some stmt ← parse_statement fuel (parse_fn fuel) | return none
      parse_program_loop fuel n (statements ++ [stmt])) := rfl

/-- The loop of `parse_program` collects the statements of a run that ends at
the EOF token. -/
theorem parse_program_loop_run (fuel : Nat) :
    ∀ (body : List (Node × parser_t)) (n : Nat) (statements : List Node) (p : parser_t),
      statements_run (parse_fn (fuel + 1)) [TOKEN_EOF] p body →
      (run_end p body).current_is TOKEN_EOF = true → body.length < n →
      parse_program_loop fuel n statements p =
        .ok (some (.program (statements ++ body.map Prod.fst)), run_end p body)
  | [], n, statements, p, _, hend, hn => by
    obtain ⟨n, rfl⟩ : ∃ m, n = m + 1 := ⟨n - 1, by simp only [List.length_nil] at hn; omega⟩
    simp only [run_end] at hend
    rw [parse_program_loop_succ]
    simp only [parse_bind_apply, parse_pure_apply, current_type_current_is hend, if_true,
      List.map_nil, List.append_nil, run_end]
  | (stmt, p') :: rest, n, statements, p, hrun, hend, hn => by
    obtain ⟨n, rfl⟩ : ∃ m, n = m + 1 := ⟨n - 1, by simp only [List.length_cons] at hn; omega⟩
    obtain ⟨hc, hs, hrest⟩ := hrun
    have hs' : parse_statement fuel (parse_fn fuel) p = .ok (some stmt, p') := hs
    obtain ⟨type, hty, hnot⟩ := current_type_not_in hc
    have hne : type ≠ TOKEN_EOF := fun e => hnot (e ▸ List.mem_singleton_self _)
    simp only [run_end] at hend
    rw [parse_program_loop_succ]
    simp only [parse_bind_apply, parse_pure_apply, hty, hne, if_false, hs', run_end,
      List.map_cons]
    rw [parse_program_loop_run fuel rest n _ p' hrest hend
      (by simp only [List.length_cons] at hn; omega)]
    simp only [List.append_assoc, List.singleton_append]

/-- C1 fails where a statement takes the `;` that follows it: the tokens of
`import 'm'` are a statement, they parse to a program of one `Import` node,
the token `;` is a statement, it parses to a program of one `Empty` node, and
the two together, `import 'm';`, parse to a program of one statement, the
`Import` node, not of two. -/
theorem C1_import_takes_semicolon :
    (lex_and_parse 10 "import 'm'").map (Except.map Prod.fst) =
      some (.ok (some (.program [.import_stmt "m" none []]))) ∧
    (lex_and_parse 10 ";").map (Except.map Prod.fst) =
      some (.ok (some (.program [.empty ⟨"a.rose", 1, 1⟩]))) ∧
    (lex_and_parse 10 "import 'm';").map (Except.map Prod.fst) =
      some (.ok (some (.program [.import_stmt "m" none []]))) := by
  decide!

/-- C1, amended: when `parse_statement`, called each time from where the call
before it has stopped, returns the k nodes of `body` and then stands at the
EOF token, `parse_program` with more fuel than there are statements returns
the `Program` node that holds exactly these k nodes in the order of the
source, and leaves the parser at the EOF token. -/
theorem C1_program_statements (fuel : Nat) (p : parser_t) (body : List (Node × parser_t))
    (hrun : statements_run (parse_fn (fuel + 1)) [TOKEN_EOF] p body)
    (hend : (run_end p body).current_is TOKEN_EOF = true) (hfuel : body.length < fuel) :
    parse_program fuel p = .ok (some (.program (body.map Prod.fst)), run_end p body) := by
  unfold parse_program
  rw [parse_program_loop_run fuel body fuel [] p hrun hend hfuel]
  rfl

/-- C1 on `let x = 2; let y = 3; x ** y;`: the program holds the declaration of
x with the number 2, the declaration of y with the number 3 and
`Binary(**, Identifier x, Identifier y)`. -/
theorem C1_program_statements_witness :
    (lex_and_parse 10 "let x = 2; let y = 3; x ** y;").map (Except.map Prod.fst) =
      some (.ok (some (.program [
        .declaration ⟨"let", 3, TOKEN_LET, ⟨"a.rose", 1, 1⟩⟩ [.identifier "x"]
          [some (.number (.strtold "2"))],
        .declaration ⟨"let", 3, TOKEN_LET, ⟨"a.rose", 1, 12⟩⟩ [.identifier "y"]
          [some (.number (.strtold "3"))],
        .binary ⟨"**", 2, TOKEN_STAR_STAR, ⟨"a.rose", 1, 25⟩⟩ (.identifier "x")
          (.identifier "y")]))) ∧
    (parse_program 10 (parser_init end_to_end_tokens)).map Prod.fst =
      .ok (some (.program [
        .declaration ⟨"let", 3, TOKEN_LET, ⟨"a.rose", 1, 1⟩⟩ [.identifier "x"]
          [some (.number (.strtold "2"))],
        .declaration ⟨"let", 3, TOKEN_LET, ⟨"a.rose", 1, 12⟩⟩ [.identifier "y"]
          [some (.number (.strtold "3"))],
        .binary ⟨"**", 2, TOKEN_STAR_STAR, ⟨"a.rose", 1, 25⟩⟩ (.identifier "x")
          (.identifier "y")])) := by
  refine ⟨by decide!, ?_⟩
  rw [C1_program_statements 10 (parser_init end_to_end_tokens)
    [(.declaration ⟨"let", 3, TOKEN_LET, ⟨"a.rose", 1, 1⟩⟩ [.identifier "x"]
        [some (.number (.strtold "2"))], parser_t.advance_by 5 (parser_init end_to_end_tokens)),
     (.declaration ⟨"let", 3, TOKEN_LET, ⟨"a.rose", 1, 12⟩⟩ [.identifier "y"]
        [some (.number (.strtold "3"))], parser_t.advance_by 10 (parser_init end_to_end_tokens)),
     (.binary ⟨"**", 2, TOKEN_STAR_STAR, ⟨"a.rose", 1, 25⟩⟩ (.identifier "x") (.identifier "y"),
       parser_t.advance_by 14 (parser_init end_to_end_tokens))]
    ⟨by decide!, by decide!, by decide!, by decide!, by decide!, by decide!, trivial⟩
    (by decide!) (by decide)]
  rfl

/-! ## The parser reads no token that is not there -/

theorem ends_with_eof_reads {p : parser_t} (h : p.ends_with_eof) : ∃ t, p.reads t := by
  obtain ⟨pre, eof, hr, -, -⟩ := id h
  cases hc : p.current with
  | none =>
    unfold parser_t.rest at hr
    rw [hc] at hr
    exact absurd hr (by simp)
  | some t => exact ⟨t, hc, h⟩

theorem reads_advance {p : parser_t} {t : token_t} (h : p.reads t) (hne : t.type ≠ TOKEN_EOF) :
    ∃ t1, p.advance.reads t1 ∧ p.advance.previous = some t ∧ parser_peek p = .ok (t1, p) := by
  obtain ⟨hc, pre, eof, hr, heof, hpre⟩ := h
  have hrest : p.rest = t :: p.tokens.drop p.index := by
    unfold parser_t.rest
    rw [hc]
  cases pre with
  | nil =>
    rw [hrest] at hr
    simp only [List.nil_append, List.cons.injEq] at hr
    exact absurd (hr.1 ▸ heof) hne
  | cons a pre' =>
    obtain ⟨t1, r, hpre'⟩ : ∃ t1 r, pre' ++ [eof] = t1 :: r := by
      cases pre' with
      | nil => exact ⟨eof, [], rfl⟩
      | cons b c => exact ⟨b, c ++ [eof], rfl⟩
    have hr' : p.rest = t :: t1 :: r := by
      rw [hrest] at hr ⊢
      simp only [List.cons_append, List.cons.injEq] at hr
      rw [hr.2, hpre']
    have ha := advance_rest hr'
    refine ⟨t1, ⟨rest_current ha, pre', eof, ?_, heof, ?_⟩, ?_, parser_peek_eq hr'⟩
    · rw [ha, hpre']
    · intro x hx
      exact hpre x (List.mem_cons_of_mem _ hx)
    · rw [(advance_fields p).2.2, hc]

theorem reads_reported {p : parser_t} {t : token_t} (h : p.reads t) (messages : List String) :
    (p.reported messages).reads t := h

theorem safe_bind {α β : Type} {m : parse_m α} {f : α → parse_m β}
    {post : β → parser_t → Prop} {p : parser_t}
    (h : m.safe (fun a p1 => (f a).safe post p1) p) : (m >>= f).safe post p := by
  unfold parse_m.safe at h ⊢
  rw [parse_bind_apply]
  cases hm : m p with
  | ok r =>
    obtain ⟨a, p1⟩ := r
    rw [hm] at h
    exact h
  | error e =>
    rw [hm] at h
    exact h

theorem safe_of_eq {α : Type} {m : parse_m α} {post : α → parser_t → Prop} {p p1 : parser_t}
    {a : α} (h : m p = .ok (a, p1)) (hpost : post a p1) : m.safe post p := by
  unfold parse_m.safe
  rw [h]
  exact hpost

theorem safe_bind_eq {α β : Type} {m : parse_m α} {f : α → parse_m β}
    {post : β → parser_t → Prop} {p p1 : parser_t} {a : α}
    (h : m p = .ok (a, p1)) (hf : (f a).safe post p1) : (m >>= f).safe post p :=
  safe_bind (safe_of_eq h hf)

theorem safe_pure {α : Type} {a : α} {post : α → parser_t → Prop} {p : parser_t}
    (h : post a p) : (pure a : parse_m α).safe post p := by
  unfold parse_m.safe
  exact h

theorem safe_ite {α : Type} {c : Prop} [Decidable c] {t e : parse_m α}
    {post : α → parser_t → Prop} {p : parser_t}
    (ht : c → t.safe post p) (he : ¬ c → e.safe post p) :
    (if c then t else e).safe post p := by
  by_cases h : c
  · rw [if_pos h]
    exact ht h
  · rw [if_neg h]
    exact he h

theorem safe_mono {α : Type} {m : parse_m α} {post post' : α → parser_t → Prop}
    {p : parser_t} (h : m.safe post p) (hi : ∀ a p', post a p' → post' a p') :
    m.safe post' p := by
  unfold parse_m.safe at h ⊢
  split
  · next a p' heq =>
    rw [heq] at h
    exact hi a p' h
  · next e heq =>
    rw [heq] at h
    exact h

theorem safe_stop_unreachable {α : Type} (post : α → parser_t → Prop) (p : parser_t) :
    (parse_m.stop .unreachable : parse_m α).safe post p := by
  unfold parse_m.safe
  exact ⟨by decide, by decide⟩

theorem safe_stop_out_of_fuel {α : Type} (post : α → parser_t → Prop) (p : parser_t) :
    (parse_m.stop .out_of_fuel : parse_m α).safe post p := by
  unfold parse_m.safe
  exact ⟨by decide, by decide⟩

theorem safe_stop_uninitialised_node {α : Type} (post : α → parser_t → Prop) (p : parser_t) :
    (parse_m.stop .uninitialised_node : parse_m α).safe post p := by
  unfold parse_m.safe
  exact ⟨by decide, by decide⟩

/-! ### The primitive steps -/

theorem safe_bind_current_type {β : Type} {f : token_type_t → parse_m β}
    {post : β → parser_t → Prop} {p : parser_t} {t : token_t} (h : p.reads t)
    (hf : (f t.type).safe post p) : (current_type >>= f).safe post p :=
  safe_bind_eq (current_type_eq h.1) hf

theorem safe_bind_current {β : Type} {f : token_t → parse_m β}
    {post : β → parser_t → Prop} {p : parser_t} {t : token_t} (h : p.reads t)
    (hf : (f t).safe post p) : (parser_current >>= f).safe post p :=
  safe_bind_eq (parser_current_eq h.1) hf

theorem safe_bind_check {β : Type} {f : Bool → parse_m β}
    {post : β → parser_t → Prop} {p : parser_t} {t : token_t} (type : token_type_t)
    (h : p.reads t) (hf : (f (decide (t.type = type))).safe post p) :
    (parser_check type >>= f).safe post p :=
  safe_bind_eq (parser_check_eq h.1 type) hf

theorem safe_bind_advance {β : Type} {f : Unit → parse_m β}
    {post : β → parser_t → Prop} {p : parser_t} {t : token_t} (h : p.reads t)
    (hne : t.type ≠ TOKEN_EOF)
    (hf : ∀ t1, p.advance.reads t1 → p.advance.previous = some t →
      (f ()).safe post p.advance) :
    (parser_advance >>= f).safe post p := by
  obtain ⟨t1, h1, h2, -⟩ := reads_advance h hne
  exact safe_bind_eq (parser_advance_eq p) (hf t1 h1 h2)

theorem safe_bind_match {β : Type} {f : Bool → parse_m β}
    {post : β → parser_t → Prop} {p : parser_t} {t : token_t} (type : token_type_t)
    (htype : type ≠ TOKEN_EOF) (h : p.reads t)
    (hhit : ∀ p1 t1, p1.reads t1 → p1.previous = some t → (f true).safe post p1)
    (hmiss : t.type ≠ type → (f false).safe post p) :
    (parser_match type >>= f).safe post p := by
  by_cases e : t.type = type
  · obtain ⟨t1, h1, h2, -⟩ := reads_advance h (e ▸ htype)
    exact safe_bind_eq (parser_match_hit_type h.1 e) (hhit _ t1 h1 h2)
  · exact safe_bind_eq (parser_match_miss h.1 e) (hmiss e)

theorem safe_bind_match_any {β : Type} {f : Bool → parse_m β}
    {post : β → parser_t → Prop} {p : parser_t} {t : token_t} (types : List token_type_t)
    (htypes : TOKEN_EOF ∉ types) (h : p.reads t)
    (hhit : ∀ p1 t1, p1.reads t1 → p1.previous = some t → (f true).safe post p1)
    (hmiss : t.type ∉ types → (f false).safe post p) :
    (parser_match_any types >>= f).safe post p := by
  by_cases e : t.type ∈ types
  · obtain ⟨t1, h1, h2, -⟩ := reads_advance h (fun e' => htypes (e' ▸ e))
    exact safe_bind_eq (parser_match_any_hit h.1 types e) (hhit _ t1 h1 h2)
  · exact safe_bind_eq (parser_match_any_miss h.1 types e) (hmiss e)

theorem safe_bind_previous {β : Type} {f : token_t → parse_m β}
    {post : β → parser_t → Prop} {p : parser_t} {t : token_t} (h : p.previous = some t)
    (hf : (f t).safe post p) : (parser_previous >>= f).safe post p := by
  refine safe_bind_eq ?_ hf
  unfold parser_previous
  rw [h]

theorem safe_bind_peek {β : Type} {f : token_t → parse_m β}
    {post : β → parser_t → Prop} {p : parser_t} {t : token_t} (h : p.reads t)
    (hne : t.type ≠ TOKEN_EOF)
    (hf : ∀ t1, p.advance.reads t1 → (f t1).safe post p) :
    (parser_peek >>= f).safe post p := by
  obtain ⟨t1, h1, -, h3⟩ := reads_advance h hne
  exact safe_bind_eq h3 (hf t1 h1)

theorem safe_bind_report {β : Type} {f : Unit → parse_m β}
    {post : β → parser_t → Prop} {p : parser_t} {t : token_t} (message : String)
    (h : p.reads t) (hf : ∀ p1, p1.reads t → (f ()).safe post p1) :
    (report message >>= f).safe post p :=
  safe_bind_eq (report_eq message p) (hf _ (reads_reported h _))

theorem safe_bind_ERROR {β : Type} {f : Unit → parse_m β}
    {post : β → parser_t → Prop} {p : parser_t} {t : token_t} (message : String)
    (h : p.reads t) (hf : ∀ p1, p1.reads t → (f ()).safe post p1) :
    (ERROR message >>= f).safe post p :=
  safe_bind_report message h hf

theorem safe_bind_PARSER_ERROR {β : Type} {f : Unit → parse_m β}
    {post : β → parser_t → Prop} {p : parser_t} {t : token_t} (message : String)
    (h : p.reads t) (hf : ∀ p1, p1.reads t → (f ()).safe post p1) :
    (PARSER_ERROR message >>= f).safe post p :=
  safe_bind_eq (PARSER_ERROR_eq h.1 message) (hf _ (reads_reported h _))

theorem safe_bind_sub {α β : Type} {m : parse_m α} {f : α → parse_m β}
    {post : β → parser_t → Prop} {p : parser_t}
    (hm : m.safe (fun _ p1 => p1.ends_with_eof) p)
    (hf : ∀ a p1 t1, p1.reads t1 → (f a).safe post p1) : (m >>= f).safe post p := by
  refine safe_bind (safe_mono hm ?_)
  intro a p1 h1
  obtain ⟨t1, ht1⟩ := ends_with_eof_reads h1
  exact hf a p1 t1 ht1

/-- A step that returns in a parser with a current token. -/
theorem safe_done {α : Type} {a : α} {p : parser_t} {t : token_t} (h : p.reads t) :
    (pure a : parse_m α).safe (fun _ p' => p'.ends_with_eof) p :=
  safe_pure h.2

theorem safe_bind_pure {α β : Type} {a : α} {f : α → parse_m β}
    {post : β → parser_t → Prop} {p : parser_t} (hf : (f a).safe post p) :
    ((pure a : parse_m α) >>= f).safe post p :=
  safe_bind (safe_pure hf)

/-- A call in the last place of a block inside a block. -/
theorem safe_sub {α β : Type} {m : parse_m α} {f : α → parse_m β}
    {post : β → parser_t → Prop} {p : parser_t}
    (hm : m.safe (fun _ p1 => p1.ends_with_eof) p)
    (hf : ∀ a p1 t1, p1.reads t1 → (f a).safe post p1) :
    m.safe (fun a p1 => (f a).safe post p1) p := by
  refine safe_mono hm ?_
  intro a p1 h1
  obtain ⟨t1, ht1⟩ := ends_with_eof_reads h1
  exact hf a p1 t1 ht1

set_option linter.unusedTactic false
set_option linter.unreachableTactic false

/-! ### The functions of the parser -/

theorem rec_safe_reads {rec : parse_rec} (hrec : rec_safe rec) (c : parse_call) {p : parser_t}
    {t : token_t} (h : p.reads t) : (rec c).safe (fun _ p' => p'.ends_with_eof) p :=
  hrec c p h.2

theorem parse_number_safe {p : parser_t} {t : token_t} (h : p.reads t) :
    (parse_number).safe (fun _ p' => p'.ends_with_eof) p := by
  unfold parse_number
  try simp only []
  repeat' first
    | with_reducible exact safe_done ‹_›
    | with_reducible exact safe_stop_unreachable _ _
    | with_reducible exact safe_stop_out_of_fuel _ _
    | with_reducible exact safe_stop_uninitialised_node _ _
    | with_reducible refine safe_bind_pure ?_
    | with_reducible refine safe_bind_current_type ‹_› ?_
    | with_reducible refine safe_bind_current ‹_› ?_
    | with_reducible refine safe_bind_check _ ‹_› ?_
    | with_reducible refine safe_bind_match _ (by decide) ‹_› (fun _ _ _ _ => ?_) (fun _ => ?_)
    | with_reducible refine safe_bind_match_any _ (by decide) ‹_› (fun _ _ _ _ => ?_) (fun _ => ?_)
    | with_reducible refine safe_bind_previous ‹_› ?_
    | ((with_reducible refine safe_bind_advance ‹_› ?_ (fun _ _ _ => ?_)) <;> first | (intro e; simp_all; done) | skip)
    | ((with_reducible refine safe_bind_peek ‹_› ?_ (fun _ _ => ?_)) <;> first | (intro e; simp_all; done) | skip)
    | with_reducible refine safe_bind_report _ ‹_› (fun _ _ => ?_)
    | with_reducible refine safe_bind_ERROR _ ‹_› (fun _ _ => ?_)
    | with_reducible refine safe_bind_PARSER_ERROR _ ‹_› (fun _ _ => ?_)
    | simp only [Bool.not_true, Bool.not_false, Bool.false_eq_true, if_false, if_true, eq_self_iff_true, ne_eq, not_true_eq_false, not_false_eq_true, Option.isNone_none, Option.isNone_some, and_true, true_and, and_false, false_and]
    | with_reducible refine safe_ite (fun _ => ?_) (fun _ => ?_)
    | split
    | with_reducible refine safe_pure ?_
    | with_reducible refine safe_bind ?_

theorem parse_string_safe {p : parser_t} {t : token_t} (h : p.reads t) :
    (parse_string).safe (fun _ p' => p'.ends_with_eof) p := by
  unfold parse_string
  try simp only []
  repeat' first
    | with_reducible exact safe_done ‹_›
    | with_reducible exact safe_stop_unreachable _ _
    | with_reducible exact safe_stop_out_of_fuel _ _
    | with_reducible exact safe_stop_uninitialised_node _ _
    | with_reducible refine safe_bind_pure ?_
    | with_reducible refine safe_bind_current_type ‹_› ?_
    | with_reducible refine safe_bind_current ‹_› ?_
    | with_reducible refine safe_bind_check _ ‹_› ?_
    | with_reducible refine safe_bind_match _ (by decide) ‹_› (fun _ _ _ _ => ?_) (fun _ => ?_)
    | with_reducible refine safe_bind_match_any _ (by decide) ‹_› (fun _ _ _ _ => ?_) (fun _ => ?_)
    | with_reducible refine safe_bind_previous ‹_› ?_
    | ((with_reducible refine safe_bind_advance ‹_› ?_ (fun _ _ _ => ?_)) <;> first | (intro e; simp_all; done) | skip)
    | ((with_reducible refine safe_bind_peek ‹_› ?_ (fun _ _ => ?_)) <;> first | (intro e; simp_all; done) | skip)
    | with_reducible refine safe_bind_report _ ‹_› (fun _ _ => ?_)
    | with_reducible refine safe_bind_ERROR _ ‹_› (fun _ _ => ?_)
    | with_reducible refine safe_bind_PARSER_ERROR _ ‹_› (fun _ _ => ?_)
    | simp only [Bool.not_true, Bool.not_false, Bool.false_eq_true, if_false, if_true, eq_self_iff_true, ne_eq, not_true_eq_false, not_false_eq_true, Option.isNone_none, Option.isNone_some, and_true, true_and, and_false, false_and]
    | with_reducible refine safe_ite (fun _ => ?_) (fun _ => ?_)
    | split
    | with_reducible refine safe_pure ?_
    | with_reducible refine safe_bind ?_

theorem parse_bool_safe {p : parser_t} {t : token_t} (h : p.reads t) :
    (parse_bool).safe (fun _ p' => p'.ends_with_eof) p := by
  unfold parse_bool
  try simp only []
  repeat' first
    | with_reducible exact safe_done ‹_›
    | with_reducible exact safe_stop_unreachable _ _
    | with_reducible exact safe_stop_out_of_fuel _ _
    | with_reducible exact safe_stop_uninitialised_node _ _
    | with_reducible refine safe_bind_pure ?_
    | with_reducible refine safe_bind_current_type ‹_› ?_
    | with_reducible refine safe_bind_current ‹_› ?_
    | with_reducible refine safe_bind_check _ ‹_› ?_
    | with_reducible refine safe_bind_match _ (by decide) ‹_› (fun _ _ _ _ => ?_) (fun _ => ?_)
    | with_reducible refine safe_bind_match_any _ (by decide) ‹_› (fun _ _ _ _ => ?_) (fun _ => ?_)
    | with_reducible refine safe_bind_previous ‹_› ?_
    | ((with_reducible refine safe_bind_advance ‹_› ?_ (fun _ _ _ => ?_)) <;> first | (intro e; simp_all; done) | skip)
    | ((with_reducible refine safe_bind_peek ‹_› ?_ (fun _ _ => ?_)) <;> first | (intro e; simp_all; done) | skip)
    | with_reducible refine safe_bind_report _ ‹_› (fun _ _ => ?_)
    | with_reducible refine safe_bind_ERROR _ ‹_› (fun _ _ => ?_)
    | with_reducible refine safe_bind_PARSER_ERROR _ ‹_› (fun _ _ => ?_)
    | simp only [Bool.not_true, Bool.not_false, Bool.false_eq_true, if_false, if_true, eq_self_iff_true, ne_eq, not_true_eq_false, not_false_eq_true, Option.isNone_none, Option.isNone_some, and_true, true_and, and_false, false_and]
    | with_reducible refine safe_ite (fun _ => ?_) (fun _ => ?_)
    | split
    | with_reducible refine safe_pure ?_
    | with_reducible refine safe_bind ?_

theorem parse_identifier_safe {p : parser_t} {t : token_t} (h : p.reads t) :
    (parse_identifier).safe (fun _ p' => p'.ends_with_eof) p := by
  unfold parse_identifier
  try simp only []
  repeat' first
    | with_reducible exact safe_done ‹_›
    | with_reducible exact safe_stop_unreachable _ _
    | with_reducible exact safe_stop_out_of_fuel _ _
    | with_reducible exact safe_stop_uninitialised_node _ _
    | with_reducible refine safe_bind_pure ?_
    | with_reducible refine safe_bind_current_type ‹_› ?_
    | with_reducible refine safe_bind_current ‹_› ?_
    | with_reducible refine safe_bind_check _ ‹_› ?_
    | with_reducible refine safe_bind_match _ (by decide) ‹_› (fun _ _ _ _ => ?_) (fun _ => ?_)
    | with_reducible refine safe_bind_match_any _ (by decide) ‹_› (fun _ _ _ _ => ?_) (fun _ => ?_)
    | with_reducible refine safe_bind_previous ‹_› ?_
    | ((with_reducible refine safe_bind_advance ‹_› ?_ (fun _ _ _ => ?_)) <;> first | (intro e; simp_all; done) | skip)
    | ((with_reducible refine safe_bind_peek ‹_› ?_ (fun _ _ => ?_)) <;> first | (intro e; simp_all; done) | skip)
    | with_reducible refine safe_bind_report _ ‹_› (fun _ _ => ?_)
    | with_reducible refine safe_bind_ERROR _ ‹_› (fun _ _ => ?_)
    | with_reducible refine safe_bind_PARSER_ERROR _ ‹_› (fun _ _ => ?_)
    | simp only [Bool.not_true, Bool.not_false, Bool.false_eq_true, if_false, if_true, eq_self_iff_true, ne_eq, not_true_eq_false, not_false_eq_true, Option.isNone_none, Option.isNone_some, and_true, true_and, and_false, false_and]
    | with_reducible refine safe_ite (fun _ => ?_) (fun _ => ?_)
    | split
    | with_reducible refine safe_pure ?_
    | with_reducible refine safe_bind ?_

theorem parse_undefined_safe {p : parser_t} {t : token_t} (h : p.reads t) :
    (parse_undefined).safe (fun _ p' => p'.ends_with_eof) p := by
  unfold parse_undefined
  try simp only []
  repeat' first
    | with_reducible exact safe_done ‹_›
    | with_reducible exact safe_stop_unreachable _ _
    | with_reducible exact safe_stop_out_of_fuel _ _
    | with_reducible exact safe_stop_uninitialised_node _ _
    | with_reducible refine safe_bind_pure ?_
    | with_reducible refine safe_bind_current_type ‹_› ?_
    | with_reducible refine safe_bind_current ‹_› ?_
    | with_reducible refine safe_bind_check _ ‹_› ?_
    | with_reducible refine safe_bind_match _ (by decide) ‹_› (fun _ _ _ _ => ?_) (fun _ => ?_)
    | with_reducible refine safe_bind_match_any _ (by decide) ‹_› (fun _ _ _ _ => ?_) (fun _ => ?_)
    | with_reducible refine safe_bind_previous ‹_› ?_
    | ((with_reducible refine safe_bind_advance ‹_› ?_ (fun _ _ _ => ?_)) <;> first | (intro e; simp_all; done) | skip)
    | ((with_reducible refine safe_bind_peek ‹_› ?_ (fun _ _ => ?_)) <;> first | (intro e; simp_all; done) | skip)
    | with_reducible refine safe_bind_report _ ‹_› (fun _ _ => ?_)
    | with_reducible refine safe_bind_ERROR _ ‹_› (fun _ _ => ?_)
    | with_reducible refine safe_bind_PARSER_ERROR _ ‹_› (fun _ _ => ?_)
    | simp only [Bool.not_true, Bool.not_false, Bool.false_eq_true, if_false, if_true, eq_self_iff_true, ne_eq, not_true_eq_false, not_false_eq_true, Option.isNone_none, Option.isNone_some, and_true, true_and, and_false, false_and]
    | with_reducible refine safe_ite (fun _ => ?_) (fun _ => ?_)
    | split
    | with_reducible refine safe_pure ?_
    | with_reducible refine safe_bind ?_

theorem parse_null_safe {p : parser_t} {t : token_t} (h : p.reads t) :
    (parse_null).safe (fun _ p' => p'.ends_with_eof) p := by
  unfold parse_null
  try simp only []
  repeat' first
    | with_reducible exact safe_done ‹_›
    | with_reducible exact safe_stop_unreachable _ _
    | with_reducible exact safe_stop_out_of_fuel _ _
    | with_reducible exact safe_stop_uninitialised_node _ _
    | with_reducible refine safe_bind_pure ?_
    | with_reducible refine safe_bind_current_type ‹_› ?_
    | with_reducible refine safe_bind_current ‹_› ?_
    | with_reducible refine safe_bind_check _ ‹_› ?_
    | with_reducible refine safe_bind_match _ (by decide) ‹_› (fun _ _ _ _ => ?_) (fun _ => ?_)
    | with_reducible refine safe_bind_match_any _ (by decide) ‹_› (fun _ _ _ _ => ?_) (fun _ => ?_)
    | with_reducible refine safe_bind_previous ‹_› ?_
    | ((with_reducible refine safe_bind_advance ‹_› ?_ (fun _ _ _ => ?_)) <;> first | (intro e; simp_all; done) | skip)
    | ((with_reducible refine safe_bind_peek ‹_› ?_ (fun _ _ => ?_)) <;> first | (intro e; simp_all; done) | skip)
    | with_reducible refine safe_bind_report _ ‹_› (fun _ _ => ?_)
    | with_reducible refine safe_bind_ERROR _ ‹_› (fun _ _ => ?_)
    | with_reducible refine safe_bind_PARSER_ERROR _ ‹_› (fun _ _ => ?_)
    | simp only [Bool.not_true, Bool.not_false, Bool.false_eq_true, if_false, if_true, eq_self_iff_true, ne_eq, not_true_eq_false, not_false_eq_true, Option.isNone_none, Option.isNone_some, and_true, true_and, and_false, false_and]
    | with_reducible refine safe_ite (fun _ => ?_) (fun _ => ?_)
    | split
    | with_reducible refine safe_pure ?_
    | with_reducible refine safe_bind ?_

theorem parse_spread_safe (rec : parse_rec) (hrec : rec_safe rec) {p : parser_t} {t : token_t} (h : p.reads t) :
    (parse_spread rec).safe (fun _ p' => p'.ends_with_eof) p := by
  unfold parse_spread
  try simp only []
  repeat' first
    | with_reducible exact safe_done ‹_›
    | with_reducible exact safe_stop_unreachable _ _
    | with_reducible exact safe_stop_out_of_fuel _ _
    | with_reducible exact safe_stop_uninitialised_node _ _
    | with_reducible exact rec_safe_reads hrec _ ‹_›
    | with_reducible refine safe_bind_pure ?_
    | with_reducible refine safe_bind_current_type ‹_› ?_
    | with_reducible refine safe_bind_current ‹_› ?_
    | with_reducible refine safe_bind_check _ ‹_› ?_
    | with_reducible refine safe_bind_match _ (by decide) ‹_› (fun _ _ _ _ => ?_) (fun _ => ?_)
    | with_reducible refine safe_bind_match_any _ (by decide) ‹_› (fun _ _ _ _ => ?_) (fun _ => ?_)
    | with_reducible refine safe_bind_previous ‹_› ?_
    | ((with_reducible refine safe_bind_advance ‹_› ?_ (fun _ _ _ => ?_)) <;> first | (intro e; simp_all; done) | skip)
    | ((with_reducible refine safe_bind_peek ‹_› ?_ (fun _ _ => ?_)) <;> first | (intro e; simp_all; done) | skip)
    | with_reducible refine safe_bind_report _ ‹_› (fun _ _ => ?_)
    | with_reducible refine safe_bind_ERROR _ ‹_› (fun _ _ => ?_)
    | with_reducible refine safe_bind_PARSER_ERROR _ ‹_› (fun _ _ => ?_)
    | with_reducible refine safe_bind_sub (rec_safe_reads hrec _ ‹_›) (fun _ _ _ _ => ?_)
    | with_reducible refine safe_sub (rec_safe_reads hrec _ ‹_›) (fun _ _ _ _ => ?_)
    | simp only [Bool.not_true, Bool.not_false, Bool.false_eq_true, if_false, if_true, eq_self_iff_true, ne_eq, not_true_eq_false, not_false_eq_true, Option.isNone_none, Option.isNone_some, and_true, true_and, and_false, false_and]
    | with_reducible refine safe_ite (fun _ => ?_) (fun _ => ?_)
    | split
    | with_reducible refine safe_pure ?_
    | with_reducible refine safe_bind ?_

theorem parse_array_loop_safe (rec : parse_rec) (hrec : rec_safe rec) (n : Nat) :
    ∀ (elements : List Node) {p : parser_t} {t : token_t}, p.reads t →
      (parse_array_loop rec n elements).safe (fun _ p' => p'.ends_with_eof) p := by
  induction n with
  | zero =>
    intro elements p t h
    exact safe_stop_out_of_fuel _ _
  | succ n ih =>
    intro elements p t h
    unfold parse_array_loop
    try simp only []
    repeat' first
      | with_reducible exact safe_done ‹_›
      | with_reducible exact safe_stop_unreachable _ _
      | with_reducible exact safe_stop_out_of_fuel _ _
      | with_reducible exact safe_stop_uninitialised_node _ _
      | with_reducible exact ih _ ‹_›
      | with_reducible exact rec_safe_reads hrec _ ‹_›
      | with_reducible refine safe_bind_pure ?_
      | with_reducible refine safe_bind_current_type ‹_› ?_
      | with_reducible refine safe_bind_current ‹_› ?_
      | with_reducible refine safe_bind_check _ ‹_› ?_
      | with_reducible refine safe_bind_match _ (by decide) ‹_› (fun _ _ _ _ => ?_) (fun _ => ?_)
      | with_reducible refine safe_bind_match_any _ (by decide) ‹_› (fun _ _ _ _ => ?_) (fun _ => ?_)
      | with_reducible refine safe_bind_previous ‹_› ?_
      | ((with_reducible refine safe_bind_advance ‹_› ?_ (fun _ _ _ => ?_)) <;> first | (intro e; simp_all; done) | skip)
      | ((with_reducible refine safe_bind_peek ‹_› ?_ (fun _ _ => ?_)) <;> first | (intro e; simp_all; done) | skip)
      | with_reducible refine safe_bind_report _ ‹_› (fun _ _ => ?_)
      | with_reducible refine safe_bind_ERROR _ ‹_› (fun _ _ => ?_)
      | with_reducible refine safe_bind_PARSER_ERROR _ ‹_› (fun _ _ => ?_)
      | with_reducible refine safe_bind_sub (ih _ ‹_›) (fun _ _ _ _ => ?_)
      | with_reducible refine safe_bind_sub (rec_safe_reads hrec _ ‹_›) (fun _ _ _ _ => ?_)
      | with_reducible refine safe_sub (ih _ ‹_›) (fun _ _ _ _ => ?_)
      | with_reducible refine safe_sub (rec_safe_reads hrec _ ‹_›) (fun _ _ _ _ => ?_)
      | simp only [Bool.not_true, Bool.not_false, Bool.false_eq_true, if_false, if_true, eq_self_iff_true, ne_eq, not_true_eq_false, not_false_eq_true, Option.isNone_none, Option.isNone_some, and_true, true_and, and_false, false_and]
      | with_reducible refine safe_ite (fun _ => ?_) (fun _ => ?_)
      | split
      | with_reducible refine safe_pure ?_
      | with_reducible refine safe_bind ?_

theorem parse_array_safe (fuel : Nat) (rec : parse_rec) (hrec : rec_safe rec) {p : parser_t} {t : token_t} (h : p.reads t) :
    (parse_array fuel rec).safe (fun _ p' => p'.ends_with_eof) p := by
  unfold parse_array
  try simp only []
  repeat' first
    | with_reducible exact safe_done ‹_›
    | with_reducible exact safe_stop_unreachable _ _
    | with_reducible exact safe_stop_out_of_fuel _ _
    | with_reducible exact safe_stop_uninitialised_node _ _
    | with_reducible exact parse_array_loop_safe rec hrec _ _ ‹_›
    | with_reducible refine safe_bind_pure ?_
    | with_reducible refine safe_bind_current_type ‹_› ?_
    | with_reducible refine safe_bind_current ‹_› ?_
    | with_reducible refine safe_bind_check _ ‹_› ?_
    | with_reducible refine safe_bind_match _ (by decide) ‹_› (fun _ _ _ _ => ?_) (fun _ => ?_)
    | with_reducible refine safe_bind_match_any _ (by decide) ‹_› (fun _ _ _ _ => ?_) (fun _ => ?_)
    | with_reducible refine safe_bind_previous ‹_› ?_
    | ((with_reducible refine safe_bind_advance ‹_› ?_ (fun _ _ _ => ?_)) <;> first | (intro e; simp_all; done) | skip)
    | ((with_reducible refine safe_bind_peek ‹_› ?_ (fun _ _ => ?_)) <;> first | (intro e; simp_all; done) | skip)
    | with_reducible refine safe_bind_report _ ‹_› (fun _ _ => ?_)
    | with_reducible refine safe_bind_ERROR _ ‹_› (fun _ _ => ?_)
    | with_reducible refine safe_bind_PARSER_ERROR _ ‹_› (fun _ _ => ?_)
    | with_reducible refine safe_bind_sub (parse_array_loop_safe rec hrec _ _ ‹_›) (fun _ _ _ _ => ?_)
    | with_reducible refine safe_sub (parse_array_loop_safe rec hrec _ _ ‹_›) (fun _ _ _ _ => ?_)
    | simp only [Bool.not_true, Bool.not_false, Bool.false_eq_true, if_false, if_true, eq_self_iff_true, ne_eq, not_true_eq_false, not_false_eq_true, Option.isNone_none, Option.isNone_some, and_true, true_and, and_false, false_and]
    | with_reducible refine safe_ite (fun _ => ?_) (fun _ => ?_)
    | split
    | with_reducible refine safe_pure ?_
    | with_reducible refine safe_bind ?_

theorem parse_object_loop_safe (rec : parse_rec) (hrec : rec_safe rec) (n : Nat) :
    ∀ (keys : List (Option String)) (values : List Node) {p : parser_t} {t : token_t}, p.reads t →
      (parse_object_loop rec n keys values).safe (fun _ p' => p'.ends_with_eof) p := by
  induction n with
  | zero =>
    intro keys values p t h
    exact safe_stop_out_of_fuel _ _
  | succ n ih =>
    intro keys values p t h
    unfold parse_object_loop
    try simp only []
    repeat' first
      | with_reducible exact safe_done ‹_›
      | with_reducible exact safe_stop_unreachable _ _
      | with_reducible exact safe_stop_out_of_fuel _ _
      | with_reducible exact safe_stop_uninitialised_node _ _
      | with_reducible exact ih _ _ ‹_›
      | with_reducible exact rec_safe_reads hrec _ ‹_›
      | with_reducible exact parse_spread_safe rec hrec ‹_›
      | with_reducible refine safe_bind_pure ?_
      | with_reducible refine safe_bind_current_type ‹_› ?_
      | with_reducible refine safe_bind_current ‹_› ?_
      | with_reducible refine safe_bind_check _ ‹_› ?_
      | with_reducible refine safe_bind_match _ (by decide) ‹_› (fun _ _ _ _ => ?_) (fun _ => ?_)
      | with_reducible refine safe_bind_match_any _ (by decide) ‹_› (fun _ _ _ _ => ?_) (fun _ => ?_)
      | with_reducible refine safe_bind_previous ‹_› ?_
      | ((with_reducible refine safe_bind_advance ‹_› ?_ (fun _ _ _ => ?_)) <;> first | (intro e; simp_all; done) | skip)
      | ((with_reducible refine safe_bind_peek ‹_› ?_ (fun _ _ => ?_)) <;> first | (intro e; simp_all; done) | skip)
      | with_reducible refine safe_bind_report _ ‹_› (fun _ _ => ?_)
      | with_reducible refine safe_bind_ERROR _ ‹_› (fun _ _ => ?_)
      | with_reducible refine safe_bind_PARSER_ERROR _ ‹_› (fun _ _ => ?_)
      | with_reducible refine safe_bind_sub (ih _ _ ‹_›) (fun _ _ _ _ => ?_)
      | with_reducible refine safe_bind_sub (rec_safe_reads hrec _ ‹_›) (fun _ _ _ _ => ?_)
      | with_reducible refine safe_bind_sub (parse_spread_safe rec hrec ‹_›) (fun _ _ _ _ => ?_)
      | with_reducible refine safe_sub (ih _ _ ‹_›) (fun _ _ _ _ => ?_)
      | with_reducible refine safe_sub (rec_safe_reads hrec _ ‹_›) (fun _ _ _ _ => ?_)
      | with_reducible refine safe_sub (parse_spread_safe rec hrec ‹_›) (fun _ _ _ _ => ?_)
      | simp only [Bool.not_true, Bool.not_false, Bool.false_eq_true, if_false, if_true, eq_self_iff_true, ne_eq, not_true_eq_false, not_false_eq_true, Option.isNone_none, Option.isNone_some, and_true, true_and, and_false, false_and]
      | with_reducible refine safe_ite (fun _ => ?_) (fun _ => ?_)
      | split
      | with_reducible refine safe_pure ?_
      | with_reducible refine safe_bind ?_

theorem parse_object_safe (fuel : Nat) (rec : parse_rec) (hrec : rec_safe rec) {p : parser_t} {t : token_t} (h : p.reads t) :
    (parse_object fuel rec).safe (fun _ p' => p'.ends_with_eof) p := by
  unfold parse_object
  try simp only []
  repeat' first
    | with_reducible exact safe_done ‹_›
    | with_reducible exact safe_stop_unreachable _ _
    | with_reducible exact safe_stop_out_of_fuel _ _
    | with_reducible exact safe_stop_uninitialised_node _ _
    | with_reducible exact parse_object_loop_safe rec hrec _ _ _ ‹_›
    | with_reducible refine safe_bind_pure ?_
    | with_reducible refine safe_bind_current_type ‹_› ?_
    | with_reducible refine safe_bind_current ‹_› ?_
    | with_reducible refine safe_bind_check _ ‹_› ?_
    | with_reducible refine safe_bind_match _ (by decide) ‹_› (fun _ _ _ _ => ?_) (fun _ => ?_)
    | with_reducible refine safe_bind_match_any _ (by decide) ‹_› (fun _ _ _ _ => ?_) (fun _ => ?_)
    | with_reducible refine safe_bind_previous ‹_› ?_
    | ((with_reducible refine safe_bind_advance ‹_› ?_ (fun _ _ _ => ?_)) <;> first | (intro e; simp_all; done) | skip)
    | ((with_reducible refine safe_bind_peek ‹_› ?_ (fun _ _ => ?_)) <;> first | (intro e; simp_all; done) | skip)
    | with_reducible refine safe_bind_report _ ‹_› (fun _ _ => ?_)
    | with_reducible refine safe_bind_ERROR _ ‹_› (fun _ _ => ?_)
    | with_reducible refine safe_bind_PARSER_ERROR _ ‹_› (fun _ _ => ?_)
    | with_reducible refine safe_bind_sub (parse_object_loop_safe rec hrec _ _ _ ‹_›) (fun _ _ _ _ => ?_)
    | with_reducible refine safe_sub (parse_object_loop_safe rec hrec _ _ _ ‹_›) (fun _ _ _ _ => ?_)
    | simp only [Bool.not_true, Bool.not_false, Bool.false_eq_true, if_false, if_true, eq_self_iff_true, ne_eq, not_true_eq_false, not_false_eq_true, Option.isNone_none, Option.isNone_some, and_true, true_and, and_false, false_and]
    | with_reducible refine safe_ite (fun _ => ?_) (fun _ => ?_)
    | split
    | with_reducible refine safe_pure ?_
    | with_reducible refine safe_bind ?_

theorem parse_function_params_safe (rec : parse_rec) (hrec : rec_safe rec) (n : Nat) :
    ∀ (params : List Param) {p : parser_t} {t : token_t}, p.reads t →
      (parse_function_params rec n params).safe (fun _ p' => p'.ends_with_eof) p := by
  induction n with
  | zero =>
    intro params p t h
    exact safe_stop_out_of_fuel _ _
  | succ n ih =>
    intro params p t h
    unfold parse_function_params
    try simp only []
    repeat' first
      | with_reducible exact safe_done ‹_›
      | with_reducible exact safe_stop_unreachable _ _
      | with_reducible exact safe_stop_out_of_fuel _ _
      | with_reducible exact safe_stop_uninitialised_node _ _
      | with_reducible exact ih _ ‹_›
      | with_reducible exact rec_safe_reads hrec _ ‹_›
      | with_reducible refine safe_bind_pure ?_
      | with_reducible refine safe_bind_current_type ‹_› ?_
      | with_reducible refine safe_bind_current ‹_› ?_
      | with_reducible refine safe_bind_check _ ‹_› ?_
      | with_reducible refine safe_bind_match _ (by decide) ‹_› (fun _ _ _ _ => ?_) (fun _ => ?_)
      | with_reducible refine safe_bind_match_any _ (by decide) ‹_› (fun _ _ _ _ => ?_) (fun _ => ?_)
      | with_reducible refine safe_bind_previous ‹_› ?_
      | ((with_reducible refine safe_bind_advance ‹_› ?_ (fun _ _ _ => ?_)) <;> first | (intro e; simp_all; done) | skip)
      | ((with_reducible refine safe_bind_peek ‹_› ?_ (fun _ _ => ?_)) <;> first | (intro e; simp_all; done) | skip)
      | with_reducible refine safe_bind_report _ ‹_› (fun _ _ => ?_)
      | with_reducible refine safe_bind_ERROR _ ‹_› (fun _ _ => ?_)
      | with_reducible refine safe_bind_PARSER_ERROR _ ‹_› (fun _ _ => ?_)
      | with_reducible refine safe_bind_sub (ih _ ‹_›) (fun _ _ _ _ => ?_)
      | with_reducible refine safe_bind_sub (rec_safe_reads hrec _ ‹_›) (fun _ _ _ _ => ?_)
      | with_reducible refine safe_sub (ih _ ‹_›) (fun _ _ _ _ => ?_)
      | with_reducible refine safe_sub (rec_safe_reads hrec _ ‹_›) (fun _ _ _ _ => ?_)
      | simp only [Bool.not_true, Bool.not_false, Bool.false_eq_true, if_false, if_true, eq_self_iff_true, ne_eq, not_true_eq_false, not_false_eq_true, Option.isNone_none, Option.isNone_some, and_true, true_and, and_false, false_and]
      | with_reducible refine safe_ite (fun _ => ?_) (fun _ => ?_)
      | split
      | with_reducible refine safe_pure ?_
      | with_reducible refine safe_bind ?_

theorem parse_function_safe (fuel : Nat) (rec : parse_rec) (hrec : rec_safe rec) {p : parser_t} {t : token_t} (h : p.reads t) :
    (parse_function fuel rec).safe (fun _ p' => p'.ends_with_eof) p := by
  unfold parse_function
  try simp only []
  repeat' first
    | with_reducible exact safe_done ‹_›
    | with_reducible exact safe_stop_unreachable _ _
    | with_reducible exact safe_stop_out_of_fuel _ _
    | with_reducible exact safe_stop_uninitialised_node _ _
    | with_reducible exact rec_safe_reads hrec _ ‹_›
    | with_reducible exact parse_function_params_safe rec hrec _ _ ‹_›
    | with_reducible refine safe_bind_pure ?_
    | with_reducible refine safe_bind_current_type ‹_› ?_
    | with_reducible refine safe_bind_current ‹_› ?_
    | with_reducible refine safe_bind_check _ ‹_› ?_
    | with_reducible refine safe_bind_match _ (by decide) ‹_› (fun _ _ _ _ => ?_) (fun _ => ?_)
    | with_reducible refine safe_bind_match_any _ (by decide) ‹_› (fun _ _ _ _ => ?_) (fun _ => ?_)
    | with_reducible refine safe_bind_previous ‹_› ?_
    | ((with_reducible refine safe_bind_advance ‹_› ?_ (fun _ _ _ => ?_)) <;> first | (intro e; simp_all; done) | skip)
    | ((with_reducible refine safe_bind_peek ‹_› ?_ (fun _ _ => ?_)) <;> first | (intro e; simp_all; done) | skip)
    | with_reducible refine safe_bind_report _ ‹_› (fun _ _ => ?_)
    | with_reducible refine safe_bind_ERROR _ ‹_› (fun _ _ => ?_)
    | with_reducible refine safe_bind_PARSER_ERROR _ ‹_› (fun _ _ => ?_)
    | with_reducible refine safe_bind_sub (rec_safe_reads hrec _ ‹_›) (fun _ _ _ _ => ?_)
    | with_reducible refine safe_bind_sub (parse_function_params_safe rec hrec _ _ ‹_›) (fun _ _ _ _ => ?_)
    | with_reducible refine safe_sub (rec_safe_reads hrec _ ‹_›) (fun _ _ _ _ => ?_)
    | with_reducible refine safe_sub (parse_function_params_safe rec hrec _ _ ‹_›) (fun _ _ _ _ => ?_)
    | simp only [Bool.not_true, Bool.not_false, Bool.false_eq_true, if_false, if_true, eq_self_iff_true, ne_eq, not_true_eq_false, not_false_eq_true, Option.isNone_none, Option.isNone_some, and_true, true_and, and_false, false_and]
    | with_reducible refine safe_ite (fun _ => ?_) (fun _ => ?_)
    | split
    | with_reducible refine safe_pure ?_
    | with_reducible refine safe_bind ?_

theorem parse_primary_safe (fuel : Nat) (rec : parse_rec) (hrec : rec_safe rec) {p : parser_t} {t : token_t} (h : p.reads t) :
    (parse_primary fuel rec).safe (fun _ p' => p'.ends_with_eof) p := by
  unfold parse_primary
  try simp only []
  repeat' first
    | with_reducible exact safe_done ‹_›
    | with_reducible exact safe_stop_unreachable _ _
    | with_reducible exact safe_stop_out_of_fuel _ _
    | with_reducible exact safe_stop_uninitialised_node _ _
    | with_reducible exact rec_safe_reads hrec _ ‹_›
    | with_reducible exact parse_number_safe ‹_›
    | with_reducible exact parse_string_safe ‹_›
    | with_reducible exact parse_bool_safe ‹_›
    | with_reducible exact parse_identifier_safe ‹_›
    | with_reducible exact parse_function_safe fuel rec hrec ‹_›
    | with_reducible exact parse_null_safe ‹_›
    | with_reducible exact parse_undefined_safe ‹_›
    | with_reducible exact parse_spread_safe rec hrec ‹_›
    | with_reducible exact parse_array_safe fuel rec hrec ‹_›
    | with_reducible exact parse_object_safe fuel rec hrec ‹_›
    | with_reducible refine safe_bind_pure ?_
    | with_reducible refine safe_bind_current_type ‹_› ?_
    | with_reducible refine safe_bind_current ‹_› ?_
    | with_reducible refine safe_bind_check _ ‹_› ?_
    | with_reducible refine safe_bind_match _ (by decide) ‹_› (fun _ _ _ _ => ?_) (fun _ => ?_)
    | with_reducible refine safe_bind_match_any _ (by decide) ‹_› (fun _ _ _ _ => ?_) (fun _ => ?_)
    | with_reducible refine safe_bind_previous ‹_› ?_
    | ((with_reducible refine safe_bind_advance ‹_› ?_ (fun _ _ _ => ?_)) <;> first | (intro e; simp_all; done) | skip)
    | ((with_reducible refine safe_bind_peek ‹_› ?_ (fun _ _ => ?_)) <;> first | (intro e; simp_all; done) | skip)
    | with_reducible refine safe_bind_report _ ‹_› (fun _ _ => ?_)
    | with_reducible refine safe_bind_ERROR _ ‹_› (fun _ _ => ?_)
    | with_reducible refine safe_bind_PARSER_ERROR _ ‹_› (fun _ _ => ?_)
    | with_reducible refine safe_bind_sub (rec_safe_reads hrec _ ‹_›) (fun _ _ _ _ => ?_)
    | with_reducible refine safe_bind_sub (parse_number_safe ‹_›) (fun _ _ _ _ => ?_)
    | with_reducible refine safe_bind_sub (parse_string_safe ‹_›) (fun _ _ _ _ => ?_)
    | with_reducible refine safe_bind_sub (parse_bool_safe ‹_›) (fun _ _ _ _ => ?_)
    | with_reducible refine safe_bind_sub (parse_identifier_safe ‹_›) (fun _ _ _ _ => ?_)
    | with_reducible refine safe_bind_sub (parse_function_safe fuel rec hrec ‹_›) (fun _ _ _ _ => ?_)
    | with_reducible refine safe_bind_sub (parse_null_safe ‹_›) (fun _ _ _ _ => ?_)
    | with_reducible refine safe_bind_sub (parse_undefined_safe ‹_›) (fun _ _ _ _ => ?_)
    | with_reducible refine safe_bind_sub (parse_spread_safe rec hrec ‹_›) (fun _ _ _ _ => ?_)
    | with_reducible refine safe_bind_sub (parse_array_safe fuel rec hrec ‹_›) (fun _ _ _ _ => ?_)
    | with_reducible refine safe_bind_sub (parse_object_safe fuel rec hrec ‹_›) (fun _ _ _ _ => ?_)
    | with_reducible refine safe_sub (rec_safe_reads hrec _ ‹_›) (fun _ _ _ _ => ?_)
    | with_reducible refine safe_sub (parse_number_safe ‹_›) (fun _ _ _ _ => ?_)
    | with_reducible refine safe_sub (parse_string_safe ‹_›) (fun _ _ _ _ => ?_)
    | with_reducible refine safe_sub (parse_bool_safe ‹_›) (fun _ _ _ _ => ?_)
    | with_reducible refine safe_sub (parse_identifier_safe ‹_›) (fun _ _ _ _ => ?_)
    | with_reducible refine safe_sub (parse_function_safe fuel rec hrec ‹_›) (fun _ _ _ _ => ?_)
    | with_reducible refine safe_sub (parse_null_safe ‹_›) (fun _ _ _ _ => ?_)
    | with_reducible refine safe_sub (parse_undefined_safe ‹_›) (fun _ _ _ _ => ?_)
    | with_reducible refine safe_sub (parse_spread_safe rec hrec ‹_›) (fun _ _ _ _ => ?_)
    | with_reducible refine safe_sub (parse_array_safe fuel rec hrec ‹_›) (fun _ _ _ _ => ?_)
    | with_reducible refine safe_sub (parse_object_safe fuel rec hrec ‹_›) (fun _ _ _ _ => ?_)
    | simp only [Bool.not_true, Bool.not_false, Bool.false_eq_true, if_false, if_true, eq_self_iff_true, ne_eq, not_true_eq_false, not_false_eq_true, Option.isNone_none, Option.isNone_some, and_true, true_and, and_false, false_and]
    | with_reducible refine safe_ite (fun _ => ?_) (fun _ => ?_)
    | split
    | with_reducible refine safe_pure ?_
    | with_reducible refine safe_bind ?_

theorem parse_call_args_safe (rec : parse_rec) (hrec : rec_safe rec) (n : Nat) :
    ∀ (args : List Node) {p : parser_t} {t : token_t}, p.reads t →
      (parse_call_args rec n args).safe (fun _ p' => p'.ends_with_eof) p := by
  induction n with
  | zero =>
    intro args p t h
    exact safe_stop_out_of_fuel _ _
  | succ n ih =>
    intro args p t h
    unfold parse_call_args
    try simp only []
    repeat' first
      | with_reducible exact safe_done ‹_›
      | with_reducible exact safe_stop_unreachable _ _
      | with_reducible exact safe_stop_out_of_fuel _ _
      | with_reducible exact safe_stop_uninitialised_node _ _
      | with_reducible exact ih _ ‹_›
      | with_reducible exact rec_safe_reads hrec _ ‹_›
      | with_reducible refine safe_bind_pure ?_
      | with_reducible refine safe_bind_current_type ‹_› ?_
      | with_reducible refine safe_bind_current ‹_› ?_
      | with_reducible refine safe_bind_check _ ‹_› ?_
      | with_reducible refine safe_bind_match _ (by decide) ‹_› (fun _ _ _ _ => ?_) (fun _ => ?_)
      | with_reducible refine safe_bind_match_any _ (by decide) ‹_› (fun _ _ _ _ => ?_) (fun _ => ?_)
      | with_reducible refine safe_bind_previous ‹_› ?_
      | ((with_reducible refine safe_bind_advance ‹_› ?_ (fun _ _ _ => ?_)) <;> first | (intro e; simp_all; done) | skip)
      | ((with_reducible refine safe_bind_peek ‹_› ?_ (fun _ _ => ?_)) <;> first | (intro e; simp_all; done) | skip)
      | with_reducible refine safe_bind_report _ ‹_› (fun _ _ => ?_)
      | with_reducible refine safe_bind_ERROR _ ‹_› (fun _ _ => ?_)
      | with_reducible refine safe_bind_PARSER_ERROR _ ‹_› (fun _ _ => ?_)
      | with_reducible refine safe_bind_sub (ih _ ‹_›) (fun _ _ _ _ => ?_)
      | with_reducible refine safe_bind_sub (rec_safe_reads hrec _ ‹_›) (fun _ _ _ _ => ?_)
      | with_reducible refine safe_sub (ih _ ‹_›) (fun _ _ _ _ => ?_)
      | with_reducible refine safe_sub (rec_safe_reads hrec _ ‹_›) (fun _ _ _ _ => ?_)
      | simp only [Bool.not_true, Bool.not_false, Bool.false_eq_true, if_false, if_true, eq_self_iff_true, ne_eq, not_true_eq_false, not_false_eq_true, Option.isNone_none, Option.isNone_some, and_true, true_and, and_false, false_and]
      | with_reducible refine safe_ite (fun _ => ?_) (fun _ => ?_)
      | split
      | with_reducible refine safe_pure ?_
      | with_reducible refine safe_bind ?_

theorem parse_postfix_loop_safe (rec : parse_rec) (hrec : rec_safe rec) (n : Nat) :
    ∀ (expr : Node) {p : parser_t} {t : token_t}, p.reads t →
      (parse_postfix_loop rec n expr).safe (fun _ p' => p'.ends_with_eof) p := by
  induction n with
  | zero =>
    intro expr p t h
    exact safe_stop_out_of_fuel _ _
  | succ n ih =>
    intro expr p t h
    unfold parse_postfix_loop
    try simp only []
    repeat' first
      | with_reducible exact safe_done ‹_›
      | with_reducible exact safe_stop_unreachable _ _
      | with_reducible exact safe_stop_out_of_fuel _ _
      | with_reducible exact safe_stop_uninitialised_node _ _
      | with_reducible exact ih _ ‹_›
      | with_reducible exact rec_safe_reads hrec _ ‹_›
      | with_reducible exact parse_call_args_safe rec hrec _ _ ‹_›
      | with_reducible exact parse_identifier_safe ‹_›
      | with_reducible refine safe_bind_pure ?_
      | with_reducible refine safe_bind_current_type ‹_› ?_
      | with_reducible refine safe_bind_current ‹_› ?_
      | with_reducible refine safe_bind_check _ ‹_› ?_
      | with_reducible refine safe_bind_match _ (by decide) ‹_› (fun _ _ _ _ => ?_) (fun _ => ?_)
      | with_reducible refine safe_bind_match_any _ (by decide) ‹_› (fun _ _ _ _ => ?_) (fun _ => ?_)
      | with_reducible refine safe_bind_previous ‹_› ?_
      | ((with_reducible refine safe_bind_advance ‹_› ?_ (fun _ _ _ => ?_)) <;> first | (intro e; simp_all; done) | skip)
      | ((with_reducible refine safe_bind_peek ‹_› ?_ (fun _ _ => ?_)) <;> first | (intro e; simp_all; done) | skip)
      | with_reducible refine safe_bind_report _ ‹_› (fun _ _ => ?_)
      | with_reducible refine safe_bind_ERROR _ ‹_› (fun _ _ => ?_)
      | with_reducible refine safe_bind_PARSER_ERROR _ ‹_› (fun _ _ => ?_)
      | with_reducible refine safe_bind_sub (ih _ ‹_›) (fun _ _ _ _ => ?_)
      | with_reducible refine safe_bind_sub (rec_safe_reads hrec _ ‹_›) (fun _ _ _ _ => ?_)
      | with_reducible refine safe_bind_sub (parse_call_args_safe rec hrec _ _ ‹_›) (fun _ _ _ _ => ?_)
      | with_reducible refine safe_bind_sub (parse_identifier_safe ‹_›) (fun _ _ _ _ => ?_)
      | with_reducible refine safe_sub (ih _ ‹_›) (fun _ _ _ _ => ?_)
      | with_reducible refine safe_sub (rec_safe_reads hrec _ ‹_›) (fun _ _ _ _ => ?_)
      | with_reducible refine safe_sub (parse_call_args_safe rec hrec _ _ ‹_›) (fun _ _ _ _ => ?_)
      | with_reducible refine safe_sub (parse_identifier_safe ‹_›) (fun _ _ _ _ => ?_)
      | simp only [Bool.not_true, Bool.not_false, Bool.false_eq_true, if_false, if_true, eq_self_iff_true, ne_eq, not_true_eq_false, not_false_eq_true, Option.isNone_none, Option.isNone_some, and_true, true_and, and_false, false_and]
      | with_reducible refine safe_ite (fun _ => ?_) (fun _ => ?_)
      | split
      | with_reducible refine safe_pure ?_
      | with_reducible refine safe_bind ?_

theorem parse_postfix_safe (fuel : Nat) (rec : parse_rec) (hrec : rec_safe rec) {p : parser_t} {t : token_t} (h : p.reads t) :
    ( parse_postfix fuel rec).safe (fun _ p' => p'.ends_with_eof) p := by
  unfold parse_postfix
  try simp only []
  repeat' first
    | with_reducible exact safe_done ‹_›
    | with_reducible exact safe_stop_unreachable _ _
    | with_reducible exact safe_stop_out_of_fuel _ _
    | with_reducible exact safe_stop_uninitialised_node _ _
    | with_reducible exact parse_primary_safe fuel rec hrec ‹_›
    | with_reducible exact parse_postfix_loop_safe rec hrec _ _ ‹_›
    | with_reducible refine safe_bind_pure ?_
    | with_reducible refine safe_bind_current_type ‹_› ?_
    | with_reducible refine safe_bind_current ‹_› ?_
    | with_reducible refine safe_bind_check _ ‹_› ?_
    | with_reducible refine safe_bind_match _ (by decide) ‹_› (fun _ _ _ _ => ?_) (fun _ => ?_)
    | with_reducible refine safe_bind_match_any _ (by decide) ‹_› (fun _ _ _ _ => ?_) (fun _ => ?_)
    | with_reducible refine safe_bind_previous ‹_› ?_
    | ((with_reducible refine safe_bind_advance ‹_› ?_ (fun _ _ _ => ?_)) <;> first | (intro e; simp_all; done) | skip)
    | ((with_reducible refine safe_bind_peek ‹_› ?_ (fun _ _ => ?_)) <;> first | (intro e; simp_all; done) | skip)
    | with_reducible refine safe_bind_report _ ‹_› (fun _ _ => ?_)
    | with_reducible refine safe_bind_ERROR _ ‹_› (fun _ _ => ?_)
    | with_reducible refine safe_bind_PARSER_ERROR _ ‹_› (fun _ _ => ?_)
    | with_reducible refine safe_bind_sub (parse_primary_safe fuel rec hrec ‹_›) (fun _ _ _ _ => ?_)
    | with_reducible refine safe_bind_sub (parse_postfix_loop_safe rec hrec _ _ ‹_›) (fun _ _ _ _ => ?_)
    | with_reducible refine safe_sub (parse_primary_safe fuel rec hrec ‹_›) (fun _ _ _ _ => ?_)
    | with_reducible refine safe_sub (parse_postfix_loop_safe rec hrec _ _ ‹_›) (fun _ _ _ _ => ?_)
    | simp only [Bool.not_true, Bool.not_false, Bool.false_eq_true, if_false, if_true, eq_self_iff_true, ne_eq, not_true_eq_false, not_false_eq_true, Option.isNone_none, Option.isNone_some, and_true, true_and, and_false, false_and]
    | with_reducible refine safe_ite (fun _ => ?_) (fun _ => ?_)
    | split
    | with_reducible refine safe_pure ?_
    | with_reducible refine safe_bind ?_

theorem parse_unary_safe (fuel : Nat) (rec : parse_rec) (hrec : rec_safe rec) {p : parser_t} {t : token_t} (h : p.reads t) :
    (parse_unary fuel rec).safe (fun _ p' => p'.ends_with_eof) p := by
  unfold parse_unary
  try simp only []
  repeat' first
    | with_reducible exact safe_done ‹_›
    | with_reducible exact safe_stop_unreachable _ _
    | with_reducible exact safe_stop_out_of_fuel _ _
    | with_reducible exact safe_stop_uninitialised_node _ _
    | with_reducible exact rec_safe_reads hrec _ ‹_›
    | with_reducible exact parse_postfix_safe fuel rec hrec ‹_›
    | with_reducible refine safe_bind_pure ?_
    | with_reducible refine safe_bind_current_type ‹_› ?_
    | with_reducible refine safe_bind_current ‹_› ?_
    | with_reducible refine safe_bind_check _ ‹_› ?_
    | with_reducible refine safe_bind_match _ (by decide) ‹_› (fun _ _ _ _ => ?_) (fun _ => ?_)
    | with_reducible refine safe_bind_match_any _ (by decide) ‹_› (fun _ _ _ _ => ?_) (fun _ => ?_)
    | with_reducible refine safe_bind_previous ‹_› ?_
    | ((with_reducible refine safe_bind_advance ‹_› ?_ (fun _ _ _ => ?_)) <;> first | (intro e; simp_all; done) | skip)
    | ((with_reducible refine safe_bind_peek ‹_› ?_ (fun _ _ => ?_)) <;> first | (intro e; simp_all; done) | skip)
    | with_reducible refine safe_bind_report _ ‹_› (fun _ _ => ?_)
    | with_reducible refine safe_bind_ERROR _ ‹_› (fun _ _ => ?_)
    | with_reducible refine safe_bind_PARSER_ERROR _ ‹_› (fun _ _ => ?_)
    | with_reducible refine safe_bind_sub (rec_safe_reads hrec _ ‹_›) (fun _ _ _ _ => ?_)
    | with_reducible refine safe_bind_sub (parse_postfix_safe fuel rec hrec ‹_›) (fun _ _ _ _ => ?_)
    | with_reducible refine safe_sub (rec_safe_reads hrec _ ‹_›) (fun _ _ _ _ => ?_)
    | with_reducible refine safe_sub (parse_postfix_safe fuel rec hrec ‹_›) (fun _ _ _ _ => ?_)
    | simp only [Bool.not_true, Bool.not_false, Bool.false_eq_true, if_false, if_true, eq_self_iff_true, ne_eq, not_true_eq_false, not_false_eq_true, Option.isNone_none, Option.isNone_some, and_true, true_and, and_false, false_and]
    | with_reducible refine safe_ite (fun _ => ?_) (fun _ => ?_)
    | split
    | with_reducible refine safe_pure ?_
    | with_reducible refine safe_bind ?_

theorem parse_exponent_safe (fuel : Nat) (rec : parse_rec) (hrec : rec_safe rec) {p : parser_t} {t : token_t} (h : p.reads t) :
    (parse_exponent fuel rec).safe (fun _ p' => p'.ends_with_eof) p := by
  unfold parse_exponent
  try simp only []
  repeat' first
    | with_reducible exact safe_done ‹_›
    | with_reducible exact safe_stop_unreachable _ _
    | with_reducible exact safe_stop_out_of_fuel _ _
    | with_reducible exact safe_stop_uninitialised_node _ _
    | with_reducible exact rec_safe_reads hrec _ ‹_›
    | with_reducible exact parse_unary_safe fuel rec hrec ‹_›
    | with_reducible refine safe_bind_pure ?_
    | with_reducible refine safe_bind_current_type ‹_› ?_
    | with_reducible refine safe_bind_current ‹_› ?_
    | with_reducible refine safe_bind_check _ ‹_› ?_
    | with_reducible refine safe_bind_match _ (by decide) ‹_› (fun _ _ _ _ => ?_) (fun _ => ?_)
    | with_reducible refine safe_bind_match_any _ (by decide) ‹_› (fun _ _ _ _ => ?_) (fun _ => ?_)
    | with_reducible refine safe_bind_previous ‹_› ?_
    | ((with_reducible refine safe_bind_advance ‹_› ?_ (fun _ _ _ => ?_)) <;> first | (intro e; simp_all; done) | skip)
    | ((with_reducible refine safe_bind_peek ‹_› ?_ (fun _ _ => ?_)) <;> first | (intro e; simp_all; done) | skip)
    | with_reducible refine safe_bind_report _ ‹_› (fun _ _ => ?_)
    | with_reducible refine safe_bind_ERROR _ ‹_› (fun _ _ => ?_)
    | with_reducible refine safe_bind_PARSER_ERROR _ ‹_› (fun _ _ => ?_)
    | with_reducible refine safe_bind_sub (rec_safe_reads hrec _ ‹_›) (fun _ _ _ _ => ?_)
    | with_reducible refine safe_bind_sub (parse_unary_safe fuel rec hrec ‹_›) (fun _ _ _ _ => ?_)
    | with_reducible refine safe_sub (rec_safe_reads hrec _ ‹_›) (fun _ _ _ _ => ?_)
    | with_reducible refine safe_sub (parse_unary_safe fuel rec hrec ‹_›) (fun _ _ _ _ => ?_)
    | simp only [Bool.not_true, Bool.not_false, Bool.false_eq_true, if_false, if_true, eq_self_iff_true, ne_eq, not_true_eq_false, not_false_eq_true, Option.isNone_none, Option.isNone_some, and_true, true_and, and_false, false_and]
    | with_reducible refine safe_ite (fun _ => ?_) (fun _ => ?_)
    | split
    | with_reducible refine safe_pure ?_
    | with_reducible refine safe_bind ?_

theorem binary_loop_safe (types : List token_type_t) (htypes : TOKEN_EOF ∉ types) (next : parse_m (Option Node))
    (hnext : ∀ {p : parser_t} {t : token_t}, p.reads t → next.safe (fun _ p' => p'.ends_with_eof) p) (n : Nat) :
    ∀ (left : Node) {p : parser_t} {t : token_t}, p.reads t →
      (binary_loop types next n left).safe (fun _ p' => p'.ends_with_eof) p := by
  induction n with
  | zero =>
    intro left p t h
    exact safe_stop_out_of_fuel _ _
  | succ n ih =>
    intro left p t h
    unfold binary_loop
    try simp only []
    repeat' first
      | with_reducible exact safe_done ‹_›
      | with_reducible exact safe_stop_unreachable _ _
      | with_reducible exact safe_stop_out_of_fuel _ _
      | with_reducible exact safe_stop_uninitialised_node _ _
      | with_reducible refine safe_bind_match_any _ htypes ‹_› (fun _ _ _ _ => ?_) (fun _ => ?_)
      | with_reducible exact ih _ ‹_›
      | with_reducible exact hnext ‹_›
      | with_reducible refine safe_bind_pure ?_
      | with_reducible refine safe_bind_current_type ‹_› ?_
      | with_reducible refine safe_bind_current ‹_› ?_
      | with_reducible refine safe_bind_check _ ‹_› ?_
      | with_reducible refine safe_bind_match _ (by decide) ‹_› (fun _ _ _ _ => ?_) (fun _ => ?_)
      | with_reducible refine safe_bind_match_any _ (by decide) ‹_› (fun _ _ _ _ => ?_) (fun _ => ?_)
      | with_reducible refine safe_bind_previous ‹_› ?_
      | ((with_reducible refine safe_bind_advance ‹_› ?_ (fun _ _ _ => ?_)) <;> first | (intro e; simp_all; done) | skip)
      | ((with_reducible refine safe_bind_peek ‹_› ?_ (fun _ _ => ?_)) <;> first | (intro e; simp_all; done) | skip)
      | with_reducible refine safe_bind_report _ ‹_› (fun _ _ => ?_)
      | with_reducible refine safe_bind_ERROR _ ‹_› (fun _ _ => ?_)
      | with_reducible refine safe_bind_PARSER_ERROR _ ‹_› (fun _ _ => ?_)
      | with_reducible refine safe_bind_sub (ih _ ‹_›) (fun _ _ _ _ => ?_)
      | with_reducible refine safe_bind_sub (hnext ‹_›) (fun _ _ _ _ => ?_)
      | with_reducible refine safe_sub (ih _ ‹_›) (fun _ _ _ _ => ?_)
      | with_reducible refine safe_sub (hnext ‹_›) (fun _ _ _ _ => ?_)
      | simp only [Bool.not_true, Bool.not_false, Bool.false_eq_true, if_false, if_true, eq_self_iff_true, ne_eq, not_true_eq_false, not_false_eq_true, Option.isNone_none, Option.isNone_some, and_true, true_and, and_false, false_and]
      | with_reducible refine safe_ite (fun _ => ?_) (fun _ => ?_)
      | split
      | with_reducible refine safe_pure ?_
      | with_reducible refine safe_bind ?_

theorem binary_level_safe (types : List token_type_t) (htypes : TOKEN_EOF ∉ types) (next : parse_m (Option Node))
    (hnext : ∀ {p : parser_t} {t : token_t}, p.reads t → next.safe (fun _ p' => p'.ends_with_eof) p) (fuel : Nat)
    {p : parser_t} {t : token_t} (h : p.reads t) :
    (binary_level types next fuel).safe (fun _ p' => p'.ends_with_eof) p := by
  unfold binary_level
  try simp only []
  repeat' first
    | with_reducible exact safe_done ‹_›
    | with_reducible exact safe_stop_unreachable _ _
    | with_reducible exact safe_stop_out_of_fuel _ _
    | with_reducible exact safe_stop_uninitialised_node _ _
    | with_reducible exact hnext ‹_›
    | with_reducible exact binary_loop_safe types htypes next hnext _ _ ‹_›
    | with_reducible refine safe_bind_pure ?_
    | with_reducible refine safe_bind_current_type ‹_› ?_
    | with_reducible refine safe_bind_current ‹_› ?_
    | with_reducible refine safe_bind_check _ ‹_› ?_
    | with_reducible refine safe_bind_match _ (by decide) ‹_› (fun _ _ _ _ => ?_) (fun _ => ?_)
    | with_reducible refine safe_bind_match_any _ (by decide) ‹_› (fun _ _ _ _ => ?_) (fun _ => ?_)
    | with_reducible refine safe_bind_previous ‹_› ?_
    | ((with_reducible refine safe_bind_advance ‹_› ?_ (fun _ _ _ => ?_)) <;> first | (intro e; simp_all; done) | skip)
    | ((with_reducible refine safe_bind_peek ‹_› ?_ (fun _ _ => ?_)) <;> first | (intro e; simp_all; done) | skip)
    | with_reducible refine safe_bind_report _ ‹_› (fun _ _ => ?_)
    | with_reducible refine safe_bind_ERROR _ ‹_› (fun _ _ => ?_)
    | with_reducible refine safe_bind_PARSER_ERROR _ ‹_› (fun _ _ => ?_)
    | with_reducible refine safe_bind_sub (hnext ‹_›) (fun _ _ _ _ => ?_)
    | with_reducible refine safe_bind_sub (binary_loop_safe types htypes next hnext _ _ ‹_›) (fun _ _ _ _ => ?_)
    | with_reducible refine safe_sub (hnext ‹_›) (fun _ _ _ _ => ?_)
    | with_reducible refine safe_sub (binary_loop_safe types htypes next hnext _ _ ‹_›) (fun _ _ _ _ => ?_)
    | simp only [Bool.not_true, Bool.not_false, Bool.false_eq_true, if_false, if_true, eq_self_iff_true, ne_eq, not_true_eq_false, not_false_eq_true, Option.isNone_none, Option.isNone_some, and_true, true_and, and_false, false_and]
    | with_reducible refine safe_ite (fun _ => ?_) (fun _ => ?_)
    | split
    | with_reducible refine safe_pure ?_
    | with_reducible refine safe_bind ?_

theorem parse_factor_safe (fuel : Nat) (rec : parse_rec) (hrec : rec_safe rec) {p : parser_t} {t : token_t} (h : p.reads t) :
    (parse_factor fuel rec).safe (fun _ p' => p'.ends_with_eof) p :=
  binary_level_safe _ (by decide) _ (fun h1 => parse_exponent_safe fuel rec hrec h1) fuel h

theorem parse_term_safe (fuel : Nat) (rec : parse_rec) (hrec : rec_safe rec) {p : parser_t} {t : token_t} (h : p.reads t) :
    (parse_term fuel rec).safe (fun _ p' => p'.ends_with_eof) p :=
  binary_level_safe _ (by decide) _ (fun h1 => parse_factor_safe fuel rec hrec h1) fuel h

theorem parse_shift_safe (fuel : Nat) (rec : parse_rec) (hrec : rec_safe rec) {p : parser_t} {t : token_t} (h : p.reads t) :
    (parse_shift fuel rec).safe (fun _ p' => p'.ends_with_eof) p :=
  binary_level_safe _ (by decide) _ (fun h1 => parse_term_safe fuel rec hrec h1) fuel h

theorem parse_relational_safe (fuel : Nat) (rec : parse_rec) (hrec : rec_safe rec) {p : parser_t} {t : token_t} (h : p.reads t) :
    (parse_relational fuel rec).safe (fun _ p' => p'.ends_with_eof) p :=
  binary_level_safe _ (by decide) _ (fun h1 => parse_shift_safe fuel rec hrec h1) fuel h

theorem parse_equality_safe (fuel : Nat) (rec : parse_rec) (hrec : rec_safe rec) {p : parser_t} {t : token_t} (h : p.reads t) :
    (parse_equality fuel rec).safe (fun _ p' => p'.ends_with_eof) p :=
  binary_level_safe _ (by decide) _ (fun h1 => parse_relational_safe fuel rec hrec h1) fuel h

theorem parse_bitwise_and_safe (fuel : Nat) (rec : parse_rec) (hrec : rec_safe rec) {p : parser_t} {t : token_t} (h : p.reads t) :
    (parse_bitwise_and fuel rec).safe (fun _ p' => p'.ends_with_eof) p :=
  binary_level_safe _ (by decide) _ (fun h1 => parse_equality_safe fuel rec hrec h1) fuel h

theorem parse_bitwise_xor_safe (fuel : Nat) (rec : parse_rec) (hrec : rec_safe rec) {p : parser_t} {t : token_t} (h : p.reads t) :
    (parse_bitwise_xor fuel rec).safe (fun _ p' => p'.ends_with_eof) p :=
  binary_level_safe _ (by decide) _ (fun h1 => parse_bitwise_and_safe fuel rec hrec h1) fuel h

theorem parse_bitwise_or_safe (fuel : Nat) (rec : parse_rec) (hrec : rec_safe rec) {p : parser_t} {t : token_t} (h : p.reads t) :
    (parse_bitwise_or fuel rec).safe (fun _ p' => p'.ends_with_eof) p :=
  binary_level_safe _ (by decide) _ (fun h1 => parse_bitwise_xor_safe fuel rec hrec h1) fuel h

theorem parse_logical_and_safe (fuel : Nat) (rec : parse_rec) (hrec : rec_safe rec) {p : parser_t} {t : token_t} (h : p.reads t) :
    (parse_logical_and fuel rec).safe (fun _ p' => p'.ends_with_eof) p :=
  binary_level_safe _ (by decide) _ (fun h1 => parse_bitwise_or_safe fuel rec hrec h1) fuel h

theorem parse_logical_or_safe (fuel : Nat) (rec : parse_rec) (hrec : rec_safe rec) {p : parser_t} {t : token_t} (h : p.reads t) :
    (parse_logical_or fuel rec).safe (fun _ p' => p'.ends_with_eof) p :=
  binary_level_safe _ (by decide) _ (fun h1 => parse_logical_and_safe fuel rec hrec h1) fuel h

theorem parse_ternary_safe (fuel : Nat) (rec : parse_rec) (hrec : rec_safe rec) {p : parser_t} {t : token_t} (h : p.reads t) :
    (parse_ternary fuel rec).safe (fun _ p' => p'.ends_with_eof) p := by
  unfold parse_ternary
  try simp only []
  repeat' first
    | with_reducible exact safe_done ‹_›
    | with_reducible exact safe_stop_unreachable _ _
    | with_reducible exact safe_stop_out_of_fuel _ _
    | with_reducible exact safe_stop_uninitialised_node _ _
    | with_reducible exact rec_safe_reads hrec _ ‹_›
    | with_reducible exact parse_logical_or_safe fuel rec hrec ‹_›
    | with_reducible refine safe_bind_pure ?_
    | with_reducible refine safe_bind_current_type ‹_› ?_
    | with_reducible refine safe_bind_current ‹_› ?_
    | with_reducible refine safe_bind_check _ ‹_› ?_
    | with_reducible refine safe_bind_match _ (by decide) ‹_› (fun _ _ _ _ => ?_) (fun _ => ?_)
    | with_reducible refine safe_bind_match_any _ (by decide) ‹_› (fun _ _ _ _ => ?_) (fun _ => ?_)
    | with_reducible refine safe_bind_previous ‹_› ?_
    | ((with_reducible refine safe_bind_advance ‹_› ?_ (fun _ _ _ => ?_)) <;> first | (intro e; simp_all; done) | skip)
    | ((with_reducible refine safe_bind_peek ‹_› ?_ (fun _ _ => ?_)) <;> first | (intro e; simp_all; done) | skip)
    | with_reducible refine safe_bind_report _ ‹_› (fun _ _ => ?_)
    | with_reducible refine safe_bind_ERROR _ ‹_› (fun _ _ => ?_)
    | with_reducible refine safe_bind_PARSER_ERROR _ ‹_› (fun _ _ => ?_)
    | with_reducible refine safe_bind_sub (rec_safe_reads hrec _ ‹_›) (fun _ _ _ _ => ?_)
    | with_reducible refine safe_bind_sub (parse_logical_or_safe fuel rec hrec ‹_›) (fun _ _ _ _ => ?_)
    | with_reducible refine safe_sub (rec_safe_reads hrec _ ‹_›) (fun _ _ _ _ => ?_)
    | with_reducible refine safe_sub (parse_logical_or_safe fuel rec hrec ‹_›) (fun _ _ _ _ => ?_)
    | simp only [Bool.not_true, Bool.not_false, Bool.false_eq_true, if_false, if_true, eq_self_iff_true, ne_eq, not_true_eq_false, not_false_eq_true, Option.isNone_none, Option.isNone_some, and_true, true_and, and_false, false_and]
    | with_reducible refine safe_ite (fun _ => ?_) (fun _ => ?_)
    | split
    | with_reducible refine safe_pure ?_
    | with_reducible refine safe_bind ?_

theorem parse_assignment_safe (fuel : Nat) (rec : parse_rec) (hrec : rec_safe rec) {p : parser_t} {t : token_t} (h : p.reads t) :
    (parse_assignment fuel rec).safe (fun _ p' => p'.ends_with_eof) p := by
  unfold parse_assignment
  try simp only []
  repeat' first
    | with_reducible exact safe_done ‹_›
    | with_reducible exact safe_stop_unreachable _ _
    | with_reducible exact safe_stop_out_of_fuel _ _
    | with_reducible exact safe_stop_uninitialised_node _ _
    | with_reducible refine safe_bind_match_any assignment_operators (by decide) ‹_› (fun _ _ _ _ => ?_) (fun _ => ?_)
    | with_reducible exact rec_safe_reads hrec _ ‹_›
    | with_reducible exact parse_ternary_safe fuel rec hrec ‹_›
    | with_reducible refine safe_bind_pure ?_
    | with_reducible refine safe_bind_current_type ‹_› ?_
    | with_reducible refine safe_bind_current ‹_› ?_
    | with_reducible refine safe_bind_check _ ‹_› ?_
    | with_reducible refine safe_bind_match _ (by decide) ‹_› (fun _ _ _ _ => ?_) (fun _ => ?_)
    | with_reducible refine safe_bind_match_any _ (by decide) ‹_› (fun _ _ _ _ => ?_) (fun _ => ?_)
    | with_reducible refine safe_bind_previous ‹_› ?_
    | ((with_reducible refine safe_bind_advance ‹_› ?_ (fun _ _ _ => ?_)) <;> first | (intro e; simp_all; done) | skip)
    | ((with_reducible refine safe_bind_peek ‹_› ?_ (fun _ _ => ?_)) <;> first | (intro e; simp_all; done) | skip)
    | with_reducible refine safe_bind_report _ ‹_› (fun _ _ => ?_)
    | with_reducible refine safe_bind_ERROR _ ‹_› (fun _ _ => ?_)
    | with_reducible refine safe_bind_PARSER_ERROR _ ‹_› (fun _ _ => ?_)
    | with_reducible refine safe_bind_sub (rec_safe_reads hrec _ ‹_›) (fun _ _ _ _ => ?_)
    | with_reducible refine safe_bind_sub (parse_ternary_safe fuel rec hrec ‹_›) (fun _ _ _ _ => ?_)
    | with_reducible refine safe_sub (rec_safe_reads hrec _ ‹_›) (fun _ _ _ _ => ?_)
    | with_reducible refine safe_sub (parse_ternary_safe fuel rec hrec ‹_›) (fun _ _ _ _ => ?_)
    | simp only [Bool.not_true, Bool.not_false, Bool.false_eq_true, if_false, if_true, eq_self_iff_true, ne_eq, not_true_eq_false, not_false_eq_true, Option.isNone_none, Option.isNone_some, and_true, true_and, and_false, false_and]
    | with_reducible refine safe_ite (fun _ => ?_) (fun _ => ?_)
    | split
    | with_reducible refine safe_pure ?_
    | with_reducible refine safe_bind ?_

theorem parse_expression_safe (fuel : Nat) (rec : parse_rec) (hrec : rec_safe rec) {p : parser_t} {t : token_t} (h : p.reads t) :
    (parse_expression fuel rec).safe (fun _ p' => p'.ends_with_eof) p :=
  parse_assignment_safe fuel rec hrec h

theorem parse_comma_safe (fuel : Nat) (rec : parse_rec) (hrec : rec_safe rec) {p : parser_t} {t : token_t} (h : p.reads t) :
    (parse_comma fuel rec).safe (fun _ p' => p'.ends_with_eof) p :=
  binary_level_safe _ (by decide) _ (fun h1 => parse_expression_safe fuel rec hrec h1) fuel h

theorem parse_statements_safe (rec : parse_rec) (hrec : rec_safe rec) (stops : List token_type_t) (n : Nat) :
    ∀ (statements : List Node) {p : parser_t} {t : token_t}, p.reads t →
      (parse_statements rec stops n statements).safe (fun _ p' => p'.ends_with_eof) p := by
  induction n with
  | zero =>
    intro statements p t h
    exact safe_stop_out_of_fuel _ _
  | succ n ih =>
    intro statements p t h
    unfold parse_statements
    try simp only []
    repeat' first
      | with_reducible exact safe_done ‹_›
      | with_reducible exact safe_stop_unreachable _ _
      | with_reducible exact safe_stop_out_of_fuel _ _
      | with_reducible exact safe_stop_uninitialised_node _ _
      | with_reducible exact ih _ ‹_›
      | with_reducible exact rec_safe_reads hrec _ ‹_›
      | with_reducible refine safe_bind_pure ?_
      | with_reducible refine safe_bind_current_type ‹_› ?_
      | with_reducible refine safe_bind_current ‹_› ?_
      | with_reducible refine safe_bind_check _ ‹_› ?_
      | with_reducible refine safe_bind_match _ (by decide) ‹_› (fun _ _ _ _ => ?_) (fun _ => ?_)
      | with_reducible refine safe_bind_match_any _ (by decide) ‹_› (fun _ _ _ _ => ?_) (fun _ => ?_)
      | with_reducible refine safe_bind_previous ‹_› ?_
      | ((with_reducible refine safe_bind_advance ‹_› ?_ (fun _ _ _ => ?_)) <;> first | (intro e; simp_all; done) | skip)
      | ((with_reducible refine safe_bind_peek ‹_› ?_ (fun _ _ => ?_)) <;> first | (intro e; simp_all; done) | skip)
      | with_reducible refine safe_bind_report _ ‹_› (fun _ _ => ?_)
      | with_reducible refine safe_bind_ERROR _ ‹_› (fun _ _ => ?_)
      | with_reducible refine safe_bind_PARSER_ERROR _ ‹_› (fun _ _ => ?_)
      | with_reducible refine safe_bind_sub (ih _ ‹_›) (fun _ _ _ _ => ?_)
      | with_reducible refine safe_bind_sub (rec_safe_reads hrec _ ‹_›) (fun _ _ _ _ => ?_)
      | with_reducible refine safe_sub (ih _ ‹_›) (fun _ _ _ _ => ?_)
      | with_reducible refine safe_sub (rec_safe_reads hrec _ ‹_›) (fun _ _ _ _ => ?_)
      | simp only [Bool.not_true, Bool.not_false, Bool.false_eq_true, if_false, if_true, eq_self_iff_true, ne_eq, not_true_eq_false, not_false_eq_true, Option.isNone_none, Option.isNone_some, and_true, true_and, and_false, false_and]
      | with_reducible refine safe_ite (fun _ => ?_) (fun _ => ?_)
      | split
      | with_reducible refine safe_pure ?_
      | with_reducible refine safe_bind ?_

theorem parse_block_safe (fuel : Nat) (rec : parse_rec) (hrec : rec_safe rec) {p : parser_t} {t : token_t} (h : p.reads t) :
    (parse_block fuel rec).safe (fun _ p' => p'.ends_with_eof) p := by
  unfold parse_block
  try simp only []
  repeat' first
    | with_reducible exact safe_done ‹_›
    | with_reducible exact safe_stop_unreachable _ _
    | with_reducible exact safe_stop_out_of_fuel _ _
    | with_reducible exact safe_stop_uninitialised_node _ _
    | with_reducible exact rec_safe_reads hrec _ ‹_›
    | with_reducible exact parse_statements_safe rec hrec _ _ _ ‹_›
    | with_reducible refine safe_bind_pure ?_
    | with_reducible refine safe_bind_current_type ‹_› ?_
    | with_reducible refine safe_bind_current ‹_› ?_
    | with_reducible refine safe_bind_check _ ‹_› ?_
    | with_reducible refine safe_bind_match _ (by decide) ‹_› (fun _ _ _ _ => ?_) (fun _ => ?_)
    | with_reducible refine safe_bind_match_any _ (by decide) ‹_› (fun _ _ _ _ => ?_) (fun _ => ?_)
    | with_reducible refine safe_bind_previous ‹_› ?_
    | ((with_reducible refine safe_bind_advance ‹_› ?_ (fun _ _ _ => ?_)) <;> first | (intro e; simp_all; done) | skip)
    | ((with_reducible refine safe_bind_peek ‹_› ?_ (fun _ _ => ?_)) <;> first | (intro e; simp_all; done) | skip)
    | with_reducible refine safe_bind_report _ ‹_› (fun _ _ => ?_)
    | with_reducible refine safe_bind_ERROR _ ‹_› (fun _ _ => ?_)
    | with_reducible refine safe_bind_PARSER_ERROR _ ‹_› (fun _ _ => ?_)
    | with_reducible refine safe_bind_sub (rec_safe_reads hrec _ ‹_›) (fun _ _ _ _ => ?_)
    | with_reducible refine safe_bind_sub (parse_statements_safe rec hrec _ _ _ ‹_›) (fun _ _ _ _ => ?_)
    | with_reducible refine safe_sub (rec_safe_reads hrec _ ‹_›) (fun _ _ _ _ => ?_)
    | with_reducible refine safe_sub (parse_statements_safe rec hrec _ _ _ ‹_›) (fun _ _ _ _ => ?_)
    | simp only [Bool.not_true, Bool.not_false, Bool.false_eq_true, if_false, if_true, eq_self_iff_true, ne_eq, not_true_eq_false, not_false_eq_true, Option.isNone_none, Option.isNone_some, and_true, true_and, and_false, false_and]
    | with_reducible refine safe_ite (fun _ => ?_) (fun _ => ?_)
    | split
    | with_reducible refine safe_pure ?_
    | with_reducible refine safe_bind ?_

theorem parse_label_safe (rec : parse_rec) (hrec : rec_safe rec) {p : parser_t} {t : token_t} (h : p.reads t) :
    (parse_label rec).safe (fun _ p' => p'.ends_with_eof) p := by
  unfold parse_label
  try simp only []
  refine safe_bind_current_type h ?_
  refine safe_ite (fun _ => safe_bind (safe_stop_unreachable _ _)) (fun hid => ?_)
  refine safe_bind (safe_pure ?_)
  refine safe_bind_peek h (by intro e; simp_all) (fun t1 h1 => ?_)
  refine safe_ite (fun _ => safe_bind (safe_stop_unreachable _ _)) (fun hcolon => ?_)
  refine safe_bind (safe_pure ?_)
  refine safe_bind_current h ?_
  refine safe_bind_advance h (by intro e; simp_all) (fun _ _ _ => ?_)
  refine safe_bind_advance h1 (by intro e; simp_all) (fun _ _ _ => ?_)
  repeat' first
    | with_reducible exact safe_done ‹_›
    | with_reducible exact safe_stop_unreachable _ _
    | with_reducible exact safe_stop_out_of_fuel _ _
    | with_reducible exact safe_stop_uninitialised_node _ _
    | with_reducible exact rec_safe_reads hrec _ ‹_›
    | with_reducible refine safe_bind_pure ?_
    | with_reducible refine safe_bind_current_type ‹_› ?_
    | with_reducible refine safe_bind_current ‹_› ?_
    | with_reducible refine safe_bind_check _ ‹_› ?_
    | with_reducible refine safe_bind_match _ (by decide) ‹_› (fun _ _ _ _ => ?_) (fun _ => ?_)
    | with_reducible refine safe_bind_match_any _ (by decide) ‹_› (fun _ _ _ _ => ?_) (fun _ => ?_)
    | with_reducible refine safe_bind_previous ‹_› ?_
    | ((with_reducible refine safe_bind_advance ‹_› ?_ (fun _ _ _ => ?_)) <;> first | (intro e; simp_all; done) | skip)
    | ((with_reducible refine safe_bind_peek ‹_› ?_ (fun _ _ => ?_)) <;> first | (intro e; simp_all; done) | skip)
    | with_reducible refine safe_bind_report _ ‹_› (fun _ _ => ?_)
    | with_reducible refine safe_bind_ERROR _ ‹_› (fun _ _ => ?_)
    | with_reducible refine safe_bind_PARSER_ERROR _ ‹_› (fun _ _ => ?_)
    | with_reducible refine safe_bind_sub (rec_safe_reads hrec _ ‹_›) (fun _ _ _ _ => ?_)
    | with_reducible refine safe_sub (rec_safe_reads hrec _ ‹_›) (fun _ _ _ _ => ?_)
    | simp only [Bool.not_true, Bool.not_false, Bool.false_eq_true, if_false, if_true, eq_self_iff_true, ne_eq, not_true_eq_false, not_false_eq_true, Option.isNone_none, Option.isNone_some, and_true, true_and, and_false, false_and]
    | with_reducible refine safe_ite (fun _ => ?_) (fun _ => ?_)
    | split
    | with_reducible refine safe_pure ?_
    | with_reducible refine safe_bind ?_

theorem parse_if_safe (fuel : Nat) (rec : parse_rec) (hrec : rec_safe rec) {p : parser_t} {t : token_t} (h : p.reads t) :
    (parse_if fuel rec).safe (fun _ p' => p'.ends_with_eof) p := by
  unfold parse_if
  try simp only []
  repeat' first
    | with_reducible exact safe_done ‹_›
    | with_reducible exact safe_stop_unreachable _ _
    | with_reducible exact safe_stop_out_of_fuel _ _
    | with_reducible exact safe_stop_uninitialised_node _ _
    | with_reducible exact rec_safe_reads hrec _ ‹_›
    | with_reducible exact parse_comma_safe fuel rec hrec ‹_›
    | with_reducible exact parse_block_safe fuel rec hrec ‹_›
    | with_reducible refine safe_bind_pure ?_
    | with_reducible refine safe_bind_current_type ‹_› ?_
    | with_reducible refine safe_bind_current ‹_› ?_
    | with_reducible refine safe_bind_check _ ‹_› ?_
    | with_reducible refine safe_bind_match _ (by decide) ‹_› (fun _ _ _ _ => ?_) (fun _ => ?_)
    | with_reducible refine safe_bind_match_any _ (by decide) ‹_› (fun _ _ _ _ => ?_) (fun _ => ?_)
    | with_reducible refine safe_bind_previous ‹_› ?_
    | ((with_reducible refine safe_bind_advance ‹_› ?_ (fun _ _ _ => ?_)) <;> first | (intro e; simp_all; done) | skip)
    | ((with_reducible refine safe_bind_peek ‹_› ?_ (fun _ _ => ?_)) <;> first | (intro e; simp_all; done) | skip)
    | with_reducible refine safe_bind_report _ ‹_› (fun _ _ => ?_)
    | with_reducible refine safe_bind_ERROR _ ‹_› (fun _ _ => ?_)
    | with_reducible refine safe_bind_PARSER_ERROR _ ‹_› (fun _ _ => ?_)
    | with_reducible refine safe_bind_sub (rec_safe_reads hrec _ ‹_›) (fun _ _ _ _ => ?_)
    | with_reducible refine safe_bind_sub (parse_comma_safe fuel rec hrec ‹_›) (fun _ _ _ _ => ?_)
    | with_reducible refine safe_bind_sub (parse_block_safe fuel rec hrec ‹_›) (fun _ _ _ _ => ?_)
    | with_reducible refine safe_sub (rec_safe_reads hrec _ ‹_›) (fun _ _ _ _ => ?_)
    | with_reducible refine safe_sub (parse_comma_safe fuel rec hrec ‹_›) (fun _ _ _ _ => ?_)
    | with_reducible refine safe_sub (parse_block_safe fuel rec hrec ‹_›) (fun _ _ _ _ => ?_)
    | simp only [Bool.not_true, Bool.not_false, Bool.false_eq_true, if_false, if_true, eq_self_iff_true, ne_eq, not_true_eq_false, not_false_eq_true, Option.isNone_none, Option.isNone_some, and_true, true_and, and_false, false_and]
    | with_reducible refine safe_ite (fun _ => ?_) (fun _ => ?_)
    | split
    | with_reducible refine safe_pure ?_
    | with_reducible refine safe_bind ?_

theorem parse_switch_labels_safe (fuel : Nat) (rec : parse_rec) (hrec : rec_safe rec) (n : Nat) :
    ∀ (labels : List Node) {p : parser_t} {t : token_t}, p.reads t →
      (parse_switch_labels fuel rec n labels).safe (fun _ p' => p'.ends_with_eof) p := by
  induction n with
  | zero =>
    intro labels p t h
    exact safe_stop_out_of_fuel _ _
  | succ n ih =>
    intro labels p t h
    rw [parse_switch_labels_succ]
    try simp only []
    repeat' first
      | with_reducible exact safe_done ‹_›
      | with_reducible exact safe_stop_unreachable _ _
      | with_reducible exact safe_stop_out_of_fuel _ _
      | with_reducible exact safe_stop_uninitialised_node _ _
      | with_reducible exact ih _ ‹_›
      | with_reducible exact parse_comma_safe fuel rec hrec ‹_›
      | with_reducible refine safe_bind_pure ?_
      | with_reducible refine safe_bind_current_type ‹_› ?_
      | with_reducible refine safe_bind_current ‹_› ?_
      | with_reducible refine safe_bind_check _ ‹_› ?_
      | with_reducible refine safe_bind_match _ (by decide) ‹_› (fun _ _ _ _ => ?_) (fun _ => ?_)
      | with_reducible refine safe_bind_match_any _ (by decide) ‹_› (fun _ _ _ _ => ?_) (fun _ => ?_)
      | with_reducible refine safe_bind_previous ‹_› ?_
      | ((with_reducible refine safe_bind_advance ‹_› ?_ (fun _ _ _ => ?_)) <;> first | (intro e; simp_all; done) | skip)
      | ((with_reducible refine safe_bind_peek ‹_› ?_ (fun _ _ => ?_)) <;> first | (intro e; simp_all; done) | skip)
      | with_reducible refine safe_bind_report _ ‹_› (fun _ _ => ?_)
      | with_reducible refine safe_bind_ERROR _ ‹_› (fun _ _ => ?_)
      | with_reducible refine safe_bind_PARSER_ERROR _ ‹_› (fun _ _ => ?_)
      | with_reducible refine safe_bind_sub (ih _ ‹_›) (fun _ _ _ _ => ?_)
      | with_reducible refine safe_bind_sub (parse_comma_safe fuel rec hrec ‹_›) (fun _ _ _ _ => ?_)
      | with_reducible refine safe_sub (ih _ ‹_›) (fun _ _ _ _ => ?_)
      | with_reducible refine safe_sub (parse_comma_safe fuel rec hrec ‹_›) (fun _ _ _ _ => ?_)
      | simp only [Bool.not_true, Bool.not_false, Bool.false_eq_true, if_false, if_true, eq_self_iff_true, ne_eq, not_true_eq_false, not_false_eq_true, Option.isNone_none, Option.isNone_some, and_true, true_and, and_false, false_and]
      | with_reducible refine safe_ite (fun _ => ?_) (fun _ => ?_)
      | split
      | with_reducible refine safe_pure ?_
      | with_reducible refine safe_bind ?_

theorem parse_switch_cases_safe (fuel : Nat) (rec : parse_rec) (hrec : rec_safe rec) (n : Nat) :
    ∀ (cases : List SwitchCase) {p : parser_t} {t : token_t}, p.reads t →
      (parse_switch_cases fuel rec n cases).safe (fun _ p' => p'.ends_with_eof) p := by
  induction n with
  | zero =>
    intro cases p t h
    exact safe_stop_out_of_fuel _ _
  | succ n ih =>
    intro cases p t h
    rw [parse_switch_cases_succ]
    try simp only []
    repeat' first
      | with_reducible exact safe_done ‹_›
      | with_reducible exact safe_stop_unreachable _ _
      | with_reducible exact safe_stop_out_of_fuel _ _
      | with_reducible exact safe_stop_uninitialised_node _ _
      | with_reducible exact ih _ ‹_›
      | with_reducible exact parse_switch_labels_safe fuel rec hrec _ _ ‹_›
      | with_reducible exact parse_statements_safe rec hrec _ _ _ ‹_›
      | with_reducible refine safe_bind_pure ?_
      | with_reducible refine safe_bind_current_type ‹_› ?_
      | with_reducible refine safe_bind_current ‹_› ?_
      | with_reducible refine safe_bind_check _ ‹_› ?_
      | with_reducible refine safe_bind_match _ (by decide) ‹_› (fun _ _ _ _ => ?_) (fun _ => ?_)
      | with_reducible refine safe_bind_match_any _ (by decide) ‹_› (fun _ _ _ _ => ?_) (fun _ => ?_)
      | with_reducible refine safe_bind_previous ‹_› ?_
      | ((with_reducible refine safe_bind_advance ‹_› ?_ (fun _ _ _ => ?_)) <;> first | (intro e; simp_all; done) | skip)
      | ((with_reducible refine safe_bind_peek ‹_› ?_ (fun _ _ => ?_)) <;> first | (intro e; simp_all; done) | skip)
      | with_reducible refine safe_bind_report _ ‹_› (fun _ _ => ?_)
      | with_reducible refine safe_bind_ERROR _ ‹_› (fun _ _ => ?_)
      | with_reducible refine safe_bind_PARSER_ERROR _ ‹_› (fun _ _ => ?_)
      | with_reducible refine safe_bind_sub (ih _ ‹_›) (fun _ _ _ _ => ?_)
      | with_reducible refine safe_bind_sub (parse_switch_labels_safe fuel rec hrec _ _ ‹_›) (fun _ _ _ _ => ?_)
      | with_reducible refine safe_bind_sub (parse_statements_safe rec hrec _ _ _ ‹_›) (fun _ _ _ _ => ?_)
      | with_reducible refine safe_sub (ih _ ‹_›) (fun _ _ _ _ => ?_)
      | with_reducible refine safe_sub (parse_switch_labels_safe fuel rec hrec _ _ ‹_›) (fun _ _ _ _ => ?_)
      | with_reducible refine safe_sub (parse_statements_safe rec hrec _ _ _ ‹_›) (fun _ _ _ _ => ?_)
      | simp only [Bool.not_true, Bool.not_false, Bool.false_eq_true, if_false, if_true, eq_self_iff_true, ne_eq, not_true_eq_false, not_false_eq_true, Option.isNone_none, Option.isNone_some, and_true, true_and, and_false, false_and]
      | with_reducible refine safe_ite (fun _ => ?_) (fun _ => ?_)
      | split
      | with_reducible refine safe_pure ?_
      | with_reducible refine safe_bind ?_

theorem parse_switch_safe (fuel : Nat) (rec : parse_rec) (hrec : rec_safe rec) {p : parser_t} {t : token_t} (h : p.reads t) :
    (parse_switch fuel rec).safe (fun _ p' => p'.ends_with_eof) p := by
  unfold parse_switch
  try simp only []
  repeat' first
    | with_reducible exact safe_done ‹_›
    | with_reducible exact safe_stop_unreachable _ _
    | with_reducible exact safe_stop_out_of_fuel _ _
    | with_reducible exact safe_stop_uninitialised_node _ _
    | with_reducible exact parse_expression_safe fuel rec hrec ‹_›
    | with_reducible exact parse_switch_cases_safe fuel rec hrec _ _ ‹_›
    | with_reducible refine safe_bind_pure ?_
    | with_reducible refine safe_bind_current_type ‹_› ?_
    | with_reducible refine safe_bind_current ‹_› ?_
    | with_reducible refine safe_bind_check _ ‹_› ?_
    | with_reducible refine safe_bind_match _ (by decide) ‹_› (fun _ _ _ _ => ?_) (fun _ => ?_)
    | with_reducible refine safe_bind_match_any _ (by decide) ‹_› (fun _ _ _ _ => ?_) (fun _ => ?_)
    | with_reducible refine safe_bind_previous ‹_› ?_
    | ((with_reducible refine safe_bind_advance ‹_› ?_ (fun _ _ _ => ?_)) <;> first | (intro e; simp_all; done) | skip)
    | ((with_reducible refine safe_bind_peek ‹_› ?_ (fun _ _ => ?_)) <;> first | (intro e; simp_all; done) | skip)
    | with_reducible refine safe_bind_report _ ‹_› (fun _ _ => ?_)
    | with_reducible refine safe_bind_ERROR _ ‹_› (fun _ _ => ?_)
    | with_reducible refine safe_bind_PARSER_ERROR _ ‹_› (fun _ _ => ?_)
    | with_reducible refine safe_bind_sub (parse_expression_safe fuel rec hrec ‹_›) (fun _ _ _ _ => ?_)
    | with_reducible refine safe_bind_sub (parse_switch_cases_safe fuel rec hrec _ _ ‹_›) (fun _ _ _ _ => ?_)
    | with_reducible refine safe_sub (parse_expression_safe fuel rec hrec ‹_›) (fun _ _ _ _ => ?_)
    | with_reducible refine safe_sub (parse_switch_cases_safe fuel rec hrec _ _ ‹_›) (fun _ _ _ _ => ?_)
    | simp only [Bool.not_true, Bool.not_false, Bool.false_eq_true, if_false, if_true, eq_self_iff_true, ne_eq, not_true_eq_false, not_false_eq_true, Option.isNone_none, Option.isNone_some, and_true, true_and, and_false, false_and]
    | with_reducible refine safe_ite (fun _ => ?_) (fun _ => ?_)
    | split
    | with_reducible refine safe_pure ?_
    | with_reducible refine safe_bind ?_

theorem parse_while_safe (fuel : Nat) (rec : parse_rec) (hrec : rec_safe rec) {p : parser_t} {t : token_t} (h : p.reads t) :
    (parse_while fuel rec).safe (fun _ p' => p'.ends_with_eof) p := by
  unfold parse_while
  try simp only []
  repeat' first
    | with_reducible exact safe_done ‹_›
    | with_reducible exact safe_stop_unreachable _ _
    | with_reducible exact safe_stop_out_of_fuel _ _
    | with_reducible exact safe_stop_uninitialised_node _ _
    | with_reducible exact parse_comma_safe fuel rec hrec ‹_›
    | with_reducible exact parse_block_safe fuel rec hrec ‹_›
    | with_reducible refine safe_bind_pure ?_
    | with_reducible refine safe_bind_current_type ‹_› ?_
    | with_reducible refine safe_bind_current ‹_› ?_
    | with_reducible refine safe_bind_check _ ‹_› ?_
    | with_reducible refine safe_bind_match _ (by decide) ‹_› (fun _ _ _ _ => ?_) (fun _ => ?_)
    | with_reducible refine safe_bind_match_any _ (by decide) ‹_› (fun _ _ _ _ => ?_) (fun _ => ?_)
    | with_reducible refine safe_bind_previous ‹_› ?_
    | ((with_reducible refine safe_bind_advance ‹_› ?_ (fun _ _ _ => ?_)) <;> first | (intro e; simp_all; done) | skip)
    | ((with_reducible refine safe_bind_peek ‹_› ?_ (fun _ _ => ?_)) <;> first | (intro e; simp_all; done) | skip)
    | with_reducible refine safe_bind_report _ ‹_› (fun _ _ => ?_)
    | with_reducible refine safe_bind_ERROR _ ‹_› (fun _ _ => ?_)
    | with_reducible refine safe_bind_PARSER_ERROR _ ‹_› (fun _ _ => ?_)
    | with_reducible refine safe_bind_sub (parse_comma_safe fuel rec hrec ‹_›) (fun _ _ _ _ => ?_)
    | with_reducible refine safe_bind_sub (parse_block_safe fuel rec hrec ‹_›) (fun _ _ _ _ => ?_)
    | with_reducible refine safe_sub (parse_comma_safe fuel rec hrec ‹_›) (fun _ _ _ _ => ?_)
    | with_reducible refine safe_sub (parse_block_safe fuel rec hrec ‹_›) (fun _ _ _ _ => ?_)
    | simp only [Bool.not_true, Bool.not_false, Bool.false_eq_true, if_false, if_true, eq_self_iff_true, ne_eq, not_true_eq_false, not_false_eq_true, Option.isNone_none, Option.isNone_some, and_true, true_and, and_false, false_and]
    | with_reducible refine safe_ite (fun _ => ?_) (fun _ => ?_)
    | split
    | with_reducible refine safe_pure ?_
    | with_reducible refine safe_bind ?_

theorem parse_do_while_safe (fuel : Nat) (rec : parse_rec) (hrec : rec_safe rec) {p : parser_t} {t : token_t} (h : p.reads t) :
    (parse_do_while fuel rec).safe (fun _ p' => p'.ends_with_eof) p := by
  unfold parse_do_while
  try simp only []
  repeat' first
    | with_reducible exact safe_done ‹_›
    | with_reducible exact safe_stop_unreachable _ _
    | with_reducible exact safe_stop_out_of_fuel _ _
    | with_reducible exact safe_stop_uninitialised_node _ _
    | with_reducible exact parse_comma_safe fuel rec hrec ‹_›
    | with_reducible exact parse_block_safe fuel rec hrec ‹_›
    | with_reducible refine safe_bind_pure ?_
    | with_reducible refine safe_bind_current_type ‹_› ?_
    | with_reducible refine safe_bind_current ‹_› ?_
    | with_reducible refine safe_bind_check _ ‹_› ?_
    | with_reducible refine safe_bind_match _ (by decide) ‹_› (fun _ _ _ _ => ?_) (fun _ => ?_)
    | with_reducible refine safe_bind_match_any _ (by decide) ‹_› (fun _ _ _ _ => ?_) (fun _ => ?_)
    | with_reducible refine safe_bind_previous ‹_› ?_
    | ((with_reducible refine safe_bind_advance ‹_› ?_ (fun _ _ _ => ?_)) <;> first | (intro e; simp_all; done) | skip)
    | ((with_reducible refine safe_bind_peek ‹_› ?_ (fun _ _ => ?_)) <;> first | (intro e; simp_all; done) | skip)
    | with_reducible refine safe_bind_report _ ‹_› (fun _ _ => ?_)
    | with_reducible refine safe_bind_ERROR _ ‹_› (fun _ _ => ?_)
    | with_reducible refine safe_bind_PARSER_ERROR _ ‹_› (fun _ _ => ?_)
    | with_reducible refine safe_bind_sub (parse_comma_safe fuel rec hrec ‹_›) (fun _ _ _ _ => ?_)
    | with_reducible refine safe_bind_sub (parse_block_safe fuel rec hrec ‹_›) (fun _ _ _ _ => ?_)
    | with_reducible refine safe_sub (parse_comma_safe fuel rec hrec ‹_›) (fun _ _ _ _ => ?_)
    | with_reducible refine safe_sub (parse_block_safe fuel rec hrec ‹_›) (fun _ _ _ _ => ?_)
    | simp only [Bool.not_true, Bool.not_false, Bool.false_eq_true, if_false, if_true, eq_self_iff_true, ne_eq, not_true_eq_false, not_false_eq_true, Option.isNone_none, Option.isNone_some, and_true, true_and, and_false, false_and]
    | with_reducible refine safe_ite (fun _ => ?_) (fun _ => ?_)
    | split
    | with_reducible refine safe_pure ?_
    | with_reducible refine safe_bind ?_

theorem parse_declarators_succ (fuel : Nat) (rec : parse_rec) (n : Nat) (names : List Node)
    (values : List (Option Node)) :
    parse_declarators fuel rec (n + 1) names values = (do
      let some name ← parse_identifier
        | do
          PARSER_ERROR "Expected identifier after '%s', got: '%s'"
          return none
      let mut value : Option Node := none
      if (← parser_match TOKEN_EQUAL) then
        let some value_expr ← parse_expression fuel rec | return none
        value := some value_expr
      let names := names ++ [name]
      let values := values ++ [value]
      if !(← parser_match TOKEN_COMMA) then
        if !(← parser_match TOKEN_SEMICOLON) then
          PARSER_ERROR "Unexpected token after variable declaration: '%s', expected ';' or ','"
          return none
        return some (names, values)
      parse_declarators fuel rec n names values) := rfl

theorem parse_declarators_safe (fuel : Nat) (rec : parse_rec) (hrec : rec_safe rec) (n : Nat) :
    ∀ (names : List Node) (values : List (Option Node)) {p : parser_t} {t : token_t}, p.reads t →
      (parse_declarators fuel rec n names values).safe (fun _ p' => p'.ends_with_eof) p := by
  induction n with
  | zero =>
    intro names values p t h
    exact safe_stop_out_of_fuel _ _
  | succ n ih =>
    intro names values p t h
    rw [parse_declarators_succ]
    try simp only []
    repeat' first
      | with_reducible exact safe_done ‹_›
      | with_reducible exact safe_stop_unreachable _ _
      | with_reducible exact safe_stop_out_of_fuel _ _
      | with_reducible exact safe_stop_uninitialised_node _ _
      | with_reducible exact ih _ _ ‹_›
      | with_reducible exact parse_identifier_safe ‹_›
      | with_reducible exact parse_expression_safe fuel rec hrec ‹_›
      | with_reducible refine safe_bind_pure ?_
      | with_reducible refine safe_bind_current_type ‹_› ?_
      | with_reducible refine safe_bind_current ‹_› ?_
      | with_reducible refine safe_bind_check _ ‹_› ?_
      | with_reducible refine safe_bind_match _ (by decide) ‹_› (fun _ _ _ _ => ?_) (fun _ => ?_)
      | with_reducible refine safe_bind_match_any _ (by decide) ‹_› (fun _ _ _ _ => ?_) (fun _ => ?_)
      | with_reducible refine safe_bind_previous ‹_› ?_
      | ((with_reducible refine safe_bind_advance ‹_› ?_ (fun _ _ _ => ?_)) <;> first | (intro e; simp_all; done) | skip)
      | ((with_reducible refine safe_bind_peek ‹_› ?_ (fun _ _ => ?_)) <;> first | (intro e; simp_all; done) | skip)
      | with_reducible refine safe_bind_report _ ‹_› (fun _ _ => ?_)
      | with_reducible refine safe_bind_ERROR _ ‹_› (fun _ _ => ?_)
      | with_reducible refine safe_bind_PARSER_ERROR _ ‹_› (fun _ _ => ?_)
      | with_reducible refine safe_bind_sub (ih _ _ ‹_›) (fun _ _ _ _ => ?_)
      | with_reducible refine safe_bind_sub (parse_identifier_safe ‹_›) (fun _ _ _ _ => ?_)
      | with_reducible refine safe_bind_sub (parse_expression_safe fuel rec hrec ‹_›) (fun _ _ _ _ => ?_)
      | with_reducible refine safe_sub (ih _ _ ‹_›) (fun _ _ _ _ => ?_)
      | with_reducible refine safe_sub (parse_identifier_safe ‹_›) (fun _ _ _ _ => ?_)
      | with_reducible refine safe_sub (parse_expression_safe fuel rec hrec ‹_›) (fun _ _ _ _ => ?_)
      | simp only [Bool.not_true, Bool.not_false, Bool.false_eq_true, if_false, if_true, eq_self_iff_true, ne_eq, not_true_eq_false, not_false_eq_true, Option.isNone_none, Option.isNone_some, and_true, true_and, and_false, false_and]
      | with_reducible refine safe_ite (fun _ => ?_) (fun _ => ?_)
      | split
      | with_reducible refine safe_pure ?_
      | with_reducible refine safe_bind ?_

theorem parse_declaration_safe (fuel : Nat) (rec : parse_rec) (hrec : rec_safe rec) {p : parser_t} {t : token_t} (h : p.reads t) :
    (parse_declaration fuel rec).safe (fun _ p' => p'.ends_with_eof) p := by
  unfold parse_declaration
  try simp only []
  repeat' first
    | with_reducible exact safe_done ‹_›
    | with_reducible exact safe_stop_unreachable _ _
    | with_reducible exact safe_stop_out_of_fuel _ _
    | with_reducible exact safe_stop_uninitialised_node _ _
    | with_reducible exact parse_declarators_safe fuel rec hrec _ _ _ ‹_›
    | with_reducible refine safe_bind_pure ?_
    | with_reducible refine safe_bind_current_type ‹_› ?_
    | with_reducible refine safe_bind_current ‹_› ?_
    | with_reducible refine safe_bind_check _ ‹_› ?_
    | with_reducible refine safe_bind_match _ (by decide) ‹_› (fun _ _ _ _ => ?_) (fun _ => ?_)
    | with_reducible refine safe_bind_match_any _ (by decide) ‹_› (fun _ _ _ _ => ?_) (fun _ => ?_)
    | with_reducible refine safe_bind_previous ‹_› ?_
    | ((with_reducible refine safe_bind_advance ‹_› ?_ (fun _ _ _ => ?_)) <;> first | (intro e; simp_all; done) | skip)
    | ((with_reducible refine safe_bind_peek ‹_› ?_ (fun _ _ => ?_)) <;> first | (intro e; simp_all; done) | skip)
    | with_reducible refine safe_bind_report _ ‹_› (fun _ _ => ?_)
    | with_reducible refine safe_bind_ERROR _ ‹_› (fun _ _ => ?_)
    | with_reducible refine safe_bind_PARSER_ERROR _ ‹_› (fun _ _ => ?_)
    | with_reducible refine safe_bind_sub (parse_declarators_safe fuel rec hrec _ _ _ ‹_›) (fun _ _ _ _ => ?_)
    | with_reducible refine safe_sub (parse_declarators_safe fuel rec hrec _ _ _ ‹_›) (fun _ _ _ _ => ?_)
    | simp only [Bool.not_true, Bool.not_false, Bool.false_eq_true, if_false, if_true, eq_self_iff_true, ne_eq, not_true_eq_false, not_false_eq_true, Option.isNone_none, Option.isNone_some, and_true, true_and, and_false, false_and]
    | with_reducible refine safe_ite (fun _ => ?_) (fun _ => ?_)
    | split
    | with_reducible refine safe_pure ?_
    | with_reducible refine safe_bind ?_

theorem parse_for_safe (fuel : Nat) (rec : parse_rec) (hrec : rec_safe rec) {p : parser_t} {t : token_t} (h : p.reads t) :
    (parse_for fuel rec).safe (fun _ p' => p'.ends_with_eof) p := by
  unfold parse_for
  try simp only []
  repeat' first
    | with_reducible exact safe_done ‹_›
    | with_reducible exact safe_stop_unreachable _ _
    | with_reducible exact safe_stop_out_of_fuel _ _
    | with_reducible exact safe_stop_uninitialised_node _ _
    | with_reducible exact parse_declaration_safe fuel rec hrec ‹_›
    | with_reducible exact parse_comma_safe fuel rec hrec ‹_›
    | with_reducible exact parse_block_safe fuel rec hrec ‹_›
    | with_reducible refine safe_bind_pure ?_
    | with_reducible refine safe_bind_current_type ‹_› ?_
    | with_reducible refine safe_bind_current ‹_› ?_
    | with_reducible refine safe_bind_check _ ‹_› ?_
    | with_reducible refine safe_bind_match _ (by decide) ‹_› (fun _ _ _ _ => ?_) (fun _ => ?_)
    | with_reducible refine safe_bind_match_any _ (by decide) ‹_› (fun _ _ _ _ => ?_) (fun _ => ?_)
    | with_reducible refine safe_bind_previous ‹_› ?_
    | ((with_reducible refine safe_bind_advance ‹_› ?_ (fun _ _ _ => ?_)) <;> first | (intro e; simp_all; done) | skip)
    | ((with_reducible refine safe_bind_peek ‹_› ?_ (fun _ _ => ?_)) <;> first | (intro e; simp_all; done) | skip)
    | with_reducible refine safe_bind_report _ ‹_› (fun _ _ => ?_)
    | with_reducible refine safe_bind_ERROR _ ‹_› (fun _ _ => ?_)
    | with_reducible refine safe_bind_PARSER_ERROR _ ‹_› (fun _ _ => ?_)
    | with_reducible refine safe_bind_sub (parse_declaration_safe fuel rec hrec ‹_›) (fun _ _ _ _ => ?_)
    | with_reducible refine safe_bind_sub (parse_comma_safe fuel rec hrec ‹_›) (fun _ _ _ _ => ?_)
    | with_reducible refine safe_bind_sub (parse_block_safe fuel rec hrec ‹_›) (fun _ _ _ _ => ?_)
    | with_reducible refine safe_sub (parse_declaration_safe fuel rec hrec ‹_›) (fun _ _ _ _ => ?_)
    | with_reducible refine safe_sub (parse_comma_safe fuel rec hrec ‹_›) (fun _ _ _ _ => ?_)
    | with_reducible refine safe_sub (parse_block_safe fuel rec hrec ‹_›) (fun _ _ _ _ => ?_)
    | simp only [Bool.not_true, Bool.not_false, Bool.false_eq_true, if_false, if_true, eq_self_iff_true, ne_eq, not_true_eq_false, not_false_eq_true, Option.isNone_none, Option.isNone_some, and_true, true_and, and_false, false_and]
    | with_reducible refine safe_ite (fun _ => ?_) (fun _ => ?_)
    | split
    | with_reducible refine safe_pure ?_
    | with_reducible refine safe_bind ?_

theorem parse_names_safe (message : String) (n : Nat) :
    ∀ (names : List String) {p : parser_t} {t : token_t}, p.reads t →
      (parse_names message n names).safe (fun _ p' => p'.ends_with_eof) p := by
  induction n with
  | zero =>
    intro names p t h
    exact safe_stop_out_of_fuel _ _
  | succ n ih =>
    intro names p t h
    unfold parse_names
    try simp only []
    repeat' first
      | with_reducible exact safe_done ‹_›
      | with_reducible exact safe_stop_unreachable _ _
      | with_reducible exact safe_stop_out_of_fuel _ _
      | with_reducible exact safe_stop_uninitialised_node _ _
      | with_reducible exact ih _ ‹_›
      | with_reducible refine safe_bind_pure ?_
      | with_reducible refine safe_bind_current_type ‹_› ?_
      | with_reducible refine safe_bind_current ‹_› ?_
      | with_reducible refine safe_bind_check _ ‹_› ?_
      | with_reducible refine safe_bind_match _ (by decide) ‹_› (fun _ _ _ _ => ?_) (fun _ => ?_)
      | with_reducible refine safe_bind_match_any _ (by decide) ‹_› (fun _ _ _ _ => ?_) (fun _ => ?_)
      | with_reducible refine safe_bind_previous ‹_› ?_
      | ((with_reducible refine safe_bind_advance ‹_› ?_ (fun _ _ _ => ?_)) <;> first | (intro e; simp_all; done) | skip)
      | ((with_reducible refine safe_bind_peek ‹_› ?_ (fun _ _ => ?_)) <;> first | (intro e; simp_all; done) | skip)
      | with_reducible refine safe_bind_report _ ‹_› (fun _ _ => ?_)
      | with_reducible refine safe_bind_ERROR _ ‹_› (fun _ _ => ?_)
      | with_reducible refine safe_bind_PARSER_ERROR _ ‹_› (fun _ _ => ?_)
      | with_reducible refine safe_bind_sub (ih _ ‹_›) (fun _ _ _ _ => ?_)
      | with_reducible refine safe_sub (ih _ ‹_›) (fun _ _ _ _ => ?_)
      | simp only [Bool.not_true, Bool.not_false, Bool.false_eq_true, if_false, if_true, eq_self_iff_true, ne_eq, not_true_eq_false, not_false_eq_true, Option.isNone_none, Option.isNone_some, and_true, true_and, and_false, false_and]
      | with_reducible refine safe_ite (fun _ => ?_) (fun _ => ?_)
      | split
      | with_reducible refine safe_pure ?_
      | with_reducible refine safe_bind ?_

theorem parse_import_safe (fuel : Nat) {p : parser_t} {t : token_t} (h : p.reads t) :
    (parse_import fuel).safe (fun _ p' => p'.ends_with_eof) p := by
  unfold parse_import
  try simp only []
  repeat' first
    | with_reducible exact safe_done ‹_›
    | with_reducible exact safe_stop_unreachable _ _
    | with_reducible exact safe_stop_out_of_fuel _ _
    | with_reducible exact safe_stop_uninitialised_node _ _
    | with_reducible exact parse_names_safe _ _ _ ‹_›
    | with_reducible refine safe_bind_pure ?_
    | with_reducible refine safe_bind_current_type ‹_› ?_
    | with_reducible refine safe_bind_current ‹_› ?_
    | with_reducible refine safe_bind_check _ ‹_› ?_
    | with_reducible refine safe_bind_match _ (by decide) ‹_› (fun _ _ _ _ => ?_) (fun _ => ?_)
    | with_reducible refine safe_bind_match_any _ (by decide) ‹_› (fun _ _ _ _ => ?_) (fun _ => ?_)
    | with_reducible refine safe_bind_previous ‹_› ?_
    | ((with_reducible refine safe_bind_advance ‹_› ?_ (fun _ _ _ => ?_)) <;> first | (intro e; simp_all; done) | skip)
    | ((with_reducible refine safe_bind_peek ‹_› ?_ (fun _ _ => ?_)) <;> first | (intro e; simp_all; done) | skip)
    | with_reducible refine safe_bind_report _ ‹_› (fun _ _ => ?_)
    | with_reducible refine safe_bind_ERROR _ ‹_› (fun _ _ => ?_)
    | with_reducible refine safe_bind_PARSER_ERROR _ ‹_› (fun _ _ => ?_)
    | with_reducible refine safe_bind_sub (parse_names_safe _ _ _ ‹_›) (fun _ _ _ _ => ?_)
    | with_reducible refine safe_sub (parse_names_safe _ _ _ ‹_›) (fun _ _ _ _ => ?_)
    | simp only [Bool.not_true, Bool.not_false, Bool.false_eq_true, if_false, if_true, eq_self_iff_true, ne_eq, not_true_eq_false, not_false_eq_true, Option.isNone_none, Option.isNone_some, and_true, true_and, and_false, false_and]
    | with_reducible refine safe_ite (fun _ => ?_) (fun _ => ?_)
    | split
    | with_reducible refine safe_pure ?_
    | with_reducible refine safe_bind ?_

theorem parse_export_safe (fuel : Nat) (rec : parse_rec) (hrec : rec_safe rec) {p : parser_t} {t : token_t} (h : p.reads t) (hne : t.type ≠ TOKEN_EOF) :
    (parse_export fuel rec).safe (fun _ p' => p'.ends_with_eof) p := by
  unfold parse_export
  try simp only []
  repeat' first
    | with_reducible exact safe_done ‹_›
    | with_reducible exact safe_stop_unreachable _ _
    | with_reducible exact safe_stop_out_of_fuel _ _
    | with_reducible exact safe_stop_uninitialised_node _ _
    | with_reducible exact rec_safe_reads hrec _ ‹_›
    | with_reducible exact parse_names_safe _ _ _ ‹_›
    | with_reducible refine safe_bind_pure ?_
    | with_reducible refine safe_bind_current_type ‹_› ?_
    | with_reducible refine safe_bind_current ‹_› ?_
    | with_reducible refine safe_bind_check _ ‹_› ?_
    | with_reducible refine safe_bind_match _ (by decide) ‹_› (fun _ _ _ _ => ?_) (fun _ => ?_)
    | with_reducible refine safe_bind_match_any _ (by decide) ‹_› (fun _ _ _ _ => ?_) (fun _ => ?_)
    | with_reducible refine safe_bind_previous ‹_› ?_
    | ((with_reducible refine safe_bind_advance ‹_› ?_ (fun _ _ _ => ?_)) <;> first | (intro e; simp_all; done) | skip)
    | ((with_reducible refine safe_bind_peek ‹_› ?_ (fun _ _ => ?_)) <;> first | (intro e; simp_all; done) | skip)
    | with_reducible refine safe_bind_report _ ‹_› (fun _ _ => ?_)
    | with_reducible refine safe_bind_ERROR _ ‹_› (fun _ _ => ?_)
    | with_reducible refine safe_bind_PARSER_ERROR _ ‹_› (fun _ _ => ?_)
    | with_reducible refine safe_bind_sub (rec_safe_reads hrec _ ‹_›) (fun _ _ _ _ => ?_)
    | with_reducible refine safe_bind_sub (parse_names_safe _ _ _ ‹_›) (fun _ _ _ _ => ?_)
    | with_reducible refine safe_sub (rec_safe_reads hrec _ ‹_›) (fun _ _ _ _ => ?_)
    | with_reducible refine safe_sub (parse_names_safe _ _ _ ‹_›) (fun _ _ _ _ => ?_)
    | simp only [Bool.not_true, Bool.not_false, Bool.false_eq_true, if_false, if_true, eq_self_iff_true, ne_eq, not_true_eq_false, not_false_eq_true, Option.isNone_none, Option.isNone_some, and_true, true_and, and_false, false_and]
    | with_reducible refine safe_ite (fun _ => ?_) (fun _ => ?_)
    | split
    | with_reducible refine safe_pure ?_
    | with_reducible refine safe_bind ?_

theorem parse_return_safe (fuel : Nat) (rec : parse_rec) (hrec : rec_safe rec) {p : parser_t} {t : token_t} (h : p.reads t) (hne : t.type ≠ TOKEN_EOF) :
    (parse_return fuel rec).safe (fun _ p' => p'.ends_with_eof) p := by
  unfold parse_return
  try simp only []
  repeat' first
    | with_reducible exact safe_done ‹_›
    | with_reducible exact safe_stop_unreachable _ _
    | with_reducible exact safe_stop_out_of_fuel _ _
    | with_reducible exact safe_stop_uninitialised_node _ _
    | with_reducible exact parse_comma_safe fuel rec hrec ‹_›
    | with_reducible refine safe_bind_pure ?_
    | with_reducible refine safe_bind_current_type ‹_› ?_
    | with_reducible refine safe_bind_current ‹_› ?_
    | with_reducible refine safe_bind_check _ ‹_› ?_
    | with_reducible refine safe_bind_match _ (by decide) ‹_› (fun _ _ _ _ => ?_) (fun _ => ?_)
    | with_reducible refine safe_bind_match_any _ (by decide) ‹_› (fun _ _ _ _ => ?_) (fun _ => ?_)
    | with_reducible refine safe_bind_previous ‹_› ?_
    | ((with_reducible refine safe_bind_advance ‹_› ?_ (fun _ _ _ => ?_)) <;> first | (intro e; simp_all; done) | skip)
    | ((with_reducible refine safe_bind_peek ‹_› ?_ (fun _ _ => ?_)) <;> first | (intro e; simp_all; done) | skip)
    | with_reducible refine safe_bind_report _ ‹_› (fun _ _ => ?_)
    | with_reducible refine safe_bind_ERROR _ ‹_› (fun _ _ => ?_)
    | with_reducible refine safe_bind_PARSER_ERROR _ ‹_› (fun _ _ => ?_)
    | with_reducible refine safe_bind_sub (parse_comma_safe fuel rec hrec ‹_›) (fun _ _ _ _ => ?_)
    | with_reducible refine safe_sub (parse_comma_safe fuel rec hrec ‹_›) (fun _ _ _ _ => ?_)
    | simp only [Bool.not_true, Bool.not_false, Bool.false_eq_true, if_false, if_true, eq_self_iff_true, ne_eq, not_true_eq_false, not_false_eq_true, Option.isNone_none, Option.isNone_some, and_true, true_and, and_false, false_and]
    | with_reducible refine safe_ite (fun _ => ?_) (fun _ => ?_)
    | split
    | with_reducible refine safe_pure ?_
    | with_reducible refine safe_bind ?_

theorem parse_break_safe {p : parser_t} {t : token_t} (h : p.reads t) (hne : t.type ≠ TOKEN_EOF) :
    (parse_break).safe (fun _ p' => p'.ends_with_eof) p := by
  unfold parse_break
  try simp only []
  repeat' first
    | with_reducible exact safe_done ‹_›
    | with_reducible exact safe_stop_unreachable _ _
    | with_reducible exact safe_stop_out_of_fuel _ _
    | with_reducible exact safe_stop_uninitialised_node _ _
    | with_reducible refine safe_bind_pure ?_
    | with_reducible refine safe_bind_current_type ‹_› ?_
    | with_reducible refine safe_bind_current ‹_› ?_
    | with_reducible refine safe_bind_check _ ‹_› ?_
    | with_reducible refine safe_bind_match _ (by decide) ‹_› (fun _ _ _ _ => ?_) (fun _ => ?_)
    | with_reducible refine safe_bind_match_any _ (by decide) ‹_› (fun _ _ _ _ => ?_) (fun _ => ?_)
    | with_reducible refine safe_bind_previous ‹_› ?_
    | ((with_reducible refine safe_bind_advance ‹_› ?_ (fun _ _ _ => ?_)) <;> first | (intro e; simp_all; done) | skip)
    | ((with_reducible refine safe_bind_peek ‹_› ?_ (fun _ _ => ?_)) <;> first | (intro e; simp_all; done) | skip)
    | with_reducible refine safe_bind_report _ ‹_› (fun _ _ => ?_)
    | with_reducible refine safe_bind_ERROR _ ‹_› (fun _ _ => ?_)
    | with_reducible refine safe_bind_PARSER_ERROR _ ‹_› (fun _ _ => ?_)
    | simp only [Bool.not_true, Bool.not_false, Bool.false_eq_true, if_false, if_true, eq_self_iff_true, ne_eq, not_true_eq_false, not_false_eq_true, Option.isNone_none, Option.isNone_some, and_true, true_and, and_false, false_and]
    | with_reducible refine safe_ite (fun _ => ?_) (fun _ => ?_)
    | split
    | with_reducible refine safe_pure ?_
    | with_reducible refine safe_bind ?_

theorem parse_continue_safe {p : parser_t} {t : token_t} (h : p.reads t) :
    (parse_continue).safe (fun _ p' => p'.ends_with_eof) p := by
  unfold parse_continue
  try simp only []
  repeat' first
    | with_reducible exact safe_done ‹_›
    | with_reducible exact safe_stop_unreachable _ _
    | with_reducible exact safe_stop_out_of_fuel _ _
    | with_reducible exact safe_stop_uninitialised_node _ _
    | with_reducible refine safe_bind_pure ?_
    | with_reducible refine safe_bind_current_type ‹_› ?_
    | with_reducible refine safe_bind_current ‹_› ?_
    | with_reducible refine safe_bind_check _ ‹_› ?_
    | with_reducible refine safe_bind_match _ (by decide) ‹_› (fun _ _ _ _ => ?_) (fun _ => ?_)
    | with_reducible refine safe_bind_match_any _ (by decide) ‹_› (fun _ _ _ _ => ?_) (fun _ => ?_)
    | with_reducible refine safe_bind_previous ‹_› ?_
    | ((with_reducible refine safe_bind_advance ‹_› ?_ (fun _ _ _ => ?_)) <;> first | (intro e; simp_all; done) | skip)
    | ((with_reducible refine safe_bind_peek ‹_› ?_ (fun _ _ => ?_)) <;> first | (intro e; simp_all; done) | skip)
    | with_reducible refine safe_bind_report _ ‹_› (fun _ _ => ?_)
    | with_reducible refine safe_bind_ERROR _ ‹_› (fun _ _ => ?_)
    | with_reducible refine safe_bind_PARSER_ERROR _ ‹_› (fun _ _ => ?_)
    | simp only [Bool.not_true, Bool.not_false, Bool.false_eq_true, if_false, if_true, eq_self_iff_true, ne_eq, not_true_eq_false, not_false_eq_true, Option.isNone_none, Option.isNone_some, and_true, true_and, and_false, false_and]
    | with_reducible refine safe_ite (fun _ => ?_) (fun _ => ?_)
    | split
    | with_reducible refine safe_pure ?_
    | with_reducible refine safe_bind ?_

theorem parse_throw_safe (fuel : Nat) (rec : parse_rec) (hrec : rec_safe rec) {p : parser_t} {t : token_t} (h : p.reads t) (hne : t.type ≠ TOKEN_EOF) :
    (parse_throw fuel rec).safe (fun _ p' => p'.ends_with_eof) p := by
  unfold parse_throw
  try simp only []
  repeat' first
    | with_reducible exact safe_done ‹_›
    | with_reducible exact safe_stop_unreachable _ _
    | with_reducible exact safe_stop_out_of_fuel _ _
    | with_reducible exact safe_stop_uninitialised_node _ _
    | with_reducible exact parse_comma_safe fuel rec hrec ‹_›
    | with_reducible refine safe_bind_pure ?_
    | with_reducible refine safe_bind_current_type ‹_› ?_
    | with_reducible refine safe_bind_current ‹_› ?_
    | with_reducible refine safe_bind_check _ ‹_› ?_
    | with_reducible refine safe_bind_match _ (by decide) ‹_› (fun _ _ _ _ => ?_) (fun _ => ?_)
    | with_reducible refine safe_bind_match_any _ (by decide) ‹_› (fun _ _ _ _ => ?_) (fun _ => ?_)
    | with_reducible refine safe_bind_previous ‹_› ?_
    | ((with_reducible refine safe_bind_advance ‹_› ?_ (fun _ _ _ => ?_)) <;> first | (intro e; simp_all; done) | skip)
    | ((with_reducible refine safe_bind_peek ‹_› ?_ (fun _ _ => ?_)) <;> first | (intro e; simp_all; done) | skip)
    | with_reducible refine safe_bind_report _ ‹_› (fun _ _ => ?_)
    | with_reducible refine safe_bind_ERROR _ ‹_› (fun _ _ => ?_)
    | with_reducible refine safe_bind_PARSER_ERROR _ ‹_› (fun _ _ => ?_)
    | with_reducible refine safe_bind_sub (parse_comma_safe fuel rec hrec ‹_›) (fun _ _ _ _ => ?_)
    | with_reducible refine safe_sub (parse_comma_safe fuel rec hrec ‹_›) (fun _ _ _ _ => ?_)
    | simp only [Bool.not_true, Bool.not_false, Bool.false_eq_true, if_false, if_true, eq_self_iff_true, ne_eq, not_true_eq_false, not_false_eq_true, Option.isNone_none, Option.isNone_some, and_true, true_and, and_false, false_and]
    | with_reducible refine safe_ite (fun _ => ?_) (fun _ => ?_)
    | split
    | with_reducible refine safe_pure ?_
    | with_reducible refine safe_bind ?_

theorem parse_try_safe (fuel : Nat) (rec : parse_rec) (hrec : rec_safe rec) {p : parser_t} {t : token_t} (h : p.reads t) (hne : t.type ≠ TOKEN_EOF) :
    (parse_try fuel rec).safe (fun _ p' => p'.ends_with_eof) p := by
  unfold parse_try
  try simp only []
  repeat' first
    | with_reducible exact safe_done ‹_›
    | with_reducible exact safe_stop_unreachable _ _
    | with_reducible exact safe_stop_out_of_fuel _ _
    | with_reducible exact safe_stop_uninitialised_node _ _
    | with_reducible exact parse_block_safe fuel rec hrec ‹_›
    | with_reducible refine safe_bind_pure ?_
    | with_reducible refine safe_bind_current_type ‹_› ?_
    | with_reducible refine safe_bind_current ‹_› ?_
    | with_reducible refine safe_bind_check _ ‹_› ?_
    | with_reducible refine safe_bind_match _ (by decide) ‹_› (fun _ _ _ _ => ?_) (fun _ => ?_)
    | with_reducible refine safe_bind_match_any _ (by decide) ‹_› (fun _ _ _ _ => ?_) (fun _ => ?_)
    | with_reducible refine safe_bind_previous ‹_› ?_
    | ((with_reducible refine safe_bind_advance ‹_› ?_ (fun _ _ _ => ?_)) <;> first | (intro e; simp_all; done) | skip)
    | ((with_reducible refine safe_bind_peek ‹_› ?_ (fun _ _ => ?_)) <;> first | (intro e; simp_all; done) | skip)
    | with_reducible refine safe_bind_report _ ‹_› (fun _ _ => ?_)
    | with_reducible refine safe_bind_ERROR _ ‹_› (fun _ _ => ?_)
    | with_reducible refine safe_bind_PARSER_ERROR _ ‹_› (fun _ _ => ?_)
    | with_reducible refine safe_bind_sub (parse_block_safe fuel rec hrec ‹_›) (fun _ _ _ _ => ?_)
    | with_reducible refine safe_sub (parse_block_safe fuel rec hrec ‹_›) (fun _ _ _ _ => ?_)
    | simp only [Bool.not_true, Bool.not_false, Bool.false_eq_true, if_false, if_true, eq_self_iff_true, ne_eq, not_true_eq_false, not_false_eq_true, Option.isNone_none, Option.isNone_some, and_true, true_and, and_false, false_and]
    | with_reducible refine safe_ite (fun _ => ?_) (fun _ => ?_)
    | split
    | with_reducible refine safe_pure ?_
    | with_reducible refine safe_bind ?_

theorem parse_statement_safe (fuel : Nat) (rec : parse_rec) (hrec : rec_safe rec) {p : parser_t} {t : token_t} (h : p.reads t) :
    (parse_statement fuel rec).safe (fun _ p' => p'.ends_with_eof) p := by
  unfold parse_statement
  try simp only []
  repeat' first
    | with_reducible exact safe_done ‹_›
    | with_reducible exact safe_stop_unreachable _ _
    | with_reducible exact safe_stop_out_of_fuel _ _
    | with_reducible exact safe_stop_uninitialised_node _ _
    | with_reducible exact parse_label_safe rec hrec ‹_›
    | with_reducible exact parse_block_safe fuel rec hrec ‹_›
    | with_reducible exact parse_while_safe fuel rec hrec ‹_›
    | with_reducible exact parse_do_while_safe fuel rec hrec ‹_›
    | with_reducible exact parse_for_safe fuel rec hrec ‹_›
    | with_reducible exact parse_switch_safe fuel rec hrec ‹_›
    | with_reducible exact parse_if_safe fuel rec hrec ‹_›
    | with_reducible exact parse_function_safe fuel rec hrec ‹_›
    | with_reducible exact parse_declaration_safe fuel rec hrec ‹_›
    | with_reducible exact parse_import_safe fuel ‹_›
    | ((with_reducible refine parse_export_safe fuel rec hrec ‹_› ?_) <;> first | (intro e; simp_all; done) | skip)
    | ((with_reducible refine parse_try_safe fuel rec hrec ‹_› ?_) <;> first | (intro e; simp_all; done) | skip)
    | ((with_reducible refine parse_return_safe fuel rec hrec ‹_› ?_) <;> first | (intro e; simp_all; done) | skip)
    | ((with_reducible refine parse_break_safe ‹_› ?_) <;> first | (intro e; simp_all; done) | skip)
    | with_reducible exact parse_continue_safe ‹_›
    | ((with_reducible refine parse_throw_safe fuel rec hrec ‹_› ?_) <;> first | (intro e; simp_all; done) | skip)
    | with_reducible exact parse_comma_safe fuel rec hrec ‹_›
    | with_reducible refine safe_bind_pure ?_
    | with_reducible refine safe_bind_current_type ‹_› ?_
    | with_reducible refine safe_bind_current ‹_› ?_
    | with_reducible refine safe_bind_check _ ‹_› ?_
    | with_reducible refine safe_bind_match _ (by decide) ‹_› (fun _ _ _ _ => ?_) (fun _ => ?_)
    | with_reducible refine safe_bind_match_any _ (by decide) ‹_› (fun _ _ _ _ => ?_) (fun _ => ?_)
    | with_reducible refine safe_bind_previous ‹_› ?_
    | ((with_reducible refine safe_bind_advance ‹_› ?_ (fun _ _ _ => ?_)) <;> first | (intro e; simp_all; done) | skip)
    | ((with_reducible refine safe_bind_peek ‹_› ?_ (fun _ _ => ?_)) <;> first | (intro e; simp_all; done) | skip)
    | with_reducible refine safe_bind_report _ ‹_› (fun _ _ => ?_)
    | with_reducible refine safe_bind_ERROR _ ‹_› (fun _ _ => ?_)
    | with_reducible refine safe_bind_PARSER_ERROR _ ‹_› (fun _ _ => ?_)
    | with_reducible refine safe_bind_sub (parse_label_safe rec hrec ‹_›) (fun _ _ _ _ => ?_)
    | with_reducible refine safe_bind_sub (parse_block_safe fuel rec hrec ‹_›) (fun _ _ _ _ => ?_)
    | with_reducible refine safe_bind_sub (parse_while_safe fuel rec hrec ‹_›) (fun _ _ _ _ => ?_)
    | with_reducible refine safe_bind_sub (parse_do_while_safe fuel rec hrec ‹_›) (fun _ _ _ _ => ?_)
    | with_reducible refine safe_bind_sub (parse_for_safe fuel rec hrec ‹_›) (fun _ _ _ _ => ?_)
    | with_reducible refine safe_bind_sub (parse_switch_safe fuel rec hrec ‹_›) (fun _ _ _ _ => ?_)
    | with_reducible refine safe_bind_sub (parse_if_safe fuel rec hrec ‹_›) (fun _ _ _ _ => ?_)
    | with_reducible refine safe_bind_sub (parse_function_safe fuel rec hrec ‹_›) (fun _ _ _ _ => ?_)
    | with_reducible refine safe_bind_sub (parse_declaration_safe fuel rec hrec ‹_›) (fun _ _ _ _ => ?_)
    | with_reducible refine safe_bind_sub (parse_import_safe fuel ‹_›) (fun _ _ _ _ => ?_)
    | ((with_reducible refine safe_bind_sub (parse_export_safe fuel rec hrec ‹_› ?_) (fun _ _ _ _ => ?_)) <;> first | (intro e; simp_all; done) | skip)
    | ((with_reducible refine safe_bind_sub (parse_try_safe fuel rec hrec ‹_› ?_) (fun _ _ _ _ => ?_)) <;> first | (intro e; simp_all; done) | skip)
    | ((with_reducible refine safe_bind_sub (parse_return_safe fuel rec hrec ‹_› ?_) (fun _ _ _ _ => ?_)) <;> first | (intro e; simp_all; done) | skip)
    | ((with_reducible refine safe_bind_sub (parse_break_safe ‹_› ?_) (fun _ _ _ _ => ?_)) <;> first | (intro e; simp_all; done) | skip)
    | with_reducible refine safe_bind_sub (parse_continue_safe ‹_›) (fun _ _ _ _ => ?_)
    | ((with_reducible refine safe_bind_sub (parse_throw_safe fuel rec hrec ‹_› ?_) (fun _ _ _ _ => ?_)) <;> first | (intro e; simp_all; done) | skip)
    | with_reducible refine safe_bind_sub (parse_comma_safe fuel rec hrec ‹_›) (fun _ _ _ _ => ?_)
    | with_reducible refine safe_sub (parse_label_safe rec hrec ‹_›) (fun _ _ _ _ => ?_)
    | with_reducible refine safe_sub (parse_block_safe fuel rec hrec ‹_›) (fun _ _ _ _ => ?_)
    | with_reducible refine safe_sub (parse_while_safe fuel rec hrec ‹_›) (fun _ _ _ _ => ?_)
    | with_reducible refine safe_sub (parse_do_while_safe fuel rec hrec ‹_›) (fun _ _ _ _ => ?_)
    | with_reducible refine safe_sub (parse_for_safe fuel rec hrec ‹_›) (fun _ _ _ _ => ?_)
    | with_reducible refine safe_sub (parse_switch_safe fuel rec hrec ‹_›) (fun _ _ _ _ => ?_)
    | with_reducible refine safe_sub (parse_if_safe fuel rec hrec ‹_›) (fun _ _ _ _ => ?_)
    | with_reducible refine safe_sub (parse_function_safe fuel rec hrec ‹_›) (fun _ _ _ _ => ?_)
    | with_reducible refine safe_sub (parse_declaration_safe fuel rec hrec ‹_›) (fun _ _ _ _ => ?_)
    | with_reducible refine safe_sub (parse_import_safe fuel ‹_›) (fun _ _ _ _ => ?_)
    | ((with_reducible refine safe_sub (parse_export_safe fuel rec hrec ‹_› ?_) (fun _ _ _ _ => ?_)) <;> first | (intro e; simp_all; done) | skip)
    | ((with_reducible refine safe_sub (parse_try_safe fuel rec hrec ‹_› ?_) (fun _ _ _ _ => ?_)) <;> first | (intro e; simp_all; done) | skip)
    | ((with_reducible refine safe_sub (parse_return_safe fuel rec hrec ‹_› ?_) (fun _ _ _ _ => ?_)) <;> first | (intro e; simp_all; done) | skip)
    | ((with_reducible refine safe_sub (parse_break_safe ‹_› ?_) (fun _ _ _ _ => ?_)) <;> first | (intro e; simp_all; done) | skip)
    | with_reducible refine safe_sub (parse_continue_safe ‹_›) (fun _ _ _ _ => ?_)
    | ((with_reducible refine safe_sub (parse_throw_safe fuel rec hrec ‹_› ?_) (fun _ _ _ _ => ?_)) <;> first | (intro e; simp_all; done) | skip)
    | with_reducible refine safe_sub (parse_comma_safe fuel rec hrec ‹_›) (fun _ _ _ _ => ?_)
    | simp only [Bool.not_true, Bool.not_false, Bool.false_eq_true, if_false, if_true, eq_self_iff_true, ne_eq, not_true_eq_false, not_false_eq_true, Option.isNone_none, Option.isNone_some, and_true, true_and, and_false, false_and]
    | with_reducible refine safe_ite (fun _ => ?_) (fun _ => ?_)
    | split
    | with_reducible refine safe_pure ?_
    | with_reducible refine safe_bind ?_

theorem parse_fn_safe : ∀ fuel : Nat, rec_safe (parse_fn fuel) := by
  intro fuel
  induction fuel with
  | zero =>
    intro c p _
    cases c <;> exact safe_stop_out_of_fuel _ _
  | succ fuel ih =>
    intro c p hp
    obtain ⟨t, h⟩ := ends_with_eof_reads hp
    cases c
    · exact parse_statement_safe fuel _ ih h
    · exact parse_block_safe fuel _ ih h
    · exact parse_if_safe fuel _ ih h
    · exact parse_comma_safe fuel _ ih h
    · exact parse_expression_safe fuel _ ih h
    · exact parse_assignment_safe fuel _ ih h
    · exact parse_exponent_safe fuel _ ih h
    · exact parse_unary_safe fuel _ ih h

theorem parse_program_loop_safe (fuel : Nat) (n : Nat) :
    ∀ (statements : List Node) {p : parser_t} {t : token_t}, p.reads t →
      (parse_program_loop fuel n statements).safe (fun _ p' => p'.ends_with_eof) p := by
  induction n with
  | zero =>
    intro statements p t h
    exact safe_stop_out_of_fuel _ _
  | succ n ih =>
    intro statements p t h
    rw [parse_program_loop_succ]
    try simp only []
    repeat' first
      | with_reducible exact safe_done ‹_›
      | with_reducible exact safe_stop_unreachable _ _
      | with_reducible exact safe_stop_out_of_fuel _ _
      | with_reducible exact safe_stop_uninitialised_node _ _
      | with_reducible exact ih _ ‹_›
      | with_reducible exact parse_statement_safe fuel _ (parse_fn_safe fuel) ‹_›
      | with_reducible refine safe_bind_pure ?_
      | with_reducible refine safe_bind_current_type ‹_› ?_
      | with_reducible refine safe_bind_current ‹_› ?_
      | with_reducible refine safe_bind_check _ ‹_› ?_
      | with_reducible refine safe_bind_match _ (by decide) ‹_› (fun _ _ _ _ => ?_) (fun _ => ?_)
      | with_reducible refine safe_bind_match_any _ (by decide) ‹_› (fun _ _ _ _ => ?_) (fun _ => ?_)
      | with_reducible refine safe_bind_previous ‹_› ?_
      | ((with_reducible refine safe_bind_advance ‹_› ?_ (fun _ _ _ => ?_)) <;> first | (intro e; simp_all; done) | skip)
      | ((with_reducible refine safe_bind_peek ‹_› ?_ (fun _ _ => ?_)) <;> first | (intro e; simp_all; done) | skip)
      | with_reducible refine safe_bind_report _ ‹_› (fun _ _ => ?_)
      | with_reducible refine safe_bind_ERROR _ ‹_› (fun _ _ => ?_)
      | with_reducible refine safe_bind_PARSER_ERROR _ ‹_› (fun _ _ => ?_)
      | with_reducible refine safe_bind_sub (ih _ ‹_›) (fun _ _ _ _ => ?_)
      | with_reducible refine safe_bind_sub (parse_statement_safe fuel _ (parse_fn_safe fuel) ‹_›) (fun _ _ _ _ => ?_)
      | with_reducible refine safe_sub (ih _ ‹_›) (fun _ _ _ _ => ?_)
      | with_reducible refine safe_sub (parse_statement_safe fuel _ (parse_fn_safe fuel) ‹_›) (fun _ _ _ _ => ?_)
      | simp only [Bool.not_true, Bool.not_false, Bool.false_eq_true, if_false, if_true, eq_self_iff_true, ne_eq, not_true_eq_false, not_false_eq_true, Option.isNone_none, Option.isNone_some, and_true, true_and, and_false, false_and]
      | with_reducible refine safe_ite (fun _ => ?_) (fun _ => ?_)
      | split
      | with_reducible refine safe_pure ?_
      | with_reducible refine safe_bind ?_

theorem parse_program_safe (fuel : Nat) {p : parser_t} {t : token_t} (h : p.reads t) :
    (parse_program fuel).safe (fun _ p' => p'.ends_with_eof) p :=
  parse_program_loop_safe fuel fuel [] h


/-! ## The current token during `parse_program` -/

theorem parser_init_rest (t : token_t) (r : List token_t) : (parser_init (t :: r)).rest = t :: r :=
  rfl

theorem parser_init_reads (pre : List token_t) (eof : token_t) (heof : eof.type = TOKEN_EOF)
    (hpre : ∀ t ∈ pre, t.type ≠ TOKEN_EOF) : ∃ t, (parser_init (pre ++ [eof])).reads t := by
  refine ends_with_eof_reads ⟨pre, eof, ?_, heof, hpre⟩
  cases pre with
  | nil => exact parser_init_rest _ _
  | cons a r => exact parser_init_rest _ _

/-- C37: on a token list `pre ++ [eof]` whose last token has the type EOF and
that holds no other token of that type, the run of `parse_program` stops
neither at a read of a current or previous token that is `NULL` nor at a
`parser_peek` past the end of the token array, whatever the fuel; and when it
returns, the parser still has a current token, and the tokens from it on end
with the EOF token: no call of `parser_advance` has gone past it. -/
theorem C37_current_token_exists (fuel : Nat) (pre : List token_t) (eof : token_t)
    (heof : eof.type = TOKEN_EOF) (hpre : ∀ t ∈ pre, t.type ≠ TOKEN_EOF) :
    parse_program fuel (parser_init (pre ++ [eof])) ≠ .error .null_token ∧
    parse_program fuel (parser_init (pre ++ [eof])) ≠ .error .out_of_bounds ∧
    ∀ result p', parse_program fuel (parser_init (pre ++ [eof])) = .ok (result, p') →
      (∃ t, p'.current = some t) ∧ p'.ends_with_eof := by
  obtain ⟨t, h⟩ := parser_init_reads pre eof heof hpre
  have hs := parse_program_safe fuel h
  unfold parse_m.safe at hs
  refine ⟨?_, ?_, ?_⟩
  · intro e
    rw [e] at hs
    exact hs.1 rfl
  · intro e
    rw [e] at hs
    exact hs.2 rfl
  · intro result p' e
    rw [e] at hs
    obtain ⟨t', ht', -⟩ := ends_with_eof_reads hs
    exact ⟨⟨t', ht'⟩, hs⟩

/-- C37 on the tokens of `let x = 2; let y = 3; x ** y;`. -/
theorem C37_current_token_exists_witness :
    parse_program 10 (parser_init (end_to_end_tokens.take 14 ++
        [⟨"", 0, TOKEN_EOF, ⟨"a.rose", 1, 30⟩⟩])) ≠ .error .null_token ∧
    parse_program 10 (parser_init (end_to_end_tokens.take 14 ++
        [⟨"", 0, TOKEN_EOF, ⟨"a.rose", 1, 30⟩⟩])) ≠ .error .out_of_bounds ∧
    ∀ result p', parse_program 10 (parser_init (end_to_end_tokens.take 14 ++
        [⟨"", 0, TOKEN_EOF, ⟨"a.rose", 1, 30⟩⟩])) = .ok (result, p') →
      (∃ t, p'.current = some t) ∧ p'.ends_with_eof :=
  C37_current_token_exists 10 (end_to_end_tokens.take 14) ⟨"", 0, TOKEN_EOF, ⟨"a.rose", 1, 30⟩⟩
    rfl (by decide)

/-! ## The parser: binary operators -/

theorem current_not_in_some {p : parser_t} {types : List token_type_t}
    (h : p.current_not_in types = true) : ∃ t, p.current = some t ∧ t.type ∉ types := by
  unfold parser_t.current_not_in at h
  split at h
  · next t ht => exact ⟨t, ht, by simpa using h⟩
  · exact absurd h (by simp)

theorem current_not_in_of {p : parser_t} {types : List token_type_t} {t : token_t}
    (hc : p.current = some t) (ht : t.type ∉ types) : p.current_not_in types = true := by
  unfold parser_t.current_not_in
  rw [hc]
  simpa using ht

theorem current_not_in_subset {p : parser_t} {small large : List token_type_t}
    (h : p.current_not_in large = true) (hsub : ∀ x ∈ small, x ∈ large) :
    p.current_not_in small = true := by
  obtain ⟨t, hc, ht⟩ := current_not_in_some h
  exact current_not_in_of hc (fun hm => ht (hsub _ hm))

theorem parser_match_any_not_in {p : parser_t} {types : List token_type_t}
    (h : p.current_not_in types = true) : parser_match_any types p = .ok (false, p) := by
  obtain ⟨t, hc, ht⟩ := current_not_in_some h
  exact parser_match_any_miss hc types ht

theorem parser_previous_advance {p : parser_t} {t : token_t} (hc : p.current = some t) :
    parser_previous p.advance = .ok (t, p.advance) := by
  unfold parser_previous
  rw [(advance_fields p).2.2, hc]

/-- The loop ends at a token that is not one of its operators. -/
theorem binary_loop_done (types : List token_type_t) (next : parse_m (Option Node)) (fuel : Nat)
    (left : Node) {p : parser_t} (h : p.current_not_in types = true) :
    binary_loop types next (fuel + 1) left p = .ok (some left, p) := by
  unfold binary_loop
  simp only [parse_bind_apply, parse_pure_apply, parser_match_any_not_in h, Bool.false_eq_true,
    if_false]

/-- A round of the loop at one of its operators. -/
theorem binary_loop_step (types : List token_type_t) (next : parse_m (Option Node)) (fuel : Nat)
    (left right : Node) {p p' : parser_t} {op : token_t} (hc : p.current = some op)
    (hop : op.type ∈ types) (hr : next p.advance = .ok (some right, p')) :
    binary_loop types next (fuel + 1) left p =
      binary_loop types next fuel (.binary op left right) p' := by
  conv => lhs; unfold binary_loop
  simp only [parse_bind_apply, parse_pure_apply, parser_match_any_hit hc types hop, if_true,
    parser_previous_advance hc, hr]

/-- One operand. -/
theorem binary_level_one (types : List token_type_t) (next : parse_m (Option Node)) (fuel : Nat)
    {a : Node} {p pa : parser_t} (ha : next p = .ok (some a, pa))
    (hend : pa.current_not_in types = true) :
    binary_level types next (fuel + 1) p = .ok (some a, pa) := by
  unfold binary_level
  simp only [parse_bind_apply, ha]
  exact binary_loop_done types next fuel a hend

/-- Two operands and an operator of the level. -/
theorem binary_level_two (types : List token_type_t) (next : parse_m (Option Node)) (fuel : Nat)
    {a b : Node} {p pa pb : parser_t} {op : token_t} (ha : next p = .ok (some a, pa))
    (hc : pa.current = some op) (hop : op.type ∈ types)
    (hb : next pa.advance = .ok (some b, pb)) (hend : pb.current_not_in types = true) :
    binary_level types next (fuel + 2) p = .ok (some (.binary op a b), pb) := by
  unfold binary_level
  simp only [parse_bind_apply, ha]
  rw [binary_loop_step types next (fuel + 1) a b hc hop hb]
  exact binary_loop_done types next fuel _ hend

/-- Three operands and two operators of the level: the operators group to the
left. -/
theorem binary_level_three (types : List token_type_t) (next : parse_m (Option Node))
    (fuel : Nat) {a b c : Node} {p pa pb pc : parser_t} {op1 op2 : token_t}
    (ha : next p = .ok (some a, pa)) (hc1 : pa.current = some op1) (hop1 : op1.type ∈ types)
    (hb : next pa.advance = .ok (some b, pb)) (hc2 : pb.current = some op2)
    (hop2 : op2.type ∈ types) (hcc : next pb.advance = .ok (some c, pc))
    (hend : pc.current_not_in types = true) :
    binary_level types next (fuel + 3) p =
      .ok (some (.binary op2 (.binary op1 a b) c), pc) := by
  unfold binary_level
  simp only [parse_bind_apply, ha]
  rw [binary_loop_step types next (fuel + 2) a b hc1 hop1 hb,
    binary_loop_step types next (fuel + 1) _ c hc2 hop2 hcc]
  exact binary_loop_done types next fuel _ hend

theorem parse_logical_or_tower (fuel : Nat) (rec : parse_rec) :
    parse_logical_or fuel rec = binary_tower binary_levels (parse_exponent fuel rec) fuel := rfl

theorem binary_tower_append (pre rest : List (List token_type_t)) (base : parse_m (Option Node))
    (fuel : Nat) :
    binary_tower (pre ++ rest) base fuel = binary_tower pre (binary_tower rest base fuel) fuel := by
  induction pre with
  | nil => rfl
  | cons l ls ih =>
    show binary_level l (binary_tower (ls ++ rest) base fuel) fuel = _
    rw [ih]
    rfl

/-- The levels pass on what the function below them returns at a token that
is none of their operators. -/
theorem binary_tower_pass (levels : List (List token_type_t)) (base : parse_m (Option Node))
    (fuel : Nat) {r : Node} {p p' : parser_t} (h : base p = .ok (some r, p'))
    (hend : p'.current_not_in levels.flatten = true) :
    binary_tower levels base (fuel + 1) p = .ok (some r, p') := by
  induction levels with
  | nil => exact h
  | cons l ls ih =>
    show binary_level l (binary_tower ls base (fuel + 1)) (fuel + 1) p = _
    refine binary_level_one l _ fuel (ih (current_not_in_subset hend ?_))
      (current_not_in_subset hend ?_)
    · intro x hx
      simp only [List.flatten_cons, List.mem_append]
      exact Or.inr hx
    · intro x hx
      simp only [List.flatten_cons, List.mem_append]
      exact Or.inl hx

/-- Two operands that the function `next` below the level `types` reads, with an
operator of the level between them. -/
theorem binary_tower_two (pre : List (List token_type_t)) (types : List token_type_t)
    (next : parse_m (Option Node)) (fuel : Nat) {a b : Node} {p pa pb : parser_t} {op : token_t}
    (ha : next p = .ok (some a, pa)) (hc : pa.current = some op) (hop : op.type ∈ types)
    (hb : next pa.advance = .ok (some b, pb))
    (hend : pb.current_not_in (pre ++ [types]).flatten = true) :
    binary_tower pre (binary_level types next (fuel + 2)) (fuel + 2) p =
      .ok (some (.binary op a b), pb) := by
  refine binary_tower_pass pre _ (fuel + 1)
    (binary_level_two types next fuel ha hc hop hb (current_not_in_subset hend ?_))
    (current_not_in_subset hend ?_)
  · intro x hx
    simp only [List.flatten_append, List.mem_append, List.flatten_cons, List.flatten_nil,
      List.append_nil]
    exact Or.inr hx
  · intro x hx
    simp only [List.flatten_append, List.mem_append]
    exact Or.inl hx

/-- Three operands that the function `next` below the level `types` reads, with
operators of the level between them. -/
theorem binary_tower_three (pre : List (List token_type_t)) (types : List token_type_t)
    (next : parse_m (Option Node)) (fuel : Nat) {a b c : Node} {p pa pb pc : parser_t}
    {op1 op2 : token_t} (ha : next p = .ok (some a, pa)) (hc1 : pa.current = some op1)
    (hop1 : op1.type ∈ types) (hb : next pa.advance = .ok (some b, pb))
    (hc2 : pb.current = some op2) (hop2 : op2.type ∈ types)
    (hcc : next pb.advance = .ok (some c, pc))
    (hend : pc.current_not_in (pre ++ [types]).flatten = true) :
    binary_tower pre (binary_level types next (fuel + 3)) (fuel + 3) p =
      .ok (some (.binary op2 (.binary op1 a b) c), pc) := by
  refine binary_tower_pass pre _ (fuel + 2)
    (binary_level_three types next fuel ha hc1 hop1 hb hc2 hop2 hcc
      (current_not_in_subset hend ?_))
    (current_not_in_subset hend ?_)
  · intro x hx
    simp only [List.flatten_append, List.mem_append, List.flatten_cons, List.flatten_nil,
      List.append_nil]
    exact Or.inr hx
  · intro x hx
    simp only [List.flatten_append, List.mem_append]
    exact Or.inl hx

/-- No operator type stands in two of the lists of `binary_levels`. -/
theorem binary_levels_disjoint :
    binary_levels.Pairwise (fun l l' => ∀ x ∈ l, x ∉ l') := by
  decide

theorem binary_levels_later {pre rest : List (List token_type_t)} {l : List token_type_t}
    (h : binary_levels = pre ++ l :: rest) {x : token_type_t} (hx : x ∈ l) :
    x ∉ rest.flatten := by
  have hp := binary_levels_disjoint
  rw [h] at hp
  have hp' := (List.pairwise_append.mp hp).2.1
  rw [List.pairwise_cons] at hp'
  intro hm
  obtain ⟨l', hl', hxl'⟩ := List.mem_flatten.mp hm
  exact hp'.1 l' hl' x hx hxl'

theorem flatten_subset {small large : List (List token_type_t)}
    (h : ∀ l ∈ small, l ∈ large) : ∀ x ∈ small.flatten, x ∈ large.flatten := by
  intro x hx
  obtain ⟨l, hl, hxl⟩ := List.mem_flatten.mp hx
  exact List.mem_flatten.mpr ⟨l, h l hl, hxl⟩

/-- `parse_exponent` at an operand, `**` and what its call of itself returns. -/
theorem parse_exponent_two (fuel : Nat) (rec : parse_rec) {a b : Node} {p pa pb : parser_t}
    {op : token_t} (ha : parse_unary fuel rec p = .ok (some a, pa)) (hc : pa.current = some op)
    (hop : op.type = TOKEN_STAR_STAR) (hb : rec .exponent pa.advance = .ok (some b, pb)) :
    parse_exponent fuel rec p = .ok (some (.binary op a b), pb) := by
  unfold parse_exponent
  simp only [parse_bind_apply, parse_pure_apply, ha, parser_match_hit_type hc hop, if_true,
    parser_previous_advance hc, hb]

/-- `parse_assignment` at an operand, an assignment operator and what its call
of itself returns. -/
theorem parse_assignment_two (fuel : Nat) (rec : parse_rec) {a b : Node} {p pa pb : parser_t}
    {op : token_t} (ha : parse_ternary fuel rec p = .ok (some a, pa))
    (hc : pa.current = some op) (hop : op.type ∈ assignment_operators)
    (hb : rec .assignment pa.advance = .ok (some b, pb)) :
    parse_assignment fuel rec p = .ok (some (.assignment op.loc op a b), pb) := by
  unfold parse_assignment
  simp only [parse_bind_apply, parse_pure_apply, ha, parser_match_any_hit hc _ hop, if_true,
    parser_previous_advance hc, hb]

/-- Two operands that the function below the levels reads, with an operator of
one of the levels between them. -/
theorem binary_levels_two (fuel : Nat) (base : parse_m (Option Node))
    {pre rest : List (List token_type_t)} {l : List token_type_t}
    {levels : List (List token_type_t)} (hlevels : levels = pre ++ l :: rest)
    {a b : Node} {p pa pb : parser_t} {op : token_t}
    (hlater : op.type ∉ rest.flatten)
    (ha : base p = .ok (some a, pa)) (hc : pa.current = some op) (hop : op.type ∈ l)
    (hb : base pa.advance = .ok (some b, pb))
    (hend : pb.current_not_in levels.flatten = true) :
    binary_tower levels base (fuel + 2) p = .ok (some (.binary op a b), pb) := by
  subst hlevels
  rw [binary_tower_append]
  show binary_tower pre (binary_level l (binary_tower rest base (fuel + 2)) (fuel + 2))
    (fuel + 2) p = _
  refine binary_tower_two pre l _ fuel
    (binary_tower_pass rest base (fuel + 1) ha (current_not_in_of hc hlater)) hc hop
    (binary_tower_pass rest base (fuel + 1) hb (current_not_in_subset hend ?_))
    (current_not_in_subset hend ?_)
  · refine flatten_subset (fun x hx => ?_)
    simp only [List.mem_append, List.mem_cons]
    exact Or.inr (Or.inr hx)
  · refine flatten_subset (fun x hx => ?_)
    simp only [List.mem_append, List.mem_cons, List.mem_singleton, List.not_mem_nil,
      or_false] at hx ⊢
    rcases hx with hx | hx
    · exact Or.inl hx
    · exact Or.inr (Or.inl hx)

/-- C2, amended: for an operator `op1` of one of the functions from
`parse_logical_or` to `parse_factor` and an operator `op2` that binds tighter,
one of a function further down or `**`, and for operands a, b and c that the
function below all these levels reads up to the token that follows them
(`parse_exponent`; around `**` its own operands, which `parse_unary` and its
call of itself read), with a token behind c that is no operator of these
functions: `a op1 b op2 c` parses to `Binary(op1, a, Binary(op2, b, c))` and
`a op2 b op1 c` parses to `Binary(op1, Binary(op2, a, b), c)`. -/
theorem C2_precedence (fuel : Nat) (rec : parse_rec) (hfuel : 2 ≤ fuel)
    (pre : List (List token_type_t)) (l1 : List token_type_t) (inner : List (List token_type_t))
    (hlevels : binary_levels = pre ++ l1 :: inner)
    (op1 op2 : token_t) (h1 : op1.type ∈ l1) (a b c : Node) (p pa pb pc : parser_t)
    (hend : pc.current_not_in binary_levels.flatten = true) :
    (∀ mid l2 post, inner = mid ++ l2 :: post → op2.type ∈ l2 →
      (parse_exponent fuel rec p = .ok (some a, pa) → pa.current = some op1 →
        parse_exponent fuel rec pa.advance = .ok (some b, pb) → pb.current = some op2 →
        parse_exponent fuel rec pb.advance = .ok (some c, pc) →
        parse_logical_or fuel rec p = .ok (some (.binary op1 a (.binary op2 b c)), pc)) ∧
      (parse_exponent fuel rec p = .ok (some a, pa) → pa.current = some op2 →
        parse_exponent fuel rec pa.advance = .ok (some b, pb) → pb.current = some op1 →
        parse_exponent fuel rec pb.advance = .ok (some c, pc) →
        parse_logical_or fuel rec p = .ok (some (.binary op1 (.binary op2 a b) c), pc))) ∧
    (op2.type = TOKEN_STAR_STAR →
      (parse_exponent fuel rec p = .ok (some a, pa) → pa.current = some op1 →
        parse_unary fuel rec pa.advance = .ok (some b, pb) → pb.current = some op2 →
        rec .exponent pb.advance = .ok (some c, pc) →
        parse_logical_or fuel rec p = .ok (some (.binary op1 a (.binary op2 b c)), pc)) ∧
      (parse_unary fuel rec p = .ok (some a, pa) → pa.current = some op2 →
        rec .exponent pa.advance = .ok (some b, pb) → pb.current = some op1 →
        parse_exponent fuel rec pb.advance = .ok (some c, pc) →
        parse_logical_or fuel rec p = .ok (some (.binary op1 (.binary op2 a b) c), pc))) := by
  obtain ⟨k, rfl⟩ : ∃ k, fuel = k + 2 := ⟨fuel - 2, by omega⟩
  have hlater1 : op1.type ∉ inner.flatten := binary_levels_later hlevels h1
  refine ⟨?_, ?_⟩
  · intro mid l2 post hinner h2
    have hlevels2 : binary_levels = (pre ++ l1 :: mid) ++ l2 :: post := by
      rw [hlevels, hinner]
      simp only [List.append_assoc, List.cons_append]
    have hlater2 : op2.type ∉ post.flatten := binary_levels_later hlevels2 h2
    have hsub : ∀ x ∈ inner.flatten, x ∈ binary_levels.flatten := by
      rw [hlevels]
      refine flatten_subset (fun x hx => ?_)
      simp only [List.mem_append, List.mem_cons]
      exact Or.inr (Or.inr hx)
    have hsub1 : ∀ x ∈ (pre ++ [l1]).flatten, x ∈ binary_levels.flatten := by
      rw [hlevels]
      refine flatten_subset (fun x hx => ?_)
      simp only [List.mem_append, List.mem_cons, List.mem_singleton, List.not_mem_nil,
        or_false] at hx ⊢
      rcases hx with hx | hx
      · exact Or.inl hx
      · exact Or.inr (Or.inl hx)
    have htower : parse_logical_or (k + 2) rec =
        binary_tower pre (binary_level l1
          (binary_tower inner (parse_exponent (k + 2) rec) (k + 2)) (k + 2)) (k + 2) := by
      rw [parse_logical_or_tower, hlevels, binary_tower_append]
      rfl
    refine ⟨?_, ?_⟩
    · intro ha hc1 hb hc2 hcc
      rw [htower]
      exact binary_tower_two pre l1 _ k
        (binary_tower_pass inner _ (k + 1) ha (current_not_in_of hc1 hlater1)) hc1 h1
        (binary_levels_two k _ hinner hlater2 hb hc2 h2 hcc (current_not_in_subset hend hsub))
        (current_not_in_subset hend hsub1)
    · intro ha hc2 hb hc1 hcc
      rw [htower]
      exact binary_tower_two pre l1 _ k
        (binary_levels_two k _ hinner hlater2 ha hc2 h2 hb (current_not_in_of hc1 hlater1))
        hc1 h1
        (binary_tower_pass inner _ (k + 1) hcc (current_not_in_subset hend hsub))
        (current_not_in_subset hend hsub1)
  · intro hop2
    refine ⟨?_, ?_⟩
    · intro ha hc1 hb hc2 hcc
      rw [parse_logical_or_tower]
      exact binary_levels_two k _ hlevels hlater1 ha hc1 h1
        (parse_exponent_two _ _ hb hc2 hop2 hcc) hend
    · intro ha hc2 hb hc1 hcc
      rw [parse_logical_or_tower]
      exact binary_levels_two k _ hlevels hlater1 (parse_exponent_two _ _ ha hc2 hop2 hb)
        hc1 h1 hcc hend

/-- C2 fails for an operand that is a spread: its argument is a whole
expression, so `a * ...b + c` parses to `Binary(*, a, Spread(Binary(+, b, c)))`
and not to `Binary(+, Binary(*, a, ...b), c)`, and `a + ...b * c` parses to
`Binary(+, a, Spread(Binary(*, b, c)))`. -/
theorem C2_spread_operand :
    (lex_and_parse 20 "a * ...b + c;").map (Except.map Prod.fst) =
      some (.ok (some (.program [
        .binary ⟨"*", 1, TOKEN_STAR, ⟨"a.rose", 1, 3⟩⟩ (.identifier "a")
          (.spread (.binary ⟨"+", 1, TOKEN_PLUS, ⟨"a.rose", 1, 10⟩⟩ (.identifier "b")
            (.identifier "c")))]))) ∧
    (lex_and_parse 20 "a + ...b * c;").map (Except.map Prod.fst) =
      some (.ok (some (.program [
        .binary ⟨"+", 1, TOKEN_PLUS, ⟨"a.rose", 1, 3⟩⟩ (.identifier "a")
          (.spread (.binary ⟨"*", 1, TOKEN_STAR, ⟨"a.rose", 1, 10⟩⟩ (.identifier "b")
            (.identifier "c")))]))) := by
  decide!

/-- C2 on `a + b * c;` and on `a + b ** c;`. -/
theorem C2_precedence_witness :
    parse_logical_or 5 (parse_fn 5) (parser_init (tokens_of "a + b * c;")) =
      .ok (some (.binary ⟨"+", 1, TOKEN_PLUS, ⟨"a.rose", 1, 3⟩⟩ (.identifier "a")
        (.binary ⟨"*", 1, TOKEN_STAR, ⟨"a.rose", 1, 7⟩⟩ (.identifier "b") (.identifier "c"))),
        parser_t.advance_by 5 (parser_init (tokens_of "a + b * c;"))) ∧
    parse_logical_or 5 (parse_fn 5) (parser_init (tokens_of "a + b ** c;")) =
      .ok (some (.binary ⟨"+", 1, TOKEN_PLUS, ⟨"a.rose", 1, 3⟩⟩ (.identifier "a")
        (.binary ⟨"**", 2, TOKEN_STAR_STAR, ⟨"a.rose", 1, 7⟩⟩ (.identifier "b")
          (.identifier "c"))),
        parser_t.advance_by 5 (parser_init (tokens_of "a + b ** c;"))) :=
  ⟨((C2_precedence 5 (parse_fn 5) (by decide) (binary_levels.take 8) [TOKEN_PLUS, TOKEN_MINUS]
        [[TOKEN_STAR, TOKEN_SLASH, TOKEN_PERCENT]] rfl
        ⟨"+", 1, TOKEN_PLUS, ⟨"a.rose", 1, 3⟩⟩ ⟨"*", 1, TOKEN_STAR, ⟨"a.rose", 1, 7⟩⟩ (by decide)
        (.identifier "a") (.identifier "b") (.identifier "c")
        (parser_init (tokens_of "a + b * c;"))
        (parser_t.advance_by 1 (parser_init (tokens_of "a + b * c;")))
        (parser_t.advance_by 3 (parser_init (tokens_of "a + b * c;")))
        (parser_t.advance_by 5 (parser_init (tokens_of "a + b * c;")))
        (by decide!)).1 [] _ [] rfl (by decide)).1
      (by decide!) (by decide!) (by decide!) (by decide!) (by decide!),
   ((C2_precedence 5 (parse_fn 5) (by decide) (binary_levels.take 8) [TOKEN_PLUS, TOKEN_MINUS]
        [[TOKEN_STAR, TOKEN_SLASH, TOKEN_PERCENT]] rfl
        ⟨"+", 1, TOKEN_PLUS, ⟨"a.rose", 1, 3⟩⟩ ⟨"**", 2, TOKEN_STAR_STAR, ⟨"a.rose", 1, 7⟩⟩
        (by decide)
        (.identifier "a") (.identifier "b") (.identifier "c")
        (parser_init (tokens_of "a + b ** c;"))
        (parser_t.advance_by 1 (parser_init (tokens_of "a + b ** c;")))
        (parser_t.advance_by 3 (parser_init (tokens_of "a + b ** c;")))
        (parser_t.advance_by 5 (parser_init (tokens_of "a + b ** c;")))
        (by decide!)).2 rfl).1
      (by decide!) (by decide!) (by decide!) (by decide!) (by decide!)⟩

/-- C3 fails for an operand that is a spread: `a - ...b - c` parses to
`Binary(-, a, Spread(Binary(-, b, c)))` and not to
`Binary(-, Binary(-, a, ...b), c)`. -/
theorem C3_spread_operand :
    (lex_and_parse 20 "a - ...b - c;").map (Except.map Prod.fst) =
      some (.ok (some (.program [
        .binary ⟨"-", 1, TOKEN_MINUS, ⟨"a.rose", 1, 3⟩⟩ (.identifier "a")
          (.spread (.binary ⟨"-", 1, TOKEN_MINUS, ⟨"a.rose", 1, 10⟩⟩ (.identifier "b")
            (.identifier "c")))]))) := by
  decide!

/-- C3, amended: for operands a, b and c that the function called for the
operands of the operator reads up to the token that follows them, `a op b op c`
parses to `op(op(a, b), c)` for two operators of one of the functions from
`parse_logical_or` to `parse_factor` and for the comma, with a token behind c
that is no such operator, and to `op(a, op(b, c))` for `**` and for the
assignment operators, where the right operand is what the call of
`parse_exponent`, of `parse_assignment`, of itself returns. -/
theorem C3_associativity (fuel : Nat) (rec : parse_rec) (hfuel : 3 ≤ fuel) (op1 op2 : token_t)
    (a b c : Node) (p pa pb pc : parser_t) :
    (∀ pre l post, binary_levels = pre ++ l :: post → op1.type ∈ l → op2.type ∈ l →
      pc.current_not_in binary_levels.flatten = true →
      parse_exponent fuel rec p = .ok (some a, pa) → pa.current = some op1 →
      parse_exponent fuel rec pa.advance = .ok (some b, pb) → pb.current = some op2 →
      parse_exponent fuel rec pb.advance = .ok (some c, pc) →
      parse_logical_or fuel rec p = .ok (some (.binary op2 (.binary op1 a b) c), pc)) ∧
    (op1.type = TOKEN_COMMA → op2.type = TOKEN_COMMA →
      pc.current_not_in [TOKEN_COMMA] = true →
      parse_expression fuel rec p = .ok (some a, pa) → pa.current = some op1 →
      parse_expression fuel rec pa.advance = .ok (some b, pb) → pb.current = some op2 →
      parse_expression fuel rec pb.advance = .ok (some c, pc) →
      parse_comma fuel rec p = .ok (some (.binary op2 (.binary op1 a b) c), pc)) ∧
    (op1.type = TOKEN_STAR_STAR → op2.type = TOKEN_STAR_STAR →
      parse_unary (fuel + 1) (parse_fn (fuel + 1)) p = .ok (some a, pa) →
      pa.current = some op1 →
      parse_unary fuel (parse_fn fuel) pa.advance = .ok (some b, pb) →
      pb.current = some op2 →
      parse_fn fuel .exponent pb.advance = .ok (some c, pc) →
      parse_fn (fuel + 2) .exponent p = .ok (some (.binary op1 a (.binary op2 b c)), pc)) ∧
    (op1.type ∈ assignment_operators → op2.type ∈ assignment_operators →
      parse_ternary (fuel + 1) (parse_fn (fuel + 1)) p = .ok (some a, pa) →
      pa.current = some op1 →
      parse_ternary fuel (parse_fn fuel) pa.advance = .ok (some b, pb) →
      pb.current = some op2 →
      parse_fn fuel .assignment pb.advance = .ok (some c, pc) →
      parse_fn (fuel + 2) .assignment p =
        .ok (some (.assignment op1.loc op1 a (.assignment op2.loc op2 b c)), pc)) := by
  obtain ⟨k, rfl⟩ : ∃ k, fuel = k + 3 := ⟨fuel - 3, by omega⟩
  refine ⟨?_, ?_, ?_, ?_⟩
  · intro pre l post hlevels h1 h2 hend ha hc1 hb hc2 hcc
    have hsub : ∀ x ∈ post.flatten, x ∈ binary_levels.flatten := by
      rw [hlevels]
      refine flatten_subset (fun x hx => ?_)
      simp only [List.mem_append, List.mem_cons]
      exact Or.inr (Or.inr hx)
    have hsub1 : ∀ x ∈ (pre ++ [l]).flatten, x ∈ binary_levels.flatten := by
      rw [hlevels]
      refine flatten_subset (fun x hx => ?_)
      simp only [List.mem_append, List.mem_cons, List.mem_singleton, List.not_mem_nil,
        or_false] at hx ⊢
      rcases hx with hx | hx
      · exact Or.inl hx
      · exact Or.inr (Or.inl hx)
    have htower : parse_logical_or (k + 3) rec =
        binary_tower pre (binary_level l
          (binary_tower post (parse_exponent (k + 3) rec) (k + 3)) (k + 3)) (k + 3) := by
      rw [parse_logical_or_tower, hlevels, binary_tower_append]
      rfl
    rw [htower]
    exact binary_tower_three pre l _ k
      (binary_tower_pass post _ (k + 2) ha
        (current_not_in_of hc1 (binary_levels_later hlevels h1))) hc1 h1
      (binary_tower_pass post _ (k + 2) hb
        (current_not_in_of hc2 (binary_levels_later hlevels h2))) hc2 h2
      (binary_tower_pass post _ (k + 2) hcc (current_not_in_subset hend hsub))
      (current_not_in_subset hend hsub1)
  · intro h1 h2 hend ha hc1 hb hc2 hcc
    exact binary_level_three [TOKEN_COMMA] _ k ha hc1 (h1 ▸ List.mem_singleton_self _) hb hc2
      (h2 ▸ List.mem_singleton_self _) hcc hend
  · intro h1 h2 ha hc1 hb hc2 hcc
    exact parse_exponent_two _ _ ha hc1 h1 (parse_exponent_two _ _ hb hc2 h2 hcc)
  · intro h1 h2 ha hc1 hb hc2 hcc
    exact parse_assignment_two _ _ ha hc1 h1 (parse_assignment_two _ _ hb hc2 h2 hcc)

/-- C3 on `a - b - c;`, `a , b , c;`, `a ** b ** c;` and `a = b = c;`. -/
theorem C3_associativity_witness :
    parse_logical_or 5 (parse_fn 5) (parser_init (tokens_of "a - b - c;")) =
      .ok (some (.binary ⟨"-", 1, TOKEN_MINUS, ⟨"a.rose", 1, 7⟩⟩
        (.binary ⟨"-", 1, TOKEN_MINUS, ⟨"a.rose", 1, 3⟩⟩ (.identifier "a") (.identifier "b"))
        (.identifier "c")),
        parser_t.advance_by 5 (parser_init (tokens_of "a - b - c;"))) ∧
    parse_comma 5 (parse_fn 5) (parser_init (tokens_of "a , b , c;")) =
      .ok (some (.binary ⟨",", 1, TOKEN_COMMA, ⟨"a.rose", 1, 7⟩⟩
        (.binary ⟨",", 1, TOKEN_COMMA, ⟨"a.rose", 1, 3⟩⟩ (.identifier "a") (.identifier "b"))
        (.identifier "c")),
        parser_t.advance_by 5 (parser_init (tokens_of "a , b , c;"))) ∧
    parse_fn 7 .exponent (parser_init (tokens_of "a ** b ** c;")) =
      .ok (some (.binary ⟨"**", 2, TOKEN_STAR_STAR, ⟨"a.rose", 1, 3⟩⟩ (.identifier "a")
        (.binary ⟨"**", 2, TOKEN_STAR_STAR, ⟨"a.rose", 1, 8⟩⟩ (.identifier "b")
          (.identifier "c"))),
        parser_t.advance_by 5 (parser_init (tokens_of "a ** b ** c;"))) ∧
    parse_fn 7 .assignment (parser_init (tokens_of "a = b = c;")) =
      .ok (some (.assignment ⟨"a.rose", 1, 3⟩ ⟨"=", 1, TOKEN_EQUAL, ⟨"a.rose", 1, 3⟩⟩
        (.identifier "a")
        (.assignment ⟨"a.rose", 1, 7⟩ ⟨"=", 1, TOKEN_EQUAL, ⟨"a.rose", 1, 7⟩⟩ (.identifier "b")
          (.identifier "c"))),
        parser_t.advance_by 5 (parser_init (tokens_of "a = b = c;"))) :=
  ⟨(C3_associativity 5 (parse_fn 5) (by decide)
      ⟨"-", 1, TOKEN_MINUS, ⟨"a.rose", 1, 3⟩⟩ ⟨"-", 1, TOKEN_MINUS, ⟨"a.rose", 1, 7⟩⟩
      (.identifier "a") (.identifier "b") (.identifier "c")
      (parser_init (tokens_of "a - b - c;"))
      (parser_t.advance_by 1 (parser_init (tokens_of "a - b - c;")))
      (parser_t.advance_by 3 (parser_init (tokens_of "a - b - c;")))
      (parser_t.advance_by 5 (parser_init (tokens_of "a - b - c;")))).1
      (binary_levels.take 8) [TOKEN_PLUS, TOKEN_MINUS] [[TOKEN_STAR, TOKEN_SLASH, TOKEN_PERCENT]]
      rfl (by decide) (by decide) (by decide!) (by decide!) (by decide!) (by decide!)
      (by decide!) (by decide!),
   (C3_associativity 5 (parse_fn 5) (by decide)
      ⟨",", 1, TOKEN_COMMA, ⟨"a.rose", 1, 3⟩⟩ ⟨",", 1, TOKEN_COMMA, ⟨"a.rose", 1, 7⟩⟩
      (.identifier "a") (.identifier "b") (.identifier "c")
      (parser_init (tokens_of "a , b , c;"))
      (parser_t.advance_by 1 (parser_init (tokens_of "a , b , c;")))
      (parser_t.advance_by 3 (parser_init (tokens_of "a , b , c;")))
      (parser_t.advance_by 5 (parser_init (tokens_of "a , b , c;")))).2.1
      rfl rfl (by decide!) (by decide!) (by decide!) (by decide!) (by decide!) (by decide!),
   (C3_associativity 5 (parse_fn 5) (by decide)
      ⟨"**", 2, TOKEN_STAR_STAR, ⟨"a.rose", 1, 3⟩⟩ ⟨"**", 2, TOKEN_STAR_STAR, ⟨"a.rose", 1, 8⟩⟩
      (.identifier "a") (.identifier "b") (.identifier "c")
      (parser_init (tokens_of "a ** b ** c;"))
      (parser_t.advance_by 1 (parser_init (tokens_of "a ** b ** c;")))
      (parser_t.advance_by 3 (parser_init (tokens_of "a ** b ** c;")))
      (parser_t.advance_by 5 (parser_init (tokens_of "a ** b ** c;")))).2.2.1
      rfl rfl (by decide!) (by decide!) (by decide!) (by decide!) (by decide!),
   (C3_associativity 5 (parse_fn 5) (by decide)
      ⟨"=", 1, TOKEN_EQUAL, ⟨"a.rose", 1, 3⟩⟩ ⟨"=", 1, TOKEN_EQUAL, ⟨"a.rose", 1, 7⟩⟩
      (.identifier "a") (.identifier "b") (.identifier "c")
      (parser_init (tokens_of "a = b = c;"))
      (parser_t.advance_by 1 (parser_init (tokens_of "a = b = c;")))
      (parser_t.advance_by 3 (parser_init (tokens_of "a = b = c;")))
      (parser_t.advance_by 5 (parser_init (tokens_of "a = b = c;")))).2.2.2
      (by decide) (by decide) (by decide!) (by decide!) (by decide!) (by decide!)
      (by decide!)⟩

/-! ## The parser builds no `New` node: the rules -/

theorem all_nodes_list (f : Node → Bool) (l : List Node) :
    (nodes_list l).all f = true ↔ ∀ n ∈ l, n.nodes.all f = true := by
  induction l with
  | nil => simp [nodes_list]
  | cons n l ih => simp [nodes_list, List.all_append, ih]

theorem all_nodes_opt (f : Node → Bool) (o : Option Node) :
    (nodes_opt o).all f = true ↔ ∀ n ∈ o, n.nodes.all f = true := by
  cases o <;> simp [nodes_opt]

theorem all_nodes_values (f : Node → Bool) (l : List (Option Node)) :
    (nodes_values l).all f = true ↔ ∀ o ∈ l, ∀ n ∈ o, n.nodes.all f = true := by
  induction l with
  | nil => simp [nodes_values]
  | cons o l ih =>
    simp only [nodes_values, List.all_append, Bool.and_eq_true, ih, all_nodes_opt, List.mem_cons,
      forall_eq_or_imp]

theorem all_nodes_params (l : List Param) :
    (nodes_params l).all (fun n => n.as_new_expr.isNone) = true ↔ ∀ x ∈ l, Clean.clean x := by
  induction l with
  | nil => simp [nodes_params]
  | cons x l ih =>
    obtain ⟨name, value, is_rest⟩ := x
    simp only [nodes_params, List.all_append, Bool.and_eq_true, ih, all_nodes_opt,
      List.mem_cons, forall_eq_or_imp]
    rfl

theorem all_nodes_cases (l : List SwitchCase) :
    (nodes_cases l).all (fun n => n.as_new_expr.isNone) = true ↔ ∀ x ∈ l, Clean.clean x := by
  induction l with
  | nil => simp [nodes_cases]
  | cons x l ih =>
    obtain ⟨labels, body, is_default⟩ := x
    simp only [nodes_cases, List.all_append, Bool.and_eq_true, ih, all_nodes_list,
      List.mem_cons, forall_eq_or_imp]
    rfl

theorem clean_node_iff (n : Node) :
    Clean.clean n ↔ n.nodes.all (fun n => n.as_new_expr.isNone) = true := Iff.rfl

theorem clean_list_iff {α : Type} [Clean α] (l : List α) :
    Clean.clean l ↔ ∀ a ∈ l, Clean.clean a := Iff.rfl

theorem clean_opt_iff {α : Type} [Clean α] (o : Option α) :
    Clean.clean o ↔ ∀ a ∈ o, Clean.clean a := Iff.rfl

theorem all_cons_head (f : Node → Bool) (x : Node) (l : List Node) (h : f x = true) :
    (x :: l).all f = true ↔ l.all f = true := by
  simp [List.all_cons, h]

theorem clean_none {α : Type} [Clean α] : Clean.clean (none : Option α) ↔ True := by
  simp [clean_opt_iff]

theorem clean_some {α : Type} [Clean α] (a : α) : Clean.clean (some a) ↔ Clean.clean a := by
  simp [clean_opt_iff]

theorem clean_nil {α : Type} [Clean α] : Clean.clean ([] : List α) ↔ True := by
  simp [clean_list_iff]

theorem clean_cons {α : Type} [Clean α] (a : α) (l : List α) :
    Clean.clean (a :: l) ↔ Clean.clean a ∧ Clean.clean l := by
  simp [clean_list_iff]

theorem clean_append {α : Type} [Clean α] (l l' : List α) :
    Clean.clean (l ++ l') ↔ Clean.clean l ∧ Clean.clean l' := by
  simp only [clean_list_iff, List.mem_append]
  constructor
  · exact fun h => ⟨fun a ha => h a (Or.inl ha), fun a ha => h a (Or.inr ha)⟩
  · rintro ⟨h1, h2⟩ a (ha | ha)
    · exact h1 a ha
    · exact h2 a ha

theorem clean_pair {α β : Type} [Clean α] [Clean β] (a : α) (b : β) :
    Clean.clean (a, b) ↔ Clean.clean a ∧ Clean.clean b := Iff.rfl

theorem clean_text (s : String) : Clean.clean s ↔ True := Iff.rfl

theorem clean_texts (l : List String) : Clean.clean l ↔ True :=
  ⟨fun _ => trivial, fun _ _ _ => trivial⟩

theorem clean_text_opt (o : Option String) : Clean.clean o ↔ True :=
  ⟨fun _ => trivial, fun _ _ _ => trivial⟩

theorem clean_param (name : String) (value : Option Node) (is_rest : Bool) :
    Clean.clean (Param.mk name value is_rest) ↔ Clean.clean value := Iff.rfl

theorem clean_case (labels : List Node) (body : Node) (is_default : Bool) :
    Clean.clean (SwitchCase.mk labels body is_default) ↔
      Clean.clean labels ∧ Clean.clean body := Iff.rfl

theorem clean_number (number : number_t) :
    Clean.clean (Node.number number) ↔ True := by
  simp only [clean_node_iff, Node.nodes]
  rw [all_cons_head _ _ _ rfl]
  try simp only [List.all_append, Bool.and_eq_true, all_nodes_list, all_nodes_opt, all_nodes_values,
    all_nodes_params, all_nodes_cases, clean_list_iff, clean_opt_iff, clean_node_iff, and_assoc,
    List.all_nil]

theorem clean_string (string_ : String) :
    Clean.clean (Node.string string_) ↔ True := by
  simp only [clean_node_iff, Node.nodes]
  rw [all_cons_head _ _ _ rfl]
  try simp only [List.all_append, Bool.and_eq_true, all_nodes_list, all_nodes_opt, all_nodes_values,
    all_nodes_params, all_nodes_cases, clean_list_iff, clean_opt_iff, clean_node_iff, and_assoc,
    List.all_nil]

theorem clean_boolean (boolean : Bool) :
    Clean.clean (Node.boolean boolean) ↔ True := by
  simp only [clean_node_iff, Node.nodes]
  rw [all_cons_head _ _ _ rfl]
  try simp only [List.all_append, Bool.and_eq_true, all_nodes_list, all_nodes_opt, all_nodes_values,
    all_nodes_params, all_nodes_cases, clean_list_iff, clean_opt_iff, clean_node_iff, and_assoc,
    List.all_nil]

theorem clean_identifier (identifier : String) :
    Clean.clean (Node.identifier identifier) ↔ True := by
  simp only [clean_node_iff, Node.nodes]
  rw [all_cons_head _ _ _ rfl]
  try simp only [List.all_append, Bool.and_eq_true, all_nodes_list, all_nodes_opt, all_nodes_values,
    all_nodes_params, all_nodes_cases, clean_list_iff, clean_opt_iff, clean_node_iff, and_assoc,
    List.all_nil]

theorem clean_array (elements : List Node) :
    Clean.clean (Node.array elements) ↔ Clean.clean elements := by
  simp only [clean_node_iff, Node.nodes]
  rw [all_cons_head _ _ _ rfl]
  try simp only [List.all_append, Bool.and_eq_true, all_nodes_list, all_nodes_opt, all_nodes_values,
    all_nodes_params, all_nodes_cases, clean_list_iff, clean_opt_iff, clean_node_iff, and_assoc,
    List.all_nil]

theorem clean_object (keys : List (Option String)) (values : List Node) :
    Clean.clean (Node.object keys values) ↔ Clean.clean values := by
  simp only [clean_node_iff, Node.nodes]
  rw [all_cons_head _ _ _ rfl]
  try simp only [List.all_append, Bool.and_eq_true, all_nodes_list, all_nodes_opt, all_nodes_values,
    all_nodes_params, all_nodes_cases, clean_list_iff, clean_opt_iff, clean_node_iff, and_assoc,
    List.all_nil]

theorem clean_spread (argument : Node) :
    Clean.clean (Node.spread argument) ↔ Clean.clean argument := by
  simp only [clean_node_iff, Node.nodes]
  rw [all_cons_head _ _ _ rfl]
  try simp only [List.all_append, Bool.and_eq_true, all_nodes_list, all_nodes_opt, all_nodes_values,
    all_nodes_params, all_nodes_cases, clean_list_iff, clean_opt_iff, clean_node_iff, and_assoc,
    List.all_nil]

theorem clean_undefined :
    Clean.clean (Node.undefined) ↔ True := by
  simp only [clean_node_iff, Node.nodes]
  rw [all_cons_head _ _ _ rfl]
  try simp only [List.all_append, Bool.and_eq_true, all_nodes_list, all_nodes_opt, all_nodes_values,
    all_nodes_params, all_nodes_cases, clean_list_iff, clean_opt_iff, clean_node_iff, and_assoc,
    List.all_nil]

theorem clean_null :
    Clean.clean (Node.null) ↔ True := by
  simp only [clean_node_iff, Node.nodes]
  rw [all_cons_head _ _ _ rfl]
  try simp only [List.all_append, Bool.and_eq_true, all_nodes_list, all_nodes_opt, all_nodes_values,
    all_nodes_params, all_nodes_cases, clean_list_iff, clean_opt_iff, clean_node_iff, and_assoc,
    List.all_nil]

theorem clean_program (statements : List Node) :
    Clean.clean (Node.program statements) ↔ Clean.clean statements := by
  simp only [clean_node_iff, Node.nodes]
  rw [all_cons_head _ _ _ rfl]
  try simp only [List.all_append, Bool.and_eq_true, all_nodes_list, all_nodes_opt, all_nodes_values,
    all_nodes_params, all_nodes_cases, clean_list_iff, clean_opt_iff, clean_node_iff, and_assoc,
    List.all_nil]

theorem clean_block (statements : List Node) :
    Clean.clean (Node.block statements) ↔ Clean.clean statements := by
  simp only [clean_node_iff, Node.nodes]
  rw [all_cons_head _ _ _ rfl]
  try simp only [List.all_append, Bool.and_eq_true, all_nodes_list, all_nodes_opt, all_nodes_values,
    all_nodes_params, all_nodes_cases, clean_list_iff, clean_opt_iff, clean_node_iff, and_assoc,
    List.all_nil]

theorem clean_binary (op : token_t) (left : Node) (right : Node) :
    Clean.clean (Node.binary op left right) ↔ Clean.clean left ∧ Clean.clean right := by
  simp only [clean_node_iff, Node.nodes]
  rw [all_cons_head _ _ _ rfl]
  try simp only [List.all_append, Bool.and_eq_true, all_nodes_list, all_nodes_opt, all_nodes_values,
    all_nodes_params, all_nodes_cases, clean_list_iff, clean_opt_iff, clean_node_iff, and_assoc,
    List.all_nil]

theorem clean_unary (loc : location_t) (op : token_t) (right : Node) :
    Clean.clean (Node.unary loc op right) ↔ Clean.clean right := by
  simp only [clean_node_iff, Node.nodes]
  rw [all_cons_head _ _ _ rfl]
  try simp only [List.all_append, Bool.and_eq_true, all_nodes_list, all_nodes_opt, all_nodes_values,
    all_nodes_params, all_nodes_cases, clean_list_iff, clean_opt_iff, clean_node_iff, and_assoc,
    List.all_nil]

theorem clean_assignment (loc : location_t) (op : token_t) (target : Node) (value : Node) :
    Clean.clean (Node.assignment loc op target value) ↔ Clean.clean target ∧ Clean.clean value := by
  simp only [clean_node_iff, Node.nodes]
  rw [all_cons_head _ _ _ rfl]
  try simp only [List.all_append, Bool.and_eq_true, all_nodes_list, all_nodes_opt, all_nodes_values,
    all_nodes_params, all_nodes_cases, clean_list_iff, clean_opt_iff, clean_node_iff, and_assoc,
    List.all_nil]

theorem clean_ternary (condition : Node) (true_expr : Node) (false_expr : Node) :
    Clean.clean (Node.ternary condition true_expr false_expr) ↔ Clean.clean condition ∧ Clean.clean true_expr ∧ Clean.clean false_expr := by
  simp only [clean_node_iff, Node.nodes]
  rw [all_cons_head _ _ _ rfl]
  try simp only [List.all_append, Bool.and_eq_true, all_nodes_list, all_nodes_opt, all_nodes_values,
    all_nodes_params, all_nodes_cases, clean_list_iff, clean_opt_iff, clean_node_iff, and_assoc,
    List.all_nil]

theorem clean_if_stmt (condition : Node) (then_branch : Node) (else_branch : Option Node) :
    Clean.clean (Node.if_stmt condition then_branch else_branch) ↔ Clean.clean condition ∧ Clean.clean then_branch ∧ Clean.clean else_branch := by
  simp only [clean_node_iff, Node.nodes]
  rw [all_cons_head _ _ _ rfl]
  try simp only [List.all_append, Bool.and_eq_true, all_nodes_list, all_nodes_opt, all_nodes_values,
    all_nodes_params, all_nodes_cases, clean_list_iff, clean_opt_iff, clean_node_iff, and_assoc,
    List.all_nil]

theorem clean_while_stmt (condition : Node) (body : Node) :
    Clean.clean (Node.while_stmt condition body) ↔ Clean.clean condition ∧ Clean.clean body := by
  simp only [clean_node_iff, Node.nodes]
  rw [all_cons_head _ _ _ rfl]
  try simp only [List.all_append, Bool.and_eq_true, all_nodes_list, all_nodes_opt, all_nodes_values,
    all_nodes_params, all_nodes_cases, clean_list_iff, clean_opt_iff, clean_node_iff, and_assoc,
    List.all_nil]

theorem clean_do_while_stmt (body : Node) (condition : Node) :
    Clean.clean (Node.do_while_stmt body condition) ↔ Clean.clean body ∧ Clean.clean condition := by
  simp only [clean_node_iff, Node.nodes]
  rw [all_cons_head _ _ _ rfl]
  try simp only [List.all_append, Bool.and_eq_true, all_nodes_list, all_nodes_opt, all_nodes_values,
    all_nodes_params, all_nodes_cases, clean_list_iff, clean_opt_iff, clean_node_iff, and_assoc,
    List.all_nil]

theorem clean_for_stmt (body : Node) (init : Option Node) (condition : Option Node) (increment : Option Node) :
    Clean.clean (Node.for_stmt body init condition increment) ↔ Clean.clean body ∧ Clean.clean init ∧ Clean.clean condition ∧ Clean.clean increment := by
  simp only [clean_node_iff, Node.nodes]
  rw [all_cons_head _ _ _ rfl]
  try simp only [List.all_append, Bool.and_eq_true, all_nodes_list, all_nodes_opt, all_nodes_values,
    all_nodes_params, all_nodes_cases, clean_list_iff, clean_opt_iff, clean_node_iff, and_assoc,
    List.all_nil]

theorem clean_call (callee : Node) (args : List Node) :
    Clean.clean (Node.call callee args) ↔ Clean.clean callee ∧ Clean.clean args := by
  simp only [clean_node_iff, Node.nodes]
  rw [all_cons_head _ _ _ rfl]
  try simp only [List.all_append, Bool.and_eq_true, all_nodes_list, all_nodes_opt, all_nodes_values,
    all_nodes_params, all_nodes_cases, clean_list_iff, clean_opt_iff, clean_node_iff, and_assoc,
    List.all_nil]

theorem clean_index (array_ : Node) (index_ : Node) :
    Clean.clean (Node.index array_ index_) ↔ Clean.clean array_ ∧ Clean.clean index_ := by
  simp only [clean_node_iff, Node.nodes]
  rw [all_cons_head _ _ _ rfl]
  try simp only [List.all_append, Bool.and_eq_true, all_nodes_list, all_nodes_opt, all_nodes_values,
    all_nodes_params, all_nodes_cases, clean_list_iff, clean_opt_iff, clean_node_iff, and_assoc,
    List.all_nil]

theorem clean_member (object : Node) (property : Option Node) :
    Clean.clean (Node.member object property) ↔ Clean.clean object ∧ Clean.clean property := by
  simp only [clean_node_iff, Node.nodes]
  rw [all_cons_head _ _ _ rfl]
  try simp only [List.all_append, Bool.and_eq_true, all_nodes_list, all_nodes_opt, all_nodes_values,
    all_nodes_params, all_nodes_cases, clean_list_iff, clean_opt_iff, clean_node_iff, and_assoc,
    List.all_nil]

theorem clean_postfix_op (op : token_t) (left : Node) :
    Clean.clean (Node.postfix_op op left) ↔ Clean.clean left := by
  simp only [clean_node_iff, Node.nodes]
  rw [all_cons_head _ _ _ rfl]
  try simp only [List.all_append, Bool.and_eq_true, all_nodes_list, all_nodes_opt, all_nodes_values,
    all_nodes_params, all_nodes_cases, clean_list_iff, clean_opt_iff, clean_node_iff, and_assoc,
    List.all_nil]

theorem clean_function (is_async : Bool) (name : Option String) (params : List Param) (body : Node) :
    Clean.clean (Node.function is_async name params body) ↔ Clean.clean params ∧ Clean.clean body := by
  simp only [clean_node_iff, Node.nodes]
  rw [all_cons_head _ _ _ rfl]
  try simp only [List.all_append, Bool.and_eq_true, all_nodes_list, all_nodes_opt, all_nodes_values,
    all_nodes_params, all_nodes_cases, clean_list_iff, clean_opt_iff, clean_node_iff, and_assoc,
    List.all_nil]

theorem clean_declaration (kind : token_t) (names : List Node) (values : List (Option Node)) :
    Clean.clean (Node.declaration kind names values) ↔ Clean.clean names ∧ Clean.clean values := by
  simp only [clean_node_iff, Node.nodes]
  rw [all_cons_head _ _ _ rfl]
  try simp only [List.all_append, Bool.and_eq_true, all_nodes_list, all_nodes_opt, all_nodes_values,
    all_nodes_params, all_nodes_cases, clean_list_iff, clean_opt_iff, clean_node_iff, and_assoc,
    List.all_nil]

theorem clean_switch_stmt (expr : Node) (cases : List SwitchCase) :
    Clean.clean (Node.switch_stmt expr cases) ↔ Clean.clean expr ∧ Clean.clean cases := by
  simp only [clean_node_iff, Node.nodes]
  rw [all_cons_head _ _ _ rfl]
  try simp only [List.all_append, Bool.and_eq_true, all_nodes_list, all_nodes_opt, all_nodes_values,
    all_nodes_params, all_nodes_cases, clean_list_iff, clean_opt_iff, clean_node_iff, and_assoc,
    List.all_nil]

theorem clean_label (name : String) (statement : Node) :
    Clean.clean (Node.label name statement) ↔ Clean.clean statement := by
  simp only [clean_node_iff, Node.nodes]
  rw [all_cons_head _ _ _ rfl]
  try simp only [List.all_append, Bool.and_eq_true, all_nodes_list, all_nodes_opt, all_nodes_values,
    all_nodes_params, all_nodes_cases, clean_list_iff, clean_opt_iff, clean_node_iff, and_assoc,
    List.all_nil]

theorem clean_await_expr (loc : location_t) (argument : Node) :
    Clean.clean (Node.await_expr loc argument) ↔ Clean.clean argument := by
  simp only [clean_node_iff, Node.nodes]
  rw [all_cons_head _ _ _ rfl]
  try simp only [List.all_append, Bool.and_eq_true, all_nodes_list, all_nodes_opt, all_nodes_values,
    all_nodes_params, all_nodes_cases, clean_list_iff, clean_opt_iff, clean_node_iff, and_assoc,
    List.all_nil]

theorem clean_this (loc : location_t) :
    Clean.clean (Node.this loc) ↔ True := by
  simp only [clean_node_iff, Node.nodes]
  rw [all_cons_head _ _ _ rfl]
  try simp only [List.all_append, Bool.and_eq_true, all_nodes_list, all_nodes_opt, all_nodes_values,
    all_nodes_params, all_nodes_cases, clean_list_iff, clean_opt_iff, clean_node_iff, and_assoc,
    List.all_nil]

theorem clean_debugger :
    Clean.clean (Node.debugger) ↔ True := by
  simp only [clean_node_iff, Node.nodes]
  rw [all_cons_head _ _ _ rfl]
  try simp only [List.all_append, Bool.and_eq_true, all_nodes_list, all_nodes_opt, all_nodes_values,
    all_nodes_params, all_nodes_cases, clean_list_iff, clean_opt_iff, clean_node_iff, and_assoc,
    List.all_nil]

theorem clean_break_stmt (loc : location_t) (label : Option String) :
    Clean.clean (Node.break_stmt loc label) ↔ True := by
  simp only [clean_node_iff, Node.nodes]
  rw [all_cons_head _ _ _ rfl]
  try simp only [List.all_append, Bool.and_eq_true, all_nodes_list, all_nodes_opt, all_nodes_values,
    all_nodes_params, all_nodes_cases, clean_list_iff, clean_opt_iff, clean_node_iff, and_assoc,
    List.all_nil]

theorem clean_continue_stmt (loc : location_t) (label : Option String) :
    Clean.clean (Node.continue_stmt loc label) ↔ True := by
  simp only [clean_node_iff, Node.nodes]
  rw [all_cons_head _ _ _ rfl]
  try simp only [List.all_append, Bool.and_eq_true, all_nodes_list, all_nodes_opt, all_nodes_values,
    all_nodes_params, all_nodes_cases, clean_list_iff, clean_opt_iff, clean_node_iff, and_assoc,
    List.all_nil]

theorem clean_throw_stmt (value : Node) :
    Clean.clean (Node.throw_stmt value) ↔ Clean.clean value := by
  simp only [clean_node_iff, Node.nodes]
  rw [all_cons_head _ _ _ rfl]
  try simp only [List.all_append, Bool.and_eq_true, all_nodes_list, all_nodes_opt, all_nodes_values,
    all_nodes_params, all_nodes_cases, clean_list_iff, clean_opt_iff, clean_node_iff, and_assoc,
    List.all_nil]

theorem clean_try_stmt (try_block : Node) (catch_param : Option String) (catch_block : Option Node) (finally_block : Option Node) :
    Clean.clean (Node.try_stmt try_block catch_param catch_block finally_block) ↔ Clean.clean try_block ∧ Clean.clean catch_block ∧ Clean.clean finally_block := by
  simp only [clean_node_iff, Node.nodes]
  rw [all_cons_head _ _ _ rfl]
  try simp only [List.all_append, Bool.and_eq_true, all_nodes_list, all_nodes_opt, all_nodes_values,
    all_nodes_params, all_nodes_cases, clean_list_iff, clean_opt_iff, clean_node_iff, and_assoc,
    List.all_nil]

theorem clean_return_stmt (value : Option Node) :
    Clean.clean (Node.return_stmt value) ↔ Clean.clean value := by
  simp only [clean_node_iff, Node.nodes]
  rw [all_cons_head _ _ _ rfl]
  try simp only [List.all_append, Bool.and_eq_true, all_nodes_list, all_nodes_opt, all_nodes_values,
    all_nodes_params, all_nodes_cases, clean_list_iff, clean_opt_iff, clean_node_iff, and_assoc,
    List.all_nil]

theorem clean_import_stmt (module : String) (default_name : Option String) (imported : List String) :
    Clean.clean (Node.import_stmt module default_name imported) ↔ True := by
  simp only [clean_node_iff, Node.nodes]
  rw [all_cons_head _ _ _ rfl]
  try simp only [List.all_append, Bool.and_eq_true, all_nodes_list, all_nodes_opt, all_nodes_values,
    all_nodes_params, all_nodes_cases, clean_list_iff, clean_opt_iff, clean_node_iff, and_assoc,
    List.all_nil]

theorem clean_export_stmt (is_default : Bool) (declaration : Option Node) (exported : List String) :
    Clean.clean (Node.export_stmt is_default declaration exported) ↔ Clean.clean declaration := by
  simp only [clean_node_iff, Node.nodes]
  rw [all_cons_head _ _ _ rfl]
  try simp only [List.all_append, Bool.and_eq_true, all_nodes_list, all_nodes_opt, all_nodes_values,
    all_nodes_params, all_nodes_cases, clean_list_iff, clean_opt_iff, clean_node_iff, and_assoc,
    List.all_nil]

theorem clean_empty (loc : location_t) :
    Clean.clean (Node.empty loc) ↔ True := by
  simp only [clean_node_iff, Node.nodes]
  rw [all_cons_head _ _ _ rfl]
  try simp only [List.all_append, Bool.and_eq_true, all_nodes_list, all_nodes_opt, all_nodes_values,
    all_nodes_params, all_nodes_cases, clean_list_iff, clean_opt_iff, clean_node_iff, and_assoc,
    List.all_nil]


set_option linter.unusedTactic false
set_option linter.unreachableTactic false
set_option linter.unusedVariables false

/-! ## The parser builds no `New` node: the functions -/

theorem clean_advance {post : _ → parser_t → Prop} {p : parser_t}
    (h : ∀ a p', post a p') : parser_advance.ensures post p := ensures_any h

theorem clean_current {post : _ → parser_t → Prop} {p : parser_t}
    (h : ∀ a p', post a p') : parser_current.ensures post p := ensures_any h

theorem clean_previous {post : _ → parser_t → Prop} {p : parser_t}
    (h : ∀ a p', post a p') : parser_previous.ensures post p := ensures_any h

theorem clean_current_type {post : _ → parser_t → Prop} {p : parser_t}
    (h : ∀ a p', post a p') : current_type.ensures post p := ensures_any h

theorem clean_peek {post : _ → parser_t → Prop} {p : parser_t}
    (h : ∀ a p', post a p') : parser_peek.ensures post p := ensures_any h

theorem clean_check (x : token_type_t) {post : _ → parser_t → Prop} {p : parser_t}
    (h : ∀ a p', post a p') : (parser_check x).ensures post p := ensures_any h

theorem clean_match (x : token_type_t) {post : _ → parser_t → Prop} {p : parser_t}
    (h : ∀ a p', post a p') : (parser_match x).ensures post p := ensures_any h

theorem clean_match_any (x : List token_type_t) {post : _ → parser_t → Prop} {p : parser_t}
    (h : ∀ a p', post a p') : (parser_match_any x).ensures post p := ensures_any h

theorem clean_report (x : String) {post : _ → parser_t → Prop} {p : parser_t}
    (h : ∀ a p', post a p') : (report x).ensures post p := ensures_any h

theorem clean_PARSER_ERROR (x : String) {post : _ → parser_t → Prop} {p : parser_t}
    (h : ∀ a p', post a p') : (PARSER_ERROR x).ensures post p := ensures_any h

theorem clean_ERROR (x : String) {post : _ → parser_t → Prop} {p : parser_t}
    (h : ∀ a p', post a p') : (ERROR x).ensures post p := ensures_any h

theorem rec_clean_apply {rec : parse_rec} (hrec : rec_clean rec) (c : parse_call) {p : parser_t} :
    (rec c).ensures (fun a _ => Clean.clean a) p := hrec c p

theorem parse_number_clean {p : parser_t} :
    (parse_number).ensures (fun a _ => Clean.clean a) p := by
  unfold parse_number
  try simp only []
  repeat' first
    | with_reducible exact ensures_stop _ _ _
    | with_reducible refine ensures_bind ?_
    | with_reducible refine ensures_pure ?_
    | with_reducible refine clean_advance (fun _ _ => ?_)
    | with_reducible refine clean_current (fun _ _ => ?_)
    | with_reducible refine clean_previous (fun _ _ => ?_)
    | with_reducible refine clean_current_type (fun _ _ => ?_)
    | with_reducible refine clean_peek (fun _ _ => ?_)
    | with_reducible refine clean_check _ (fun _ _ => ?_)
    | with_reducible refine clean_match _ (fun _ _ => ?_)
    | with_reducible refine clean_match_any _ (fun _ _ => ?_)
    | with_reducible refine clean_report _ (fun _ _ => ?_)
    | with_reducible refine clean_PARSER_ERROR _ (fun _ _ => ?_)
    | with_reducible refine clean_ERROR _ (fun _ _ => ?_)
    | with_reducible refine ensures_ite (fun _ => ?_) (fun _ => ?_)
    | split
    | (simp only [clean_none, clean_some, clean_nil, clean_cons, clean_append, clean_pair, clean_text, clean_param, clean_case, clean_texts, clean_text_opt, and_true, true_and, and_self, implies_true, clean_number, clean_string, clean_boolean, clean_identifier, clean_array, clean_object, clean_spread, clean_undefined, clean_null, clean_program, clean_block, clean_binary, clean_unary, clean_assignment, clean_ternary, clean_if_stmt, clean_while_stmt, clean_do_while_stmt, clean_for_stmt, clean_call, clean_index, clean_member, clean_postfix_op, clean_function, clean_declaration, clean_switch_stmt, clean_label, clean_await_expr, clean_this, clean_debugger, clean_break_stmt, clean_continue_stmt, clean_throw_stmt, clean_try_stmt, clean_return_stmt, clean_import_stmt, clean_export_stmt, clean_empty]; done)
    | (simp_all only [clean_none, clean_some, clean_nil, clean_cons, clean_append, clean_pair, clean_text, clean_param, clean_case, clean_texts, clean_text_opt, and_true, true_and, and_self, implies_true, clean_number, clean_string, clean_boolean, clean_identifier, clean_array, clean_object, clean_spread, clean_undefined, clean_null, clean_program, clean_block, clean_binary, clean_unary, clean_assignment, clean_ternary, clean_if_stmt, clean_while_stmt, clean_do_while_stmt, clean_for_stmt, clean_call, clean_index, clean_member, clean_postfix_op, clean_function, clean_declaration, clean_switch_stmt, clean_label, clean_await_expr, clean_this, clean_debugger, clean_break_stmt, clean_continue_stmt, clean_throw_stmt, clean_try_stmt, clean_return_stmt, clean_import_stmt, clean_export_stmt, clean_empty]; done)
    | simp only [Bool.not_true, Bool.not_false, Bool.false_eq_true, if_false, if_true, eq_self_iff_true, ne_eq, not_true_eq_false, not_false_eq_true, Option.isNone_none, Option.isNone_some, and_true, true_and, and_false, false_and]

theorem parse_string_clean {p : parser_t} :
    (parse_string).ensures (fun a _ => Clean.clean a) p := by
  unfold parse_string
  try simp only []
  repeat' first
    | with_reducible exact ensures_stop _ _ _
    | with_reducible refine ensures_bind ?_
    | with_reducible refine ensures_pure ?_
    | with_reducible refine clean_advance (fun _ _ => ?_)
    | with_reducible refine clean_current (fun _ _ => ?_)
    | with_reducible refine clean_previous (fun _ _ => ?_)
    | with_reducible refine clean_current_type (fun _ _ => ?_)
    | with_reducible refine clean_peek (fun _ _ => ?_)
    | with_reducible refine clean_check _ (fun _ _ => ?_)
    | with_reducible refine clean_match _ (fun _ _ => ?_)
    | with_reducible refine clean_match_any _ (fun _ _ => ?_)
    | with_reducible refine clean_report _ (fun _ _ => ?_)
    | with_reducible refine clean_PARSER_ERROR _ (fun _ _ => ?_)
    | with_reducible refine clean_ERROR _ (fun _ _ => ?_)
    | with_reducible refine ensures_ite (fun _ => ?_) (fun _ => ?_)
    | split
    | (simp only [clean_none, clean_some, clean_nil, clean_cons, clean_append, clean_pair, clean_text, clean_param, clean_case, clean_texts, clean_text_opt, and_true, true_and, and_self, implies_true, clean_number, clean_string, clean_boolean, clean_identifier, clean_array, clean_object, clean_spread, clean_undefined, clean_null, clean_program, clean_block, clean_binary, clean_unary, clean_assignment, clean_ternary, clean_if_stmt, clean_while_stmt, clean_do_while_stmt, clean_for_stmt, clean_call, clean_index, clean_member, clean_postfix_op, clean_function, clean_declaration, clean_switch_stmt, clean_label, clean_await_expr, clean_this, clean_debugger, clean_break_stmt, clean_continue_stmt, clean_throw_stmt, clean_try_stmt, clean_return_stmt, clean_import_stmt, clean_export_stmt, clean_empty]; done)
    | (simp_all only [clean_none, clean_some, clean_nil, clean_cons, clean_append, clean_pair, clean_text, clean_param, clean_case, clean_texts, clean_text_opt, and_true, true_and, and_self, implies_true, clean_number, clean_string, clean_boolean, clean_identifier, clean_array, clean_object, clean_spread, clean_undefined, clean_null, clean_program, clean_block, clean_binary, clean_unary, clean_assignment, clean_ternary, clean_if_stmt, clean_while_stmt, clean_do_while_stmt, clean_for_stmt, clean_call, clean_index, clean_member, clean_postfix_op, clean_function, clean_declaration, clean_switch_stmt, clean_label, clean_await_expr, clean_this, clean_debugger, clean_break_stmt, clean_continue_stmt, clean_throw_stmt, clean_try_stmt, clean_return_stmt, clean_import_stmt, clean_export_stmt, clean_empty]; done)
    | simp only [Bool.not_true, Bool.not_false, Bool.false_eq_true, if_false, if_true, eq_self_iff_true, ne_eq, not_true_eq_false, not_false_eq_true, Option.isNone_none, Option.isNone_some, and_true, true_and, and_false, false_and]

theorem parse_bool_clean {p : parser_t} :
    (parse_bool).ensures (fun a _ => Clean.clean a) p := by
  unfold parse_bool
  try simp only []
  repeat' first
    | with_reducible exact ensures_stop _ _ _
    | with_reducible refine ensures_bind ?_
    | with_reducible refine ensures_pure ?_
    | with_reducible refine clean_advance (fun _ _ => ?_)
    | with_reducible refine clean_current (fun _ _ => ?_)
    | with_reducible refine clean_previous (fun _ _ => ?_)
    | with_reducible refine clean_current_type (fun _ _ => ?_)
    | with_reducible refine clean_peek (fun _ _ => ?_)
    | with_reducible refine clean_check _ (fun _ _ => ?_)
    | with_reducible refine clean_match _ (fun _ _ => ?_)
    | with_reducible refine clean_match_any _ (fun _ _ => ?_)
    | with_reducible refine clean_report _ (fun _ _ => ?_)
    | with_reducible refine clean_PARSER_ERROR _ (fun _ _ => ?_)
    | with_reducible refine clean_ERROR _ (fun _ _ => ?_)
    | with_reducible refine ensures_ite (fun _ => ?_) (fun _ => ?_)
    | split
    | (simp only [clean_none, clean_some, clean_nil, clean_cons, clean_append, clean_pair, clean_text, clean_param, clean_case, clean_texts, clean_text_opt, and_true, true_and, and_self, implies_true, clean_number, clean_string, clean_boolean, clean_identifier, clean_array, clean_object, clean_spread, clean_undefined, clean_null, clean_program, clean_block, clean_binary, clean_unary, clean_assignment, clean_ternary, clean_if_stmt, clean_while_stmt, clean_do_while_stmt, clean_for_stmt, clean_call, clean_index, clean_member, clean_postfix_op, clean_function, clean_declaration, clean_switch_stmt, clean_label, clean_await_expr, clean_this, clean_debugger, clean_break_stmt, clean_continue_stmt, clean_throw_stmt, clean_try_stmt, clean_return_stmt, clean_import_stmt, clean_export_stmt, clean_empty]; done)
    | (simp_all only [clean_none, clean_some, clean_nil, clean_cons, clean_append, clean_pair, clean_text, clean_param, clean_case, clean_texts, clean_text_opt, and_true, true_and, and_self, implies_true, clean_number, clean_string, clean_boolean, clean_identifier, clean_array, clean_object, clean_spread, clean_undefined, clean_null, clean_program, clean_block, clean_binary, clean_unary, clean_assignment, clean_ternary, clean_if_stmt, clean_while_stmt, clean_do_while_stmt, clean_for_stmt, clean_call, clean_index, clean_member, clean_postfix_op, clean_function, clean_declaration, clean_switch_stmt, clean_label, clean_await_expr, clean_this, clean_debugger, clean_break_stmt, clean_continue_stmt, clean_throw_stmt, clean_try_stmt, clean_return_stmt, clean_import_stmt, clean_export_stmt, clean_empty]; done)
    | simp only [Bool.not_true, Bool.not_false, Bool.false_eq_true, if_false, if_true, eq_self_iff_true, ne_eq, not_true_eq_false, not_false_eq_true, Option.isNone_none, Option.isNone_some, and_true, true_and, and_false, false_and]

theorem parse_identifier_clean {p : parser_t} :
    (parse_identifier).ensures (fun a _ => Clean.clean a) p := by
  unfold parse_identifier
  try simp only []
  repeat' first
    | with_reducible exact ensures_stop _ _ _
    | with_reducible refine ensures_bind ?_
    | with_reducible refine ensures_pure ?_
    | with_reducible refine clean_advance (fun _ _ => ?_)
    | with_reducible refine clean_current (fun _ _ => ?_)
    | with_reducible refine clean_previous (fun _ _ => ?_)
    | with_reducible refine clean_current_type (fun _ _ => ?_)
    | with_reducible refine clean_peek (fun _ _ => ?_)
    | with_reducible refine clean_check _ (fun _ _ => ?_)
    | with_reducible refine clean_match _ (fun _ _ => ?_)
    | with_reducible refine clean_match_any _ (fun _ _ => ?_)
    | with_reducible refine clean_report _ (fun _ _ => ?_)
    | with_reducible refine clean_PARSER_ERROR _ (fun _ _ => ?_)
    | with_reducible refine clean_ERROR _ (fun _ _ => ?_)
    | with_reducible refine ensures_ite (fun _ => ?_) (fun _ => ?_)
    | split
    | (simp only [clean_none, clean_some, clean_nil, clean_cons, clean_append, clean_pair, clean_text, clean_param, clean_case, clean_texts, clean_text_opt, and_true, true_and, and_self, implies_true, clean_number, clean_string, clean_boolean, clean_identifier, clean_array, clean_object, clean_spread, clean_undefined, clean_null, clean_program, clean_block, clean_binary, clean_unary, clean_assignment, clean_ternary, clean_if_stmt, clean_while_stmt, clean_do_while_stmt, clean_for_stmt, clean_call, clean_index, clean_member, clean_postfix_op, clean_function, clean_declaration, clean_switch_stmt, clean_label, clean_await_expr, clean_this, clean_debugger, clean_break_stmt, clean_continue_stmt, clean_throw_stmt, clean_try_stmt, clean_return_stmt, clean_import_stmt, clean_export_stmt, clean_empty]; done)
    | (simp_all only [clean_none, clean_some, clean_nil, clean_cons, clean_append, clean_pair, clean_text, clean_param, clean_case, clean_texts, clean_text_opt, and_true, true_and, and_self, implies_true, clean_number, clean_string, clean_boolean, clean_identifier, clean_array, clean_object, clean_spread, clean_undefined, clean_null, clean_program, clean_block, clean_binary, clean_unary, clean_assignment, clean_ternary, clean_if_stmt, clean_while_stmt, clean_do_while_stmt, clean_for_stmt, clean_call, clean_index, clean_member, clean_postfix_op, clean_function, clean_declaration, clean_switch_stmt, clean_label, clean_await_expr, clean_this, clean_debugger, clean_break_stmt, clean_continue_stmt, clean_throw_stmt, clean_try_stmt, clean_return_stmt, clean_import_stmt, clean_export_stmt, clean_empty]; done)
    | simp only [Bool.not_true, Bool.not_false, Bool.false_eq_true, if_false, if_true, eq_self_iff_true, ne_eq, not_true_eq_false, not_false_eq_true, Option.isNone_none, Option.isNone_some, and_true, true_and, and_false, false_and]

theorem parse_undefined_clean {p : parser_t} :
    (parse_undefined).ensures (fun a _ => Clean.clean a) p := by
  unfold parse_undefined
  try simp only []
  repeat' first
    | with_reducible exact ensures_stop _ _ _
    | with_reducible refine ensures_bind ?_
    | with_reducible refine ensures_pure ?_
    | with_reducible refine clean_advance (fun _ _ => ?_)
    | with_reducible refine clean_current (fun _ _ => ?_)
    | with_reducible refine clean_previous (fun _ _ => ?_)
    | with_reducible refine clean_current_type (fun _ _ => ?_)
    | with_reducible refine clean_peek (fun _ _ => ?_)
    | with_reducible refine clean_check _ (fun _ _ => ?_)
    | with_reducible refine clean_match _ (fun _ _ => ?_)
    | with_reducible refine clean_match_any _ (fun _ _ => ?_)
    | with_reducible refine clean_report _ (fun _ _ => ?_)
    | with_reducible refine clean_PARSER_ERROR _ (fun _ _ => ?_)
    | with_reducible refine clean_ERROR _ (fun _ _ => ?_)
    | with_reducible refine ensures_ite (fun _ => ?_) (fun _ => ?_)
    | split
    | (simp only [clean_none, clean_some, clean_nil, clean_cons, clean_append, clean_pair, clean_text, clean_param, clean_case, clean_texts, clean_text_opt, and_true, true_and, and_self, implies_true, clean_number, clean_string, clean_boolean, clean_identifier, clean_array, clean_object, clean_spread, clean_undefined, clean_null, clean_program, clean_block, clean_binary, clean_unary, clean_assignment, clean_ternary, clean_if_stmt, clean_while_stmt, clean_do_while_stmt, clean_for_stmt, clean_call, clean_index, clean_member, clean_postfix_op, clean_function, clean_declaration, clean_switch_stmt, clean_label, clean_await_expr, clean_this, clean_debugger, clean_break_stmt, clean_continue_stmt, clean_throw_stmt, clean_try_stmt, clean_return_stmt, clean_import_stmt, clean_export_stmt, clean_empty]; done)
    | (simp_all only [clean_none, clean_some, clean_nil, clean_cons, clean_append, clean_pair, clean_text, clean_param, clean_case, clean_texts, clean_text_opt, and_true, true_and, and_self, implies_true, clean_number, clean_string, clean_boolean, clean_identifier, clean_array, clean_object, clean_spread, clean_undefined, clean_null, clean_program, clean_block, clean_binary, clean_unary, clean_assignment, clean_ternary, clean_if_stmt, clean_while_stmt, clean_do_while_stmt, clean_for_stmt, clean_call, clean_index, clean_member, clean_postfix_op, clean_function, clean_declaration, clean_switch_stmt, clean_label, clean_await_expr, clean_this, clean_debugger, clean_break_stmt, clean_continue_stmt, clean_throw_stmt, clean_try_stmt, clean_return_stmt, clean_import_stmt, clean_export_stmt, clean_empty]; done)
    | simp only [Bool.not_true, Bool.not_false, Bool.false_eq_true, if_false, if_true, eq_self_iff_true, ne_eq, not_true_eq_false, not_false_eq_true, Option.isNone_none, Option.isNone_some, and_true, true_and, and_false, false_and]

theorem parse_null_clean {p : parser_t} :
    (parse_null).ensures (fun a _ => Clean.clean a) p := by
  unfold parse_null
  try simp only []
  repeat' first
    | with_reducible exact ensures_stop _ _ _
    | with_reducible refine ensures_bind ?_
    | with_reducible refine ensures_pure ?_
    | with_reducible refine clean_advance (fun _ _ => ?_)
    | with_reducible refine clean_current (fun _ _ => ?_)
    | with_reducible refine clean_previous (fun _ _ => ?_)
    | with_reducible refine clean_current_type (fun _ _ => ?_)
    | with_reducible refine clean_peek (fun _ _ => ?_)
    | with_reducible refine clean_check _ (fun _ _ => ?_)
    | with_reducible refine clean_match _ (fun _ _ => ?_)
    | with_reducible refine clean_match_any _ (fun _ _ => ?_)
    | with_reducible refine clean_report _ (fun _ _ => ?_)
    | with_reducible refine clean_PARSER_ERROR _ (fun _ _ => ?_)
    | with_reducible refine clean_ERROR _ (fun _ _ => ?_)
    | with_reducible refine ensures_ite (fun _ => ?_) (fun _ => ?_)
    | split
    | (simp only [clean_none, clean_some, clean_nil, clean_cons, clean_append, clean_pair, clean_text, clean_param, clean_case, clean_texts, clean_text_opt, and_true, true_and, and_self, implies_true, clean_number, clean_string, clean_boolean, clean_identifier, clean_array, clean_object, clean_spread, clean_undefined, clean_null, clean_program, clean_block, clean_binary, clean_unary, clean_assignment, clean_ternary, clean_if_stmt, clean_while_stmt, clean_do_while_stmt, clean_for_stmt, clean_call, clean_index, clean_member, clean_postfix_op, clean_function, clean_declaration, clean_switch_stmt, clean_label, clean_await_expr, clean_this, clean_debugger, clean_break_stmt, clean_continue_stmt, clean_throw_stmt, clean_try_stmt, clean_return_stmt, clean_import_stmt, clean_export_stmt, clean_empty]; done)
    | (simp_all only [clean_none, clean_some, clean_nil, clean_cons, clean_append, clean_pair, clean_text, clean_param, clean_case, clean_texts, clean_text_opt, and_true, true_and, and_self, implies_true, clean_number, clean_string, clean_boolean, clean_identifier, clean_array, clean_object, clean_spread, clean_undefined, clean_null, clean_program, clean_block, clean_binary, clean_unary, clean_assignment, clean_ternary, clean_if_stmt, clean_while_stmt, clean_do_while_stmt, clean_for_stmt, clean_call, clean_index, clean_member, clean_postfix_op, clean_function, clean_declaration, clean_switch_stmt, clean_label, clean_await_expr, clean_this, clean_debugger, clean_break_stmt, clean_continue_stmt, clean_throw_stmt, clean_try_stmt, clean_return_stmt, clean_import_stmt, clean_export_stmt, clean_empty]; done)
    | simp only [Bool.not_true, Bool.not_false, Bool.false_eq_true, if_false, if_true, eq_self_iff_true, ne_eq, not_true_eq_false, not_false_eq_true, Option.isNone_none, Option.isNone_some, and_true, true_and, and_false, false_and]

theorem parse_spread_clean (rec : parse_rec) (hrec : rec_clean rec) {p : parser_t} :
    (parse_spread rec).ensures (fun a _ => Clean.clean a) p := by
  unfold parse_spread
  try simp only []
  repeat' first
    | with_reducible exact ensures_stop _ _ _
    | with_reducible refine ensures_bind ?_
    | with_reducible refine ensures_pure ?_
    | with_reducible refine rec_clean_apply hrec _
    | with_reducible refine ensures_mono (rec_clean_apply hrec _) (fun _ _ _ => ?_)
    | with_reducible refine clean_advance (fun _ _ => ?_)
    | with_reducible refine clean_current (fun _ _ => ?_)
    | with_reducible refine clean_previous (fun _ _ => ?_)
    | with_reducible refine clean_current_type (fun _ _ => ?_)
    | with_reducible refine clean_peek (fun _ _ => ?_)
    | with_reducible refine clean_check _ (fun _ _ => ?_)
    | with_reducible refine clean_match _ (fun _ _ => ?_)
    | with_reducible refine clean_match_any _ (fun _ _ => ?_)
    | with_reducible refine clean_report _ (fun _ _ => ?_)
    | with_reducible refine clean_PARSER_ERROR _ (fun _ _ => ?_)
    | with_reducible refine clean_ERROR _ (fun _ _ => ?_)
    | with_reducible refine ensures_ite (fun _ => ?_) (fun _ => ?_)
    | split
    | (simp only [clean_none, clean_some, clean_nil, clean_cons, clean_append, clean_pair, clean_text, clean_param, clean_case, clean_texts, clean_text_opt, and_true, true_and, and_self, implies_true, clean_number, clean_string, clean_boolean, clean_identifier, clean_array, clean_object, clean_spread, clean_undefined, clean_null, clean_program, clean_block, clean_binary, clean_unary, clean_assignment, clean_ternary, clean_if_stmt, clean_while_stmt, clean_do_while_stmt, clean_for_stmt, clean_call, clean_index, clean_member, clean_postfix_op, clean_function, clean_declaration, clean_switch_stmt, clean_label, clean_await_expr, clean_this, clean_debugger, clean_break_stmt, clean_continue_stmt, clean_throw_stmt, clean_try_stmt, clean_return_stmt, clean_import_stmt, clean_export_stmt, clean_empty]; done)
    | (simp_all only [clean_none, clean_some, clean_nil, clean_cons, clean_append, clean_pair, clean_text, clean_param, clean_case, clean_texts, clean_text_opt, and_true, true_and, and_self, implies_true, clean_number, clean_string, clean_boolean, clean_identifier, clean_array, clean_object, clean_spread, clean_undefined, clean_null, clean_program, clean_block, clean_binary, clean_unary, clean_assignment, clean_ternary, clean_if_stmt, clean_while_stmt, clean_do_while_stmt, clean_for_stmt, clean_call, clean_index, clean_member, clean_postfix_op, clean_function, clean_declaration, clean_switch_stmt, clean_label, clean_await_expr, clean_this, clean_debugger, clean_break_stmt, clean_continue_stmt, clean_throw_stmt, clean_try_stmt, clean_return_stmt, clean_import_stmt, clean_export_stmt, clean_empty]; done)
    | simp only [Bool.not_true, Bool.not_false, Bool.false_eq_true, if_false, if_true, eq_self_iff_true, ne_eq, not_true_eq_false, not_false_eq_true, Option.isNone_none, Option.isNone_some, and_true, true_and, and_false, false_and]

theorem parse_array_loop_clean (rec : parse_rec) (hrec : rec_clean rec) (n : Nat) :
    ∀ (elements : List Node) {p : parser_t}, Clean.clean elements → 
      (parse_array_loop rec n elements).ensures (fun a _ => Clean.clean a) p := by
  induction n with
  | zero =>
    intro elements p h0
    exact ensures_stop _ _ _
  | succ n ih =>
    intro elements p h0
    unfold parse_array_loop
    try simp only []
    repeat' first
      | with_reducible exact ensures_stop _ _ _
      | with_reducible refine ensures_bind ?_
      | with_reducible refine ensures_pure ?_
      | with_reducible refine ih _ ?_
      | with_reducible refine rec_clean_apply hrec _
      | with_reducible refine ensures_mono (ih _ ?_) (fun _ _ _ => ?_)
      | with_reducible refine ensures_mono (rec_clean_apply hrec _) (fun _ _ _ => ?_)
      | with_reducible refine clean_advance (fun _ _ => ?_)
      | with_reducible refine clean_current (fun _ _ => ?_)
      | with_reducible refine clean_previous (fun _ _ => ?_)
      | with_reducible refine clean_current_type (fun _ _ => ?_)
      | with_reducible refine clean_peek (fun _ _ => ?_)
      | with_reducible refine clean_check _ (fun _ _ => ?_)
      | with_reducible refine clean_match _ (fun _ _ => ?_)
      | with_reducible refine clean_match_any _ (fun _ _ => ?_)
      | with_reducible refine clean_report _ (fun _ _ => ?_)
      | with_reducible refine clean_PARSER_ERROR _ (fun _ _ => ?_)
      | with_reducible refine clean_ERROR _ (fun _ _ => ?_)
      | with_reducible refine ensures_ite (fun _ => ?_) (fun _ => ?_)
      | split
      | (simp only [clean_none, clean_some, clean_nil, clean_cons, clean_append, clean_pair, clean_text, clean_param, clean_case, clean_texts, clean_text_opt, and_true, true_and, and_self, implies_true, clean_number, clean_string, clean_boolean, clean_identifier, clean_array, clean_object, clean_spread, clean_undefined, clean_null, clean_program, clean_block, clean_binary, clean_unary, clean_assignment, clean_ternary, clean_if_stmt, clean_while_stmt, clean_do_while_stmt, clean_for_stmt, clean_call, clean_index, clean_member, clean_postfix_op, clean_function, clean_declaration, clean_switch_stmt, clean_label, clean_await_expr, clean_this, clean_debugger, clean_break_stmt, clean_continue_stmt, clean_throw_stmt, clean_try_stmt, clean_return_stmt, clean_import_stmt, clean_export_stmt, clean_empty]; done)
      | (simp_all only [clean_none, clean_some, clean_nil, clean_cons, clean_append, clean_pair, clean_text, clean_param, clean_case, clean_texts, clean_text_opt, and_true, true_and, and_self, implies_true, clean_number, clean_string, clean_boolean, clean_identifier, clean_array, clean_object, clean_spread, clean_undefined, clean_null, clean_program, clean_block, clean_binary, clean_unary, clean_assignment, clean_ternary, clean_if_stmt, clean_while_stmt, clean_do_while_stmt, clean_for_stmt, clean_call, clean_index, clean_member, clean_postfix_op, clean_function, clean_declaration, clean_switch_stmt, clean_label, clean_await_expr, clean_this, clean_debugger, clean_break_stmt, clean_continue_stmt, clean_throw_stmt, clean_try_stmt, clean_return_stmt, clean_import_stmt, clean_export_stmt, clean_empty]; done)
      | simp only [Bool.not_true, Bool.not_false, Bool.false_eq_true, if_false, if_true, eq_self_iff_true, ne_eq, not_true_eq_false, not_false_eq_true, Option.isNone_none, Option.isNone_some, and_true, true_and, and_false, false_and]

theorem parse_array_clean (fuel : Nat) (rec : parse_rec) (hrec : rec_clean rec) {p : parser_t} :
    (parse_array fuel rec).ensures (fun a _ => Clean.clean a) p := by
  unfold parse_array
  try simp only []
  repeat' first
    | with_reducible exact ensures_stop _ _ _
    | with_reducible refine ensures_bind ?_
    | with_reducible refine ensures_pure ?_
    | with_reducible refine parse_array_loop_clean rec hrec _ _ ?_
    | with_reducible refine ensures_mono (parse_array_loop_clean rec hrec _ _ ?_) (fun _ _ _ => ?_)
    | with_reducible refine clean_advance (fun _ _ => ?_)
    | with_reducible refine clean_current (fun _ _ => ?_)
    | with_reducible refine clean_previous (fun _ _ => ?_)
    | with_reducible refine clean_current_type (fun _ _ => ?_)
    | with_reducible refine clean_peek (fun _ _ => ?_)
    | with_reducible refine clean_check _ (fun _ _ => ?_)
    | with_reducible refine clean_match _ (fun _ _ => ?_)
    | with_reducible refine clean_match_any _ (fun _ _ => ?_)
    | with_reducible refine clean_report _ (fun _ _ => ?_)
    | with_reducible refine clean_PARSER_ERROR _ (fun _ _ => ?_)
    | with_reducible refine clean_ERROR _ (fun _ _ => ?_)
    | with_reducible refine ensures_ite (fun _ => ?_) (fun _ => ?_)
    | split
    | (simp only [clean_none, clean_some, clean_nil, clean_cons, clean_append, clean_pair, clean_text, clean_param, clean_case, clean_texts, clean_text_opt, and_true, true_and, and_self, implies_true, clean_number, clean_string, clean_boolean, clean_identifier, clean_array, clean_object, clean_spread, clean_undefined, clean_null, clean_program, clean_block, clean_binary, clean_unary, clean_assignment, clean_ternary, clean_if_stmt, clean_while_stmt, clean_do_while_stmt, clean_for_stmt, clean_call, clean_index, clean_member, clean_postfix_op, clean_function, clean_declaration, clean_switch_stmt, clean_label, clean_await_expr, clean_this, clean_debugger, clean_break_stmt, clean_continue_stmt, clean_throw_stmt, clean_try_stmt, clean_return_stmt, clean_import_stmt, clean_export_stmt, clean_empty]; done)
    | (simp_all only [clean_none, clean_some, clean_nil, clean_cons, clean_append, clean_pair, clean_text, clean_param, clean_case, clean_texts, clean_text_opt, and_true, true_and, and_self, implies_true, clean_number, clean_string, clean_boolean, clean_identifier, clean_array, clean_object, clean_spread, clean_undefined, clean_null, clean_program, clean_block, clean_binary, clean_unary, clean_assignment, clean_ternary, clean_if_stmt, clean_while_stmt, clean_do_while_stmt, clean_for_stmt, clean_call, clean_index, clean_member, clean_postfix_op, clean_function, clean_declaration, clean_switch_stmt, clean_label, clean_await_expr, clean_this, clean_debugger, clean_break_stmt, clean_continue_stmt, clean_throw_stmt, clean_try_stmt, clean_return_stmt, clean_import_stmt, clean_export_stmt, clean_empty]; done)
    | simp only [Bool.not_true, Bool.not_false, Bool.false_eq_true, if_false, if_true, eq_self_iff_true, ne_eq, not_true_eq_false, not_false_eq_true, Option.isNone_none, Option.isNone_some, and_true, true_and, and_false, false_and]

theorem parse_object_loop_clean (rec : parse_rec) (hrec : rec_clean rec) (n : Nat) :
    ∀ (keys : List (Option String)) (values : List Node) {p : parser_t}, Clean.clean values → 
      (parse_object_loop rec n keys values).ensures (fun a _ => Clean.clean a) p := by
  induction n with
  | zero =>
    intro keys values p h0
    exact ensures_stop _ _ _
  | succ n ih =>
    intro keys values p h0
    unfold parse_object_loop
    try simp only []
    repeat' first
      | with_reducible exact ensures_stop _ _ _
      | with_reducible refine ensures_bind ?_
      | with_reducible refine ensures_pure ?_
      | with_reducible refine ih _ _ ?_
      | with_reducible refine rec_clean_apply hrec _
      | with_reducible refine parse_spread_clean rec hrec
      | with_reducible refine ensures_mono (ih _ _ ?_) (fun _ _ _ => ?_)
      | with_reducible refine ensures_mono (rec_clean_apply hrec _) (fun _ _ _ => ?_)
      | with_reducible refine ensures_mono (parse_spread_clean rec hrec) (fun _ _ _ => ?_)
      | with_reducible refine clean_advance (fun _ _ => ?_)
      | with_reducible refine clean_current (fun _ _ => ?_)
      | with_reducible refine clean_previous (fun _ _ => ?_)
      | with_reducible refine clean_current_type (fun _ _ => ?_)
      | with_reducible refine clean_peek (fun _ _ => ?_)
      | with_reducible refine clean_check _ (fun _ _ => ?_)
      | with_reducible refine clean_match _ (fun _ _ => ?_)
      | with_reducible refine clean_match_any _ (fun _ _ => ?_)
      | with_reducible refine clean_report _ (fun _ _ => ?_)
      | with_reducible refine clean_PARSER_ERROR _ (fun _ _ => ?_)
      | with_reducible refine clean_ERROR _ (fun _ _ => ?_)
      | with_reducible refine ensures_ite (fun _ => ?_) (fun _ => ?_)
      | split
      | (simp only [clean_none, clean_some, clean_nil, clean_cons, clean_append, clean_pair, clean_text, clean_param, clean_case, clean_texts, clean_text_opt, and_true, true_and, and_self, implies_true, clean_number, clean_string, clean_boolean, clean_identifier, clean_array, clean_object, clean_spread, clean_undefined, clean_null, clean_program, clean_block, clean_binary, clean_unary, clean_assignment, clean_ternary, clean_if_stmt, clean_while_stmt, clean_do_while_stmt, clean_for_stmt, clean_call, clean_index, clean_member, clean_postfix_op, clean_function, clean_declaration, clean_switch_stmt, clean_label, clean_await_expr, clean_this, clean_debugger, clean_break_stmt, clean_continue_stmt, clean_throw_stmt, clean_try_stmt, clean_return_stmt, clean_import_stmt, clean_export_stmt, clean_empty]; done)
      | (simp_all only [clean_none, clean_some, clean_nil, clean_cons, clean_append, clean_pair, clean_text, clean_param, clean_case, clean_texts, clean_text_opt, and_true, true_and, and_self, implies_true, clean_number, clean_string, clean_boolean, clean_identifier, clean_array, clean_object, clean_spread, clean_undefined, clean_null, clean_program, clean_block, clean_binary, clean_unary, clean_assignment, clean_ternary, clean_if_stmt, clean_while_stmt, clean_do_while_stmt, clean_for_stmt, clean_call, clean_index, clean_member, clean_postfix_op, clean_function, clean_declaration, clean_switch_stmt, clean_label, clean_await_expr, clean_this, clean_debugger, clean_break_stmt, clean_continue_stmt, clean_throw_stmt, clean_try_stmt, clean_return_stmt, clean_import_stmt, clean_export_stmt, clean_empty]; done)
      | simp only [Bool.not_true, Bool.not_false, Bool.false_eq_true, if_false, if_true, eq_self_iff_true, ne_eq, not_true_eq_false, not_false_eq_true, Option.isNone_none, Option.isNone_some, and_true, true_and, and_false, false_and]

theorem parse_object_clean (fuel : Nat) (rec : parse_rec) (hrec : rec_clean rec) {p : parser_t} :
    (parse_object fuel rec).ensures (fun a _ => Clean.clean a) p := by
  unfold parse_object
  try simp only []
  repeat' first
    | with_reducible exact ensures_stop _ _ _
    | with_reducible refine ensures_bind ?_
    | with_reducible refine ensures_pure ?_
    | with_reducible refine parse_object_loop_clean rec hrec _ _ _ ?_
    | with_reducible refine ensures_mono (parse_object_loop_clean rec hrec _ _ _ ?_) (fun _ _ _ => ?_)
    | with_reducible refine clean_advance (fun _ _ => ?_)
    | with_reducible refine clean_current (fun _ _ => ?_)
    | with_reducible refine clean_previous (fun _ _ => ?_)
    | with_reducible refine clean_current_type (fun _ _ => ?_)
    | with_reducible refine clean_peek (fun _ _ => ?_)
    | with_reducible refine clean_check _ (fun _ _ => ?_)
    | with_reducible refine clean_match _ (fun _ _ => ?_)
    | with_reducible refine clean_match_any _ (fun _ _ => ?_)
    | with_reducible refine clean_report _ (fun _ _ => ?_)
    | with_reducible refine clean_PARSER_ERROR _ (fun _ _ => ?_)
    | with_reducible refine clean_ERROR _ (fun _ _ => ?_)
    | with_reducible refine ensures_ite (fun _ => ?_) (fun _ => ?_)
    | split
    | (simp only [clean_none, clean_some, clean_nil, clean_cons, clean_append, clean_pair, clean_text, clean_param, clean_case, clean_texts, clean_text_opt, and_true, true_and, and_self, implies_true, clean_number, clean_string, clean_boolean, clean_identifier, clean_array, clean_object, clean_spread, clean_undefined, clean_null, clean_program, clean_block, clean_binary, clean_unary, clean_assignment, clean_ternary, clean_if_stmt, clean_while_stmt, clean_do_while_stmt, clean_for_stmt, clean_call, clean_index, clean_member, clean_postfix_op, clean_function, clean_declaration, clean_switch_stmt, clean_label, clean_await_expr, clean_this, clean_debugger, clean_break_stmt, clean_continue_stmt, clean_throw_stmt, clean_try_stmt, clean_return_stmt, clean_import_stmt, clean_export_stmt, clean_empty]; done)
    | (simp_all only [clean_none, clean_some, clean_nil, clean_cons, clean_append, clean_pair, clean_text, clean_param, clean_case, clean_texts, clean_text_opt, and_true, true_and, and_self, implies_true, clean_number, clean_string, clean_boolean, clean_identifier, clean_array, clean_object, clean_spread, clean_undefined, clean_null, clean_program, clean_block, clean_binary, clean_unary, clean_assignment, clean_ternary, clean_if_stmt, clean_while_stmt, clean_do_while_stmt, clean_for_stmt, clean_call, clean_index, clean_member, clean_postfix_op, clean_function, clean_declaration, clean_switch_stmt, clean_label, clean_await_expr, clean_this, clean_debugger, clean_break_stmt, clean_continue_stmt, clean_throw_stmt, clean_try_stmt, clean_return_stmt, clean_import_stmt, clean_export_stmt, clean_empty]; done)
    | simp only [Bool.not_true, Bool.not_false, Bool.false_eq_true, if_false, if_true, eq_self_iff_true, ne_eq, not_true_eq_false, not_false_eq_true, Option.isNone_none, Option.isNone_some, and_true, true_and, and_false, false_and]

theorem parse_function_params_clean (rec : parse_rec) (hrec : rec_clean rec) (n : Nat) :
    ∀ (params : List Param) {p : parser_t}, Clean.clean params → 
      (parse_function_params rec n params).ensures (fun a _ => Clean.clean a) p := by
  induction n with
  | zero =>
    intro params p h0
    exact ensures_stop _ _ _
  | succ n ih =>
    intro params p h0
    unfold parse_function_params
    try simp only []
    repeat' first
      | with_reducible exact ensures_stop _ _ _
      | with_reducible refine ensures_bind ?_
      | with_reducible refine ensures_pure ?_
      | with_reducible refine ih _ ?_
      | with_reducible refine rec_clean_apply hrec _
      | with_reducible refine ensures_mono (ih _ ?_) (fun _ _ _ => ?_)
      | with_reducible refine ensures_mono (rec_clean_apply hrec _) (fun _ _ _ => ?_)
      | with_reducible refine clean_advance (fun _ _ => ?_)
      | with_reducible refine clean_current (fun _ _ => ?_)
      | with_reducible refine clean_previous (fun _ _ => ?_)
      | with_reducible refine clean_current_type (fun _ _ => ?_)
      | with_reducible refine clean_peek (fun _ _ => ?_)
      | with_reducible refine clean_check _ (fun _ _ => ?_)
      | with_reducible refine clean_match _ (fun _ _ => ?_)
      | with_reducible refine clean_match_any _ (fun _ _ => ?_)
      | with_reducible refine clean_report _ (fun _ _ => ?_)
      | with_reducible refine clean_PARSER_ERROR _ (fun _ _ => ?_)
      | with_reducible refine clean_ERROR _ (fun _ _ => ?_)
      | with_reducible refine ensures_ite (fun _ => ?_) (fun _ => ?_)
      | split
      | (simp only [clean_none, clean_some, clean_nil, clean_cons, clean_append, clean_pair, clean_text, clean_param, clean_case, clean_texts, clean_text_opt, and_true, true_and, and_self, implies_true, clean_number, clean_string, clean_boolean, clean_identifier, clean_array, clean_object, clean_spread, clean_undefined, clean_null, clean_program, clean_block, clean_binary, clean_unary, clean_assignment, clean_ternary, clean_if_stmt, clean_while_stmt, clean_do_while_stmt, clean_for_stmt, clean_call, clean_index, clean_member, clean_postfix_op, clean_function, clean_declaration, clean_switch_stmt, clean_label, clean_await_expr, clean_this, clean_debugger, clean_break_stmt, clean_continue_stmt, clean_throw_stmt, clean_try_stmt, clean_return_stmt, clean_import_stmt, clean_export_stmt, clean_empty]; done)
      | (simp_all only [clean_none, clean_some, clean_nil, clean_cons, clean_append, clean_pair, clean_text, clean_param, clean_case, clean_texts, clean_text_opt, and_true, true_and, and_self, implies_true, clean_number, clean_string, clean_boolean, clean_identifier, clean_array, clean_object, clean_spread, clean_undefined, clean_null, clean_program, clean_block, clean_binary, clean_unary, clean_assignment, clean_ternary, clean_if_stmt, clean_while_stmt, clean_do_while_stmt, clean_for_stmt, clean_call, clean_index, clean_member, clean_postfix_op, clean_function, clean_declaration, clean_switch_stmt, clean_label, clean_await_expr, clean_this, clean_debugger, clean_break_stmt, clean_continue_stmt, clean_throw_stmt, clean_try_stmt, clean_return_stmt, clean_import_stmt, clean_export_stmt, clean_empty]; done)
      | simp only [Bool.not_true, Bool.not_false, Bool.false_eq_true, if_false, if_true, eq_self_iff_true, ne_eq, not_true_eq_false, not_false_eq_true, Option.isNone_none, Option.isNone_some, and_true, true_and, and_false, false_and]

theorem parse_function_clean (fuel : Nat) (rec : parse_rec) (hrec : rec_clean rec) {p : parser_t} :
    (parse_function fuel rec).ensures (fun a _ => Clean.clean a) p := by
  unfold parse_function
  try simp only []
  repeat' first
    | with_reducible exact ensures_stop _ _ _
    | with_reducible refine ensures_bind ?_
    | with_reducible refine ensures_pure ?_
    | with_reducible refine rec_clean_apply hrec _
    | with_reducible refine parse_function_params_clean rec hrec _ _ ?_
    | with_reducible refine ensures_mono (rec_clean_apply hrec _) (fun _ _ _ => ?_)
    | with_reducible refine ensures_mono (parse_function_params_clean rec hrec _ _ ?_) (fun _ _ _ => ?_)
    | with_reducible refine clean_advance (fun _ _ => ?_)
    | with_reducible refine clean_current (fun _ _ => ?_)
    | with_reducible refine clean_previous (fun _ _ => ?_)
    | with_reducible refine clean_current_type (fun _ _ => ?_)
    | with_reducible refine clean_peek (fun _ _ => ?_)
    | with_reducible refine clean_check _ (fun _ _ => ?_)
    | with_reducible refine clean_match _ (fun _ _ => ?_)
    | with_reducible refine clean_match_any _ (fun _ _ => ?_)
    | with_reducible refine clean_report _ (fun _ _ => ?_)
    | with_reducible refine clean_PARSER_ERROR _ (fun _ _ => ?_)
    | with_reducible refine clean_ERROR _ (fun _ _ => ?_)
    | with_reducible refine ensures_ite (fun _ => ?_) (fun _ => ?_)
    | split
    | (simp only [clean_none, clean_some, clean_nil, clean_cons, clean_append, clean_pair, clean_text, clean_param, clean_case, clean_texts, clean_text_opt, and_true, true_and, and_self, implies_true, clean_number, clean_string, clean_boolean, clean_identifier, clean_array, clean_object, clean_spread, clean_undefined, clean_null, clean_program, clean_block, clean_binary, clean_unary, clean_assignment, clean_ternary, clean_if_stmt, clean_while_stmt, clean_do_while_stmt, clean_for_stmt, clean_call, clean_index, clean_member, clean_postfix_op, clean_function, clean_declaration, clean_switch_stmt, clean_label, clean_await_expr, clean_this, clean_debugger, clean_break_stmt, clean_continue_stmt, clean_throw_stmt, clean_try_stmt, clean_return_stmt, clean_import_stmt, clean_export_stmt, clean_empty]; done)
    | (simp_all only [clean_none, clean_some, clean_nil, clean_cons, clean_append, clean_pair, clean_text, clean_param, clean_case, clean_texts, clean_text_opt, and_true, true_and, and_self, implies_true, clean_number, clean_string, clean_boolean, clean_identifier, clean_array, clean_object, clean_spread, clean_undefined, clean_null, clean_program, clean_block, clean_binary, clean_unary, clean_assignment, clean_ternary, clean_if_stmt, clean_while_stmt, clean_do_while_stmt, clean_for_stmt, clean_call, clean_index, clean_member, clean_postfix_op, clean_function, clean_declaration, clean_switch_stmt, clean_label, clean_await_expr, clean_this, clean_debugger, clean_break_stmt, clean_continue_stmt, clean_throw_stmt, clean_try_stmt, clean_return_stmt, clean_import_stmt, clean_export_stmt, clean_empty]; done)
    | simp only [Bool.not_true, Bool.not_false, Bool.false_eq_true, if_false, if_true, eq_self_iff_true, ne_eq, not_true_eq_false, not_false_eq_true, Option.isNone_none, Option.isNone_some, and_true, true_and, and_false, false_and]

theorem parse_primary_clean (fuel : Nat) (rec : parse_rec) (hrec : rec_clean rec) {p : parser_t} :
    (parse_primary fuel rec).ensures (fun a _ => Clean.clean a) p := by
  unfold parse_primary
  try simp only []
  repeat' first
    | with_reducible exact ensures_stop _ _ _
    | with_reducible refine ensures_bind ?_
    | with_reducible refine ensures_pure ?_
    | with_reducible refine rec_clean_apply hrec _
    | with_reducible refine parse_number_clean
    | with_reducible refine parse_string_clean
    | with_reducible refine parse_bool_clean
    | with_reducible refine parse_identifier_clean
    | with_reducible refine parse_function_clean fuel rec hrec
    | with_reducible refine parse_null_clean
    | with_reducible refine parse_undefined_clean
    | with_reducible refine parse_spread_clean rec hrec
    | with_reducible refine parse_array_clean fuel rec hrec
    | with_reducible refine parse_object_clean fuel rec hrec
    | with_reducible refine ensures_mono (rec_clean_apply hrec _) (fun _ _ _ => ?_)
    | with_reducible refine ensures_mono (parse_number_clean) (fun _ _ _ => ?_)
    | with_reducible refine ensures_mono (parse_string_clean) (fun _ _ _ => ?_)
    | with_reducible refine ensures_mono (parse_bool_clean) (fun _ _ _ => ?_)
    | with_reducible refine ensures_mono (parse_identifier_clean) (fun _ _ _ => ?_)
    | with_reducible refine ensures_mono (parse_function_clean fuel rec hrec) (fun _ _ _ => ?_)
    | with_reducible refine ensures_mono (parse_null_clean) (fun _ _ _ => ?_)
    | with_reducible refine ensures_mono (parse_undefined_clean) (fun _ _ _ => ?_)
    | with_reducible refine ensures_mono (parse_spread_clean rec hrec) (fun _ _ _ => ?_)
    | with_reducible refine ensures_mono (parse_array_clean fuel rec hrec) (fun _ _ _ => ?_)
    | with_reducible refine ensures_mono (parse_object_clean fuel rec hrec) (fun _ _ _ => ?_)
    | with_reducible refine clean_advance (fun _ _ => ?_)
    | with_reducible refine clean_current (fun _ _ => ?_)
    | with_reducible refine clean_previous (fun _ _ => ?_)
    | with_reducible refine clean_current_type (fun _ _ => ?_)
    | with_reducible refine clean_peek (fun _ _ => ?_)
    | with_reducible refine clean_check _ (fun _ _ => ?_)
    | with_reducible refine clean_match _ (fun _ _ => ?_)
    | with_reducible refine clean_match_any _ (fun _ _ => ?_)
    | with_reducible refine clean_report _ (fun _ _ => ?_)
    | with_reducible refine clean_PARSER_ERROR _ (fun _ _ => ?_)
    | with_reducible refine clean_ERROR _ (fun _ _ => ?_)
    | with_reducible refine ensures_ite (fun _ => ?_) (fun _ => ?_)
    | split
    | (simp only [clean_none, clean_some, clean_nil, clean_cons, clean_append, clean_pair, clean_text, clean_param, clean_case, clean_texts, clean_text_opt, and_true, true_and, and_self, implies_true, clean_number, clean_string, clean_boolean, clean_identifier, clean_array, clean_object, clean_spread, clean_undefined, clean_null, clean_program, clean_block, clean_binary, clean_unary, clean_assignment, clean_ternary, clean_if_stmt, clean_while_stmt, clean_do_while_stmt, clean_for_stmt, clean_call, clean_index, clean_member, clean_postfix_op, clean_function, clean_declaration, clean_switch_stmt, clean_label, clean_await_expr, clean_this, clean_debugger, clean_break_stmt, clean_continue_stmt, clean_throw_stmt, clean_try_stmt, clean_return_stmt, clean_import_stmt, clean_export_stmt, clean_empty]; done)
    | (simp_all only [clean_none, clean_some, clean_nil, clean_cons, clean_append, clean_pair, clean_text, clean_param, clean_case, clean_texts, clean_text_opt, and_true, true_and, and_self, implies_true, clean_number, clean_string, clean_boolean, clean_identifier, clean_array, clean_object, clean_spread, clean_undefined, clean_null, clean_program, clean_block, clean_binary, clean_unary, clean_assignment, clean_ternary, clean_if_stmt, clean_while_stmt, clean_do_while_stmt, clean_for_stmt, clean_call, clean_index, clean_member, clean_postfix_op, clean_function, clean_declaration, clean_switch_stmt, clean_label, clean_await_expr, clean_this, clean_debugger, clean_break_stmt, clean_continue_stmt, clean_throw_stmt, clean_try_stmt, clean_return_stmt, clean_import_stmt, clean_export_stmt, clean_empty]; done)
    | simp only [Bool.not_true, Bool.not_false, Bool.false_eq_true, if_false, if_true, eq_self_iff_true, ne_eq, not_true_eq_false, not_false_eq_true, Option.isNone_none, Option.isNone_some, and_true, true_and, and_false, false_and]

theorem parse_call_args_clean (rec : parse_rec) (hrec : rec_clean rec) (n : Nat) :
    ∀ (args : List Node) {p : parser_t}, Clean.clean args → 
      (parse_call_args rec n args).ensures (fun a _ => Clean.clean a) p := by
  induction n with
  | zero =>
    intro args p h0
    exact ensures_stop _ _ _
  | succ n ih =>
    intro args p h0
    unfold parse_call_args
    try simp only []
    repeat' first
      | with_reducible exact ensures_stop _ _ _
      | with_reducible refine ensures_bind ?_
      | with_reducible refine ensures_pure ?_
      | with_reducible refine ih _ ?_
      | with_reducible refine rec_clean_apply hrec _
      | with_reducible refine ensures_mono (ih _ ?_) (fun _ _ _ => ?_)
      | with_reducible refine ensures_mono (rec_clean_apply hrec _) (fun _ _ _ => ?_)
      | with_reducible refine clean_advance (fun _ _ => ?_)
      | with_reducible refine clean_current (fun _ _ => ?_)
      | with_reducible refine clean_previous (fun _ _ => ?_)
      | with_reducible refine clean_current_type (fun _ _ => ?_)
      | with_reducible refine clean_peek (fun _ _ => ?_)
      | with_reducible refine clean_check _ (fun _ _ => ?_)
      | with_reducible refine clean_match _ (fun _ _ => ?_)
      | with_reducible refine clean_match_any _ (fun _ _ => ?_)
      | with_reducible refine clean_report _ (fun _ _ => ?_)
      | with_reducible refine clean_PARSER_ERROR _ (fun _ _ => ?_)
      | with_reducible refine clean_ERROR _ (fun _ _ => ?_)
      | with_reducible refine ensures_ite (fun _ => ?_) (fun _ => ?_)
      | split
      | (simp only [clean_none, clean_some, clean_nil, clean_cons, clean_append, clean_pair, clean_text, clean_param, clean_case, clean_texts, clean_text_opt, and_true, true_and, and_self, implies_true, clean_number, clean_string, clean_boolean, clean_identifier, clean_array, clean_object, clean_spread, clean_undefined, clean_null, clean_program, clean_block, clean_binary, clean_unary, clean_assignment, clean_ternary, clean_if_stmt, clean_while_stmt, clean_do_while_stmt, clean_for_stmt, clean_call, clean_index, clean_member, clean_postfix_op, clean_function, clean_declaration, clean_switch_stmt, clean_label, clean_await_expr, clean_this, clean_debugger, clean_break_stmt, clean_continue_stmt, clean_throw_stmt, clean_try_stmt, clean_return_stmt, clean_import_stmt, clean_export_stmt, clean_empty]; done)
      | (simp_all only [clean_none, clean_some, clean_nil, clean_cons, clean_append, clean_pair, clean_text, clean_param, clean_case, clean_texts, clean_text_opt, and_true, true_and, and_self, implies_true, clean_number, clean_string, clean_boolean, clean_identifier, clean_array, clean_object, clean_spread, clean_undefined, clean_null, clean_program, clean_block, clean_binary, clean_unary, clean_assignment, clean_ternary, clean_if_stmt, clean_while_stmt, clean_do_while_stmt, clean_for_stmt, clean_call, clean_index, clean_member, clean_postfix_op, clean_function, clean_declaration, clean_switch_stmt, clean_label, clean_await_expr, clean_this, clean_debugger, clean_break_stmt, clean_continue_stmt, clean_throw_stmt, clean_try_stmt, clean_return_stmt, clean_import_stmt, clean_export_stmt, clean_empty]; done)
      | simp only [Bool.not_true, Bool.not_false, Bool.false_eq_true, if_false, if_true, eq_self_iff_true, ne_eq, not_true_eq_false, not_false_eq_true, Option.isNone_none, Option.isNone_some, and_true, true_and, and_false, false_and]

theorem parse_postfix_loop_clean (rec : parse_rec) (hrec : rec_clean rec) (n : Nat) :
    ∀ (expr : Node) {p : parser_t}, Clean.clean expr → 
      (parse_postfix_loop rec n expr).ensures (fun a _ => Clean.clean a) p := by
  induction n with
  | zero =>
    intro expr p h0
    exact ensures_stop _ _ _
  | succ n ih =>
    intro expr p h0
    unfold parse_postfix_loop
    try simp only []
    repeat' first
      | with_reducible exact ensures_stop _ _ _
      | with_reducible refine ensures_bind ?_
      | with_reducible refine ensures_pure ?_
      | with_reducible refine ih _ ?_
      | with_reducible refine rec_clean_apply hrec _
      | with_reducible refine parse_call_args_clean rec hrec _ _ ?_
      | with_reducible refine parse_identifier_clean
      | with_reducible refine ensures_mono (ih _ ?_) (fun _ _ _ => ?_)
      | with_reducible refine ensures_mono (rec_clean_apply hrec _) (fun _ _ _ => ?_)
      | with_reducible refine ensures_mono (parse_call_args_clean rec hrec _ _ ?_) (fun _ _ _ => ?_)
      | with_reducible refine ensures_mono (parse_identifier_clean) (fun _ _ _ => ?_)
      | with_reducible refine clean_advance (fun _ _ => ?_)
      | with_reducible refine clean_current (fun _ _ => ?_)
      | with_reducible refine clean_previous (fun _ _ => ?_)
      | with_reducible refine clean_current_type (fun _ _ => ?_)
      | with_reducible refine clean_peek (fun _ _ => ?_)
      | with_reducible refine clean_check _ (fun _ _ => ?_)
      | with_reducible refine clean_match _ (fun _ _ => ?_)
      | with_reducible refine clean_match_any _ (fun _ _ => ?_)
      | with_reducible refine clean_report _ (fun _ _ => ?_)
      | with_reducible refine clean_PARSER_ERROR _ (fun _ _ => ?_)
      | with_reducible refine clean_ERROR _ (fun _ _ => ?_)
      | with_reducible refine ensures_ite (fun _ => ?_) (fun _ => ?_)
      | split
      | (simp only [clean_none, clean_some, clean_nil, clean_cons, clean_append, clean_pair, clean_text, clean_param, clean_case, clean_texts, clean_text_opt, and_true, true_and, and_self, implies_true, clean_number, clean_string, clean_boolean, clean_identifier, clean_array, clean_object, clean_spread, clean_undefined, clean_null, clean_program, clean_block, clean_binary, clean_unary, clean_assignment, clean_ternary, clean_if_stmt, clean_while_stmt, clean_do_while_stmt, clean_for_stmt, clean_call, clean_index, clean_member, clean_postfix_op, clean_function, clean_declaration, clean_switch_stmt, clean_label, clean_await_expr, clean_this, clean_debugger, clean_break_stmt, clean_continue_stmt, clean_throw_stmt, clean_try_stmt, clean_return_stmt, clean_import_stmt, clean_export_stmt, clean_empty]; done)
      | (simp_all only [clean_none, clean_some, clean_nil, clean_cons, clean_append, clean_pair, clean_text, clean_param, clean_case, clean_texts, clean_text_opt, and_true, true_and, and_self, implies_true, clean_number, clean_string, clean_boolean, clean_identifier, clean_array, clean_object, clean_spread, clean_undefined, clean_null, clean_program, clean_block, clean_binary, clean_unary, clean_assignment, clean_ternary, clean_if_stmt, clean_while_stmt, clean_do_while_stmt, clean_for_stmt, clean_call, clean_index, clean_member, clean_postfix_op, clean_function, clean_declaration, clean_switch_stmt, clean_label, clean_await_expr, clean_this, clean_debugger, clean_break_stmt, clean_continue_stmt, clean_throw_stmt, clean_try_stmt, clean_return_stmt, clean_import_stmt, clean_export_stmt, clean_empty]; done)
      | simp only [Bool.not_true, Bool.not_false, Bool.false_eq_true, if_false, if_true, eq_self_iff_true, ne_eq, not_true_eq_false, not_false_eq_true, Option.isNone_none, Option.isNone_some, and_true, true_and, and_false, false_and]

theorem parse_postfix_clean (fuel : Nat) (rec : parse_rec) (hrec : rec_clean rec) {p : parser_t} :
    ( parse_postfix fuel rec).ensures (fun a _ => Clean.clean a) p := by
  unfold parse_postfix
  try simp only []
  repeat' first
    | with_reducible exact ensures_stop _ _ _
    | with_reducible refine ensures_bind ?_
    | with_reducible refine ensures_pure ?_
    | with_reducible refine parse_primary_clean fuel rec hrec
    | with_reducible refine parse_postfix_loop_clean rec hrec _ _ ?_
    | with_reducible refine ensures_mono (parse_primary_clean fuel rec hrec) (fun _ _ _ => ?_)
    | with_reducible refine ensures_mono (parse_postfix_loop_clean rec hrec _ _ ?_) (fun _ _ _ => ?_)
    | with_reducible refine clean_advance (fun _ _ => ?_)
    | with_reducible refine clean_current (fun _ _ => ?_)
    | with_reducible refine clean_previous (fun _ _ => ?_)
    | with_reducible refine clean_current_type (fun _ _ => ?_)
    | with_reducible refine clean_peek (fun _ _ => ?_)
    | with_reducible refine clean_check _ (fun _ _ => ?_)
    | with_reducible refine clean_match _ (fun _ _ => ?_)
    | with_reducible refine clean_match_any _ (fun _ _ => ?_)
    | with_reducible refine clean_report _ (fun _ _ => ?_)
    | with_reducible refine clean_PARSER_ERROR _ (fun _ _ => ?_)
    | with_reducible refine clean_ERROR _ (fun _ _ => ?_)
    | with_reducible refine ensures_ite (fun _ => ?_) (fun _ => ?_)
    | split
    | (simp only [clean_none, clean_some, clean_nil, clean_cons, clean_append, clean_pair, clean_text, clean_param, clean_case, clean_texts, clean_text_opt, and_true, true_and, and_self, implies_true, clean_number, clean_string, clean_boolean, clean_identifier, clean_array, clean_object, clean_spread, clean_undefined, clean_null, clean_program, clean_block, clean_binary, clean_unary, clean_assignment, clean_ternary, clean_if_stmt, clean_while_stmt, clean_do_while_stmt, clean_for_stmt, clean_call, clean_index, clean_member, clean_postfix_op, clean_function, clean_declaration, clean_switch_stmt, clean_label, clean_await_expr, clean_this, clean_debugger, clean_break_stmt, clean_continue_stmt, clean_throw_stmt, clean_try_stmt, clean_return_stmt, clean_import_stmt, clean_export_stmt, clean_empty]; done)
    | (simp_all only [clean_none, clean_some, clean_nil, clean_cons, clean_append, clean_pair, clean_text, clean_param, clean_case, clean_texts, clean_text_opt, and_true, true_and, and_self, implies_true, clean_number, clean_string, clean_boolean, clean_identifier, clean_array, clean_object, clean_spread, clean_undefined, clean_null, clean_program, clean_block, clean_binary, clean_unary, clean_assignment, clean_ternary, clean_if_stmt, clean_while_stmt, clean_do_while_stmt, clean_for_stmt, clean_call, clean_index, clean_member, clean_postfix_op, clean_function, clean_declaration, clean_switch_stmt, clean_label, clean_await_expr, clean_this, clean_debugger, clean_break_stmt, clean_continue_stmt, clean_throw_stmt, clean_try_stmt, clean_return_stmt, clean_import_stmt, clean_export_stmt, clean_empty]; done)
    | simp only [Bool.not_true, Bool.not_false, Bool.false_eq_true, if_false, if_true, eq_self_iff_true, ne_eq, not_true_eq_false, not_false_eq_true, Option.isNone_none, Option.isNone_some, and_true, true_and, and_false, false_and]

theorem parse_unary_clean (fuel : Nat) (rec : parse_rec) (hrec : rec_clean rec) {p : parser_t} :
    (parse_unary fuel rec).ensures (fun a _ => Clean.clean a) p := by
  unfold parse_unary
  try simp only []
  repeat' first
    | with_reducible exact ensures_stop _ _ _
    | with_reducible refine ensures_bind ?_
    | with_reducible refine ensures_pure ?_
    | with_reducible refine rec_clean_apply hrec _
    | with_reducible refine parse_postfix_clean fuel rec hrec
    | with_reducible refine ensures_mono (rec_clean_apply hrec _) (fun _ _ _ => ?_)
    | with_reducible refine ensures_mono (parse_postfix_clean fuel rec hrec) (fun _ _ _ => ?_)
    | with_reducible refine clean_advance (fun _ _ => ?_)
    | with_reducible refine clean_current (fun _ _ => ?_)
    | with_reducible refine clean_previous (fun _ _ => ?_)
    | with_reducible refine clean_current_type (fun _ _ => ?_)
    | with_reducible refine clean_peek (fun _ _ => ?_)
    | with_reducible refine clean_check _ (fun _ _ => ?_)
    | with_reducible refine clean_match _ (fun _ _ => ?_)
    | with_reducible refine clean_match_any _ (fun _ _ => ?_)
    | with_reducible refine clean_report _ (fun _ _ => ?_)
    | with_reducible refine clean_PARSER_ERROR _ (fun _ _ => ?_)
    | with_reducible refine clean_ERROR _ (fun _ _ => ?_)
    | with_reducible refine ensures_ite (fun _ => ?_) (fun _ => ?_)
    | split
    | (simp only [clean_none, clean_some, clean_nil, clean_cons, clean_append, clean_pair, clean_text, clean_param, clean_case, clean_texts, clean_text_opt, and_true, true_and, and_self, implies_true, clean_number, clean_string, clean_boolean, clean_identifier, clean_array, clean_object, clean_spread, clean_undefined, clean_null, clean_program, clean_block, clean_binary, clean_unary, clean_assignment, clean_ternary, clean_if_stmt, clean_while_stmt, clean_do_while_stmt, clean_for_stmt, clean_call, clean_index, clean_member, clean_postfix_op, clean_function, clean_declaration, clean_switch_stmt, clean_label, clean_await_expr, clean_this, clean_debugger, clean_break_stmt, clean_continue_stmt, clean_throw_stmt, clean_try_stmt, clean_return_stmt, clean_import_stmt, clean_export_stmt, clean_empty]; done)
    | (simp_all only [clean_none, clean_some, clean_nil, clean_cons, clean_append, clean_pair, clean_text, clean_param, clean_case, clean_texts, clean_text_opt, and_true, true_and, and_self, implies_true, clean_number, clean_string, clean_boolean, clean_identifier, clean_array, clean_object, clean_spread, clean_undefined, clean_null, clean_program, clean_block, clean_binary, clean_unary, clean_assignment, clean_ternary, clean_if_stmt, clean_while_stmt, clean_do_while_stmt, clean_for_stmt, clean_call, clean_index, clean_member, clean_postfix_op, clean_function, clean_declaration, clean_switch_stmt, clean_label, clean_await_expr, clean_this, clean_debugger, clean_break_stmt, clean_continue_stmt, clean_throw_stmt, clean_try_stmt, clean_return_stmt, clean_import_stmt, clean_export_stmt, clean_empty]; done)
    | simp only [Bool.not_true, Bool.not_false, Bool.false_eq_true, if_false, if_true, eq_self_iff_true, ne_eq, not_true_eq_false, not_false_eq_true, Option.isNone_none, Option.isNone_some, and_true, true_and, and_false, false_and]

theorem parse_exponent_clean (fuel : Nat) (rec : parse_rec) (hrec : rec_clean rec) {p : parser_t} :
    (parse_exponent fuel rec).ensures (fun a _ => Clean.clean a) p := by
  unfold parse_exponent
  try simp only []
  repeat' first
    | with_reducible exact ensures_stop _ _ _
    | with_reducible refine ensures_bind ?_
    | with_reducible refine ensures_pure ?_
    | with_reducible refine rec_clean_apply hrec _
    | with_reducible refine parse_unary_clean fuel rec hrec
    | with_reducible refine ensures_mono (rec_clean_apply hrec _) (fun _ _ _ => ?_)
    | with_reducible refine ensures_mono (parse_unary_clean fuel rec hrec) (fun _ _ _ => ?_)
    | with_reducible refine clean_advance (fun _ _ => ?_)
    | with_reducible refine clean_current (fun _ _ => ?_)
    | with_reducible refine clean_previous (fun _ _ => ?_)
    | with_reducible refine clean_current_type (fun _ _ => ?_)
    | with_reducible refine clean_peek (fun _ _ => ?_)
    | with_reducible refine clean_check _ (fun _ _ => ?_)
    | with_reducible refine clean_match _ (fun _ _ => ?_)
    | with_reducible refine clean_match_any _ (fun _ _ => ?_)
    | with_reducible refine clean_report _ (fun _ _ => ?_)
    | with_reducible refine clean_PARSER_ERROR _ (fun _ _ => ?_)
    | with_reducible refine clean_ERROR _ (fun _ _ => ?_)
    | with_reducible refine ensures_ite (fun _ => ?_) (fun _ => ?_)
    | split
    | (simp only [clean_none, clean_some, clean_nil, clean_cons, clean_append, clean_pair, clean_text, clean_param, clean_case, clean_texts, clean_text_opt, and_true, true_and, and_self, implies_true, clean_number, clean_string, clean_boolean, clean_identifier, clean_array, clean_object, clean_spread, clean_undefined, clean_null, clean_program, clean_block, clean_binary, clean_unary, clean_assignment, clean_ternary, clean_if_stmt, clean_while_stmt, clean_do_while_stmt, clean_for_stmt, clean_call, clean_index, clean_member, clean_postfix_op, clean_function, clean_declaration, clean_switch_stmt, clean_label, clean_await_expr, clean_this, clean_debugger, clean_break_stmt, clean_continue_stmt, clean_throw_stmt, clean_try_stmt, clean_return_stmt, clean_import_stmt, clean_export_stmt, clean_empty]; done)
    | (simp_all only [clean_none, clean_some, clean_nil, clean_cons, clean_append, clean_pair, clean_text, clean_param, clean_case, clean_texts, clean_text_opt, and_true, true_and, and_self, implies_true, clean_number, clean_string, clean_boolean, clean_identifier, clean_array, clean_object, clean_spread, clean_undefined, clean_null, clean_program, clean_block, clean_binary, clean_unary, clean_assignment, clean_ternary, clean_if_stmt, clean_while_stmt, clean_do_while_stmt, clean_for_stmt, clean_call, clean_index, clean_member, clean_postfix_op, clean_function, clean_declaration, clean_switch_stmt, clean_label, clean_await_expr, clean_this, clean_debugger, clean_break_stmt, clean_continue_stmt, clean_throw_stmt, clean_try_stmt, clean_return_stmt, clean_import_stmt, clean_export_stmt, clean_empty]; done)
    | simp only [Bool.not_true, Bool.not_false, Bool.false_eq_true, if_false, if_true, eq_self_iff_true, ne_eq, not_true_eq_false, not_false_eq_true, Option.isNone_none, Option.isNone_some, and_true, true_and, and_false, false_and]

theorem binary_loop_clean (types : List token_type_t) (next : parse_m (Option Node))
    (hnext : ∀ {p : parser_t}, next.ensures (fun a _ => Clean.clean a) p) (n : Nat) :
    ∀ (left : Node) {p : parser_t}, Clean.clean left → 
      (binary_loop types next n left).ensures (fun a _ => Clean.clean a) p := by
  induction n with
  | zero =>
    intro left p h0
    exact ensures_stop _ _ _
  | succ n ih =>
    intro left p h0
    unfold binary_loop
    try simp only []
    repeat' first
      | with_reducible exact ensures_stop _ _ _
      | with_reducible refine ensures_bind ?_
      | with_reducible refine ensures_pure ?_
      | with_reducible refine ih _ ?_
      | with_reducible refine hnext
      | with_reducible refine ensures_mono (ih _ ?_) (fun _ _ _ => ?_)
      | with_reducible refine ensures_mono (hnext) (fun _ _ _ => ?_)
      | with_reducible refine clean_advance (fun _ _ => ?_)
      | with_reducible refine clean_current (fun _ _ => ?_)
      | with_reducible refine clean_previous (fun _ _ => ?_)
      | with_reducible refine clean_current_type (fun _ _ => ?_)
      | with_reducible refine clean_peek (fun _ _ => ?_)
      | with_reducible refine clean_check _ (fun _ _ => ?_)
      | with_reducible refine clean_match _ (fun _ _ => ?_)
      | with_reducible refine clean_match_any _ (fun _ _ => ?_)
      | with_reducible refine clean_report _ (fun _ _ => ?_)
      | with_reducible refine clean_PARSER_ERROR _ (fun _ _ => ?_)
      | with_reducible refine clean_ERROR _ (fun _ _ => ?_)
      | with_reducible refine ensures_ite (fun _ => ?_) (fun _ => ?_)
      | split
      | (simp only [clean_none, clean_some, clean_nil, clean_cons, clean_append, clean_pair, clean_text, clean_param, clean_case, clean_texts, clean_text_opt, and_true, true_and, and_self, implies_true, clean_number, clean_string, clean_boolean, clean_identifier, clean_array, clean_object, clean_spread, clean_undefined, clean_null, clean_program, clean_block, clean_binary, clean_unary, clean_assignment, clean_ternary, clean_if_stmt, clean_while_stmt, clean_do_while_stmt, clean_for_stmt, clean_call, clean_index, clean_member, clean_postfix_op, clean_function, clean_declaration, clean_switch_stmt, clean_label, clean_await_expr, clean_this, clean_debugger, clean_break_stmt, clean_continue_stmt, clean_throw_stmt, clean_try_stmt, clean_return_stmt, clean_import_stmt, clean_export_stmt, clean_empty]; done)
      | (simp_all only [clean_none, clean_some, clean_nil, clean_cons, clean_append, clean_pair, clean_text, clean_param, clean_case, clean_texts, clean_text_opt, and_true, true_and, and_self, implies_true, clean_number, clean_string, clean_boolean, clean_identifier, clean_array, clean_object, clean_spread, clean_undefined, clean_null, clean_program, clean_block, clean_binary, clean_unary, clean_assignment, clean_ternary, clean_if_stmt, clean_while_stmt, clean_do_while_stmt, clean_for_stmt, clean_call, clean_index, clean_member, clean_postfix_op, clean_function, clean_declaration, clean_switch_stmt, clean_label, clean_await_expr, clean_this, clean_debugger, clean_break_stmt, clean_continue_stmt, clean_throw_stmt, clean_try_stmt, clean_return_stmt, clean_import_stmt, clean_export_stmt, clean_empty]; done)
      | simp only [Bool.not_true, Bool.not_false, Bool.false_eq_true, if_false, if_true, eq_self_iff_true, ne_eq, not_true_eq_false, not_false_eq_true, Option.isNone_none, Option.isNone_some, and_true, true_and, and_false, false_and]

theorem binary_level_clean (types : List token_type_t) (next : parse_m (Option Node))
    (hnext : ∀ {p : parser_t}, next.ensures (fun a _ => Clean.clean a) p) (fuel : Nat) {p : parser_t} :
    (binary_level types next fuel).ensures (fun a _ => Clean.clean a) p := by
  unfold binary_level
  try simp only []
  repeat' first
    | with_reducible exact ensures_stop _ _ _
    | with_reducible refine ensures_bind ?_
    | with_reducible refine ensures_pure ?_
    | with_reducible refine hnext
    | with_reducible refine binary_loop_clean types next hnext _ _ ?_
    | with_reducible refine ensures_mono (hnext) (fun _ _ _ => ?_)
    | with_reducible refine ensures_mono (binary_loop_clean types next hnext _ _ ?_) (fun _ _ _ => ?_)
    | with_reducible refine clean_advance (fun _ _ => ?_)
    | with_reducible refine clean_current (fun _ _ => ?_)
    | with_reducible refine clean_previous (fun _ _ => ?_)
    | with_reducible refine clean_current_type (fun _ _ => ?_)
    | with_reducible refine clean_peek (fun _ _ => ?_)
    | with_reducible refine clean_check _ (fun _ _ => ?_)
    | with_reducible refine clean_match _ (fun _ _ => ?_)
    | with_reducible refine clean_match_any _ (fun _ _ => ?_)
    | with_reducible refine clean_report _ (fun _ _ => ?_)
    | with_reducible refine clean_PARSER_ERROR _ (fun _ _ => ?_)
    | with_reducible refine clean_ERROR _ (fun _ _ => ?_)
    | with_reducible refine ensures_ite (fun _ => ?_) (fun _ => ?_)
    | split
    | (simp only [clean_none, clean_some, clean_nil, clean_cons, clean_append, clean_pair, clean_text, clean_param, clean_case, clean_texts, clean_text_opt, and_true, true_and, and_self, implies_true, clean_number, clean_string, clean_boolean, clean_identifier, clean_array, clean_object, clean_spread, clean_undefined, clean_null, clean_program, clean_block, clean_binary, clean_unary, clean_assignment, clean_ternary, clean_if_stmt, clean_while_stmt, clean_do_while_stmt, clean_for_stmt, clean_call, clean_index, clean_member, clean_postfix_op, clean_function, clean_declaration, clean_switch_stmt, clean_label, clean_await_expr, clean_this, clean_debugger, clean_break_stmt, clean_continue_stmt, clean_throw_stmt, clean_try_stmt, clean_return_stmt, clean_import_stmt, clean_export_stmt, clean_empty]; done)
    | (simp_all only [clean_none, clean_some, clean_nil, clean_cons, clean_append, clean_pair, clean_text, clean_param, clean_case, clean_texts, clean_text_opt, and_true, true_and, and_self, implies_true, clean_number, clean_string, clean_boolean, clean_identifier, clean_array, clean_object, clean_spread, clean_undefined, clean_null, clean_program, clean_block, clean_binary, clean_unary, clean_assignment, clean_ternary, clean_if_stmt, clean_while_stmt, clean_do_while_stmt, clean_for_stmt, clean_call, clean_index, clean_member, clean_postfix_op, clean_function, clean_declaration, clean_switch_stmt, clean_label, clean_await_expr, clean_this, clean_debugger, clean_break_stmt, clean_continue_stmt, clean_throw_stmt, clean_try_stmt, clean_return_stmt, clean_import_stmt, clean_export_stmt, clean_empty]; done)
    | simp only [Bool.not_true, Bool.not_false, Bool.false_eq_true, if_false, if_true, eq_self_iff_true, ne_eq, not_true_eq_false, not_false_eq_true, Option.isNone_none, Option.isNone_some, and_true, true_and, and_false, false_and]

theorem parse_factor_clean (fuel : Nat) (rec : parse_rec) (hrec : rec_clean rec) {p : parser_t} :
    (parse_factor fuel rec).ensures (fun a _ => Clean.clean a) p :=
  binary_level_clean _ _ (fun {_} => parse_exponent_clean fuel rec hrec) fuel

theorem parse_term_clean (fuel : Nat) (rec : parse_rec) (hrec : rec_clean rec) {p : parser_t} :
    (parse_term fuel rec).ensures (fun a _ => Clean.clean a) p :=
  binary_level_clean _ _ (fun {_} => parse_factor_clean fuel rec hrec) fuel

theorem parse_shift_clean (fuel : Nat) (rec : parse_rec) (hrec : rec_clean rec) {p : parser_t} :
    (parse_shift fuel rec).ensures (fun a _ => Clean.clean a) p :=
  binary_level_clean _ _ (fun {_} => parse_term_clean fuel rec hrec) fuel

theorem parse_relational_clean (fuel : Nat) (rec : parse_rec) (hrec : rec_clean rec) {p : parser_t} :
    (parse_relational fuel rec).ensures (fun a _ => Clean.clean a) p :=
  binary_level_clean _ _ (fun {_} => parse_shift_clean fuel rec hrec) fuel

theorem parse_equality_clean (fuel : Nat) (rec : parse_rec) (hrec : rec_clean rec) {p : parser_t} :
    (parse_equality fuel rec).ensures (fun a _ => Clean.clean a) p :=
  binary_level_clean _ _ (fun {_} => parse_relational_clean fuel rec hrec) fuel

theorem parse_bitwise_and_clean (fuel : Nat) (rec : parse_rec) (hrec : rec_clean rec) {p : parser_t} :
    (parse_bitwise_and fuel rec).ensures (fun a _ => Clean.clean a) p :=
  binary_level_clean _ _ (fun {_} => parse_equality_clean fuel rec hrec) fuel

theorem parse_bitwise_xor_clean (fuel : Nat) (rec : parse_rec) (hrec : rec_clean rec) {p : parser_t} :
    (parse_bitwise_xor fuel rec).ensures (fun a _ => Clean.clean a) p :=
  binary_level_clean _ _ (fun {_} => parse_bitwise_and_clean fuel rec hrec) fuel

theorem parse_bitwise_or_clean (fuel : Nat) (rec : parse_rec) (hrec : rec_clean rec) {p : parser_t} :
    (parse_bitwise_or fuel rec).ensures (fun a _ => Clean.clean a) p :=
  binary_level_clean _ _ (fun {_} => parse_bitwise_xor_clean fuel rec hrec) fuel

theorem parse_logical_and_clean (fuel : Nat) (rec : parse_rec) (hrec : rec_clean rec) {p : parser_t} :
    (parse_logical_and fuel rec).ensures (fun a _ => Clean.clean a) p :=
  binary_level_clean _ _ (fun {_} => parse_bitwise_or_clean fuel rec hrec) fuel

theorem parse_logical_or_clean (fuel : Nat) (rec : parse_rec) (hrec : rec_clean rec) {p : parser_t} :
    (parse_logical_or fuel rec).ensures (fun a _ => Clean.clean a) p :=
  binary_level_clean _ _ (fun {_} => parse_logical_and_clean fuel rec hrec) fuel

theorem parse_ternary_clean (fuel : Nat) (rec : parse_rec) (hrec : rec_clean rec) {p : parser_t} :
    (parse_ternary fuel rec).ensures (fun a _ => Clean.clean a) p := by
  unfold parse_ternary
  try simp only []
  repeat' first
    | with_reducible exact ensures_stop _ _ _
    | with_reducible refine ensures_bind ?_
    | with_reducible refine ensures_pure ?_
    | with_reducible refine rec_clean_apply hrec _
    | with_reducible refine parse_logical_or_clean fuel rec hrec
    | with_reducible refine ensures_mono (rec_clean_apply hrec _) (fun _ _ _ => ?_)
    | with_reducible refine ensures_mono (parse_logical_or_clean fuel rec hrec) (fun _ _ _ => ?_)
    | with_reducible refine clean_advance (fun _ _ => ?_)
    | with_reducible refine clean_current (fun _ _ => ?_)
    | with_reducible refine clean_previous (fun _ _ => ?_)
    | with_reducible refine clean_current_type (fun _ _ => ?_)
    | with_reducible refine clean_peek (fun _ _ => ?_)
    | with_reducible refine clean_check _ (fun _ _ => ?_)
    | with_reducible refine clean_match _ (fun _ _ => ?_)
    | with_reducible refine clean_match_any _ (fun _ _ => ?_)
    | with_reducible refine clean_report _ (fun _ _ => ?_)
    | with_reducible refine clean_PARSER_ERROR _ (fun _ _ => ?_)
    | with_reducible refine clean_ERROR _ (fun _ _ => ?_)
    | with_reducible refine ensures_ite (fun _ => ?_) (fun _ => ?_)
    | split
    | (simp only [clean_none, clean_some, clean_nil, clean_cons, clean_append, clean_pair, clean_text, clean_param, clean_case, clean_texts, clean_text_opt, and_true, true_and, and_self, implies_true, clean_number, clean_string, clean_boolean, clean_identifier, clean_array, clean_object, clean_spread, clean_undefined, clean_null, clean_program, clean_block, clean_binary, clean_unary, clean_assignment, clean_ternary, clean_if_stmt, clean_while_stmt, clean_do_while_stmt, clean_for_stmt, clean_call, clean_index, clean_member, clean_postfix_op, clean_function, clean_declaration, clean_switch_stmt, clean_label, clean_await_expr, clean_this, clean_debugger, clean_break_stmt, clean_continue_stmt, clean_throw_stmt, clean_try_stmt, clean_return_stmt, clean_import_stmt, clean_export_stmt, clean_empty]; done)
    | (simp_all only [clean_none, clean_some, clean_nil, clean_cons, clean_append, clean_pair, clean_text, clean_param, clean_case, clean_texts, clean_text_opt, and_true, true_and, and_self, implies_true, clean_number, clean_string, clean_boolean, clean_identifier, clean_array, clean_object, clean_spread, clean_undefined, clean_null, clean_program, clean_block, clean_binary, clean_unary, clean_assignment, clean_ternary, clean_if_stmt, clean_while_stmt, clean_do_while_stmt, clean_for_stmt, clean_call, clean_index, clean_member, clean_postfix_op, clean_function, clean_declaration, clean_switch_stmt, clean_label, clean_await_expr, clean_this, clean_debugger, clean_break_stmt, clean_continue_stmt, clean_throw_stmt, clean_try_stmt, clean_return_stmt, clean_import_stmt, clean_export_stmt, clean_empty]; done)
    | simp only [Bool.not_true, Bool.not_false, Bool.false_eq_true, if_false, if_true, eq_self_iff_true, ne_eq, not_true_eq_false, not_false_eq_true, Option.isNone_none, Option.isNone_some, and_true, true_and, and_false, false_and]

theorem parse_assignment_clean (fuel : Nat) (rec : parse_rec) (hrec : rec_clean rec) {p : parser_t} :
    (parse_assignment fuel rec).ensures (fun a _ => Clean.clean a) p := by
  unfold parse_assignment
  try simp only []
  repeat' first
    | with_reducible exact ensures_stop _ _ _
    | with_reducible refine ensures_bind ?_
    | with_reducible refine ensures_pure ?_
    | with_reducible refine rec_clean_apply hrec _
    | with_reducible refine parse_ternary_clean fuel rec hrec
    | with_reducible refine ensures_mono (rec_clean_apply hrec _) (fun _ _ _ => ?_)
    | with_reducible refine ensures_mono (parse_ternary_clean fuel rec hrec) (fun _ _ _ => ?_)
    | with_reducible refine clean_advance (fun _ _ => ?_)
    | with_reducible refine clean_current (fun _ _ => ?_)
    | with_reducible refine clean_previous (fun _ _ => ?_)
    | with_reducible refine clean_current_type (fun _ _ => ?_)
    | with_reducible refine clean_peek (fun _ _ => ?_)
    | with_reducible refine clean_check _ (fun _ _ => ?_)
    | with_reducible refine clean_match _ (fun _ _ => ?_)
    | with_reducible refine clean_match_any _ (fun _ _ => ?_)
    | with_reducible refine clean_report _ (fun _ _ => ?_)
    | with_reducible refine clean_PARSER_ERROR _ (fun _ _ => ?_)
    | with_reducible refine clean_ERROR _ (fun _ _ => ?_)
    | with_reducible refine ensures_ite (fun _ => ?_) (fun _ => ?_)
    | split
    | (simp only [clean_none, clean_some, clean_nil, clean_cons, clean_append, clean_pair, clean_text, clean_param, clean_case, clean_texts, clean_text_opt, and_true, true_and, and_self, implies_true, clean_number, clean_string, clean_boolean, clean_identifier, clean_array, clean_object, clean_spread, clean_undefined, clean_null, clean_program, clean_block, clean_binary, clean_unary, clean_assignment, clean_ternary, clean_if_stmt, clean_while_stmt, clean_do_while_stmt, clean_for_stmt, clean_call, clean_index, clean_member, clean_postfix_op, clean_function, clean_declaration, clean_switch_stmt, clean_label, clean_await_expr, clean_this, clean_debugger, clean_break_stmt, clean_continue_stmt, clean_throw_stmt, clean_try_stmt, clean_return_stmt, clean_import_stmt, clean_export_stmt, clean_empty]; done)
    | (simp_all only [clean_none, clean_some, clean_nil, clean_cons, clean_append, clean_pair, clean_text, clean_param, clean_case, clean_texts, clean_text_opt, and_true, true_and, and_self, implies_true, clean_number, clean_string, clean_boolean, clean_identifier, clean_array, clean_object, clean_spread, clean_undefined, clean_null, clean_program, clean_block, clean_binary, clean_unary, clean_assignment, clean_ternary, clean_if_stmt, clean_while_stmt, clean_do_while_stmt, clean_for_stmt, clean_call, clean_index, clean_member, clean_postfix_op, clean_function, clean_declaration, clean_switch_stmt, clean_label, clean_await_expr, clean_this, clean_debugger, clean_break_stmt, clean_continue_stmt, clean_throw_stmt, clean_try_stmt, clean_return_stmt, clean_import_stmt, clean_export_stmt, clean_empty]; done)
    | simp only [Bool.not_true, Bool.not_false, Bool.false_eq_true, if_false, if_true, eq_self_iff_true, ne_eq, not_true_eq_false, not_false_eq_true, Option.isNone_none, Option.isNone_some, and_true, true_and, and_false, false_and]

theorem parse_expression_clean (fuel : Nat) (rec : parse_rec) (hrec : rec_clean rec) {p : parser_t} :
    (parse_expression fuel rec).ensures (fun a _ => Clean.clean a) p :=
  parse_assignment_clean fuel rec hrec

theorem parse_comma_clean (fuel : Nat) (rec : parse_rec) (hrec : rec_clean rec) {p : parser_t} :
    (parse_comma fuel rec).ensures (fun a _ => Clean.clean a) p :=
  binary_level_clean _ _ (fun {_} => parse_expression_clean fuel rec hrec) fuel

theorem parse_statements_clean (rec : parse_rec) (hrec : rec_clean rec) (stops : List token_type_t) (n : Nat) :
    ∀ (statements : List Node) {p : parser_t}, Clean.clean statements → 
      (parse_statements rec stops n statements).ensures (fun a _ => Clean.clean a) p := by
  induction n with
  | zero =>
    intro statements p h0
    exact ensures_stop _ _ _
  | succ n ih =>
    intro statements p h0
    unfold parse_statements
    try simp only []
    repeat' first
      | with_reducible exact ensures_stop _ _ _
      | with_reducible refine ensures_bind ?_
      | with_reducible refine ensures_pure ?_
      | with_reducible refine ih _ ?_
      | with_reducible refine rec_clean_apply hrec _
      | with_reducible refine ensures_mono (ih _ ?_) (fun _ _ _ => ?_)
      | with_reducible refine ensures_mono (rec_clean_apply hrec _) (fun _ _ _ => ?_)
      | with_reducible refine clean_advance (fun _ _ => ?_)
      | with_reducible refine clean_current (fun _ _ => ?_)
      | with_reducible refine clean_previous (fun _ _ => ?_)
      | with_reducible refine clean_current_type (fun _ _ => ?_)
      | with_reducible refine clean_peek (fun _ _ => ?_)
      | with_reducible refine clean_check _ (fun _ _ => ?_)
      | with_reducible refine clean_match _ (fun _ _ => ?_)
      | with_reducible refine clean_match_any _ (fun _ _ => ?_)
      | with_reducible refine clean_report _ (fun _ _ => ?_)
      | with_reducible refine clean_PARSER_ERROR _ (fun _ _ => ?_)
      | with_reducible refine clean_ERROR _ (fun _ _ => ?_)
      | with_reducible refine ensures_ite (fun _ => ?_) (fun _ => ?_)
      | split
      | (simp only [clean_none, clean_some, clean_nil, clean_cons, clean_append, clean_pair, clean_text, clean_param, clean_case, clean_texts, clean_text_opt, and_true, true_and, and_self, implies_true, clean_number, clean_string, clean_boolean, clean_identifier, clean_array, clean_object, clean_spread, clean_undefined, clean_null, clean_program, clean_block, clean_binary, clean_unary, clean_assignment, clean_ternary, clean_if_stmt, clean_while_stmt, clean_do_while_stmt, clean_for_stmt, clean_call, clean_index, clean_member, clean_postfix_op, clean_function, clean_declaration, clean_switch_stmt, clean_label, clean_await_expr, clean_this, clean_debugger, clean_break_stmt, clean_continue_stmt, clean_throw_stmt, clean_try_stmt, clean_return_stmt, clean_import_stmt, clean_export_stmt, clean_empty]; done)
      | (simp_all only [clean_none, clean_some, clean_nil, clean_cons, clean_append, clean_pair, clean_text, clean_param, clean_case, clean_texts, clean_text_opt, and_true, true_and, and_self, implies_true, clean_number, clean_string, clean_boolean, clean_identifier, clean_array, clean_object, clean_spread, clean_undefined, clean_null, clean_program, clean_block, clean_binary, clean_unary, clean_assignment, clean_ternary, clean_if_stmt, clean_while_stmt, clean_do_while_stmt, clean_for_stmt, clean_call, clean_index, clean_member, clean_postfix_op, clean_function, clean_declaration, clean_switch_stmt, clean_label, clean_await_expr, clean_this, clean_debugger, clean_break_stmt, clean_continue_stmt, clean_throw_stmt, clean_try_stmt, clean_return_stmt, clean_import_stmt, clean_export_stmt, clean_empty]; done)
      | simp only [Bool.not_true, Bool.not_false, Bool.false_eq_true, if_false, if_true, eq_self_iff_true, ne_eq, not_true_eq_false, not_false_eq_true, Option.isNone_none, Option.isNone_some, and_true, true_and, and_false, false_and]

theorem parse_block_clean (fuel : Nat) (rec : parse_rec) (hrec : rec_clean rec) {p : parser_t} :
    (parse_block fuel rec).ensures (fun a _ => Clean.clean a) p := by
  unfold parse_block
  try simp only []
  repeat' first
    | with_reducible exact ensures_stop _ _ _
    | with_reducible refine ensures_bind ?_
    | with_reducible refine ensures_pure ?_
    | with_reducible refine rec_clean_apply hrec _
    | with_reducible refine parse_statements_clean rec hrec _ _ _ ?_
    | with_reducible refine ensures_mono (rec_clean_apply hrec _) (fun _ _ _ => ?_)
    | with_reducible refine ensures_mono (parse_statements_clean rec hrec _ _ _ ?_) (fun _ _ _ => ?_)
    | with_reducible refine clean_advance (fun _ _ => ?_)
    | with_reducible refine clean_current (fun _ _ => ?_)
    | with_reducible refine clean_previous (fun _ _ => ?_)
    | with_reducible refine clean_current_type (fun _ _ => ?_)
    | with_reducible refine clean_peek (fun _ _ => ?_)
    | with_reducible refine clean_check _ (fun _ _ => ?_)
    | with_reducible refine clean_match _ (fun _ _ => ?_)
    | with_reducible refine clean_match_any _ (fun _ _ => ?_)
    | with_reducible refine clean_report _ (fun _ _ => ?_)
    | with_reducible refine clean_PARSER_ERROR _ (fun _ _ => ?_)
    | with_reducible refine clean_ERROR _ (fun _ _ => ?_)
    | with_reducible refine ensures_ite (fun _ => ?_) (fun _ => ?_)
    | split
    | (simp only [clean_none, clean_some, clean_nil, clean_cons, clean_append, clean_pair, clean_text, clean_param, clean_case, clean_texts, clean_text_opt, and_true, true_and, and_self, implies_true, clean_number, clean_string, clean_boolean, clean_identifier, clean_array, clean_object, clean_spread, clean_undefined, clean_null, clean_program, clean_block, clean_binary, clean_unary, clean_assignment, clean_ternary, clean_if_stmt, clean_while_stmt, clean_do_while_stmt, clean_for_stmt, clean_call, clean_index, clean_member, clean_postfix_op, clean_function, clean_declaration, clean_switch_stmt, clean_label, clean_await_expr, clean_this, clean_debugger, clean_break_stmt, clean_continue_stmt, clean_throw_stmt, clean_try_stmt, clean_return_stmt, clean_import_stmt, clean_export_stmt, clean_empty]; done)
    | (simp_all only [clean_none, clean_some, clean_nil, clean_cons, clean_append, clean_pair, clean_text, clean_param, clean_case, clean_texts, clean_text_opt, and_true, true_and, and_self, implies_true, clean_number, clean_string, clean_boolean, clean_identifier, clean_array, clean_object, clean_spread, clean_undefined, clean_null, clean_program, clean_block, clean_binary, clean_unary, clean_assignment, clean_ternary, clean_if_stmt, clean_while_stmt, clean_do_while_stmt, clean_for_stmt, clean_call, clean_index, clean_member, clean_postfix_op, clean_function, clean_declaration, clean_switch_stmt, clean_label, clean_await_expr, clean_this, clean_debugger, clean_break_stmt, clean_continue_stmt, clean_throw_stmt, clean_try_stmt, clean_return_stmt, clean_import_stmt, clean_export_stmt, clean_empty]; done)
    | simp only [Bool.not_true, Bool.not_false, Bool.false_eq_true, if_false, if_true, eq_self_iff_true, ne_eq, not_true_eq_false, not_false_eq_true, Option.isNone_none, Option.isNone_some, and_true, true_and, and_false, false_and]

theorem parse_label_clean (rec : parse_rec) (hrec : rec_clean rec) {p : parser_t} :
    (parse_label rec).ensures (fun a _ => Clean.clean a) p := by
  unfold parse_label
  try simp only []
  repeat' first
    | with_reducible exact ensures_stop _ _ _
    | with_reducible refine ensures_bind ?_
    | with_reducible refine ensures_pure ?_
    | with_reducible refine rec_clean_apply hrec _
    | with_reducible refine ensures_mono (rec_clean_apply hrec _) (fun _ _ _ => ?_)
    | with_reducible refine clean_advance (fun _ _ => ?_)
    | with_reducible refine clean_current (fun _ _ => ?_)
    | with_reducible refine clean_previous (fun _ _ => ?_)
    | with_reducible refine clean_current_type (fun _ _ => ?_)
    | with_reducible refine clean_peek (fun _ _ => ?_)
    | with_reducible refine clean_check _ (fun _ _ => ?_)
    | with_reducible refine clean_match _ (fun _ _ => ?_)
    | with_reducible refine clean_match_any _ (fun _ _ => ?_)
    | with_reducible refine clean_report _ (fun _ _ => ?_)
    | with_reducible refine clean_PARSER_ERROR _ (fun _ _ => ?_)
    | with_reducible refine clean_ERROR _ (fun _ _ => ?_)
    | with_reducible refine ensures_ite (fun _ => ?_) (fun _ => ?_)
    | split
    | (simp only [clean_none, clean_some, clean_nil, clean_cons, clean_append, clean_pair, clean_text, clean_param, clean_case, clean_texts, clean_text_opt, and_true, true_and, and_self, implies_true, clean_number, clean_string, clean_boolean, clean_identifier, clean_array, clean_object, clean_spread, clean_undefined, clean_null, clean_program, clean_block, clean_binary, clean_unary, clean_assignment, clean_ternary, clean_if_stmt, clean_while_stmt, clean_do_while_stmt, clean_for_stmt, clean_call, clean_index, clean_member, clean_postfix_op, clean_function, clean_declaration, clean_switch_stmt, clean_label, clean_await_expr, clean_this, clean_debugger, clean_break_stmt, clean_continue_stmt, clean_throw_stmt, clean_try_stmt, clean_return_stmt, clean_import_stmt, clean_export_stmt, clean_empty]; done)
    | (simp_all only [clean_none, clean_some, clean_nil, clean_cons, clean_append, clean_pair, clean_text, clean_param, clean_case, clean_texts, clean_text_opt, and_true, true_and, and_self, implies_true, clean_number, clean_string, clean_boolean, clean_identifier, clean_array, clean_object, clean_spread, clean_undefined, clean_null, clean_program, clean_block, clean_binary, clean_unary, clean_assignment, clean_ternary, clean_if_stmt, clean_while_stmt, clean_do_while_stmt, clean_for_stmt, clean_call, clean_index, clean_member, clean_postfix_op, clean_function, clean_declaration, clean_switch_stmt, clean_label, clean_await_expr, clean_this, clean_debugger, clean_break_stmt, clean_continue_stmt, clean_throw_stmt, clean_try_stmt, clean_return_stmt, clean_import_stmt, clean_export_stmt, clean_empty]; done)
    | simp only [Bool.not_true, Bool.not_false, Bool.false_eq_true, if_false, if_true, eq_self_iff_true, ne_eq, not_true_eq_false, not_false_eq_true, Option.isNone_none, Option.isNone_some, and_true, true_and, and_false, false_and]

theorem parse_if_clean (fuel : Nat) (rec : parse_rec) (hrec : rec_clean rec) {p : parser_t} :
    (parse_if fuel rec).ensures (fun a _ => Clean.clean a) p := by
  unfold parse_if
  try simp only []
  repeat' first
    | with_reducible exact ensures_stop _ _ _
    | with_reducible refine ensures_bind ?_
    | with_reducible refine ensures_pure ?_
    | with_reducible refine rec_clean_apply hrec _
    | with_reducible refine parse_comma_clean fuel rec hrec
    | with_reducible refine parse_block_clean fuel rec hrec
    | with_reducible refine ensures_mono (rec_clean_apply hrec _) (fun _ _ _ => ?_)
    | with_reducible refine ensures_mono (parse_comma_clean fuel rec hrec) (fun _ _ _ => ?_)
    | with_reducible refine ensures_mono (parse_block_clean fuel rec hrec) (fun _ _ _ => ?_)
    | with_reducible refine clean_advance (fun _ _ => ?_)
    | with_reducible refine clean_current (fun _ _ => ?_)
    | with_reducible refine clean_previous (fun _ _ => ?_)
    | with_reducible refine clean_current_type (fun _ _ => ?_)
    | with_reducible refine clean_peek (fun _ _ => ?_)
    | with_reducible refine clean_check _ (fun _ _ => ?_)
    | with_reducible refine clean_match _ (fun _ _ => ?_)
    | with_reducible refine clean_match_any _ (fun _ _ => ?_)
    | with_reducible refine clean_report _ (fun _ _ => ?_)
    | with_reducible refine clean_PARSER_ERROR _ (fun _ _ => ?_)
    | with_reducible refine clean_ERROR _ (fun _ _ => ?_)
    | with_reducible refine ensures_ite (fun _ => ?_) (fun _ => ?_)
    | split
    | (simp only [clean_none, clean_some, clean_nil, clean_cons, clean_append, clean_pair, clean_text, clean_param, clean_case, clean_texts, clean_text_opt, and_true, true_and, and_self, implies_true, clean_number, clean_string, clean_boolean, clean_identifier, clean_array, clean_object, clean_spread, clean_undefined, clean_null, clean_program, clean_block, clean_binary, clean_unary, clean_assignment, clean_ternary, clean_if_stmt, clean_while_stmt, clean_do_while_stmt, clean_for_stmt, clean_call, clean_index, clean_member, clean_postfix_op, clean_function, clean_declaration, clean_switch_stmt, clean_label, clean_await_expr, clean_this, clean_debugger, clean_break_stmt, clean_continue_stmt, clean_throw_stmt, clean_try_stmt, clean_return_stmt, clean_import_stmt, clean_export_stmt, clean_empty]; done)
    | (simp_all only [clean_none, clean_some, clean_nil, clean_cons, clean_append, clean_pair, clean_text, clean_param, clean_case, clean_texts, clean_text_opt, and_true, true_and, and_self, implies_true, clean_number, clean_string, clean_boolean, clean_identifier, clean_array, clean_object, clean_spread, clean_undefined, clean_null, clean_program, clean_block, clean_binary, clean_unary, clean_assignment, clean_ternary, clean_if_stmt, clean_while_stmt, clean_do_while_stmt, clean_for_stmt, clean_call, clean_index, clean_member, clean_postfix_op, clean_function, clean_declaration, clean_switch_stmt, clean_label, clean_await_expr, clean_this, clean_debugger, clean_break_stmt, clean_continue_stmt, clean_throw_stmt, clean_try_stmt, clean_return_stmt, clean_import_stmt, clean_export_stmt, clean_empty]; done)
    | simp only [Bool.not_true, Bool.not_false, Bool.false_eq_true, if_false, if_true, eq_self_iff_true, ne_eq, not_true_eq_false, not_false_eq_true, Option.isNone_none, Option.isNone_some, and_true, true_and, and_false, false_and]

theorem parse_switch_labels_clean (fuel : Nat) (rec : parse_rec) (hrec : rec_clean rec) (n : Nat) :
    ∀ (labels : List Node) {p : parser_t}, Clean.clean labels → 
      (parse_switch_labels fuel rec n labels).ensures (fun a _ => Clean.clean a) p := by
  induction n with
  | zero =>
    intro labels p h0
    exact ensures_stop _ _ _
  | succ n ih =>
    intro labels p h0
    rw [parse_switch_labels_succ]
    try simp only []
    repeat' first
      | with_reducible exact ensures_stop _ _ _
      | with_reducible refine ensures_bind ?_
      | with_reducible refine ensures_pure ?_
      | with_reducible refine ih _ ?_
      | with_reducible refine parse_comma_clean fuel rec hrec
      | with_reducible refine ensures_mono (ih _ ?_) (fun _ _ _ => ?_)
      | with_reducible refine ensures_mono (parse_comma_clean fuel rec hrec) (fun _ _ _ => ?_)
      | with_reducible refine clean_advance (fun _ _ => ?_)
      | with_reducible refine clean_current (fun _ _ => ?_)
      | with_reducible refine clean_previous (fun _ _ => ?_)
      | with_reducible refine clean_current_type (fun _ _ => ?_)
      | with_reducible refine clean_peek (fun _ _ => ?_)
      | with_reducible refine clean_check _ (fun _ _ => ?_)
      | with_reducible refine clean_match _ (fun _ _ => ?_)
      | with_reducible refine clean_match_any _ (fun _ _ => ?_)
      | with_reducible refine clean_report _ (fun _ _ => ?_)
      | with_reducible refine clean_PARSER_ERROR _ (fun _ _ => ?_)
      | with_reducible refine clean_ERROR _ (fun _ _ => ?_)
      | with_reducible refine ensures_ite (fun _ => ?_) (fun _ => ?_)
      | split
      | (simp only [clean_none, clean_some, clean_nil, clean_cons, clean_append, clean_pair, clean_text, clean_param, clean_case, clean_texts, clean_text_opt, and_true, true_and, and_self, implies_true, clean_number, clean_string, clean_boolean, clean_identifier, clean_array, clean_object, clean_spread, clean_undefined, clean_null, clean_program, clean_block, clean_binary, clean_unary, clean_assignment, clean_ternary, clean_if_stmt, clean_while_stmt, clean_do_while_stmt, clean_for_stmt, clean_call, clean_index, clean_member, clean_postfix_op, clean_function, clean_declaration, clean_switch_stmt, clean_label, clean_await_expr, clean_this, clean_debugger, clean_break_stmt, clean_continue_stmt, clean_throw_stmt, clean_try_stmt, clean_return_stmt, clean_import_stmt, clean_export_stmt, clean_empty]; done)
      | (simp_all only [clean_none, clean_some, clean_nil, clean_cons, clean_append, clean_pair, clean_text, clean_param, clean_case, clean_texts, clean_text_opt, and_true, true_and, and_self, implies_true, clean_number, clean_string, clean_boolean, clean_identifier, clean_array, clean_object, clean_spread, clean_undefined, clean_null, clean_program, clean_block, clean_binary, clean_unary, clean_assignment, clean_ternary, clean_if_stmt, clean_while_stmt, clean_do_while_stmt, clean_for_stmt, clean_call, clean_index, clean_member, clean_postfix_op, clean_function, clean_declaration, clean_switch_stmt, clean_label, clean_await_expr, clean_this, clean_debugger, clean_break_stmt, clean_continue_stmt, clean_throw_stmt, clean_try_stmt, clean_return_stmt, clean_import_stmt, clean_export_stmt, clean_empty]; done)
      | simp only [Bool.not_true, Bool.not_false, Bool.false_eq_true, if_false, if_true, eq_self_iff_true, ne_eq, not_true_eq_false, not_false_eq_true, Option.isNone_none, Option.isNone_some, and_true, true_and, and_false, false_and]

theorem parse_switch_cases_clean (fuel : Nat) (rec : parse_rec) (hrec : rec_clean rec) (n : Nat) :
    ∀ (cases : List SwitchCase) {p : parser_t}, Clean.clean cases → 
      (parse_switch_cases fuel rec n cases).ensures (fun a _ => Clean.clean a) p := by
  induction n with
  | zero =>
    intro cases p h0
    exact ensures_stop _ _ _
  | succ n ih =>
    intro cases p h0
    rw [parse_switch_cases_succ]
    try simp only []
    repeat' first
      | with_reducible exact ensures_stop _ _ _
      | with_reducible refine ensures_bind ?_
      | with_reducible refine ensures_pure ?_
      | with_reducible refine ih _ ?_
      | with_reducible refine parse_switch_labels_clean fuel rec hrec _ _ ?_
      | with_reducible refine parse_statements_clean rec hrec _ _ _ ?_
      | with_reducible refine ensures_mono (ih _ ?_) (fun _ _ _ => ?_)
      | with_reducible refine ensures_mono (parse_switch_labels_clean fuel rec hrec _ _ ?_) (fun _ _ _ => ?_)
      | with_reducible refine ensures_mono (parse_statements_clean rec hrec _ _ _ ?_) (fun _ _ _ => ?_)
      | with_reducible refine clean_advance (fun _ _ => ?_)
      | with_reducible refine clean_current (fun _ _ => ?_)
      | with_reducible refine clean_previous (fun _ _ => ?_)
      | with_reducible refine clean_current_type (fun _ _ => ?_)
      | with_reducible refine clean_peek (fun _ _ => ?_)
      | with_reducible refine clean_check _ (fun _ _ => ?_)
      | with_reducible refine clean_match _ (fun _ _ => ?_)
      | with_reducible refine clean_match_any _ (fun _ _ => ?_)
      | with_reducible refine clean_report _ (fun _ _ => ?_)
      | with_reducible refine clean_PARSER_ERROR _ (fun _ _ => ?_)
      | with_reducible refine clean_ERROR _ (fun _ _ => ?_)
      | with_reducible refine ensures_ite (fun _ => ?_) (fun _ => ?_)
      | split
      | (simp only [clean_none, clean_some, clean_nil, clean_cons, clean_append, clean_pair, clean_text, clean_param, clean_case, clean_texts, clean_text_opt, and_true, true_and, and_self, implies_true, clean_number, clean_string, clean_boolean, clean_identifier, clean_array, clean_object, clean_spread, clean_undefined, clean_null, clean_program, clean_block, clean_binary, clean_unary, clean_assignment, clean_ternary, clean_if_stmt, clean_while_stmt, clean_do_while_stmt, clean_for_stmt, clean_call, clean_index, clean_member, clean_postfix_op, clean_function, clean_declaration, clean_switch_stmt, clean_label, clean_await_expr, clean_this, clean_debugger, clean_break_stmt, clean_continue_stmt, clean_throw_stmt, clean_try_stmt, clean_return_stmt, clean_import_stmt, clean_export_stmt, clean_empty]; done)
      | (simp_all only [clean_none, clean_some, clean_nil, clean_cons, clean_append, clean_pair, clean_text, clean_param, clean_case, clean_texts, clean_text_opt, and_true, true_and, and_self, implies_true, clean_number, clean_string, clean_boolean, clean_identifier, clean_array, clean_object, clean_spread, clean_undefined, clean_null, clean_program, clean_block, clean_binary, clean_unary, clean_assignment, clean_ternary, clean_if_stmt, clean_while_stmt, clean_do_while_stmt, clean_for_stmt, clean_call, clean_index, clean_member, clean_postfix_op, clean_function, clean_declaration, clean_switch_stmt, clean_label, clean_await_expr, clean_this, clean_debugger, clean_break_stmt, clean_continue_stmt, clean_throw_stmt, clean_try_stmt, clean_return_stmt, clean_import_stmt, clean_export_stmt, clean_empty]; done)
      | simp only [Bool.not_true, Bool.not_false, Bool.false_eq_true, if_false, if_true, eq_self_iff_true, ne_eq, not_true_eq_false, not_false_eq_true, Option.isNone_none, Option.isNone_some, and_true, true_and, and_false, false_and]

theorem parse_switch_clean (fuel : Nat) (rec : parse_rec) (hrec : rec_clean rec) {p : parser_t} :
    (parse_switch fuel rec).ensures (fun a _ => Clean.clean a) p := by
  unfold parse_switch
  try simp only []
  repeat' first
    | with_reducible exact ensures_stop _ _ _
    | with_reducible refine ensures_bind ?_
    | with_reducible refine ensures_pure ?_
    | with_reducible refine parse_expression_clean fuel rec hrec
    | with_reducible refine parse_switch_cases_clean fuel rec hrec _ _ ?_
    | with_reducible refine ensures_mono (parse_expression_clean fuel rec hrec) (fun _ _ _ => ?_)
    | with_reducible refine ensures_mono (parse_switch_cases_clean fuel rec hrec _ _ ?_) (fun _ _ _ => ?_)
    | with_reducible refine clean_advance (fun _ _ => ?_)
    | with_reducible refine clean_current (fun _ _ => ?_)
    | with_reducible refine clean_previous (fun _ _ => ?_)
    | with_reducible refine clean_current_type (fun _ _ => ?_)
    | with_reducible refine clean_peek (fun _ _ => ?_)
    | with_reducible refine clean_check _ (fun _ _ => ?_)
    | with_reducible refine clean_match _ (fun _ _ => ?_)
    | with_reducible refine clean_match_any _ (fun _ _ => ?_)
    | with_reducible refine clean_report _ (fun _ _ => ?_)
    | with_reducible refine clean_PARSER_ERROR _ (fun _ _ => ?_)
    | with_reducible refine clean_ERROR _ (fun _ _ => ?_)
    | with_reducible refine ensures_ite (fun _ => ?_) (fun _ => ?_)
    | split
    | (simp only [clean_none, clean_some, clean_nil, clean_cons, clean_append, clean_pair, clean_text, clean_param, clean_case, clean_texts, clean_text_opt, and_true, true_and, and_self, implies_true, clean_number, clean_string, clean_boolean, clean_identifier, clean_array, clean_object, clean_spread, clean_undefined, clean_null, clean_program, clean_block, clean_binary, clean_unary, clean_assignment, clean_ternary, clean_if_stmt, clean_while_stmt, clean_do_while_stmt, clean_for_stmt, clean_call, clean_index, clean_member, clean_postfix_op, clean_function, clean_declaration, clean_switch_stmt, clean_label, clean_await_expr, clean_this, clean_debugger, clean_break_stmt, clean_continue_stmt, clean_throw_stmt, clean_try_stmt, clean_return_stmt, clean_import_stmt, clean_export_stmt, clean_empty]; done)
    | (simp_all only [clean_none, clean_some, clean_nil, clean_cons, clean_append, clean_pair, clean_text, clean_param, clean_case, clean_texts, clean_text_opt, and_true, true_and, and_self, implies_true, clean_number, clean_string, clean_boolean, clean_identifier, clean_array, clean_object, clean_spread, clean_undefined, clean_null, clean_program, clean_block, clean_binary, clean_unary, clean_assignment, clean_ternary, clean_if_stmt, clean_while_stmt, clean_do_while_stmt, clean_for_stmt, clean_call, clean_index, clean_member, clean_postfix_op, clean_function, clean_declaration, clean_switch_stmt, clean_label, clean_await_expr, clean_this, clean_debugger, clean_break_stmt, clean_continue_stmt, clean_throw_stmt, clean_try_stmt, clean_return_stmt, clean_import_stmt, clean_export_stmt, clean_empty]; done)
    | simp only [Bool.not_true, Bool.not_false, Bool.false_eq_true, if_false, if_true, eq_self_iff_true, ne_eq, not_true_eq_false, not_false_eq_true, Option.isNone_none, Option.isNone_some, and_true, true_and, and_false, false_and]

theorem parse_while_clean (fuel : Nat) (rec : parse_rec) (hrec : rec_clean rec) {p : parser_t} :
    (parse_while fuel rec).ensures (fun a _ => Clean.clean a) p := by
  unfold parse_while
  try simp only []
  repeat' first
    | with_reducible exact ensures_stop _ _ _
    | with_reducible refine ensures_bind ?_
    | with_reducible refine ensures_pure ?_
    | with_reducible refine parse_comma_clean fuel rec hrec
    | with_reducible refine parse_block_clean fuel rec hrec
    | with_reducible refine ensures_mono (parse_comma_clean fuel rec hrec) (fun _ _ _ => ?_)
    | with_reducible refine ensures_mono (parse_block_clean fuel rec hrec) (fun _ _ _ => ?_)
    | with_reducible refine clean_advance (fun _ _ => ?_)
    | with_reducible refine clean_current (fun _ _ => ?_)
    | with_reducible refine clean_previous (fun _ _ => ?_)
    | with_reducible refine clean_current_type (fun _ _ => ?_)
    | with_reducible refine clean_peek (fun _ _ => ?_)
    | with_reducible refine clean_check _ (fun _ _ => ?_)
    | with_reducible refine clean_match _ (fun _ _ => ?_)
    | with_reducible refine clean_match_any _ (fun _ _ => ?_)
    | with_reducible refine clean_report _ (fun _ _ => ?_)
    | with_reducible refine clean_PARSER_ERROR _ (fun _ _ => ?_)
    | with_reducible refine clean_ERROR _ (fun _ _ => ?_)
    | with_reducible refine ensures_ite (fun _ => ?_) (fun _ => ?_)
    | split
    | (simp only [clean_none, clean_some, clean_nil, clean_cons, clean_append, clean_pair, clean_text, clean_param, clean_case, clean_texts, clean_text_opt, and_true, true_and, and_self, implies_true, clean_number, clean_string, clean_boolean, clean_identifier, clean_array, clean_object, clean_spread, clean_undefined, clean_null, clean_program, clean_block, clean_binary, clean_unary, clean_assignment, clean_ternary, clean_if_stmt, clean_while_stmt, clean_do_while_stmt, clean_for_stmt, clean_call, clean_index, clean_member, clean_postfix_op, clean_function, clean_declaration, clean_switch_stmt, clean_label, clean_await_expr, clean_this, clean_debugger, clean_break_stmt, clean_continue_stmt, clean_throw_stmt, clean_try_stmt, clean_return_stmt, clean_import_stmt, clean_export_stmt, clean_empty]; done)
    | (simp_all only [clean_none, clean_some, clean_nil, clean_cons, clean_append, clean_pair, clean_text, clean_param, clean_case, clean_texts, clean_text_opt, and_true, true_and, and_self, implies_true, clean_number, clean_string, clean_boolean, clean_identifier, clean_array, clean_object, clean_spread, clean_undefined, clean_null, clean_program, clean_block, clean_binary, clean_unary, clean_assignment, clean_ternary, clean_if_stmt, clean_while_stmt, clean_do_while_stmt, clean_for_stmt, clean_call, clean_index, clean_member, clean_postfix_op, clean_function, clean_declaration, clean_switch_stmt, clean_label, clean_await_expr, clean_this, clean_debugger, clean_break_stmt, clean_continue_stmt, clean_throw_stmt, clean_try_stmt, clean_return_stmt, clean_import_stmt, clean_export_stmt, clean_empty]; done)
    | simp only [Bool.not_true, Bool.not_false, Bool.false_eq_true, if_false, if_true, eq_self_iff_true, ne_eq, not_true_eq_false, not_false_eq_true, Option.isNone_none, Option.isNone_some, and_true, true_and, and_false, false_and]

theorem parse_do_while_clean (fuel : Nat) (rec : parse_rec) (hrec : rec_clean rec) {p : parser_t} :
    (parse_do_while fuel rec).ensures (fun a _ => Clean.clean a) p := by
  unfold parse_do_while
  try simp only []
  repeat' first
    | with_reducible exact ensures_stop _ _ _
    | with_reducible refine ensures_bind ?_
    | with_reducible refine ensures_pure ?_
    | with_reducible refine parse_comma_clean fuel rec hrec
    | with_reducible refine parse_block_clean fuel rec hrec
    | with_reducible refine ensures_mono (parse_comma_clean fuel rec hrec) (fun _ _ _ => ?_)
    | with_reducible refine ensures_mono (parse_block_clean fuel rec hrec) (fun _ _ _ => ?_)
    | with_reducible refine clean_advance (fun _ _ => ?_)
    | with_reducible refine clean_current (fun _ _ => ?_)
    | with_reducible refine clean_previous (fun _ _ => ?_)
    | with_reducible refine clean_current_type (fun _ _ => ?_)
    | with_reducible refine clean_peek (fun _ _ => ?_)
    | with_reducible refine clean_check _ (fun _ _ => ?_)
    | with_reducible refine clean_match _ (fun _ _ => ?_)
    | with_reducible refine clean_match_any _ (fun _ _ => ?_)
    | with_reducible refine clean_report _ (fun _ _ => ?_)
    | with_reducible refine clean_PARSER_ERROR _ (fun _ _ => ?_)
    | with_reducible refine clean_ERROR _ (fun _ _ => ?_)
    | with_reducible refine ensures_ite (fun _ => ?_) (fun _ => ?_)
    | split
    | (simp only [clean_none, clean_some, clean_nil, clean_cons, clean_append, clean_pair, clean_text, clean_param, clean_case, clean_texts, clean_text_opt, and_true, true_and, and_self, implies_true, clean_number, clean_string, clean_boolean, clean_identifier, clean_array, clean_object, clean_spread, clean_undefined, clean_null, clean_program, clean_block, clean_binary, clean_unary, clean_assignment, clean_ternary, clean_if_stmt, clean_while_stmt, clean_do_while_stmt, clean_for_stmt, clean_call, clean_index, clean_member, clean_postfix_op, clean_function, clean_declaration, clean_switch_stmt, clean_label, clean_await_expr, clean_this, clean_debugger, clean_break_stmt, clean_continue_stmt, clean_throw_stmt, clean_try_stmt, clean_return_stmt, clean_import_stmt, clean_export_stmt, clean_empty]; done)
    | (simp_all only [clean_none, clean_some, clean_nil, clean_cons, clean_append, clean_pair, clean_text, clean_param, clean_case, clean_texts, clean_text_opt, and_true, true_and, and_self, implies_true, clean_number, clean_string, clean_boolean, clean_identifier, clean_array, clean_object, clean_spread, clean_undefined, clean_null, clean_program, clean_block, clean_binary, clean_unary, clean_assignment, clean_ternary, clean_if_stmt, clean_while_stmt, clean_do_while_stmt, clean_for_stmt, clean_call, clean_index, clean_member, clean_postfix_op, clean_function, clean_declaration, clean_switch_stmt, clean_label, clean_await_expr, clean_this, clean_debugger, clean_break_stmt, clean_continue_stmt, clean_throw_stmt, clean_try_stmt, clean_return_stmt, clean_import_stmt, clean_export_stmt, clean_empty]; done)
    | simp only [Bool.not_true, Bool.not_false, Bool.false_eq_true, if_false, if_true, eq_self_iff_true, ne_eq, not_true_eq_false, not_false_eq_true, Option.isNone_none, Option.isNone_some, and_true, true_and, and_false, false_and]

theorem parse_declarators_clean (fuel : Nat) (rec : parse_rec) (hrec : rec_clean rec) (n : Nat) :
    ∀ (names : List Node) (values : List (Option Node)) {p : parser_t}, Clean.clean names → Clean.clean values → 
      (parse_declarators fuel rec n names values).ensures (fun a _ => Clean.clean a) p := by
  induction n with
  | zero =>
    intro names values p h0 h1
    exact ensures_stop _ _ _
  | succ n ih =>
    intro names values p h0 h1
    rw [parse_declarators_succ]
    try simp only []
    repeat' first
      | with_reducible exact ensures_stop _ _ _
      | with_reducible refine ensures_bind ?_
      | with_reducible refine ensures_pure ?_
      | with_reducible refine ih _ _ ?_ ?_
      | with_reducible refine parse_identifier_clean
      | with_reducible refine parse_expression_clean fuel rec hrec
      | with_reducible refine ensures_mono (ih _ _ ?_ ?_) (fun _ _ _ => ?_)
      | with_reducible refine ensures_mono (parse_identifier_clean) (fun _ _ _ => ?_)
      | with_reducible refine ensures_mono (parse_expression_clean fuel rec hrec) (fun _ _ _ => ?_)
      | with_reducible refine clean_advance (fun _ _ => ?_)
      | with_reducible refine clean_current (fun _ _ => ?_)
      | with_reducible refine clean_previous (fun _ _ => ?_)
      | with_reducible refine clean_current_type (fun _ _ => ?_)
      | with_reducible refine clean_peek (fun _ _ => ?_)
      | with_reducible refine clean_check _ (fun _ _ => ?_)
      | with_reducible refine clean_match _ (fun _ _ => ?_)
      | with_reducible refine clean_match_any _ (fun _ _ => ?_)
      | with_reducible refine clean_report _ (fun _ _ => ?_)
      | with_reducible refine clean_PARSER_ERROR _ (fun _ _ => ?_)
      | with_reducible refine clean_ERROR _ (fun _ _ => ?_)
      | with_reducible refine ensures_ite (fun _ => ?_) (fun _ => ?_)
      | split
      | (simp only [clean_none, clean_some, clean_nil, clean_cons, clean_append, clean_pair, clean_text, clean_param, clean_case, clean_texts, clean_text_opt, and_true, true_and, and_self, implies_true, clean_number, clean_string, clean_boolean, clean_identifier, clean_array, clean_object, clean_spread, clean_undefined, clean_null, clean_program, clean_block, clean_binary, clean_unary, clean_assignment, clean_ternary, clean_if_stmt, clean_while_stmt, clean_do_while_stmt, clean_for_stmt, clean_call, clean_index, clean_member, clean_postfix_op, clean_function, clean_declaration, clean_switch_stmt, clean_label, clean_await_expr, clean_this, clean_debugger, clean_break_stmt, clean_continue_stmt, clean_throw_stmt, clean_try_stmt, clean_return_stmt, clean_import_stmt, clean_export_stmt, clean_empty]; done)
      | (simp_all only [clean_none, clean_some, clean_nil, clean_cons, clean_append, clean_pair, clean_text, clean_param, clean_case, clean_texts, clean_text_opt, and_true, true_and, and_self, implies_true, clean_number, clean_string, clean_boolean, clean_identifier, clean_array, clean_object, clean_spread, clean_undefined, clean_null, clean_program, clean_block, clean_binary, clean_unary, clean_assignment, clean_ternary, clean_if_stmt, clean_while_stmt, clean_do_while_stmt, clean_for_stmt, clean_call, clean_index, clean_member, clean_postfix_op, clean_function, clean_declaration, clean_switch_stmt, clean_label, clean_await_expr, clean_this, clean_debugger, clean_break_stmt, clean_continue_stmt, clean_throw_stmt, clean_try_stmt, clean_return_stmt, clean_import_stmt, clean_export_stmt, clean_empty]; done)
      | simp only [Bool.not_true, Bool.not_false, Bool.false_eq_true, if_false, if_true, eq_self_iff_true, ne_eq, not_true_eq_false, not_false_eq_true, Option.isNone_none, Option.isNone_some, and_true, true_and, and_false, false_and]

theorem parse_declaration_clean (fuel : Nat) (rec : parse_rec) (hrec : rec_clean rec) {p : parser_t} :
    (parse_declaration fuel rec).ensures (fun a _ => Clean.clean a) p := by
  unfold parse_declaration
  try simp only []
  repeat' first
    | with_reducible exact ensures_stop _ _ _
    | with_reducible refine ensures_bind ?_
    | with_reducible refine ensures_pure ?_
    | with_reducible refine parse_declarators_clean fuel rec hrec _ _ _ ?_ ?_
    | with_reducible refine ensures_mono (parse_declarators_clean fuel rec hrec _ _ _ ?_ ?_) (fun _ _ _ => ?_)
    | with_reducible refine clean_advance (fun _ _ => ?_)
    | with_reducible refine clean_current (fun _ _ => ?_)
    | with_reducible refine clean_previous (fun _ _ => ?_)
    | with_reducible refine clean_current_type (fun _ _ => ?_)
    | with_reducible refine clean_peek (fun _ _ => ?_)
    | with_reducible refine clean_check _ (fun _ _ => ?_)
    | with_reducible refine clean_match _ (fun _ _ => ?_)
    | with_reducible refine clean_match_any _ (fun _ _ => ?_)
    | with_reducible refine clean_report _ (fun _ _ => ?_)
    | with_reducible refine clean_PARSER_ERROR _ (fun _ _ => ?_)
    | with_reducible refine clean_ERROR _ (fun _ _ => ?_)
    | with_reducible refine ensures_ite (fun _ => ?_) (fun _ => ?_)
    | split
    | (simp only [clean_none, clean_some, clean_nil, clean_cons, clean_append, clean_pair, clean_text, clean_param, clean_case, clean_texts, clean_text_opt, and_true, true_and, and_self, implies_true, clean_number, clean_string, clean_boolean, clean_identifier, clean_array, clean_object, clean_spread, clean_undefined, clean_null, clean_program, clean_block, clean_binary, clean_unary, clean_assignment, clean_ternary, clean_if_stmt, clean_while_stmt, clean_do_while_stmt, clean_for_stmt, clean_call, clean_index, clean_member, clean_postfix_op, clean_function, clean_declaration, clean_switch_stmt, clean_label, clean_await_expr, clean_this, clean_debugger, clean_break_stmt, clean_continue_stmt, clean_throw_stmt, clean_try_stmt, clean_return_stmt, clean_import_stmt, clean_export_stmt, clean_empty]; done)
    | (simp_all only [clean_none, clean_some, clean_nil, clean_cons, clean_append, clean_pair, clean_text, clean_param, clean_case, clean_texts, clean_text_opt, and_true, true_and, and_self, implies_true, clean_number, clean_string, clean_boolean, clean_identifier, clean_array, clean_object, clean_spread, clean_undefined, clean_null, clean_program, clean_block, clean_binary, clean_unary, clean_assignment, clean_ternary, clean_if_stmt, clean_while_stmt, clean_do_while_stmt, clean_for_stmt, clean_call, clean_index, clean_member, clean_postfix_op, clean_function, clean_declaration, clean_switch_stmt, clean_label, clean_await_expr, clean_this, clean_debugger, clean_break_stmt, clean_continue_stmt, clean_throw_stmt, clean_try_stmt, clean_return_stmt, clean_import_stmt, clean_export_stmt, clean_empty]; done)
    | simp only [Bool.not_true, Bool.not_false, Bool.false_eq_true, if_false, if_true, eq_self_iff_true, ne_eq, not_true_eq_false, not_false_eq_true, Option.isNone_none, Option.isNone_some, and_true, true_and, and_false, false_and]

theorem parse_for_clean (fuel : Nat) (rec : parse_rec) (hrec : rec_clean rec) {p : parser_t} :
    (parse_for fuel rec).ensures (fun a _ => Clean.clean a) p := by
  unfold parse_for
  try simp only []
  repeat' first
    | with_reducible exact ensures_stop _ _ _
    | with_reducible refine ensures_bind ?_
    | with_reducible refine ensures_pure ?_
    | with_reducible refine parse_declaration_clean fuel rec hrec
    | with_reducible refine parse_comma_clean fuel rec hrec
    | with_reducible refine parse_block_clean fuel rec hrec
    | with_reducible refine ensures_mono (parse_declaration_clean fuel rec hrec) (fun _ _ _ => ?_)
    | with_reducible refine ensures_mono (parse_comma_clean fuel rec hrec) (fun _ _ _ => ?_)
    | with_reducible refine ensures_mono (parse_block_clean fuel rec hrec) (fun _ _ _ => ?_)
    | with_reducible refine clean_advance (fun _ _ => ?_)
    | with_reducible refine clean_current (fun _ _ => ?_)
    | with_reducible refine clean_previous (fun _ _ => ?_)
    | with_reducible refine clean_current_type (fun _ _ => ?_)
    | with_reducible refine clean_peek (fun _ _ => ?_)
    | with_reducible refine clean_check _ (fun _ _ => ?_)
    | with_reducible refine clean_match _ (fun _ _ => ?_)
    | with_reducible refine clean_match_any _ (fun _ _ => ?_)
    | with_reducible refine clean_report _ (fun _ _ => ?_)
    | with_reducible refine clean_PARSER_ERROR _ (fun _ _ => ?_)
    | with_reducible refine clean_ERROR _ (fun _ _ => ?_)
    | with_reducible refine ensures_ite (fun _ => ?_) (fun _ => ?_)
    | split
    | (simp only [clean_none, clean_some, clean_nil, clean_cons, clean_append, clean_pair, clean_text, clean_param, clean_case, clean_texts, clean_text_opt, and_true, true_and, and_self, implies_true, clean_number, clean_string, clean_boolean, clean_identifier, clean_array, clean_object, clean_spread, clean_undefined, clean_null, clean_program, clean_block, clean_binary, clean_unary, clean_assignment, clean_ternary, clean_if_stmt, clean_while_stmt, clean_do_while_stmt, clean_for_stmt, clean_call, clean_index, clean_member, clean_postfix_op, clean_function, clean_declaration, clean_switch_stmt, clean_label, clean_await_expr, clean_this, clean_debugger, clean_break_stmt, clean_continue_stmt, clean_throw_stmt, clean_try_stmt, clean_return_stmt, clean_import_stmt, clean_export_stmt, clean_empty]; done)
    | (simp_all only [clean_none, clean_some, clean_nil, clean_cons, clean_append, clean_pair, clean_text, clean_param, clean_case, clean_texts, clean_text_opt, and_true, true_and, and_self, implies_true, clean_number, clean_string, clean_boolean, clean_identifier, clean_array, clean_object, clean_spread, clean_undefined, clean_null, clean_program, clean_block, clean_binary, clean_unary, clean_assignment, clean_ternary, clean_if_stmt, clean_while_stmt, clean_do_while_stmt, clean_for_stmt, clean_call, clean_index, clean_member, clean_postfix_op, clean_function, clean_declaration, clean_switch_stmt, clean_label, clean_await_expr, clean_this, clean_debugger, clean_break_stmt, clean_continue_stmt, clean_throw_stmt, clean_try_stmt, clean_return_stmt, clean_import_stmt, clean_export_stmt, clean_empty]; done)
    | simp only [Bool.not_true, Bool.not_false, Bool.false_eq_true, if_false, if_true, eq_self_iff_true, ne_eq, not_true_eq_false, not_false_eq_true, Option.isNone_none, Option.isNone_some, and_true, true_and, and_false, false_and]

theorem parse_names_clean (message : String) (n : Nat) :
    ∀ (names : List String) {p : parser_t}, 
      (parse_names message n names).ensures (fun a _ => Clean.clean a) p := by
  induction n with
  | zero =>
    intro names p
    exact ensures_stop _ _ _
  | succ n ih =>
    intro names p
    unfold parse_names
    try simp only []
    repeat' first
      | with_reducible exact ensures_stop _ _ _
      | with_reducible refine ensures_bind ?_
      | with_reducible refine ensures_pure ?_
      | with_reducible refine ih _
      | with_reducible refine ensures_mono (ih _) (fun _ _ _ => ?_)
      | with_reducible refine clean_advance (fun _ _ => ?_)
      | with_reducible refine clean_current (fun _ _ => ?_)
      | with_reducible refine clean_previous (fun _ _ => ?_)
      | with_reducible refine clean_current_type (fun _ _ => ?_)
      | with_reducible refine clean_peek (fun _ _ => ?_)
      | with_reducible refine clean_check _ (fun _ _ => ?_)
      | with_reducible refine clean_match _ (fun _ _ => ?_)
      | with_reducible refine clean_match_any _ (fun _ _ => ?_)
      | with_reducible refine clean_report _ (fun _ _ => ?_)
      | with_reducible refine clean_PARSER_ERROR _ (fun _ _ => ?_)
      | with_reducible refine clean_ERROR _ (fun _ _ => ?_)
      | with_reducible refine ensures_ite (fun _ => ?_) (fun _ => ?_)
      | split
      | (simp only [clean_none, clean_some, clean_nil, clean_cons, clean_append, clean_pair, clean_text, clean_param, clean_case, clean_texts, clean_text_opt, and_true, true_and, and_self, implies_true, clean_number, clean_string, clean_boolean, clean_identifier, clean_array, clean_object, clean_spread, clean_undefined, clean_null, clean_program, clean_block, clean_binary, clean_unary, clean_assignment, clean_ternary, clean_if_stmt, clean_while_stmt, clean_do_while_stmt, clean_for_stmt, clean_call, clean_index, clean_member, clean_postfix_op, clean_function, clean_declaration, clean_switch_stmt, clean_label, clean_await_expr, clean_this, clean_debugger, clean_break_stmt, clean_continue_stmt, clean_throw_stmt, clean_try_stmt, clean_return_stmt, clean_import_stmt, clean_export_stmt, clean_empty]; done)
      | (simp_all only [clean_none, clean_some, clean_nil, clean_cons, clean_append, clean_pair, clean_text, clean_param, clean_case, clean_texts, clean_text_opt, and_true, true_and, and_self, implies_true, clean_number, clean_string, clean_boolean, clean_identifier, clean_array, clean_object, clean_spread, clean_undefined, clean_null, clean_program, clean_block, clean_binary, clean_unary, clean_assignment, clean_ternary, clean_if_stmt, clean_while_stmt, clean_do_while_stmt, clean_for_stmt, clean_call, clean_index, clean_member, clean_postfix_op, clean_function, clean_declaration, clean_switch_stmt, clean_label, clean_await_expr, clean_this, clean_debugger, clean_break_stmt, clean_continue_stmt, clean_throw_stmt, clean_try_stmt, clean_return_stmt, clean_import_stmt, clean_export_stmt, clean_empty]; done)
      | simp only [Bool.not_true, Bool.not_false, Bool.false_eq_true, if_false, if_true, eq_self_iff_true, ne_eq, not_true_eq_false, not_false_eq_true, Option.isNone_none, Option.isNone_some, and_true, true_and, and_false, false_and]

theorem parse_import_clean (fuel : Nat) {p : parser_t} :
    (parse_import fuel).ensures (fun a _ => Clean.clean a) p := by
  unfold parse_import
  try simp only []
  repeat' first
    | with_reducible exact ensures_stop _ _ _
    | with_reducible refine ensures_bind ?_
    | with_reducible refine ensures_pure ?_
    | with_reducible refine parse_names_clean _ _ _
    | with_reducible refine ensures_mono (parse_names_clean _ _ _) (fun _ _ _ => ?_)
    | with_reducible refine clean_advance (fun _ _ => ?_)
    | with_reducible refine clean_current (fun _ _ => ?_)
    | with_reducible refine clean_previous (fun _ _ => ?_)
    | with_reducible refine clean_current_type (fun _ _ => ?_)
    | with_reducible refine clean_peek (fun _ _ => ?_)
    | with_reducible refine clean_check _ (fun _ _ => ?_)
    | with_reducible refine clean_match _ (fun _ _ => ?_)
    | with_reducible refine clean_match_any _ (fun _ _ => ?_)
    | with_reducible refine clean_report _ (fun _ _ => ?_)
    | with_reducible refine clean_PARSER_ERROR _ (fun _ _ => ?_)
    | with_reducible refine clean_ERROR _ (fun _ _ => ?_)
    | with_reducible refine ensures_ite (fun _ => ?_) (fun _ => ?_)
    | split
    | (simp only [clean_none, clean_some, clean_nil, clean_cons, clean_append, clean_pair, clean_text, clean_param, clean_case, clean_texts, clean_text_opt, and_true, true_and, and_self, implies_true, clean_number, clean_string, clean_boolean, clean_identifier, clean_array, clean_object, clean_spread, clean_undefined, clean_null, clean_program, clean_block, clean_binary, clean_unary, clean_assignment, clean_ternary, clean_if_stmt, clean_while_stmt, clean_do_while_stmt, clean_for_stmt, clean_call, clean_index, clean_member, clean_postfix_op, clean_function, clean_declaration, clean_switch_stmt, clean_label, clean_await_expr, clean_this, clean_debugger, clean_break_stmt, clean_continue_stmt, clean_throw_stmt, clean_try_stmt, clean_return_stmt, clean_import_stmt, clean_export_stmt, clean_empty]; done)
    | (simp_all only [clean_none, clean_some, clean_nil, clean_cons, clean_append, clean_pair, clean_text, clean_param, clean_case, clean_texts, clean_text_opt, and_true, true_and, and_self, implies_true, clean_number, clean_string, clean_boolean, clean_identifier, clean_array, clean_object, clean_spread, clean_undefined, clean_null, clean_program, clean_block, clean_binary, clean_unary, clean_assignment, clean_ternary, clean_if_stmt, clean_while_stmt, clean_do_while_stmt, clean_for_stmt, clean_call, clean_index, clean_member, clean_postfix_op, clean_function, clean_declaration, clean_switch_stmt, clean_label, clean_await_expr, clean_this, clean_debugger, clean_break_stmt, clean_continue_stmt, clean_throw_stmt, clean_try_stmt, clean_return_stmt, clean_import_stmt, clean_export_stmt, clean_empty]; done)
    | simp only [Bool.not_true, Bool.not_false, Bool.false_eq_true, if_false, if_true, eq_self_iff_true, ne_eq, not_true_eq_false, not_false_eq_true, Option.isNone_none, Option.isNone_some, and_true, true_and, and_false, false_and]

theorem parse_export_clean (fuel : Nat) (rec : parse_rec) (hrec : rec_clean rec) {p : parser_t} :
    (parse_export fuel rec).ensures (fun a _ => Clean.clean a) p := by
  unfold parse_export
  try simp only []
  repeat' first
    | with_reducible exact ensures_stop _ _ _
    | with_reducible refine ensures_bind ?_
    | with_reducible refine ensures_pure ?_
    | with_reducible refine rec_clean_apply hrec _
    | with_reducible refine parse_names_clean _ _ _
    | with_reducible refine ensures_mono (rec_clean_apply hrec _) (fun _ _ _ => ?_)
    | with_reducible refine ensures_mono (parse_names_clean _ _ _) (fun _ _ _ => ?_)
    | with_reducible refine clean_advance (fun _ _ => ?_)
    | with_reducible refine clean_current (fun _ _ => ?_)
    | with_reducible refine clean_previous (fun _ _ => ?_)
    | with_reducible refine clean_current_type (fun _ _ => ?_)
    | with_reducible refine clean_peek (fun _ _ => ?_)
    | with_reducible refine clean_check _ (fun _ _ => ?_)
    | with_reducible refine clean_match _ (fun _ _ => ?_)
    | with_reducible refine clean_match_any _ (fun _ _ => ?_)
    | with_reducible refine clean_report _ (fun _ _ => ?_)
    | with_reducible refine clean_PARSER_ERROR _ (fun _ _ => ?_)
    | with_reducible refine clean_ERROR _ (fun _ _ => ?_)
    | with_reducible refine ensures_ite (fun _ => ?_) (fun _ => ?_)
    | split
    | (simp only [clean_none, clean_some, clean_nil, clean_cons, clean_append, clean_pair, clean_text, clean_param, clean_case, clean_texts, clean_text_opt, and_true, true_and, and_self, implies_true, clean_number, clean_string, clean_boolean, clean_identifier, clean_array, clean_object, clean_spread, clean_undefined, clean_null, clean_program, clean_block, clean_binary, clean_unary, clean_assignment, clean_ternary, clean_if_stmt, clean_while_stmt, clean_do_while_stmt, clean_for_stmt, clean_call, clean_index, clean_member, clean_postfix_op, clean_function, clean_declaration, clean_switch_stmt, clean_label, clean_await_expr, clean_this, clean_debugger, clean_break_stmt, clean_continue_stmt, clean_throw_stmt, clean_try_stmt, clean_return_stmt, clean_import_stmt, clean_export_stmt, clean_empty]; done)
    | (simp_all only [clean_none, clean_some, clean_nil, clean_cons, clean_append, clean_pair, clean_text, clean_param, clean_case, clean_texts, clean_text_opt, and_true, true_and, and_self, implies_true, clean_number, clean_string, clean_boolean, clean_identifier, clean_array, clean_object, clean_spread, clean_undefined, clean_null, clean_program, clean_block, clean_binary, clean_unary, clean_assignment, clean_ternary, clean_if_stmt, clean_while_stmt, clean_do_while_stmt, clean_for_stmt, clean_call, clean_index, clean_member, clean_postfix_op, clean_function, clean_declaration, clean_switch_stmt, clean_label, clean_await_expr, clean_this, clean_debugger, clean_break_stmt, clean_continue_stmt, clean_throw_stmt, clean_try_stmt, clean_return_stmt, clean_import_stmt, clean_export_stmt, clean_empty]; done)
    | simp only [Bool.not_true, Bool.not_false, Bool.false_eq_true, if_false, if_true, eq_self_iff_true, ne_eq, not_true_eq_false, not_false_eq_true, Option.isNone_none, Option.isNone_some, and_true, true_and, and_false, false_and]

theorem parse_return_clean (fuel : Nat) (rec : parse_rec) (hrec : rec_clean rec) {p : parser_t} :
    (parse_return fuel rec).ensures (fun a _ => Clean.clean a) p := by
  unfold parse_return
  try simp only []
  repeat' first
    | with_reducible exact ensures_stop _ _ _
    | with_reducible refine ensures_bind ?_
    | with_reducible refine ensures_pure ?_
    | with_reducible refine parse_comma_clean fuel rec hrec
    | with_reducible refine ensures_mono (parse_comma_clean fuel rec hrec) (fun _ _ _ => ?_)
    | with_reducible refine clean_advance (fun _ _ => ?_)
    | with_reducible refine clean_current (fun _ _ => ?_)
    | with_reducible refine clean_previous (fun _ _ => ?_)
    | with_reducible refine clean_current_type (fun _ _ => ?_)
    | with_reducible refine clean_peek (fun _ _ => ?_)
    | with_reducible refine clean_check _ (fun _ _ => ?_)
    | with_reducible refine clean_match _ (fun _ _ => ?_)
    | with_reducible refine clean_match_any _ (fun _ _ => ?_)
    | with_reducible refine clean_report _ (fun _ _ => ?_)
    | with_reducible refine clean_PARSER_ERROR _ (fun _ _ => ?_)
    | with_reducible refine clean_ERROR _ (fun _ _ => ?_)
    | with_reducible refine ensures_ite (fun _ => ?_) (fun _ => ?_)
    | split
    | (simp only [clean_none, clean_some, clean_nil, clean_cons, clean_append, clean_pair, clean_text, clean_param, clean_case, clean_texts, clean_text_opt, and_true, true_and, and_self, implies_true, clean_number, clean_string, clean_boolean, clean_identifier, clean_array, clean_object, clean_spread, clean_undefined, clean_null, clean_program, clean_block, clean_binary, clean_unary, clean_assignment, clean_ternary, clean_if_stmt, clean_while_stmt, clean_do_while_stmt, clean_for_stmt, clean_call, clean_index, clean_member, clean_postfix_op, clean_function, clean_declaration, clean_switch_stmt, clean_label, clean_await_expr, clean_this, clean_debugger, clean_break_stmt, clean_continue_stmt, clean_throw_stmt, clean_try_stmt, clean_return_stmt, clean_import_stmt, clean_export_stmt, clean_empty]; done)
    | (simp_all only [clean_none, clean_some, clean_nil, clean_cons, clean_append, clean_pair, clean_text, clean_param, clean_case, clean_texts, clean_text_opt, and_true, true_and, and_self, implies_true, clean_number, clean_string, clean_boolean, clean_identifier, clean_array, clean_object, clean_spread, clean_undefined, clean_null, clean_program, clean_block, clean_binary, clean_unary, clean_assignment, clean_ternary, clean_if_stmt, clean_while_stmt, clean_do_while_stmt, clean_for_stmt, clean_call, clean_index, clean_member, clean_postfix_op, clean_function, clean_declaration, clean_switch_stmt, clean_label, clean_await_expr, clean_this, clean_debugger, clean_break_stmt, clean_continue_stmt, clean_throw_stmt, clean_try_stmt, clean_return_stmt, clean_import_stmt, clean_export_stmt, clean_empty]; done)
    | simp only [Bool.not_true, Bool.not_false, Bool.false_eq_true, if_false, if_true, eq_self_iff_true, ne_eq, not_true_eq_false, not_false_eq_true, Option.isNone_none, Option.isNone_some, and_true, true_and, and_false, false_and]

theorem parse_break_clean {p : parser_t} :
    (parse_break).ensures (fun a _ => Clean.clean a) p := by
  unfold parse_break
  try simp only []
  repeat' first
    | with_reducible exact ensures_stop _ _ _
    | with_reducible refine ensures_bind ?_
    | with_reducible refine ensures_pure ?_
    | with_reducible refine clean_advance (fun _ _ => ?_)
    | with_reducible refine clean_current (fun _ _ => ?_)
    | with_reducible refine clean_previous (fun _ _ => ?_)
    | with_reducible refine clean_current_type (fun _ _ => ?_)
    | with_reducible refine clean_peek (fun _ _ => ?_)
    | with_reducible refine clean_check _ (fun _ _ => ?_)
    | with_reducible refine clean_match _ (fun _ _ => ?_)
    | with_reducible refine clean_match_any _ (fun _ _ => ?_)
    | with_reducible refine clean_report _ (fun _ _ => ?_)
    | with_reducible refine clean_PARSER_ERROR _ (fun _ _ => ?_)
    | with_reducible refine clean_ERROR _ (fun _ _ => ?_)
    | with_reducible refine ensures_ite (fun _ => ?_) (fun _ => ?_)
    | split
    | (simp only [clean_none, clean_some, clean_nil, clean_cons, clean_append, clean_pair, clean_text, clean_param, clean_case, clean_texts, clean_text_opt, and_true, true_and, and_self, implies_true, clean_number, clean_string, clean_boolean, clean_identifier, clean_array, clean_object, clean_spread, clean_undefined, clean_null, clean_program, clean_block, clean_binary, clean_unary, clean_assignment, clean_ternary, clean_if_stmt, clean_while_stmt, clean_do_while_stmt, clean_for_stmt, clean_call, clean_index, clean_member, clean_postfix_op, clean_function, clean_declaration, clean_switch_stmt, clean_label, clean_await_expr, clean_this, clean_debugger, clean_break_stmt, clean_continue_stmt, clean_throw_stmt, clean_try_stmt, clean_return_stmt, clean_import_stmt, clean_export_stmt, clean_empty]; done)
    | (simp_all only [clean_none, clean_some, clean_nil, clean_cons, clean_append, clean_pair, clean_text, clean_param, clean_case, clean_texts, clean_text_opt, and_true, true_and, and_self, implies_true, clean_number, clean_string, clean_boolean, clean_identifier, clean_array, clean_object, clean_spread, clean_undefined, clean_null, clean_program, clean_block, clean_binary, clean_unary, clean_assignment, clean_ternary, clean_if_stmt, clean_while_stmt, clean_do_while_stmt, clean_for_stmt, clean_call, clean_index, clean_member, clean_postfix_op, clean_function, clean_declaration, clean_switch_stmt, clean_label, clean_await_expr, clean_this, clean_debugger, clean_break_stmt, clean_continue_stmt, clean_throw_stmt, clean_try_stmt, clean_return_stmt, clean_import_stmt, clean_export_stmt, clean_empty]; done)
    | simp only [Bool.not_true, Bool.not_false, Bool.false_eq_true, if_false, if_true, eq_self_iff_true, ne_eq, not_true_eq_false, not_false_eq_true, Option.isNone_none, Option.isNone_some, and_true, true_and, and_false, false_and]

theorem parse_continue_clean {p : parser_t} :
    (parse_continue).ensures (fun a _ => Clean.clean a) p := by
  unfold parse_continue
  try simp only []
  repeat' first
    | with_reducible exact ensures_stop _ _ _
    | with_reducible refine ensures_bind ?_
    | with_reducible refine ensures_pure ?_
    | with_reducible refine clean_advance (fun _ _ => ?_)
    | with_reducible refine clean_current (fun _ _ => ?_)
    | with_reducible refine clean_previous (fun _ _ => ?_)
    | with_reducible refine clean_current_type (fun _ _ => ?_)
    | with_reducible refine clean_peek (fun _ _ => ?_)
    | with_reducible refine clean_check _ (fun _ _ => ?_)
    | with_reducible refine clean_match _ (fun _ _ => ?_)
    | with_reducible refine clean_match_any _ (fun _ _ => ?_)
    | with_reducible refine clean_report _ (fun _ _ => ?_)
    | with_reducible refine clean_PARSER_ERROR _ (fun _ _ => ?_)
    | with_reducible refine clean_ERROR _ (fun _ _ => ?_)
    | with_reducible refine ensures_ite (fun _ => ?_) (fun _ => ?_)
    | split
    | (simp only [clean_none, clean_some, clean_nil, clean_cons, clean_append, clean_pair, clean_text, clean_param, clean_case, clean_texts, clean_text_opt, and_true, true_and, and_self, implies_true, clean_number, clean_string, clean_boolean, clean_identifier, clean_array, clean_object, clean_spread, clean_undefined, clean_null, clean_program, clean_block, clean_binary, clean_unary, clean_assignment, clean_ternary, clean_if_stmt, clean_while_stmt, clean_do_while_stmt, clean_for_stmt, clean_call, clean_index, clean_member, clean_postfix_op, clean_function, clean_declaration, clean_switch_stmt, clean_label, clean_await_expr, clean_this, clean_debugger, clean_break_stmt, clean_continue_stmt, clean_throw_stmt, clean_try_stmt, clean_return_stmt, clean_import_stmt, clean_export_stmt, clean_empty]; done)
    | (simp_all only [clean_none, clean_some, clean_nil, clean_cons, clean_append, clean_pair, clean_text, clean_param, clean_case, clean_texts, clean_text_opt, and_true, true_and, and_self, implies_true, clean_number, clean_string, clean_boolean, clean_identifier, clean_array, clean_object, clean_spread, clean_undefined, clean_null, clean_program, clean_block, clean_binary, clean_unary, clean_assignment, clean_ternary, clean_if_stmt, clean_while_stmt, clean_do_while_stmt, clean_for_stmt, clean_call, clean_index, clean_member, clean_postfix_op, clean_function, clean_declaration, clean_switch_stmt, clean_label, clean_await_expr, clean_this, clean_debugger, clean_break_stmt, clean_continue_stmt, clean_throw_stmt, clean_try_stmt, clean_return_stmt, clean_import_stmt, clean_export_stmt, clean_empty]; done)
    | simp only [Bool.not_true, Bool.not_false, Bool.false_eq_true, if_false, if_true, eq_self_iff_true, ne_eq, not_true_eq_false, not_false_eq_true, Option.isNone_none, Option.isNone_some, and_true, true_and, and_false, false_and]

theorem parse_throw_clean (fuel : Nat) (rec : parse_rec) (hrec : rec_clean rec) {p : parser_t} :
    (parse_throw fuel rec).ensures (fun a _ => Clean.clean a) p := by
  unfold parse_throw
  try simp only []
  repeat' first
    | with_reducible exact ensures_stop _ _ _
    | with_reducible refine ensures_bind ?_
    | with_reducible refine ensures_pure ?_
    | with_reducible refine parse_comma_clean fuel rec hrec
    | with_reducible refine ensures_mono (parse_comma_clean fuel rec hrec) (fun _ _ _ => ?_)
    | with_reducible refine clean_advance (fun _ _ => ?_)
    | with_reducible refine clean_current (fun _ _ => ?_)
    | with_reducible refine clean_previous (fun _ _ => ?_)
    | with_reducible refine clean_current_type (fun _ _ => ?_)
    | with_reducible refine clean_peek (fun _ _ => ?_)
    | with_reducible refine clean_check _ (fun _ _ => ?_)
    | with_reducible refine clean_match _ (fun _ _ => ?_)
    | with_reducible refine clean_match_any _ (fun _ _ => ?_)
    | with_reducible refine clean_report _ (fun _ _ => ?_)
    | with_reducible refine clean_PARSER_ERROR _ (fun _ _ => ?_)
    | with_reducible refine clean_ERROR _ (fun _ _ => ?_)
    | with_reducible refine ensures_ite (fun _ => ?_) (fun _ => ?_)
    | split
    | (simp only [clean_none, clean_some, clean_nil, clean_cons, clean_append, clean_pair, clean_text, clean_param, clean_case, clean_texts, clean_text_opt, and_true, true_and, and_self, implies_true, clean_number, clean_string, clean_boolean, clean_identifier, clean_array, clean_object, clean_spread, clean_undefined, clean_null, clean_program, clean_block, clean_binary, clean_unary, clean_assignment, clean_ternary, clean_if_stmt, clean_while_stmt, clean_do_while_stmt, clean_for_stmt, clean_call, clean_index, clean_member, clean_postfix_op, clean_function, clean_declaration, clean_switch_stmt, clean_label, clean_await_expr, clean_this, clean_debugger, clean_break_stmt, clean_continue_stmt, clean_throw_stmt, clean_try_stmt, clean_return_stmt, clean_import_stmt, clean_export_stmt, clean_empty]; done)
    | (simp_all only [clean_none, clean_some, clean_nil, clean_cons, clean_append, clean_pair, clean_text, clean_param, clean_case, clean_texts, clean_text_opt, and_true, true_and, and_self, implies_true, clean_number, clean_string, clean_boolean, clean_identifier, clean_array, clean_object, clean_spread, clean_undefined, clean_null, clean_program, clean_block, clean_binary, clean_unary, clean_assignment, clean_ternary, clean_if_stmt, clean_while_stmt, clean_do_while_stmt, clean_for_stmt, clean_call, clean_index, clean_member, clean_postfix_op, clean_function, clean_declaration, clean_switch_stmt, clean_label, clean_await_expr, clean_this, clean_debugger, clean_break_stmt, clean_continue_stmt, clean_throw_stmt, clean_try_stmt, clean_return_stmt, clean_import_stmt, clean_export_stmt, clean_empty]; done)
    | simp only [Bool.not_true, Bool.not_false, Bool.false_eq_true, if_false, if_true, eq_self_iff_true, ne_eq, not_true_eq_false, not_false_eq_true, Option.isNone_none, Option.isNone_some, and_true, true_and, and_false, false_and]

theorem parse_try_clean (fuel : Nat) (rec : parse_rec) (hrec : rec_clean rec) {p : parser_t} :
    (parse_try fuel rec).ensures (fun a _ => Clean.clean a) p := by
  unfold parse_try
  try simp only []
  repeat' first
    | with_reducible exact ensures_stop _ _ _
    | with_reducible refine ensures_bind ?_
    | with_reducible refine ensures_pure ?_
    | with_reducible refine parse_block_clean fuel rec hrec
    | with_reducible refine ensures_mono (parse_block_clean fuel rec hrec) (fun _ _ _ => ?_)
    | with_reducible refine clean_advance (fun _ _ => ?_)
    | with_reducible refine clean_current (fun _ _ => ?_)
    | with_reducible refine clean_previous (fun _ _ => ?_)
    | with_reducible refine clean_current_type (fun _ _ => ?_)
    | with_reducible refine clean_peek (fun _ _ => ?_)
    | with_reducible refine clean_check _ (fun _ _ => ?_)
    | with_reducible refine clean_match _ (fun _ _ => ?_)
    | with_reducible refine clean_match_any _ (fun _ _ => ?_)
    | with_reducible refine clean_report _ (fun _ _ => ?_)
    | with_reducible refine clean_PARSER_ERROR _ (fun _ _ => ?_)
    | with_reducible refine clean_ERROR _ (fun _ _ => ?_)
    | with_reducible refine ensures_ite (fun _ => ?_) (fun _ => ?_)
    | split
    | (simp only [clean_none, clean_some, clean_nil, clean_cons, clean_append, clean_pair, clean_text, clean_param, clean_case, clean_texts, clean_text_opt, and_true, true_and, and_self, implies_true, clean_number, clean_string, clean_boolean, clean_identifier, clean_array, clean_object, clean_spread, clean_undefined, clean_null, clean_program, clean_block, clean_binary, clean_unary, clean_assignment, clean_ternary, clean_if_stmt, clean_while_stmt, clean_do_while_stmt, clean_for_stmt, clean_call, clean_index, clean_member, clean_postfix_op, clean_function, clean_declaration, clean_switch_stmt, clean_label, clean_await_expr, clean_this, clean_debugger, clean_break_stmt, clean_continue_stmt, clean_throw_stmt, clean_try_stmt, clean_return_stmt, clean_import_stmt, clean_export_stmt, clean_empty]; done)
    | (simp_all only [clean_none, clean_some, clean_nil, clean_cons, clean_append, clean_pair, clean_text, clean_param, clean_case, clean_texts, clean_text_opt, and_true, true_and, and_self, implies_true, clean_number, clean_string, clean_boolean, clean_identifier, clean_array, clean_object, clean_spread, clean_undefined, clean_null, clean_program, clean_block, clean_binary, clean_unary, clean_assignment, clean_ternary, clean_if_stmt, clean_while_stmt, clean_do_while_stmt, clean_for_stmt, clean_call, clean_index, clean_member, clean_postfix_op, clean_function, clean_declaration, clean_switch_stmt, clean_label, clean_await_expr, clean_this, clean_debugger, clean_break_stmt, clean_continue_stmt, clean_throw_stmt, clean_try_stmt, clean_return_stmt, clean_import_stmt, clean_export_stmt, clean_empty]; done)
    | simp only [Bool.not_true, Bool.not_false, Bool.false_eq_true, if_false, if_true, eq_self_iff_true, ne_eq, not_true_eq_false, not_false_eq_true, Option.isNone_none, Option.isNone_some, and_true, true_and, and_false, false_and]

theorem parse_statement_clean (fuel : Nat) (rec : parse_rec) (hrec : rec_clean rec) {p : parser_t} :
    (parse_statement fuel rec).ensures (fun a _ => Clean.clean a) p := by
  unfold parse_statement
  try simp only []
  repeat' first
    | with_reducible exact ensures_stop _ _ _
    | with_reducible refine ensures_bind ?_
    | with_reducible refine ensures_pure ?_
    | with_reducible refine parse_label_clean rec hrec
    | with_reducible refine parse_block_clean fuel rec hrec
    | with_reducible refine parse_while_clean fuel rec hrec
    | with_reducible refine parse_do_while_clean fuel rec hrec
    | with_reducible refine parse_for_clean fuel rec hrec
    | with_reducible refine parse_switch_clean fuel rec hrec
    | with_reducible refine parse_if_clean fuel rec hrec
    | with_reducible refine parse_function_clean fuel rec hrec
    | with_reducible refine parse_declaration_clean fuel rec hrec
    | with_reducible refine parse_import_clean fuel
    | with_reducible refine parse_export_clean fuel rec hrec
    | with_reducible refine parse_try_clean fuel rec hrec
    | with_reducible refine parse_return_clean fuel rec hrec
    | with_reducible refine parse_break_clean
    | with_reducible refine parse_continue_clean
    | with_reducible refine parse_throw_clean fuel rec hrec
    | with_reducible refine parse_comma_clean fuel rec hrec
    | with_reducible refine ensures_mono (parse_label_clean rec hrec) (fun _ _ _ => ?_)
    | with_reducible refine ensures_mono (parse_block_clean fuel rec hrec) (fun _ _ _ => ?_)
    | with_reducible refine ensures_mono (parse_while_clean fuel rec hrec) (fun _ _ _ => ?_)
    | with_reducible refine ensures_mono (parse_do_while_clean fuel rec hrec) (fun _ _ _ => ?_)
    | with_reducible refine ensures_mono (parse_for_clean fuel rec hrec) (fun _ _ _ => ?_)
    | with_reducible refine ensures_mono (parse_switch_clean fuel rec hrec) (fun _ _ _ => ?_)
    | with_reducible refine ensures_mono (parse_if_clean fuel rec hrec) (fun _ _ _ => ?_)
    | with_reducible refine ensures_mono (parse_function_clean fuel rec hrec) (fun _ _ _ => ?_)
    | with_reducible refine ensures_mono (parse_declaration_clean fuel rec hrec) (fun _ _ _ => ?_)
    | with_reducible refine ensures_mono (parse_import_clean fuel) (fun _ _ _ => ?_)
    | with_reducible refine ensures_mono (parse_export_clean fuel rec hrec) (fun _ _ _ => ?_)
    | with_reducible refine ensures_mono (parse_try_clean fuel rec hrec) (fun _ _ _ => ?_)
    | with_reducible refine ensures_mono (parse_return_clean fuel rec hrec) (fun _ _ _ => ?_)
    | with_reducible refine ensures_mono (parse_break_clean) (fun _ _ _ => ?_)
    | with_reducible refine ensures_mono (parse_continue_clean) (fun _ _ _ => ?_)
    | with_reducible refine ensures_mono (parse_throw_clean fuel rec hrec) (fun _ _ _ => ?_)
    | with_reducible refine ensures_mono (parse_comma_clean fuel rec hrec) (fun _ _ _ => ?_)
    | with_reducible refine clean_advance (fun _ _ => ?_)
    | with_reducible refine clean_current (fun _ _ => ?_)
    | with_reducible refine clean_previous (fun _ _ => ?_)
    | with_reducible refine clean_current_type (fun _ _ => ?_)
    | with_reducible refine clean_peek (fun _ _ => ?_)
    | with_reducible refine clean_check _ (fun _ _ => ?_)
    | with_reducible refine clean_match _ (fun _ _ => ?_)
    | with_reducible refine clean_match_any _ (fun _ _ => ?_)
    | with_reducible refine clean_report _ (fun _ _ => ?_)
    | with_reducible refine clean_PARSER_ERROR _ (fun _ _ => ?_)
    | with_reducible refine clean_ERROR _ (fun _ _ => ?_)
    | with_reducible refine ensures_ite (fun _ => ?_) (fun _ => ?_)
    | split
    | (simp only [clean_none, clean_some, clean_nil, clean_cons, clean_append, clean_pair, clean_text, clean_param, clean_case, clean_texts, clean_text_opt, and_true, true_and, and_self, implies_true, clean_number, clean_string, clean_boolean, clean_identifier, clean_array, clean_object, clean_spread, clean_undefined, clean_null, clean_program, clean_block, clean_binary, clean_unary, clean_assignment, clean_ternary, clean_if_stmt, clean_while_stmt, clean_do_while_stmt, clean_for_stmt, clean_call, clean_index, clean_member, clean_postfix_op, clean_function, clean_declaration, clean_switch_stmt, clean_label, clean_await_expr, clean_this, clean_debugger, clean_break_stmt, clean_continue_stmt, clean_throw_stmt, clean_try_stmt, clean_return_stmt, clean_import_stmt, clean_export_stmt, clean_empty]; done)
    | (simp_all only [clean_none, clean_some, clean_nil, clean_cons, clean_append, clean_pair, clean_text, clean_param, clean_case, clean_texts, clean_text_opt, and_true, true_and, and_self, implies_true, clean_number, clean_string, clean_boolean, clean_identifier, clean_array, clean_object, clean_spread, clean_undefined, clean_null, clean_program, clean_block, clean_binary, clean_unary, clean_assignment, clean_ternary, clean_if_stmt, clean_while_stmt, clean_do_while_stmt, clean_for_stmt, clean_call, clean_index, clean_member, clean_postfix_op, clean_function, clean_declaration, clean_switch_stmt, clean_label, clean_await_expr, clean_this, clean_debugger, clean_break_stmt, clean_continue_stmt, clean_throw_stmt, clean_try_stmt, clean_return_stmt, clean_import_stmt, clean_export_stmt, clean_empty]; done)
    | simp only [Bool.not_true, Bool.not_false, Bool.false_eq_true, if_false, if_true, eq_self_iff_true, ne_eq, not_true_eq_false, not_false_eq_true, Option.isNone_none, Option.isNone_some, and_true, true_and, and_false, false_and]

theorem parse_fn_clean : ∀ fuel : Nat, rec_clean (parse_fn fuel) := by
  intro fuel
  induction fuel with
  | zero =>
    intro c p
    cases c <;> exact ensures_stop _ _ _
  | succ fuel ih =>
    intro c p
    cases c
    · exact parse_statement_clean fuel _ ih
    · exact parse_block_clean fuel _ ih
    · exact parse_if_clean fuel _ ih
    · exact parse_comma_clean fuel _ ih
    · exact parse_expression_clean fuel _ ih
    · exact parse_assignment_clean fuel _ ih
    · exact parse_exponent_clean fuel _ ih
    · exact parse_unary_clean fuel _ ih

theorem parse_program_loop_clean (fuel : Nat) (n : Nat) :
    ∀ (statements : List Node) {p : parser_t}, Clean.clean statements → 
      (parse_program_loop fuel n statements).ensures (fun a _ => Clean.clean a) p := by
  induction n with
  | zero =>
    intro statements p h0
    exact ensures_stop _ _ _
  | succ n ih =>
    intro statements p h0
    rw [parse_program_loop_succ]
    try simp only []
    repeat' first
      | with_reducible exact ensures_stop _ _ _
      | with_reducible refine ensures_bind ?_
      | with_reducible refine ensures_pure ?_
      | with_reducible refine ih _ ?_
      | with_reducible refine parse_statement_clean fuel _ (parse_fn_clean fuel)
      | with_reducible refine ensures_mono (ih _ ?_) (fun _ _ _ => ?_)
      | with_reducible refine ensures_mono (parse_statement_clean fuel _ (parse_fn_clean fuel)) (fun _ _ _ => ?_)
      | with_reducible refine clean_advance (fun _ _ => ?_)
      | with_reducible refine clean_current (fun _ _ => ?_)
      | with_reducible refine clean_previous (fun _ _ => ?_)
      | with_reducible refine clean_current_type (fun _ _ => ?_)
      | with_reducible refine clean_peek (fun _ _ => ?_)
      | with_reducible refine clean_check _ (fun _ _ => ?_)
      | with_reducible refine clean_match _ (fun _ _ => ?_)
      | with_reducible refine clean_match_any _ (fun _ _ => ?_)
      | with_reducible refine clean_report _ (fun _ _ => ?_)
      | with_reducible refine clean_PARSER_ERROR _ (fun _ _ => ?_)
      | with_reducible refine clean_ERROR _ (fun _ _ => ?_)
      | with_reducible refine ensures_ite (fun _ => ?_) (fun _ => ?_)
      | split
      | (simp only [clean_none, clean_some, clean_nil, clean_cons, clean_append, clean_pair, clean_text, clean_param, clean_case, clean_texts, clean_text_opt, and_true, true_and, and_self, implies_true, clean_number, clean_string, clean_boolean, clean_identifier, clean_array, clean_object, clean_spread, clean_undefined, clean_null, clean_program, clean_block, clean_binary, clean_unary, clean_assignment, clean_ternary, clean_if_stmt, clean_while_stmt, clean_do_while_stmt, clean_for_stmt, clean_call, clean_index, clean_member, clean_postfix_op, clean_function, clean_declaration, clean_switch_stmt, clean_label, clean_await_expr, clean_this, clean_debugger, clean_break_stmt, clean_continue_stmt, clean_throw_stmt, clean_try_stmt, clean_return_stmt, clean_import_stmt, clean_export_stmt, clean_empty]; done)
      | (simp_all only [clean_none, clean_some, clean_nil, clean_cons, clean_append, clean_pair, clean_text, clean_param, clean_case, clean_texts, clean_text_opt, and_true, true_and, and_self, implies_true, clean_number, clean_string, clean_boolean, clean_identifier, clean_array, clean_object, clean_spread, clean_undefined, clean_null, clean_program, clean_block, clean_binary, clean_unary, clean_assignment, clean_ternary, clean_if_stmt, clean_while_stmt, clean_do_while_stmt, clean_for_stmt, clean_call, clean_index, clean_member, clean_postfix_op, clean_function, clean_declaration, clean_switch_stmt, clean_label, clean_await_expr, clean_this, clean_debugger, clean_break_stmt, clean_continue_stmt, clean_throw_stmt, clean_try_stmt, clean_return_stmt, clean_import_stmt, clean_export_stmt, clean_empty]; done)
      | simp only [Bool.not_true, Bool.not_false, Bool.false_eq_true, if_false, if_true, eq_self_iff_true, ne_eq, not_true_eq_false, not_false_eq_true, Option.isNone_none, Option.isNone_some, and_true, true_and, and_false, false_and]

/-- No tree that `parse_program` returns has a `New` node. -/
theorem parse_program_clean (fuel : Nat) {p : parser_t} :
    (parse_program fuel).ensures (fun a _ => Clean.clean a) p :=
  parse_program_loop_clean fuel fuel [] (clean_nil.mpr trivial)


/-! ## Tree teardown of the trees of the parser -/

/-- The tree that `parse_program` returns has no `New` node. -/
theorem parse_program_no_new (fuel : Nat) (p : parser_t) (root : Node)
    (h : (parse_program fuel p).map Prod.fst = .ok (some root)) : root.no_new = true := by
  rcases hrun : parse_program fuel p with e | ⟨a, p'⟩
  · rw [hrun] at h
    exact nomatch h
  · rw [hrun] at h
    have ha : a = some root := Except.ok.inj h
    subst ha
    exact (parse_program_clean fuel (some root) p' hrun) root rfl

/-- C35: on every tree that `parse_program` returns, from any state of the
parser, `node_free` calls `free` on a permutation of the nodes of the tree:
every node of the tree, the children of every variant among them, is released,
as many times as it is in the tree, so the number of nodes released is the
number of nodes of the tree. -/
theorem C35_node_free_releases_every_node_once (fuel : Nat) (p : parser_t) (root : Node)
    (h : (parse_program fuel p).map Prod.fst = .ok (some root)) :
    (node_free root).Perm root.nodes ∧ (node_free root).length = root.nodes.length :=
  ⟨node_free_perm root (parse_program_no_new fuel p root h),
    (node_free_perm root (parse_program_no_new fuel p root h)).length_eq⟩

/-- C35 on the tree of `let x = 2; let y = 3; x ** y;`, which has eight
nodes. -/
theorem C35_node_free_releases_every_node_once_witness :
    (parse_program 10 (parser_init end_to_end_tokens)).map Prod.fst =
      .ok (some (.program [
        .declaration ⟨"let", 3, TOKEN_LET, ⟨"a.rose", 1, 1⟩⟩ [.identifier "x"]
          [some (.number (.strtold "2"))],
        .declaration ⟨"let", 3, TOKEN_LET, ⟨"a.rose", 1, 12⟩⟩ [.identifier "y"]
          [some (.number (.strtold "3"))],
        .binary ⟨"**", 2, TOKEN_STAR_STAR, ⟨"a.rose", 1, 25⟩⟩ (.identifier "x")
          (.identifier "y")])) ∧
    (node_free (.program [
        .declaration ⟨"let", 3, TOKEN_LET, ⟨"a.rose", 1, 1⟩⟩ [.identifier "x"]
          [some (.number (.strtold "2"))],
        .declaration ⟨"let", 3, TOKEN_LET, ⟨"a.rose", 1, 12⟩⟩ [.identifier "y"]
          [some (.number (.strtold "3"))],
        .binary ⟨"**", 2, TOKEN_STAR_STAR, ⟨"a.rose", 1, 25⟩⟩ (.identifier "x")
          (.identifier "y")])).length = 10 :=
  ⟨by decide!, (C35_node_free_releases_every_node_once 10 (parser_init end_to_end_tokens) _
    (by decide!)).2.trans (by decide!)⟩

end Rose
